import Mathlib

/-!
# MiniPy to C compiler: lexer, parser, type checker, emitter and driver

A shallow embedding of `src/lexer.h`, `src/parser.h`, `src/ASTNodes.h` and the code
generator of `src/main.cpp`, followed by theorems about the token lists of the lexer,
the typing rules of the parser and the text the driver assembles.

Conventions of the embedding

* A C++ function that reads and writes the members of `Parser` becomes a Lean
  function from a `Parser` record to `Res (value × Parser)`.
* `throw runtime_error(msg)` becomes `Fault.thrown msg`.  Every message of the
  parser ends in `to_string(tokens[pos].line)`, so building it reads the token
  under the cursor.
* Reading `tokens[i]` or `args[i]` outside the vector, and `back()` of an empty
  vector, is undefined behaviour in C++; the embedding stops with
  `Fault.out_of_range`.
* The source text is a list of characters; the tests `isalpha`, `isdigit`, `isalnum`
  and `isspace` are those of the C locale.
* Recursion and `while` loops take a fuel argument; `Fault.out_of_fuel` is
  returned when it is used up (a loop that never ends uses up any fuel).
* A local `CollectionType x;` without initialiser holds indeterminate values.
  They are taken from `Env.uninit`, indexed by the source line of the
  declaration, so that theorems hold for every content.
* `rand()` is the sequence `Env.rand`; the record counts the calls made.
-/

namespace MiniPy

/-! ## Data model (parser.h 13-52) -/

/-- Token kinds, `enum class TokenType` (parser.h 15-29). -/
inductive TokenType where
  | DEF | RETURN | PRINT | CALL_METHOD
  | INT | FLOAT | STRING | BOOL | LIST | TUPLE | DICT
  | AND | OR | NOT | TRUE | FALSE
  | IF | ELIF | ELSE | FOR | WHILE | IN | RANGE | MATCH | CASE
  | IDENTIFIER | NUMBER | FLOATING | STRING_LITERAL
  | FSTRING_START | FSTRING_END | FSTRING_EXPR_START | FSTRING_EXPR_END
  | FSTRING_FORMAT_SPEC | ALIGNMENT
  | COLON | COMMA | SEP | DOT | LEN
  | EQUALS | EQ | NOTEQ | GREATER | LESSER | GREATEREQ | LESSEREQ
  | PLUS | MINUS | MULT | DIV
  | LPAREN | RPAREN | LBRACKET | RBRACKET | LBRACE | RBRACE
  | INDENT | DEDENT
  | NEWLINE | EOF_TOKEN
  deriving DecidableEq, Repr

/-- A token, `struct Token` (parser.h 32-37). -/
structure Token where
  type : TokenType
  value : String
  line : Int
  deriving DecidableEq, Repr

/-- Variable types, `enum class VarType` (parser.h 40-43). -/
inductive VarType where
  | INT | FLOAT | STRING | BOOL | LIST | TUPLE | DICT | NONE
  deriving DecidableEq, Repr

/-- The record `struct CollectionType` (parser.h 46-52). -/
structure CollectionType where
  base_type : VarType
  element_type : VarType
  key_type : VarType
  value_type : VarType
  deriving DecidableEq, Repr

/-- Ways in which a run of the translated code stops without a value. -/
inductive Fault where
  | thrown (msg : String)
  | out_of_range
  | out_of_fuel
  deriving DecidableEq, Repr

/-- Result of a translated function. -/
abbrev Res (α : Type) := Except Fault α

/-- What the C++ code leaves to its environment. -/
structure Env where
  /-- Content of a default-initialised `CollectionType` declared at a source line. -/
  uninit : Nat → CollectionType
  /-- Content of the uninitialised member `FormatSpec::type` (parser.h 71, 479). -/
  uninit_char : Char
  /-- The values returned by successive calls of `rand()`. -/
  rand : Nat → Nat

/-- The members of `class Parser` (parser.h 58-64), and the number of `rand()` calls. -/
structure Parser where
  tokens : List Token
  pos : Nat
  /-- The member `variables` (the bare word is reserved in Lean). -/
  variables_ : List (String × CollectionType)
  functions : List (String × (List CollectionType × CollectionType))
  string_temp_counter : Nat
  expr_type : CollectionType
  helper_includes : List String
  rand_calls : Nat
  deriving DecidableEq, Repr

/-! ## Containers of the standard library -/

/-- The call `std::map::find`, on an association list with one entry per key. -/
def map_find {β : Type} (m : List (String × β)) (k : String) : Option β :=
  match m with
  | [] => none
  | (k', v) :: rest => if k' = k then some v else map_find rest k

/-- The assignment `m[k] = v` of `std::map`: overwrite the entry or add one. -/
def map_set {β : Type} (m : List (String × β)) (k : String) (v : β) : List (String × β) :=
  match m with
  | [] => [(k, v)]
  | (k', v') :: rest => if k' = k then (k, v) :: rest else (k', v') :: map_set rest k v

/-- The call `std::set<string>::insert`: the list stays sorted and free of duplicates. -/
def set_insert (s : List String) (x : String) : List String :=
  match s with
  | [] => [x]
  | y :: rest => if x = y then y :: rest else if x < y then x :: y :: rest else y :: set_insert rest x

/-- Whether `pat` occurs in `s`, i.e. `s.find(pat) != string::npos`. -/
def contains_sub (pat : List Char) : List Char → Bool
  | [] => pat.isEmpty
  | c :: cs => pat.isPrefixOf (c :: cs) || contains_sub pat cs

/-- The text after the last blank, `s.substr(s.find_last_of(' ') + 1)`; the whole
text when there is no blank (`npos + 1` is 0). -/
def after_last_space (s : String) : String :=
  String.mk ((s.toList.reverse.takeWhile (fun c => c != ' ')).reverse)

/-- The text `a0, a1, ..., an` built by the loops of parser.h 301-307 and ASTNodes.h 255-261. -/
def join_args : List String → String
  | [] => ""
  | [a] => a
  | a :: b :: rest => a ++ ", " ++ join_args (b :: rest)

/-! ## Parser: helpers (parser.h 75-211) -/

/-- The constructor `Parser::Parser` (parser.h 75-78); `expr_type` has no initialiser. -/
def Parser.init (env : Env) (t : List Token) : Parser :=
  { tokens := t, pos := 0, variables_ := [], functions := [], string_temp_counter := 0,
    expr_type := env.uninit 63, helper_includes := set_insert [] "common.h", rand_calls := 0 }

/-- The static function `Parser::vartype_to_c` (parser.h 97-118). -/
def vartype_to_c : VarType → String
  | .INT => "int"
  | .FLOAT => "float"
  | .STRING => "string"
  | .BOOL => "bool"
  | .LIST => "list"
  | .TUPLE => "tuple"
  | .DICT => "dict"
  | .NONE => "void"

/-- The read `tokens[pos]`. -/
def peek (p : Parser) : Res Token :=
  match p.tokens[p.pos]? with
  | some t => .ok t
  | none => .error .out_of_range

/-- The read `tokens[pos + 1]`. -/
def peek1 (p : Parser) : Res Token :=
  match p.tokens[p.pos + 1]? with
  | some t => .ok t
  | none => .error .out_of_range

/-- The statement `throw runtime_error(msg + to_string(tokens[pos].line))`. -/
def throw_at {α : Type} (msg : String) (p : Parser) : Res α :=
  match p.tokens[p.pos]? with
  | some t => .error (.thrown (msg ++ toString t.line))
  | none => .error .out_of_range

/-- The record with one more header in `helper_includes`. -/
def add_include (p : Parser) (h : String) : Parser :=
  { p with helper_includes := set_insert p.helper_includes h }

/-- The function `Parser::token_to_vartype` (parser.h 126-141). -/
def token_to_vartype (p : Parser) (type : TokenType) : Res CollectionType :=
  if type = .INT then .ok ⟨.INT, .NONE, .NONE, .NONE⟩
  else if type = .FLOAT then .ok ⟨.FLOAT, .NONE, .NONE, .NONE⟩
  else if type = .STRING then .ok ⟨.STRING, .NONE, .NONE, .NONE⟩
  else if type = .BOOL then .ok ⟨.BOOL, .NONE, .NONE, .NONE⟩
  else throw_at "Invalid Type at Line " p

/-- The function `Parser::expect` (parser.h 143-149).  When `pos >= tokens.size()`
the message reads `tokens[pos]` outside the vector. -/
def expect (type : TokenType) (p : Parser) : Res (Token × Parser) :=
  match p.tokens[p.pos]? with
  | none => .error .out_of_range
  | some t =>
    if t.type ≠ type then .error (.thrown ("Unexpected Token Type at Line " ++ toString t.line))
    else .ok (t, { p with pos := p.pos + 1 })

/-- The statement `expect(tokens[pos].type)` (parser.h 163, 176, 197, 270). -/
def expect_current (p : Parser) : Res (Token × Parser) := do
  let t ← peek p
  expect t.type p

/-- The function `Parser::parse_collection_type` (parser.h 151-211).  `result` is
declared without initialiser at line 153; the last branch does not move `pos`. -/
def parse_collection_type (env : Env) (p : Parser) : Res (CollectionType × Parser) := do
  let result := env.uninit 153
  let t ← peek p
  if t.type = .LIST then
    let (_, p) ← expect .LIST p
    let (_, p) ← expect .LBRACKET p
    let result := { result with base_type := .LIST }
    let t ← peek p
    let et ← token_to_vartype p t.type
    let result := { result with element_type := et.base_type }
    let (_, p) ← expect_current p
    let (_, p) ← expect .RBRACKET p
    let p := add_include p ("list_" ++ vartype_to_c result.element_type ++ ".h")
    pure (result, p)
  else if t.type = .TUPLE then
    let (_, p) ← expect .TUPLE p
    let (_, p) ← expect .LBRACKET p
    let result := { result with base_type := .TUPLE }
    let t ← peek p
    let et ← token_to_vartype p t.type
    let result := { result with element_type := et.base_type }
    let (_, p) ← expect_current p
    let (_, p) ← expect .RBRACKET p
    let p := add_include p ("tuple_" ++ vartype_to_c result.element_type ++ ".h")
    pure (result, p)
  else if t.type = .DICT then
    let (_, p) ← expect .DICT p
    let (_, p) ← expect .LBRACKET p
    let result := { result with base_type := .DICT }
    let t ← peek p
    let kt ← token_to_vartype p t.type
    let result := { result with key_type := kt.base_type }
    if result.key_type ≠ .STRING then
      throw_at "Dictionary Keys Must be Strings at Line " p
    else
      let (_, p) ← expect .STRING p
      let (_, p) ← expect .COMMA p
      let t ← peek p
      let vt ← token_to_vartype p t.type
      let result := { result with value_type := vt.base_type }
      let (_, p) ← expect_current p
      let (_, p) ← expect .RBRACKET p
      let p := add_include p ("dict_string_" ++ vartype_to_c result.value_type ++ ".h")
      pure (result, p)
  else
    let result ← token_to_vartype p t.type
    if result.base_type = .STRING then
      pure (result, add_include p "string_utils.h")
    else
      pure (result, p)

/-! ## Parser: expressions (parser.h 244-919) -/

/-- The value of `parse_expression`, `pair<string, VarType>`. -/
abbrev Expr := String × VarType

/-- The loop `while (tokens[pos].type == COMMA)` that collects further arguments
(parser.h 285-291, 360-365, 1031-1037, 1062-1067). -/
def args_loop (rec : Parser → Res (Expr × Parser)) :
    Nat → List String → Parser → Res (List String × Parser)
  | 0, _, _ => .error .out_of_fuel
  | n + 1, args, p => do
    let t ← peek p
    if t.type = .COMMA then
      let (_, p) ← expect .COMMA p
      let (expr, p) ← rec p
      args_loop rec n (args ++ [expr.1]) p
    else
      pure (args, p)

/-- The argument list between `(` and `)` (parser.h 278-292, 353-366, 1024-1038, 1055-1068). -/
def parse_args (rec : Parser → Res (Expr × Parser)) (n : Nat) (p : Parser) :
    Res (List String × Parser) := do
  let t ← peek p
  if t.type ≠ .RPAREN then
    let (expr, p) ← rec p
    args_loop rec n [expr.1] p
  else
    pure ([], p)

/-- The function-call branch of `parse_expression` (parser.h 274-312). -/
def parse_call_expr (rec : Parser → Res (Expr × Parser)) (n : Nat) (p : Parser) :
    Res (Expr × Parser) := do
  let (tok, p) ← expect .IDENTIFIER p
  let func_name := tok.value
  let (_, p) ← expect .LPAREN p
  let (args, p) ← parse_args rec n p
  let (_, p) ← expect .RPAREN p
  match map_find p.functions func_name with
  | none => throw_at ("Undefined function " ++ func_name ++ " at line ") p
  | some f =>
    let result := func_name ++ "(" ++ join_args args ++ ")"
    pure ((result, f.2.base_type), { p with expr_type := f.2 })

/-- The indexed-access branch of `parse_expression` (parser.h 313-346). -/
def parse_index_expr (rec : Parser → Res (Expr × Parser)) (p : Parser) :
    Res (Expr × Parser) := do
  let (tok, p) ← expect .IDENTIFIER p
  let var := tok.value
  let (_, p) ← expect .LBRACKET p
  let (index, p) ← rec p
  let (_, p) ← expect .RBRACKET p
  match map_find p.variables_ var with
  | none => throw_at ("Undefined Variable " ++ var ++ " at Line ") p
  | some var_type =>
    if var_type.base_type = .LIST ∨ var_type.base_type = .TUPLE then
      let result := var ++ "->data[" ++ index.1 ++ "]"
      let p := { p with expr_type := ⟨var_type.element_type, .NONE, .NONE, .NONE⟩ }
      let p :=
        if var_type.base_type = .LIST then
          add_include p ("list_" ++ vartype_to_c var_type.element_type ++ ".h")
        else
          add_include p ("tuple_" ++ vartype_to_c var_type.element_type ++ ".h")
      pure ((result, var_type.element_type), p)
    else if var_type.base_type = .DICT then
      let p := { p with rand_calls := p.rand_calls + 1 }
      let result := "dict_get_" ++ vartype_to_c var_type.key_type ++
        vartype_to_c var_type.value_type ++ "(" ++ var ++ ", " ++ index.1 ++ ")"
      let p := { p with expr_type := ⟨var_type.value_type, .NONE, .NONE, .NONE⟩ }
      let p := add_include p ("dict_string_" ++ vartype_to_c var_type.value_type ++ ".h")
      pure ((result, var_type.value_type), p)
    else
      throw_at "Indexing Only Supported for Lists, Tuples, and Dicts at Line " p

/-- The receiver and method checks that compute `return_type` (parser.h 375-404 and
1078-1107); the two copies differ in the text of two messages. -/
def method_return_type (msg_append msg_string : String) (var_type : CollectionType)
    (method : String) (p : Parser) : Res (CollectionType × Parser) :=
  if var_type.base_type ≠ .STRING ∧ var_type.base_type ≠ .LIST then
    throw_at "Method Call Only Supported for Strings and Lists at Line " p
  else if method = "append" then
    if var_type.base_type ≠ .LIST then throw_at msg_append p
    else
      .ok (⟨.NONE, .NONE, .NONE, .NONE⟩,
        add_include p ("list_" ++ vartype_to_c var_type.element_type ++ ".h"))
  else if method = "upper" ∨ method = "lower" ∨ method = "strip" ∨
      method = "replace" ∨ method = "split" ∨ method = "find" then
    if var_type.base_type ≠ .STRING then throw_at msg_string p
    else
      let p := add_include p "string_utils.h"
      if method = "split" then .ok (⟨.LIST, .STRING, .NONE, .NONE⟩, p)
      else if method = "find" then .ok (⟨.INT, .NONE, .NONE, .NONE⟩, p)
      else .ok (⟨.STRING, .NONE, .NONE, .NONE⟩, p)
  else
    throw_at ("Unsupported Method " ++ method ++ " at Line ") p

/-- The read `args[i]` of a `vector<string>`. -/
def arg_at (args : List String) (i : Nat) : Res String :=
  match args[i]? with
  | some a => .ok a
  | none => .error .out_of_range

/-- The method-call branch of `parse_expression` (parser.h 347-435). -/
def parse_method_expr (env : Env) (rec : Parser → Res (Expr × Parser)) (n : Nat) (p : Parser) :
    Res (Expr × Parser) := do
  let (tok, p) ← expect .IDENTIFIER p
  let var := tok.value
  let (_, p) ← expect .DOT p
  let (mtok, p) ← expect .CALL_METHOD p
  let method := mtok.value
  let (_, p) ← expect .LPAREN p
  let (args, p) ← parse_args rec n p
  let (_, p) ← expect .RPAREN p
  match map_find p.variables_ var with
  | none => throw_at ("Undefined Variable " ++ var ++ " at Line ") p
  | some var_type =>
    let (_, p) ← method_return_type "Append Method Only Supported for Lists at Line "
      "String Method Only Supported for Strings at Line " var_type method p
    let temp_var := "temp_method_" ++ toString (env.rand p.rand_calls)
    let p := { p with rand_calls := p.rand_calls + 1 }
    if method = "append" then
      let a0 ← arg_at args 0
      pure (("list_append_" ++ vartype_to_c var_type.element_type ++ "(" ++ var ++ ", " ++ a0 ++ ")",
        .NONE), p)
    else if method = "upper" ∨ method = "lower" ∨ method = "strip" then
      pure (("char* " ++ temp_var ++ " = str_" ++ method ++ "(" ++ var ++ ")", .STRING), p)
    else if method = "replace" then
      let a0 ← arg_at args 0
      let a1 ← arg_at args 1
      pure (("char* " ++ temp_var ++ " = str_replace(" ++ var ++ ", " ++ a0 ++ ", " ++ a1 ++ ")",
        .STRING), p)
    else if method = "split" then
      let tail ← if args.isEmpty then pure ", NULL" else (do let a0 ← arg_at args 0; pure (", " ++ a0))
      pure (("ListString* " ++ temp_var ++ " = str_split(" ++ var ++ tail ++ ")", .LIST),
        { p with expr_type := ⟨.LIST, .STRING, .NONE, .NONE⟩ })
    else if method = "find" then
      let a0 ← arg_at args 0
      pure (("int " ++ temp_var ++ " = str_find(" ++ var ++ ", " ++ a0 ++ ")", .INT), p)
    else
      pure (("", .NONE), p)

/-- The include registered for a value of a container or string type
(parser.h 447-454, 1144-1151, 1183-1190). -/
def include_for (type : VarType) (p : Parser) : Parser :=
  if type = .LIST then add_include p ("list_" ++ vartype_to_c p.expr_type.element_type ++ ".h")
  else if type = .TUPLE then add_include p ("tuple_" ++ vartype_to_c p.expr_type.element_type ++ ".h")
  else if type = .DICT then add_include p ("dict_string_" ++ vartype_to_c p.expr_type.value_type ++ ".h")
  else if type = .STRING then add_include p "string_utils.h"
  else p

/-- The plain-identifier branch of `parse_expression` (parser.h 436-455). -/
def parse_identifier_expr (p : Parser) : Res (Expr × Parser) := do
  let (tok, p) ← expect .IDENTIFIER p
  let var := tok.value
  match map_find p.variables_ var with
  | none => throw_at ("Undefined Variable " ++ var ++ " at Line ") p
  | some var_type =>
    let p := { p with expr_type := var_type }
    pure ((var, var_type.base_type), include_for var_type.base_type p)

/-- The format-spec text appended to `format` (parser.h 483-524), for the lexeme of a
FSTRING_FORMAT_SPEC token.  `format_spec[0]` of an empty string is the terminating
null; `spec.type` keeps its indeterminate content when no character is left. -/
def format_spec_text (env : Env) (format_spec : String) : String :=
  let cs := format_spec.toList
  let c0 := cs.getD 0 (Char.ofNat 0)
  let aligned := c0 = '<' ∨ c0 = '>' ∨ c0 = '^'
  let alignment := if aligned then String.singleton c0 else ""
  let rest := if aligned then cs.drop 1 else cs
  let width := String.mk (rest.takeWhile Char.isDigit)
  let rest := rest.dropWhile Char.isDigit
  let precision :=
    match rest with
    | '.' :: r => String.mk (r.takeWhile Char.isDigit)
    | _ => ""
  let rest :=
    match rest with
    | '.' :: r => r.dropWhile Char.isDigit
    | _ => rest
  let type :=
    match rest with
    | c :: _ => c
    | [] => env.uninit_char
  "%" ++ (alignment ++ width ++ (if precision.isEmpty then "" else "." ++ precision) ++
    String.singleton type)

/-- The conversion appended for an f-string expression without format spec, and the
include it registers (parser.h 526-547). -/
def fstring_default (type : VarType) (format : String) (p : Parser) : String × Parser :=
  if type = .INT then (format ++ "%d", p)
  else if type = .FLOAT then (format ++ "%f", p)
  else if type = .STRING then (format ++ "%s", p)
  else if type = .BOOL then (format ++ "%s", p)
  else if type = .LIST ∨ type = .TUPLE ∨ type = .DICT then
    (format ++ "%s",
      if type = .LIST then add_include p ("list_" ++ vartype_to_c p.expr_type.element_type ++ ".h")
      else if type = .TUPLE then
        add_include p ("tuple_" ++ vartype_to_c p.expr_type.element_type ++ ".h")
      else add_include p ("dict_string_" ++ vartype_to_c p.expr_type.value_type ++ ".h"))
  else (format, p)

/-- The loop `while (tokens[pos].type != FSTRING_END)` (parser.h 464-551).  A token
that is neither STRING_LITERAL nor FSTRING_EXPR_START leaves the state unchanged. -/
def fstring_loop (env : Env) (rec : Parser → Res (Expr × Parser)) :
    Nat → String → List (String × VarType) → Parser →
      Res ((String × List (String × VarType)) × Parser)
  | 0, _, _, _ => .error .out_of_fuel
  | n + 1, format, args, p => do
    let t ← peek p
    if t.type ≠ .FSTRING_END then
      if t.type = .STRING_LITERAL then
        let (tok, p) ← expect .STRING_LITERAL p
        fstring_loop env rec n (format ++ tok.value) args (add_include p "string_utils.h")
      else if t.type = .FSTRING_EXPR_START then
        let (_, p) ← expect .FSTRING_EXPR_START p
        let (expr, p) ← rec p
        let args := args ++ [expr]
        let t ← peek p
        if t.type = .FSTRING_FORMAT_SPEC then
          let (tok, p) ← expect .FSTRING_FORMAT_SPEC p
          let format := format ++ format_spec_text env tok.value
          let (_, p) ← expect .FSTRING_EXPR_END p
          fstring_loop env rec n format args p
        else
          let (format, p) := fstring_default expr.2 format p
          let (_, p) ← expect .FSTRING_EXPR_END p
          fstring_loop env rec n format args p
      else
        fstring_loop env rec n format args p
    else
      pure ((format, args), p)

/-- The loop that appends the `snprintf` arguments (parser.h 559-582); each argument
comes with its entry of `arg_types`. -/
def fstring_args : List (String × VarType) → String → Parser → String × Parser
  | [], result, p => (result, p)
  | (arg, ty) :: rest, result, p =>
    let result := result ++ ", "
    if ty = .BOOL then
      fstring_args rest (result ++ (arg ++ " ? \"true\" : \"false\"")) p
    else if ty = .LIST then
      fstring_args rest
        (result ++ ("list_to_string_" ++ vartype_to_c p.expr_type.element_type ++ "(" ++ arg ++ ")"))
        (add_include p ("list_" ++ vartype_to_c p.expr_type.element_type ++ ".h"))
    else if ty = .TUPLE then
      fstring_args rest
        (result ++ ("tuple_to_string_" ++ vartype_to_c p.expr_type.element_type ++ "(" ++ arg ++ ")"))
        (add_include p ("tuple_" ++ vartype_to_c p.expr_type.element_type ++ ".h"))
    else if ty = .DICT then
      fstring_args rest
        (result ++ ("dict_to_string_" ++ vartype_to_c p.expr_type.key_type ++
          vartype_to_c p.expr_type.value_type ++ "(" ++ arg ++ ")"))
        (add_include p ("dict_string_" ++ vartype_to_c p.expr_type.value_type ++ ".h"))
    else
      fstring_args rest (result ++ arg) p

/-- The f-string branch of `parse_expression` (parser.h 456-588). -/
def parse_fstring_expr (env : Env) (rec : Parser → Res (Expr × Parser)) (n : Nat) (p : Parser) :
    Res (Expr × Parser) := do
  let (_, p) ← expect .FSTRING_START p
  let ((format, args), p) ← fstring_loop env rec n "" [] p
  let (_, p) ← expect .FSTRING_END p
  let temp_var := "temp_string_" ++ toString p.string_temp_counter
  let p := { p with string_temp_counter := p.string_temp_counter + 1 }
  let result := "char " ++ temp_var ++ "[1024];\n"
  let result := result ++ ("snprintf(" ++ temp_var ++ ", 1024, \"" ++ format ++ "\"")
  let (result, p) := fstring_args args result p
  let result := result ++ (");\n    " ++ temp_var)
  let p := { p with expr_type := ⟨.STRING, .NONE, .NONE, .NONE⟩ }
  pure ((result, .STRING), add_include p "string_utils.h")

/-- The loop that reads the further elements of a list or tuple literal
(parser.h 601-610, 643-652); `msg` is the message of the element-type error. -/
def elements_loop (rec : Parser → Res (Expr × Parser)) (msg : String) (element_type : VarType) :
    Nat → List String → Parser → Res (List String × Parser)
  | 0, _, _ => .error .out_of_fuel
  | n + 1, elements, p => do
    let t ← peek p
    if t.type = .COMMA then
      let (_, p) ← expect .COMMA p
      let (expr, p) ← rec p
      if expr.2 ≠ element_type then throw_at msg p
      else elements_loop rec msg element_type n (elements ++ [expr.1]) p
    else
      pure (elements, p)

/-- The text of the `list_append_T` calls of a list literal (parser.h 622-623). -/
def list_appends (c : String) (temp_var : String) : List String → String
  | [] => ""
  | elem :: rest =>
    "list_append_" ++ c ++ "(" ++ temp_var ++ ", " ++ elem ++ ");\n" ++ list_appends c temp_var rest

/-- The list-literal branch of `parse_expression` (parser.h 589-630); `list_type` is
declared without initialiser at line 593. -/
def parse_list_expr (env : Env) (rec : Parser → Res (Expr × Parser)) (n : Nat) (p : Parser) :
    Res (Expr × Parser) := do
  let (_, p) ← expect .LBRACKET p
  let list_type := env.uninit 593
  let t ← peek p
  let ((elements, list_type), p) ←
    if t.type ≠ .RBRACKET then do
      let (expr, p) ← rec p
      let list_type := { list_type with element_type := expr.2 }
      let (elements, p) ←
        elements_loop rec "Inconsistent List Element Types at Line " list_type.element_type n [expr.1] p
      pure ((elements, list_type), p)
    else
      pure (([], list_type), p)
  let (_, p) ← expect .RBRACKET p
  let list_type := { list_type with base_type := .LIST }
  let c := vartype_to_c list_type.element_type
  let p := add_include p ("list_" ++ c ++ ".h")
  let temp_var := "temp_list_" ++ toString p.string_temp_counter
  let p := { p with string_temp_counter := p.string_temp_counter + 1 }
  let result := c ++ "List*" ++ temp_var ++ " = create_list_" ++ c ++ "();\n"
  let result := result ++ list_appends c temp_var elements
  let result := result ++ temp_var
  pure ((result, .LIST), { p with expr_type := list_type })

/-- The text of the slot assignments of a tuple literal (parser.h 664-665). -/
def tuple_slots (temp_var : String) : Nat → List String → String
  | _, [] => ""
  | i, elem :: rest =>
    temp_var ++ "->data[" ++ toString i ++ "] = " ++ elem ++ ";\n" ++ tuple_slots temp_var (i + 1) rest

/-- The parenthesis branch of `parse_expression` (parser.h 631-672); `tuple_type` is
declared without initialiser at line 635. -/
def parse_tuple_expr (env : Env) (rec : Parser → Res (Expr × Parser)) (n : Nat) (p : Parser) :
    Res (Expr × Parser) := do
  let (_, p) ← expect .LPAREN p
  let tuple_type := env.uninit 635
  let t ← peek p
  let ((elements, tuple_type), p) ←
    if t.type ≠ .RPAREN then do
      let (expr, p) ← rec p
      let tuple_type := { tuple_type with element_type := expr.2 }
      let (elements, p) ←
        elements_loop rec "Inconsistent tuple element types at line " tuple_type.element_type n [expr.1] p
      pure ((elements, tuple_type), p)
    else
      pure (([], tuple_type), p)
  let (_, p) ← expect .RPAREN p
  let tuple_type := { tuple_type with base_type := .TUPLE }
  let c := vartype_to_c tuple_type.element_type
  let p := add_include p ("tuple_" ++ c ++ ".h")
  let temp_var := "temp_tuple_" ++ toString p.string_temp_counter
  let p := { p with string_temp_counter := p.string_temp_counter + 1 }
  let result := c ++ "Tuple* " ++ temp_var ++ " = create_tuple_" ++ c ++ "(" ++
    toString elements.length ++ ");\n"
  let result := result ++ tuple_slots temp_var 0 elements
  let result := result ++ temp_var
  pure ((result, .TUPLE), { p with expr_type := tuple_type })

/-- The loop that reads the further entries of a dict literal (parser.h 692-707). -/
def entries_loop (rec : Parser → Res (Expr × Parser)) (value_type : VarType) :
    Nat → List (String × String) → Parser → Res (List (String × String) × Parser)
  | 0, _, _ => .error .out_of_fuel
  | n + 1, entries, p => do
    let t ← peek p
    if t.type = .COMMA then
      let (_, p) ← expect .COMMA p
      let (key, p) ← rec p
      if key.2 ≠ .STRING then throw_at "Dictionary Key Must be a String at Line " p
      else
        let (_, p) ← expect .COLON p
        let (value, p) ← rec p
        if value.2 ≠ value_type then throw_at "Inconsistent Dictionary Value Types at Line " p
        else entries_loop rec value_type n (entries ++ [(key.1, value.1)]) p
    else
      pure (entries, p)

/-- The text of the `dict_set_string_V` calls of a dict literal (parser.h 719-720). -/
def dict_sets (c : String) (temp_var : String) : List (String × String) → String
  | [] => ""
  | entry :: rest =>
    "dict_set_string_" ++ c ++ "(" ++ temp_var ++ ", " ++ entry.1 ++ ", " ++ entry.2 ++ ");\n" ++
      dict_sets c temp_var rest

/-- The brace branch of `parse_expression` (parser.h 673-727); `dict_type` is
declared without initialiser at line 677. -/
def parse_dict_expr (env : Env) (rec : Parser → Res (Expr × Parser)) (n : Nat) (p : Parser) :
    Res (Expr × Parser) := do
  let (_, p) ← expect .LBRACE p
  let dict_type := env.uninit 677
  let t ← peek p
  let ((entries, dict_type), p) ←
    if t.type ≠ .RBRACE then do
      let (key, p) ← rec p
      if key.2 ≠ .STRING then throw_at "Dictionary Key Must be a String at Line " p
      else
        let (_, p) ← expect .COLON p
        let (value, p) ← rec p
        let dict_type := { dict_type with key_type := .STRING, value_type := value.2 }
        let (entries, p) ← entries_loop rec dict_type.value_type n [(key.1, value.1)] p
        pure ((entries, dict_type), p)
    else
      pure (([], dict_type), p)
  let (_, p) ← expect .RBRACE p
  let dict_type := { dict_type with base_type := .DICT }
  let c := vartype_to_c dict_type.value_type
  let p := add_include p ("dict_string_" ++ c ++ ".h")
  let temp_var := "temp_dict_" ++ toString p.string_temp_counter
  let p := { p with string_temp_counter := p.string_temp_counter + 1 }
  let result := "DictString" ++ c ++ "* " ++ temp_var ++ " = create_dict_string_" ++ c ++ "();\n"
  let result := result ++ dict_sets c temp_var entries
  let result := result ++ temp_var
  pure ((result, .DICT), { p with expr_type := dict_type })

/-- The `len` branch of `parse_expression` (parser.h 728-766). -/
def parse_len_expr (rec : Parser → Res (Expr × Parser)) (p : Parser) : Res (Expr × Parser) := do
  let (_, p) ← expect .LEN p
  let (_, p) ← expect .LPAREN p
  let (expr, p) ← rec p
  let (_, p) ← expect .RPAREN p
  if expr.2 ≠ .STRING ∧ expr.2 ≠ .LIST ∧ expr.2 ≠ .TUPLE ∧ expr.2 ≠ .DICT then
    throw_at "LEN Function Only Supported for Strings, Lists, Tuples, and Dicts at Line " p
  else
    let result := if expr.2 = .STRING then "strlen(" ++ expr.1 ++ ")" else expr.1 ++ "->size"
    let p := include_for expr.2 p
    pure ((result, .INT), { p with expr_type := ⟨.INT, .NONE, .NONE, .NONE⟩ })

/-- The condition of the operator loop (parser.h 770-775). -/
def is_binary_operator (t : TokenType) : Bool :=
  t = .PLUS || t = .MINUS || t = .MULT || t = .DIV || t = .EQ || t = .NOTEQ ||
  t = .LESSER || t = .GREATER || t = .LESSEREQ || t = .GREATEREQ || t = .AND || t = .OR

/-- The branch of the operator loop for the operator token `tt` (parser.h 777-890):
the C operator text, `result_type`, and the left-operand check.  `type` is the type
of the left operand. -/
def operator_case (tt : TokenType) (type : VarType) (p : Parser) :
    Res ((String × VarType) × Parser) :=
  if tt = .PLUS then do
    let (_, p) ← expect .PLUS p
    if type = .STRING ∨ type = .LIST then
      if type = .STRING then pure (("+", type), add_include p "string_utils.h")
      else pure (("+", type), add_include p ("list_" ++ vartype_to_c p.expr_type.element_type ++ ".h"))
    else if type = .INT ∨ type = .FLOAT then pure (("+", type), p)
    else throw_at "Invalid Operand Types for '+' at Line " p
  else if tt = .MINUS then do
    let (_, p) ← expect .MINUS p
    if type ≠ .INT ∧ type ≠ .FLOAT then throw_at "Invalid Operand Types for '-' at Line " p
    else pure (("-", type), p)
  else if tt = .MULT then do
    let (_, p) ← expect .MULT p
    if type ≠ .INT ∧ type ≠ .FLOAT then throw_at "Invalid Operand Types for '*' at Line " p
    else pure (("*", type), p)
  else if tt = .DIV then do
    let (_, p) ← expect .DIV p
    if type ≠ .INT ∧ type ≠ .FLOAT then throw_at "Invalid Operand Types for '/' at Line " p
    else pure (("/", .FLOAT), p)
  else if tt = .EQ then do
    let (_, p) ← expect .EQ p
    pure (("==", .BOOL), p)
  else if tt = .NOTEQ then do
    let (_, p) ← expect .NOTEQ p
    pure (("!=", .BOOL), p)
  else if tt = .GREATER then do
    let (_, p) ← expect .GREATER p
    pure ((">", .BOOL), p)
  else if tt = .LESSER then do
    let (_, p) ← expect .LESSER p
    pure (("<", .BOOL), p)
  else if tt = .GREATEREQ then do
    let (_, p) ← expect .GREATEREQ p
    pure ((">=", .BOOL), p)
  else if tt = .LESSEREQ then do
    let (_, p) ← expect .LESSEREQ p
    pure ((">=", .BOOL), p)
  else if tt = .AND then do
    let (_, p) ← expect .AND p
    if type ≠ .BOOL then throw_at "Invalid Operand Types for 'AND' at Line " p
    else pure (("&&", .BOOL), p)
  else if tt = .OR then do
    let (_, p) ← expect .OR p
    if type ≠ .BOOL then throw_at "Invalid Operand Types for 'OR' at Line " p
    else pure (("||", .BOOL), p)
  else
    pure (("", type), p)

/-- The condition of the operand check (parser.h 894-895). -/
def operand_mismatch (type right : VarType) : Bool :=
  type ≠ .BOOL && right ≠ .BOOL && type ≠ right && !(type = .FLOAT && right = .INT)

/-- The operator loop of `parse_expression` (parser.h 770-916), entered with the text
and type of the primary; `rec` is the recursive call for the right operand. -/
def binary_operators (rec : Parser → Res (Expr × Parser)) :
    Nat → String → VarType → Parser → Res (Expr × Parser)
  | 0, _, _, _ => .error .out_of_fuel
  | n + 1, result, type, p => do
    let t ← peek p
    if is_binary_operator t.type then
      let ((op, result_type), p) ← operator_case t.type type p
      let (right, p) ← rec p
      if operand_mismatch type right.2 then throw_at "Type Mismatch in Operation at Line " p
      else
        let right_first :=
          if contains_sub "snprintf".toList right.1.toList then after_last_space right.1
          else right.1
        let result := "(" ++ result ++ " " ++ op ++ " " ++ right_first ++ ")"
        binary_operators rec n result result_type
          { p with expr_type := { p.expr_type with base_type := result_type } }
    else
      pure ((result, type), p)

/-- The chain of primary branches of `parse_expression` (parser.h 249-768).  The
flag is true for the branches that end in `return` (lines 629, 671, 726, 763) and
so skip the operator loop. -/
def parse_primary (env : Env) (rec : Parser → Res (Expr × Parser)) (n : Nat) (p : Parser) :
    Res ((Expr × Bool) × Parser) := do
  let t ← peek p
  if t.type = .NUMBER then
    let (tok, p) ← expect .NUMBER p
    pure (((tok.value, .INT), false), { p with expr_type := ⟨.INT, .NONE, .NONE, .NONE⟩ })
  else if t.type = .FLOATING then
    let (tok, p) ← expect .FLOATING p
    pure (((tok.value, .FLOAT), false), { p with expr_type := ⟨.FLOAT, .NONE, .NONE, .NONE⟩ })
  else if t.type = .STRING_LITERAL then
    let (tok, p) ← expect .STRING_LITERAL p
    let p := { p with expr_type := ⟨.STRING, .NONE, .NONE, .NONE⟩ }
    pure ((("\"" ++ tok.value ++ "\"", .STRING), false), add_include p "string_utils.h")
  else if t.type = .TRUE ∨ t.type = .FALSE then
    let (tok, p) ← expect_current p
    pure (((tok.value, .BOOL), false), { p with expr_type := ⟨.BOOL, .NONE, .NONE, .NONE⟩ })
  else if t.type = .IDENTIFIER then
    let t1 ← peek1 p
    if t1.type = .LPAREN then
      let (e, p) ← parse_call_expr rec n p
      pure ((e, false), p)
    else if t1.type = .LBRACKET then
      let (e, p) ← parse_index_expr rec p
      pure ((e, false), p)
    else if t1.type = .DOT then
      let (e, p) ← parse_method_expr env rec n p
      pure ((e, false), p)
    else
      let (e, p) ← parse_identifier_expr p
      pure ((e, false), p)
  else if t.type = .FSTRING_START then
    let (e, p) ← parse_fstring_expr env rec n p
    pure ((e, false), p)
  else if t.type = .LBRACKET then
    let (e, p) ← parse_list_expr env rec n p
    pure ((e, true), p)
  else if t.type = .LPAREN then
    let (e, p) ← parse_tuple_expr env rec n p
    pure ((e, true), p)
  else if t.type = .LBRACE then
    let (e, p) ← parse_dict_expr env rec n p
    pure ((e, true), p)
  else if t.type = .LEN then
    let (e, p) ← parse_len_expr rec p
    pure ((e, true), p)
  else
    throw_at "Invalid Expression at Line " p

/-- The function `Parser::parse_expression` (parser.h 244-919).  The fuel bounds the
depth of the recursion and the number of iterations of each loop. -/
def parse_expression (env : Env) : Nat → Parser → Res (Expr × Parser)
  | 0, _ => .error .out_of_fuel
  | fuel + 1, p => do
    let ((e, returned), p) ← parse_primary env (parse_expression env fuel) fuel p
    if returned then pure (e, p)
    else binary_operators (parse_expression env fuel) fuel e.1 e.2 p

/-! ## Abstract syntax tree (ASTNodes.h 52-590) -/

/-- The subclasses of `ASTNode` with their data members.  `FunctionNode` has a
private map `variables` (ASTNodes.h 225) that nothing fills; it is the field
`locals`. -/
inductive ASTNode where
  | HelperNode (code : String)
  | AssignNode (var : String) (expr : String) (type : CollectionType) (is_declaration : Bool)
  | FunctionNode (name : String) (args : List (String × CollectionType))
      (return_type : CollectionType) (body : List ASTNode)
      (locals : List (String × CollectionType))
  | CallNode (func_name : String) (args : List String) (return_type : CollectionType)
  | MethodCallNode (var : String) (method : String) (args : List String)
      (return_type : CollectionType)
  | ReturnNode (expr : String) (type : CollectionType)
  | PrintNode (values : List (String × VarType)) (separator : String)
  | IfNode (condition : String) (body : List ASTNode)
      (elif_clauses : List (String × List ASTNode)) (else_body : List ASTNode)
  | ForNode (var : String) (start : String) (stop : String) (body : List ASTNode)
  | WhileNode (condition : String) (body : List ASTNode)
  | MatchNode (expr : String) (expr_type : VarType) (cases : List (String × List ASTNode))
      (default_case : List ASTNode)
  | ListNode (elements : List String) (type : CollectionType)
  | TupleNode (elements : List String) (type : CollectionType)
  | DictNode (entries : List (String × String)) (type : CollectionType)
  | LenNode (expr : String) (expr_type : CollectionType)

/-- The test `dynamic_cast<FunctionNode*>(node.get())` of main.cpp 51 and 60. -/
def ASTNode.is_function : ASTNode → Bool
  | .FunctionNode _ _ _ _ _ => true
  | _ => false

/-! ## Parser: statements (parser.h 213-242, 921-1401) -/

/-- The type checks of `parse_assignment` (parser.h 928-948), in the order of the
source; `none` when no check fires, otherwise the message of the first that does. -/
def assignment_mismatch (type : CollectionType) (expr_second : VarType)
    (expr_type : CollectionType) : Option String :=
  if type.base_type = .INT ∧ expr_second ≠ .INT then
    some "Type Mismatch in Assignment at Line "
  else if type.base_type = .FLOAT ∧ expr_second ≠ .FLOAT ∧ expr_second ≠ .INT then
    some "Type Mismatch in Assignment at Line "
  else if type.base_type = .STRING ∧ expr_second ≠ .STRING then
    some "Type Mismatch in Assignment at Line "
  else if type.base_type = .BOOL ∧ expr_second ≠ .BOOL then
    some "Type Mismatch in Assignment at Line "
  else if type.base_type = .LIST ∧
      (expr_second ≠ .LIST ∨ type.element_type ≠ expr_type.element_type) then
    some "Type Mismatch in List Assignment at Line "
  else if type.base_type = .TUPLE ∧
      (expr_second ≠ .TUPLE ∨ type.element_type ≠ expr_type.element_type) then
    some "Type Mismatch in Tuple Assignment at Line "
  else if type.base_type = .DICT ∧ (expr_second ≠ .DICT ∨
      type.key_type ≠ expr_type.key_type ∨ type.value_type ≠ expr_type.value_type) then
    some "Type Mismatch in Dict Assignment at Line "
  else
    none

/-- The function `Parser::parse_assignment` (parser.h 921-956). -/
def parse_assignment (env : Env) (fuel : Nat) (p : Parser) : Res (ASTNode × Parser) := do
  let (type, p) ← parse_collection_type env p
  let (tok, p) ← expect .IDENTIFIER p
  let var := tok.value
  let (_, p) ← expect .EQUALS p
  let (expr, p) ← parse_expression env fuel p
  match assignment_mismatch type expr.2 p.expr_type with
  | some msg => throw_at msg p
  | none =>
    let is_declaration := (map_find p.variables_ var).isNone
    let p := { p with variables_ := map_set p.variables_ var type }
    let (_, p) ← expect .NEWLINE p
    pure (.AssignNode var expr.1 type is_declaration, p)

/-- The function `Parser::parse_function_call` (parser.h 1018-1047). -/
def parse_function_call (env : Env) (fuel : Nat) (p : Parser) : Res (ASTNode × Parser) := do
  let (tok, p) ← expect .IDENTIFIER p
  let func_name := tok.value
  let (_, p) ← expect .LPAREN p
  let (args, p) ← parse_args (parse_expression env fuel) fuel p
  let (_, p) ← expect .RPAREN p
  let (_, p) ← expect .NEWLINE p
  match map_find p.functions func_name with
  | none => throw_at ("Undefined Function " ++ func_name ++ " at Line ") p
  | some f => pure (.CallNode func_name args f.2, p)

/-- The function `Parser::parse_method_call` (parser.h 1049-1110). -/
def parse_method_call (env : Env) (fuel : Nat) (p : Parser) : Res (ASTNode × Parser) := do
  let (tok, p) ← expect .IDENTIFIER p
  let var := tok.value
  let (_, p) ← expect .DOT p
  let (mtok, p) ← expect .CALL_METHOD p
  let method := mtok.value
  let (_, p) ← expect .LPAREN p
  let (args, p) ← parse_args (parse_expression env fuel) fuel p
  let (_, p) ← expect .RPAREN p
  let (_, p) ← expect .NEWLINE p
  match map_find p.variables_ var with
  | none => throw_at ("Undefined Variable " ++ var ++ " at Line ") p
  | some var_type =>
    let (return_type, p) ← method_return_type "'Append' Method Only Supported for Lists at Line "
      "'String' Methods Only Supported for Strings at Line " var_type method p
    pure (.MethodCallNode var method args return_type, p)

/-- The function `Parser::parse_return` (parser.h 1112-1119). -/
def parse_return (env : Env) (fuel : Nat) (p : Parser) : Res (ASTNode × Parser) := do
  let (_, p) ← expect .RETURN p
  let (expr, p) ← parse_expression env fuel p
  let (_, p) ← expect .NEWLINE p
  pure (.ReturnNode expr.1 p.expr_type, p)

/-- The value pushed to `values` for a printed expression (parser.h 1133-1141, 1173-1181). -/
def print_value (expr : Expr) : String × VarType :=
  if (expr.2 = .STRING ∨ expr.2 = .LIST ∨ expr.2 = .TUPLE ∨ expr.2 = .DICT) ∧
      contains_sub "snprintf".toList expr.1.toList = true then
    (after_last_space expr.1, expr.2)
  else
    (expr.1, expr.2)

/-- The loop over the further arguments of `print` (parser.h 1153-1191); the `sep`
argument ends it with `break`. -/
def print_loop (env : Env) (fuel : Nat) :
    Nat → List (String × VarType) → String → Parser →
      Res ((List (String × VarType) × String) × Parser)
  | 0, _, _, _ => .error .out_of_fuel
  | n + 1, values, separator, p => do
    let t ← peek p
    if t.type = .COMMA then
      let (_, p) ← expect .COMMA p
      let t ← peek p
      if t.type = .SEP then
        let (_, p) ← expect .SEP p
        let (_, p) ← expect .EQUALS p
        let t ← peek p
        if t.type ≠ .STRING_LITERAL then throw_at "Separator Must be a String at Line " p
        else
          let (tok, p) ← expect .STRING_LITERAL p
          pure ((values, tok.value), add_include p "string_utils.h")
      else
        let (expr, p) ← parse_expression env fuel p
        print_loop env fuel n (values ++ [print_value expr]) separator (include_for expr.2 p)
    else
      pure ((values, separator), p)

/-- The function `Parser::parse_print` (parser.h 1121-1198). -/
def parse_print (env : Env) (fuel : Nat) (p : Parser) : Res (ASTNode × Parser) := do
  let (_, p) ← expect .PRINT p
  let (_, p) ← expect .LPAREN p
  let t ← peek p
  let ((values, separator), p) ←
    if t.type ≠ .RPAREN then do
      let (expr, p) ← parse_expression env fuel p
      print_loop env fuel fuel [print_value expr] " " (include_for expr.2 p)
    else
      pure (([], " "), p)
  let (_, p) ← expect .RPAREN p
  let (_, p) ← expect .NEWLINE p
  pure (.PrintNode values separator, p)

/-- The function `Parser::parse_index_assignment` (parser.h 1353-1401). -/
def parse_index_assignment (env : Env) (fuel : Nat) (p : Parser) : Res (ASTNode × Parser) := do
  let (tok, p) ← expect .IDENTIFIER p
  let var := tok.value
  let (_, p) ← expect .LBRACKET p
  let (index, p) ← parse_expression env fuel p
  let (_, p) ← expect .RBRACKET p
  let (_, p) ← expect .EQUALS p
  let (value, p) ← parse_expression env fuel p
  let (_, p) ← expect .NEWLINE p
  match map_find p.variables_ var with
  | none => throw_at ("Undefined Variable " ++ var ++ " at Line ") p
  | some var_type =>
    if var_type.base_type ≠ .LIST ∧ var_type.base_type ≠ .DICT then
      throw_at "Indexing Only Supported for Lists and Dicts at Line " p
    else if var_type.base_type = .LIST ∧ index.2 ≠ .INT then
      throw_at "List Index Must be an Integer at Line " p
    else if var_type.base_type = .DICT ∧ index.2 ≠ .STRING then
      throw_at "Dict Index Must be a String at Line " p
    else if var_type.base_type = .LIST ∧ var_type.element_type ≠ value.2 then
      throw_at "Type Mismatch in List Assignment at Line " p
    else if var_type.base_type = .DICT ∧ var_type.value_type ≠ value.2 then
      throw_at "Type Mismatch in Dict Assignment at Line " p
    else if var_type.base_type = .LIST then
      let p := add_include p ("list_" ++ vartype_to_c var_type.element_type ++ ".h")
      pure (.HelperNode (var ++ "->data[" ++ index.1 ++ "] = " ++ value.1 ++ ";\n"), p)
    else
      let p := add_include p ("dict_string_" ++ vartype_to_c var_type.value_type ++ ".h")
      pure (.HelperNode ("dict_set_" ++ vartype_to_c var_type.key_type ++
        vartype_to_c var_type.value_type ++ "(" ++ var ++ ", " ++ index.1 ++ ", " ++ value.1 ++
        ");\n"), p)

/-- A statement parser, the recursive call `parse_statement()` inside a block. -/
abbrev Stmt := Parser → Res (ASTNode × Parser)

/-- The loop condition of a plain block (parser.h 1010, 1246, 1277, 1297, 1337), negated. -/
def stop_block (t : TokenType) : Bool :=
  t = .DEDENT || t = .EOF_TOKEN

/-- The loop condition of an `if` or `elif` block (parser.h 1212-1213, 1230-1231), negated. -/
def stop_if_block (t : TokenType) : Bool :=
  t = .DEDENT || t = .ELIF || t = .ELSE || t = .EOF_TOKEN

/-- The loop `while (...) body.push_back(parse_statement())` of a block. -/
def block_loop (stmt : Stmt) (stop : TokenType → Bool) :
    Nat → List ASTNode → Parser → Res (List ASTNode × Parser)
  | 0, _, _ => .error .out_of_fuel
  | n + 1, body, p => do
    let t ← peek p
    if stop t.type then pure (body, p)
    else
      let (node, p) ← stmt p
      block_loop stmt stop n (body ++ [node]) p

/-- One parameter `type name` of a function definition (parser.h 971-976, 982-987). -/
def parse_param (env : Env) (args : List (String × CollectionType)) (p : Parser) :
    Res (List (String × CollectionType) × Parser) := do
  let (type, p) ← parse_collection_type env p
  let (tok, p) ← expect .IDENTIFIER p
  let arg_name := tok.value
  pure (args ++ [(arg_name, type)], { p with variables_ := map_set p.variables_ arg_name type })

/-- The loop over the further parameters (parser.h 978-988). -/
def params_loop (env : Env) :
    Nat → List (String × CollectionType) → Parser → Res (List (String × CollectionType) × Parser)
  | 0, _, _ => .error .out_of_fuel
  | n + 1, args, p => do
    let t ← peek p
    if t.type = .COMMA then
      let (_, p) ← expect .COMMA p
      let (args, p) ← parse_param env args p
      params_loop env n args p
    else
      pure (args, p)

/-- The function `Parser::parse_function` (parser.h 958-1016); `arg_types` is the list
of the second components of `args`. -/
def parse_function (env : Env) (stmt : Stmt) (n : Nat) (p : Parser) : Res (ASTNode × Parser) := do
  let (_, p) ← expect .DEF p
  let (tok, p) ← expect .IDENTIFIER p
  let name := tok.value
  let (_, p) ← expect .LPAREN p
  let t ← peek p
  let (args, p) ←
    if t.type ≠ .RPAREN then do
      let (args, p) ← parse_param env [] p
      params_loop env n args p
    else
      pure ([], p)
  let (_, p) ← expect .RPAREN p
  let t ← peek p
  let has_return_type ←
    if t.type = .COLON then do
      let t1 ← peek1 p
      pure (decide (t1.type ≠ .NEWLINE))
    else
      pure false
  let (return_type, p) ←
    if has_return_type then do
      let (_, p) ← expect .COLON p
      parse_collection_type env p
    else
      pure (⟨.NONE, .NONE, .NONE, .NONE⟩, p)
  let (_, p) ← expect .COLON p
  let (_, p) ← expect .NEWLINE p
  let (_, p) ← expect .INDENT p
  let p := { p with functions := map_set p.functions name (args.map Prod.snd, return_type) }
  let (body, p) ← block_loop stmt stop_block n [] p
  let (_, p) ← expect .DEDENT p
  pure (.FunctionNode name args return_type body [], p)

/-- The loop over the `elif` clauses (parser.h 1218-1237). -/
def elif_loop (env : Env) (stmt : Stmt) (fuel : Nat) :
    Nat → List (String × List ASTNode) → Parser → Res (List (String × List ASTNode) × Parser)
  | 0, _, _ => .error .out_of_fuel
  | n + 1, clauses, p => do
    let t ← peek p
    if t.type = .ELIF then
      let (_, p) ← expect .ELIF p
      let (elif_condition, p) ← parse_expression env fuel p
      let (_, p) ← expect .COLON p
      let (_, p) ← expect .NEWLINE p
      let (_, p) ← expect .INDENT p
      let (elif_body, p) ← block_loop stmt stop_if_block fuel [] p
      let (_, p) ← expect .DEDENT p
      elif_loop env stmt fuel n (clauses ++ [(elif_condition.1, elif_body)]) p
    else
      pure (clauses, p)

/-- The function `Parser::parse_if` (parser.h 1200-1253). -/
def parse_if (env : Env) (stmt : Stmt) (n : Nat) (p : Parser) : Res (ASTNode × Parser) := do
  let (_, p) ← expect .IF p
  let (condition, p) ← parse_expression env n p
  let (_, p) ← expect .COLON p
  let (_, p) ← expect .NEWLINE p
  let (_, p) ← expect .INDENT p
  let (body, p) ← block_loop stmt stop_if_block n [] p
  let (_, p) ← expect .DEDENT p
  let (elif_clauses, p) ← elif_loop env stmt n n [] p
  let t ← peek p
  let (else_body, p) ←
    if t.type = .ELSE then do
      let (_, p) ← expect .ELSE p
      let (_, p) ← expect .COLON p
      let (_, p) ← expect .NEWLINE p
      let (_, p) ← expect .INDENT p
      let (else_body, p) ← block_loop stmt stop_block n [] p
      let (_, p) ← expect .DEDENT p
      pure (else_body, p)
    else
      pure ([], p)
  pure (.IfNode condition.1 body elif_clauses else_body, p)

/-- The function `Parser::parse_for` (parser.h 1255-1283). -/
def parse_for (env : Env) (stmt : Stmt) (n : Nat) (p : Parser) : Res (ASTNode × Parser) := do
  let (_, p) ← expect .FOR p
  let (tok, p) ← expect .IDENTIFIER p
  let var := tok.value
  let (_, p) ← expect .IN p
  let (_, p) ← expect .RANGE p
  let (_, p) ← expect .LPAREN p
  let (start, p) ← parse_expression env n p
  let (_, p) ← expect .COMMA p
  let (stop, p) ← parse_expression env n p
  let (_, p) ← expect .RPAREN p
  let (_, p) ← expect .COLON p
  let (_, p) ← expect .NEWLINE p
  let (_, p) ← expect .INDENT p
  let p := { p with variables_ := map_set p.variables_ var ⟨.INT, .NONE, .NONE, .NONE⟩ }
  let (body, p) ← block_loop stmt stop_block n [] p
  let (_, p) ← expect .DEDENT p
  pure (.ForNode var start.1 stop.1 body, p)

/-- The function `Parser::parse_while` (parser.h 1285-1303). -/
def parse_while (env : Env) (stmt : Stmt) (n : Nat) (p : Parser) : Res (ASTNode × Parser) := do
  let (_, p) ← expect .WHILE p
  let (condition, p) ← parse_expression env n p
  let (_, p) ← expect .COLON p
  let (_, p) ← expect .NEWLINE p
  let (_, p) ← expect .INDENT p
  let (body, p) ← block_loop stmt stop_block n [] p
  let (_, p) ← expect .DEDENT p
  pure (.WhileNode condition.1 body, p)

/-- The pattern of a `case` (parser.h 1322-1329). -/
def parse_case_pattern (p : Parser) : Res (String × Parser) := do
  let t ← peek p
  if t.type = .NUMBER then
    let (tok, p) ← expect .NUMBER p
    pure (tok.value, p)
  else if t.type = .TRUE ∨ t.type = .FALSE then
    let (tok, p) ← expect_current p
    pure (tok.value, p)
  else if t.type = .IDENTIFIER ∧ t.value = "_" then
    let (_, p) ← expect .IDENTIFIER p
    pure ("_", p)
  else
    pure ("_", p)

/-- The loop over the `case` arms (parser.h 1319-1346); a later `_` arm replaces
`default_case`. -/
def case_loop (stmt : Stmt) (fuel : Nat) :
    Nat → List (String × List ASTNode) → List ASTNode → Parser →
      Res ((List (String × List ASTNode) × List ASTNode) × Parser)
  | 0, _, _, _ => .error .out_of_fuel
  | n + 1, cases, default_case, p => do
    let t ← peek p
    if t.type = .CASE then
      let (_, p) ← expect .CASE p
      let (pattern, p) ← parse_case_pattern p
      let (_, p) ← expect .COLON p
      let (_, p) ← expect .NEWLINE p
      let (_, p) ← expect .INDENT p
      let (case_body, p) ← block_loop stmt stop_block fuel [] p
      let (_, p) ← expect .DEDENT p
      if pattern = "_" then case_loop stmt fuel n cases case_body p
      else case_loop stmt fuel n (cases ++ [(pattern, case_body)]) default_case p
    else
      pure ((cases, default_case), p)

/-- The function `Parser::parse_match` (parser.h 1305-1351). -/
def parse_match (env : Env) (stmt : Stmt) (n : Nat) (p : Parser) : Res (ASTNode × Parser) := do
  let (_, p) ← expect .MATCH p
  let (expr, p) ← parse_expression env n p
  if expr.2 ≠ .INT ∧ expr.2 ≠ .BOOL then
    throw_at "Match expression must be int or bool at line " p
  else
    let (_, p) ← expect .COLON p
    let (_, p) ← expect .NEWLINE p
    let (_, p) ← expect .INDENT p
    let ((cases, default_case), p) ← case_loop stmt n n [] [] p
    let (_, p) ← expect .DEDENT p
    pure (.MatchNode expr.1 expr.2 cases default_case, p)

/-- The function `Parser::parse_statement` (parser.h 213-242).  `tokens[pos + 1]` is
read only when `tokens[pos]` is an IDENTIFIER. -/
def parse_statement (env : Env) : Nat → Parser → Res (ASTNode × Parser)
  | 0, _ => .error .out_of_fuel
  | fuel + 1, p => do
    let t ← peek p
    if t.type = .DEF then parse_function env (parse_statement env fuel) fuel p
    else if t.type = .RETURN then parse_return env fuel p
    else if t.type = .PRINT then parse_print env fuel p
    else if t.type = .IF then parse_if env (parse_statement env fuel) fuel p
    else if t.type = .FOR then parse_for env (parse_statement env fuel) fuel p
    else if t.type = .WHILE then parse_while env (parse_statement env fuel) fuel p
    else if t.type = .MATCH then parse_match env (parse_statement env fuel) fuel p
    else if t.type = .INT ∨ t.type = .FLOAT ∨ t.type = .STRING ∨ t.type = .BOOL ∨
        t.type = .LIST ∨ t.type = .TUPLE ∨ t.type = .DICT then
      parse_assignment env fuel p
    else if t.type = .IDENTIFIER then do
      let t1 ← peek1 p
      if t1.type = .LPAREN then parse_function_call env fuel p
      else if t1.type = .DOT then parse_method_call env fuel p
      else if t1.type = .LBRACKET then parse_index_assignment env fuel p
      else throw_at "Unexpected Token at Line " p
    else
      throw_at "Unexpected Token at Line " p

/-- The text `include_code` built from `helper_includes` (parser.h 84-87). -/
def include_code : List String → String
  | [] => ""
  | h :: rest => "#include \"" ++ h ++ "\"\n" ++ include_code rest

/-- The function `Parser::parse_program` (parser.h 80-95); the record after the parse
is returned with the program. -/
def parse_program (env : Env) (fuel : Nat) (p : Parser) : Res (List ASTNode × Parser) :=
  block_loop (parse_statement env fuel) (fun t => t = .EOF_TOKEN) fuel
    [.HelperNode (include_code p.helper_includes)] p

/-! ## Emitter (ASTNodes.h 59-590) -/

/-- The state of code generation: the vector `gc_strings` passed by reference to
every `generate_c_code`, and the number of `rand()` calls made so far. -/
structure Gen where
  gc_strings : List String
  rand_calls : Nat

/-- The C type of a parameter (ASTNodes.h 173-179). -/
def arg_c_type (t : CollectionType) : String :=
  if t.base_type = .INT then "int"
  else if t.base_type = .FLOAT then "float"
  else if t.base_type = .STRING then "char*"
  else if t.base_type = .BOOL then "int"
  else if t.base_type = .LIST then "List" ++ vartype_to_c t.element_type ++ "*"
  else if t.base_type = .TUPLE then "Tuple" ++ vartype_to_c t.element_type ++ "*"
  else "DictString" ++ vartype_to_c t.value_type ++ "*"

/-- The C return type of a function (ASTNodes.h 158-165). -/
def return_c_type (t : CollectionType) : String :=
  if t.base_type = .NONE then "void" else arg_c_type t

/-- Whether a base type is STRING, LIST, TUPLE or DICT (ASTNodes.h 183-184, 240-241, 316-317). -/
def is_heap (t : VarType) : Bool :=
  t = .STRING || t = .LIST || t = .TUPLE || t = .DICT

/-- The cleanup call emitted for a name of the given type (ASTNodes.h 207-214,
main.cpp 73-80); nothing for the other types. -/
def free_call (type : CollectionType) (var : String) : String :=
  if type.base_type = .STRING then "    free_string(" ++ var ++ ");\n"
  else if type.base_type = .LIST then
    "    free_list_" ++ vartype_to_c type.element_type ++ "(" ++ var ++ ");\n"
  else if type.base_type = .TUPLE then
    "    free_tuple_" ++ vartype_to_c type.element_type ++ "(" ++ var ++ ");\n"
  else if type.base_type = .DICT then
    "    free_dict_string_" ++ vartype_to_c type.value_type ++ "(" ++ var ++ ");\n"
  else ""

/-- The function `AssignNode::generate_c_code` (ASTNodes.h 80-141). -/
def assign_c_code (var expr : String) (type : CollectionType) (is_declaration : Bool)
    (g : Gen) : String × Gen :=
  let c_type :=
    if type.base_type = .INT then "int"
    else if type.base_type = .FLOAT then "float"
    else if type.base_type = .STRING then "char*"
    else if type.base_type = .BOOL then "int"
    else if type.base_type = .LIST then "List" ++ vartype_to_c type.element_type ++ "*"
    else if type.base_type = .TUPLE then "Tuple" ++ vartype_to_c type.element_type ++ "*"
    else if type.base_type = .DICT then "DictString" ++ vartype_to_c type.value_type ++ "*"
    else ""
  let g := if is_heap type.base_type then { g with gc_strings := g.gc_strings ++ [var] } else g
  if is_declaration then
    if type.base_type = .STRING then
      ("char* " ++ var ++ " = (char*)malloc(strlen(" ++ expr ++ ") + 1);\n" ++
        ("    strcpy(" ++ var ++ ", " ++ expr ++ ");\n"), g)
    else
      (c_type ++ " " ++ var ++ " = " ++ expr ++ ";\n", g)
  else
    if type.base_type = .STRING then
      ("free(" ++ var ++ ");\n" ++
        ("    " ++ var ++ " = (char*)malloc(strlen(" ++ expr ++ ") + 1);\n") ++
        ("    strcpy(" ++ var ++ ", " ++ expr ++ ");\n"), g)
    else
      (var ++ " = " ++ expr ++ ";\n", g)

/-- The parameter list of `FunctionNode::generate_c_code` and the names it registers
(ASTNodes.h 170-189). -/
def function_params : List (String × CollectionType) → Gen → String × Gen
  | [], g => ("", g)
  | (name, type) :: rest, g =>
    let g := if is_heap type.base_type then { g with gc_strings := g.gc_strings ++ [name] } else g
    let r := function_params rest g
    (arg_c_type type ++ " " ++ name ++ (if rest.isEmpty then "" else ", ") ++ r.1, r.2)

/-- The cleanup loop of `FunctionNode::generate_c_code` (ASTNodes.h 198-216), over the
function's private map. -/
def function_cleanup (return_type : CollectionType) (locals : List (String × CollectionType)) :
    List String → String
  | [] => ""
  | var :: rest =>
    (if return_type.base_type = .STRING ∧ var = "return_value" then ""
     else
       match map_find locals var with
       | some var_type => free_call var_type var
       | none => "") ++ function_cleanup return_type locals rest

/-- The function `CallNode::generate_c_code` (ASTNodes.h 236-266). -/
def call_c_code (env : Env) (func_name : String) (args : List String)
    (return_type : CollectionType) (g : Gen) : String × Gen :=
  if is_heap return_type.base_type then
    let temp_var := "temp_call_" ++ toString (env.rand g.rand_calls)
    let c_type :=
      if return_type.base_type = .STRING then "char*"
      else if return_type.base_type = .LIST then "List" ++ vartype_to_c return_type.element_type ++ "*"
      else if return_type.base_type = .TUPLE then
        "Tuple" ++ vartype_to_c return_type.element_type ++ "*"
      else "DictString" ++ vartype_to_c return_type.value_type ++ "*"
    (c_type ++ " " ++ temp_var ++ " = " ++ func_name ++ "(" ++ join_args args ++ ");\n",
      { gc_strings := g.gc_strings ++ [temp_var], rand_calls := g.rand_calls + 1 })
  else
    (func_name ++ "(" ++ join_args args ++ ");\n", g)

/-- The function `MethodCallNode::generate_c_code` (ASTNodes.h 278-304). -/
def method_call_c_code (env : Env) (var method : String) (args : List String)
    (return_type : CollectionType) (g : Gen) : Res (String × Gen) := do
  let temp_var := "temp_method_" ++ toString (env.rand g.rand_calls)
  let g := { g with rand_calls := g.rand_calls + 1 }
  if method = "append" then
    let a0 ← arg_at args 0
    pure ("list_append_" ++ vartype_to_c return_type.element_type ++ "(" ++ var ++ ", " ++ a0 ++
      ");\n", g)
  else if method = "upper" ∨ method = "lower" ∨ method = "strip" then
    pure ("char* " ++ temp_var ++ " = str_" ++ method ++ "(" ++ var ++ ");\n",
      { g with gc_strings := g.gc_strings ++ [temp_var] })
  else if method = "replace" then
    let a0 ← arg_at args 0
    let a1 ← arg_at args 1
    pure ("char* " ++ temp_var ++ " = str_replace(" ++ var ++ ", " ++ a0 ++ ", " ++ a1 ++ ");\n",
      { g with gc_strings := g.gc_strings ++ [temp_var] })
  else if method = "split" then
    let a ← if args.isEmpty then pure "NULL" else arg_at args 0
    pure ("ListString* " ++ temp_var ++ " = str_split(" ++ var ++ ", " ++ a ++ ");\n",
      { g with gc_strings := g.gc_strings ++ [temp_var] })
  else if method = "find" then
    let a0 ← arg_at args 0
    pure ("int " ++ temp_var ++ " = str_find(" ++ var ++ ", " ++ a0 ++ ");\n", g)
  else
    pure ("", g)

/-- The function `ReturnNode::generate_c_code` (ASTNodes.h 314-321). -/
def return_c_code (expr : String) (type : CollectionType) (g : Gen) : String × Gen :=
  ("return_value = " ++ expr ++ ";\n    return return_value;\n",
    if is_heap type.base_type then { g with gc_strings := g.gc_strings ++ ["return_value"] } else g)

/-- The loop of `PrintNode::generate_c_code` (ASTNodes.h 337-374): the format and the
argument text. -/
def print_parts (separator : String) : List (String × VarType) → String × String
  | [] => ("", "")
  | (first, second) :: rest =>
    let conv :=
      if second = .INT then "%d"
      else if second = .FLOAT then "%f"
      else if second = .STRING ∨ second = .BOOL ∨ second = .LIST ∨ second = .TUPLE ∨
          second = .DICT then "%s"
      else ""
    let arg :=
      if second = .BOOL then ", " ++ first ++ " ? \"true\" : \"false\""
      else if second = .LIST then ", list_to_string_" ++ vartype_to_c second ++ "(" ++ first ++ ")"
      else if second = .TUPLE then ", tuple_to_string_" ++ vartype_to_c second ++ "(" ++ first ++ ")"
      else if second = .DICT then
        ", dict_to_string_string_" ++ vartype_to_c second ++ "(" ++ first ++ ")"
      else ", " ++ first
    let r := print_parts separator rest
    (conv ++ (if rest.isEmpty then "" else separator) ++ r.1, arg ++ r.2)

/-- The function `PrintNode::generate_c_code` (ASTNodes.h 331-380). -/
def print_c_code (values : List (String × VarType)) (separator : String) : String :=
  let r := print_parts separator values
  "printf(\"" ++ (r.1 ++ "\\n") ++ "\"" ++ r.2 ++ ");\n"

/-- The slot assignments of `ListNode` and `TupleNode` (ASTNodes.h 522-523, 545-546). -/
def node_slots (temp_var : String) : Nat → List String → String
  | _, [] => ""
  | i, elem :: rest =>
    "    " ++ temp_var ++ "->data[" ++ toString i ++ "] = " ++ elem ++ ";\n" ++
      node_slots temp_var (i + 1) rest

/-- The `dict_set_string_V` calls of `DictNode` (ASTNodes.h 567-568). -/
def node_dict_sets (c temp_var : String) : List (String × String) → String
  | [] => ""
  | entry :: rest =>
    "    dict_set_string_" ++ c ++ "(" ++ temp_var ++ ", " ++ entry.1 ++ ", " ++ entry.2 ++ ");\n" ++
      node_dict_sets c temp_var rest

mutual
/-- The virtual function `ASTNode::generate_c_code`, by subclass (ASTNodes.h 65-589). -/
def generate_c_code (env : Env) : ASTNode → Gen → Res (String × Gen)
  | .HelperNode code, g => .ok (code, g)
  | .AssignNode var expr type is_declaration, g => .ok (assign_c_code var expr type is_declaration g)
  | .FunctionNode name args return_type body locals, g =>
    let ps := function_params args g
    match generate_body env "    " body ps.2 with
    | .error e => .error e
    | .ok (body_code, g) =>
      .ok (return_c_type return_type ++ " " ++ name ++ "(" ++ ps.1 ++ ")\n\x7b\n" ++ body_code ++
        function_cleanup return_type locals g.gc_strings ++ "\n\x7d\n",
        { g with gc_strings := [] })
  | .CallNode func_name args return_type, g => .ok (call_c_code env func_name args return_type g)
  | .MethodCallNode var method args return_type, g =>
    method_call_c_code env var method args return_type g
  | .ReturnNode expr type, g => .ok (return_c_code expr type g)
  | .PrintNode values separator, g => .ok (print_c_code values separator, g)
  | .IfNode condition body elif_clauses else_body, g =>
    match generate_body env "    " body g with
    | .error e => .error e
    | .ok (body_code, g) =>
      match generate_elifs env elif_clauses g with
      | .error e => .error e
      | .ok (elif_code, g) =>
        match generate_body env "    " else_body g with
        | .error e => .error e
        | .ok (else_code, g) =>
          .ok ("if (" ++ condition ++ ")\n\x7b\n" ++ body_code ++ "\n\x7d" ++ elif_code ++
            (if else_body.isEmpty then "" else " else\n\x7b\n" ++ else_code ++ "\n\x7d") ++ "\n", g)
  | .ForNode var start stop body, g =>
    match generate_body env "    " body g with
    | .error e => .error e
    | .ok (body_code, g) =>
      .ok ("for (int " ++ var ++ " = " ++ start ++ "; " ++ var ++ " < " ++ stop ++ "; " ++ var ++
        "++)\n\x7b\n" ++ body_code ++ "\n\x7d\n", g)
  | .WhileNode condition body, g =>
    match generate_body env "    " body g with
    | .error e => .error e
    | .ok (body_code, g) => .ok ("while (" ++ condition ++ ")\n\x7b\n" ++ body_code ++ "\n\x7d\n", g)
  | .MatchNode expr _ cases default_case, g =>
    match generate_cases env cases g with
    | .error e => .error e
    | .ok (cases_code, g) =>
      match generate_body env "        " default_case g with
      | .error e => .error e
      | .ok (default_code, g) =>
        .ok ("switch (" ++ expr ++ ")\n\x7b\n" ++ cases_code ++
          (if default_case.isEmpty then ""
           else "    default:\n" ++ default_code ++ "        break;\n") ++ "\n\x7d\n", g)
  | .ListNode elements type, g =>
    let temp_var := "temp_list_" ++ toString (env.rand g.rand_calls)
    let c := vartype_to_c type.element_type
    .ok ("List" ++ c ++ "* " ++ temp_var ++ " = create_list_" ++ c ++ "(" ++
      toString elements.length ++ ");\n" ++ node_slots temp_var 0 elements ++ "    " ++ temp_var,
      { gc_strings := g.gc_strings ++ [temp_var], rand_calls := g.rand_calls + 1 })
  | .TupleNode elements type, g =>
    let temp_var := "temp_tuple_" ++ toString (env.rand g.rand_calls)
    let c := vartype_to_c type.element_type
    .ok ("Tuple" ++ c ++ "* " ++ temp_var ++ " = create_tuple_" ++ c ++ "(" ++
      toString elements.length ++ ");\n" ++ node_slots temp_var 0 elements ++ "    " ++ temp_var,
      { gc_strings := g.gc_strings ++ [temp_var], rand_calls := g.rand_calls + 1 })
  | .DictNode entries type, g =>
    let temp_var := "temp_dict_" ++ toString (env.rand g.rand_calls)
    let c := vartype_to_c type.value_type
    .ok ("DictString" ++ c ++ "* " ++ temp_var ++ " = create_dict_string_" ++ c ++ "();\n" ++
      node_dict_sets c temp_var entries ++ "    " ++ temp_var,
      { gc_strings := g.gc_strings ++ [temp_var], rand_calls := g.rand_calls + 1 })
  | .LenNode expr expr_type, g =>
    .ok (if expr_type.base_type = .STRING then "strlen(" ++ expr ++ ")" else expr ++ "->size", g)
/-- The loop `for (node : body) code += indent + node->generate_c_code(gc_strings) + "\n"`. -/
def generate_body (env : Env) (indent : String) : List ASTNode → Gen → Res (String × Gen)
  | [], g => .ok ("", g)
  | node :: rest, g =>
    match generate_c_code env node g with
    | .error e => .error e
    | .ok (code, g) =>
      match generate_body env indent rest g with
      | .error e => .error e
      | .ok (rest_code, g) => .ok (indent ++ code ++ "\n" ++ rest_code, g)
/-- The loop over `elif_clauses` of `IfNode::generate_c_code` (ASTNodes.h 401-409). -/
def generate_elifs (env : Env) : List (String × List ASTNode) → Gen → Res (String × Gen)
  | [], g => .ok ("", g)
  | (cond, body) :: rest, g =>
    match generate_body env "    " body g with
    | .error e => .error e
    | .ok (body_code, g) =>
      match generate_elifs env rest g with
      | .error e => .error e
      | .ok (rest_code, g) =>
        .ok (" else if (" ++ cond ++ ")\n\x7b\n" ++ body_code ++ "\n\x7d" ++ rest_code, g)
/-- The loop over `cases` of `MatchNode::generate_c_code` (ASTNodes.h 482-490). -/
def generate_cases (env : Env) : List (String × List ASTNode) → Gen → Res (String × Gen)
  | [], g => .ok ("", g)
  | (pattern, body) :: rest, g =>
    match generate_body env "        " body g with
    | .error e => .error e
    | .ok (body_code, g) =>
      match generate_cases env rest g with
      | .error e => .error e
      | .ok (rest_code, g) =>
        .ok ("    case " ++ pattern ++ ":\n" ++ body_code ++ "        break;\n" ++ rest_code, g)
end

/-! ## Driver (main.cpp 36-84) -/

/-- The first loop of the code generator (main.cpp 49-53): the function definitions. -/
def emit_functions (env : Env) : List ASTNode → Gen → Res (String × Gen)
  | [], g => .ok ("", g)
  | node :: rest, g =>
    if node.is_function then
      match generate_c_code env node g with
      | .error e => .error e
      | .ok (code, g) =>
        match emit_functions env rest g with
        | .error e => .error e
        | .ok (rest_code, g) => .ok (code ++ "\n" ++ rest_code, g)
    else emit_functions env rest g

/-- The second loop of the code generator (main.cpp 58-62): the body of `main`. -/
def emit_main_body (env : Env) : List ASTNode → Gen → Res (String × Gen)
  | [], g => .ok ("", g)
  | node :: rest, g =>
    if node.is_function then emit_main_body env rest g
    else
      match generate_c_code env node g with
      | .error e => .error e
      | .ok (code, g) =>
        match emit_main_body env rest g with
        | .error e => .error e
        | .ok (rest_code, g) => .ok ("    " ++ code ++ "\n" ++ rest_code, g)

/-- The cleanup loop of the code generator (main.cpp 65-82), over the parser's map. -/
def emit_cleanup (vars : List (String × CollectionType)) : List String → String
  | [] => ""
  | var :: rest =>
    (match map_find vars var with
     | some type => free_call type var
     | none => "") ++ emit_cleanup vars rest

/-- The code generator of `main` (main.cpp 44-84) for the program `ast` and the
parser's `variables`; the `rand()` count continues from the parse. -/
def generate_program (env : Env) (ast : List ASTNode) (p : Parser) : Res String :=
  match emit_functions env ast { gc_strings := [], rand_calls := p.rand_calls } with
  | .error e => .error e
  | .ok (functions_code, g) =>
    match emit_main_body env ast g with
    | .error e => .error e
    | .ok (main_code, g) =>
      .ok (functions_code ++ "int main()\n\x7b\n" ++ main_code ++
        emit_cleanup p.variables_ g.gc_strings ++ "    return 0;\n\x7d\n")

/-- The parser and code generator of `main` (main.cpp 40-84) on a token vector: the
text `c_code` written to `output.c`, with the parser record after the parse. -/
def compile (env : Env) (fuel : Nat) (tokens : List Token) : Res (String × Parser) :=
  match parse_program env fuel (Parser.init env tokens) with
  | .error e => .error e
  | .ok (ast, p) =>
    match generate_program env ast p with
    | .error e => .error e
    | .ok c_code => .ok (c_code, p)

/-! ## What the expression parser leaves unchanged -/

/-- The record `q` has the tokens, `variables` and `functions` of `p`. -/
def Frame (p q : Parser) : Prop :=
  q.tokens = p.tokens ∧ q.variables_ = p.variables_ ∧ q.functions = p.functions

/-- A function on parser records that keeps the frame whenever it returns. -/
def Keeps {α : Type} (f : Parser → Res (α × Parser)) : Prop :=
  ∀ p a q, f p = .ok (a, q) → Frame p q

/-! ## Concrete inputs -/

/-- Equality of results is decidable, so that a run on a concrete input can be compared
with its expected outcome. -/
instance decEqRes {α : Type} [DecidableEq α] : DecidableEq (Res α)
  | .ok a, .ok b =>
    if h : a = b then isTrue (by rw [h]) else isFalse (fun h' => by cases h'; exact h rfl)
  | .error a, .error b =>
    if h : a = b then isTrue (by rw [h]) else isFalse (fun h' => by cases h'; exact h rfl)
  | .ok _, .error _ => isFalse (fun h => by cases h)
  | .error _, .ok _ => isFalse (fun h => by cases h)

/-- An environment for the concrete runs: indeterminate records are all NONE, the
indeterminate character is `d`, and the n-th call of `rand()` returns n. -/
def sample_env : Env :=
  { uninit := fun _ => ⟨.NONE, .NONE, .NONE, .NONE⟩, uninit_char := 'd', rand := fun n => n }

/-- A token of the given kind, lexeme and line. -/
def tk (t : TokenType) (v : String) (l : Int) : Token := ⟨t, v, l⟩

/-- The parser record at the start of `ts`, with the given symbol tables. -/
def parser_at (ts : List Token) (vars : List (String × CollectionType))
    (funs : List (String × (List CollectionType × CollectionType))) : Parser :=
  { Parser.init sample_env ts with variables_ := vars, functions := funs }

/-- The type LIST[T] as `parse_collection_type` builds it in `sample_env`. -/
def list_of (t : VarType) : CollectionType := ⟨.LIST, t, .NONE, .NONE⟩

/-- A scalar type. -/
def scalar (t : VarType) : CollectionType := ⟨t, .NONE, .NONE, .NONE⟩

/-- Tokens of the program
```
def f():
    print(1)
list[int] xs = [1]
```
-/
def c1_tokens : List Token :=
  [tk .DEF "def" 1, tk .IDENTIFIER "f" 1, tk .LPAREN "(" 1, tk .RPAREN ")" 1, tk .COLON ":" 1,
   tk .NEWLINE "" 1,
   tk .INDENT "" 2, tk .PRINT "print" 2, tk .LPAREN "(" 2, tk .NUMBER "1" 2, tk .RPAREN ")" 2,
   tk .NEWLINE "" 2,
   tk .DEDENT "" 3, tk .LIST "list" 3, tk .LBRACKET "[" 3, tk .INT "int" 3, tk .RBRACKET "]" 3,
   tk .IDENTIFIER "xs" 3, tk .EQUALS "=" 3, tk .LBRACKET "[" 3, tk .NUMBER "1" 3,
   tk .RBRACKET "]" 3, tk .NEWLINE "" 3,
   tk .EOF_TOKEN "" 4]

/-- Tokens of the statement `int x = 1`. -/
def c3_tokens : List Token :=
  [tk .INT "int" 1, tk .IDENTIFIER "x" 1, tk .EQUALS "=" 1, tk .NUMBER "1" 1, tk .NEWLINE "" 1,
   tk .EOF_TOKEN "" 2]

/-- Tokens of `left op right` followed by the end of the line. -/
def binary_tokens (left op right : Token) : List Token :=
  [left, op, right, tk .NEWLINE "" 1, tk .EOF_TOKEN "" 2]

/-- Variables `xs : LIST[INT]`, `ys : LIST[STRING]`, `t : TUPLE[INT]`, `m : DICT[string, INT]`. -/
def sample_vars : List (String × CollectionType) :=
  [("xs", list_of .INT), ("ys", list_of .STRING), ("t", ⟨.TUPLE, .INT, .NONE, .NONE⟩),
   ("m", ⟨.DICT, .NONE, .STRING, .INT⟩)]

/-- Tokens of the program
```
list[int] xs = [1]
list[string] ys = ["a"]
list[string] zs = xs + ys
print(xs["a"])
```
-/
def c7_tokens : List Token :=
  [tk .LIST "list" 1, tk .LBRACKET "[" 1, tk .INT "int" 1, tk .RBRACKET "]" 1,
   tk .IDENTIFIER "xs" 1, tk .EQUALS "=" 1, tk .LBRACKET "[" 1, tk .NUMBER "1" 1,
   tk .RBRACKET "]" 1, tk .NEWLINE "" 1,
   tk .LIST "list" 2, tk .LBRACKET "[" 2, tk .STRING "string" 2, tk .RBRACKET "]" 2,
   tk .IDENTIFIER "ys" 2, tk .EQUALS "=" 2, tk .LBRACKET "[" 2, tk .STRING_LITERAL "a" 2,
   tk .RBRACKET "]" 2, tk .NEWLINE "" 2,
   tk .LIST "list" 3, tk .LBRACKET "[" 3, tk .STRING "string" 3, tk .RBRACKET "]" 3,
   tk .IDENTIFIER "zs" 3, tk .EQUALS "=" 3, tk .IDENTIFIER "xs" 3, tk .PLUS "+" 3,
   tk .IDENTIFIER "ys" 3, tk .NEWLINE "" 3,
   tk .PRINT "print" 4, tk .LPAREN "(" 4, tk .IDENTIFIER "xs" 4, tk .LBRACKET "[" 4,
   tk .STRING_LITERAL "a" 4, tk .RBRACKET "]" 4, tk .RPAREN ")" 4, tk .NEWLINE "" 4,
   tk .EOF_TOKEN "" 5]

/-- Tokens of the statement `list[int] xs = [1]`. -/
def c4_tokens : List Token :=
  [tk .LIST "list" 1, tk .LBRACKET "[" 1, tk .INT "int" 1, tk .RBRACKET "]" 1,
   tk .IDENTIFIER "xs" 1, tk .EQUALS "=" 1, tk .LBRACKET "[" 1, tk .NUMBER "1" 1,
   tk .RBRACKET "]" 1, tk .NEWLINE "" 1, tk .EOF_TOKEN "" 2]

/-- Tokens of the statement `list[string] xs = [1]`. -/
def c4_bad_tokens : List Token :=
  [tk .LIST "list" 1, tk .LBRACKET "[" 1, tk .STRING "string" 1, tk .RBRACKET "]" 1,
   tk .IDENTIFIER "xs" 1, tk .EQUALS "=" 1, tk .LBRACKET "[" 1, tk .NUMBER "1" 1,
   tk .RBRACKET "]" 1, tk .NEWLINE "" 1, tk .EOF_TOKEN "" 2]

/-- Tokens of the expression `xs["a"]` followed by the end of the line. -/
def c9_tokens : List Token :=
  [tk .IDENTIFIER "xs" 1, tk .LBRACKET "[" 1, tk .STRING_LITERAL "a" 1, tk .RBRACKET "]" 1,
   tk .NEWLINE "" 1, tk .EOF_TOKEN "" 2]

/-- Tokens of the statement `v[0] = 5` for a variable name `v`. -/
def c10_tokens (v : String) : List Token :=
  [tk .IDENTIFIER v 1, tk .LBRACKET "[" 1, tk .NUMBER "0" 1, tk .RBRACKET "]" 1,
   tk .EQUALS "=" 1, tk .NUMBER "5" 1, tk .NEWLINE "" 1, tk .EOF_TOKEN "" 2]

/-- The record `p` at a later point of a parse: cursor, temporary counter, `expr_type`
and includes. -/
def at_point (p : Parser) (pos ctr : Nat) (et : CollectionType) (inc : List String) : Parser :=
  { p with pos := pos, string_temp_counter := ctr, expr_type := et, helper_includes := inc }

/-- The value and the recorded `expr_type` of an expression parse. -/
def typed (r : Res (Expr × Parser)) : Res (Expr × CollectionType) :=
  r.map (fun x => (x.1, x.2.expr_type))

/-- The outcome of a statement parse without the node: the cursor and `variables`. -/
def outcome (r : Res (ASTNode × Parser)) : Res (Nat × List (String × CollectionType)) :=
  r.map (fun x => (x.2.pos, x.2.variables_))

/-! ## Lexer (lexer.h 7-380) -/

/-- The C library test `isalpha` in the C locale. -/
def isalpha (c : Char) : Bool := c.isAlpha

/-- The C library test `isdigit`. -/
def isdigit (c : Char) : Bool := c.isDigit

/-- The C library test `isalnum` in the C locale. -/
def isalnum (c : Char) : Bool := c.isAlphanum

/-- The C library test `isspace` in the C locale: space, `\t`, `\n`, `\v`, `\f`, `\r`. -/
def isspace (c : Char) : Bool :=
  c = ' ' || c = '\t' || c = '\n' || c = Char.ofNat 11 || c = Char.ofNat 12 || c = '\r'

/-- The members of `class Lexer` (lexer.h 10-14). `indent_stack` lists the vector from its back to its
front: the head of the list is `indent_stack.back()`. -/
structure Lexer where
  source : List Char
  pos : Nat
  line : Int
  indent_level : Int
  indent_stack : List Nat
  deriving DecidableEq, Repr

/-- The constructor `Lexer(src)` (lexer.h 17-20). -/
def Lexer.init (src : List Char) : Lexer :=
  { source := src, pos := 0, line := 1, indent_level := 0, indent_stack := [0] }

/-- The characters a loop `while (pos < source.size() && test(source[pos])) value += source[pos++];`
collects, starting at `pos`. -/
def Lexer.run (lx : Lexer) (test : Char → Bool) : List Char :=
  (lx.source.drop lx.pos).takeWhile test

/-- The keyword table of `read_identifier_or_keyword` (lexer.h 187-269). -/
def keyword_type (value : String) : TokenType :=
  if value = "def" then .DEF
  else if value = "return" then .RETURN
  else if value = "print" then .PRINT
  else if value = "int" then .INT
  else if value = "float" then .FLOAT
  else if value = "string" then .STRING
  else if value = "bool" then .BOOL
  else if value = "list" then .LIST
  else if value = "tuple" then .TUPLE
  else if value = "dict" then .DICT
  else if value = "if" then .IF
  else if value = "elif" then .ELIF
  else if value = "else" then .ELSE
  else if value = "for" then .FOR
  else if value = "in" then .IN
  else if value = "range" then .RANGE
  else if value = "while" then .WHILE
  else if value = "match" then .MATCH
  else if value = "case" then .CASE
  else if value = "true" then .TRUE
  else if value = "false" then .FALSE
  else if value = "and" then .AND
  else if value = "or" then .OR
  else if value = "not" then .NOT
  else if value = "sep" then .SEP
  else if value = "len" then .LEN
  else if value = "append" ∨ value = "upper" ∨ value = "lower" ∨ value = "strip" ∨
      value = "replace" ∨ value = "split" ∨ value = "find" then .CALL_METHOD
  else .IDENTIFIER

/-- The function `read_identifier_or_keyword` (lexer.h 180-270). -/
def read_identifier_or_keyword (lx : Lexer) : Token × Lexer :=
  let value := lx.run (fun c => isalnum c || c = '_')
  ({ type := keyword_type (String.mk value), value := String.mk value, line := lx.line },
   { lx with pos := lx.pos + value.length })

/-- The loop of `read_number_or_float` (lexer.h 277-288) over the characters from `pos` on: the value
read, `has_decimal`, and the number of characters consumed. -/
def number_loop (line : Int) : List Char → String → Bool → Nat → Res (String × Bool × Nat)
  | [], value, has_decimal, n => .ok (value, has_decimal, n)
  | c :: rest, value, has_decimal, n =>
    if isdigit c || c = '.' then
      if c = '.' then
        if has_decimal then .error (.thrown ("Invalid Number at Line" ++ toString line))
        else number_loop line rest (value.push c) true (n + 1)
      else number_loop line rest (value.push c) has_decimal (n + 1)
    else .ok (value, has_decimal, n)

/-- The function `read_number_or_float` (lexer.h 272-291). -/
def read_number_or_float (lx : Lexer) : Res (Token × Lexer) := do
  let (value, has_decimal, n) ← number_loop lx.line (lx.source.drop lx.pos) "" false 0
  let lx1 := { lx with pos := lx.pos + n }
  if has_decimal then pure ({ type := .FLOATING, value := value, line := lx.line }, lx1)
  else pure ({ type := .NUMBER, value := value, line := lx.line }, lx1)

/-- The function `read_string` (lexer.h 293-304). -/
def read_string (lx : Lexer) : Token × Lexer :=
  let lx1 := { lx with pos := lx.pos + 1 }
  let value := lx1.run (fun c => c != '"')
  ({ type := .STRING_LITERAL, value := String.mk value, line := lx.line },
   { lx1 with pos := lx1.pos + value.length + 1 })

/-- The loop of `read_fstring` (lexer.h 311-344); it returns the tokens it emits. -/
def fstring_tokens : Nat → Lexer → Res (List Token × Lexer)
  | 0, _ => .error .out_of_fuel
  | n + 1, lx =>
    match lx.source[lx.pos]? with
    | none => .ok ([], lx)
    | some c =>
      if c = '"' then .ok ([], lx)
      else if c = '\x7b' then do
        let (more, lx1) ← fstring_tokens n { lx with pos := lx.pos + 1 }
        pure ({ type := .FSTRING_EXPR_START, value := "\x7b", line := lx.line } :: more, lx1)
      else if c = '\x7d' then do
        let (more, lx1) ← fstring_tokens n { lx with pos := lx.pos + 1 }
        pure ({ type := .FSTRING_EXPR_END, value := "\x7d", line := lx.line } :: more, lx1)
      else if c = ':' then do
        let lx1 := { lx with pos := lx.pos + 1 }
        let format_spec := lx1.run (fun c => c != '\x7d' && c != '"')
        let (more, lx2) ← fstring_tokens n { lx1 with pos := lx1.pos + format_spec.length - 1 }
        pure ({ type := .FSTRING_FORMAT_SPEC, value := String.mk format_spec, line := lx.line } :: more, lx2)
      else do
        let value := lx.run (fun c => c != '"' && c != '\x7b' && c != '\x7d' && c != ':')
        let (more, lx1) ← fstring_tokens n { lx with pos := lx.pos + value.length }
        if value ≠ [] then
          pure ({ type := .STRING_LITERAL, value := String.mk value, line := lx.line } :: more, lx1)
        else pure (more, lx1)

/-- The function `read_fstring` (lexer.h 306-348); it returns the tokens it appends. -/
def read_fstring (fuel : Nat) (lx : Lexer) : Res (List Token × Lexer) := do
  let (body, lx1) ← fstring_tokens fuel { lx with pos := lx.pos + 2 }
  pure ({ type := .FSTRING_START, value := "", line := lx.line } :: body ++
        [{ type := .FSTRING_END, value := "", line := lx.line }],
        { lx1 with pos := lx1.pos + 1 })

/-- The loop `while (spaces != indent_stack.back()) { pop_back; emit DEDENT }` of `handle_indent`
(lexer.h 369-373): the stack left and the tokens emitted. `back()` of an empty vector is undefined
behaviour in C++; the embedding stops with `Fault.out_of_range`. -/
def dedent_loop (spaces : Nat) (line : Int) : List Nat → Res (List Nat × List Token)
  | [] => .error .out_of_range
  | top :: rest =>
    if spaces ≠ top then do
      let (stack, more) ← dedent_loop spaces line rest
      pure (stack, { type := .DEDENT, value := "", line := line } :: more)
    else .ok (top :: rest, [])

/-- The function `handle_indent` (lexer.h 350-379); it returns the tokens it appends. -/
def handle_indent (lx : Lexer) : Res (List Token × Lexer) :=
  let blanks := lx.run (fun c => c = ' ' || c = '\t')
  let spaces := (blanks.map (fun c => if c = '\t' then 4 else 1)).sum
  let lx1 := { lx with pos := lx.pos + blanks.length }
  match lx1.source[lx1.pos]? with
  | none => .ok ([], lx1)
  | some c =>
    if c ≠ '\n' then
      match lx1.indent_stack with
      | [] => .error .out_of_range
      | top :: rest =>
        if spaces > top then
          .ok ([{ type := .INDENT, value := "", line := lx1.line }],
               { lx1 with indent_stack := spaces :: top :: rest })
        else if spaces < top then do
          let (stack, dedents) ← dedent_loop spaces lx1.line (top :: rest)
          match stack with
          | [] => .error .out_of_range
          | back :: _ =>
            if spaces ≠ back then
              .error (.thrown ("Inconsistent Indentation at Line " ++ toString lx1.line))
            else pure (dedents, { lx1 with indent_stack := stack })
        else .ok ([], lx1)
    else .ok ([], lx1)

/-- A branch of `tokenize` that emits one token of `width` characters. -/
def emit (lx : Lexer) (type : TokenType) (value : String) (width : Nat) : Res (List Token × Lexer) :=
  .ok ([{ type := type, value := value, line := lx.line }], { lx with pos := lx.pos + width })

/-- The test `pos + 1 < source.size() && source[pos + 1] == c` of `tokenize`. -/
def next_is (lx : Lexer) (c : Char) : Bool := lx.source[lx.pos + 1]? = some c

/-- One turn of the loop of `tokenize` (lexer.h 28-165) at the character `current = source[pos]`; it
returns the tokens the turn appends. -/
def lex_step (fuel : Nat) (lx : Lexer) (current : Char) : Res (List Token × Lexer) :=
  if current = '\n' then do
    let (more, lx1) ← handle_indent { lx with line := lx.line + 1, pos := lx.pos + 1 }
    pure ({ type := .NEWLINE, value := "", line := lx.line } :: more, lx1)
  else if isspace current && current != '\n' then .ok ([], { lx with pos := lx.pos + 1 })
  else if isalpha current then
    let (token, lx1) := read_identifier_or_keyword lx
    .ok ([token], lx1)
  else if isdigit current || current = '.' then do
    let (token, lx1) ← read_number_or_float lx
    pure ([token], lx1)
  else if current = '"' then
    let (token, lx1) := read_string lx
    .ok ([token], lx1)
  else if current = 'f' && next_is lx '"' then read_fstring fuel lx
  else if current = ':' then emit lx .COLON ":" 1
  else if current = '=' then
    if next_is lx '=' then emit lx .EQ "==" 2 else emit lx .EQUALS "=" 1
  else if current = '!' then
    if next_is lx '=' then emit lx .NOTEQ "!=" 2
    else .error (.thrown ("Invalid Character '!' at Line " ++ toString lx.line))
  else if current = '>' then
    if next_is lx '=' then emit lx .GREATEREQ ">=" 2 else emit lx .GREATER ">" 1
  else if current = '<' then
    if next_is lx '=' then emit lx .LESSEREQ "<=" 2 else emit lx .LESSER "<" 1
  else if current = '+' then emit lx .PLUS "+" 1
  else if current = '-' then emit lx .MINUS "-" 1
  else if current = '*' then emit lx .MULT "*" 1
  else if current = '/' then emit lx .DIV "/" 1
  else if current = '(' then emit lx .LPAREN "(" 1
  else if current = ')' then emit lx .RPAREN ")" 1
  else if current = '[' then emit lx .LBRACKET "[" 1
  else if current = ']' then emit lx .RBRACKET "]" 1
  else if current = '\x7b' then emit lx .LBRACE "\x7b" 1
  else if current = '\x7d' then emit lx .RBRACE "\x7d" 1
  else if current = ',' then emit lx .COMMA "," 1
  else if current = '.' then emit lx .DOT "." 1
  else .error (.thrown ("Invalid Character at Line " ++ toString lx.line))

/-- The loop `while (pos < source.size())` of `tokenize` (lexer.h 26-166). -/
def tokenize_loop : Nat → Lexer → List Token → Res (List Token × Lexer)
  | 0, _, _ => .error .out_of_fuel
  | n + 1, lx, tokens =>
    match lx.source[lx.pos]? with
    | none => .ok (tokens, lx)
    | some current => do
      let (more, lx1) ← lex_step n lx current
      tokenize_loop n lx1 (tokens ++ more)

/-- The loop `while (indent_stack.back() > 0) { pop_back; emit DEDENT }` of `tokenize`
(lexer.h 168-172): the stack left and the tokens emitted. -/
def final_dedents (line : Int) : List Nat → Res (List Nat × List Token)
  | [] => .error .out_of_range
  | top :: rest =>
    if top > 0 then do
      let (stack, more) ← final_dedents line rest
      pure (stack, { type := .DEDENT, value := "", line := line } :: more)
    else .ok (top :: rest, [])

/-- The state of the lexer and the tokens emitted when the loop of `tokenize` ends. -/
def scan (fuel : Nat) (source : String) : Res (List Token × Lexer) :=
  tokenize_loop fuel (Lexer.init source.toList) []

/-- The function `tokenize` (lexer.h 22-177). -/
def tokenize (fuel : Nat) (source : String) : Res (List Token) := do
  let (tokens, lx) ← scan fuel source
  let (_, dedents) ← final_dedents lx.line lx.indent_stack
  pure (tokens ++ dedents ++ [{ type := .EOF_TOKEN, value := "", line := lx.line }])

/-! ## Properties of token lists -/

/-- Number of tokens of one kind in a list. -/
def count_type (kind : TokenType) (tokens : List Token) : Nat :=
  tokens.countP (fun t => t.type = kind)

/-- The indentation depth after a list of tokens read at depth `d`: `INDENT` opens a level, `DEDENT`
closes one, and there is no depth when a `DEDENT` comes at depth 0. -/
def depth_after : Nat → List Token → Option Nat
  | d, [] => some d
  | d, t :: rest =>
    if t.type = .INDENT then depth_after (d + 1) rest
    else if t.type = .DEDENT then (if d = 0 then none else depth_after (d - 1) rest)
    else depth_after d rest

/-- The token `DEDENT` emitted at a line. -/
def dedent_at (line : Int) : Token := { type := .DEDENT, value := "", line := line }

/-- The token `EOF_TOKEN` emitted at a line. -/
def eof_at (line : Int) : Token := { type := .EOF_TOKEN, value := "", line := line }

/-- The kinds of token that a turn of the loop of `tokenize` emits at a character other than a
newline. -/
def plain_kind : TokenType → Bool
  | .INDENT | .DEDENT | .NEWLINE | .EOF_TOKEN | .DOT | .ALIGNMENT
  | .FSTRING_START | .FSTRING_END | .FSTRING_EXPR_START | .FSTRING_EXPR_END | .FSTRING_FORMAT_SPEC => false
  | _ => true

/-- What a turn of the loop of `tokenize` does at a character other than a newline: the indentation
stack, the line number and the source stay, and the tokens emitted are plain tokens of the line. -/
def StepPlain (lx : Lexer) (r : Res (List Token × Lexer)) : Prop :=
  ∀ more lx1, r = .ok (more, lx1) →
    lx1.indent_stack = lx.indent_stack ∧ lx1.line = lx.line ∧ lx1.source = lx.source ∧
    ∀ t ∈ more, plain_kind t.type = true ∧ t.line = lx.line

/-- The kinds of token that the loop of `tokenize` emits. -/
def loop_kind (k : TokenType) : Bool :=
  plain_kind k || k = .NEWLINE || k = .INDENT || k = .DEDENT

/-- The invariant of the loop of `tokenize`: the indentation stack is a list of positive levels above
the level 0, the tokens emitted so far open exactly these levels, and each is of a kind of the loop. -/
def LexInv (tokens : List Token) (lx : Lexer) : Prop :=
  ∃ levels : List Nat, lx.indent_stack = levels ++ [0] ∧ (∀ x ∈ levels, 0 < x) ∧
    depth_after 0 tokens = some levels.length ∧ ∀ t ∈ tokens, loop_kind t.type = true

/-! ## Concrete inputs of the lexer -/

/-- A block of one indented line, closed by the end of the input. -/
def c13_source : String := "if a:\n    b\n"

/-- The tokens of `c13_source`. -/
def c13_tokens : List Token :=
  [tk .IF "if" 1, tk .IDENTIFIER "a" 1, tk .COLON ":" 1, tk .NEWLINE "" 1, tk .INDENT "" 2,
   tk .IDENTIFIER "b" 2, tk .NEWLINE "" 2, tk .DEDENT "" 3, tk .EOF_TOKEN "" 3]

/-- Two nested blocks; the input ends at the inner level. -/
def c15_source : String := "if a:\n    b\n      c"

/-- The tokens of `c15_source`. -/
def c15_tokens : List Token :=
  [tk .IF "if" 1, tk .IDENTIFIER "a" 1, tk .COLON ":" 1, tk .NEWLINE "" 1, tk .INDENT "" 2,
   tk .IDENTIFIER "b" 2, tk .NEWLINE "" 2, tk .INDENT "" 3, tk .IDENTIFIER "c" 3,
   tk .DEDENT "" 3, tk .DEDENT "" 3, tk .EOF_TOKEN "" 3]

/-- A block whose first line is indented by 4 spaces and whose second line by 3. -/
def c14_source : String := "if a:\n    b\n   c\n"

/-- The lexer at the start of the third line of `c14_source`, after the first line of the block. -/
def c14_lexer : Lexer :=
  { source := c14_source.toList, pos := 12, line := 3, indent_level := 0, indent_stack := [4, 0] }

/-- The source of an f-string. -/
def c16_source : String := "f\"hi\""

/-- The tokens `tokenize` returns on `c16_source`. -/
def c16_tokens : List Token :=
  [tk .IDENTIFIER "f" 1, tk .STRING_LITERAL "hi" 1, tk .EOF_TOKEN "" 1]

/-- The lexer at the start of the number of `3.14+x`. -/
def c18_lexer : Lexer := Lexer.init "3.14+x".toList

/-! ## The dispatch table of method calls -/

/-- The dispatch table of the specification for method calls, by the base type of the receiver and
the name of the method: the type of the call, and nothing where the table has no row. -/
def spec_method_type (receiver : VarType) (method : String) : Option CollectionType :=
  if receiver = .LIST ∧ method = "append" then some ⟨.NONE, .NONE, .NONE, .NONE⟩
  else if receiver = .STRING ∧
      (method = "upper" ∨ method = "lower" ∨ method = "strip" ∨ method = "replace") then
    some ⟨.STRING, .NONE, .NONE, .NONE⟩
  else if receiver = .STRING ∧ method = "split" then some ⟨.LIST, .STRING, .NONE, .NONE⟩
  else if receiver = .STRING ∧ method = "find" then some ⟨.INT, .NONE, .NONE, .NONE⟩
  else none

/-- Whether the arguments that the lowering of a method call reads are in the vector: `args[0]` for
`append` and `find`, `args[0]` and `args[1]` for `replace` (parser.h 410, 420, 432; ASTNodes.h
285, 295, 301). -/
def reads_args (method : String) (args : List String) : Bool :=
  if method = "append" ∨ method = "find" then decide (1 ≤ args.length)
  else if method = "replace" then decide (2 ≤ args.length)
  else true

/-- The tokens of a method call `recv.method(args)` that ends a line, with the end of the input. -/
def method_tokens (recv method : String) (args : List Token) : List Token :=
  [tk .IDENTIFIER recv 1, tk .DOT "." 1, tk .CALL_METHOD method 1, tk .LPAREN "(" 1] ++ args ++
  [tk .RPAREN ")" 1, tk .NEWLINE "" 1, tk .EOF_TOKEN "" 2]

/-- The variables of `sample_vars` with `s : STRING` and `n : INT`. -/
def method_vars : List (String × CollectionType) :=
  sample_vars ++ [("s", scalar .STRING), ("n", scalar .INT)]

/-- The C text of a statement parse, lowered with an empty cleanup list. -/
def lowered (r : Res (ASTNode × Parser)) : Res String :=
  match r with
  | .error e => .error e
  | .ok (node, p) =>
    (generate_c_code sample_env node { gc_strings := [], rand_calls := p.rand_calls }).map
      (fun x => x.1)

/-- The fields of the `MethodCallNode` of a statement parse. -/
def method_node (r : Res (ASTNode × Parser)) :
    Res (Option (String × String × List String × CollectionType)) :=
  r.map (fun x =>
    match x.1 with
    | .MethodCallNode var method args return_type => some (var, method, args, return_type)
    | _ => none)

/-- The statement `xs.append("x")`. -/
def c12_tokens : List Token := method_tokens "xs" "append" [tk .STRING_LITERAL "x" 1]

/-- The statement `s.split()`. -/
def c11_tokens : List Token := method_tokens "s" "split" []

/-! ## Concrete inputs of the emitter -/

/-- Tokens of the program
```
list[int] xs = [1]
list[int] xs = [2]
```
-/
def c19_tokens : List Token :=
  [tk .LIST "list" 1, tk .LBRACKET "[" 1, tk .INT "int" 1, tk .RBRACKET "]" 1,
   tk .IDENTIFIER "xs" 1, tk .EQUALS "=" 1, tk .LBRACKET "[" 1, tk .NUMBER "1" 1,
   tk .RBRACKET "]" 1, tk .NEWLINE "" 1,
   tk .LIST "list" 2, tk .LBRACKET "[" 2, tk .INT "int" 2, tk .RBRACKET "]" 2,
   tk .IDENTIFIER "xs" 2, tk .EQUALS "=" 2, tk .LBRACKET "[" 2, tk .NUMBER "2" 2,
   tk .RBRACKET "]" 2, tk .NEWLINE "" 2, tk .EOF_TOKEN "" 3]

/-- The nodes of a declaration `string s = "ab"` followed by the assignment `string s = "cd"`. -/
def c19_ast : List ASTNode :=
  [.AssignNode "s" "\"ab\"" (scalar .STRING) true, .AssignNode "s" "\"cd\"" (scalar .STRING) false]

/-- The parser record after these two statements: `s` is bound to STRING. -/
def c19_record : Parser := parser_at [] [("s", scalar .STRING)] []

/-- The number of places at which `sub` occurs in `text`. -/
def occurrences (sub : String) (text : String) : Nat :=
  (text.toList.tails.filter (fun rest => sub.toList.isPrefixOf rest)).length

/-- A function with a STRING parameter `p` and an empty body. -/
def c20_node : ASTNode := .FunctionNode "f" [("p", scalar .STRING)] (scalar .NONE) [] []

/-- Tokens of the program
```
def f(list[int] xs):
    print(xs)
```
-/
def c20_tokens : List Token :=
  [tk .DEF "def" 1, tk .IDENTIFIER "f" 1, tk .LPAREN "(" 1, tk .LIST "list" 1,
   tk .LBRACKET "[" 1, tk .INT "int" 1, tk .RBRACKET "]" 1, tk .IDENTIFIER "xs" 1,
   tk .RPAREN ")" 1, tk .COLON ":" 1, tk .NEWLINE "" 1, tk .INDENT "" 2,
   tk .PRINT "print" 2, tk .LPAREN "(" 2, tk .IDENTIFIER "xs" 2, tk .RPAREN ")" 2,
   tk .NEWLINE "" 2, tk .DEDENT "" 3, tk .EOF_TOKEN "" 3]

/-! ## The templates of the specification for the emitter -/

/-- The conversion of the specification for a printed value: `%d` for INT, `%f` for FLOAT and `%s`
for STRING, BOOL and the containers. -/
def spec_conversion (t : VarType) : String :=
  if t = .INT then "%d" else if t = .FLOAT then "%f" else "%s"

/-- The texts of a list joined by a separator. -/
def joined (sep : String) : List String → String
  | [] => ""
  | [a] => a
  | a :: b :: rest => a ++ sep ++ joined sep (b :: rest)

/-- The arguments of a call after its first one: each text after a comma and a blank. -/
def after_commas : List String → String
  | [] => ""
  | a :: rest => ", " ++ a ++ after_commas rest

/-- The argument that `PrintNode::generate_c_code` passes to `printf` for one value
(ASTNodes.h 346-373). -/
def print_arg (v : String × VarType) : String :=
  if v.2 = .BOOL then v.1 ++ " ? \"true\" : \"false\""
  else if v.2 = .LIST then "list_to_string_" ++ vartype_to_c v.2 ++ "(" ++ v.1 ++ ")"
  else if v.2 = .TUPLE then "tuple_to_string_" ++ vartype_to_c v.2 ++ "(" ++ v.1 ++ ")"
  else if v.2 = .DICT then "dict_to_string_string_" ++ vartype_to_c v.2 ++ "(" ++ v.1 ++ ")"
  else v.1

/-- The text and the cleanup list of a lowering. -/
def emitted (r : Res (String × Gen)) : Res (String × List String) :=
  r.map (fun x => (x.1, x.2.gc_strings))

/-- Tokens of the statement `print(1, 2.5)`. -/
def c22_tokens : List Token :=
  [tk .PRINT "print" 1, tk .LPAREN "(" 1, tk .NUMBER "1" 1, tk .COMMA "," 1,
   tk .FLOATING "2.5" 1, tk .RPAREN ")" 1, tk .NEWLINE "" 1, tk .EOF_TOKEN "" 2]

/-- Tokens of the statement `print(1, 2.5, sep="-")`. -/
def c22_sep_tokens : List Token :=
  [tk .PRINT "print" 1, tk .LPAREN "(" 1, tk .NUMBER "1" 1, tk .COMMA "," 1,
   tk .FLOATING "2.5" 1, tk .COMMA "," 1, tk .SEP "sep" 1, tk .EQUALS "=" 1,
   tk .STRING_LITERAL "-" 1, tk .RPAREN ")" 1, tk .NEWLINE "" 1, tk .EOF_TOKEN "" 2]

/-- The values and the separator of the `PrintNode` of a statement parse. -/
def print_node (r : Res (ASTNode × Parser)) : Res (Option (List (String × VarType) × String)) :=
  r.map (fun x =>
    match x.1 with
    | .PrintNode values separator => some (values, separator)
    | _ => none)

/-- Tokens of the statement `print(xs)`. -/
def c23_tokens : List Token :=
  [tk .PRINT "print" 1, tk .LPAREN "(" 1, tk .IDENTIFIER "xs" 1, tk .RPAREN ")" 1,
   tk .NEWLINE "" 1, tk .EOF_TOKEN "" 2]

/-- Tokens of the statement `print(t, m)`. -/
def c23_pair_tokens : List Token :=
  [tk .PRINT "print" 1, tk .LPAREN "(" 1, tk .IDENTIFIER "t" 1, tk .COMMA "," 1,
   tk .IDENTIFIER "m" 1, tk .RPAREN ")" 1, tk .NEWLINE "" 1, tk .EOF_TOKEN "" 2]

/-- Tokens of the f-string whose body is the expression `xs`, as `read_fstring` would emit them. -/
def c23_fstring_tokens : List Token :=
  [tk .FSTRING_START "" 1, tk .FSTRING_EXPR_START "\x7b" 1, tk .IDENTIFIER "xs" 1,
   tk .FSTRING_EXPR_END "\x7d" 1, tk .FSTRING_END "" 1, tk .NEWLINE "" 1, tk .EOF_TOKEN "" 2]

/-- Tokens of the expression `m["a"]`. -/
def c24_read_tokens : List Token :=
  [tk .IDENTIFIER "m" 1, tk .LBRACKET "[" 1, tk .STRING_LITERAL "a" 1, tk .RBRACKET "]" 1,
   tk .NEWLINE "" 1, tk .EOF_TOKEN "" 2]

/-- Tokens of the statement `m["a"] = 1`. -/
def c24_write_tokens : List Token :=
  [tk .IDENTIFIER "m" 1, tk .LBRACKET "[" 1, tk .STRING_LITERAL "a" 1, tk .RBRACKET "]" 1,
   tk .EQUALS "=" 1, tk .NUMBER "1" 1, tk .NEWLINE "" 1, tk .EOF_TOKEN "" 2]

/-- Tokens of the dict literal with the single entry `"a": 1`. -/
def c24_literal_tokens : List Token :=
  [tk .LBRACE "\x7b" 1, tk .STRING_LITERAL "a" 1, tk .COLON ":" 1, tk .NUMBER "1" 1,
   tk .RBRACE "\x7d" 1, tk .NEWLINE "" 1, tk .EOF_TOKEN "" 2]

/-- The statement `xs.append(1)`. -/
def c25_tokens : List Token := method_tokens "xs" "append" [tk .NUMBER "1" 1]

/-- Tokens of the program `list[int] xs = [1, 2]`. -/
def c26_tokens : List Token :=
  [tk .LIST "list" 1, tk .LBRACKET "[" 1, tk .INT "int" 1, tk .RBRACKET "]" 1,
   tk .IDENTIFIER "xs" 1, tk .EQUALS "=" 1, tk .LBRACKET "[" 1, tk .NUMBER "1" 1,
   tk .COMMA "," 1, tk .NUMBER "2" 1, tk .RBRACKET "]" 1, tk .NEWLINE "" 1,
   tk .EOF_TOKEN "" 2]

/-- The text of an expression parse. -/
def text_of (r : Res (Expr × Parser)) : Res String := r.map (fun x => x.1.1)

/-- An environment in which the record declared without initialiser at parser.h 153 holds INT in
every slot. -/
def stale_env : Env :=
  { uninit := fun _ => ⟨.INT, .INT, .INT, .INT⟩, uninit_char := 'd', rand := fun n => n }

/-- Tokens of the type `list[int]`, followed by a name. -/
def c28_list_tokens : List Token :=
  [tk .LIST "list" 1, tk .LBRACKET "[" 1, tk .INT "int" 1, tk .RBRACKET "]" 1,
   tk .IDENTIFIER "xs" 1, tk .EOF_TOKEN "" 1]

/-- Tokens of the type `dict[string, int]`, followed by a name. -/
def c28_dict_tokens : List Token :=
  [tk .DICT "dict" 1, tk .LBRACKET "[" 1, tk .STRING "string" 1, tk .COMMA "," 1,
   tk .INT "int" 1, tk .RBRACKET "]" 1, tk .IDENTIFIER "m" 1, tk .EOF_TOKEN "" 1]

/-- Tokens of `list[list[int]]`. -/
def c28_nested_tokens : List Token :=
  [tk .LIST "list" 1, tk .LBRACKET "[" 1, tk .LIST "list" 1, tk .LBRACKET "[" 1,
   tk .INT "int" 1, tk .RBRACKET "]" 1, tk .RBRACKET "]" 1, tk .EOF_TOKEN "" 1]

/-- Tokens of `dict[int, int]`. -/
def c28_key_tokens : List Token :=
  [tk .DICT "dict" 1, tk .LBRACKET "[" 1, tk .INT "int" 1, tk .COMMA "," 1,
   tk .INT "int" 1, tk .RBRACKET "]" 1, tk .EOF_TOKEN "" 1]

/-- Whether a type is INT, FLOAT, STRING or BOOL. -/
def is_scalar (t : VarType) : Bool :=
  t = .INT || t = .FLOAT || t = .STRING || t = .BOOL

/-- The type of a type annotation parse. -/
def type_of (r : Res (CollectionType × Parser)) : Res CollectionType := r.map (fun x => x.1)

/-- The cleanup list when the two loops of the code generator end (main.cpp 49-62), with the
`variables` of the parser. -/
def cleanup_names (env : Env) (fuel : Nat) (tokens : List Token) :
    Res (List String × List (String × CollectionType)) :=
  match parse_program env fuel (Parser.init env tokens) with
  | .error e => .error e
  | .ok (ast, p) =>
    match emit_functions env ast { gc_strings := [], rand_calls := p.rand_calls } with
    | .error e => .error e
    | .ok (_, g) =>
      match emit_main_body env ast g with
      | .error e => .error e
      | .ok (_, g) => .ok (g.gc_strings, p.variables_)

/-- Tokens of the program
```
def f(): list[int]:
    return [1]
f()
```
-/
def c21_tokens : List Token :=
  [tk .DEF "def" 1, tk .IDENTIFIER "f" 1, tk .LPAREN "(" 1, tk .RPAREN ")" 1, tk .COLON ":" 1,
   tk .LIST "list" 1, tk .LBRACKET "[" 1, tk .INT "int" 1, tk .RBRACKET "]" 1, tk .COLON ":" 1,
   tk .NEWLINE "" 1, tk .INDENT "" 2, tk .RETURN "return" 2, tk .LBRACKET "[" 2,
   tk .NUMBER "1" 2, tk .RBRACKET "]" 2, tk .NEWLINE "" 2, tk .DEDENT "" 3,
   tk .IDENTIFIER "f" 3, tk .LPAREN "(" 3, tk .RPAREN ")" 3, tk .NEWLINE "" 3,
   tk .EOF_TOKEN "" 4]

/-- The fields of the `AssignNode` of a statement parse. -/
def assign_node (r : Res (ASTNode × Parser)) :
    Res (Option (String × String × CollectionType × Bool)) :=
  r.map (fun x =>
    match x.1 with
    | .AssignNode var expr type is_declaration => some (var, expr, type, is_declaration)
    | _ => none)

/-- Tokens of the statement `list[int] xs = ys`. -/
def c29_tokens : List Token :=
  [tk .LIST "list" 1, tk .LBRACKET "[" 1, tk .INT "int" 1, tk .RBRACKET "]" 1,
   tk .IDENTIFIER "xs" 1, tk .EQUALS "=" 1, tk .IDENTIFIER "ys" 1, tk .NEWLINE "" 1,
   tk .EOF_TOKEN "" 2]

/-- Variables `ys : LIST[INT]` and `xs : INT`, the latter as a loop variable binds it. -/
def c29_vars : List (String × CollectionType) := [("ys", list_of .INT), ("xs", scalar .INT)]

/-! ## What the whole parser leaves or only increases -/

/-- The record `q` has the tokens of `p`, every include of `p`, and counters that are not lower. -/
def Advances (p q : Parser) : Prop :=
  q.tokens = p.tokens ∧ (∀ h, h ∈ p.helper_includes → h ∈ q.helper_includes) ∧
  p.string_temp_counter ≤ q.string_temp_counter ∧ p.rand_calls ≤ q.rand_calls

/-- A function on parser records whose result has advanced whenever it returns. -/
def Moves {α : Type} (f : Parser → Res (α × Parser)) : Prop :=
  ∀ p a q, f p = .ok (a, q) → Advances p q

/-! ## Type annotations and their headers -/

/-- The header that the specification names for a container type: `list_T.h`, `tuple_T.h`
or `dict_string_V.h`; a scalar type has none. -/
def spec_header (t : CollectionType) : Option String :=
  match t.base_type with
  | .LIST => some ("list_" ++ vartype_to_c t.element_type ++ ".h")
  | .TUPLE => some ("tuple_" ++ vartype_to_c t.element_type ++ ".h")
  | .DICT => some ("dict_string_" ++ vartype_to_c t.value_type ++ ".h")
  | _ => none

mutual
/-- The types read from the type annotations of a statement: the declared type of an
assignment (parser.h 923), the parameter types and the return type of a function definition
(parser.h 971, 982, 999), and those of the statements of every block. -/
def annotations : ASTNode → List CollectionType
  | .AssignNode _ _ type _ => [type]
  | .FunctionNode _ args return_type body _ =>
    args.map Prod.snd ++ [return_type] ++ annotations_of_body body
  | .IfNode _ body elif_clauses else_body =>
    annotations_of_body body ++ annotations_of_clauses elif_clauses ++ annotations_of_body else_body
  | .ForNode _ _ _ body => annotations_of_body body
  | .WhileNode _ body => annotations_of_body body
  | .MatchNode _ _ cases default_case =>
    annotations_of_clauses cases ++ annotations_of_body default_case
  | .HelperNode _ => []
  | .CallNode _ _ _ => []
  | .MethodCallNode _ _ _ _ => []
  | .ReturnNode _ _ => []
  | .PrintNode _ _ => []
  | .ListNode _ _ => []
  | .TupleNode _ _ => []
  | .DictNode _ _ => []
  | .LenNode _ _ => []
/-- The annotations of the statements of a block. -/
def annotations_of_body : List ASTNode → List CollectionType
  | [] => []
  | node :: rest => annotations node ++ annotations_of_body rest
/-- The annotations of the blocks of `elif` clauses or `case` arms. -/
def annotations_of_clauses : List (String × List ASTNode) → List CollectionType
  | [] => []
  | (_, body) :: rest => annotations_of_body body ++ annotations_of_clauses rest
end

/-- Every container type of `types` has its header in `includes`. -/
def Covered (types : List CollectionType) (includes : List String) : Prop :=
  ∀ t, t ∈ types → ∀ h, spec_header t = some h → h ∈ includes

/-- A statement parser whose record has the headers of the annotations of the statement it
returns. -/
def Annotated (f : Stmt) : Prop :=
  ∀ p a q, f p = .ok (a, q) → Covered (annotations a) q.helper_includes

/-- The annotations of the program and `helper_includes` when `parse_program` has returned. -/
def annotated (env : Env) (fuel : Nat) (tokens : List Token) :
    Res (List CollectionType × List String) :=
  (parse_program env fuel (Parser.init env tokens)).map
    (fun r => (annotations_of_body r.1, r.2.helper_includes))

/-- Tokens of the program `dict[string, int] m = {"a": 1, "b": 2}`. -/
def c30_tokens : List Token :=
  [tk .DICT "dict" 1, tk .LBRACKET "[" 1, tk .STRING "string" 1, tk .COMMA "," 1,
   tk .INT "int" 1, tk .RBRACKET "]" 1, tk .IDENTIFIER "m" 1, tk .EQUALS "=" 1,
   tk .LBRACE "\x7b" 1, tk .STRING_LITERAL "a" 1, tk .COLON ":" 1, tk .NUMBER "1" 1,
   tk .COMMA "," 1, tk .STRING_LITERAL "b" 1, tk .COLON ":" 1, tk .NUMBER "2" 1,
   tk .RBRACE "\x7d" 1, tk .NEWLINE "" 1, tk .EOF_TOKEN "" 2]

/-- Tokens of the program
```
def f(list[float] xs, tuple[bool] t): list[string]:
    print(1)
```
-/
def c30_function_tokens : List Token :=
  [tk .DEF "def" 1, tk .IDENTIFIER "f" 1, tk .LPAREN "(" 1,
   tk .LIST "list" 1, tk .LBRACKET "[" 1, tk .FLOAT "float" 1, tk .RBRACKET "]" 1,
   tk .IDENTIFIER "xs" 1, tk .COMMA "," 1,
   tk .TUPLE "tuple" 1, tk .LBRACKET "[" 1, tk .BOOL "bool" 1, tk .RBRACKET "]" 1,
   tk .IDENTIFIER "t" 1, tk .RPAREN ")" 1, tk .COLON ":" 1,
   tk .LIST "list" 1, tk .LBRACKET "[" 1, tk .STRING "string" 1, tk .RBRACKET "]" 1,
   tk .COLON ":" 1, tk .NEWLINE "" 1, tk .INDENT "" 2, tk .PRINT "print" 2, tk .LPAREN "(" 2,
   tk .NUMBER "1" 2, tk .RPAREN ")" 2, tk .NEWLINE "" 2, tk .DEDENT "" 3, tk .EOF_TOKEN "" 3]

/-! ## Concrete inputs of the operator loop -/

/-- The C operator that the specification names for a binary operator token. -/
def spec_operator : TokenType → String
  | .PLUS => "+"
  | .MINUS => "-"
  | .MULT => "*"
  | .DIV => "/"
  | .EQ => "=="
  | .NOTEQ => "!="
  | .LESSER => "<"
  | .GREATER => ">"
  | .LESSEREQ => "<="
  | .GREATEREQ => ">="
  | .AND => "&&"
  | .OR => "||"
  | _ => ""

/-- Variables `a`, `b` : INT and `s` : STRING. -/
def c33_vars : List (String × CollectionType) :=
  [("a", scalar .INT), ("b", scalar .INT), ("s", scalar .STRING)]

/-- Tokens of the expression `a <= b`. -/
def c33_tokens : List Token :=
  [tk .IDENTIFIER "a" 1, tk .LESSEREQ "<=" 1, tk .IDENTIFIER "b" 1, tk .NEWLINE "" 1,
   tk .EOF_TOKEN "" 2]

/-- Tokens of the expression `a >= b`. -/
def c33_greater_tokens : List Token :=
  [tk .IDENTIFIER "a" 1, tk .GREATEREQ ">=" 1, tk .IDENTIFIER "b" 1, tk .NEWLINE "" 1,
   tk .EOF_TOKEN "" 2]

/-- Tokens of the expression `len(s) + 1`. -/
def c32_tokens : List Token :=
  [tk .LEN "len" 1, tk .LPAREN "(" 1, tk .IDENTIFIER "s" 1, tk .RPAREN ")" 1, tk .PLUS "+" 1,
   tk .NUMBER "1" 1, tk .NEWLINE "" 1, tk .EOF_TOKEN "" 2]

/-- Tokens of the statement `print(len(s) + 1)`. -/
def c32_print_tokens : List Token :=
  [tk .PRINT "print" 1, tk .LPAREN "(" 1, tk .LEN "len" 1, tk .LPAREN "(" 1, tk .IDENTIFIER "s" 1,
   tk .RPAREN ")" 1, tk .PLUS "+" 1, tk .NUMBER "1" 1, tk .RPAREN ")" 1, tk .NEWLINE "" 1,
   tk .EOF_TOKEN "" 2]

/-- Tokens of the expression `a + 1`. -/
def c32_plain_tokens : List Token :=
  [tk .IDENTIFIER "a" 1, tk .PLUS "+" 1, tk .NUMBER "1" 1, tk .NEWLINE "" 1, tk .EOF_TOKEN "" 2]

/-- Tokens of the expression `[1] + [2]`. -/
def c32_list_tokens : List Token :=
  [tk .LBRACKET "[" 1, tk .NUMBER "1" 1, tk .RBRACKET "]" 1, tk .PLUS "+" 1,
   tk .LBRACKET "[" 1, tk .NUMBER "2" 1, tk .RBRACKET "]" 1, tk .NEWLINE "" 1, tk .EOF_TOKEN "" 2]

/-- The value and the cursor of an expression parse. -/
def value_at (r : Res (Expr × Parser)) : Res (Expr × Nat) := r.map (fun x => (x.1, x.2.pos))

/-- Tokens of the expression `(1 + 2)`. -/
def c35_tokens : List Token :=
  [tk .LPAREN "(" 1, tk .NUMBER "1" 1, tk .PLUS "+" 1, tk .NUMBER "2" 1, tk .RPAREN ")" 1,
   tk .NEWLINE "" 1, tk .EOF_TOKEN "" 2]

/-- Tokens of the statement `int x = (1 + 2)`. -/
def c35_int_tokens : List Token :=
  [tk .INT "int" 1, tk .IDENTIFIER "x" 1, tk .EQUALS "=" 1] ++ c35_tokens

/-- Tokens of the statement `list[int] xs = (1 + 2)`. -/
def c35_list_tokens : List Token :=
  [tk .LIST "list" 1, tk .LBRACKET "[" 1, tk .INT "int" 1, tk .RBRACKET "]" 1,
   tk .IDENTIFIER "xs" 1, tk .EQUALS "=" 1] ++ c35_tokens

/-- Tokens of the expression `1 - 2 - 3`. -/
def c34_minus_tokens : List Token :=
  [tk .NUMBER "1" 1, tk .MINUS "-" 1, tk .NUMBER "2" 1, tk .MINUS "-" 1, tk .NUMBER "3" 1,
   tk .NEWLINE "" 1, tk .EOF_TOKEN "" 2]

/-- Tokens of the expression `1 * 2 + 3`. -/
def c34_mult_tokens : List Token :=
  [tk .NUMBER "1" 1, tk .MULT "*" 1, tk .NUMBER "2" 1, tk .PLUS "+" 1, tk .NUMBER "3" 1,
   tk .NEWLINE "" 1, tk .EOF_TOKEN "" 2]

/-- Tokens of the expression `1 <= 2 <= 3`. -/
def c34_lesseq_tokens : List Token :=
  [tk .NUMBER "1" 1, tk .LESSEREQ "<=" 1, tk .NUMBER "2" 1, tk .LESSEREQ "<=" 1, tk .NUMBER "3" 1,
   tk .NEWLINE "" 1, tk .EOF_TOKEN "" 2]

/-- Tokens of the expression `"a" + "snprintf b" + "c"`. -/
def c34_literal_tokens : List Token :=
  [tk .STRING_LITERAL "a" 1, tk .PLUS "+" 1, tk .STRING_LITERAL "snprintf b" 1, tk .PLUS "+" 1,
   tk .STRING_LITERAL "c" 1, tk .NEWLINE "" 1, tk .EOF_TOKEN "" 2]

/-! ## Concrete inputs of the lexer: dots and lines -/

/-- The source of a method call. -/
def c36_source : String := "s.upper()"

/-- The tokens `tokenize` returns on `c36_source`. -/
def c36_tokens : List Token :=
  [tk .IDENTIFIER "s" 1, tk .FLOATING "." 1, tk .CALL_METHOD "upper" 1, tk .LPAREN "(" 1,
   tk .RPAREN ")" 1, tk .EOF_TOKEN "" 1]

/-- The line of every token is 1 plus the number of NEWLINE tokens before it. -/
def lines_counted (tokens : List Token) : Prop :=
  ∀ (i : Nat) (t : Token), tokens[i]? = some t →
    t.line = 1 + (count_type .NEWLINE (tokens.take i) : Int)

/-- The lines of the tokens do not decrease along the list. -/
def lines_sorted (tokens : List Token) : Prop :=
  ∀ (i j : Nat) (t u : Token), i ≤ j → tokens[i]? = some t → tokens[j]? = some u → t.line ≤ u.line

/-- A source of three lines with a block and a string. -/
def c37_source : String := "if a:\n    b = \"x\"\nc\n"

/-- The tokens of `c37_source`. -/
def c37_tokens : List Token :=
  [tk .IF "if" 1, tk .IDENTIFIER "a" 1, tk .COLON ":" 1, tk .NEWLINE "" 1, tk .INDENT "" 2,
   tk .IDENTIFIER "b" 2, tk .EQUALS "=" 2, tk .STRING_LITERAL "x" 2, tk .NEWLINE "" 2,
   tk .DEDENT "" 3, tk .IDENTIFIER "c" 3, tk .NEWLINE "" 3, tk .EOF_TOKEN "" 4]

/-- The tokens are numbered from the line `l` on: each token has the line reached, and a NEWLINE
token ends its line. -/
def lines_from : Int → List Token → Prop
  | _, [] => True
  | l, t :: rest => t.line = l ∧ lines_from (if t.type = .NEWLINE then l + 1 else l) rest

/-- What a turn of the loop of `tokenize` does to the position: the turn ends, and when it returns
the position has moved forward in the same source. -/
def StepAdvances (lx : Lexer) (r : Res (List Token × Lexer)) : Prop :=
  r ≠ .error .out_of_fuel ∧
  ∀ more lx1, r = .ok (more, lx1) → lx.pos < lx1.pos ∧ lx1.source = lx.source

/-! ## The names of the temporaries -/

/-- The prefixes of the names that the parser builds from `string_temp_counter`
(parser.h 555, 619, 661, 716). -/
def temp_prefixes : List String := ["temp_string_", "temp_list_", "temp_tuple_", "temp_dict_"]

/-- The name `prefix + to_string(N)` of a temporary. -/
def temp_name (pre : String) (n : Nat) : String := pre ++ toString n

/-- The number that a text of decimal digits stands for, read after the number `acc`. -/
def digits_value (acc : Nat) (digits : List Char) : Nat :=
  digits.foldl (fun a c => a * 10 + (c.toNat - 48)) acc

/-- The value of `string_temp_counter` when a parse has returned. -/
def counter_after {α : Type} (r : Res (α × Parser)) : Res Nat :=
  r.map (fun x => x.2.string_temp_counter)

/-- Tokens of the program `print([1], [2])`. -/
def c31_tokens : List Token :=
  [tk .PRINT "print" 1, tk .LPAREN "(" 1, tk .LBRACKET "[" 1, tk .NUMBER "1" 1,
   tk .RBRACKET "]" 1, tk .COMMA "," 1, tk .LBRACKET "[" 1, tk .NUMBER "2" 1,
   tk .RBRACKET "]" 1, tk .RPAREN ")" 1, tk .NEWLINE "" 1, tk .EOF_TOKEN "" 2]

/-- Tokens of a `print` whose f-string has no FSTRING_END token: PRINT, LPAREN, FSTRING_START,
RPAREN, NEWLINE, EOF_TOKEN. -/
def c40_tokens : List Token :=
  [tk .PRINT "print" 1, tk .LPAREN "(" 1, tk .FSTRING_START "" 1, tk .RPAREN ")" 1,
   tk .NEWLINE "" 1, tk .EOF_TOKEN "" 2]

/-! ## Reads of the token vector -/

/-- The parser record is on the vector `toks`, which has an EOF_TOKEN at the index `e`, and the
cursor is not after `e`. -/
def Guarded (toks : List Token) (e : Nat) (p : Parser) : Prop :=
  p.tokens = toks ∧ p.pos ≤ e ∧ ∃ t, toks[e]? = some t ∧ t.type = .EOF_TOKEN

/-- The tokens of a method call `x.m(args` have been read from a record with the cursor not after
`e`, the arguments by `rec`, and the lowering of the method `m` reads an argument that is not in
the vector `args` (parser.h 410, 420, 432). -/
def ShortArgs (toks : List Token) (e : Nat) (rec : Parser → Res (Expr × Parser)) (n : Nat) :
    Prop :=
  ∃ (p : Parser) (tok : Token) (p1 : Parser) (d : Token) (p2 : Parser) (mtok : Token)
    (p3 : Parser) (l : Token) (p4 : Parser) (args : List String) (p5 : Parser),
    Guarded toks e p ∧ expect .IDENTIFIER p = .ok (tok, p1) ∧ expect .DOT p1 = .ok (d, p2) ∧
    expect .CALL_METHOD p2 = .ok (mtok, p3) ∧ expect .LPAREN p3 = .ok (l, p4) ∧
    parse_args rec n p4 = .ok (args, p5) ∧ reads_args mtok.value args = false

/-- Some expression of the parse is a method call whose lowering reads an argument that is not in
its vector of arguments. -/
def ShortCall (env : Env) (toks : List Token) (e : Nat) : Prop :=
  ∃ k, ShortArgs toks e (parse_expression env k) k

/-- A run that reads no token outside the vector: when it stops at a read out of range, `M` holds
(the read was that of an argument of a method call, in another vector), and when it returns the
cursor is not after `e`. -/
def SafeRun (M : Prop) (toks : List Token) (e : Nat) {α : Type} (r : Res (α × Parser)) : Prop :=
  (r = .error .out_of_range → M) ∧ ∀ a q, r = .ok (a, q) → Guarded toks e q

/-- A parser function all of whose runs from a guarded record are safe. -/
def Safe (M : Prop) (toks : List Token) (e : Nat) {α : Type} (f : Parser → Res (α × Parser)) :
    Prop :=
  ∀ p, Guarded toks e p → SafeRun M toks e (f p)

/-- The cursor `pos` when a parse has returned. -/
def cursor_after {α : Type} (r : Res (α × Parser)) : Res Nat :=
  r.map (fun x => x.2.pos)

/-- Tokens of the program `xs.append()` printed after `list[int] xs = [1]`, a method call without
the argument that its lowering reads. -/
def c38_method_tokens : List Token :=
  [tk .LIST "list" 1, tk .LBRACKET "[" 1, tk .INT "int" 1, tk .RBRACKET "]" 1,
   tk .IDENTIFIER "xs" 1, tk .EQUALS "=" 1, tk .LBRACKET "[" 1, tk .NUMBER "1" 1,
   tk .RBRACKET "]" 1, tk .NEWLINE "" 1,
   tk .PRINT "print" 2, tk .LPAREN "(" 2, tk .IDENTIFIER "xs" 2, tk .DOT "." 2,
   tk .CALL_METHOD "append" 2, tk .LPAREN "(" 2, tk .RPAREN ")" 2, tk .RPAREN ")" 2,
   tk .NEWLINE "" 2, tk .EOF_TOKEN "" 3]

/-! ## The tokens an expression consumes -/

/-- The record `q` is on the tokens of `p`, its cursor is not before that of `p`, and no token
between the two cursors is a SEP token. -/
def SepFree (p q : Parser) : Prop :=
  q.tokens = p.tokens ∧ p.pos ≤ q.pos ∧
  ∀ j t, p.pos ≤ j → j < q.pos → p.tokens[j]? = some t → t.type ≠ .SEP

/-- A run started after `p0` that, when it returns, has consumed no SEP token since `p0`. -/
def Spans (p0 : Parser) {α : Type} (r : Res (α × Parser)) : Prop :=
  ∀ a q, r = .ok (a, q) → SepFree p0 q

/-- A parser function that consumes no SEP token. -/
def SpanFn {α : Type} (f : Parser → Res (α × Parser)) : Prop :=
  ∀ p, Spans p (f p)

/-- The separator that the tokens of a statement `print(...)` give: the text of `sep = "..."` when
these three tokens stand before the closing parenthesis at the index `stop`, inside the statement
that begins at the index `start`, and a single blank otherwise. -/
def spec_separator (tokens : List Token) (start stop : Nat) : String :=
  match tokens[stop - 3]?, tokens[stop - 2]?, tokens[stop - 1]? with
  | some s, some e, some lit =>
    if start + 3 ≤ stop ∧ s.type = .SEP ∧ e.type = .EQUALS ∧ lit.type = .STRING_LITERAL then
      lit.value
    else " "
  | _, _, _ => " "

/-- The values and the separator of the `PrintNode` of a statement parse, with the cursor after the
statement. -/
def print_parse (r : Res (ASTNode × Parser)) :
    Res (Option (List (String × VarType) × String) × Nat) :=
  r.map (fun x =>
    (match x.1 with
     | .PrintNode values separator => some (values, separator)
     | _ => none, x.2.pos))

/-! ## The variables among the names of the cleanup list -/

/-- The parameter names that `FunctionNode::generate_c_code` adds to `gc_strings`
(ASTNodes.h 183-185): those whose type has base STRING, LIST, TUPLE or DICT. -/
def heap_parameters : List (String × CollectionType) → List String
  | [] => []
  | (name, type) :: rest =>
    (if is_heap type.base_type then [name] else []) ++ heap_parameters rest

mutual
/-- The variable names that the `generate_c_code` of a statement adds to `gc_strings`: the
assigned name of an `AssignNode` whose type has base STRING, LIST, TUPLE or DICT
(ASTNodes.h 92-109), such parameters of a `FunctionNode` (ASTNodes.h 183-185), and those of the
statements of every block. -/
def variable_names : ASTNode → List String
  | .AssignNode var _ type _ => if is_heap type.base_type then [var] else []
  | .FunctionNode _ args _ body _ => heap_parameters args ++ variable_names_of_body body
  | .IfNode _ body elif_clauses else_body =>
    variable_names_of_body body ++ variable_names_of_clauses elif_clauses ++
      variable_names_of_body else_body
  | .ForNode _ _ _ body => variable_names_of_body body
  | .WhileNode _ body => variable_names_of_body body
  | .MatchNode _ _ cases default_case =>
    variable_names_of_clauses cases ++ variable_names_of_body default_case
  | .HelperNode _ => []
  | .CallNode _ _ _ => []
  | .MethodCallNode _ _ _ _ => []
  | .ReturnNode _ _ => []
  | .PrintNode _ _ => []
  | .ListNode _ _ => []
  | .TupleNode _ _ => []
  | .DictNode _ _ => []
  | .LenNode _ _ => []
/-- The variable names of the statements of a block. -/
def variable_names_of_body : List ASTNode → List String
  | [] => []
  | node :: rest => variable_names node ++ variable_names_of_body rest
/-- The variable names of the blocks of `elif` clauses or `case` arms. -/
def variable_names_of_clauses : List (String × List ASTNode) → List String
  | [] => []
  | (_, body) :: rest => variable_names_of_body body ++ variable_names_of_clauses rest
end

/-- Whether a name is one that the code generator makes up itself: `return_value` of a
`ReturnNode` (ASTNodes.h 316-318), or a name with the prefix of the temporary of a `CallNode`
(ASTNodes.h 242), a `MethodCallNode` (ASTNodes.h 280), a `ListNode`, a `TupleNode` or a
`DictNode` (ASTNodes.h 518, 541, 564). -/
def is_temporary (x : String) : Bool :=
  x = "return_value" ||
    ["temp_call_", "temp_method_", "temp_list_", "temp_tuple_", "temp_dict_"].any
      (fun pre => pre.data.isPrefixOf x.data)

/-- Whether a type is one with base STRING, LIST, TUPLE or DICT, or the type INT that
`parse_for` gives to its loop variable (parser.h 1275). -/
def cleanup_type (T : CollectionType) : Bool :=
  is_heap T.base_type || decide (T = ⟨.INT, .NONE, .NONE, .NONE⟩)

/-- Whether the name is bound in the table, to a type of `cleanup_type`. -/
def is_bound (vars : List (String × CollectionType)) (x : String) : Bool :=
  match map_find vars x with
  | some T => cleanup_type T
  | none => false

/-- Every name of the list is bound in the table. -/
def AllBound (names : List String) (vars : List (String × CollectionType)) : Prop :=
  ∀ x, x ∈ names → is_bound vars x = true

/-- Every name that is bound in the table of `p` is bound in the table of `q`. -/
def Grows (p q : Parser) : Prop :=
  ∀ x, is_bound p.variables_ x = true → is_bound q.variables_ x = true

/-- A function on parser records whose result keeps the bound names bound. -/
def GrowsFn {α : Type} (f : Parser → Res (α × Parser)) : Prop :=
  ∀ p a q, f p = .ok (a, q) → Grows p q

/-- A statement parser whose record binds the variable names of the statement it returns. -/
def Binding (f : Stmt) : Prop :=
  ∀ p a q, f p = .ok (a, q) → AllBound (variable_names a) q.variables_

/-- Tokens of the program
```
list[int] xs = [1]
for xs in range(0, 1):
    print(xs)
```
-/
def c21_loop_tokens : List Token :=
  [tk .LIST "list" 1, tk .LBRACKET "[" 1, tk .INT "int" 1, tk .RBRACKET "]" 1,
   tk .IDENTIFIER "xs" 1, tk .EQUALS "=" 1, tk .LBRACKET "[" 1, tk .NUMBER "1" 1,
   tk .RBRACKET "]" 1, tk .NEWLINE "" 1,
   tk .FOR "for" 2, tk .IDENTIFIER "xs" 2, tk .IN "in" 2, tk .RANGE "range" 2, tk .LPAREN "(" 2,
   tk .NUMBER "0" 2, tk .COMMA "," 2, tk .NUMBER "1" 2, tk .RPAREN ")" 2, tk .COLON ":" 2,
   tk .NEWLINE "" 2, tk .INDENT "" 3, tk .PRINT "print" 3, tk .LPAREN "(" 3,
   tk .IDENTIFIER "xs" 3, tk .RPAREN ")" 3, tk .NEWLINE "" 3, tk .DEDENT "" 4,
   tk .EOF_TOKEN "" 4]

/-- Every name of the cleanup list of `g1` is in that of `g`, among `extra`, or a name made up by
the generator. -/
def NamesFrom (extra : List String) (g g1 : Gen) : Prop :=
  ∀ x, x ∈ g1.gc_strings → x ∈ g.gc_strings ∨ x ∈ extra ∨ is_temporary x = true

/-- Tokens of the program
```
def f(): list[int]:
    return [1]
list[int] xs = [1]
f()
```
-/
def c21_both_tokens : List Token :=
  [tk .DEF "def" 1, tk .IDENTIFIER "f" 1, tk .LPAREN "(" 1, tk .RPAREN ")" 1, tk .COLON ":" 1,
   tk .LIST "list" 1, tk .LBRACKET "[" 1, tk .INT "int" 1, tk .RBRACKET "]" 1, tk .COLON ":" 1,
   tk .NEWLINE "" 1, tk .INDENT "" 2, tk .RETURN "return" 2, tk .LBRACKET "[" 2,
   tk .NUMBER "1" 2, tk .RBRACKET "]" 2, tk .NEWLINE "" 2, tk .DEDENT "" 3,
   tk .LIST "list" 3, tk .LBRACKET "[" 3, tk .INT "int" 3, tk .RBRACKET "]" 3,
   tk .IDENTIFIER "xs" 3, tk .EQUALS "=" 3, tk .LBRACKET "[" 3, tk .NUMBER "1" 3,
   tk .RBRACKET "]" 3, tk .NEWLINE "" 3,
   tk .IDENTIFIER "f" 4, tk .LPAREN "(" 4, tk .RPAREN ")" 4, tk .NEWLINE "" 4,
   tk .EOF_TOKEN "" 5]

/-! ## The parser with the list of the temporaries it has named

The functions of the parser that can reach one of the four statements that name a temporary after
`string_temp_counter` (parser.h 555, 619, 661, 716), written once more with the list `log` of the
names made so far: each of the four statements appends its `temp_var`, and nothing else touches
the list. -/

/-- The call `parse_expression()` with the list of names. -/
abbrev ExprLog := Parser → List String → Res (Expr × Parser × List String)

/-- The call `parse_statement()` with the list of names. -/
abbrev StmtLog := Parser → List String → Res (ASTNode × Parser × List String)

/-- The loop `while (tokens[pos].type == COMMA)` that collects further arguments
(parser.h 285-291, 360-365, 1031-1037, 1062-1067). -/
def args_loop_log (rec : ExprLog) :
    Nat → List String → Parser → List String →
      Res (List String × Parser × List String)
  | 0, _, _, _ => .error .out_of_fuel
  | n + 1, args, p, log => do
    let t ← peek p
    if t.type = .COMMA then
      let (_, p) ← expect .COMMA p
      let (expr, p, log) ← rec p log
      args_loop_log rec n (args ++ [expr.1]) p log
    else
      pure (args, p, log)

/-- The argument list between `(` and `)` (parser.h 278-292, 353-366, 1024-1038, 1055-1068). -/
def parse_args_log (rec : ExprLog) (n : Nat) (p : Parser)
    (log : List String) : Res (List String × Parser × List String) := do
  let t ← peek p
  if t.type ≠ .RPAREN then
    let (expr, p, log) ← rec p log
    args_loop_log rec n [expr.1] p log
  else
    pure ([], p, log)

/-- The function-call branch of `parse_expression` (parser.h 274-312). -/
def parse_call_expr_log (rec : ExprLog) (n : Nat) (p : Parser)
    (log : List String) : Res (Expr × Parser × List String) := do
  let (tok, p) ← expect .IDENTIFIER p
  let func_name := tok.value
  let (_, p) ← expect .LPAREN p
  let (args, p, log) ← parse_args_log rec n p log
  let (_, p) ← expect .RPAREN p
  match map_find p.functions func_name with
  | none => throw_at ("Undefined function " ++ func_name ++ " at line ") p
  | some f =>
    let result := func_name ++ "(" ++ join_args args ++ ")"
    pure ((result, f.2.base_type), { p with expr_type := f.2 }, log)

/-- The indexed-access branch of `parse_expression` (parser.h 313-346). -/
def parse_index_expr_log (rec : ExprLog) (p : Parser)
    (log : List String) : Res (Expr × Parser × List String) := do
  let (tok, p) ← expect .IDENTIFIER p
  let var := tok.value
  let (_, p) ← expect .LBRACKET p
  let (index, p, log) ← rec p log
  let (_, p) ← expect .RBRACKET p
  match map_find p.variables_ var with
  | none => throw_at ("Undefined Variable " ++ var ++ " at Line ") p
  | some var_type =>
    if var_type.base_type = .LIST ∨ var_type.base_type = .TUPLE then
      let result := var ++ "->data[" ++ index.1 ++ "]"
      let p := { p with expr_type := ⟨var_type.element_type, .NONE, .NONE, .NONE⟩ }
      let p :=
        if var_type.base_type = .LIST then
          add_include p ("list_" ++ vartype_to_c var_type.element_type ++ ".h")
        else
          add_include p ("tuple_" ++ vartype_to_c var_type.element_type ++ ".h")
      pure ((result, var_type.element_type), p, log)
    else if var_type.base_type = .DICT then
      let p := { p with rand_calls := p.rand_calls + 1 }
      let result := "dict_get_" ++ vartype_to_c var_type.key_type ++
        vartype_to_c var_type.value_type ++ "(" ++ var ++ ", " ++ index.1 ++ ")"
      let p := { p with expr_type := ⟨var_type.value_type, .NONE, .NONE, .NONE⟩ }
      let p := add_include p ("dict_string_" ++ vartype_to_c var_type.value_type ++ ".h")
      pure ((result, var_type.value_type), p, log)
    else
      throw_at "Indexing Only Supported for Lists, Tuples, and Dicts at Line " p

/-- The method-call branch of `parse_expression` (parser.h 347-435). -/
def parse_method_expr_log (env : Env) (rec : ExprLog) (n : Nat) (p : Parser)
    (log : List String) : Res (Expr × Parser × List String) := do
  let (tok, p) ← expect .IDENTIFIER p
  let var := tok.value
  let (_, p) ← expect .DOT p
  let (mtok, p) ← expect .CALL_METHOD p
  let method := mtok.value
  let (_, p) ← expect .LPAREN p
  let (args, p, log) ← parse_args_log rec n p log
  let (_, p) ← expect .RPAREN p
  match map_find p.variables_ var with
  | none => throw_at ("Undefined Variable " ++ var ++ " at Line ") p
  | some var_type =>
    let (_, p) ← method_return_type "Append Method Only Supported for Lists at Line "
      "String Method Only Supported for Strings at Line " var_type method p
    let temp_var := "temp_method_" ++ toString (env.rand p.rand_calls)
    let p := { p with rand_calls := p.rand_calls + 1 }
    if method = "append" then
      let a0 ← arg_at args 0
      pure (("list_append_" ++ vartype_to_c var_type.element_type ++ "(" ++ var ++ ", " ++ a0 ++ ")",
        .NONE), p, log)
    else if method = "upper" ∨ method = "lower" ∨ method = "strip" then
      pure (("char* " ++ temp_var ++ " = str_" ++ method ++ "(" ++ var ++ ")", .STRING), p, log)
    else if method = "replace" then
      let a0 ← arg_at args 0
      let a1 ← arg_at args 1
      pure (("char* " ++ temp_var ++ " = str_replace(" ++ var ++ ", " ++ a0 ++ ", " ++ a1 ++ ")",
        .STRING), p, log)
    else if method = "split" then
      let tail ← if args.isEmpty then pure ", NULL" else (do let a0 ← arg_at args 0; pure (", " ++ a0))
      pure (("ListString* " ++ temp_var ++ " = str_split(" ++ var ++ tail ++ ")", .LIST),
        { p with expr_type := ⟨.LIST, .STRING, .NONE, .NONE⟩ }, log)
    else if method = "find" then
      let a0 ← arg_at args 0
      pure (("int " ++ temp_var ++ " = str_find(" ++ var ++ ", " ++ a0 ++ ")", .INT), p, log)
    else
      pure (("", .NONE), p, log)

/-- The loop `while (tokens[pos].type != FSTRING_END)` (parser.h 464-551).  A token
that is neither STRING_LITERAL nor FSTRING_EXPR_START leaves the state unchanged. -/
def fstring_loop_log (env : Env) (rec : ExprLog) :
    Nat → String → List (String × VarType) → Parser → List String →
      Res ((String × List (String × VarType)) × Parser × List String)
  | 0, _, _, _, _ => .error .out_of_fuel
  | n + 1, format, args, p, log => do
    let t ← peek p
    if t.type ≠ .FSTRING_END then
      if t.type = .STRING_LITERAL then
        let (tok, p) ← expect .STRING_LITERAL p
        fstring_loop_log env rec n (format ++ tok.value) args (add_include p "string_utils.h") log
      else if t.type = .FSTRING_EXPR_START then
        let (_, p) ← expect .FSTRING_EXPR_START p
        let (expr, p, log) ← rec p log
        let args := args ++ [expr]
        let t ← peek p
        if t.type = .FSTRING_FORMAT_SPEC then
          let (tok, p) ← expect .FSTRING_FORMAT_SPEC p
          let format := format ++ format_spec_text env tok.value
          let (_, p) ← expect .FSTRING_EXPR_END p
          fstring_loop_log env rec n format args p log
        else
          let (format, p) := fstring_default expr.2 format p
          let (_, p) ← expect .FSTRING_EXPR_END p
          fstring_loop_log env rec n format args p log
      else
        fstring_loop_log env rec n format args p log
    else
      pure ((format, args), p, log)

/-- The f-string branch of `parse_expression` (parser.h 456-588). -/
def parse_fstring_expr_log (env : Env) (rec : ExprLog) (n : Nat) (p : Parser)
    (log : List String) : Res (Expr × Parser × List String) := do
  let (_, p) ← expect .FSTRING_START p
  let ((format, args), p, log) ← fstring_loop_log env rec n "" [] p log
  let (_, p) ← expect .FSTRING_END p
  let temp_var := "temp_string_" ++ toString p.string_temp_counter
  let log := log ++ [temp_var]
  let p := { p with string_temp_counter := p.string_temp_counter + 1 }
  let result := "char " ++ temp_var ++ "[1024];\n"
  let result := result ++ ("snprintf(" ++ temp_var ++ ", 1024, \"" ++ format ++ "\"")
  let (result, p) := fstring_args args result p
  let result := result ++ (");\n    " ++ temp_var)
  let p := { p with expr_type := ⟨.STRING, .NONE, .NONE, .NONE⟩ }
  pure ((result, .STRING), add_include p "string_utils.h", log)

/-- The loop that reads the further elements of a list or tuple literal
(parser.h 601-610, 643-652); `msg` is the message of the element-type error. -/
def elements_loop_log (rec : ExprLog) (msg : String) (element_type : VarType) :
    Nat → List String → Parser → List String →
      Res (List String × Parser × List String)
  | 0, _, _, _ => .error .out_of_fuel
  | n + 1, elements, p, log => do
    let t ← peek p
    if t.type = .COMMA then
      let (_, p) ← expect .COMMA p
      let (expr, p, log) ← rec p log
      if expr.2 ≠ element_type then throw_at msg p
      else elements_loop_log rec msg element_type n (elements ++ [expr.1]) p log
    else
      pure (elements, p, log)

/-- The list-literal branch of `parse_expression` (parser.h 589-630); `list_type` is
declared without initialiser at line 593. -/
def parse_list_expr_log (env : Env) (rec : ExprLog) (n : Nat) (p : Parser)
    (log : List String) : Res (Expr × Parser × List String) := do
  let (_, p) ← expect .LBRACKET p
  let list_type := env.uninit 593
  let t ← peek p
  let ((elements, list_type), p, log) ←
    if t.type ≠ .RBRACKET then do
      let (expr, p, log) ← rec p log
      let list_type := { list_type with element_type := expr.2 }
      let (elements, p, log) ←
        elements_loop_log rec "Inconsistent List Element Types at Line " list_type.element_type n [expr.1] p log
      pure ((elements, list_type), p, log)
    else
      pure (([], list_type), p, log)
  let (_, p) ← expect .RBRACKET p
  let list_type := { list_type with base_type := .LIST }
  let c := vartype_to_c list_type.element_type
  let p := add_include p ("list_" ++ c ++ ".h")
  let temp_var := "temp_list_" ++ toString p.string_temp_counter
  let log := log ++ [temp_var]
  let p := { p with string_temp_counter := p.string_temp_counter + 1 }
  let result := c ++ "List*" ++ temp_var ++ " = create_list_" ++ c ++ "();\n"
  let result := result ++ list_appends c temp_var elements
  let result := result ++ temp_var
  pure ((result, .LIST), { p with expr_type := list_type }, log)

/-- The parenthesis branch of `parse_expression` (parser.h 631-672); `tuple_type` is
declared without initialiser at line 635. -/
def parse_tuple_expr_log (env : Env) (rec : ExprLog) (n : Nat) (p : Parser)
    (log : List String) : Res (Expr × Parser × List String) := do
  let (_, p) ← expect .LPAREN p
  let tuple_type := env.uninit 635
  let t ← peek p
  let ((elements, tuple_type), p, log) ←
    if t.type ≠ .RPAREN then do
      let (expr, p, log) ← rec p log
      let tuple_type := { tuple_type with element_type := expr.2 }
      let (elements, p, log) ←
        elements_loop_log rec "Inconsistent tuple element types at line " tuple_type.element_type n [expr.1] p log
      pure ((elements, tuple_type), p, log)
    else
      pure (([], tuple_type), p, log)
  let (_, p) ← expect .RPAREN p
  let tuple_type := { tuple_type with base_type := .TUPLE }
  let c := vartype_to_c tuple_type.element_type
  let p := add_include p ("tuple_" ++ c ++ ".h")
  let temp_var := "temp_tuple_" ++ toString p.string_temp_counter
  let log := log ++ [temp_var]
  let p := { p with string_temp_counter := p.string_temp_counter + 1 }
  let result := c ++ "Tuple* " ++ temp_var ++ " = create_tuple_" ++ c ++ "(" ++
    toString elements.length ++ ");\n"
  let result := result ++ tuple_slots temp_var 0 elements
  let result := result ++ temp_var
  pure ((result, .TUPLE), { p with expr_type := tuple_type }, log)

/-- The loop that reads the further entries of a dict literal (parser.h 692-707). -/
def entries_loop_log (rec : ExprLog) (value_type : VarType) :
    Nat → List (String × String) → Parser → List String →
      Res (List (String × String) × Parser × List String)
  | 0, _, _, _ => .error .out_of_fuel
  | n + 1, entries, p, log => do
    let t ← peek p
    if t.type = .COMMA then
      let (_, p) ← expect .COMMA p
      let (key, p, log) ← rec p log
      if key.2 ≠ .STRING then throw_at "Dictionary Key Must be a String at Line " p
      else
        let (_, p) ← expect .COLON p
        let (value, p, log) ← rec p log
        if value.2 ≠ value_type then throw_at "Inconsistent Dictionary Value Types at Line " p
        else entries_loop_log rec value_type n (entries ++ [(key.1, value.1)]) p log
    else
      pure (entries, p, log)

/-- The brace branch of `parse_expression` (parser.h 673-727); `dict_type` is
declared without initialiser at line 677. -/
def parse_dict_expr_log (env : Env) (rec : ExprLog) (n : Nat) (p : Parser)
    (log : List String) : Res (Expr × Parser × List String) := do
  let (_, p) ← expect .LBRACE p
  let dict_type := env.uninit 677
  let t ← peek p
  let ((entries, dict_type), p, log) ←
    if t.type ≠ .RBRACE then do
      let (key, p, log) ← rec p log
      if key.2 ≠ .STRING then throw_at "Dictionary Key Must be a String at Line " p
      else
        let (_, p) ← expect .COLON p
        let (value, p, log) ← rec p log
        let dict_type := { dict_type with key_type := .STRING, value_type := value.2 }
        let (entries, p, log) ← entries_loop_log rec dict_type.value_type n [(key.1, value.1)] p log
        pure ((entries, dict_type), p, log)
    else
      pure (([], dict_type), p, log)
  let (_, p) ← expect .RBRACE p
  let dict_type := { dict_type with base_type := .DICT }
  let c := vartype_to_c dict_type.value_type
  let p := add_include p ("dict_string_" ++ c ++ ".h")
  let temp_var := "temp_dict_" ++ toString p.string_temp_counter
  let log := log ++ [temp_var]
  let p := { p with string_temp_counter := p.string_temp_counter + 1 }
  let result := "DictString" ++ c ++ "* " ++ temp_var ++ " = create_dict_string_" ++ c ++ "();\n"
  let result := result ++ dict_sets c temp_var entries
  let result := result ++ temp_var
  pure ((result, .DICT), { p with expr_type := dict_type }, log)

/-- The `len` branch of `parse_expression` (parser.h 728-766). -/
def parse_len_expr_log (rec : ExprLog) (p : Parser)
    (log : List String) : Res (Expr × Parser × List String) := do
  let (_, p) ← expect .LEN p
  let (_, p) ← expect .LPAREN p
  let (expr, p, log) ← rec p log
  let (_, p) ← expect .RPAREN p
  if expr.2 ≠ .STRING ∧ expr.2 ≠ .LIST ∧ expr.2 ≠ .TUPLE ∧ expr.2 ≠ .DICT then
    throw_at "LEN Function Only Supported for Strings, Lists, Tuples, and Dicts at Line " p
  else
    let result := if expr.2 = .STRING then "strlen(" ++ expr.1 ++ ")" else expr.1 ++ "->size"
    let p := include_for expr.2 p
    pure ((result, .INT), { p with expr_type := ⟨.INT, .NONE, .NONE, .NONE⟩ }, log)

/-- The operator loop of `parse_expression` (parser.h 770-916), entered with the text
and type of the primary; `rec` is the recursive call for the right operand. -/
def binary_operators_log (rec : ExprLog) :
    Nat → String → VarType → Parser → List String →
      Res (Expr × Parser × List String)
  | 0, _, _, _, _ => .error .out_of_fuel
  | n + 1, result, type, p, log => do
    let t ← peek p
    if is_binary_operator t.type then
      let ((op, result_type), p) ← operator_case t.type type p
      let (right, p, log) ← rec p log
      if operand_mismatch type right.2 then throw_at "Type Mismatch in Operation at Line " p
      else
        let right_first :=
          if contains_sub "snprintf".toList right.1.toList then after_last_space right.1
          else right.1
        let result := "(" ++ result ++ " " ++ op ++ " " ++ right_first ++ ")"
        binary_operators_log rec n result result_type
          { p with expr_type := { p.expr_type with base_type := result_type } } log
    else
      pure ((result, type), p, log)

/-- The chain of primary branches of `parse_expression` (parser.h 249-768).  The
flag is true for the branches that end in `return` (lines 629, 671, 726, 763) and
so skip the operator loop. -/
def parse_primary_log (env : Env) (rec : ExprLog) (n : Nat) (p : Parser)
    (log : List String) : Res ((Expr × Bool) × Parser × List String) := do
  let t ← peek p
  if t.type = .NUMBER then
    let (tok, p) ← expect .NUMBER p
    pure (((tok.value, .INT), false), { p with expr_type := ⟨.INT, .NONE, .NONE, .NONE⟩ }, log)
  else if t.type = .FLOATING then
    let (tok, p) ← expect .FLOATING p
    pure (((tok.value, .FLOAT), false), { p with expr_type := ⟨.FLOAT, .NONE, .NONE, .NONE⟩ }, log)
  else if t.type = .STRING_LITERAL then
    let (tok, p) ← expect .STRING_LITERAL p
    let p := { p with expr_type := ⟨.STRING, .NONE, .NONE, .NONE⟩ }
    pure ((("\"" ++ tok.value ++ "\"", .STRING), false), add_include p "string_utils.h", log)
  else if t.type = .TRUE ∨ t.type = .FALSE then
    let (tok, p) ← expect_current p
    pure (((tok.value, .BOOL), false), { p with expr_type := ⟨.BOOL, .NONE, .NONE, .NONE⟩ }, log)
  else if t.type = .IDENTIFIER then
    let t1 ← peek1 p
    if t1.type = .LPAREN then
      let (e, p, log) ← parse_call_expr_log rec n p log
      pure ((e, false), p, log)
    else if t1.type = .LBRACKET then
      let (e, p, log) ← parse_index_expr_log rec p log
      pure ((e, false), p, log)
    else if t1.type = .DOT then
      let (e, p, log) ← parse_method_expr_log env rec n p log
      pure ((e, false), p, log)
    else
      let (e, p) ← parse_identifier_expr p
      pure ((e, false), p, log)
  else if t.type = .FSTRING_START then
    let (e, p, log) ← parse_fstring_expr_log env rec n p log
    pure ((e, false), p, log)
  else if t.type = .LBRACKET then
    let (e, p, log) ← parse_list_expr_log env rec n p log
    pure ((e, true), p, log)
  else if t.type = .LPAREN then
    let (e, p, log) ← parse_tuple_expr_log env rec n p log
    pure ((e, true), p, log)
  else if t.type = .LBRACE then
    let (e, p, log) ← parse_dict_expr_log env rec n p log
    pure ((e, true), p, log)
  else if t.type = .LEN then
    let (e, p, log) ← parse_len_expr_log rec p log
    pure ((e, true), p, log)
  else
    throw_at "Invalid Expression at Line " p

/-- The function `Parser::parse_expression` (parser.h 244-919).  The fuel bounds the
depth of the recursion and the number of iterations of each loop. -/
def parse_expression_log (env : Env) : Nat → Parser → List String →
      Res (Expr × Parser × List String)
  | 0, _, _ => .error .out_of_fuel
  | fuel + 1, p, log => do
    let ((e, returned), p, log) ← parse_primary_log env (parse_expression_log env fuel) fuel p log
    if returned then pure (e, p, log)
    else binary_operators_log (parse_expression_log env fuel) fuel e.1 e.2 p log

/-- The function `Parser::parse_assignment` (parser.h 921-956). -/
def parse_assignment_log (env : Env) (fuel : Nat) (p : Parser)
    (log : List String) : Res (ASTNode × Parser × List String) := do
  let (type, p) ← parse_collection_type env p
  let (tok, p) ← expect .IDENTIFIER p
  let var := tok.value
  let (_, p) ← expect .EQUALS p
  let (expr, p, log) ← parse_expression_log env fuel p log
  match assignment_mismatch type expr.2 p.expr_type with
  | some msg => throw_at msg p
  | none =>
    let is_declaration := (map_find p.variables_ var).isNone
    let p := { p with variables_ := map_set p.variables_ var type }
    let (_, p) ← expect .NEWLINE p
    pure (.AssignNode var expr.1 type is_declaration, p, log)

/-- The function `Parser::parse_function_call` (parser.h 1018-1047). -/
def parse_function_call_log (env : Env) (fuel : Nat) (p : Parser)
    (log : List String) : Res (ASTNode × Parser × List String) := do
  let (tok, p) ← expect .IDENTIFIER p
  let func_name := tok.value
  let (_, p) ← expect .LPAREN p
  let (args, p, log) ← parse_args_log (parse_expression_log env fuel) fuel p log
  let (_, p) ← expect .RPAREN p
  let (_, p) ← expect .NEWLINE p
  match map_find p.functions func_name with
  | none => throw_at ("Undefined Function " ++ func_name ++ " at Line ") p
  | some f => pure (.CallNode func_name args f.2, p, log)

/-- The function `Parser::parse_method_call` (parser.h 1049-1110). -/
def parse_method_call_log (env : Env) (fuel : Nat) (p : Parser)
    (log : List String) : Res (ASTNode × Parser × List String) := do
  let (tok, p) ← expect .IDENTIFIER p
  let var := tok.value
  let (_, p) ← expect .DOT p
  let (mtok, p) ← expect .CALL_METHOD p
  let method := mtok.value
  let (_, p) ← expect .LPAREN p
  let (args, p, log) ← parse_args_log (parse_expression_log env fuel) fuel p log
  let (_, p) ← expect .RPAREN p
  let (_, p) ← expect .NEWLINE p
  match map_find p.variables_ var with
  | none => throw_at ("Undefined Variable " ++ var ++ " at Line ") p
  | some var_type =>
    let (return_type, p) ← method_return_type "'Append' Method Only Supported for Lists at Line "
      "'String' Methods Only Supported for Strings at Line " var_type method p
    pure (.MethodCallNode var method args return_type, p, log)

/-- The function `Parser::parse_return` (parser.h 1112-1119). -/
def parse_return_log (env : Env) (fuel : Nat) (p : Parser)
    (log : List String) : Res (ASTNode × Parser × List String) := do
  let (_, p) ← expect .RETURN p
  let (expr, p, log) ← parse_expression_log env fuel p log
  let (_, p) ← expect .NEWLINE p
  pure (.ReturnNode expr.1 p.expr_type, p, log)

/-- The loop over the further arguments of `print` (parser.h 1153-1191); the `sep`
argument ends it with `break`. -/
def print_loop_log (env : Env) (fuel : Nat) :
    Nat → List (String × VarType) → String → Parser → List String →
      Res ((List (String × VarType) × String) × Parser × List String)
  | 0, _, _, _, _ => .error .out_of_fuel
  | n + 1, values, separator, p, log => do
    let t ← peek p
    if t.type = .COMMA then
      let (_, p) ← expect .COMMA p
      let t ← peek p
      if t.type = .SEP then
        let (_, p) ← expect .SEP p
        let (_, p) ← expect .EQUALS p
        let t ← peek p
        if t.type ≠ .STRING_LITERAL then throw_at "Separator Must be a String at Line " p
        else
          let (tok, p) ← expect .STRING_LITERAL p
          pure ((values, tok.value), add_include p "string_utils.h", log)
      else
        let (expr, p, log) ← parse_expression_log env fuel p log
        print_loop_log env fuel n (values ++ [print_value expr]) separator (include_for expr.2 p) log
    else
      pure ((values, separator), p, log)

/-- The function `Parser::parse_print` (parser.h 1121-1198). -/
def parse_print_log (env : Env) (fuel : Nat) (p : Parser)
    (log : List String) : Res (ASTNode × Parser × List String) := do
  let (_, p) ← expect .PRINT p
  let (_, p) ← expect .LPAREN p
  let t ← peek p
  let ((values, separator), p, log) ←
    if t.type ≠ .RPAREN then do
      let (expr, p, log) ← parse_expression_log env fuel p log
      print_loop_log env fuel fuel [print_value expr] " " (include_for expr.2 p) log
    else
      pure (([], " "), p, log)
  let (_, p) ← expect .RPAREN p
  let (_, p) ← expect .NEWLINE p
  pure (.PrintNode values separator, p, log)

/-- The function `Parser::parse_index_assignment` (parser.h 1353-1401). -/
def parse_index_assignment_log (env : Env) (fuel : Nat) (p : Parser)
    (log : List String) : Res (ASTNode × Parser × List String) := do
  let (tok, p) ← expect .IDENTIFIER p
  let var := tok.value
  let (_, p) ← expect .LBRACKET p
  let (index, p, log) ← parse_expression_log env fuel p log
  let (_, p) ← expect .RBRACKET p
  let (_, p) ← expect .EQUALS p
  let (value, p, log) ← parse_expression_log env fuel p log
  let (_, p) ← expect .NEWLINE p
  match map_find p.variables_ var with
  | none => throw_at ("Undefined Variable " ++ var ++ " at Line ") p
  | some var_type =>
    if var_type.base_type ≠ .LIST ∧ var_type.base_type ≠ .DICT then
      throw_at "Indexing Only Supported for Lists and Dicts at Line " p
    else if var_type.base_type = .LIST ∧ index.2 ≠ .INT then
      throw_at "List Index Must be an Integer at Line " p
    else if var_type.base_type = .DICT ∧ index.2 ≠ .STRING then
      throw_at "Dict Index Must be a String at Line " p
    else if var_type.base_type = .LIST ∧ var_type.element_type ≠ value.2 then
      throw_at "Type Mismatch in List Assignment at Line " p
    else if var_type.base_type = .DICT ∧ var_type.value_type ≠ value.2 then
      throw_at "Type Mismatch in Dict Assignment at Line " p
    else if var_type.base_type = .LIST then
      let p := add_include p ("list_" ++ vartype_to_c var_type.element_type ++ ".h")
      pure (.HelperNode (var ++ "->data[" ++ index.1 ++ "] = " ++ value.1 ++ ";\n"), p, log)
    else
      let p := add_include p ("dict_string_" ++ vartype_to_c var_type.value_type ++ ".h")
      pure (.HelperNode ("dict_set_" ++ vartype_to_c var_type.key_type ++
        vartype_to_c var_type.value_type ++ "(" ++ var ++ ", " ++ index.1 ++ ", " ++ value.1 ++
        ");\n"), p, log)

/-- The loop `while (...) body.push_back(parse_statement())` of a block. -/
def block_loop_log (stmt : StmtLog) (stop : TokenType → Bool) :
    Nat → List ASTNode → Parser → List String →
      Res (List ASTNode × Parser × List String)
  | 0, _, _, _ => .error .out_of_fuel
  | n + 1, body, p, log => do
    let t ← peek p
    if stop t.type then pure (body, p, log)
    else
      let (node, p, log) ← stmt p log
      block_loop_log stmt stop n (body ++ [node]) p log

/-- The function `Parser::parse_function` (parser.h 958-1016); `arg_types` is the list
of the second components of `args`. -/
def parse_function_log (env : Env) (stmt : StmtLog) (n : Nat) (p : Parser)
    (log : List String) : Res (ASTNode × Parser × List String) := do
  let (_, p) ← expect .DEF p
  let (tok, p) ← expect .IDENTIFIER p
  let name := tok.value
  let (_, p) ← expect .LPAREN p
  let t ← peek p
  let (args, p) ←
    if t.type ≠ .RPAREN then do
      let (args, p) ← parse_param env [] p
      params_loop env n args p
    else
      pure ([], p)
  let (_, p) ← expect .RPAREN p
  let t ← peek p
  let has_return_type ←
    if t.type = .COLON then do
      let t1 ← peek1 p
      pure (decide (t1.type ≠ .NEWLINE))
    else
      pure false
  let (return_type, p) ←
    if has_return_type then do
      let (_, p) ← expect .COLON p
      parse_collection_type env p
    else
      pure (⟨.NONE, .NONE, .NONE, .NONE⟩, p)
  let (_, p) ← expect .COLON p
  let (_, p) ← expect .NEWLINE p
  let (_, p) ← expect .INDENT p
  let p := { p with functions := map_set p.functions name (args.map Prod.snd, return_type) }
  let (body, p, log) ← block_loop_log stmt stop_block n [] p log
  let (_, p) ← expect .DEDENT p
  pure (.FunctionNode name args return_type body [], p, log)

/-- The loop over the `elif` clauses (parser.h 1218-1237). -/
def elif_loop_log (env : Env) (stmt : StmtLog) (fuel : Nat) :
    Nat → List (String × List ASTNode) → Parser → List String →
      Res (List (String × List ASTNode) × Parser × List String)
  | 0, _, _, _ => .error .out_of_fuel
  | n + 1, clauses, p, log => do
    let t ← peek p
    if t.type = .ELIF then
      let (_, p) ← expect .ELIF p
      let (elif_condition, p, log) ← parse_expression_log env fuel p log
      let (_, p) ← expect .COLON p
      let (_, p) ← expect .NEWLINE p
      let (_, p) ← expect .INDENT p
      let (elif_body, p, log) ← block_loop_log stmt stop_if_block fuel [] p log
      let (_, p) ← expect .DEDENT p
      elif_loop_log env stmt fuel n (clauses ++ [(elif_condition.1, elif_body)]) p log
    else
      pure (clauses, p, log)

/-- The function `Parser::parse_if` (parser.h 1200-1253). -/
def parse_if_log (env : Env) (stmt : StmtLog) (n : Nat) (p : Parser)
    (log : List String) : Res (ASTNode × Parser × List String) := do
  let (_, p) ← expect .IF p
  let (condition, p, log) ← parse_expression_log env n p log
  let (_, p) ← expect .COLON p
  let (_, p) ← expect .NEWLINE p
  let (_, p) ← expect .INDENT p
  let (body, p, log) ← block_loop_log stmt stop_if_block n [] p log
  let (_, p) ← expect .DEDENT p
  let (elif_clauses, p, log) ← elif_loop_log env stmt n n [] p log
  let t ← peek p
  let (else_body, p, log) ←
    if t.type = .ELSE then do
      let (_, p) ← expect .ELSE p
      let (_, p) ← expect .COLON p
      let (_, p) ← expect .NEWLINE p
      let (_, p) ← expect .INDENT p
      let (else_body, p, log) ← block_loop_log stmt stop_block n [] p log
      let (_, p) ← expect .DEDENT p
      pure (else_body, p, log)
    else
      pure ([], p, log)
  pure (.IfNode condition.1 body elif_clauses else_body, p, log)

/-- The function `Parser::parse_for` (parser.h 1255-1283). -/
def parse_for_log (env : Env) (stmt : StmtLog) (n : Nat) (p : Parser)
    (log : List String) : Res (ASTNode × Parser × List String) := do
  let (_, p) ← expect .FOR p
  let (tok, p) ← expect .IDENTIFIER p
  let var := tok.value
  let (_, p) ← expect .IN p
  let (_, p) ← expect .RANGE p
  let (_, p) ← expect .LPAREN p
  let (start, p, log) ← parse_expression_log env n p log
  let (_, p) ← expect .COMMA p
  let (stop, p, log) ← parse_expression_log env n p log
  let (_, p) ← expect .RPAREN p
  let (_, p) ← expect .COLON p
  let (_, p) ← expect .NEWLINE p
  let (_, p) ← expect .INDENT p
  let p := { p with variables_ := map_set p.variables_ var ⟨.INT, .NONE, .NONE, .NONE⟩ }
  let (body, p, log) ← block_loop_log stmt stop_block n [] p log
  let (_, p) ← expect .DEDENT p
  pure (.ForNode var start.1 stop.1 body, p, log)

/-- The function `Parser::parse_while` (parser.h 1285-1303). -/
def parse_while_log (env : Env) (stmt : StmtLog) (n : Nat) (p : Parser)
    (log : List String) : Res (ASTNode × Parser × List String) := do
  let (_, p) ← expect .WHILE p
  let (condition, p, log) ← parse_expression_log env n p log
  let (_, p) ← expect .COLON p
  let (_, p) ← expect .NEWLINE p
  let (_, p) ← expect .INDENT p
  let (body, p, log) ← block_loop_log stmt stop_block n [] p log
  let (_, p) ← expect .DEDENT p
  pure (.WhileNode condition.1 body, p, log)

/-- The loop over the `case` arms (parser.h 1319-1346); a later `_` arm replaces
`default_case`. -/
def case_loop_log (stmt : StmtLog) (fuel : Nat) :
    Nat → List (String × List ASTNode) → List ASTNode → Parser → List String →
      Res ((List (String × List ASTNode) × List ASTNode) × Parser × List String)
  | 0, _, _, _, _ => .error .out_of_fuel
  | n + 1, cases, default_case, p, log => do
    let t ← peek p
    if t.type = .CASE then
      let (_, p) ← expect .CASE p
      let (pattern, p) ← parse_case_pattern p
      let (_, p) ← expect .COLON p
      let (_, p) ← expect .NEWLINE p
      let (_, p) ← expect .INDENT p
      let (case_body, p, log) ← block_loop_log stmt stop_block fuel [] p log
      let (_, p) ← expect .DEDENT p
      if pattern = "_" then case_loop_log stmt fuel n cases case_body p log
      else case_loop_log stmt fuel n (cases ++ [(pattern, case_body)]) default_case p log
    else
      pure ((cases, default_case), p, log)

/-- The function `Parser::parse_match` (parser.h 1305-1351). -/
def parse_match_log (env : Env) (stmt : StmtLog) (n : Nat) (p : Parser)
    (log : List String) : Res (ASTNode × Parser × List String) := do
  let (_, p) ← expect .MATCH p
  let (expr, p, log) ← parse_expression_log env n p log
  if expr.2 ≠ .INT ∧ expr.2 ≠ .BOOL then
    throw_at "Match expression must be int or bool at line " p
  else
    let (_, p) ← expect .COLON p
    let (_, p) ← expect .NEWLINE p
    let (_, p) ← expect .INDENT p
    let ((cases, default_case), p, log) ← case_loop_log stmt n n [] [] p log
    let (_, p) ← expect .DEDENT p
    pure (.MatchNode expr.1 expr.2 cases default_case, p, log)

/-- The function `Parser::parse_statement` (parser.h 213-242).  `tokens[pos + 1]` is
read only when `tokens[pos]` is an IDENTIFIER. -/
def parse_statement_log (env : Env) : Nat → Parser → List String →
      Res (ASTNode × Parser × List String)
  | 0, _, _ => .error .out_of_fuel
  | fuel + 1, p, log => do
    let t ← peek p
    if t.type = .DEF then parse_function_log env (parse_statement_log env fuel) fuel p log
    else if t.type = .RETURN then parse_return_log env fuel p log
    else if t.type = .PRINT then parse_print_log env fuel p log
    else if t.type = .IF then parse_if_log env (parse_statement_log env fuel) fuel p log
    else if t.type = .FOR then parse_for_log env (parse_statement_log env fuel) fuel p log
    else if t.type = .WHILE then parse_while_log env (parse_statement_log env fuel) fuel p log
    else if t.type = .MATCH then parse_match_log env (parse_statement_log env fuel) fuel p log
    else if t.type = .INT ∨ t.type = .FLOAT ∨ t.type = .STRING ∨ t.type = .BOOL ∨
        t.type = .LIST ∨ t.type = .TUPLE ∨ t.type = .DICT then
      parse_assignment_log env fuel p log
    else if t.type = .IDENTIFIER then do
      let t1 ← peek1 p
      if t1.type = .LPAREN then parse_function_call_log env fuel p log
      else if t1.type = .DOT then parse_method_call_log env fuel p log
      else if t1.type = .LBRACKET then parse_index_assignment_log env fuel p log
      else throw_at "Unexpected Token at Line " p
    else
      throw_at "Unexpected Token at Line " p

/-- The function `Parser::parse_program` (parser.h 80-95); the record after the parse
is returned with the program. -/
def parse_program_log (env : Env) (fuel : Nat) (p : Parser)
    (log : List String) : Res (List ASTNode × Parser × List String) :=
  block_loop_log (parse_statement_log env fuel) (fun t => t = .EOF_TOKEN) fuel
    [.HelperNode (include_code p.helper_includes)] p log

/-- The result of a run with the list of names, without the list. -/
def erase {α : Type} (r : Res (α × Parser × List String)) : Res (α × Parser) :=
  r.map (fun x => (x.1, x.2.1))

/-- The function with the list of names returns what the function without it returns. -/
def Erases {α : Type} (f_log : Parser → List String → Res (α × Parser × List String))
    (f : Parser → Res (α × Parser)) : Prop :=
  ∀ p log, erase (f_log p log) = f p

/-- The names of the list are temporaries whose numbers increase from one to the next, the first
not below `lo` and the last below `hi`. -/
def ascending : Nat → List String → Nat → Prop
  | lo, [], hi => lo ≤ hi
  | lo, x :: rest, hi =>
    ∃ pre, pre ∈ temp_prefixes ∧ ∃ n, lo ≤ n ∧ x = temp_name pre n ∧ ascending (n + 1) rest hi

/-- The run from the record `p` with the list `log` to the record `q` with the list `log1` has
added names to the end of the list, with increasing numbers from the counter of `p` on and below
the counter of `q`. -/
def Fresh (p : Parser) (log : List String) (q : Parser) (log1 : List String) : Prop :=
  ∃ new, log1 = log ++ new ∧ ascending p.string_temp_counter new q.string_temp_counter

/-- A run that continues a run from `p0` and `log0` so that the whole is `Fresh`. -/
def Logs (p0 : Parser) (log0 : List String) {α : Type} (r : Res (α × Parser × List String)) :
    Prop :=
  ∀ a q l, r = .ok (a, q, l) → Fresh p0 log0 q l

/-- A function whose every run is `Fresh`. -/
def LogsFn {α : Type} (f_log : Parser → List String → Res (α × Parser × List String)) : Prop :=
  ∀ p log a q l, f_log p log = .ok (a, q, l) → Fresh p log q l

/-- The list of names and the value of `string_temp_counter` when a parse has returned. -/
def names_after {α : Type} (r : Res (α × Parser × List String)) : Res (List String × Nat) :=
  r.map (fun x => (x.2.2, x.2.1.string_temp_counter))

/-- Tokens of the program `print([[1], [2]], f"a")`. -/
def c31_nested_tokens : List Token :=
  [tk .PRINT "print" 1, tk .LPAREN "(" 1, tk .LBRACKET "[" 1, tk .LBRACKET "[" 1,
   tk .NUMBER "1" 1, tk .RBRACKET "]" 1, tk .COMMA "," 1, tk .LBRACKET "[" 1, tk .NUMBER "2" 1,
   tk .RBRACKET "]" 1, tk .RBRACKET "]" 1, tk .COMMA "," 1, tk .FSTRING_START "" 1,
   tk .STRING_LITERAL "a" 1, tk .FSTRING_END "" 1, tk .RPAREN ")" 1, tk .NEWLINE "" 1,
   tk .EOF_TOKEN "" 2]

/-- The last name of the list that a run returns is the temporary with the prefix `pre` and the
number below the counter that the run leaves. -/
def EndsWith (pre : String) {α : Type} (r : Res (α × Parser × List String)) : Prop :=
  ∀ a q l, r = .ok (a, q, l) →
    ∃ front, l = front ++ [temp_name pre (q.string_temp_counter - 1)]

/-! ## Theorems -/

/-! ## Lemmas on the steps of the parser -/

@[simp] theorem throw_at_ne_ok {α : Type} (msg : String) (p : Parser) (x : α) :
    (throw_at msg p : Res α) = .ok x ↔ False := by
  unfold throw_at
  split <;> simp

/-- A `throw` never returns a value. -/
theorem throw_at_error (α : Type) (msg : String) (p : Parser) :
    ∃ e, (throw_at msg p : Res α) = .error e := by
  unfold throw_at
  split <;> exact ⟨_, rfl⟩

@[simp] theorem add_include_tokens (p : Parser) (h : String) :
    (add_include p h).tokens = p.tokens := rfl

@[simp] theorem add_include_pos (p : Parser) (h : String) : (add_include p h).pos = p.pos := rfl

@[simp] theorem add_include_variables (p : Parser) (h : String) :
    (add_include p h).variables_ = p.variables_ := rfl

@[simp] theorem add_include_functions (p : Parser) (h : String) :
    (add_include p h).functions = p.functions := rfl

@[simp] theorem add_include_expr_type (p : Parser) (h : String) :
    (add_include p h).expr_type = p.expr_type := rfl

@[simp] theorem include_for_tokens (ty : VarType) (p : Parser) :
    (include_for ty p).tokens = p.tokens := by
  unfold include_for; split_ifs <;> rfl

@[simp] theorem include_for_pos (ty : VarType) (p : Parser) : (include_for ty p).pos = p.pos := by
  unfold include_for; split_ifs <;> rfl

@[simp] theorem include_for_variables (ty : VarType) (p : Parser) :
    (include_for ty p).variables_ = p.variables_ := by
  unfold include_for; split_ifs <;> rfl

@[simp] theorem include_for_functions (ty : VarType) (p : Parser) :
    (include_for ty p).functions = p.functions := by
  unfold include_for; split_ifs <;> rfl

@[simp] theorem include_for_expr_type (ty : VarType) (p : Parser) :
    (include_for ty p).expr_type = p.expr_type := by
  unfold include_for; split_ifs <;> rfl

/-- What `token_to_vartype` returns is a scalar type with the other slots NONE. -/
theorem token_to_vartype_ok (p : Parser) (ty : TokenType) (v : CollectionType)
    (h : token_to_vartype p ty = .ok v) :
    (v.base_type = .INT ∨ v.base_type = .FLOAT ∨ v.base_type = .STRING ∨ v.base_type = .BOOL) ∧
      v.element_type = .NONE ∧ v.key_type = .NONE ∧ v.value_type = .NONE := by
  unfold token_to_vartype at h
  split_ifs at h <;> simp at h <;> subst h <;> simp

/-- What `token_to_vartype` returns is not a DICT. -/
theorem token_to_vartype_base_ne_dict (p : Parser) (ty : TokenType) (v : CollectionType)
    (h : token_to_vartype p ty = .ok v) : v.base_type ≠ .DICT := by
  rcases (token_to_vartype_ok p ty v h).1 with hb | hb | hb | hb <;> simp [hb]

/-- A DICT type returned by `parse_collection_type` has key type STRING. -/
theorem parse_collection_type_dict_key (env : Env) (p : Parser) (type : CollectionType)
    (p1 : Parser) (h : parse_collection_type env p = .ok (type, p1))
    (hd : type.base_type = .DICT) : type.key_type = .STRING := by
  unfold parse_collection_type at h
  simp only [bind, Except.bind, pure, Except.pure] at h
  repeat' split at h
  all_goals first
    | (simp only [reduceCtorEq, throw_at_ne_ok] at h)
    | (simp only [Except.ok.injEq, Prod.mk.injEq] at h
       obtain ⟨h1, -⟩ := h
       subst h1
       first
         | (simp at hd; done)
         | (simp_all; done)
         | (exact absurd hd (token_to_vartype_base_ne_dict _ _ _ (by assumption))))

/-- One unfolding of `parse_expression`: the primary, then the operator loop unless the
primary branch returned. -/
theorem parse_expression_succ (env : Env) (fuel : Nat) (p : Parser) :
    parse_expression env (fuel + 1) p =
      (match parse_primary env (parse_expression env fuel) fuel p with
       | .error e => .error e
       | .ok ((e, returned), p1) =>
         if returned then .ok (e, p1)
         else binary_operators (parse_expression env fuel) fuel e.1 e.2 p1) := by
  simp only [parse_expression, bind, Except.bind, pure, Except.pure]
  rcases parse_primary env (parse_expression env fuel) fuel p with e | ⟨⟨e, r⟩, p1⟩ <;> rfl

/-- The operator loop ends at a token that is not a binary operator. -/
theorem binary_operators_stop (rec : Parser → Res (Expr × Parser)) (n : Nat) (result : String)
    (type : VarType) (p : Parser) (t : Token) (ht : p.tokens[p.pos]? = some t)
    (hstop : is_binary_operator t.type = false) :
    binary_operators rec (n + 1) result type p = .ok ((result, type), p) := by
  simp [binary_operators, peek, ht, hstop, bind, Except.bind, pure, Except.pure]

/-- One iteration of the operator loop at a binary operator. -/
theorem binary_operators_step (rec : Parser → Res (Expr × Parser)) (n : Nat) (result : String)
    (type : VarType) (p : Parser) (t : Token) (ht : p.tokens[p.pos]? = some t)
    (hop : is_binary_operator t.type = true) :
    binary_operators rec (n + 1) result type p =
      (match operator_case t.type type p with
       | .error e => .error e
       | .ok ((op, result_type), p1) =>
         match rec p1 with
         | .error e => .error e
         | .ok (right, p2) =>
           if operand_mismatch type right.2 then throw_at "Type Mismatch in Operation at Line " p2
           else
             binary_operators rec n
               ("(" ++ result ++ " " ++ op ++ " " ++
                 (if contains_sub "snprintf".toList right.1.toList then after_last_space right.1
                  else right.1) ++ ")")
               result_type { p2 with expr_type := { p2.expr_type with base_type := result_type } }) := by
  simp only [binary_operators, peek, ht, hop, bind, Except.bind, pure, Except.pure, if_true]
  rcases operator_case t.type type p with e | ⟨⟨op, rt⟩, p1⟩
  · rfl
  · simp only []
    rcases rec p1 with e | ⟨right, p2⟩
    · rfl
    · rfl

/-- One operator after a primary: `parse_expression` is the operator branch, the right
operand, the operand check and the rest of the loop. -/
theorem parse_expression_operator (env : Env) (fuel : Nat) (p : Parser) (ltxt : String)
    (L : VarType) (p1 : Parser) (t : Token)
    (hprim : parse_primary env (parse_expression env (fuel + 2)) (fuel + 2) p =
      .ok (((ltxt, L), false), p1))
    (hop : p1.tokens[p1.pos]? = some t) (hopb : is_binary_operator t.type = true) :
    parse_expression env (fuel + 3) p =
      (match operator_case t.type L p1 with
       | .error e => .error e
       | .ok ((op, result_type), pl) =>
         match parse_expression env (fuel + 2) pl with
         | .error e => .error e
         | .ok (right, p2) =>
           if operand_mismatch L right.2 then throw_at "Type Mismatch in Operation at Line " p2
           else
             binary_operators (parse_expression env (fuel + 2)) (fuel + 1)
               ("(" ++ ltxt ++ " " ++ op ++ " " ++
                 (if contains_sub "snprintf".toList right.1.toList then after_last_space right.1
                  else right.1) ++ ")")
               result_type { p2 with expr_type := { p2.expr_type with base_type := result_type } }) := by
  rw [parse_expression_succ, hprim]
  simp only [Bool.false_eq_true, if_false]
  rw [binary_operators_step _ _ _ _ _ t hop hopb]

/-- The primary branch for an identifier that is not followed by `(`, `[` or `.`. -/
theorem parse_primary_identifier (env : Env) (rec : Parser → Res (Expr × Parser)) (n : Nat)
    (p : Parser) (t t1 : Token) (vt : CollectionType)
    (h0 : p.tokens[p.pos]? = some t) (ht : t.type = .IDENTIFIER)
    (h1 : p.tokens[p.pos + 1]? = some t1)
    (hn1 : t1.type ≠ .LPAREN) (hn2 : t1.type ≠ .LBRACKET) (hn3 : t1.type ≠ .DOT)
    (hv : map_find p.variables_ t.value = some vt) :
    parse_primary env rec n p =
      .ok (((t.value, vt.base_type), false),
        include_for vt.base_type { p with pos := p.pos + 1, expr_type := vt }) := by
  simp [parse_primary, peek, peek1, h0, h1, ht, hn1, hn2, hn3, bind, Except.bind, pure,
    Except.pure, parse_identifier_expr, expect, hv]

/-- The whole of `parse_expression` on an identifier followed by a token that is neither
an operator nor `(`, `[` or `.`. -/
theorem parse_expression_identifier (env : Env) (fuel : Nat)
    (p : Parser) (t t1 : Token) (vt : CollectionType)
    (h0 : p.tokens[p.pos]? = some t) (ht : t.type = .IDENTIFIER)
    (h1 : p.tokens[p.pos + 1]? = some t1)
    (hn1 : t1.type ≠ .LPAREN) (hn2 : t1.type ≠ .LBRACKET) (hn3 : t1.type ≠ .DOT)
    (hstop : is_binary_operator t1.type = false)
    (hv : map_find p.variables_ t.value = some vt) :
    parse_expression env (fuel + 2) p =
      .ok ((t.value, vt.base_type),
        include_for vt.base_type { p with pos := p.pos + 1, expr_type := vt }) := by
  rw [parse_expression_succ, parse_primary_identifier env _ _ p t t1 vt h0 ht h1 hn1 hn2 hn3 hv]
  simp only [Bool.false_eq_true, if_false]
  rw [binary_operators_stop _ _ _ _ _ t1 (by simpa using h1) hstop]

/-- After its four first steps `parse_assignment` is the type check, the update of
`variables` and the NEWLINE. -/
theorem parse_assignment_steps (env : Env) (fuel : Nat) (p : Parser) (type : CollectionType)
    (p1 : Parser) (tok : Token) (p2 : Parser) (eq : Token) (p3 : Parser) (etxt : String)
    (E : VarType) (p4 : Parser)
    (h1 : parse_collection_type env p = .ok (type, p1))
    (h2 : expect .IDENTIFIER p1 = .ok (tok, p2))
    (h3 : expect .EQUALS p2 = .ok (eq, p3))
    (h4 : parse_expression env fuel p3 = .ok ((etxt, E), p4)) :
    parse_assignment env fuel p =
      (match assignment_mismatch type E p4.expr_type with
       | some msg => throw_at msg p4
       | none =>
         match expect .NEWLINE { p4 with variables_ := map_set p4.variables_ tok.value type } with
         | .error e => .error e
         | .ok (_, p5) =>
           .ok (.AssignNode tok.value etxt type (map_find p4.variables_ tok.value).isNone, p5)) := by
  simp only [parse_assignment, h1, h2, h3, h4, bind, Except.bind, pure, Except.pure]
  cases assignment_mismatch type E p4.expr_type with
  | some msg => rfl
  | none =>
    simp only []
    cases expect .NEWLINE { p4 with variables_ := map_set p4.variables_ tok.value type } <;> rfl

/-! ## The expression parser writes neither the token vector nor the symbol tables -/

theorem Frame.refl (p : Parser) : Frame p p := ⟨rfl, rfl, rfl⟩

theorem Frame.trans {p q r : Parser} (h1 : Frame p q) (h2 : Frame q r) : Frame p r :=
  ⟨h2.1.trans h1.1, h2.2.1.trans h1.2.1, h2.2.2.trans h1.2.2⟩

theorem expect_frame (ty : TokenType) : Keeps (expect ty) := by
  intro p a q h
  unfold expect at h
  split at h
  · simp at h
  · split_ifs at h
    simp only [Except.ok.injEq, Prod.mk.injEq] at h
    obtain ⟨-, rfl⟩ := h
    exact ⟨rfl, rfl, rfl⟩

theorem expect_current_frame : Keeps expect_current := by
  intro p a q h
  unfold expect_current at h
  simp only [bind, Except.bind] at h
  split at h
  · simp at h
  · exact expect_frame _ _ _ _ h

theorem add_include_frame (p : Parser) (h : String) : Frame p (add_include p h) := ⟨rfl, rfl, rfl⟩

theorem include_for_frame (ty : VarType) (p : Parser) : Frame p (include_for ty p) :=
  ⟨by simp, by simp, by simp⟩

theorem args_loop_frame (rec : Parser → Res (Expr × Parser)) (hrec : Keeps rec) (n : Nat)
    (args : List String) : Keeps (args_loop rec n args) := by
  induction n generalizing args with
  | zero => intro p a q h; simp [args_loop] at h
  | succ n ih =>
    intro p a q h
    simp only [args_loop, bind, Except.bind, pure, Except.pure] at h
    repeat' split at h
    all_goals first
      | (simp only [reduceCtorEq] at h)
      | (simp only [Except.ok.injEq, Prod.mk.injEq] at h
         obtain ⟨-, rfl⟩ := h
         exact Frame.refl _)
      | (rename_i h1 _ _ h2 _ _ h3
         exact ((expect_frame _ _ _ _ h2).trans (hrec _ _ _ h3)).trans (ih _ _ _ _ h))
/-- Inversion of a bind that returns a value. -/
theorem bind_ok {α β : Type} (x : Res α) (f : α → Res β) (b : β) :
    (x >>= f) = .ok b ↔ ∃ a, x = .ok a ∧ f a = .ok b := by
  cases x with
  | error e => simp [bind, Except.bind]
  | ok a => simp [bind, Except.bind]

/-- A step `x p >>= f` keeps the frame when `x` does and every continuation does. -/
theorem keeps_step {α β : Type} (x : Res (α × Parser)) (f : α × Parser → Res (β × Parser))
    (p : Parser) (b : β) (r : Parser)
    (hx : ∀ a q, x = .ok (a, q) → Frame p q)
    (hf : ∀ a q, x = .ok (a, q) → f (a, q) = .ok (b, r) → Frame q r)
    (h : (x >>= f) = .ok (b, r)) : Frame p r := by
  rw [bind_ok] at h
  obtain ⟨⟨a, q⟩, h1, h2⟩ := h
  exact (hx a q h1).trans (hf a q h1 h2)

/-- A step that reads without moving, such as `peek`. -/
theorem keeps_read {α β : Type} (x : Res α) (f : α → Res (β × Parser))
    (p : Parser) (b : β) (r : Parser)
    (hf : ∀ a, x = .ok a → f a = .ok (b, r) → Frame p r)
    (h : (x >>= f) = .ok (b, r)) : Frame p r := by
  rw [bind_ok] at h
  obtain ⟨a, h1, h2⟩ := h
  exact hf a h1 h2

theorem parse_args_frame (rec : Parser → Res (Expr × Parser)) (hrec : Keeps rec) (n : Nat) :
    Keeps (parse_args rec n) := by
  intro p a q h
  unfold parse_args at h
  refine keeps_read _ _ _ _ _ ?_ h
  intro t _ h
  split_ifs at h
  · refine keeps_step _ _ _ _ _ (fun a q hq => hrec _ _ _ hq) ?_ h
    intro e q1 _ h
    exact args_loop_frame rec hrec _ _ _ _ _ h
  · simp only [pure, Except.pure, Except.ok.injEq, Prod.mk.injEq] at h
    obtain ⟨-, rfl⟩ := h
    exact Frame.refl _

theorem parse_call_expr_frame (rec : Parser → Res (Expr × Parser)) (hrec : Keeps rec) (n : Nat) :
    Keeps (parse_call_expr rec n) := by
  intro p a q h
  unfold parse_call_expr at h
  refine keeps_step _ _ _ _ _ (fun a q hq => expect_frame _ _ _ _ hq) ?_ h
  intro tok p1 _ h
  refine keeps_step _ _ _ _ _ (fun a q hq => expect_frame _ _ _ _ hq) ?_ h
  intro _ p2 _ h
  refine keeps_step _ _ _ _ _ (fun a q hq => parse_args_frame rec hrec n _ _ _ hq) ?_ h
  intro args p3 _ h
  refine keeps_step _ _ _ _ _ (fun a q hq => expect_frame _ _ _ _ hq) ?_ h
  intro _ p4 _ h
  simp only [] at h
  split at h
  · simp at h
  · simp only [pure, Except.pure, Except.ok.injEq, Prod.mk.injEq] at h
    obtain ⟨-, rfl⟩ := h
    exact ⟨rfl, rfl, rfl⟩
/-- A returned pair whose record keeps the frame. -/
theorem frame_of_ok {α : Type} {a b : α} {p q r : Parser}
    (h : (Except.ok (a, q) : Res (α × Parser)) = .ok (b, r)) (hf : Frame p q) : Frame p r := by
  simp only [Except.ok.injEq, Prod.mk.injEq] at h
  obtain ⟨-, rfl⟩ := h
  exact hf

theorem parse_index_expr_frame (rec : Parser → Res (Expr × Parser)) (hrec : Keeps rec) :
    Keeps (parse_index_expr rec) := by
  intro p a q h
  unfold parse_index_expr at h
  refine keeps_step _ _ _ _ _ (fun a q hq => expect_frame _ _ _ _ hq) ?_ h
  intro tok p1 _ h
  refine keeps_step _ _ _ _ _ (fun a q hq => expect_frame _ _ _ _ hq) ?_ h
  intro _ p2 _ h
  refine keeps_step _ _ _ _ _ (fun a q hq => hrec _ _ _ hq) ?_ h
  intro index p3 _ h
  refine keeps_step _ _ _ _ _ (fun a q hq => expect_frame _ _ _ _ hq) ?_ h
  intro _ p4 _ h
  simp only [bind, Except.bind, pure, Except.pure] at h
  repeat' split at h
  all_goals first
    | (simp only [Except.ok.injEq, Prod.mk.injEq, throw_at_ne_ok, reduceCtorEq] at h
       obtain ⟨-, rfl⟩ := h
       simp [Frame])
    | (simp only [throw_at_ne_ok, reduceCtorEq] at h)

theorem method_return_type_frame (m1 m2 : String) (vt : CollectionType) (method : String) :
    Keeps (method_return_type m1 m2 vt method) := by
  intro p a q h
  unfold method_return_type at h
  repeat' split at h
  all_goals first
    | (simp only [Except.ok.injEq, Prod.mk.injEq, throw_at_ne_ok, reduceCtorEq] at h
       obtain ⟨-, rfl⟩ := h
       simp [Frame])
    | (simp only [throw_at_ne_ok, reduceCtorEq] at h)

theorem parse_method_expr_frame (env : Env) (rec : Parser → Res (Expr × Parser))
    (hrec : Keeps rec) (n : Nat) : Keeps (parse_method_expr env rec n) := by
  intro p a q h
  unfold parse_method_expr at h
  refine keeps_step _ _ _ _ _ (fun a q hq => expect_frame _ _ _ _ hq) ?_ h
  intro tok p1 _ h
  refine keeps_step _ _ _ _ _ (fun a q hq => expect_frame _ _ _ _ hq) ?_ h
  intro _ p2 _ h
  refine keeps_step _ _ _ _ _ (fun a q hq => expect_frame _ _ _ _ hq) ?_ h
  intro mtok p3 _ h
  refine keeps_step _ _ _ _ _ (fun a q hq => expect_frame _ _ _ _ hq) ?_ h
  intro _ p4 _ h
  refine keeps_step _ _ _ _ _ (fun a q hq => parse_args_frame rec hrec n _ _ _ hq) ?_ h
  intro args p5 _ h
  refine keeps_step _ _ _ _ _ (fun a q hq => expect_frame _ _ _ _ hq) ?_ h
  intro _ p6 _ h
  simp only [] at h
  split at h
  · simp at h
  · refine keeps_step _ _ _ _ _ (fun a q hq => method_return_type_frame _ _ _ _ _ _ _ hq) ?_ h
    intro rt p7 _ h
    simp only [bind, Except.bind, pure, Except.pure] at h
    repeat' split at h
    all_goals first
      | (simp only [Except.ok.injEq, Prod.mk.injEq, throw_at_ne_ok, reduceCtorEq] at h
         obtain ⟨-, rfl⟩ := h
         simp [Frame])
      | (simp only [throw_at_ne_ok, reduceCtorEq] at h)

theorem parse_identifier_expr_frame : Keeps parse_identifier_expr := by
  intro p a q h
  unfold parse_identifier_expr at h
  refine keeps_step _ _ _ _ _ (fun a q hq => expect_frame _ _ _ _ hq) ?_ h
  intro tok p1 _ h
  simp only [bind, Except.bind, pure, Except.pure] at h
  repeat' split at h
  all_goals first
    | (simp only [Except.ok.injEq, Prod.mk.injEq, throw_at_ne_ok, reduceCtorEq] at h
       obtain ⟨-, rfl⟩ := h
       simp [Frame])
    | (simp only [throw_at_ne_ok, reduceCtorEq] at h)

theorem fstring_default_frame (ty : VarType) (format : String) (p : Parser) :
    Frame p (fstring_default ty format p).2 := by
  unfold fstring_default
  repeat' split
  all_goals simp [Frame]

theorem fstring_loop_frame (env : Env) (rec : Parser → Res (Expr × Parser)) (hrec : Keeps rec)
    (n : Nat) (format : String) (args : List (String × VarType)) :
    Keeps (fstring_loop env rec n format args) := by
  induction n generalizing format args with
  | zero => intro p a q h; simp [fstring_loop] at h
  | succ n ih =>
    intro p a q h
    unfold fstring_loop at h
    refine keeps_read _ _ _ _ _ ?_ h
    intro t _ h
    by_cases c1 : t.type ≠ .FSTRING_END
    · rw [if_pos c1] at h
      by_cases c2 : t.type = .STRING_LITERAL
      · rw [if_pos c2] at h
        refine keeps_step _ _ _ _ _ (fun a q hq => expect_frame _ _ _ _ hq) ?_ h
        intro tok p1 _ h
        exact (add_include_frame _ _).trans (ih _ _ _ _ _ h)
      · rw [if_neg c2] at h
        by_cases c3 : t.type = .FSTRING_EXPR_START
        · rw [if_pos c3] at h
          refine keeps_step _ _ _ _ _ (fun a q hq => expect_frame _ _ _ _ hq) ?_ h
          intro _ p1 _ h
          refine keeps_step _ _ _ _ _ (fun a q hq => hrec _ _ _ hq) ?_ h
          intro expr p2 _ h
          refine keeps_read _ _ _ _ _ ?_ h
          intro t2 _ h
          by_cases c4 : t2.type = .FSTRING_FORMAT_SPEC
          · rw [if_pos c4] at h
            refine keeps_step _ _ _ _ _ (fun a q hq => expect_frame _ _ _ _ hq) ?_ h
            intro tok p3 _ h
            refine keeps_step _ _ _ _ _ (fun a q hq => expect_frame _ _ _ _ hq) ?_ h
            intro _ p4 _ h
            exact ih _ _ _ _ _ h
          · rw [if_neg c4] at h
            refine (fstring_default_frame expr.2 format p2).trans ?_
            refine keeps_step _ _ _ _ _ (fun a q hq => expect_frame _ _ _ _ hq) ?_ h
            intro _ p4 _ h
            exact ih _ _ _ _ _ h
        · rw [if_neg c3] at h
          exact ih _ _ _ _ _ h
    · rw [if_neg c1] at h
      exact frame_of_ok h (Frame.refl _)

theorem fstring_args_frame (args : List (String × VarType)) (result : String) (p : Parser) :
    Frame p (fstring_args args result p).2 := by
  induction args generalizing result p with
  | nil => exact Frame.refl _
  | cons a rest ih =>
    obtain ⟨arg, ty⟩ := a
    unfold fstring_args
    simp only []
    repeat' split
    all_goals first
      | exact ih _ _
      | exact (add_include_frame _ _).trans (ih _ _)

theorem parse_fstring_expr_frame (env : Env) (rec : Parser → Res (Expr × Parser))
    (hrec : Keeps rec) (n : Nat) : Keeps (parse_fstring_expr env rec n) := by
  intro p a q h
  unfold parse_fstring_expr at h
  refine keeps_step _ _ _ _ _ (fun a q hq => expect_frame _ _ _ _ hq) ?_ h
  intro _ p1 _ h
  refine keeps_step _ _ _ _ _ (fun a q hq => fstring_loop_frame env rec hrec n _ _ _ _ _ hq) ?_ h
  intro fa p2 _ h
  refine keeps_step _ _ _ _ _ (fun a q hq => expect_frame _ _ _ _ hq) ?_ h
  intro _ p3 _ h
  simp only [] at h
  refine frame_of_ok h ?_
  have := fstring_args_frame fa.2
    ("char " ++ ("temp_string_" ++ toString p3.string_temp_counter) ++ "[1024];\n" ++
      ("snprintf(" ++ ("temp_string_" ++ toString p3.string_temp_counter) ++ ", 1024, \"" ++
        fa.1 ++ "\""))
    { p3 with string_temp_counter := p3.string_temp_counter + 1 }
  exact ⟨this.1, this.2.1, this.2.2⟩
theorem elements_loop_frame (rec : Parser → Res (Expr × Parser)) (hrec : Keeps rec)
    (msg : String) (et : VarType) (n : Nat) (elements : List String) :
    Keeps (elements_loop rec msg et n elements) := by
  induction n generalizing elements with
  | zero => intro p a q h; simp [elements_loop] at h
  | succ n ih =>
    intro p a q h
    unfold elements_loop at h
    refine keeps_read _ _ _ _ _ ?_ h
    intro t _ h
    by_cases c1 : t.type = .COMMA
    · rw [if_pos c1] at h
      refine keeps_step _ _ _ _ _ (fun a q hq => expect_frame _ _ _ _ hq) ?_ h
      intro _ p1 _ h
      refine keeps_step _ _ _ _ _ (fun a q hq => hrec _ _ _ hq) ?_ h
      intro expr p2 _ h
      simp only [] at h
      split_ifs at h
      · simp at h
      · exact ih _ _ _ _ h
    · rw [if_neg c1] at h
      exact frame_of_ok h (Frame.refl _)

theorem parse_list_expr_frame (env : Env) (rec : Parser → Res (Expr × Parser))
    (hrec : Keeps rec) (n : Nat) : Keeps (parse_list_expr env rec n) := by
  intro p a q h
  unfold parse_list_expr at h
  refine keeps_step _ _ _ _ _ (fun a q hq => expect_frame _ _ _ _ hq) ?_ h
  intro _ p1 _ h
  refine keeps_read _ _ _ _ _ ?_ h
  intro t _ h
  simp only [] at h
  by_cases c1 : t.type ≠ .RBRACKET
  · rw [if_pos c1] at h
    refine keeps_step _ _ _ _ _ (fun a q hq => hrec _ _ _ hq) ?_ h
    intro expr p3 _ h
    refine keeps_step _ _ _ _ _
      (fun a q hq => elements_loop_frame rec hrec _ _ _ _ _ _ _ hq) ?_ h
    intro els p4 _ h
    refine keeps_step _ _ _ _ _ (fun a q hq => expect_frame _ _ _ _ hq) ?_ h
    intro _ p5 _ h
    exact frame_of_ok h ⟨rfl, rfl, rfl⟩
  · rw [if_neg c1] at h
    refine keeps_step _ _ _ _ _ (fun a q hq => expect_frame _ _ _ _ hq) ?_ h
    intro _ p5 _ h
    exact frame_of_ok h ⟨rfl, rfl, rfl⟩

theorem parse_tuple_expr_frame (env : Env) (rec : Parser → Res (Expr × Parser))
    (hrec : Keeps rec) (n : Nat) : Keeps (parse_tuple_expr env rec n) := by
  intro p a q h
  unfold parse_tuple_expr at h
  refine keeps_step _ _ _ _ _ (fun a q hq => expect_frame _ _ _ _ hq) ?_ h
  intro _ p1 _ h
  refine keeps_read _ _ _ _ _ ?_ h
  intro t _ h
  simp only [] at h
  by_cases c1 : t.type ≠ .RPAREN
  · rw [if_pos c1] at h
    refine keeps_step _ _ _ _ _ (fun a q hq => hrec _ _ _ hq) ?_ h
    intro expr p3 _ h
    refine keeps_step _ _ _ _ _
      (fun a q hq => elements_loop_frame rec hrec _ _ _ _ _ _ _ hq) ?_ h
    intro els p4 _ h
    refine keeps_step _ _ _ _ _ (fun a q hq => expect_frame _ _ _ _ hq) ?_ h
    intro _ p5 _ h
    exact frame_of_ok h ⟨rfl, rfl, rfl⟩
  · rw [if_neg c1] at h
    refine keeps_step _ _ _ _ _ (fun a q hq => expect_frame _ _ _ _ hq) ?_ h
    intro _ p5 _ h
    exact frame_of_ok h ⟨rfl, rfl, rfl⟩

theorem entries_loop_frame (rec : Parser → Res (Expr × Parser)) (hrec : Keeps rec)
    (vt : VarType) (n : Nat) (entries : List (String × String)) :
    Keeps (entries_loop rec vt n entries) := by
  induction n generalizing entries with
  | zero => intro p a q h; simp [entries_loop] at h
  | succ n ih =>
    intro p a q h
    unfold entries_loop at h
    refine keeps_read _ _ _ _ _ ?_ h
    intro t _ h
    by_cases c1 : t.type = .COMMA
    · rw [if_pos c1] at h
      refine keeps_step _ _ _ _ _ (fun a q hq => expect_frame _ _ _ _ hq) ?_ h
      intro _ p1 _ h
      refine keeps_step _ _ _ _ _ (fun a q hq => hrec _ _ _ hq) ?_ h
      intro key p2 _ h
      simp only [] at h
      by_cases c2 : key.2 ≠ .STRING
      · rw [if_pos c2] at h
        simp at h
      · rw [if_neg c2] at h
        refine keeps_step _ _ _ _ _ (fun a q hq => expect_frame _ _ _ _ hq) ?_ h
        intro _ p3 _ h
        refine keeps_step _ _ _ _ _ (fun a q hq => hrec _ _ _ hq) ?_ h
        intro value p4 _ h
        simp only [] at h
        split_ifs at h
        · simp at h
        · exact ih _ _ _ _ h
    · rw [if_neg c1] at h
      exact frame_of_ok h (Frame.refl _)

theorem parse_dict_expr_frame (env : Env) (rec : Parser → Res (Expr × Parser))
    (hrec : Keeps rec) (n : Nat) : Keeps (parse_dict_expr env rec n) := by
  intro p a q h
  unfold parse_dict_expr at h
  refine keeps_step _ _ _ _ _ (fun a q hq => expect_frame _ _ _ _ hq) ?_ h
  intro _ p1 _ h
  refine keeps_read _ _ _ _ _ ?_ h
  intro t _ h
  simp only [] at h
  by_cases c1 : t.type ≠ .RBRACE
  · rw [if_pos c1] at h
    refine keeps_step _ _ _ _ _ (fun a q hq => hrec _ _ _ hq) ?_ h
    intro key p3 _ h
    simp only [] at h
    by_cases c2 : key.2 ≠ .STRING
    · rw [if_pos c2, bind_ok] at h
      obtain ⟨y, hy, -⟩ := h
      simp at hy
    · rw [if_neg c2] at h
      refine keeps_step _ _ _ _ _ (fun a q hq => expect_frame _ _ _ _ hq) ?_ h
      intro _ p4 _ h
      refine keeps_step _ _ _ _ _ (fun a q hq => hrec _ _ _ hq) ?_ h
      intro value p5 _ h
      refine keeps_step _ _ _ _ _
        (fun a q hq => entries_loop_frame rec hrec _ _ _ _ _ _ hq) ?_ h
      intro es p6 _ h
      refine keeps_step _ _ _ _ _ (fun a q hq => expect_frame _ _ _ _ hq) ?_ h
      intro _ p7 _ h
      exact frame_of_ok h ⟨rfl, rfl, rfl⟩
  · rw [if_neg c1] at h
    refine keeps_step _ _ _ _ _ (fun a q hq => expect_frame _ _ _ _ hq) ?_ h
    intro _ p7 _ h
    exact frame_of_ok h ⟨rfl, rfl, rfl⟩

theorem parse_len_expr_frame (rec : Parser → Res (Expr × Parser)) (hrec : Keeps rec) :
    Keeps (parse_len_expr rec) := by
  intro p a q h
  unfold parse_len_expr at h
  refine keeps_step _ _ _ _ _ (fun a q hq => expect_frame _ _ _ _ hq) ?_ h
  intro _ p1 _ h
  refine keeps_step _ _ _ _ _ (fun a q hq => expect_frame _ _ _ _ hq) ?_ h
  intro _ p2 _ h
  refine keeps_step _ _ _ _ _ (fun a q hq => hrec _ _ _ hq) ?_ h
  intro expr p3 _ h
  refine keeps_step _ _ _ _ _ (fun a q hq => expect_frame _ _ _ _ hq) ?_ h
  intro _ p4 _ h
  simp only [] at h
  by_cases c1 : expr.2 ≠ .STRING ∧ expr.2 ≠ .LIST ∧ expr.2 ≠ .TUPLE ∧ expr.2 ≠ .DICT
  · rw [if_pos c1] at h
    simp at h
  · rw [if_neg c1] at h
    exact frame_of_ok h ⟨by simp, by simp, by simp⟩

theorem operator_case_frame (tt : TokenType) (type : VarType) :
    Keeps (operator_case tt type) := by
  intro p a q h
  cases tt <;> simp only [operator_case, reduceCtorEq, if_false, if_true] at h
  all_goals first
    | exact frame_of_ok h (Frame.refl _)
    | (refine keeps_step _ _ _ _ _ (fun a q hq => expect_frame _ _ _ _ hq) ?_ h
       intro _ p1 _ h
       simp only [pure, Except.pure] at h
       repeat' split at h
       all_goals first
         | (simp only [throw_at_ne_ok, reduceCtorEq] at h)
         | exact frame_of_ok h (Frame.refl _)
         | exact frame_of_ok h (add_include_frame _ _))

theorem binary_operators_frame (rec : Parser → Res (Expr × Parser)) (hrec : Keeps rec)
    (n : Nat) (result : String) (type : VarType) : Keeps (binary_operators rec n result type) := by
  induction n generalizing result type with
  | zero => intro p a q h; simp [binary_operators] at h
  | succ n ih =>
    intro p a q h
    unfold binary_operators at h
    refine keeps_read _ _ _ _ _ ?_ h
    intro t _ h
    by_cases c1 : is_binary_operator t.type = true
    · rw [if_pos c1] at h
      refine keeps_step _ _ _ _ _ (fun a q hq => operator_case_frame _ _ _ _ _ hq) ?_ h
      intro o p1 _ h
      refine keeps_step _ _ _ _ _ (fun a q hq => hrec _ _ _ hq) ?_ h
      intro right p2 _ h
      simp only [] at h
      split_ifs at h
      · simp at h
      · have h' := ih _ _ _ _ _ h
        refine Frame.trans ?_ h'
        exact ⟨rfl, rfl, rfl⟩
      · have h' := ih _ _ _ _ _ h
        refine Frame.trans ?_ h'
        exact ⟨rfl, rfl, rfl⟩
    · rw [if_neg c1] at h
      exact frame_of_ok h (Frame.refl _)

theorem parse_primary_frame (env : Env) (rec : Parser → Res (Expr × Parser)) (hrec : Keeps rec)
    (n : Nat) : Keeps (parse_primary env rec n) := by
  intro p a q h
  unfold parse_primary at h
  refine keeps_read _ _ _ _ _ ?_ h
  intro t _ h
  by_cases c1 : t.type = .NUMBER
  · rw [if_pos c1] at h
    refine keeps_step _ _ _ _ _ (fun a q hq => expect_frame _ _ _ _ hq) ?_ h
    intro tok p1 _ h
    exact frame_of_ok h ⟨rfl, rfl, rfl⟩
  rw [if_neg c1] at h
  by_cases c2 : t.type = .FLOATING
  · rw [if_pos c2] at h
    refine keeps_step _ _ _ _ _ (fun a q hq => expect_frame _ _ _ _ hq) ?_ h
    intro tok p1 _ h
    exact frame_of_ok h ⟨rfl, rfl, rfl⟩
  rw [if_neg c2] at h
  by_cases c3 : t.type = .STRING_LITERAL
  · rw [if_pos c3] at h
    refine keeps_step _ _ _ _ _ (fun a q hq => expect_frame _ _ _ _ hq) ?_ h
    intro tok p1 _ h
    exact frame_of_ok h ⟨rfl, rfl, rfl⟩
  rw [if_neg c3] at h
  by_cases c4 : t.type = .TRUE ∨ t.type = .FALSE
  · rw [if_pos c4] at h
    refine keeps_step _ _ _ _ _ (fun a q hq => expect_current_frame _ _ _ hq) ?_ h
    intro tok p1 _ h
    exact frame_of_ok h ⟨rfl, rfl, rfl⟩
  rw [if_neg c4] at h
  by_cases c5 : t.type = .IDENTIFIER
  · rw [if_pos c5] at h
    refine keeps_read _ _ _ _ _ ?_ h
    intro t1 _ h
    by_cases d1 : t1.type = .LPAREN
    · rw [if_pos d1] at h
      refine keeps_step _ _ _ _ _ (fun a q hq => parse_call_expr_frame rec hrec n _ _ _ hq) ?_ h
      intro e p1 _ h
      exact frame_of_ok h (Frame.refl _)
    rw [if_neg d1] at h
    by_cases d2 : t1.type = .LBRACKET
    · rw [if_pos d2] at h
      refine keeps_step _ _ _ _ _ (fun a q hq => parse_index_expr_frame rec hrec _ _ _ hq) ?_ h
      intro e p1 _ h
      exact frame_of_ok h (Frame.refl _)
    rw [if_neg d2] at h
    by_cases d3 : t1.type = .DOT
    · rw [if_pos d3] at h
      refine keeps_step _ _ _ _ _
        (fun a q hq => parse_method_expr_frame env rec hrec n _ _ _ hq) ?_ h
      intro e p1 _ h
      exact frame_of_ok h (Frame.refl _)
    rw [if_neg d3] at h
    refine keeps_step _ _ _ _ _ (fun a q hq => parse_identifier_expr_frame _ _ _ hq) ?_ h
    intro e p1 _ h
    exact frame_of_ok h (Frame.refl _)
  rw [if_neg c5] at h
  by_cases c6 : t.type = .FSTRING_START
  · rw [if_pos c6] at h
    refine keeps_step _ _ _ _ _
      (fun a q hq => parse_fstring_expr_frame env rec hrec n _ _ _ hq) ?_ h
    intro e p1 _ h
    exact frame_of_ok h (Frame.refl _)
  rw [if_neg c6] at h
  by_cases c7 : t.type = .LBRACKET
  · rw [if_pos c7] at h
    refine keeps_step _ _ _ _ _ (fun a q hq => parse_list_expr_frame env rec hrec n _ _ _ hq) ?_ h
    intro e p1 _ h
    exact frame_of_ok h (Frame.refl _)
  rw [if_neg c7] at h
  by_cases c8 : t.type = .LPAREN
  · rw [if_pos c8] at h
    refine keeps_step _ _ _ _ _ (fun a q hq => parse_tuple_expr_frame env rec hrec n _ _ _ hq) ?_ h
    intro e p1 _ h
    exact frame_of_ok h (Frame.refl _)
  rw [if_neg c8] at h
  by_cases c9 : t.type = .LBRACE
  · rw [if_pos c9] at h
    refine keeps_step _ _ _ _ _ (fun a q hq => parse_dict_expr_frame env rec hrec n _ _ _ hq) ?_ h
    intro e p1 _ h
    exact frame_of_ok h (Frame.refl _)
  rw [if_neg c9] at h
  by_cases c10 : t.type = .LEN
  · rw [if_pos c10] at h
    refine keeps_step _ _ _ _ _ (fun a q hq => parse_len_expr_frame rec hrec _ _ _ hq) ?_ h
    intro e p1 _ h
    exact frame_of_ok h (Frame.refl _)
  rw [if_neg c10] at h
  simp at h

/-- The expression parser changes neither the token vector nor `variables` nor
`functions`. -/
theorem parse_expression_frame (env : Env) (fuel : Nat) : Keeps (parse_expression env fuel) := by
  induction fuel with
  | zero => intro p a q h; simp [parse_expression] at h
  | succ fuel ih =>
    intro p a q h
    rw [parse_expression_succ] at h
    split at h
    · simp at h
    · rename_i e returned p1 hp
      have h1 := parse_primary_frame env _ ih fuel _ _ _ hp
      split_ifs at h
      · exact h1.trans (frame_of_ok h (Frame.refl _))
      · exact h1.trans (binary_operators_frame _ ih _ _ _ _ _ _ h)
/-! ## The shape of every output of the driver -/

/-- A block loop only appends to the nodes it starts with. -/
theorem block_loop_prefix (stmt : Stmt) (stop : TokenType → Bool) (n : Nat) (body : List ASTNode)
    (p : Parser) (out : List ASTNode) (q : Parser)
    (h : block_loop stmt stop n body p = .ok (out, q)) : ∃ rest, out = body ++ rest := by
  induction n generalizing body p with
  | zero => simp [block_loop] at h
  | succ n ih =>
    unfold block_loop at h
    rw [bind_ok] at h
    obtain ⟨t, -, h⟩ := h
    split_ifs at h
    · simp only [pure, Except.pure, Except.ok.injEq, Prod.mk.injEq] at h
      exact ⟨[], by simp [h.1]⟩
    · rw [bind_ok] at h
      obtain ⟨⟨node, p1⟩, -, h⟩ := h
      obtain ⟨rest, hr⟩ := ih _ _ h
      exact ⟨node :: rest, by simp [hr]⟩

/-- The program returned by `parse_program` for a fresh parser starts with the
HelperNode that holds the include line of common.h, whatever headers the parse adds. -/
theorem parse_program_head (env : Env) (fuel : Nat) (tokens : List Token) (ast : List ASTNode)
    (p : Parser) (h : parse_program env fuel (Parser.init env tokens) = .ok (ast, p)) :
    ∃ rest, ast = .HelperNode "#include \"common.h\"\n" :: rest := by
  unfold parse_program at h
  obtain ⟨rest, hr⟩ := block_loop_prefix _ _ _ _ _ _ _ h
  refine ⟨rest, ?_⟩
  rw [hr]
  have : include_code (set_insert [] "common.h") = "#include \"common.h\"\n" := by
    decide
  simp only [Parser.init, this, List.singleton_append]

/-- Every text the driver assembles has the include line of common.h as the first
statement inside `main`, after all function definitions, and that line comes from the
HelperNode built before parsing. -/
theorem driver_output_shape (env : Env) (fuel : Nat) (tokens : List Token) (c : String)
    (p : Parser) (h : compile env fuel tokens = .ok (c, p)) :
    ∃ functions_code rest,
      c = functions_code ++ "int main()\n\x7b\n" ++
        ("    " ++ "#include \"common.h\"\n" ++ "\n" ++ rest) := by
  unfold compile at h
  split at h
  · simp at h
  · rename_i ast p1 hp
    obtain ⟨rest, hr⟩ := parse_program_head env fuel tokens ast p1 hp
    subst hr
    split at h
    · simp at h
    · rename_i c1 hg
      simp only [Except.ok.injEq, Prod.mk.injEq] at h
      obtain ⟨rfl, -⟩ := h
      unfold generate_program at hg
      simp only [emit_functions, ASTNode.is_function, Bool.false_eq_true, if_false] at hg
      split at hg
      · simp at hg
      · rename_i fc g hf
        simp only [emit_main_body, ASTNode.is_function, Bool.false_eq_true, if_false,
          generate_c_code] at hg
        split at hg
        · simp at hg
        · rename_i mc g2 hm
          simp only [Except.ok.injEq] at hg
          split at hm
          · simp at hm
          · rename_i rc g3 hrest
            simp only [Except.ok.injEq, Prod.mk.injEq] at hm
            obtain ⟨rfl, -⟩ := hm
            refine ⟨fc, rc ++ emit_cleanup p1.variables_ g2.gc_strings ++ "    return 0;\n\x7d\n", ?_⟩
            rw [← hg]
            simp only [String.append_assoc]
/-! ## C1: the text assembled by the driver -/

/-- C1 (defect of the code): for the program `def f(): print(1)` followed by
`list[int] xs = [1]`, `helper_includes` holds common.h and list_int.h at the end of
parsing, but the text the driver assembles has a single #include line, for common.h,
and it stands inside `main`, after the definition of `f` and after `int main()`. -/
theorem C1_include_line_inside_main :
    (compile sample_env 8 c1_tokens).map (fun r => (r.1, r.2.helper_includes)) =
      .ok ("void f()\n\x7b\n    printf(\"%d\\n\", 1);\n\n\n\x7d\n\nint main()\n\x7b\n    #include \"common.h\"\n\n    Listint* xs = intList*temp_list_0 = create_list_int();\nlist_append_int(temp_list_0, 1);\ntemp_list_0;\n\n    free_list_int(xs);\n    return 0;\n\x7d\n",
        ["common.h", "list_int.h"]) := by
  decide!

/-! ## C2: calls of recorded functions -/

/-- C3 (defect of the code): when the statement starts with one of the type keywords
`int`, `float`, `string`, `bool`, `parse_collection_type` leaves the cursor on the
keyword, so `parse_assignment` always fails with the unexpected-token error of
`expect(IDENTIFIER)`, whatever follows; no scalar assignment is ever accepted. -/
theorem C3_scalar_assignment_never_parses (env : Env) (fuel : Nat) (p : Parser) (t : Token)
    (ht : p.tokens[p.pos]? = some t)
    (hs : t.type = .INT ∨ t.type = .FLOAT ∨ t.type = .STRING ∨ t.type = .BOOL) :
    parse_assignment env fuel p =
      .error (.thrown ("Unexpected Token Type at Line " ++ toString t.line)) := by
  rcases hs with h | h | h | h <;>
    simp [parse_assignment, parse_collection_type, peek, ht, h, token_to_vartype, bind,
      Except.bind, expect, add_include, pure, Except.pure]

/-- C3 (witness): the statement `int x = 1`. -/
theorem C3_witness :
    c3_tokens[0]? = some (tk .INT "int" 1) ∧
    parse_assignment sample_env 4 (parser_at c3_tokens [] []) =
      .error (.thrown ("Unexpected Token Type at Line " ++ toString (tk .INT "int" 1).line)) :=
  ⟨by decide, C3_scalar_assignment_never_parses sample_env 4 (parser_at c3_tokens [] [])
    (tk .INT "int" 1) (by decide) (Or.inl (by decide))⟩

/-- The program `int x = 1` is rejected by the whole front end as well. -/
theorem scalar_assignment_program_rejected :
    (compile sample_env 8 c3_tokens).map (fun r => r.1) =
      .error (.thrown "Unexpected Token Type at Line 1") := by
  decide!

/-! ## C4: typed assignment to a container -/

/-- C4: for a typed assignment whose target type `type` is LIST[T] or TUPLE[T],
`parse_assignment` succeeds only if the expression has the same base and the recorded
element type is T; for a target DICT (whose key type is STRING) only if the expression
is a DICT whose recorded key type is STRING and whose value type is the target's.
Otherwise it raises the type-mismatch error of that container. -/
theorem C4_container_assignment (env : Env) (fuel : Nat) (p : Parser) (type : CollectionType)
    (p1 : Parser) (tok : Token) (p2 : Parser) (eq : Token) (p3 : Parser) (etxt : String)
    (E : VarType) (p4 : Parser) (t : Token)
    (h1 : parse_collection_type env p = .ok (type, p1))
    (h2 : expect .IDENTIFIER p1 = .ok (tok, p2))
    (h3 : expect .EQUALS p2 = .ok (eq, p3))
    (h4 : parse_expression env fuel p3 = .ok ((etxt, E), p4))
    (h5 : p4.tokens[p4.pos]? = some t) :
    (type.base_type = .LIST →
      ((∃ r, parse_assignment env fuel p = .ok r) →
        E = .LIST ∧ p4.expr_type.element_type = type.element_type) ∧
      (¬ (E = .LIST ∧ p4.expr_type.element_type = type.element_type) →
        parse_assignment env fuel p =
          .error (.thrown ("Type Mismatch in List Assignment at Line " ++ toString t.line)))) ∧
    (type.base_type = .TUPLE →
      ((∃ r, parse_assignment env fuel p = .ok r) →
        E = .TUPLE ∧ p4.expr_type.element_type = type.element_type) ∧
      (¬ (E = .TUPLE ∧ p4.expr_type.element_type = type.element_type) →
        parse_assignment env fuel p =
          .error (.thrown ("Type Mismatch in Tuple Assignment at Line " ++ toString t.line)))) ∧
    (type.base_type = .DICT →
      type.key_type = .STRING ∧
      ((∃ r, parse_assignment env fuel p = .ok r) →
        E = .DICT ∧ p4.expr_type.key_type = .STRING ∧
          p4.expr_type.value_type = type.value_type) ∧
      (¬ (E = .DICT ∧ p4.expr_type.key_type = .STRING ∧
          p4.expr_type.value_type = type.value_type) →
        parse_assignment env fuel p =
          .error (.thrown ("Type Mismatch in Dict Assignment at Line " ++ toString t.line)))) := by
  have hsteps := parse_assignment_steps env fuel p type p1 tok p2 eq p3 etxt E p4 h1 h2 h3 h4
  have key : ∀ (c : Prop) (msg : String),
      (¬ c → assignment_mismatch type E p4.expr_type = some msg) →
      ((∃ r, parse_assignment env fuel p = .ok r) → c) ∧
      (¬ c → parse_assignment env fuel p = .error (.thrown (msg ++ toString t.line))) := by
    intro c msg hc
    have herr : ¬ c → parse_assignment env fuel p = .error (.thrown (msg ++ toString t.line)) := by
      intro hn
      rw [hsteps, hc hn]
      simp [throw_at, h5]
    refine ⟨?_, herr⟩
    rintro ⟨r, hr⟩
    by_contra hn
    rw [herr hn] at hr
    simp at hr
  refine ⟨?_, ?_, ?_⟩
  · intro hb
    apply key
    intro hn
    simp only [assignment_mismatch, hb]
    rw [not_and_or] at hn
    rcases hn with hn | hn
    · simp [hn]
    · simp [Ne.symm hn]
  · intro hb
    apply key
    intro hn
    simp only [assignment_mismatch, hb]
    rw [not_and_or] at hn
    rcases hn with hn | hn
    · simp [hn]
    · simp [Ne.symm hn]
  · intro hb
    have hk := parse_collection_type_dict_key env p type p1 h1 hb
    refine ⟨hk, ?_⟩
    apply key
    intro hn
    simp only [assignment_mismatch, hb, hk]
    simp only [not_and_or] at hn
    rcases hn with hn | hn | hn
    · simp [hn]
    · simp [Ne.symm hn]
    · simp [Ne.symm hn]

/-- C4 (witness): the statement `list[int] xs = [1]`. -/
theorem C4_witness :
    ((∃ r, parse_assignment sample_env 3 (parser_at c4_tokens [] []) = .ok r) →
      VarType.LIST = .LIST ∧ (list_of .INT).element_type = (list_of .INT).element_type) ∧
    (¬ (VarType.LIST = .LIST ∧ (list_of .INT).element_type = (list_of .INT).element_type) →
      parse_assignment sample_env 3 (parser_at c4_tokens [] []) =
        .error (.thrown ("Type Mismatch in List Assignment at Line " ++
          toString (tk .NEWLINE "" 1).line))) :=
  (C4_container_assignment sample_env 3 (parser_at c4_tokens [] []) (list_of .INT)
    (at_point (parser_at c4_tokens [] []) 4 0 (scalar .NONE) ["common.h", "list_int.h"])
    (tk .IDENTIFIER "xs" 1)
    (at_point (parser_at c4_tokens [] []) 5 0 (scalar .NONE) ["common.h", "list_int.h"])
    (tk .EQUALS "=" 1)
    (at_point (parser_at c4_tokens [] []) 6 0 (scalar .NONE) ["common.h", "list_int.h"])
    "intList*temp_list_0 = create_list_int();\nlist_append_int(temp_list_0, 1);\ntemp_list_0"
    .LIST
    (at_point (parser_at c4_tokens [] []) 9 1 (list_of .INT) ["common.h", "list_int.h"])
    (tk .NEWLINE "" 1)
    (by decide!) (by decide!) (by decide!) (by decide!) (by decide!)).1 rfl

/-- The statement `list[int] xs = [1]` is accepted and binds `xs`; the statement
`list[string] xs = [1]` raises the list type-mismatch error. -/
theorem container_assignment_examples :
    outcome (parse_assignment sample_env 3 (parser_at c4_tokens [] [])) =
      .ok (10, [("xs", list_of .INT)]) ∧
    outcome (parse_assignment sample_env 3 (parser_at c4_bad_tokens [] [])) =
      .error (.thrown "Type Mismatch in List Assignment at Line 1") := by
  decide!

/-! ## C5: arithmetic on numeric operands -/

/-- C5 (counterexample): `1 + 2.0` is rejected. -/
theorem C5_counterexample :
    typed (parse_expression sample_env 3 (parser_at
      (binary_tokens (tk .NUMBER "1" 1) (tk .PLUS "+" 1) (tk .FLOATING "2.0" 1)) [] [])) =
      .error (.thrown "Type Mismatch in Operation at Line 1") := by
  decide!

/-- C5 (amended): for a primary of type L in {INT, FLOAT}, an operator among + - * /
and a right operand of type R in {INT, FLOAT} that ends the expression,
`parse_expression` raises the operand type error when L = INT and R = FLOAT, and
otherwise accepts the expression with type FLOAT when the operator is `/` or L is
FLOAT, and INT otherwise. -/
theorem C5_numeric_operands (env : Env) (fuel : Nat) (p : Parser) (ltxt : String) (L : VarType)
    (p1 : Parser) (t : Token) (rtxt : String) (R : VarType) (p2 : Parser) (t2 : Token)
    (hprim : parse_primary env (parse_expression env (fuel + 2)) (fuel + 2) p =
      .ok (((ltxt, L), false), p1))
    (hop : p1.tokens[p1.pos]? = some t)
    (hopk : t.type = .PLUS ∨ t.type = .MINUS ∨ t.type = .MULT ∨ t.type = .DIV)
    (hL : L = .INT ∨ L = .FLOAT)
    (hright : parse_expression env (fuel + 2) { p1 with pos := p1.pos + 1 } = .ok ((rtxt, R), p2))
    (hR : R = .INT ∨ R = .FLOAT)
    (hnext : p2.tokens[p2.pos]? = some t2) (hstop : is_binary_operator t2.type = false) :
    (L = .INT ∧ R = .FLOAT →
      parse_expression env (fuel + 3) p =
        .error (.thrown ("Type Mismatch in Operation at Line " ++ toString t2.line))) ∧
    (¬ (L = .INT ∧ R = .FLOAT) →
      ∃ txt p3, parse_expression env (fuel + 3) p =
        .ok ((txt, if t.type = .DIV ∨ L = .FLOAT then .FLOAT else .INT), p3)) := by
  have hopb : is_binary_operator t.type = true := by
    rcases hopk with h | h | h | h <;> simp [is_binary_operator, h]
  rw [parse_expression_operator env fuel p ltxt L p1 t hprim hop hopb]
  have hcase : ∃ op, operator_case t.type L p1 =
      .ok ((op, if t.type = .DIV then .FLOAT else L), { p1 with pos := p1.pos + 1 }) := by
    rcases hopk with h | h | h | h <;> rcases hL with hl | hl <;>
      simp [operator_case, h, hl, expect, hop, bind, Except.bind, pure, Except.pure]
  obtain ⟨op, hcase⟩ := hcase
  rw [hcase]
  simp only [hright]
  constructor
  · rintro ⟨hl, hr⟩
    subst hl; subst hr
    simp [operand_mismatch, throw_at, hnext]
  · intro hne
    have hmm : operand_mismatch L R = false := by
      rcases hL with hl | hl <;> rcases hR with hr | hr <;> subst hl <;> subst hr <;>
        simp_all [operand_mismatch]
    simp only [hmm, Bool.false_eq_true, if_false]
    rw [binary_operators_stop _ _ _ _ _ t2 (by simpa using hnext) hstop]
    have hty : (if t.type = .DIV ∨ L = .FLOAT then VarType.FLOAT else VarType.INT) =
        (if t.type = .DIV then VarType.FLOAT else L) := by
      rcases hopk with h | h | h | h <;> rcases hL with hl | hl <;> simp [h, hl]
    rw [hty]
    exact ⟨_, _, rfl⟩

/-- C5 (witness): `4 / 2` is accepted with type FLOAT. -/
theorem C5_witness :
    ∃ txt p3, parse_expression sample_env 3 (parser_at
        (binary_tokens (tk .NUMBER "4" 1) (tk .DIV "/" 1) (tk .NUMBER "2" 1)) [] []) =
      .ok ((txt, if (tk .DIV "/" 1).type = .DIV ∨ VarType.INT = .FLOAT then .FLOAT else .INT), p3) :=
  (C5_numeric_operands sample_env 0
    (parser_at (binary_tokens (tk .NUMBER "4" 1) (tk .DIV "/" 1) (tk .NUMBER "2" 1)) [] [])
    "4" .INT
    (at_point (parser_at (binary_tokens (tk .NUMBER "4" 1) (tk .DIV "/" 1) (tk .NUMBER "2" 1)) [] [])
      1 0 (scalar .INT) ["common.h"])
    (tk .DIV "/" 1) "2" .INT
    (at_point (parser_at (binary_tokens (tk .NUMBER "4" 1) (tk .DIV "/" 1) (tk .NUMBER "2" 1)) [] [])
      3 0 (scalar .INT) ["common.h"])
    (tk .NEWLINE "" 1)
    (by decide!) (by decide!) (by decide) (by decide) (by decide!) (by decide) (by decide!)
    (by decide)).2 (by decide)

/-- The examples of C5 on the code: `2.0 + 1` and `4 / 2` have type FLOAT, `1 + 2` has
type INT. -/
theorem numeric_operand_examples :
    typed (parse_expression sample_env 3 (parser_at
      (binary_tokens (tk .FLOATING "2.0" 1) (tk .PLUS "+" 1) (tk .NUMBER "1" 1)) [] [])) =
      .ok (("(2.0 + 1)", .FLOAT), scalar .FLOAT) ∧
    typed (parse_expression sample_env 3 (parser_at
      (binary_tokens (tk .NUMBER "4" 1) (tk .DIV "/" 1) (tk .NUMBER "2" 1)) [] [])) =
      .ok (("(4 / 2)", .FLOAT), scalar .FLOAT) ∧
    typed (parse_expression sample_env 3 (parser_at
      (binary_tokens (tk .NUMBER "1" 1) (tk .PLUS "+" 1) (tk .NUMBER "2" 1)) [] [])) =
      .ok (("(1 + 2)", .INT), scalar .INT) := by
  decide!

/-! ## C6: operands of `+` -/

/-- C6 (counterexample): `1 + true` and `"a" + true` are accepted, with the type of
the left operand. -/
theorem C6_counterexample :
    typed (parse_expression sample_env 3 (parser_at
      (binary_tokens (tk .NUMBER "1" 1) (tk .PLUS "+" 1) (tk .TRUE "true" 1)) [] [])) =
      .ok (("(1 + true)", .INT), scalar .INT) ∧
    typed (parse_expression sample_env 3 (parser_at
      (binary_tokens (tk .STRING_LITERAL "a" 1) (tk .PLUS "+" 1) (tk .TRUE "true" 1)) [] [])) =
      .ok (("(\"a\" + true)", .STRING), scalar .STRING) := by
  decide!

/-- C6 (amended): after a primary of type L followed by `+`, `parse_expression` raises
the invalid-operand error when L is not INT, FLOAT, STRING or LIST; for the other L the
`+` branch succeeds, and with a right operand of type R that ends the expression the
result is accepted, with type L, exactly when R is BOOL, or R = L, or L = FLOAT and
R = INT; otherwise the operand type error is raised. -/
theorem C6_plus_operands (env : Env) (fuel : Nat) (p : Parser) (ltxt : String) (L : VarType)
    (p1 : Parser) (t : Token)
    (hprim : parse_primary env (parse_expression env (fuel + 2)) (fuel + 2) p =
      .ok (((ltxt, L), false), p1))
    (hop : p1.tokens[p1.pos]? = some t) (hplus : t.type = .PLUS) :
    (¬ (L = .INT ∨ L = .FLOAT ∨ L = .STRING ∨ L = .LIST) →
      ∀ t1, p1.tokens[p1.pos + 1]? = some t1 →
        parse_expression env (fuel + 3) p =
          .error (.thrown ("Invalid Operand Types for '+' at Line " ++ toString t1.line))) ∧
    ((L = .INT ∨ L = .FLOAT ∨ L = .STRING ∨ L = .LIST) →
      ∃ pl, operator_case .PLUS L p1 = .ok (("+", L), pl) ∧ pl.tokens = p1.tokens ∧
        pl.pos = p1.pos + 1) ∧
    (∀ pl rtxt R p2 t2, operator_case .PLUS L p1 = .ok (("+", L), pl) →
      parse_expression env (fuel + 2) pl = .ok ((rtxt, R), p2) →
      p2.tokens[p2.pos]? = some t2 → is_binary_operator t2.type = false →
      ((R = .BOOL ∨ R = L ∨ (L = .FLOAT ∧ R = .INT)) →
        ∃ txt p3, parse_expression env (fuel + 3) p = .ok ((txt, L), p3)) ∧
      (¬ (R = .BOOL ∨ R = L ∨ (L = .FLOAT ∧ R = .INT)) →
        parse_expression env (fuel + 3) p =
          .error (.thrown ("Type Mismatch in Operation at Line " ++ toString t2.line)))) := by
  have hopb : is_binary_operator t.type = true := by simp [is_binary_operator, hplus]
  have hexp := parse_expression_operator env fuel p ltxt L p1 t hprim hop hopb
  rw [hplus] at hexp
  refine ⟨?_, ?_, ?_⟩
  · intro hL t1 ht1
    rw [hexp]
    have h1 : L ≠ .INT := fun h => hL (Or.inl h)
    have h2 : L ≠ .FLOAT := fun h => hL (Or.inr (Or.inl h))
    have h3 : L ≠ .STRING := fun h => hL (Or.inr (Or.inr (Or.inl h)))
    have h4 : L ≠ .LIST := fun h => hL (Or.inr (Or.inr (Or.inr h)))
    simp [operator_case, expect, hop, hplus, bind, Except.bind, h1, h2, h3, h4, throw_at, ht1]
  · intro hL
    rcases hL with h | h | h | h <;> subst h <;>
      simp [operator_case, expect, hop, hplus, bind, Except.bind, pure, Except.pure, add_include]
  · intro pl rtxt R p2 t2 hcase hright hnext hstop
    rw [hexp, hcase]
    simp only [hright]
    have hmm : operand_mismatch L R = true ↔ ¬ (R = .BOOL ∨ R = L ∨ (L = .FLOAT ∧ R = .INT)) := by
      have hL : L ≠ .BOOL := by
        intro h
        subst h
        simp [operator_case, expect, hop, hplus, bind, Except.bind, throw_at] at hcase
        split at hcase <;> simp at hcase
      cases L <;> cases R <;> simp_all [operand_mismatch]
    constructor
    · intro hacc
      have : operand_mismatch L R = false := by
        cases hb : operand_mismatch L R
        · rfl
        · exact absurd hacc (hmm.mp hb)
      simp only [this, Bool.false_eq_true, if_false]
      rw [binary_operators_stop _ _ _ _ _ t2 (by simpa using hnext) hstop]
      exact ⟨_, _, rfl⟩
    · intro hrej
      simp [hmm.mpr hrej, throw_at, hnext]

/-- C6 (witness): `"a" + 1` raises the operand type error. -/
theorem C6_witness :
    parse_expression sample_env 3 (parser_at
        (binary_tokens (tk .STRING_LITERAL "a" 1) (tk .PLUS "+" 1) (tk .NUMBER "1" 1)) [] []) =
      .error (.thrown ("Type Mismatch in Operation at Line " ++ toString (tk .NEWLINE "" 1).line)) :=
  ((C6_plus_operands sample_env 0
    (parser_at (binary_tokens (tk .STRING_LITERAL "a" 1) (tk .PLUS "+" 1) (tk .NUMBER "1" 1)) [] [])
    "\"a\"" .STRING
    (at_point
      (parser_at (binary_tokens (tk .STRING_LITERAL "a" 1) (tk .PLUS "+" 1) (tk .NUMBER "1" 1)) [] [])
      1 0 (scalar .STRING) ["common.h", "string_utils.h"])
    (tk .PLUS "+" 1) (by decide!) (by decide!) (by decide)).2.2
    (at_point
      (parser_at (binary_tokens (tk .STRING_LITERAL "a" 1) (tk .PLUS "+" 1) (tk .NUMBER "1" 1)) [] [])
      2 0 (scalar .STRING) ["common.h", "string_utils.h"])
    "1" .INT
    (at_point
      (parser_at (binary_tokens (tk .STRING_LITERAL "a" 1) (tk .PLUS "+" 1) (tk .NUMBER "1" 1)) [] [])
      3 0 (scalar .INT) ["common.h", "string_utils.h"])
    (tk .NEWLINE "" 1) (by decide!) (by decide!) (by decide!) (by decide)).2 (by decide)

/-- The examples of C6 on the code: `"a" + 1` and `1 + "a"` are rejected, and so is a
left operand of type BOOL; `"a" + "b"` is accepted. -/
theorem plus_operand_examples :
    typed (parse_expression sample_env 3 (parser_at
      (binary_tokens (tk .STRING_LITERAL "a" 1) (tk .PLUS "+" 1) (tk .NUMBER "1" 1)) [] [])) =
      .error (.thrown "Type Mismatch in Operation at Line 1") ∧
    typed (parse_expression sample_env 3 (parser_at
      (binary_tokens (tk .NUMBER "1" 1) (tk .PLUS "+" 1) (tk .STRING_LITERAL "a" 1)) [] [])) =
      .error (.thrown "Type Mismatch in Operation at Line 1") ∧
    typed (parse_expression sample_env 3 (parser_at
      (binary_tokens (tk .TRUE "true" 1) (tk .PLUS "+" 1) (tk .NUMBER "1" 1)) [] [])) =
      .error (.thrown "Invalid Operand Types for '+' at Line 1") ∧
    typed (parse_expression sample_env 3 (parser_at
      (binary_tokens (tk .STRING_LITERAL "a" 1) (tk .PLUS "+" 1) (tk .STRING_LITERAL "b" 1)) [] [])) =
      .ok (("(\"a\" + \"b\")", .STRING), scalar .STRING) := by
  decide!

/-! ## C7: concatenation of lists -/

/-- C7 (counterexample): with `xs : LIST[INT]` and `ys : LIST[STRING]`, `xs + ys` is
accepted with type LIST and recorded element type STRING; the program that assigns it
to a `list[string]` variable parses. -/
theorem C7_counterexample :
    typed (parse_expression sample_env 3 (parser_at
      (binary_tokens (tk .IDENTIFIER "xs" 1) (tk .PLUS "+" 1) (tk .IDENTIFIER "ys" 1))
      sample_vars [])) = .ok (("(xs + ys)", .LIST), list_of .STRING) ∧
    (parse_program sample_env 8 (Parser.init sample_env c7_tokens)).map
        (fun r => (r.1.length, map_find r.2.variables_ "zs")) =
      .ok (5, some (list_of .STRING)) := by
  decide!

/-- C7 (amended): for variables bound to LIST[T1] and LIST[T2], the expression
`xs + ys` followed by a token that cannot continue it is accepted for every T1 and T2;
its type is LIST and the recorded `expr_type` is the type of `ys`, so its element type
is T2. -/
theorem C7_list_concatenation (env : Env) (fuel : Nat) (p : Parser) (tx tplus ty t3 : Token)
    (T1 T2 k1 v1 k2 v2 : VarType)
    (h0 : p.tokens[p.pos]? = some tx) (hx : tx.type = .IDENTIFIER)
    (h1 : p.tokens[p.pos + 1]? = some tplus) (hplus : tplus.type = .PLUS)
    (h2 : p.tokens[p.pos + 2]? = some ty) (hy : ty.type = .IDENTIFIER)
    (h3 : p.tokens[p.pos + 3]? = some t3) (hstop : is_binary_operator t3.type = false)
    (hn1 : t3.type ≠ .LPAREN) (hn2 : t3.type ≠ .LBRACKET) (hn3 : t3.type ≠ .DOT)
    (hvx : map_find p.variables_ tx.value = some ⟨.LIST, T1, k1, v1⟩)
    (hvy : map_find p.variables_ ty.value = some ⟨.LIST, T2, k2, v2⟩) :
    ∃ txt p', parse_expression env (fuel + 3) p = .ok ((txt, .LIST), p') ∧
      p'.expr_type = ⟨.LIST, T2, k2, v2⟩ ∧ p'.pos = p.pos + 3 := by
  have hprim := parse_primary_identifier env (parse_expression env (fuel + 2)) (fuel + 2) p tx
    tplus _ h0 hx h1 (by simp [hplus]) (by simp [hplus]) (by simp [hplus]) hvx
  have hopb : is_binary_operator tplus.type = true := by simp [is_binary_operator, hplus]
  rw [parse_expression_operator env fuel p _ _ _ tplus hprim (by simpa using h1) hopb, hplus]
  simp only [operator_case, expect, include_for_tokens, include_for_pos, h1, hplus, bind,
    Except.bind, pure, Except.pure]
  simp only [ne_eq, not_true_eq_false, if_false, if_true, reduceCtorEq, or_true]
  rw [parse_expression_identifier env fuel _ ty t3 ⟨.LIST, T2, k2, v2⟩ (by simpa using h2) hy
    (by simpa using h3) hn1 hn2 hn3 hstop (by simpa using hvy)]
  simp only [operand_mismatch]
  simp only [ne_eq, not_true_eq_false, decide_False, Bool.and_false, Bool.false_and,
    Bool.false_eq_true, if_false, reduceCtorEq, not_false_eq_true, decide_True, Bool.true_and]
  rw [binary_operators_stop _ _ _ _ _ t3 (by simpa using h3) hstop]
  exact ⟨_, _, rfl, by simp, by simp⟩

/-- C7 (witness): `xs + ys` with `xs : LIST[INT]` and `ys : LIST[STRING]`. -/
theorem C7_witness :
    ∃ txt p', parse_expression sample_env 3 (parser_at
        (binary_tokens (tk .IDENTIFIER "xs" 1) (tk .PLUS "+" 1) (tk .IDENTIFIER "ys" 1))
        sample_vars []) = .ok ((txt, .LIST), p') ∧
      p'.expr_type = ⟨.LIST, .STRING, .NONE, .NONE⟩ ∧ p'.pos = 0 + 3 :=
  C7_list_concatenation sample_env 0
    (parser_at (binary_tokens (tk .IDENTIFIER "xs" 1) (tk .PLUS "+" 1) (tk .IDENTIFIER "ys" 1))
      sample_vars [])
    (tk .IDENTIFIER "xs" 1) (tk .PLUS "+" 1) (tk .IDENTIFIER "ys" 1) (tk .NEWLINE "" 1)
    .INT .STRING .NONE .NONE .NONE .NONE
    (by decide) (by decide) (by decide) (by decide) (by decide) (by decide) (by decide)
    (by decide) (by decide) (by decide) (by decide) (by decide!) (by decide!)

/-- An indexed read of a LIST or TUPLE variable is accepted whatever the type `I` of
the index, with the element type of the variable as its type. -/
theorem index_read_ignores_index_type (rec : Parser → Res (Expr × Parser)) (p : Parser)
    (tok : Token) (p1 : Parser) (lb : Token) (p2 : Parser) (itxt : String) (I : VarType)
    (p3 : Parser) (rb : Token) (p4 : Parser) (ty : CollectionType)
    (h1 : expect .IDENTIFIER p = .ok (tok, p1))
    (h2 : expect .LBRACKET p1 = .ok (lb, p2))
    (h3 : rec p2 = .ok ((itxt, I), p3))
    (h4 : expect .RBRACKET p3 = .ok (rb, p4))
    (hv : map_find p4.variables_ tok.value = some ty)
    (hb : ty.base_type = .LIST ∨ ty.base_type = .TUPLE) :
    ∃ q, parse_index_expr rec p =
      .ok ((tok.value ++ "->data[" ++ itxt ++ "]", ty.element_type), q) := by
  simp only [parse_index_expr, h1, h2, h3, h4, hv, bind, Except.bind, pure, Except.pure, hb,
    if_true]
  exact ⟨_, rfl⟩

/-! ## C8: operands of `and` and `or` -/

/-- C8 (counterexample): `true and 1` and `false or "a"` are accepted with type BOOL. -/
theorem C8_counterexample :
    typed (parse_expression sample_env 3 (parser_at
      (binary_tokens (tk .TRUE "true" 1) (tk .AND "and" 1) (tk .NUMBER "1" 1)) [] [])) =
      .ok (("(true && 1)", .BOOL), scalar .BOOL) ∧
    typed (parse_expression sample_env 3 (parser_at
      (binary_tokens (tk .FALSE "false" 1) (tk .OR "or" 1) (tk .STRING_LITERAL "a" 1)) [] [])) =
      .ok (("(false || \"a\")", .BOOL), scalar .BOOL) := by
  decide!

/-- C8 (amended): after a primary of type L followed by `and` or `or`,
`parse_expression` raises the invalid-operand error when L is not BOOL; when L is BOOL
and a right operand that ends the expression parses, the expression is accepted with
type BOOL whatever the type R of the right operand. -/
theorem C8_logical_operands (env : Env) (fuel : Nat) (p : Parser) (ltxt : String) (L : VarType)
    (p1 : Parser) (t : Token)
    (hprim : parse_primary env (parse_expression env (fuel + 2)) (fuel + 2) p =
      .ok (((ltxt, L), false), p1))
    (hop : p1.tokens[p1.pos]? = some t) (hk : t.type = .AND ∨ t.type = .OR) :
    (L ≠ .BOOL → ∀ t1, p1.tokens[p1.pos + 1]? = some t1 →
      parse_expression env (fuel + 3) p =
        .error (.thrown ((if t.type = .AND then "Invalid Operand Types for 'AND' at Line "
          else "Invalid Operand Types for 'OR' at Line ") ++ toString t1.line))) ∧
    (L = .BOOL → ∀ rtxt R p2 t2,
      parse_expression env (fuel + 2) { p1 with pos := p1.pos + 1 } = .ok ((rtxt, R), p2) →
      p2.tokens[p2.pos]? = some t2 → is_binary_operator t2.type = false →
      ∃ txt p3, parse_expression env (fuel + 3) p = .ok ((txt, .BOOL), p3)) := by
  have hopb : is_binary_operator t.type = true := by
    rcases hk with h | h <;> simp [is_binary_operator, h]
  have hexp := parse_expression_operator env fuel p ltxt L p1 t hprim hop hopb
  constructor
  · intro hL t1 ht1
    rw [hexp]
    rcases hk with h | h <;>
      simp [operator_case, expect, hop, h, bind, Except.bind, hL, throw_at, ht1]
  · intro hL rtxt R p2 t2 hright hnext hstop
    subst hL
    rw [hexp]
    have hcase : ∃ op, operator_case t.type .BOOL p1 =
        .ok ((op, .BOOL), { p1 with pos := p1.pos + 1 }) := by
      rcases hk with h | h <;>
        simp [operator_case, h, expect, hop, bind, Except.bind, pure, Except.pure]
    obtain ⟨op, hcase⟩ := hcase
    rw [hcase]
    simp only [hright]
    have : operand_mismatch .BOOL R = false := by simp [operand_mismatch]
    simp only [this, Bool.false_eq_true, if_false]
    rw [binary_operators_stop _ _ _ _ _ t2 (by simpa using hnext) hstop]
    exact ⟨_, _, rfl⟩

/-- C8 (witness): `1 and true` raises the invalid-operand error of `and`. -/
theorem C8_witness :
    parse_expression sample_env 3 (parser_at
        (binary_tokens (tk .NUMBER "1" 1) (tk .AND "and" 1) (tk .TRUE "true" 1)) [] []) =
      .error (.thrown ((if (tk .AND "and" 1).type = .AND
          then "Invalid Operand Types for 'AND' at Line "
          else "Invalid Operand Types for 'OR' at Line ") ++ toString (tk .TRUE "true" 1).line)) :=
  (C8_logical_operands sample_env 0
    (parser_at (binary_tokens (tk .NUMBER "1" 1) (tk .AND "and" 1) (tk .TRUE "true" 1)) [] [])
    "1" .INT
    (at_point
      (parser_at (binary_tokens (tk .NUMBER "1" 1) (tk .AND "and" 1) (tk .TRUE "true" 1)) [] [])
      1 0 (scalar .INT) ["common.h"])
    (tk .AND "and" 1) (by decide!) (by decide!) (Or.inl (by decide))).1 (by decide)
    (tk .TRUE "true" 1) (by decide!)

/-! ## C9: indexed read -/

/-- C9 (defect of the code): the indexed read does not look at the type of the index.
With `xs : LIST[INT]`, `t : TUPLE[INT]` and `m : DICT[string, INT]`, the reads
`xs["a"]`, `t[true]` and `m[0]` are accepted with type INT, and the program
`print(xs["a"])` is translated, whereas `parse_index_assignment` rejects `m[0] = 5`
with the dict-index error. -/
theorem C9_index_type_not_checked :
    typed (parse_expression sample_env 3 (parser_at c9_tokens sample_vars [])) =
      .ok (("xs->data[\"a\"]", .INT), scalar .INT) ∧
    typed (parse_expression sample_env 3 (parser_at
      [tk .IDENTIFIER "t" 1, tk .LBRACKET "[" 1, tk .TRUE "true" 1, tk .RBRACKET "]" 1,
       tk .NEWLINE "" 1, tk .EOF_TOKEN "" 2] sample_vars [])) =
      .ok (("t->data[true]", .INT), scalar .INT) ∧
    typed (parse_expression sample_env 3 (parser_at
      [tk .IDENTIFIER "m" 1, tk .LBRACKET "[" 1, tk .NUMBER "0" 1, tk .RBRACKET "]" 1,
       tk .NEWLINE "" 1, tk .EOF_TOKEN "" 2] sample_vars [])) =
      .ok (("dict_get_stringint(m, 0)", .INT), scalar .INT) ∧
    (compile sample_env 8 c7_tokens).map (fun r => r.1) =
      .ok "int main()\n\x7b\n    #include \"common.h\"\n\n    Listint* xs = intList*temp_list_0 = create_list_int();\nlist_append_int(temp_list_0, 1);\ntemp_list_0;\n\n    Liststring* ys = stringList*temp_list_1 = create_list_string();\nlist_append_string(temp_list_1, \"a\");\ntemp_list_1;\n\n    Liststring* zs = (xs + ys);\n\n    printf(\"%d\\n\", xs->data[\"a\"]);\n\n    free_list_int(xs);\n    free_list_string(ys);\n    free_list_string(zs);\n    return 0;\n\x7d\n" ∧
    outcome (parse_index_assignment sample_env 3 (parser_at (c10_tokens "m") sample_vars [])) =
      .error (.thrown "Dict Index Must be a String at Line 2") := by
  decide!

/-! ## C10: indexed assignment -/

/-- C10: for a statement of the shape `v[i] = e NEWLINE`, where the index parses with
type I and the value with type E, `parse_index_assignment` succeeds if and only if `v`
is bound in `variables` to a type `ty` that is either a LIST with I = INT and E its
element type, or a DICT with I = STRING and E its value type; when `v` is bound to a
TUPLE the statement is rejected with the indexing error. -/
theorem C10_index_assignment (env : Env) (fuel : Nat) (p : Parser) (tok : Token) (p1 : Parser)
    (lb : Token) (p2 : Parser) (itxt : String) (I : VarType) (p3 : Parser) (rb : Token)
    (p4 : Parser) (eq : Token) (p5 : Parser) (etxt : String) (E : VarType) (p6 : Parser)
    (nl : Token) (p7 : Parser)
    (h1 : expect .IDENTIFIER p = .ok (tok, p1))
    (h2 : expect .LBRACKET p1 = .ok (lb, p2))
    (h3 : parse_expression env fuel p2 = .ok ((itxt, I), p3))
    (h4 : expect .RBRACKET p3 = .ok (rb, p4))
    (h5 : expect .EQUALS p4 = .ok (eq, p5))
    (h6 : parse_expression env fuel p5 = .ok ((etxt, E), p6))
    (h7 : expect .NEWLINE p6 = .ok (nl, p7)) :
    ((∃ r, parse_index_assignment env fuel p = .ok r) ↔
      ∃ ty, map_find p.variables_ tok.value = some ty ∧
        ((ty.base_type = .LIST ∧ I = .INT ∧ E = ty.element_type) ∨
         (ty.base_type = .DICT ∧ I = .STRING ∧ E = ty.value_type))) ∧
    (∀ ty, map_find p.variables_ tok.value = some ty → ty.base_type = .TUPLE →
      (∃ e, parse_index_assignment env fuel p = .error e) ∧
      ∀ t, p7.tokens[p7.pos]? = some t →
        parse_index_assignment env fuel p =
          .error (.thrown ("Indexing Only Supported for Lists and Dicts at Line " ++
            toString t.line))) := by
  have hv7 : p7.variables_ = p.variables_ :=
    (((((((expect_frame _ _ _ _ h1).trans (expect_frame _ _ _ _ h2)).trans
      (parse_expression_frame env fuel _ _ _ h3)).trans (expect_frame _ _ _ _ h4)).trans
      (expect_frame _ _ _ _ h5)).trans (parse_expression_frame env fuel _ _ _ h6)).trans
      (expect_frame _ _ _ _ h7)).2.1
  rw [← hv7]
  have hsteps : parse_index_assignment env fuel p =
      (match map_find p7.variables_ tok.value with
       | none => throw_at ("Undefined Variable " ++ tok.value ++ " at Line ") p7
       | some var_type =>
         if var_type.base_type ≠ .LIST ∧ var_type.base_type ≠ .DICT then
           throw_at "Indexing Only Supported for Lists and Dicts at Line " p7
         else if var_type.base_type = .LIST ∧ I ≠ .INT then
           throw_at "List Index Must be an Integer at Line " p7
         else if var_type.base_type = .DICT ∧ I ≠ .STRING then
           throw_at "Dict Index Must be a String at Line " p7
         else if var_type.base_type = .LIST ∧ var_type.element_type ≠ E then
           throw_at "Type Mismatch in List Assignment at Line " p7
         else if var_type.base_type = .DICT ∧ var_type.value_type ≠ E then
           throw_at "Type Mismatch in Dict Assignment at Line " p7
         else if var_type.base_type = .LIST then
           .ok (.HelperNode (tok.value ++ "->data[" ++ itxt ++ "] = " ++ etxt ++ ";\n"),
             add_include p7 ("list_" ++ vartype_to_c var_type.element_type ++ ".h"))
         else
           .ok (.HelperNode ("dict_set_" ++ vartype_to_c var_type.key_type ++
             vartype_to_c var_type.value_type ++ "(" ++ tok.value ++ ", " ++ itxt ++ ", " ++ etxt ++
             ");\n"), add_include p7 ("dict_string_" ++ vartype_to_c var_type.value_type ++ ".h"))) := by
    simp only [parse_index_assignment, h1, h2, h3, h4, h5, h6, h7, bind, Except.bind, pure,
      Except.pure]
  constructor
  · rw [hsteps]
    constructor
    · rintro ⟨r, hr⟩
      cases hv : map_find p7.variables_ tok.value with
      | none => simp [hv] at hr
      | some ty =>
        refine ⟨ty, rfl, ?_⟩
        rw [hv] at hr
        simp only [] at hr
        split_ifs at hr with c1 c2 c3 c4 c5 c6 <;> simp at hr
        · left
          exact ⟨c6, by_contra fun h => c2 ⟨c6, h⟩, (by_contra fun h => c4 ⟨c6, Ne.symm h⟩)⟩
        · right
          have hd : ty.base_type = .DICT := by
            by_contra h
            exact c1 ⟨c6, h⟩
          exact ⟨hd, by_contra fun h => c3 ⟨hd, h⟩, (by_contra fun h => c5 ⟨hd, Ne.symm h⟩)⟩
    · rintro ⟨ty, hv, hc⟩
      rw [hv]
      rcases hc with ⟨hb, hi, he⟩ | ⟨hb, hi, he⟩
      · simp [hb, hi, he]
      · simp [hb, hi, he]
  · intro ty hv hb
    rw [hsteps, hv]
    simp only [hb, ne_eq, reduceCtorEq, not_false_eq_true, and_self, if_true]
    refine ⟨throw_at_error _ _ _, ?_⟩
    intro t ht
    simp [throw_at, ht]

/-- C10 (witness): the statement `xs[0] = 5` with `xs : LIST[INT]` is accepted. -/
theorem C10_witness :
    ∃ r, parse_index_assignment sample_env 3 (parser_at (c10_tokens "xs") sample_vars []) = .ok r :=
  (C10_index_assignment sample_env 3 (parser_at (c10_tokens "xs") sample_vars [])
    (tk .IDENTIFIER "xs" 1)
    (at_point (parser_at (c10_tokens "xs") sample_vars []) 1 0 (scalar .NONE) ["common.h"])
    (tk .LBRACKET "[" 1)
    (at_point (parser_at (c10_tokens "xs") sample_vars []) 2 0 (scalar .NONE) ["common.h"])
    "0" .INT
    (at_point (parser_at (c10_tokens "xs") sample_vars []) 3 0 (scalar .INT) ["common.h"])
    (tk .RBRACKET "]" 1)
    (at_point (parser_at (c10_tokens "xs") sample_vars []) 4 0 (scalar .INT) ["common.h"])
    (tk .EQUALS "=" 1)
    (at_point (parser_at (c10_tokens "xs") sample_vars []) 5 0 (scalar .INT) ["common.h"])
    "5" .INT
    (at_point (parser_at (c10_tokens "xs") sample_vars []) 6 0 (scalar .INT) ["common.h"])
    (tk .NEWLINE "" 1)
    (at_point (parser_at (c10_tokens "xs") sample_vars []) 7 0 (scalar .INT) ["common.h"])
    (by decide!) (by decide!) (by decide!) (by decide!) (by decide!) (by decide!)
    (by decide!)).1.2 ⟨list_of .INT, by decide!, Or.inl ⟨rfl, rfl, rfl⟩⟩

/-- The examples of C10 on the code: `xs[0] = 5` is accepted for `xs : LIST[INT]`;
the same statement is rejected for a TUPLE, for a DICT (the index is not a STRING),
for a LIST[STRING] (the value is not a STRING) and for an unbound name. -/
theorem index_assignment_examples :
    outcome (parse_index_assignment sample_env 3 (parser_at (c10_tokens "xs") sample_vars [])) =
      .ok (7, sample_vars) ∧
    outcome (parse_index_assignment sample_env 3 (parser_at (c10_tokens "t") sample_vars [])) =
      .error (.thrown "Indexing Only Supported for Lists and Dicts at Line 2") ∧
    outcome (parse_index_assignment sample_env 3 (parser_at (c10_tokens "m") sample_vars [])) =
      .error (.thrown "Dict Index Must be a String at Line 2") ∧
    outcome (parse_index_assignment sample_env 3 (parser_at (c10_tokens "ys") sample_vars [])) =
      .error (.thrown "Type Mismatch in List Assignment at Line 2") ∧
    outcome (parse_index_assignment sample_env 3 (parser_at (c10_tokens "q") sample_vars [])) =
      .error (.thrown "Undefined Variable q at Line 2") := by
  refine ⟨?_, ?_, ?_, ?_, ?_⟩ <;> decide!

/-! ## Lemmas on method calls -/

theorem throw_at_bind {α β : Type} (msg : String) (p : Parser) (f : α → Res β) :
    ((throw_at msg p : Res α) >>= f) = throw_at msg p := by
  unfold throw_at
  split <;> rfl

/-- The checks of `method_return_type` follow the dispatch table. -/
theorem method_return_type_table (m1 m2 : String) (var_type : CollectionType) (method : String)
    (q : Parser) :
    (∀ t, spec_method_type var_type.base_type method = some t →
      ∃ q1, method_return_type m1 m2 var_type method q = .ok (t, q1) ∧ Frame q q1 ∧
        q1.pos = q.pos ∧ q1.rand_calls = q.rand_calls) ∧
    (spec_method_type var_type.base_type method = none →
      ∃ msg, method_return_type m1 m2 var_type method q = throw_at msg q) := by
  unfold method_return_type spec_method_type
  constructor
  · intro t ht
    split_ifs at ht with h1 h2 h3 h4
    · obtain ⟨hb, hm⟩ := h1
      subst hm
      cases ht
      simp [hb, add_include, Frame]
    · obtain ⟨hb, hm⟩ := h2
      cases ht
      rcases hm with hm | hm | hm | hm <;> subst hm <;> simp [hb, add_include, Frame]
    · obtain ⟨hb, hm⟩ := h3
      subst hm
      cases ht
      simp [hb, add_include, Frame]
    · obtain ⟨hb, hm⟩ := h4
      subst hm
      cases ht
      simp [hb, add_include, Frame]
  · intro ht
    split_ifs at ht with h1 h2 h3 h4
    split_ifs with g1 g2 g3 g4 g5 g6 g7
    all_goals first | exact ⟨_, rfl⟩ | skip
    all_goals simp only [not_and, not_or, ne_eq, not_not] at *
    all_goals exfalso
    · exact h1 g3 g2
    · exact h3 g5 g6
    · exact h4 g5 g7
    · have := h2 g5
      rcases g4 with g | g | g | g | g | g
      · exact this.1 g
      · exact this.2.1 g
      · exact this.2.2.1 g
      · exact this.2.2.2 g
      · exact g6 g
      · exact g7 g

/-- The arguments read by the lowering of a method call are in the vector. -/
theorem reads_args_at (method : String) (args : List String) (h : reads_args method args = true) :
    ((method = "append" ∨ method = "find") → ∃ a0, arg_at args 0 = .ok a0) ∧
    (method = "replace" → ∃ a0 a1, arg_at args 0 = .ok a0 ∧ arg_at args 1 = .ok a1) := by
  unfold reads_args at h
  constructor
  · intro hm
    rw [if_pos hm] at h
    cases args with
    | nil => simp at h
    | cons a rest => exact ⟨a, by simp [arg_at]⟩
  · intro hm
    have hn : ¬ (method = "append" ∨ method = "find") := by
      subst hm
      decide
    rw [if_neg hn, if_pos hm] at h
    match args, h with
    | a :: b :: rest, _ => exact ⟨a, b, by simp [arg_at], by simp [arg_at]⟩
    | [_], h => simp at h
    | [], h => simp at h

/-- The statement path of a method call, after its tokens. -/
theorem parse_method_call_steps (env : Env) (fuel : Nat) (p p1 p2 p3 p4 p5 p6 p7 : Parser)
    (tok dot mtok lp rp nl : Token) (args : List String) (var_type : CollectionType)
    (h1 : expect .IDENTIFIER p = .ok (tok, p1)) (h2 : expect .DOT p1 = .ok (dot, p2))
    (h3 : expect .CALL_METHOD p2 = .ok (mtok, p3)) (h4 : expect .LPAREN p3 = .ok (lp, p4))
    (h5 : parse_args (parse_expression env fuel) fuel p4 = .ok (args, p5))
    (h6 : expect .RPAREN p5 = .ok (rp, p6)) (h7 : expect .NEWLINE p6 = .ok (nl, p7))
    (hv : map_find p6.variables_ tok.value = some var_type) :
    parse_method_call env fuel p =
      (method_return_type "'Append' Method Only Supported for Lists at Line "
        "'String' Methods Only Supported for Strings at Line " var_type mtok.value p7 >>=
        fun r => pure (.MethodCallNode tok.value mtok.value args r.1, r.2)) := by
  have hv7 : map_find p7.variables_ tok.value = some var_type := by
    rw [(expect_frame _ _ _ _ h7).2.1]
    exact hv
  unfold parse_method_call
  simp only [h1, h2, h3, h4, h5, h6, h7, hv7, bind, Except.bind]

/-- The expression path of a method call, after its tokens. -/
theorem parse_method_expr_steps (env : Env) (rec : Parser → Res (Expr × Parser)) (n : Nat)
    (p p1 p2 p3 p4 p5 p6 : Parser)
    (tok dot mtok lp rp : Token) (args : List String) (var_type : CollectionType)
    (h1 : expect .IDENTIFIER p = .ok (tok, p1)) (h2 : expect .DOT p1 = .ok (dot, p2))
    (h3 : expect .CALL_METHOD p2 = .ok (mtok, p3)) (h4 : expect .LPAREN p3 = .ok (lp, p4))
    (h5 : parse_args rec n p4 = .ok (args, p5))
    (h6 : expect .RPAREN p5 = .ok (rp, p6))
    (hv : map_find p6.variables_ tok.value = some var_type) :
    (∀ msg, method_return_type "Append Method Only Supported for Lists at Line "
        "String Method Only Supported for Strings at Line " var_type mtok.value p6 = throw_at msg p6 →
      parse_method_expr env rec n p = throw_at msg p6) ∧
    (∀ t q, method_return_type "Append Method Only Supported for Lists at Line "
        "String Method Only Supported for Strings at Line " var_type mtok.value p6 = .ok (t, q) →
      spec_method_type var_type.base_type mtok.value = some t →
      reads_args mtok.value args = true →
      ∃ text q1, parse_method_expr env rec n p = .ok ((text, t.base_type), q1) ∧
        (mtok.value = "split" → q1.expr_type = t)) := by
  constructor
  · intro msg hm
    unfold parse_method_expr
    unfold throw_at at hm ⊢
    cases hp : p6.tokens[p6.pos]? with
    | none =>
      simp only [hp] at hm
      simp only [h1, h2, h3, h4, h5, h6, hv, hm, bind, Except.bind]
    | some t =>
      simp only [hp] at hm
      simp only [h1, h2, h3, h4, h5, h6, hv, hm, bind, Except.bind]
  · intro t q hm ht hr
    have hread := reads_args_at _ _ hr
    unfold parse_method_expr
    simp only [h1, h2, h3, h4, h5, h6, hv, hm, bind, Except.bind]
    unfold spec_method_type at ht
    split_ifs at ht with c1 c2 c3 c4
    · obtain ⟨a0, ha⟩ := hread.1 (Or.inl c1.2)
      cases ht
      simp [c1.2, ha, pure, Except.pure]
    · cases ht
      rcases c2.2 with c | c | c | c
      · simp [c, pure, Except.pure]
      · simp [c, pure, Except.pure]
      · simp [c, pure, Except.pure]
      · obtain ⟨a0, a1, ha0, ha1⟩ := hread.2 c
        simp [c, ha0, ha1, pure, Except.pure]
    · cases ht
      by_cases he : args.isEmpty = true
      · simp [c3.2, he, pure, Except.pure]
        exact ⟨_, _, ⟨rfl, rfl⟩, rfl⟩
      · cases args with
        | nil => simp at he
        | cons a rest =>
          simp [c3.2, arg_at, pure, Except.pure]
          exact ⟨_, _, ⟨rfl, rfl⟩, rfl⟩
    · obtain ⟨a0, ha⟩ := hread.1 (Or.inr c4.2)
      cases ht
      simp [c4.2, ha, pure, Except.pure]

/-! ## C11: the dispatch table of method calls -/

/-- C11. A method call on a bound receiver gets the type of the dispatch table: as a statement the
node carries the table's type, and in an expression (whose lowering reads its arguments) the type of
the expression is the table's base type, `split` recording LIST of STRING as `expr_type`. Where the
table has no row (`append` on a STRING, a string method on a LIST, any method on another receiver)
both paths raise an error. -/
theorem C11_method_call_typing (env : Env) (fuel : Nat) (p p1 p2 p3 p4 p5 p6 p7 : Parser)
    (tok dot mtok lp rp nl : Token) (args : List String) (var_type : CollectionType)
    (h1 : expect .IDENTIFIER p = .ok (tok, p1)) (h2 : expect .DOT p1 = .ok (dot, p2))
    (h3 : expect .CALL_METHOD p2 = .ok (mtok, p3)) (h4 : expect .LPAREN p3 = .ok (lp, p4))
    (h5 : parse_args (parse_expression env fuel) fuel p4 = .ok (args, p5))
    (h6 : expect .RPAREN p5 = .ok (rp, p6)) (h7 : expect .NEWLINE p6 = .ok (nl, p7))
    (hv : map_find p6.variables_ tok.value = some var_type) :
    (∀ t, spec_method_type var_type.base_type mtok.value = some t →
      (∃ q, parse_method_call env fuel p =
        .ok (.MethodCallNode tok.value mtok.value args t, q)) ∧
      (reads_args mtok.value args = true →
        ∃ text q, parse_method_expr env (parse_expression env fuel) fuel p =
            .ok ((text, t.base_type), q) ∧
          (mtok.value = "split" → q.expr_type = t))) ∧
    (spec_method_type var_type.base_type mtok.value = none →
      (∃ msg, parse_method_call env fuel p = throw_at msg p7) ∧
      (∃ msg, parse_method_expr env (parse_expression env fuel) fuel p = throw_at msg p6)) := by
  have hs := parse_method_call_steps env fuel p p1 p2 p3 p4 p5 p6 p7 tok dot mtok lp rp nl args
    var_type h1 h2 h3 h4 h5 h6 h7 hv
  have he := parse_method_expr_steps env (parse_expression env fuel) fuel p p1 p2 p3 p4 p5 p6
    tok dot mtok lp rp args var_type h1 h2 h3 h4 h5 h6 hv
  constructor
  · intro t ht
    constructor
    · obtain ⟨q1, hq, -⟩ := (method_return_type_table
        "'Append' Method Only Supported for Lists at Line "
        "'String' Methods Only Supported for Strings at Line " var_type mtok.value p7).1 t ht
      rw [hs, hq]
      exact ⟨q1, rfl⟩
    · intro hr
      obtain ⟨q1, hq, -⟩ := (method_return_type_table
        "Append Method Only Supported for Lists at Line "
        "String Method Only Supported for Strings at Line " var_type mtok.value p6).1 t ht
      exact he.2 t q1 hq ht hr
  · intro ht
    constructor
    · obtain ⟨msg, hq⟩ := (method_return_type_table
        "'Append' Method Only Supported for Lists at Line "
        "'String' Methods Only Supported for Strings at Line " var_type mtok.value p7).2 ht
      rw [hs, hq, throw_at_bind]
      exact ⟨msg, rfl⟩
    · obtain ⟨msg, hq⟩ := (method_return_type_table
        "Append Method Only Supported for Lists at Line "
        "String Method Only Supported for Strings at Line " var_type mtok.value p6).2 ht
      exact ⟨msg, he.1 msg hq⟩

/-- C11 at the statement `s.split()` with `s : STRING`: the node is typed LIST of STRING. -/
theorem C11_witness :
    ∃ q, parse_method_call sample_env 4 (parser_at c11_tokens method_vars []) =
      .ok (.MethodCallNode "s" "split" [] (list_of .STRING), q) :=
  ((C11_method_call_typing sample_env 4 (parser_at c11_tokens method_vars [])
    (at_point (parser_at c11_tokens method_vars []) 1 0 (scalar .NONE) ["common.h"])
    (at_point (parser_at c11_tokens method_vars []) 2 0 (scalar .NONE) ["common.h"])
    (at_point (parser_at c11_tokens method_vars []) 3 0 (scalar .NONE) ["common.h"])
    (at_point (parser_at c11_tokens method_vars []) 4 0 (scalar .NONE) ["common.h"])
    (at_point (parser_at c11_tokens method_vars []) 4 0 (scalar .NONE) ["common.h"])
    (at_point (parser_at c11_tokens method_vars []) 5 0 (scalar .NONE) ["common.h"])
    (at_point (parser_at c11_tokens method_vars []) 6 0 (scalar .NONE) ["common.h"])
    (tk .IDENTIFIER "s" 1) (tk .DOT "." 1) (tk .CALL_METHOD "split" 1) (tk .LPAREN "(" 1)
    (tk .RPAREN ")" 1) (tk .NEWLINE "" 1) [] (scalar .STRING)
    (by decide!) (by decide!) (by decide!) (by decide!) (by decide!) (by decide!) (by decide!)
    (by decide!)).1 (list_of .STRING) (by decide!)).1

/-- The rows of the dispatch table and the rejected receivers, on concrete calls. -/
theorem method_call_examples :
    typed (parse_expression sample_env 4
      (parser_at (method_tokens "xs" "append" [tk .NUMBER "1" 1]) method_vars [])) =
      .ok (("list_append_int(xs, 1)", .NONE), scalar .INT) ∧
    typed (parse_expression sample_env 4
      (parser_at (method_tokens "s" "upper" []) method_vars [])) =
      .ok (("char* temp_method_0 = str_upper(s)", .STRING), scalar .NONE) ∧
    typed (parse_expression sample_env 4 (parser_at c11_tokens method_vars [])) =
      .ok (("ListString* temp_method_0 = str_split(s, NULL)", .LIST), list_of .STRING) ∧
    typed (parse_expression sample_env 4
      (parser_at (method_tokens "s" "find" [tk .STRING_LITERAL "a" 1]) method_vars [])) =
      .ok (("int temp_method_0 = str_find(s, \"a\")", .INT), scalar .STRING) ∧
    typed (parse_expression sample_env 4
      (parser_at (method_tokens "s" "append" [tk .NUMBER "1" 1]) method_vars [])) =
      .error (.thrown "Append Method Only Supported for Lists at Line 1") ∧
    typed (parse_expression sample_env 4
      (parser_at (method_tokens "xs" "upper" []) method_vars [])) =
      .error (.thrown "String Method Only Supported for Strings at Line 1") ∧
    typed (parse_expression sample_env 4
      (parser_at (method_tokens "n" "upper" []) method_vars [])) =
      .error (.thrown "Method Call Only Supported for Strings and Lists at Line 1") ∧
    typed (parse_expression sample_env 4
      (parser_at (method_tokens "t" "append" [tk .NUMBER "1" 1]) method_vars [])) =
      .error (.thrown "Method Call Only Supported for Strings and Lists at Line 1") ∧
    method_node (parse_method_call sample_env 4
      (parser_at (method_tokens "m" "find" [tk .STRING_LITERAL "a" 1]) method_vars [])) =
      .error (.thrown "Method Call Only Supported for Strings and Lists at Line 2") := by
  refine ⟨?_, ?_, ?_, ?_, ?_, ?_, ?_, ?_, ?_⟩ <;> decide!

/-! ## C12: arguments of a method call -/

/-- The lowering of a method call succeeds when the arguments it reads are in the vector. -/
theorem method_call_c_code_ok (env : Env) (var method : String) (args : List String)
    (return_type : CollectionType) (g : Gen) (hr : reads_args method args = true) :
    ∃ code g1, method_call_c_code env var method args return_type g = .ok (code, g1) := by
  have hread := reads_args_at _ _ hr
  unfold method_call_c_code
  by_cases c1 : method = "append"
  · obtain ⟨a0, ha⟩ := hread.1 (Or.inl c1)
    simp [c1, ha, bind, Except.bind, pure, Except.pure]
  by_cases c2 : method = "upper" ∨ method = "lower" ∨ method = "strip"
  · simp [c1, c2, bind, Except.bind, pure, Except.pure]
  by_cases c3 : method = "replace"
  · obtain ⟨a0, a1, ha0, ha1⟩ := hread.2 c3
    simp [c3, ha0, ha1, bind, Except.bind, pure, Except.pure]
  by_cases c4 : method = "split"
  · cases args with
    | nil => simp [c4, bind, Except.bind, pure, Except.pure]
    | cons a rest => simp [c4, arg_at, bind, Except.bind, pure, Except.pure]
  by_cases c5 : method = "find"
  · obtain ⟨a0, ha⟩ := hread.1 (Or.inr c5)
    simp [c5, ha, bind, Except.bind, pure, Except.pure]
  simp [c1, c2, c3, c4, c5, bind, Except.bind, pure, Except.pure]

/-- C12 (the claim fails). The statement `xs.append("x")` on `xs : LIST[INT]` is accepted by both
paths of the parser and lowered; the parser also accepts the statement `xs.append()`. -/
theorem C12_counterexample :
    method_node (parse_method_call sample_env 4 (parser_at c12_tokens method_vars [])) =
      .ok (some ("xs", "append", ["\"x\""], scalar .NONE)) ∧
    lowered (parse_method_call sample_env 4 (parser_at c12_tokens method_vars [])) =
      .ok "list_append_void(xs, \"x\");\n" ∧
    typed (parse_expression sample_env 4 (parser_at c12_tokens method_vars [])) =
      .ok (("list_append_int(xs, \"x\")", .NONE), scalar .STRING) ∧
    method_node (parse_method_call sample_env 4
      (parser_at (method_tokens "xs" "append" []) method_vars [])) =
      .ok (some ("xs", "append", [], scalar .NONE)) := by
  refine ⟨?_, ?_, ?_, ?_⟩ <;> decide!

/-- C12 (amended). The arguments of a method call are not compared with the dispatch table: when the
receiver and the method have a row in the table and the arguments that the lowering reads are
present, the call is accepted as a statement, its node is lowered, and it is accepted in an
expression, whatever the number and the types of the arguments. -/
theorem C12_arguments_not_checked (env : Env) (fuel : Nat) (p p1 p2 p3 p4 p5 p6 p7 : Parser)
    (tok dot mtok lp rp nl : Token) (args : List String) (var_type t : CollectionType)
    (h1 : expect .IDENTIFIER p = .ok (tok, p1)) (h2 : expect .DOT p1 = .ok (dot, p2))
    (h3 : expect .CALL_METHOD p2 = .ok (mtok, p3)) (h4 : expect .LPAREN p3 = .ok (lp, p4))
    (h5 : parse_args (parse_expression env fuel) fuel p4 = .ok (args, p5))
    (h6 : expect .RPAREN p5 = .ok (rp, p6)) (h7 : expect .NEWLINE p6 = .ok (nl, p7))
    (hv : map_find p6.variables_ tok.value = some var_type)
    (ht : spec_method_type var_type.base_type mtok.value = some t)
    (hr : reads_args mtok.value args = true) :
    (∃ node q, parse_method_call env fuel p = .ok (node, q) ∧
      ∀ g, ∃ code g1, generate_c_code env node g = .ok (code, g1)) ∧
    (∃ e q, parse_method_expr env (parse_expression env fuel) fuel p = .ok (e, q)) := by
  have hs := parse_method_call_steps env fuel p p1 p2 p3 p4 p5 p6 p7 tok dot mtok lp rp nl args
    var_type h1 h2 h3 h4 h5 h6 h7 hv
  have he := parse_method_expr_steps env (parse_expression env fuel) fuel p p1 p2 p3 p4 p5 p6
    tok dot mtok lp rp args var_type h1 h2 h3 h4 h5 h6 hv
  constructor
  · obtain ⟨q1, hq, -⟩ := (method_return_type_table
      "'Append' Method Only Supported for Lists at Line "
      "'String' Methods Only Supported for Strings at Line " var_type mtok.value p7).1 t ht
    refine ⟨.MethodCallNode tok.value mtok.value args t, q1, ?_, ?_⟩
    · rw [hs, hq]
      rfl
    · intro g
      simp only [generate_c_code]
      exact method_call_c_code_ok env _ _ _ _ g hr
  · obtain ⟨q1, hq, -⟩ := (method_return_type_table
      "Append Method Only Supported for Lists at Line "
      "String Method Only Supported for Strings at Line " var_type mtok.value p6).1 t ht
    obtain ⟨text, q2, h, -⟩ := he.2 t q1 hq ht hr
    exact ⟨_, q2, h⟩

/-- C12 (amended) at the statement `xs.append("x")` with `xs : LIST[INT]`. -/
theorem C12_witness :
    (∃ node q, parse_method_call sample_env 4 (parser_at c12_tokens method_vars []) =
        .ok (node, q) ∧
      ∀ g, ∃ code g1, generate_c_code sample_env node g = .ok (code, g1)) ∧
    (∃ e q, parse_method_expr sample_env (parse_expression sample_env 4) 4
      (parser_at c12_tokens method_vars []) = .ok (e, q)) :=
  C12_arguments_not_checked sample_env 4 (parser_at c12_tokens method_vars [])
    (at_point (parser_at c12_tokens method_vars []) 1 0 (scalar .NONE) ["common.h"])
    (at_point (parser_at c12_tokens method_vars []) 2 0 (scalar .NONE) ["common.h"])
    (at_point (parser_at c12_tokens method_vars []) 3 0 (scalar .NONE) ["common.h"])
    (at_point (parser_at c12_tokens method_vars []) 4 0 (scalar .NONE) ["common.h"])
    (at_point (parser_at c12_tokens method_vars []) 5 0 (scalar .STRING)
      ["common.h", "string_utils.h"])
    (at_point (parser_at c12_tokens method_vars []) 6 0 (scalar .STRING)
      ["common.h", "string_utils.h"])
    (at_point (parser_at c12_tokens method_vars []) 7 0 (scalar .STRING)
      ["common.h", "string_utils.h"])
    (tk .IDENTIFIER "xs" 1) (tk .DOT "." 1) (tk .CALL_METHOD "append" 1) (tk .LPAREN "(" 1)
    (tk .RPAREN ")" 1) (tk .NEWLINE "" 1) ["\"x\""] (list_of .INT) (scalar .NONE)
    (by decide!) (by decide!) (by decide!) (by decide!) (by decide!) (by decide!) (by decide!)
    (by decide!) (by decide!) (by decide!)

/-! ## Lemmas on the lexer -/

theorem depth_after_append (a b : List Token) : ∀ d : Nat,
    depth_after d (a ++ b) = (depth_after d a).bind (fun d1 => depth_after d1 b) := by
  induction a with
  | nil => intro d; simp [depth_after]
  | cons t rest ih =>
    intro d
    simp only [List.cons_append, depth_after]
    by_cases h1 : t.type = .INDENT
    · simp [h1, ih]
    · by_cases h2 : t.type = .DEDENT
      · by_cases h3 : d = 0
        · simp [h2, h3]
        · simp [h2, h3, ih]
      · simp [h1, h2, ih]

theorem depth_after_plain (l : List Token)
    (h : ∀ t ∈ l, t.type ≠ .INDENT ∧ t.type ≠ .DEDENT) : ∀ d : Nat, depth_after d l = some d := by
  induction l with
  | nil => intro d; simp [depth_after]
  | cons t rest ih =>
    intro d
    have ht := h t (List.mem_cons_self _ _)
    simp only [depth_after, if_neg ht.1, if_neg ht.2]
    exact ih (fun u hu => h u (List.mem_cons_of_mem _ hu)) d

theorem depth_after_counts (l : List Token) : ∀ d d1 : Nat, depth_after d l = some d1 →
    d + count_type .INDENT l = d1 + count_type .DEDENT l := by
  induction l with
  | nil => intro d d1 h; simp [depth_after] at h; simp [count_type, h]
  | cons t rest ih =>
    intro d d1 h
    simp only [depth_after] at h
    by_cases h1 : t.type = .INDENT
    · rw [if_pos h1] at h
      have := ih _ _ h
      simp only [count_type] at this ⊢
      simp [List.countP_cons, h1] at this ⊢
      omega
    · rw [if_neg h1] at h
      by_cases h2 : t.type = .DEDENT
      · rw [if_pos h2] at h
        by_cases h3 : d = 0
        · simp [h3] at h
        · rw [if_neg h3] at h
          have := ih _ _ h
          simp only [count_type] at this ⊢
          simp [List.countP_cons, h2] at this ⊢
          omega
      · rw [if_neg h2] at h
        have := ih _ _ h
        simp only [count_type] at this ⊢
        simp [List.countP_cons, h1, h2] at this ⊢
        omega

theorem depth_after_take (l : List Token) : ∀ (d d1 : Nat), depth_after d l = some d1 →
    ∀ k : Nat, ∃ d2, depth_after d (l.take k) = some d2 := by
  induction l with
  | nil => intro d d1 _ k; simp [depth_after]
  | cons t rest ih =>
    intro d d1 h k
    cases k with
    | zero => simp [depth_after]
    | succ k =>
      simp only [List.take_succ_cons, depth_after] at h ⊢
      by_cases h1 : t.type = .INDENT
      · rw [if_pos h1] at h ⊢
        exact ih _ _ h k
      · rw [if_neg h1] at h ⊢
        by_cases h2 : t.type = .DEDENT
        · rw [if_pos h2] at h ⊢
          by_cases h3 : d = 0
          · simp [h3] at h
          · rw [if_neg h3] at h ⊢
            exact ih _ _ h k
        · rw [if_neg h2] at h ⊢
          exact ih _ _ h k

theorem depth_after_dedents (line : Int) : ∀ (k d : Nat), k ≤ d →
    depth_after d (List.replicate k (dedent_at line)) = some (d - k) := by
  intro k
  induction k with
  | zero => intro d _; simp [depth_after]
  | succ k ih =>
    intro d hd
    have h0 : d ≠ 0 := by omega
    simp only [List.replicate_succ, depth_after, dedent_at, if_neg h0]
    simp only [reduceCtorEq, if_false, if_true]
    have := ih (d - 1) (by omega)
    simp only [dedent_at] at this
    rw [this]
    congr 1
    omega

/-- A balanced token list: equal counts, and no prefix closes more levels than it opens. -/
theorem balanced_of_depth (l : List Token) (h : depth_after 0 l = some 0) :
    count_type .INDENT l = count_type .DEDENT l ∧
    ∀ k : Nat, count_type .DEDENT (l.take k) ≤ count_type .INDENT (l.take k) := by
  constructor
  · have := depth_after_counts l 0 0 h
    omega
  · intro k
    obtain ⟨d2, h2⟩ := depth_after_take l 0 0 h k
    have := depth_after_counts _ 0 d2 h2
    omega

theorem plain_kind_ite (c : Prop) [Decidable c] (a b : TokenType)
    (ha : plain_kind a = true) (hb : plain_kind b = true) :
    plain_kind (if c then a else b) = true := by
  split <;> assumption

theorem keyword_type_plain (value : String) : plain_kind (keyword_type value) = true := by
  unfold keyword_type
  repeat (first | rfl | apply plain_kind_ite)

theorem step_plain_error (lx : Lexer) (e : Fault) : StepPlain lx (.error e) := by
  intro more lx1 h
  cases h

theorem step_plain_emit (lx : Lexer) (kind : TokenType) (value : String) (width : Nat)
    (hk : plain_kind kind = true) : StepPlain lx (emit lx kind value width) := by
  intro more lx1 h
  simp only [emit, Except.ok.injEq, Prod.mk.injEq] at h
  obtain ⟨rfl, rfl⟩ := h
  simp [hk]

theorem step_plain_ite (lx : Lexer) (c : Prop) [Decidable c] (a b : Res (List Token × Lexer))
    (ha : c → StepPlain lx a) (hb : ¬ c → StepPlain lx b) :
    StepPlain lx (if c then a else b) := by
  split
  · exact ha (by assumption)
  · exact hb (by assumption)

theorem read_number_or_float_ok (lx lx1 : Lexer) (token : Token)
    (h : read_number_or_float lx = .ok (token, lx1)) :
    lx1.indent_stack = lx.indent_stack ∧ lx1.line = lx.line ∧ lx1.source = lx.source ∧
    plain_kind token.type = true ∧ token.line = lx.line := by
  unfold read_number_or_float at h
  rw [bind_ok] at h
  obtain ⟨⟨value, has_decimal, n⟩, -, h⟩ := h
  simp only [] at h
  by_cases hd : has_decimal = true
  · simp only [hd, if_true, pure, Except.pure, Except.ok.injEq, Prod.mk.injEq] at h
    obtain ⟨rfl, rfl⟩ := h
    simp [plain_kind]
  · simp only [hd, if_false, pure, Except.pure, Except.ok.injEq, Prod.mk.injEq] at h
    obtain ⟨rfl, rfl⟩ := h
    simp [plain_kind]

theorem lex_step_plain (fuel : Nat) (lx : Lexer) (c : Char) (hc : c ≠ '\n') :
    StepPlain lx (lex_step fuel lx c) := by
  unfold lex_step
  rw [if_neg hc]
  refine step_plain_ite _ _ _ _ (fun _ => ?_) (fun _ => ?_)
  · intro more lx1 h
    simp only [Except.ok.injEq, Prod.mk.injEq] at h
    obtain ⟨rfl, rfl⟩ := h
    simp
  refine step_plain_ite _ _ _ _ (fun _ => ?_) (fun h2 => ?_)
  · intro more lx1 h
    simp only [read_identifier_or_keyword, Except.ok.injEq, Prod.mk.injEq] at h
    obtain ⟨rfl, rfl⟩ := h
    simp [keyword_type_plain]
  refine step_plain_ite _ _ _ _ (fun _ => ?_) (fun h3 => ?_)
  · intro more lx1 h
    rw [bind_ok] at h
    obtain ⟨⟨token, lx2⟩, hr, h⟩ := h
    simp only [pure, Except.pure, Except.ok.injEq, Prod.mk.injEq] at h
    obtain ⟨rfl, rfl⟩ := h
    have := read_number_or_float_ok _ _ _ hr
    simp [this]
  refine step_plain_ite _ _ _ _ (fun _ => ?_) (fun _ => ?_)
  · intro more lx1 h
    simp only [read_string, Except.ok.injEq, Prod.mk.injEq] at h
    obtain ⟨rfl, rfl⟩ := h
    simp [plain_kind]
  refine step_plain_ite _ _ _ _ (fun h5 => ?_) (fun _ => ?_)
  · exfalso
    simp only [Bool.and_eq_true, decide_eq_true_eq] at h5
    rw [h5.1] at h2
    exact h2 (by decide)
  have hdot : c ≠ '.' := by
    intro hd
    simp [hd] at h3
  repeat (first
    | exact step_plain_error _ _
    | exact step_plain_emit _ _ _ _ rfl
    | contradiction
    | refine step_plain_ite _ _ _ _ (fun _ => ?_) (fun _ => ?_))

theorem dedent_loop_levels (spaces : Nat) (line : Int) : ∀ (levels stack : List Nat)
    (more : List Token), (∀ x ∈ levels, 0 < x) →
    dedent_loop spaces line (levels ++ [0]) = .ok (stack, more) →
    ∃ levels1 : List Nat, stack = levels1 ++ [0] ∧ (∀ x ∈ levels1, 0 < x) ∧
      levels1.length ≤ levels.length ∧
      more = List.replicate (levels.length - levels1.length) (dedent_at line) := by
  intro levels
  induction levels with
  | nil =>
    intro stack more _ h
    simp only [List.nil_append, dedent_loop] at h
    by_cases hs : spaces ≠ 0
    · rw [if_pos hs, bind_ok] at h
      obtain ⟨a, ha, -⟩ := h
      cases ha
    · rw [if_neg hs] at h
      simp only [Except.ok.injEq, Prod.mk.injEq] at h
      obtain ⟨rfl, rfl⟩ := h
      exact ⟨[], by simp⟩
  | cons x ls ih =>
    intro stack more hpos h
    simp only [List.cons_append, dedent_loop] at h
    by_cases hs : spaces ≠ x
    · rw [if_pos hs, bind_ok] at h
      obtain ⟨⟨stack1, more1⟩, ha, h⟩ := h
      simp only [pure, Except.pure, Except.ok.injEq, Prod.mk.injEq] at h
      obtain ⟨rfl, rfl⟩ := h
      obtain ⟨levels1, h1, h2, h3, h4⟩ :=
        ih stack1 more1 (fun y hy => hpos y (List.mem_cons_of_mem _ hy)) ha
      refine ⟨levels1, h1, h2, ?_, ?_⟩
      · simp only [List.length_cons]
        omega
      · have : (x :: ls).length - levels1.length = (ls.length - levels1.length) + 1 := by
          simp only [List.length_cons]
          omega
        rw [this, List.replicate_succ, h4]
        rfl
    · rw [if_neg hs] at h
      simp only [Except.ok.injEq, Prod.mk.injEq] at h
      obtain ⟨rfl, rfl⟩ := h
      exact ⟨x :: ls, by simp, hpos, le_refl _, by simp⟩

theorem final_dedents_levels (line : Int) : ∀ (levels : List Nat), (∀ x ∈ levels, 0 < x) →
    final_dedents line (levels ++ [0]) =
      .ok ([0], List.replicate levels.length (dedent_at line)) := by
  intro levels
  induction levels with
  | nil => intro _; simp [final_dedents]
  | cons x ls ih =>
    intro hpos
    have hx : x > 0 := hpos x (List.mem_cons_self _ _)
    have h1 := ih (fun y hy => hpos y (List.mem_cons_of_mem _ hy))
    simp only [List.cons_append, final_dedents, if_pos hx, List.append_eq]
    rw [h1]
    simp [bind, Except.bind, pure, Except.pure, List.replicate_succ, dedent_at]

theorem levels_filter (levels : List Nat) (hpos : ∀ x ∈ levels, 0 < x) :
    ((levels ++ [0]).filter (fun x => 0 < x)).length = levels.length := by
  have : levels.filter (fun x => decide (0 < x)) = levels := by
    rw [List.filter_eq_self]
    intro x hx
    simpa using hpos x hx
  simp [List.filter_append, this]

theorem mem_replicate_dedent (line : Int) (k : Nat) (t : Token)
    (h : t ∈ List.replicate k (dedent_at line)) : t.type = .DEDENT ∧ t.line = line := by
  rw [List.mem_replicate] at h
  rw [h.2]
  exact ⟨rfl, rfl⟩

/-- What `handle_indent` does to a well-formed indentation stack. -/
theorem handle_indent_levels (lx lx1 : Lexer) (levels : List Nat) (more : List Token)
    (hst : lx.indent_stack = levels ++ [0]) (hpos : ∀ x ∈ levels, 0 < x)
    (h : handle_indent lx = .ok (more, lx1)) :
    ∃ levels1 : List Nat, lx1.indent_stack = levels1 ++ [0] ∧ (∀ x ∈ levels1, 0 < x) ∧
      depth_after levels.length more = some levels1.length ∧
      (∀ t ∈ more, (t.type = .INDENT ∨ t.type = .DEDENT) ∧ t.line = lx.line) ∧
      lx1.line = lx.line ∧ lx1.source = lx.source := by
  unfold handle_indent at h
  simp only [] at h
  split at h
  · simp only [Except.ok.injEq, Prod.mk.injEq] at h
    obtain ⟨rfl, rfl⟩ := h
    exact ⟨levels, hst, hpos, by simp [depth_after], by simp, rfl, rfl⟩
  · rename_i c _
    by_cases hc : c ≠ '\n'
    · rw [if_pos hc] at h
      simp only [hst] at h
      cases levels with
      | nil =>
        simp only [List.nil_append] at h
        split_ifs at h with h1 h2
        · simp only [Except.ok.injEq, Prod.mk.injEq] at h
          obtain ⟨rfl, rfl⟩ := h
          refine ⟨[_], rfl, ?_, by simp [depth_after], by simp, rfl, rfl⟩
          intro x hx
          simp only [List.mem_singleton] at hx
          omega
        · omega
        · simp only [Except.ok.injEq, Prod.mk.injEq] at h
          obtain ⟨rfl, rfl⟩ := h
          exact ⟨[], rfl, by simp, by simp [depth_after], by simp, rfl, rfl⟩
      | cons x ls =>
        simp only [List.cons_append] at h
        split_ifs at h with h1 h2
        · simp only [Except.ok.injEq, Prod.mk.injEq] at h
          obtain ⟨rfl, rfl⟩ := h
          refine ⟨_ :: x :: ls, rfl, ?_, by simp [depth_after], by simp, rfl, rfl⟩
          intro y hy
          rcases List.mem_cons.1 hy with rfl | hy
          · omega
          · exact hpos y hy
        · rw [bind_ok] at h
          obtain ⟨⟨stack, dedents⟩, hd, h⟩ := h
          have hd1 := dedent_loop_levels _ _ (x :: ls) stack dedents hpos hd
          obtain ⟨levels1, e1, e2, e3, e4⟩ := hd1
          subst e1
          cases levels1 with
          | nil =>
            simp only [List.nil_append] at h
            split_ifs at h
            simp only [pure, Except.pure, Except.ok.injEq, Prod.mk.injEq] at h
            obtain ⟨rfl, rfl⟩ := h
            refine ⟨[], rfl, by simp, ?_, ?_, rfl, rfl⟩
            · rw [e4, depth_after_dedents _ _ _ (by omega)]
              simp
            · intro t ht
              rw [e4] at ht
              have := mem_replicate_dedent _ _ _ ht
              exact ⟨Or.inr this.1, this.2⟩
          | cons y ys =>
            simp only [List.cons_append] at h
            split_ifs at h
            simp only [pure, Except.pure, Except.ok.injEq, Prod.mk.injEq] at h
            obtain ⟨rfl, rfl⟩ := h
            refine ⟨y :: ys, rfl, e2, ?_, ?_, rfl, rfl⟩
            · rw [e4, depth_after_dedents _ _ _ (by omega)]
              congr 1
              omega
            · intro t ht
              rw [e4] at ht
              have := mem_replicate_dedent _ _ _ ht
              exact ⟨Or.inr this.1, this.2⟩
        · simp only [Except.ok.injEq, Prod.mk.injEq] at h
          obtain ⟨rfl, rfl⟩ := h
          exact ⟨x :: ls, rfl, hpos, by simp [depth_after], by simp, rfl, rfl⟩
    · rw [if_neg hc] at h
      simp only [Except.ok.injEq, Prod.mk.injEq] at h
      obtain ⟨rfl, rfl⟩ := h
      exact ⟨levels, hst, hpos, by simp [depth_after], by simp, rfl, rfl⟩

theorem loop_kind_ne (t : Token) (h : loop_kind t.type = true) :
    t.type ≠ .EOF_TOKEN ∧ t.type ≠ .FSTRING_START ∧ t.type ≠ .DOT := by
  refine ⟨?_, ?_, ?_⟩ <;> intro e <;> rw [e] at h <;> cases h

theorem plain_kind_ne (t : Token) (h : plain_kind t.type = true) :
    t.type ≠ .INDENT ∧ t.type ≠ .DEDENT ∧ t.type ≠ .EOF_TOKEN := by
  refine ⟨?_, ?_, ?_⟩ <;> intro e <;> rw [e] at h <;> cases h

/-- One turn of the loop of `tokenize` keeps its invariant. -/
theorem lex_step_inv (fuel : Nat) (lx lx1 : Lexer) (c : Char) (tokens more : List Token)
    (hinv : LexInv tokens lx) (h : lex_step fuel lx c = .ok (more, lx1)) :
    LexInv (tokens ++ more) lx1 := by
  obtain ⟨levels, hst, hpos, hdepth, heof⟩ := hinv
  by_cases hc : c = '\n'
  · unfold lex_step at h
    rw [if_pos hc, bind_ok] at h
    obtain ⟨⟨more1, lx2⟩, hh, h⟩ := h
    simp only [pure, Except.pure, Except.ok.injEq, Prod.mk.injEq] at h
    obtain ⟨rfl, rfl⟩ := h
    obtain ⟨levels1, e1, e2, e3, e4, -, -⟩ := handle_indent_levels _ _ levels more1 (by exact hst) hpos hh
    refine ⟨levels1, e1, e2, ?_, ?_⟩
    · rw [depth_after_append, hdepth]
      simpa [depth_after] using e3
    · intro t ht
      rcases List.mem_append.1 ht with ht | ht
      · exact heof t ht
      · rcases List.mem_cons.1 ht with rfl | ht
        · rfl
        · rcases (e4 t ht).1 with e | e <;> rw [e] <;> rfl
  · obtain ⟨e1, -, -, e4⟩ := lex_step_plain fuel lx c hc more lx1 h
    refine ⟨levels, e1.trans hst, hpos, ?_, ?_⟩
    · rw [depth_after_append, hdepth]
      simp only [Option.some_bind]
      exact depth_after_plain more
        (fun t ht => ⟨(plain_kind_ne t (e4 t ht).1).1, (plain_kind_ne t (e4 t ht).1).2.1⟩) _
    · intro t ht
      rcases List.mem_append.1 ht with ht | ht
      · exact heof t ht
      · simp [loop_kind, (e4 t ht).1]

theorem tokenize_loop_inv : ∀ (fuel : Nat) (lx lx1 : Lexer) (tokens out : List Token),
    LexInv tokens lx → tokenize_loop fuel lx tokens = .ok (out, lx1) → LexInv out lx1 := by
  intro fuel
  induction fuel with
  | zero => intro lx lx1 tokens out _ h; cases h
  | succ n ih =>
    intro lx lx1 tokens out hinv h
    unfold tokenize_loop at h
    split at h
    · simp only [Except.ok.injEq, Prod.mk.injEq] at h
      obtain ⟨rfl, rfl⟩ := h
      exact hinv
    · rw [bind_ok] at h
      obtain ⟨⟨more, lx2⟩, hs, h⟩ := h
      exact ih _ _ _ _ (lex_step_inv _ _ _ _ _ _ hinv hs) h

/-- The shape of every token list that `tokenize` returns: the tokens of the loop, one `DEDENT` for
each level above 0 left on the stack, and `EOF_TOKEN`. -/
theorem tokenize_shape (fuel : Nat) (source : String) (tokens : List Token)
    (h : tokenize fuel source = .ok tokens) :
    ∃ (body : List Token) (lx : Lexer) (levels : List Nat),
      scan fuel source = .ok (body, lx) ∧ lx.indent_stack = levels ++ [0] ∧
      (∀ x ∈ levels, 0 < x) ∧ depth_after 0 body = some levels.length ∧
      (∀ t ∈ body, loop_kind t.type = true) ∧
      tokens = body ++ List.replicate levels.length (dedent_at lx.line) ++ [eof_at lx.line] := by
  unfold tokenize at h
  rw [bind_ok] at h
  obtain ⟨⟨body, lx⟩, hs, h⟩ := h
  have h0 : LexInv [] (Lexer.init source.toList) :=
    ⟨[], rfl, by simp, by simp [depth_after], by simp⟩
  have hinv : LexInv body lx := tokenize_loop_inv fuel _ _ _ _ h0 hs
  obtain ⟨levels, hst, hpos, hdepth, heof⟩ := hinv
  simp only [hst, final_dedents_levels lx.line levels hpos] at h
  simp only [bind, Except.bind, pure, Except.pure, Except.ok.injEq] at h
  exact ⟨body, lx, levels, hs, hst, hpos, hdepth, heof, h.symm⟩

/-! ## C13: balance of INDENT and DEDENT -/

/-- C13. On every source on which `tokenize` returns a token list, the list has as many `INDENT` as
`DEDENT` tokens, and no prefix of it has more `DEDENT` than `INDENT` tokens. A run that pops the last
level of the indentation stack reads `back()` of an empty vector and returns no list. -/
theorem C13_indent_dedent_balanced (fuel : Nat) (source : String) (tokens : List Token)
    (h : tokenize fuel source = .ok tokens) :
    count_type .INDENT tokens = count_type .DEDENT tokens ∧
    ∀ k : Nat, count_type .DEDENT (tokens.take k) ≤ count_type .INDENT (tokens.take k) := by
  obtain ⟨body, lx, levels, -, -, -, hdepth, -, rfl⟩ := tokenize_shape fuel source tokens h
  apply balanced_of_depth
  rw [depth_after_append, depth_after_append, hdepth]
  simp only [Option.some_bind]
  rw [depth_after_dedents _ _ _ (le_refl _)]
  simp [depth_after, eof_at]

/-- C13 at the source of a two-level block closed by the end of the input. -/
theorem C13_witness :
    tokenize 40 c13_source = .ok c13_tokens ∧
    count_type .INDENT c13_tokens = count_type .DEDENT c13_tokens ∧
    ∀ k : Nat, count_type .DEDENT (c13_tokens.take k) ≤ count_type .INDENT (c13_tokens.take k) :=
  ⟨by decide!, C13_indent_dedent_balanced 40 c13_source c13_tokens (by decide!)⟩

/-! ## C14: inconsistent indentation -/

theorem dedent_loop_back (spaces : Nat) (line : Int) : ∀ (stack left : List Nat)
    (more : List Token), dedent_loop spaces line stack = .ok (left, more) →
    ∃ rest, left = spaces :: rest := by
  intro stack
  induction stack with
  | nil => intro left more h; cases h
  | cons top rest ih =>
    intro left more h
    simp only [dedent_loop] at h
    by_cases hs : spaces ≠ top
    · rw [if_pos hs, bind_ok] at h
      obtain ⟨⟨stack1, more1⟩, ha, h⟩ := h
      simp only [pure, Except.pure, Except.ok.injEq, Prod.mk.injEq] at h
      obtain ⟨rfl, rfl⟩ := h
      exact ih _ _ ha
    · rw [if_neg hs] at h
      simp only [Except.ok.injEq, Prod.mk.injEq] at h
      obtain ⟨rfl, rfl⟩ := h
      exact ⟨rest, by simp at hs; rw [hs]⟩

theorem dedent_loop_error (spaces : Nat) (line : Int) : ∀ (stack : List Nat) (e : Fault),
    dedent_loop spaces line stack = .error e → e = .out_of_range := by
  intro stack
  induction stack with
  | nil => intro e h; simp only [dedent_loop, Except.error.injEq] at h; exact h.symm
  | cons top rest ih =>
    intro e h
    simp only [dedent_loop] at h
    by_cases hs : spaces ≠ top
    · rw [if_pos hs] at h
      cases hr : dedent_loop spaces line rest with
      | error e1 =>
        rw [hr] at h
        simp only [bind, Except.bind, Except.error.injEq] at h
        rw [← h]
        exact ih e1 hr
      | ok a =>
        rw [hr] at h
        simp [bind, Except.bind, pure, Except.pure] at h
    · rw [if_neg hs] at h
      cases h

/-- C14. The function `handle_indent` never raises the inconsistent-indentation error, whatever the
state of the lexer: its pop loop runs until the top of the stack equals the width, so the test after
the loop never fires, and a width equal to no level empties the stack and reads `back()` of an empty
vector. On a block indented by 4 and then 3 spaces the run stops there, with no error message. -/
theorem C14_inconsistent_indentation_never_raised :
    (∀ (lx : Lexer) (msg : String), handle_indent lx ≠ .error (.thrown msg)) ∧
    handle_indent c14_lexer = .error .out_of_range ∧
    tokenize 40 c14_source = .error .out_of_range := by
  refine ⟨?_, by decide!, by decide!⟩
  intro lx msg h
  unfold handle_indent at h
  simp only [] at h
  split at h
  · cases h
  · split_ifs at h
    · split at h
      · cases h
      · split_ifs at h
        cases hd : dedent_loop
            ((lx.run fun c => decide (c = ' ') || decide (c = '\t')).map
              (fun c => if c = '\t' then 4 else 1)).sum lx.line (_ :: _) with
        | error e =>
          rw [hd] at h
          have := dedent_loop_error _ _ _ _ hd
          subst this
          simp [bind, Except.bind] at h
        | ok a =>
          obtain ⟨left, more⟩ := a
          obtain ⟨rest, rfl⟩ := dedent_loop_back _ _ _ _ _ hd
          rw [hd] at h
          simp [bind, Except.bind, pure, Except.pure] at h

/-! ## C15: the end of the token list -/

/-- C15. When `tokenize` succeeds, its result is the tokens of the loop, then one `DEDENT` for each
level greater than 0 that is on the indentation stack when the input ends, then `EOF_TOKEN`: the
last token is `EOF_TOKEN` and no earlier token is. -/
theorem C15_eof_after_dedents (fuel : Nat) (source : String) (tokens : List Token)
    (h : tokenize fuel source = .ok tokens) :
    ∃ (body : List Token) (lx : Lexer), scan fuel source = .ok (body, lx) ∧
      tokens = body ++
        List.replicate (lx.indent_stack.filter (fun x => decide (0 < x))).length (dedent_at lx.line) ++
        [eof_at lx.line] ∧
      tokens.getLast? = some (eof_at lx.line) ∧
      ∀ t ∈ tokens.dropLast, t.type ≠ .EOF_TOKEN := by
  obtain ⟨body, lx, levels, hs, hst, hpos, -, heof, rfl⟩ := tokenize_shape fuel source tokens h
  refine ⟨body, lx, hs, ?_, by simp, ?_⟩
  · rw [hst, levels_filter levels hpos]
  · intro t ht
    rw [List.dropLast_concat] at ht
    rcases List.mem_append.1 ht with ht | ht
    · exact (loop_kind_ne t (heof t ht)).1
    · rw [(mem_replicate_dedent _ _ _ ht).1]
      simp

/-- C15 at a source that ends inside two open levels. -/
theorem C15_witness :
    tokenize 40 c15_source = .ok c15_tokens ∧
    ∃ (body : List Token) (lx : Lexer), scan 40 c15_source = .ok (body, lx) ∧
      c15_tokens = body ++
        List.replicate (lx.indent_stack.filter (fun x => decide (0 < x))).length (dedent_at lx.line) ++
        [eof_at lx.line] ∧
      c15_tokens.getLast? = some (eof_at lx.line) ∧
      ∀ t ∈ c15_tokens.dropLast, t.type ≠ .EOF_TOKEN :=
  ⟨by decide!, C15_eof_after_dedents 40 c15_source c15_tokens (by decide!)⟩

/-! ## C16: f-strings in the lexer -/

/-- C16. No token list returned by `tokenize` holds an `FSTRING_START` token: the branch for letters
comes before the branch for `f"` and takes every `f`. -/
theorem C16_fstring_mode_never_entered (fuel : Nat) (source : String) (tokens : List Token)
    (h : tokenize fuel source = .ok tokens) :
    ∀ t ∈ tokens, t.type ≠ .FSTRING_START := by
  obtain ⟨body, lx, levels, -, -, -, -, hkind, rfl⟩ := tokenize_shape fuel source tokens h
  intro t ht
  rcases List.mem_append.1 ht with ht | ht
  · rcases List.mem_append.1 ht with ht | ht
    · exact (loop_kind_ne t (hkind t ht)).2.1
    · rw [(mem_replicate_dedent _ _ _ ht).1]
      simp
  · simp only [List.mem_singleton] at ht
    rw [ht]
    simp [eof_at]

/-- C16 at the source of the f-string `hi`: an identifier `f`, a string literal and the end. -/
theorem C16_witness :
    tokenize 40 c16_source = .ok c16_tokens ∧ ∀ t ∈ c16_tokens, t.type ≠ .FSTRING_START :=
  ⟨by decide!, C16_fstring_mode_never_entered 40 c16_source c16_tokens (by decide!)⟩

/-! ## C17: names that start with an underscore -/

/-- C17. A source that starts with an underscore is rejected at its first character: the underscore
is not a letter, and no branch of `tokenize` takes it. So are the names `_x` and `_`. -/
theorem C17_leading_underscore_rejected :
    (∀ (fuel : Nat) (rest : List Char), tokenize (fuel + 1) (String.mk ('_' :: rest)) =
      .error (.thrown "Invalid Character at Line 1")) ∧
    tokenize 40 "_x" = .error (.thrown "Invalid Character at Line 1") ∧
    tokenize 40 "_" = .error (.thrown "Invalid Character at Line 1") := by
  refine ⟨?_, by decide!, by decide!⟩
  intro fuel rest
  have h : ∀ lx : Lexer, lx.line = 1 →
      lex_step fuel lx '_' = .error (.thrown "Invalid Character at Line 1") := by
    intro lx hl
    simp [lex_step, isspace, isalpha, isdigit, Char.isAlpha, Char.isUpper, Char.isLower,
      Char.isDigit, hl]
    decide
  simp [tokenize, scan, tokenize_loop, Lexer.init, h, bind, Except.bind]

/-! ## C18: numbers -/

theorem number_loop_run (line : Int) (rest : List Char)
    (hrest : ∀ c, rest.head? = some c → ¬ (isdigit c = true ∨ c = '.')) :
    ∀ (run : List Char) (value : String) (has_decimal : Bool) (n : Nat),
    (∀ c ∈ run, isdigit c = true ∨ c = '.') →
    number_loop line (run ++ rest) value has_decimal n =
      if (if has_decimal then 1 else 0) + run.count '.' ≤ 1 then
        .ok (String.mk (value.data ++ run),
          decide ((if has_decimal then 1 else 0) + run.count '.' = 1), n + run.length)
      else .error (.thrown ("Invalid Number at Line" ++ toString line)) := by
  intro run
  induction run with
  | nil =>
    intro value has_decimal n _
    cases rest with
    | nil => cases has_decimal <;> simp [number_loop]
    | cons c cs =>
      have hc := hrest c rfl
      have hc1 : (isdigit c || decide (c = '.')) = false := by
        simpa using hc
      cases has_decimal <;> simp [number_loop, hc1]
  | cons c cs ih =>
    intro value has_decimal n hrun
    have hc := hrun c (List.mem_cons_self _ _)
    have hc1 : (isdigit c || decide (c = '.')) = true := by
      simpa using hc
    have hcs : ∀ d ∈ cs, isdigit d = true ∨ d = '.' :=
      fun d hd => hrun d (List.mem_cons_of_mem _ hd)
    simp only [List.cons_append, number_loop, hc1, if_true, List.append_eq]
    by_cases hdot : c = '.'
    · subst hdot
      cases has_decimal with
      | true => simp
      | false =>
        simp only [if_true, Bool.false_eq_true, if_false]
        rw [ih _ _ _ hcs]
        simp only [if_true, List.count_cons_self, String.data_push, List.append_assoc,
          List.singleton_append, List.length_cons]
        have e1 : 1 + List.count '.' cs ≤ 1 ↔ 0 + (List.count '.' cs + 1) ≤ 1 := by omega
        have e2 : 1 + List.count '.' cs = 1 ↔ 0 + (List.count '.' cs + 1) = 1 := by omega
        simp only [e1, e2]
        rw [show n + 1 + cs.length = n + (cs.length + 1) by omega]
    · rw [if_neg hdot, ih _ _ _ hcs]
      have e3 : List.count '.' (c :: cs) = List.count '.' cs := by
        rw [List.count_cons_of_ne (Ne.symm hdot)]
      simp only [e3, String.data_push, List.append_assoc, List.singleton_append, List.length_cons]
      rw [show n + 1 + cs.length = n + (cs.length + 1) by omega]

/-- C18. When the characters from `pos` on are a run of digits and `.` followed by the end of the
source or by another character, `read_number_or_float` returns a `NUMBER` token of the run when the
run has no `.`, a `FLOATING` token of the run when it has exactly one, and raises the invalid-number
error when it has two or more. -/
theorem C18_number_or_float (lx : Lexer) (run rest : List Char)
    (hsrc : lx.source.drop lx.pos = run ++ rest)
    (hrun : ∀ c ∈ run, isdigit c = true ∨ c = '.')
    (hrest : ∀ c, rest.head? = some c → ¬ (isdigit c = true ∨ c = '.')) :
    read_number_or_float lx =
      if run.count '.' = 0 then
        .ok ({ type := .NUMBER, value := String.mk run, line := lx.line },
             { lx with pos := lx.pos + run.length })
      else if run.count '.' = 1 then
        .ok ({ type := .FLOATING, value := String.mk run, line := lx.line },
             { lx with pos := lx.pos + run.length })
      else .error (.thrown ("Invalid Number at Line" ++ toString lx.line)) := by
  unfold read_number_or_float
  rw [hsrc, number_loop_run lx.line rest hrest run "" false 0 hrun]
  by_cases h0 : run.count '.' = 0
  · simp [h0, bind, Except.bind, pure, Except.pure]
  · by_cases h1 : run.count '.' = 1
    · simp [h1, bind, Except.bind, pure, Except.pure]
    · have h2 : ¬ (run.count '.' ≤ 1) := by omega
      simp [h0, h1, h2, bind, Except.bind]

/-- C18 at the number that starts the source `3.14+x`. -/
theorem C18_witness :
    read_number_or_float c18_lexer =
      .ok ({ type := .FLOATING, value := "3.14", line := 1 }, { c18_lexer with pos := 4 }) := by
  have h := C18_number_or_float c18_lexer ['3', '.', '1', '4'] ['+', 'x'] (by decide)
    (by decide) (by decide)
  rw [h]
  decide

/-! ## C19: cleanup at the end of main -/

/-- C19. The cleanup list is a vector, and `AssignNode` appends the name at every assignment of a
heap type, so a name assigned twice gets two cleanup calls at the end of `main`: the program of two
assignments to the list `xs` ends with `free_list_int(xs);` twice, and the nodes of the claim's
own example (`s` declared and assigned once more) give one `free(s);` and two `free_string(s);`. -/
theorem C19_cleanup_call_per_assignment :
    (∀ (var expr : String) (is_declaration : Bool) (g : Gen),
      (assign_c_code var expr (scalar .STRING) is_declaration g).2.gc_strings =
        g.gc_strings ++ [var]) ∧
    (∀ (vars : List (String × CollectionType)) (var : String),
      emit_cleanup vars [var, var] = emit_cleanup vars [var] ++ emit_cleanup vars [var]) ∧
    (compile sample_env 20 c19_tokens).map (fun r => r.1) =
      .ok ("int main()\n\x7b\n    #include \"common.h\"\n\n" ++
        "    Listint* xs = intList*temp_list_0 = create_list_int();\n" ++
        "list_append_int(temp_list_0, 1);\ntemp_list_0;\n\n" ++
        "    xs = intList*temp_list_1 = create_list_int();\n" ++
        "list_append_int(temp_list_1, 2);\ntemp_list_1;\n\n" ++
        "    free_list_int(xs);\n    free_list_int(xs);\n    return 0;\n\x7d\n") ∧
    generate_program sample_env c19_ast c19_record =
      .ok ("int main()\n\x7b\n    char* s = (char*)malloc(strlen(\"ab\") + 1);\n" ++
        "    strcpy(s, \"ab\");\n\n    free(s);\n    s = (char*)malloc(strlen(\"cd\") + 1);\n" ++
        "    strcpy(s, \"cd\");\n\n    free_string(s);\n    free_string(s);\n    return 0;\n\x7d\n") ∧
    (generate_program sample_env c19_ast c19_record).map
      (fun c => (occurrences "free(s);" c, occurrences "free_string(s);" c)) = .ok (1, 2) ∧
    (compile sample_env 20 c19_tokens).map (fun r => occurrences "free_list_int(xs);" r.1) =
      .ok 2 := by
  refine ⟨?_, ?_, ?_, ?_, ?_, ?_⟩
  · intro var expr is_declaration g
    cases is_declaration <;> simp [assign_c_code, scalar, is_heap]
  · intro vars var
    simp [emit_cleanup]
  · decide!
  · decide!
  · decide!
  · decide!

/-! ## C20: cleanup in a function -/

/-- C20. A `FunctionNode` emits no cleanup call: its loop looks every name up in the private map
`variables` of the node, which nothing fills, so the text of a function is its header, its body and
the closing brace, and the cleanup list is cleared. A function with a STRING parameter `p` has no
`free_string(p);`, and the list parameter of a parsed function is freed neither in the function nor
in `main`. -/
theorem C20_function_emits_no_cleanup :
    (∀ (return_type : CollectionType) (gc_strings : List String),
      function_cleanup return_type [] gc_strings = "") ∧
    (∀ (env : Env) (name : String) (args : List (String × CollectionType))
        (return_type : CollectionType) (body : List ASTNode) (g : Gen),
      generate_c_code env (.FunctionNode name args return_type body []) g =
        match generate_body env "    " body (function_params args g).2 with
        | .error e => .error e
        | .ok (body_code, g1) =>
          .ok (return_c_type return_type ++ " " ++ name ++ "(" ++ (function_params args g).1 ++
            ")\n\x7b\n" ++ body_code ++ "" ++ "\n\x7d\n", { g1 with gc_strings := [] })) ∧
    (generate_c_code sample_env c20_node { gc_strings := [], rand_calls := 0 }).map
      (fun r => (r.1, r.2.gc_strings)) = .ok ("void f(char* p)\n\x7b\n\n\x7d\n", []) ∧
    (compile sample_env 20 c20_tokens).map (fun r => r.1) =
      .ok ("void f(Listint* xs)\n\x7b\n    printf(\"%s\\n\", list_to_string_list(xs));\n\n\n\x7d\n\n" ++
        "int main()\n\x7b\n    #include \"common.h\"\n\n    return 0;\n\x7d\n") := by
  have hc : ∀ (return_type : CollectionType) (gc_strings : List String),
      function_cleanup return_type [] gc_strings = "" := by
    intro return_type gc_strings
    induction gc_strings with
    | nil => rfl
    | cons var rest ih =>
      simp only [function_cleanup, map_find, ih]
      split <;> rfl
  refine ⟨hc, ?_, ?_, ?_⟩
  · intro env name args return_type body g
    simp only [generate_c_code, hc]
  · decide!
  · decide!

/-! ## Lemmas on the symbol table -/

theorem map_find_map_set_self {β : Type} (m : List (String × β)) (k : String) (v : β) :
    map_find (map_set m k v) k = some v := by
  induction m with
  | nil => simp [map_set, map_find]
  | cons e rest ih =>
    obtain ⟨k1, v1⟩ := e
    by_cases hk : k1 = k
    · simp [map_set, map_find, hk]
    · simp [map_set, map_find, hk, ih]

theorem map_find_map_set_other {β : Type} (m : List (String × β)) (k name : String) (v : β)
    (hn : name ≠ k) : map_find (map_set m k v) name = map_find m name := by
  induction m with
  | nil => simp [map_set, map_find, Ne.symm hn]
  | cons e rest ih =>
    obtain ⟨k1, v1⟩ := e
    by_cases hk : k1 = k
    · subst hk
      simp [map_set, map_find, Ne.symm hn]
    · by_cases hk1 : k1 = name
      · subst hk1
        simp [map_set, map_find, hn]
      · simp [map_set, map_find, hk, hk1, ih]

theorem parse_collection_type_frame (env : Env) : Keeps (parse_collection_type env) := by
  intro p a q h
  unfold parse_collection_type at h
  simp only [] at h
  refine keeps_read _ _ _ _ _ ?_ h
  intro t _ h
  by_cases c1 : t.type = .LIST
  · rw [if_pos c1] at h
    refine keeps_step _ _ _ _ _ (fun a q hq => expect_frame _ _ _ _ hq) ?_ h
    intro _ p1 _ h
    refine keeps_step _ _ _ _ _ (fun a q hq => expect_frame _ _ _ _ hq) ?_ h
    intro _ p2 _ h
    refine keeps_read _ _ _ _ _ ?_ h
    intro t1 _ h
    refine keeps_read _ _ _ _ _ ?_ h
    intro et _ h
    refine keeps_step _ _ _ _ _ (fun a q hq => expect_current_frame _ _ _ hq) ?_ h
    intro _ p3 _ h
    refine keeps_step _ _ _ _ _ (fun a q hq => expect_frame _ _ _ _ hq) ?_ h
    intro _ p4 _ h
    exact frame_of_ok h (add_include_frame _ _)
  rw [if_neg c1] at h
  by_cases c2 : t.type = .TUPLE
  · rw [if_pos c2] at h
    refine keeps_step _ _ _ _ _ (fun a q hq => expect_frame _ _ _ _ hq) ?_ h
    intro _ p1 _ h
    refine keeps_step _ _ _ _ _ (fun a q hq => expect_frame _ _ _ _ hq) ?_ h
    intro _ p2 _ h
    refine keeps_read _ _ _ _ _ ?_ h
    intro t1 _ h
    refine keeps_read _ _ _ _ _ ?_ h
    intro et _ h
    refine keeps_step _ _ _ _ _ (fun a q hq => expect_current_frame _ _ _ hq) ?_ h
    intro _ p3 _ h
    refine keeps_step _ _ _ _ _ (fun a q hq => expect_frame _ _ _ _ hq) ?_ h
    intro _ p4 _ h
    exact frame_of_ok h (add_include_frame _ _)
  rw [if_neg c2] at h
  by_cases c3 : t.type = .DICT
  · rw [if_pos c3] at h
    refine keeps_step _ _ _ _ _ (fun a q hq => expect_frame _ _ _ _ hq) ?_ h
    intro _ p1 _ h
    refine keeps_step _ _ _ _ _ (fun a q hq => expect_frame _ _ _ _ hq) ?_ h
    intro _ p2 _ h
    refine keeps_read _ _ _ _ _ ?_ h
    intro t1 _ h
    refine keeps_read _ _ _ _ _ ?_ h
    intro kt _ h
    simp only [] at h
    by_cases ck : kt.base_type ≠ .STRING
    · rw [if_pos ck] at h
      simp at h
    rw [if_neg ck] at h
    refine keeps_step _ _ _ _ _ (fun a q hq => expect_frame _ _ _ _ hq) ?_ h
    intro _ p3 _ h
    refine keeps_step _ _ _ _ _ (fun a q hq => expect_frame _ _ _ _ hq) ?_ h
    intro _ p4 _ h
    refine keeps_read _ _ _ _ _ ?_ h
    intro t2 _ h
    refine keeps_read _ _ _ _ _ ?_ h
    intro vt _ h
    refine keeps_step _ _ _ _ _ (fun a q hq => expect_current_frame _ _ _ hq) ?_ h
    intro _ p5 _ h
    refine keeps_step _ _ _ _ _ (fun a q hq => expect_frame _ _ _ _ hq) ?_ h
    intro _ p6 _ h
    exact frame_of_ok h (add_include_frame _ _)
  rw [if_neg c3] at h
  refine keeps_read _ _ _ _ _ ?_ h
  intro r _ h
  split_ifs at h
  · exact frame_of_ok h (add_include_frame _ _)
  · exact frame_of_ok h (Frame.refl _)

/-! ## C22: the printf statement of a PrintNode, and its separator -/

/-- The format and the arguments built by the loop of `PrintNode::generate_c_code`. -/
theorem print_parts_template (separator : String) : ∀ (values : List (String × VarType)),
    (∀ v ∈ values, v.2 ≠ .NONE) →
    print_parts separator values =
      (joined separator (values.map (fun v => spec_conversion v.2)),
       after_commas (values.map print_arg)) := by
  intro values
  induction values with
  | nil => intro _; rfl
  | cons v rest ih =>
    intro hv
    obtain ⟨first, second⟩ := v
    have h0 : second ≠ .NONE := hv (first, second) (List.mem_cons_self _ _)
    have ih1 := ih (fun w hw => hv w (List.mem_cons_of_mem _ hw))
    simp only [print_parts, ih1, List.map_cons, after_commas]
    have hconv : (if second = .INT then "%d"
        else if second = .FLOAT then "%f"
        else if second = .STRING ∨ second = .BOOL ∨ second = .LIST ∨ second = .TUPLE ∨
          second = .DICT then "%s" else "") = spec_conversion second := by
      cases second <;> simp [spec_conversion] at h0 ⊢
    have harg : (if second = .BOOL then ", " ++ first ++ " ? \"true\" : \"false\""
        else if second = .LIST then
          ", list_to_string_" ++ vartype_to_c second ++ "(" ++ first ++ ")"
        else if second = .TUPLE then
          ", tuple_to_string_" ++ vartype_to_c second ++ "(" ++ first ++ ")"
        else if second = .DICT then
          ", dict_to_string_string_" ++ vartype_to_c second ++ "(" ++ first ++ ")"
        else ", " ++ first) = ", " ++ print_arg (first, second) := by
      cases second <;> simp [print_arg, String.append_assoc]
      all_goals (rw [← String.append_assoc ", "]; rfl)
    rw [hconv, harg]
    cases rest with
    | nil => simp [joined, after_commas]
    | cons w rest1 => simp [joined]

/-- What a successful `expect` returns. -/
theorem expect_inv (ty : TokenType) (p q : Parser) (t : Token) (h : expect ty p = .ok (t, q)) :
    p.tokens[p.pos]? = some t ∧ t.type = ty ∧ q = { p with pos := p.pos + 1 } := by
  unfold expect at h
  split at h
  · cases h
  · rename_i t0 ht
    split_ifs at h with hne
    simp only [Except.ok.injEq, Prod.mk.injEq] at h
    obtain ⟨rfl, rfl⟩ := h
    exact ⟨ht, by simpa using hne, rfl⟩

theorem sepfree_refl (p : Parser) : SepFree p p :=
  ⟨rfl, le_refl _, fun j t h1 h2 => absurd h2 (by omega)⟩

theorem sepfree_trans {p q r : Parser} (h1 : SepFree p q) (h2 : SepFree q r) : SepFree p r := by
  refine ⟨h2.1.trans h1.1, le_trans h1.2.1 h2.2.1, ?_⟩
  intro j t hj1 hj2 ht
  by_cases hc : j < q.pos
  · exact h1.2.2 j t hj1 hc ht
  · exact h2.2.2 j t (by omega) hj2 (by rw [h1.1]; exact ht)

theorem spans_fuel {p0 : Parser} {α : Type} :
    Spans p0 (.error .out_of_fuel : Res (α × Parser)) :=
  fun a q h => (by cases h)

theorem spans_pure {p0 : Parser} {α : Type} {a : α} {q : Parser} (h : SepFree p0 q) :
    Spans p0 (pure (a, q) : Res (α × Parser)) := by
  intro b r hr
  simp only [pure, Except.pure, Except.ok.injEq, Prod.mk.injEq] at hr
  rw [← hr.2]
  exact h

theorem spans_throw {p0 : Parser} {α : Type} {p : Parser} (msg : String) (_ : SepFree p0 p) :
    Spans p0 (throw_at msg p : Res (α × Parser)) := by
  intro a q h
  exact ((throw_at_ne_ok _ _ _).1 h).elim

theorem spans_bind {p0 : Parser} {α β : Type} {x : Res (α × Parser)}
    {f : α × Parser → Res (β × Parser)} (hx : Spans p0 x)
    (hf : ∀ a q, x = .ok (a, q) → SepFree p0 q → Spans p0 (f (a, q))) :
    Spans p0 (x >>= f) := by
  cases x with
  | error err => exact fun a q h => (by cases h)
  | ok r =>
    obtain ⟨a, q⟩ := r
    exact hf a q rfl (hx a q rfl)

/-- A call of a function that consumes no SEP token, after a run that consumed none. -/
theorem spans_call {p0 p : Parser} {α : Type} {f : Parser → Res (α × Parser)} (hf : SpanFn f)
    (h : SepFree p0 p) : Spans p0 (f p) :=
  fun a q hq => sepfree_trans h (hf p a q hq)

/-- A step that reads without moving. -/
theorem spans_any {p0 : Parser} {α β : Type} {x : Res α} {f : α → Res (β × Parser)}
    (hf : ∀ a, x = .ok a → Spans p0 (f a)) : Spans p0 (x >>= f) := by
  cases x with
  | error err => exact fun a q h => (by cases h)
  | ok a => exact hf a rfl

theorem spans_peek {p0 : Parser} {β : Type} {p : Parser} {f : Token → Res (β × Parser)}
    (_ : SepFree p0 p) (hf : ∀ t, p.tokens[p.pos]? = some t → Spans p0 (f t)) :
    Spans p0 (peek p >>= f) := by
  refine spans_any ?_
  intro t ht
  refine hf t ?_
  unfold peek at ht
  split at ht
  · rename_i t1 h1
    simp only [Except.ok.injEq] at ht
    rw [h1, ht]
  · cases ht

theorem spans_peek1 {p0 : Parser} {β : Type} {p : Parser} {t : Token}
    {f : Token → Res (β × Parser)} (_ : SepFree p0 p) (_ : p.tokens[p.pos]? = some t)
    (_ : t.type ≠ .SEP) (hf : ∀ t1, Spans p0 (f t1)) : Spans p0 (peek1 p >>= f) :=
  spans_any (fun t1 _ => hf t1)

theorem spans_ite {p0 : Parser} {α : Type} (c : Prop) [Decidable c]
    {a b : Res (α × Parser)} (ha : c → Spans p0 a) (hb : ¬ c → Spans p0 b) :
    Spans p0 (if c then a else b) := by
  split
  · exact ha (by assumption)
  · exact hb (by assumption)

/-- The function `expect` for a kind other than SEP. -/
theorem spans_expect {p0 p : Parser} (ty : TokenType) (h : SepFree p0 p) (hty : ty ≠ .SEP) :
    Spans p0 (expect ty p) := by
  intro t q hq
  obtain ⟨ht, htt, rfl⟩ := expect_inv _ _ _ _ hq
  refine ⟨h.1, by have := h.2.1; simp only []; omega, ?_⟩
  intro j t1 hj1 hj2 ht1
  simp only [] at hj2
  by_cases hc : j < p.pos
  · exact h.2.2 j t1 hj1 hc ht1
  · have hj : j = p.pos := by omega
    rw [hj, ← h.1, ht] at ht1
    simp only [Option.some.injEq] at ht1
    rw [← ht1, htt]
    exact hty

/-- The statement `expect(tokens[pos].type)` at a token that is not SEP. -/
theorem spans_expect_current {p0 p : Parser} {t : Token} (h : SepFree p0 p)
    (ht : p.tokens[p.pos]? = some t) (hne : t.type ≠ .SEP) : Spans p0 (expect_current p) := by
  unfold expect_current
  refine spans_peek h ?_
  intro t1 ht1
  rw [ht] at ht1
  simp only [Option.some.injEq] at ht1
  subst ht1
  exact spans_expect _ h hne

theorem add_include_sepfree {p0 p : Parser} (h : String) (hS : SepFree p0 p) :
    SepFree p0 (add_include p h) := hS

theorem include_for_sepfree {p0 p : Parser} (ty : VarType) (hS : SepFree p0 p) :
    SepFree p0 (include_for ty p) := by
  unfold include_for
  split_ifs <;> exact hS

theorem fstring_default_sepfree {p0 p : Parser} (ty : VarType) (format : String)
    (hS : SepFree p0 p) : SepFree p0 (fstring_default ty format p).2 := by
  unfold fstring_default
  repeat' split
  all_goals exact hS

theorem fstring_args_sepfree {p0 : Parser} (args : List (String × VarType)) (result : String)
    (p : Parser) (hS : SepFree p0 p) : SepFree p0 (fstring_args args result p).2 := by
  induction args generalizing result p with
  | nil => exact hS
  | cons a rest ih =>
    obtain ⟨arg, ty⟩ := a
    unfold fstring_args
    simp only []
    repeat' split
    all_goals exact ih _ _ (by assumption)

theorem args_loop_span (rec : Parser → Res (Expr × Parser))
    (hrec : SpanFn rec) (n : Nat) (args : List String) :
    SpanFn (args_loop rec n args) := by
  induction n generalizing args with
  | zero => intro p; exact spans_fuel
  | succ n ih =>
    intro p
    have hG := sepfree_refl p
    unfold args_loop
    repeat' (first
      | exact spans_pure (by assumption)
      | exact spans_throw _ (by assumption)
      | exact spans_call (ih _) (by assumption)
      | (refine spans_bind (spans_expect _ (by assumption) (by decide)) ?_; intro _ _ _ _; try dsimp only)
      | (refine spans_bind (spans_call hrec (by assumption)) ?_; intro _ _ _ _; try dsimp only)
      | (refine spans_peek (by assumption) ?_; intro _ _)
      | (refine spans_ite _ (fun _ => ?_) (fun _ => ?_)))

theorem parse_args_span (rec : Parser → Res (Expr × Parser))
    (hrec : SpanFn rec) (n : Nat) : SpanFn (parse_args rec n) := by
  intro p
  have hG := sepfree_refl p
  unfold parse_args
  repeat' (first
    | exact spans_pure (by assumption)
    | exact spans_throw _ (by assumption)
    | exact spans_call (args_loop_span rec hrec _ _) (by assumption)
    | (refine spans_bind (spans_call hrec (by assumption)) ?_; intro _ _ _ _; try dsimp only)
    | (refine spans_peek (by assumption) ?_; intro _ _)
    | (refine spans_ite _ (fun _ => ?_) (fun _ => ?_)))

theorem parse_call_expr_span (rec : Parser → Res (Expr × Parser))
    (hrec : SpanFn rec) (n : Nat) : SpanFn (parse_call_expr rec n) := by
  intro p
  have hG := sepfree_refl p
  unfold parse_call_expr
  repeat' (first
    | exact spans_pure (by assumption)
    | exact spans_throw _ (by assumption)
    | (refine spans_bind (spans_expect _ (by assumption) (by decide)) ?_; intro _ _ _ _; try dsimp only)
    | (refine spans_bind (spans_call (parse_args_span rec hrec _) (by assumption)) ?_; intro _ _ _ _; try dsimp only)
    | (refine spans_ite _ (fun _ => ?_) (fun _ => ?_))
    | split)

theorem parse_index_expr_span (rec : Parser → Res (Expr × Parser))
    (hrec : SpanFn rec) : SpanFn (parse_index_expr rec) := by
  intro p
  have hG := sepfree_refl p
  unfold parse_index_expr
  repeat' (first
    | exact spans_pure (by assumption)
    | exact spans_throw _ (by assumption)
    | (refine spans_bind (spans_expect _ (by assumption) (by decide)) ?_; intro _ _ _ _; try dsimp only)
    | (refine spans_bind (spans_call hrec (by assumption)) ?_; intro _ _ _ _; try dsimp only)
    | (refine spans_ite _ (fun _ => ?_) (fun _ => ?_))
    | split)

theorem method_return_type_span (m1 m2 : String)
    (vt : CollectionType) (method : String) :
    SpanFn (method_return_type m1 m2 vt method) := by
  intro p
  have hG := sepfree_refl p
  unfold method_return_type
  repeat' (first
    | exact spans_pure (by assumption)
    | exact spans_throw _ (by assumption)
    | (refine spans_ite _ (fun _ => ?_) (fun _ => ?_)))

theorem parse_identifier_expr_span :
    SpanFn parse_identifier_expr := by
  intro p
  have hG := sepfree_refl p
  unfold parse_identifier_expr
  repeat' (first
    | exact spans_pure (include_for_sepfree _ (by assumption))
    | exact spans_throw _ (by assumption)
    | (refine spans_bind (spans_expect _ (by assumption) (by decide)) ?_; intro _ _ _ _; try dsimp only)
    | (refine spans_ite _ (fun _ => ?_) (fun _ => ?_))
    | split)
theorem parse_method_expr_span (env : Env) (rec : Parser → Res (Expr × Parser))
    (hrec : SpanFn rec) (n : Nat) :
    SpanFn (parse_method_expr env rec n) := by
  intro p
  have hG := sepfree_refl p
  unfold parse_method_expr
  refine spans_bind (spans_expect _ hG (by decide)) ?_
  intro tok p1 _ hG
  refine spans_bind (spans_expect _ hG (by decide)) ?_
  intro _ p2 _ hG
  refine spans_bind (spans_expect _ hG (by decide)) ?_
  intro mtok p3 _ hG
  dsimp only
  repeat' (first
    | exact spans_fuel
    | exact spans_pure (by assumption)
    | exact spans_throw _ (by assumption)
    | (refine spans_bind (spans_expect _ (by assumption) (by decide)) ?_; intro _ _ _ _; try dsimp only)
    | (refine spans_bind (spans_call (parse_args_span rec hrec _) (by assumption)) ?_; intro _ _ _ _; try dsimp only)
    | (refine spans_bind (spans_call (method_return_type_span _ _ _ _) (by assumption)) ?_; intro _ _ _ _; try dsimp only)
    | (refine spans_any ?_; intro _ _)
    | (refine spans_ite _ (fun _ => ?_) (fun _ => ?_))
    | split)

theorem fstring_loop_span (env : Env) (rec : Parser → Res (Expr × Parser))
    (hrec : SpanFn rec) (n : Nat)
    (format : String) (args : List (String × VarType)) :
    SpanFn (fstring_loop env rec n format args) := by
  induction n generalizing format args with
  | zero => intro p; exact spans_fuel
  | succ n ih =>
    intro p
    have hG := sepfree_refl p
    unfold fstring_loop
    repeat' (first
      | exact spans_fuel
      | exact spans_pure (by assumption)
      | exact spans_throw _ (by assumption)
      | exact spans_call (ih _ _) (by assumption)
      | exact spans_call (ih _ _) (fstring_default_sepfree _ _ (by assumption))
      | (refine spans_bind (spans_expect _ (by assumption) (by decide)) ?_; intro _ _ _ _; try dsimp only)
      | (refine spans_bind (spans_call hrec (by assumption)) ?_; intro _ _ _ _; try dsimp only)
      | (refine spans_bind (spans_expect _ (fstring_default_sepfree _ _ (by assumption)) (by decide)) ?_; intro _ _ _ _; try dsimp only)
      | (refine spans_peek (by assumption) ?_; intro _ _)
      | (refine spans_ite _ (fun _ => ?_) (fun _ => ?_)))

theorem parse_fstring_expr_span (env : Env) (rec : Parser → Res (Expr × Parser))
    (hrec : SpanFn rec) (n : Nat) :
    SpanFn (parse_fstring_expr env rec n) := by
  intro p
  have hG := sepfree_refl p
  unfold parse_fstring_expr
  repeat' (first
    | exact spans_fuel
    | exact spans_pure (by assumption)
    | exact spans_throw _ (by assumption)
    | exact spans_pure (fstring_args_sepfree _ _ _ (by assumption))
    | (refine spans_bind (spans_expect _ (by assumption) (by decide)) ?_; intro _ _ _ _; try dsimp only)
    | (refine spans_bind (spans_call (fstring_loop_span env rec hrec _ _ _) (by assumption)) ?_; intro _ _ _ _; try dsimp only))

theorem elements_loop_span (rec : Parser → Res (Expr × Parser))
    (hrec : SpanFn rec) (msg : String)
    (et : VarType) (n : Nat) (elements : List String) :
    SpanFn (elements_loop rec msg et n elements) := by
  induction n generalizing elements with
  | zero => intro p; exact spans_fuel
  | succ n ih =>
    intro p
    have hG := sepfree_refl p
    unfold elements_loop
    repeat' (first
      | exact spans_fuel
      | exact spans_pure (by assumption)
      | exact spans_throw _ (by assumption)
      | exact spans_call (ih _) (by assumption)
      | (refine spans_bind (spans_expect _ (by assumption) (by decide)) ?_; intro _ _ _ _; try dsimp only)
      | (refine spans_bind (spans_call hrec (by assumption)) ?_; intro _ _ _ _; try dsimp only)
      | (refine spans_peek (by assumption) ?_; intro _ _)
      | (refine spans_ite _ (fun _ => ?_) (fun _ => ?_)))

theorem parse_list_expr_span (env : Env) (rec : Parser → Res (Expr × Parser))
    (hrec : SpanFn rec) (n : Nat) :
    SpanFn (parse_list_expr env rec n) := by
  intro p
  have hG := sepfree_refl p
  unfold parse_list_expr
  repeat' (first
    | exact spans_fuel
    | exact spans_pure (by assumption)
    | exact spans_throw _ (by assumption)
    | (refine spans_bind (spans_expect _ (by assumption) (by decide)) ?_; intro _ _ _ _; try dsimp only)
    | (refine spans_bind (spans_pure (by assumption)) ?_; intro _ _ _ _; try dsimp only)
    | (refine spans_bind (spans_call hrec (by assumption)) ?_; intro _ _ _ _; try dsimp only)
    | (refine spans_bind (spans_call (elements_loop_span rec hrec _ _ _ _) (by assumption)) ?_; intro _ _ _ _; try dsimp only)
    | (refine spans_peek (by assumption) ?_; intro _ _)
    | (refine spans_ite _ (fun _ => ?_) (fun _ => ?_)))

theorem parse_tuple_expr_span (env : Env) (rec : Parser → Res (Expr × Parser))
    (hrec : SpanFn rec) (n : Nat) :
    SpanFn (parse_tuple_expr env rec n) := by
  intro p
  have hG := sepfree_refl p
  unfold parse_tuple_expr
  repeat' (first
    | exact spans_fuel
    | exact spans_pure (by assumption)
    | exact spans_throw _ (by assumption)
    | (refine spans_bind (spans_expect _ (by assumption) (by decide)) ?_; intro _ _ _ _; try dsimp only)
    | (refine spans_bind (spans_pure (by assumption)) ?_; intro _ _ _ _; try dsimp only)
    | (refine spans_bind (spans_call hrec (by assumption)) ?_; intro _ _ _ _; try dsimp only)
    | (refine spans_bind (spans_call (elements_loop_span rec hrec _ _ _ _) (by assumption)) ?_; intro _ _ _ _; try dsimp only)
    | (refine spans_peek (by assumption) ?_; intro _ _)
    | (refine spans_ite _ (fun _ => ?_) (fun _ => ?_)))

theorem entries_loop_span (rec : Parser → Res (Expr × Parser))
    (hrec : SpanFn rec) (vt : VarType) (n : Nat)
    (entries : List (String × String)) : SpanFn (entries_loop rec vt n entries) := by
  induction n generalizing entries with
  | zero => intro p; exact spans_fuel
  | succ n ih =>
    intro p
    have hG := sepfree_refl p
    unfold entries_loop
    repeat' (first
      | exact spans_fuel
      | exact spans_pure (by assumption)
      | exact spans_throw _ (by assumption)
      | exact spans_call (ih _) (by assumption)
      | (refine spans_bind (spans_expect _ (by assumption) (by decide)) ?_; intro _ _ _ _; try dsimp only)
      | (refine spans_bind (spans_call hrec (by assumption)) ?_; intro _ _ _ _; try dsimp only)
      | (refine spans_peek (by assumption) ?_; intro _ _)
      | (refine spans_ite _ (fun _ => ?_) (fun _ => ?_)))

theorem parse_dict_expr_span (env : Env) (rec : Parser → Res (Expr × Parser))
    (hrec : SpanFn rec) (n : Nat) :
    SpanFn (parse_dict_expr env rec n) := by
  intro p
  have hG := sepfree_refl p
  unfold parse_dict_expr
  repeat' (first
    | exact spans_fuel
    | exact spans_pure (by assumption)
    | exact spans_throw _ (by assumption)
    | (refine spans_bind (spans_expect _ (by assumption) (by decide)) ?_; intro _ _ _ _; try dsimp only)
    | (refine spans_bind (spans_pure (by assumption)) ?_; intro _ _ _ _; try dsimp only)
    | (refine spans_bind (spans_throw _ (by assumption)) ?_; intro _ _ _ _; try dsimp only)
    | (refine spans_bind (spans_call hrec (by assumption)) ?_; intro _ _ _ _; try dsimp only)
    | (refine spans_bind (spans_call (entries_loop_span rec hrec _ _ _) (by assumption)) ?_; intro _ _ _ _; try dsimp only)
    | (refine spans_peek (by assumption) ?_; intro _ _)
    | (refine spans_ite _ (fun _ => ?_) (fun _ => ?_)))

theorem parse_len_expr_span (rec : Parser → Res (Expr × Parser))
    (hrec : SpanFn rec) :
    SpanFn (parse_len_expr rec) := by
  intro p
  have hG := sepfree_refl p
  unfold parse_len_expr
  repeat' (first
    | exact spans_fuel
    | exact spans_pure (by assumption)
    | exact spans_throw _ (by assumption)
    | exact spans_pure (include_for_sepfree _ (by assumption))
    | (refine spans_bind (spans_expect _ (by assumption) (by decide)) ?_; intro _ _ _ _; try dsimp only)
    | (refine spans_bind (spans_call hrec (by assumption)) ?_; intro _ _ _ _; try dsimp only)
    | (refine spans_ite _ (fun _ => ?_) (fun _ => ?_)))

theorem operator_case_span (tt : TokenType) (type : VarType) :
    SpanFn (operator_case tt type) := by
  intro p
  have hG := sepfree_refl p
  unfold operator_case
  repeat' (first
    | exact spans_fuel
    | exact spans_pure (by assumption)
    | exact spans_throw _ (by assumption)
    | (refine spans_bind (spans_expect _ (by assumption) (by decide)) ?_; intro _ _ _ _; try dsimp only)
    | (refine spans_ite _ (fun _ => ?_) (fun _ => ?_)))

theorem binary_operators_span (rec : Parser → Res (Expr × Parser))
    (hrec : SpanFn rec) (n : Nat) (result : String)
    (type : VarType) : SpanFn (binary_operators rec n result type) := by
  induction n generalizing result type with
  | zero => intro p; exact spans_fuel
  | succ n ih =>
    intro p
    have hG := sepfree_refl p
    unfold binary_operators
    repeat' (first
      | exact spans_fuel
      | exact spans_pure (by assumption)
      | exact spans_throw _ (by assumption)
      | exact spans_call (ih _ _) (by assumption)
      | (refine spans_bind (spans_call (operator_case_span _ _) (by assumption)) ?_; intro _ _ _ _; try dsimp only)
      | (refine spans_bind (spans_call hrec (by assumption)) ?_; intro _ _ _ _; try dsimp only)
      | (refine spans_peek (by assumption) ?_; intro _ _)
      | (refine spans_ite _ (fun _ => ?_) (fun _ => ?_)))
theorem parse_primary_span (env : Env) (rec : Parser → Res (Expr × Parser))
    (hrec : SpanFn rec) (n : Nat) :
    SpanFn (parse_primary env rec n) := by
  intro p
  have hG := sepfree_refl p
  unfold parse_primary
  repeat' (first
    | exact spans_fuel
    | exact spans_pure (by assumption)
    | exact spans_throw _ (by assumption)
    | (refine spans_bind (spans_expect _ (by assumption) (by decide)) ?_; intro _ _ _ _; try dsimp only)
    | (refine spans_bind (spans_expect_current (by assumption) (by assumption) (by have h : _ = TokenType.TRUE ∨ _ = TokenType.FALSE := (by assumption); rcases h with h | h <;> rw [h] <;> decide)) ?_; intro _ _ _ _; try dsimp only)
    | (refine spans_bind (spans_call (parse_call_expr_span rec hrec _) (by assumption)) ?_; intro _ _ _ _; try dsimp only)
    | (refine spans_bind (spans_call (parse_index_expr_span rec hrec) (by assumption)) ?_; intro _ _ _ _; try dsimp only)
    | (refine spans_bind (spans_call (parse_method_expr_span env rec hrec _) (by assumption)) ?_; intro _ _ _ _; try dsimp only)
    | (refine spans_bind (spans_call parse_identifier_expr_span (by assumption)) ?_; intro _ _ _ _; try dsimp only)
    | (refine spans_bind (spans_call (parse_fstring_expr_span env rec hrec _) (by assumption)) ?_; intro _ _ _ _; try dsimp only)
    | (refine spans_bind (spans_call (parse_list_expr_span env rec hrec _) (by assumption)) ?_; intro _ _ _ _; try dsimp only)
    | (refine spans_bind (spans_call (parse_tuple_expr_span env rec hrec _) (by assumption)) ?_; intro _ _ _ _; try dsimp only)
    | (refine spans_bind (spans_call (parse_dict_expr_span env rec hrec _) (by assumption)) ?_; intro _ _ _ _; try dsimp only)
    | (refine spans_bind (spans_call (parse_len_expr_span rec hrec) (by assumption)) ?_; intro _ _ _ _; try dsimp only)
    | (refine spans_peek1 (by assumption) (by assumption) (by have h : _ = TokenType.IDENTIFIER := (by assumption); rw [h]; decide) ?_; intro _)
    | (refine spans_peek (by assumption) ?_; intro _ _)
    | (refine spans_ite _ (fun _ => ?_) (fun _ => ?_)))

theorem parse_expression_span (env : Env) (fuel : Nat) :
    SpanFn (parse_expression env fuel) := by
  induction fuel with
  | zero => intro p; exact spans_fuel
  | succ fuel ih =>
    intro p
    have hG := sepfree_refl p
    unfold parse_expression
    repeat' (first
      | exact spans_fuel
      | exact spans_pure (by assumption)
      | exact spans_throw _ (by assumption)
      | exact spans_call (binary_operators_span _ ih _ _ _) (by assumption)
      | (refine spans_bind (spans_call (parse_primary_span env _ ih _) (by assumption)) ?_; intro _ _ _ _; try dsimp only)
      | (refine spans_ite _ (fun _ => ?_) (fun _ => ?_)))

/-- The separator of the specification when no token of the statement before the closing
parenthesis is a SEP token. -/
theorem spec_separator_default (tokens : List Token) (start stop : Nat)
    (h : ∀ j t, start ≤ j → j < stop → tokens[j]? = some t → t.type ≠ .SEP) :
    spec_separator tokens start stop = " " := by
  unfold spec_separator
  split
  · rename_i s e lit hs _ _
    split_ifs with hc
    · exact absurd hc.2.1 (h (stop - 3) s (by omega) (by omega) hs)
    · rfl
  · rfl

/-- The separator of the specification when `sep = "..."` stands before the closing parenthesis. -/
theorem spec_separator_given (tokens : List Token) (start stop : Nat) (s e lit : Token)
    (h0 : start + 3 ≤ stop) (hs : tokens[stop - 3]? = some s) (hst : s.type = .SEP)
    (he : tokens[stop - 2]? = some e) (het : e.type = .EQUALS)
    (hl : tokens[stop - 1]? = some lit) (hlt : lit.type = .STRING_LITERAL) :
    spec_separator tokens start stop = lit.value := by
  unfold spec_separator
  simp only [hs, he, hl]
  rw [if_pos ⟨h0, hst, het, hlt⟩]

/-- The loop over the further arguments of `print`: either it keeps the separator and consumes no
SEP token, or its last three tokens are `sep = "..."` and the separator is the text of the
literal. -/
theorem print_loop_sep (env : Env) (fuel : Nat) : ∀ (n : Nat)
    (values : List (String × VarType)) (separator : String) (p : Parser)
    (values1 : List (String × VarType)) (separator1 : String) (q : Parser),
    print_loop env fuel n values separator p = .ok ((values1, separator1), q) →
    q.tokens = p.tokens ∧ p.pos ≤ q.pos ∧
    ((separator1 = separator ∧ SepFree p q) ∨
     ∃ s e lit, p.pos + 4 ≤ q.pos ∧ p.tokens[q.pos - 3]? = some s ∧ s.type = .SEP ∧
       p.tokens[q.pos - 2]? = some e ∧ e.type = .EQUALS ∧
       p.tokens[q.pos - 1]? = some lit ∧ lit.type = .STRING_LITERAL ∧
       separator1 = lit.value) := by
  intro n
  induction n with
  | zero => intro values separator p values1 separator1 q h; cases h
  | succ n ih =>
    intro values separator p values1 separator1 q h
    unfold print_loop at h
    rw [bind_ok] at h
    obtain ⟨t, -, h⟩ := h
    by_cases hc : t.type = .COMMA
    · rw [if_pos hc, bind_ok] at h
      obtain ⟨⟨c, p1⟩, h1, h⟩ := h
      have s1 : SepFree p p1 := spans_expect _ (sepfree_refl p) (by decide) _ _ h1
      obtain ⟨-, -, rfl⟩ := expect_inv _ _ _ _ h1
      simp only [] at h
      rw [bind_ok] at h
      obtain ⟨t1, -, h⟩ := h
      by_cases hs : t1.type = .SEP
      · rw [if_pos hs, bind_ok] at h
        obtain ⟨⟨s, p2⟩, h2, h⟩ := h
        simp only [] at h
        rw [bind_ok] at h
        obtain ⟨⟨e, p3⟩, h3, h⟩ := h
        simp only [] at h
        rw [bind_ok] at h
        obtain ⟨t3, -, h⟩ := h
        by_cases hl : t3.type ≠ .STRING_LITERAL
        · rw [if_pos hl] at h
          simp at h
        · rw [if_neg hl, bind_ok] at h
          obtain ⟨⟨tok, p4⟩, h4, h⟩ := h
          simp only [pure, Except.pure, Except.ok.injEq, Prod.mk.injEq] at h
          obtain ⟨⟨rfl, rfl⟩, rfl⟩ := h
          obtain ⟨a2, b2, rfl⟩ := expect_inv _ _ _ _ h2
          obtain ⟨a3, b3, rfl⟩ := expect_inv _ _ _ _ h3
          obtain ⟨a4, b4, rfl⟩ := expect_inv _ _ _ _ h4
          refine ⟨rfl, by simp only [add_include]; omega, Or.inr ⟨s, e, tok, ?_, ?_, b2, ?_, b3, ?_,
            b4, rfl⟩⟩
          · simp only [add_include]; omega
          · simpa [add_include] using a2
          · simpa [add_include] using a3
          · simpa [add_include] using a4
      · rw [if_neg hs, bind_ok] at h
        obtain ⟨⟨expr, p2⟩, h2, h⟩ := h
        have s2 : SepFree p p2 := spans_call (parse_expression_span env fuel) s1 _ _ h2
        obtain ⟨e1, e2, e3⟩ := ih _ _ _ _ _ _ h
        have s3 : SepFree p (include_for expr.2 p2) := include_for_sepfree _ s2
        rw [s3.1] at e1
        have hp : (include_for expr.2 p2).pos = p2.pos := include_for_pos _ _
        refine ⟨e1, le_trans s3.2.1 e2, ?_⟩
        rcases e3 with ⟨rfl, e3⟩ | ⟨s, e, lit, g0, g1, g2, g3, g4, g5, g6, g7⟩
        · exact Or.inl ⟨rfl, sepfree_trans s3 e3⟩
        · rw [s3.1] at g1 g3 g5
          have := s2.2.1
          rw [hp] at g0
          exact Or.inr ⟨s, e, lit, by omega, g1, g2, g3, g4, g5, g6, g7⟩
    · rw [if_neg hc] at h
      simp only [pure, Except.pure, Except.ok.injEq, Prod.mk.injEq] at h
      obtain ⟨⟨rfl, rfl⟩, rfl⟩ := h
      exact ⟨rfl, le_refl _, Or.inl ⟨rfl, sepfree_refl _⟩⟩

/-- The node built by `parse_print`: its separator is the one that the tokens of the statement
give. -/
theorem parse_print_sep (env : Env) (fuel : Nat) (p q : Parser) (node : ASTNode)
    (h : parse_print env fuel p = .ok (node, q)) :
    ∃ values separator, node = .PrintNode values separator ∧
      separator = spec_separator p.tokens p.pos (q.pos - 2) := by
  unfold parse_print at h
  rw [bind_ok] at h
  obtain ⟨⟨a1, p1⟩, h1, h⟩ := h
  have s1 : SepFree p p1 := spans_expect _ (sepfree_refl p) (by decide) _ _ h1
  simp only [] at h
  rw [bind_ok] at h
  obtain ⟨⟨a2, p2⟩, h2, h⟩ := h
  have s2 : SepFree p p2 := spans_expect _ s1 (by decide) _ _ h2
  obtain ⟨-, -, rfl⟩ := expect_inv _ _ _ _ h1
  obtain ⟨-, -, rfl⟩ := expect_inv _ _ _ _ h2
  simp only [] at h
  rw [bind_ok] at h
  obtain ⟨t, -, h⟩ := h
  by_cases hr : t.type ≠ .RPAREN
  · rw [if_pos hr, bind_ok] at h
    obtain ⟨⟨expr, p6⟩, h6, h⟩ := h
    have s6 : SepFree p p6 := spans_call (parse_expression_span env fuel) s2 _ _ h6
    rw [bind_ok] at h
    obtain ⟨⟨⟨values, separator⟩, p3⟩, h3, h⟩ := h
    rw [bind_ok] at h
    obtain ⟨⟨a4, p4⟩, h4, h⟩ := h
    rw [bind_ok] at h
    obtain ⟨⟨a5, p5⟩, h5, h⟩ := h
    simp only [pure, Except.pure, Except.ok.injEq, Prod.mk.injEq] at h
    obtain ⟨rfl, rfl⟩ := h
    obtain ⟨-, -, rfl⟩ := expect_inv _ _ _ _ h4
    obtain ⟨-, -, rfl⟩ := expect_inv _ _ _ _ h5
    refine ⟨values, separator, rfl, ?_⟩
    have s7 : SepFree p (include_for expr.2 p6) := include_for_sepfree _ s6
    obtain ⟨e1, e2, e3⟩ := print_loop_sep env fuel _ _ _ _ _ _ _ h3
    have hstop : p3.pos + 1 + 1 - 2 = p3.pos := by omega
    show separator = spec_separator p.tokens p.pos (p3.pos + 1 + 1 - 2)
    rw [hstop]
    have hp : (include_for expr.2 p6).pos = p6.pos := include_for_pos _ _
    rcases e3 with ⟨rfl, e3⟩ | ⟨s, e, lit, g0, g1, g2, g3, g4, g5, g6, g7⟩
    · exact (spec_separator_default _ _ _ (sepfree_trans s7 e3).2.2).symm
    · rw [s7.1] at g1 g3 g5
      have := s6.2.1
      rw [hp] at g0
      rw [g7]
      exact (spec_separator_given _ _ _ s e lit (by omega) g1 g2 g3 g4 g5 g6).symm
  · rw [if_neg hr, bind_ok] at h
    obtain ⟨y, hy, h⟩ := h
    simp only [pure, Except.pure, Except.ok.injEq] at hy
    subst hy
    rw [bind_ok] at h
    obtain ⟨⟨a4, p4⟩, h4, h⟩ := h
    rw [bind_ok] at h
    obtain ⟨⟨a5, p5⟩, h5, h⟩ := h
    simp only [Except.ok.injEq, Prod.mk.injEq] at h
    obtain ⟨rfl, rfl⟩ := h
    obtain ⟨-, -, rfl⟩ := expect_inv _ _ _ _ h4
    obtain ⟨-, -, rfl⟩ := expect_inv _ _ _ _ h5
    refine ⟨[], " ", rfl, ?_⟩
    have hstop : p.pos + 1 + 1 + 1 + 1 - 2 = p.pos + 2 := by omega
    show " " = spec_separator p.tokens p.pos (p.pos + 1 + 1 + 1 + 1 - 2)
    rw [hstop]
    refine (spec_separator_default _ _ _ ?_).symm
    intro j t1 hj1 hj2 ht1
    exact s2.2.2 j t1 hj1 (by simpa using hj2) ht1

/-- C22. A `PrintNode` whose values have a type is lowered to one `printf` statement: its format is
the conversions of the values joined by the separator and followed by backslash-n, and its
arguments are the texts of the values, one after each comma, in the order of the values. The
separator of the node that `parse_print` builds is the one that the tokens of the statement give:
the text of the literal when `sep = "..."` stands before the closing parenthesis, and a single
blank otherwise. -/
theorem C22_print_statement (env : Env) (fuel : Nat) (p : Parser)
    (values : List (String × VarType)) (separator : String) (stop : Nat) (g : Gen)
    (hv : ∀ v ∈ values, v.2 ≠ .NONE)
    (h : print_parse (parse_print env fuel p) = .ok (some (values, separator), stop)) :
    generate_c_code env (.PrintNode values separator) g =
      .ok ("printf(\"" ++
        (joined separator (values.map (fun v => spec_conversion v.2)) ++ "\\n") ++ "\"" ++
        after_commas (values.map print_arg) ++ ");\n", g) ∧
    separator = spec_separator p.tokens p.pos (stop - 2) := by
  refine ⟨?_, ?_⟩
  · simp only [generate_c_code, print_c_code, print_parts_template separator values hv]
  · cases hr : parse_print env fuel p with
    | error e => rw [hr] at h; cases h
    | ok r =>
      obtain ⟨node, q⟩ := r
      obtain ⟨vs, sep, rfl, hsep⟩ := parse_print_sep env fuel p q node hr
      rw [hr] at h
      simp only [print_parse, Except.map, Except.ok.injEq, Option.some.injEq, Prod.mk.injEq] at h
      rw [← h.1.2, ← h.2]
      exact hsep

/-- C22 at the statement `print(1, 2.5, sep="-")`. -/
theorem C22_witness :
    generate_c_code sample_env (.PrintNode [("1", .INT), ("2.5", .FLOAT)] "-")
        { gc_strings := [], rand_calls := 0 } =
      .ok ("printf(\"" ++
        (joined "-" ([("1", VarType.INT), ("2.5", VarType.FLOAT)].map
          (fun v => spec_conversion v.2)) ++ "\\n") ++ "\"" ++
        after_commas ([("1", VarType.INT), ("2.5", VarType.FLOAT)].map print_arg) ++ ");\n",
        { gc_strings := [], rand_calls := 0 }) ∧
    "-" = spec_separator (parser_at c22_sep_tokens [] []).tokens
      (parser_at c22_sep_tokens [] []).pos (11 - 2) :=
  C22_print_statement sample_env 4 (parser_at c22_sep_tokens [] [])
    [("1", .INT), ("2.5", .FLOAT)] "-" 11 { gc_strings := [], rand_calls := 0 }
    (by decide) (by decide!)

/-- The separator that the tokens give for `print(1, 2.5, sep="-")` and for `print(1, 2.5)`, and the
parses of the two statements. -/
theorem separator_examples :
    spec_separator c22_sep_tokens 0 9 = "-" ∧
    spec_separator c22_tokens 0 5 = " " ∧
    print_parse (parse_print sample_env 4 (parser_at c22_sep_tokens [] [])) =
      .ok (some ([("1", .INT), ("2.5", .FLOAT)], "-"), 11) ∧
    print_parse (parse_print sample_env 4 (parser_at c22_tokens [] [])) =
      .ok (some ([("1", .INT), ("2.5", .FLOAT)], " "), 7) := by
  refine ⟨?_, ?_, ?_, ?_⟩ <;> decide!

/-- The statements `print(1, 2.5)` and `print(1, 2.5, sep="-")`, parsed and lowered. -/
theorem print_examples :
    print_node (parse_print sample_env 4 (parser_at c22_tokens [] [])) =
      .ok (some ([("1", .INT), ("2.5", .FLOAT)], " ")) ∧
    lowered (parse_print sample_env 4 (parser_at c22_tokens [] [])) =
      .ok "printf(\"%d %f\\n\", 1, 2.5);\n" ∧
    print_node (parse_print sample_env 4 (parser_at c22_sep_tokens [] [])) =
      .ok (some ([("1", .INT), ("2.5", .FLOAT)], "-")) ∧
    lowered (parse_print sample_env 4 (parser_at c22_sep_tokens [] [])) =
      .ok "printf(\"%d-%f\\n\", 1, 2.5);\n" := by
  refine ⟨?_, ?_, ?_, ?_⟩ <;> decide!

/-! ## C23: printed containers -/

/-- C23. The argument that a `PrintNode` passes for a container names the helper after the base
type of the value, not after its element or value type: `list_to_string_list`,
`tuple_to_string_tuple`, `dict_to_string_string_dict`. The statement `print(xs)` on a list of int
gives `list_to_string_list(xs)`; in an f-string the same list is passed to `list_to_string_int`. -/
theorem C23_printed_container_helper :
    (∀ (env : Env) (first separator : String) (g : Gen),
      generate_c_code env (.PrintNode [(first, .LIST)] separator) g =
        .ok ("printf(\"%s\\n\", list_to_string_list(" ++ first ++ "));\n", g) ∧
      generate_c_code env (.PrintNode [(first, .TUPLE)] separator) g =
        .ok ("printf(\"%s\\n\", tuple_to_string_tuple(" ++ first ++ "));\n", g) ∧
      generate_c_code env (.PrintNode [(first, .DICT)] separator) g =
        .ok ("printf(\"%s\\n\", dict_to_string_string_dict(" ++ first ++ "));\n", g)) ∧
    print_node (parse_print sample_env 4 (parser_at c23_tokens sample_vars [])) =
      .ok (some ([("xs", .LIST)], " ")) ∧
    lowered (parse_print sample_env 4 (parser_at c23_tokens sample_vars [])) =
      .ok "printf(\"%s\\n\", list_to_string_list(xs));\n" ∧
    lowered (parse_print sample_env 4 (parser_at c23_pair_tokens sample_vars [])) =
      .ok "printf(\"%s %s\\n\", tuple_to_string_tuple(t), dict_to_string_string_dict(m));\n" ∧
    text_of (parse_expression sample_env 6 (parser_at c23_fstring_tokens sample_vars [])) =
      .ok ("char temp_string_0[1024];\n" ++
        "snprintf(temp_string_0, 1024, \"%s\", list_to_string_int(xs));\n    temp_string_0") := by
  refine ⟨?_, by decide!, by decide!, by decide!, by decide!⟩
  intro env first separator g
  refine ⟨?_, ?_, ?_⟩ <;>
    (simp [generate_c_code, print_c_code, print_parts, vartype_to_c, String.append_assoc]
     rw [← String.append_assoc]
     rfl)

/-! ## C24: the helpers of a dict -/

/-- C24. An indexed read and an indexed assignment of a dict name their helper by the C names of the
key and value types put side by side, with no underscore: for `m : DICT[string, int]` the read
`m["a"]` is `dict_get_stringint(m, "a")` and the assignment `m["a"] = 1` is
`dict_set_stringint(m, "a", 1);`, while the dict literal calls `dict_set_string_int`. -/
theorem C24_dict_helper_names :
    text_of (parse_expression sample_env 6 (parser_at c24_read_tokens sample_vars [])) =
      .ok "dict_get_stringint(m, \"a\")" ∧
    lowered (parse_index_assignment sample_env 6 (parser_at c24_write_tokens sample_vars [])) =
      .ok "dict_set_stringint(m, \"a\", 1);\n" ∧
    lowered (parse_statement sample_env 6 (parser_at c24_write_tokens sample_vars [])) =
      .ok "dict_set_stringint(m, \"a\", 1);\n" ∧
    text_of (parse_expression sample_env 6 (parser_at c24_literal_tokens sample_vars [])) =
      .ok ("DictStringint* temp_dict_0 = create_dict_string_int();\n" ++
        "dict_set_string_int(temp_dict_0, \"a\", 1);\ntemp_dict_0") := by
  refine ⟨?_, ?_, ?_, ?_⟩ <;> decide!

/-! ## C25: the statement append -/

/-- C25. A `MethodCallNode` names the helper of `append` after the element type of its
`return_type`, and the parser gives `append` the return type NONE: the statement is lowered to
`list_append_void(xs, v);` whatever the element type of the list. In an expression the same call is
lowered to `list_append_int(xs, 1)`. -/
theorem C25_append_statement_helper :
    (∀ (env : Env) (var a : String) (rest : List String) (g : Gen),
      generate_c_code env
          (.MethodCallNode var "append" (a :: rest) ⟨.NONE, .NONE, .NONE, .NONE⟩) g =
        .ok ("list_append_void(" ++ var ++ ", " ++ a ++ ");\n",
          { g with rand_calls := g.rand_calls + 1 })) ∧
    method_node (parse_method_call sample_env 4 (parser_at c25_tokens method_vars [])) =
      .ok (some ("xs", "append", ["1"], scalar .NONE)) ∧
    lowered (parse_method_call sample_env 4 (parser_at c25_tokens method_vars [])) =
      .ok "list_append_void(xs, 1);\n" ∧
    lowered (parse_statement sample_env 5 (parser_at c25_tokens method_vars [])) =
      .ok "list_append_void(xs, 1);\n" ∧
    text_of (parse_expression sample_env 4 (parser_at c25_tokens method_vars [])) =
      .ok "list_append_int(xs, 1)" := by
  refine ⟨?_, by decide!, by decide!, by decide!, by decide!⟩
  intro env var a rest g
  simp [generate_c_code, method_call_c_code, arg_at, vartype_to_c, bind, Except.bind, pure,
    Except.pure, String.append_assoc]

/-! ## C26: declaration of a container from a literal -/

/-- C26. The text of a container literal is the whole sequence of statements that builds the
temporary, ending in its name, and `AssignNode` puts that text after the `=` of the declaration:
for `list[int] xs = [1, 2]` the initialiser of `xs` is `intList*temp_list_0 = create_list_int();`
and the statements that fill the temporary come after it. The name is added to the cleanup list. -/
theorem C26_literal_text_in_initialiser :
    (∀ (env : Env) (var expr : String) (e k v : VarType) (g : Gen),
      generate_c_code env (.AssignNode var expr ⟨.LIST, e, k, v⟩ true) g =
        .ok ("List" ++ vartype_to_c e ++ "*" ++ " " ++ var ++ " = " ++ expr ++ ";\n",
          { g with gc_strings := g.gc_strings ++ [var] })) ∧
    text_of (parse_expression sample_env 6 (parser_at (c26_tokens.drop 6) [] [])) =
      .ok ("intList*temp_list_0 = create_list_int();\n" ++
        "list_append_int(temp_list_0, 1);\nlist_append_int(temp_list_0, 2);\ntemp_list_0") ∧
    (compile sample_env 20 c26_tokens).map (fun r => r.1) =
      .ok ("int main()\n\x7b\n    #include \"common.h\"\n\n" ++
        "    Listint* xs = intList*temp_list_0 = create_list_int();\n" ++
        "list_append_int(temp_list_0, 1);\nlist_append_int(temp_list_0, 2);\ntemp_list_0;\n\n" ++
        "    free_list_int(xs);\n    return 0;\n\x7d\n") := by
  refine ⟨?_, by decide!, by decide!⟩
  intro env var expr e k v g
  simp [generate_c_code, assign_c_code, is_heap, String.append_assoc]

/-! ## C27: the template of an assignment -/

/-- C27. The text of an `AssignNode` is the template of the specification: `int`, `float` and `int`
declarations of INT, FLOAT and BOOL, a plain assignment on reassignment, and for STRING the `malloc`
and `strcpy` pair, after `free` on reassignment. -/
theorem C27_assign_template (env : Env) (var expr : String) (e k v : VarType) (g : Gen) :
    (generate_c_code env (.AssignNode var expr ⟨.INT, e, k, v⟩ true) g).map Prod.fst =
      .ok ("int " ++ var ++ " = " ++ expr ++ ";\n") ∧
    (generate_c_code env (.AssignNode var expr ⟨.FLOAT, e, k, v⟩ true) g).map Prod.fst =
      .ok ("float " ++ var ++ " = " ++ expr ++ ";\n") ∧
    (generate_c_code env (.AssignNode var expr ⟨.BOOL, e, k, v⟩ true) g).map Prod.fst =
      .ok ("int " ++ var ++ " = " ++ expr ++ ";\n") ∧
    (generate_c_code env (.AssignNode var expr ⟨.INT, e, k, v⟩ false) g).map Prod.fst =
      .ok (var ++ " = " ++ expr ++ ";\n") ∧
    (generate_c_code env (.AssignNode var expr ⟨.FLOAT, e, k, v⟩ false) g).map Prod.fst =
      .ok (var ++ " = " ++ expr ++ ";\n") ∧
    (generate_c_code env (.AssignNode var expr ⟨.BOOL, e, k, v⟩ false) g).map Prod.fst =
      .ok (var ++ " = " ++ expr ++ ";\n") ∧
    (generate_c_code env (.AssignNode var expr ⟨.STRING, e, k, v⟩ true) g).map Prod.fst =
      .ok ("char* " ++ var ++ " = (char*)malloc(strlen(" ++ expr ++ ") + 1);\n" ++
        ("    strcpy(" ++ var ++ ", " ++ expr ++ ");\n")) ∧
    (generate_c_code env (.AssignNode var expr ⟨.STRING, e, k, v⟩ false) g).map Prod.fst =
      .ok ("free(" ++ var ++ ");\n" ++
        ("    " ++ var ++ " = (char*)malloc(strlen(" ++ expr ++ ") + 1);\n") ++
        ("    strcpy(" ++ var ++ ", " ++ expr ++ ");\n")) := by
  refine ⟨?_, ?_, ?_, ?_, ?_, ?_, ?_, ?_⟩ <;>
    simp [generate_c_code, assign_c_code, Except.map]

/-! ## C28: the slots of a parsed type -/

theorem token_to_vartype_scalar (p : Parser) (ty : TokenType) (v : CollectionType)
    (h : token_to_vartype p ty = .ok v) : is_scalar v.base_type = true := by
  rcases (token_to_vartype_ok p ty v h).1 with hb | hb | hb | hb <;> simp [hb, is_scalar]

/-- C28. The slots that `parse_collection_type` writes satisfy the invariant of the data model:
a scalar type has NONE in the other slots, the element type of a LIST or TUPLE and the value type of
a DICT are scalar, and the key type of a DICT is STRING. The slots it does not write are those of
the record declared without initialiser (parser.h 153): the key and value types of a LIST or TUPLE
and the element type of a DICT are whatever that record holds, not NONE. -/
theorem C28_collection_type_slots (env : Env) (p q : Parser) (result : CollectionType)
    (h : parse_collection_type env p = .ok (result, q)) :
    (is_scalar result.base_type = true →
      result.element_type = .NONE ∧ result.key_type = .NONE ∧ result.value_type = .NONE) ∧
    (result.base_type = .LIST ∨ result.base_type = .TUPLE →
      is_scalar result.element_type = true ∧
      result.key_type = (env.uninit 153).key_type ∧
      result.value_type = (env.uninit 153).value_type) ∧
    (result.base_type = .DICT →
      result.key_type = .STRING ∧ is_scalar result.value_type = true ∧
      result.element_type = (env.uninit 153).element_type) ∧
    result.base_type ≠ .NONE := by
  unfold parse_collection_type at h
  simp only [] at h
  rw [bind_ok] at h
  obtain ⟨t, -, h⟩ := h
  by_cases c1 : t.type = .LIST
  · rw [if_pos c1, bind_ok] at h
    obtain ⟨⟨a1, p1⟩, -, h⟩ := h
    rw [bind_ok] at h
    obtain ⟨⟨a2, p2⟩, -, h⟩ := h
    rw [bind_ok] at h
    obtain ⟨t1, -, h⟩ := h
    rw [bind_ok] at h
    obtain ⟨et, het, h⟩ := h
    rw [bind_ok] at h
    obtain ⟨⟨a3, p3⟩, -, h⟩ := h
    rw [bind_ok] at h
    obtain ⟨⟨a4, p4⟩, -, h⟩ := h
    simp only [pure, Except.pure, Except.ok.injEq, Prod.mk.injEq] at h
    obtain ⟨rfl, -⟩ := h
    have hs := token_to_vartype_scalar _ _ _ het
    simp [is_scalar, hs] at hs ⊢
    exact hs
  rw [if_neg c1] at h
  by_cases c2 : t.type = .TUPLE
  · rw [if_pos c2, bind_ok] at h
    obtain ⟨⟨a1, p1⟩, -, h⟩ := h
    rw [bind_ok] at h
    obtain ⟨⟨a2, p2⟩, -, h⟩ := h
    rw [bind_ok] at h
    obtain ⟨t1, -, h⟩ := h
    rw [bind_ok] at h
    obtain ⟨et, het, h⟩ := h
    rw [bind_ok] at h
    obtain ⟨⟨a3, p3⟩, -, h⟩ := h
    rw [bind_ok] at h
    obtain ⟨⟨a4, p4⟩, -, h⟩ := h
    simp only [pure, Except.pure, Except.ok.injEq, Prod.mk.injEq] at h
    obtain ⟨rfl, -⟩ := h
    have hs := token_to_vartype_scalar _ _ _ het
    simp [is_scalar, hs] at hs ⊢
    exact hs
  rw [if_neg c2] at h
  by_cases c3 : t.type = .DICT
  · rw [if_pos c3, bind_ok] at h
    obtain ⟨⟨a1, p1⟩, -, h⟩ := h
    rw [bind_ok] at h
    obtain ⟨⟨a2, p2⟩, -, h⟩ := h
    rw [bind_ok] at h
    obtain ⟨t1, -, h⟩ := h
    rw [bind_ok] at h
    obtain ⟨kt, hkt, h⟩ := h
    simp only [] at h
    by_cases ck : kt.base_type ≠ .STRING
    · rw [if_pos ck] at h
      simp at h
    rw [if_neg ck, bind_ok] at h
    obtain ⟨⟨a3, p3⟩, -, h⟩ := h
    rw [bind_ok] at h
    obtain ⟨⟨a4, p4⟩, -, h⟩ := h
    rw [bind_ok] at h
    obtain ⟨t2, -, h⟩ := h
    rw [bind_ok] at h
    obtain ⟨vt, hvt, h⟩ := h
    rw [bind_ok] at h
    obtain ⟨⟨a5, p5⟩, -, h⟩ := h
    rw [bind_ok] at h
    obtain ⟨⟨a6, p6⟩, -, h⟩ := h
    simp only [pure, Except.pure, Except.ok.injEq, Prod.mk.injEq] at h
    obtain ⟨rfl, -⟩ := h
    have hs := token_to_vartype_scalar _ _ _ hvt
    simp only [ne_eq, not_not] at ck
    simp [is_scalar, hs, ck] at hs ⊢
    exact hs
  rw [if_neg c3, bind_ok] at h
  obtain ⟨r, hr, h⟩ := h
  have hr1 := token_to_vartype_ok _ _ _ hr
  have hs := token_to_vartype_scalar _ _ _ hr
  have hres : result = r := by
    split_ifs at h <;>
      (simp only [pure, Except.pure, Except.ok.injEq, Prod.mk.injEq] at h
       exact h.1.symm)
  subst hres
  refine ⟨fun _ => hr1.2, ?_, ?_, ?_⟩
  · intro hb
    rcases hb with hb | hb <;> simp [hb, is_scalar] at hs
  · intro hb
    simp [hb, is_scalar] at hs
  · intro hb
    simp [hb, is_scalar] at hs

/-- C28 at the type `list[int]` when the record without initialiser holds INT in every slot: the
key and value types of the result are INT. -/
theorem C28_witness :
    parse_collection_type stale_env (parser_at c28_list_tokens [] []) =
      .ok (⟨.LIST, .INT, .INT, .INT⟩,
        at_point (parser_at c28_list_tokens [] []) 4 0 (scalar .NONE) ["common.h", "list_int.h"]) ∧
    (is_scalar VarType.INT = true ∧
      VarType.INT = (stale_env.uninit 153).key_type ∧
      VarType.INT = (stale_env.uninit 153).value_type) :=
  ⟨by decide!, (C28_collection_type_slots stale_env (parser_at c28_list_tokens [] [])
    (at_point (parser_at c28_list_tokens [] []) 4 0 (scalar .NONE) ["common.h", "list_int.h"])
    ⟨.LIST, .INT, .INT, .INT⟩ (by decide!)).2.1 (Or.inl rfl)⟩

/-- Types parsed in the two environments, and the rejected types. -/
theorem collection_type_examples :
    type_of (parse_collection_type sample_env (parser_at c28_list_tokens [] [])) =
      .ok ⟨.LIST, .INT, .NONE, .NONE⟩ ∧
    type_of (parse_collection_type stale_env (parser_at c28_list_tokens [] [])) =
      .ok ⟨.LIST, .INT, .INT, .INT⟩ ∧
    type_of (parse_collection_type stale_env (parser_at c28_dict_tokens [] [])) =
      .ok ⟨.DICT, .INT, .STRING, .INT⟩ ∧
    type_of (parse_collection_type sample_env (parser_at c28_nested_tokens [] [])) =
      .error (.thrown "Invalid Type at Line 1") ∧
    type_of (parse_collection_type sample_env (parser_at c28_key_tokens [] [])) =
      .error (.thrown "Dictionary Keys Must be Strings at Line 1") := by
  refine ⟨?_, ?_, ?_, ?_, ?_⟩ <;> decide!

/-! ## C29: what an assignment binds -/

/-- C29. For a statement `T name = e NEWLINE` that type-checks, `parse_assignment` returns an
`AssignNode` whose `is_declaration` flag says that the name was not bound in `variables` before the
statement; afterwards `variables` maps the name to the type `T` of the statement, and every other
name is bound as before. -/
theorem C29_assignment_binding (env : Env) (fuel : Nat) (p : Parser) (type : CollectionType)
    (p1 : Parser) (tok : Token) (p2 : Parser) (eq : Token) (p3 : Parser) (etxt : String)
    (E : VarType) (p4 : Parser) (nl : Token) (q : Parser)
    (h1 : parse_collection_type env p = .ok (type, p1))
    (h2 : expect .IDENTIFIER p1 = .ok (tok, p2))
    (h3 : expect .EQUALS p2 = .ok (eq, p3))
    (h4 : parse_expression env fuel p3 = .ok ((etxt, E), p4))
    (h5 : assignment_mismatch type E p4.expr_type = none)
    (h6 : expect .NEWLINE { p4 with variables_ := map_set p4.variables_ tok.value type } =
      .ok (nl, q)) :
    parse_assignment env fuel p =
      .ok (.AssignNode tok.value etxt type (map_find p.variables_ tok.value).isNone, q) ∧
    ((map_find p.variables_ tok.value).isNone = true ↔ map_find p.variables_ tok.value = none) ∧
    map_find q.variables_ tok.value = some type ∧
    ∀ name, name ≠ tok.value → map_find q.variables_ name = map_find p.variables_ name := by
  have hv4 : p4.variables_ = p.variables_ :=
    ((((parse_collection_type_frame env _ _ _ h1).trans (expect_frame _ _ _ _ h2)).trans
      (expect_frame _ _ _ _ h3)).trans (parse_expression_frame env fuel _ _ _ h4)).2.1
  have hq : q.variables_ = map_set p.variables_ tok.value type := by
    rw [(expect_frame _ _ _ _ h6).2.1, hv4]
  refine ⟨?_, by simp, ?_, ?_⟩
  · rw [parse_assignment_steps env fuel p type p1 tok p2 eq p3 etxt E p4 h1 h2 h3 h4, h5]
    simp only [h6]
    rw [hv4]
  · rw [hq]
    exact map_find_map_set_self _ _ _
  · intro name hn
    rw [hq]
    exact map_find_map_set_other _ _ _ _ hn

/-- C29 at the statement `list[int] xs = ys` when `xs` is already bound, to INT. -/
theorem C29_witness :
    parse_assignment sample_env 6 (parser_at c29_tokens c29_vars []) =
      .ok (.AssignNode "xs" "ys" (list_of .INT) false,
        at_point (parser_at c29_tokens [("ys", list_of .INT), ("xs", list_of .INT)] []) 8 0
          (list_of .INT) ["common.h", "list_int.h"]) :=
  (C29_assignment_binding sample_env 6 (parser_at c29_tokens c29_vars []) (list_of .INT)
    (at_point (parser_at c29_tokens c29_vars []) 4 0 (scalar .NONE) ["common.h", "list_int.h"])
    (tk .IDENTIFIER "xs" 1)
    (at_point (parser_at c29_tokens c29_vars []) 5 0 (scalar .NONE) ["common.h", "list_int.h"])
    (tk .EQUALS "=" 1)
    (at_point (parser_at c29_tokens c29_vars []) 6 0 (scalar .NONE) ["common.h", "list_int.h"])
    "ys" .LIST
    (at_point (parser_at c29_tokens c29_vars []) 7 0 (list_of .INT) ["common.h", "list_int.h"])
    (tk .NEWLINE "" 1)
    (at_point (parser_at c29_tokens [("ys", list_of .INT), ("xs", list_of .INT)] []) 8 0
      (list_of .INT) ["common.h", "list_int.h"])
    (by decide!) (by decide!) (by decide!) (by decide!) (by decide!) (by decide!)).1

/-- The flag of the node when the name is bound and when it is not. -/
theorem assignment_flag_examples :
    assign_node (parse_assignment sample_env 6 (parser_at c29_tokens c29_vars [])) =
      .ok (some ("xs", "ys", list_of .INT, false)) ∧
    assign_node (parse_assignment sample_env 6
      (parser_at c29_tokens [("ys", list_of .INT)] [])) =
      .ok (some ("xs", "ys", list_of .INT, true)) := by
  refine ⟨?_, ?_⟩ <;> decide!

/-! ## The parser only adds to the set of includes -/

theorem mem_set_insert (s : List String) (x h : String) :
    h ∈ set_insert s x ↔ h = x ∨ h ∈ s := by
  induction s with
  | nil => simp [set_insert]
  | cons y rest ih =>
    unfold set_insert
    split_ifs with c1 c2
    · subst c1
      simp
    · simp
    · simp only [List.mem_cons, ih]
      tauto

theorem advances_refl (p : Parser) : Advances p p := ⟨rfl, fun _ h => h, le_refl _, le_refl _⟩

theorem advances_trans {p q r : Parser} (h1 : Advances p q) (h2 : Advances q r) : Advances p r :=
  ⟨h2.1.trans h1.1, fun h hh => h2.2.1 h (h1.2.1 h hh), le_trans h1.2.2.1 h2.2.2.1,
    le_trans h1.2.2.2 h2.2.2.2⟩

theorem add_include_moves (p : Parser) (h : String) : Advances p (add_include p h) := by
  simp [Advances, add_include, mem_set_insert]
  tauto

theorem include_for_moves (ty : VarType) (p : Parser) : Advances p (include_for ty p) := by
  unfold include_for
  split_ifs <;> first | exact add_include_moves _ _ | exact advances_refl _

/-- A step `x >>= f` advances when `x` does and every continuation does. -/
theorem moves_step {α β : Type} (x : Res (α × Parser)) (f : α × Parser → Res (β × Parser))
    (p : Parser) (b : β) (r : Parser)
    (hx : ∀ a q, x = .ok (a, q) → Advances p q)
    (hf : ∀ a q, x = .ok (a, q) → f (a, q) = .ok (b, r) → Advances q r)
    (h : (x >>= f) = .ok (b, r)) : Advances p r := by
  rw [bind_ok] at h
  obtain ⟨⟨a, q⟩, h1, h2⟩ := h
  exact advances_trans (hx a q h1) (hf a q h1 h2)

/-- A step that reads without moving, such as `peek`. -/
theorem moves_read {α β : Type} (x : Res α) (f : α → Res (β × Parser))
    (p : Parser) (b : β) (r : Parser)
    (hf : ∀ a, x = .ok a → f a = .ok (b, r) → Advances p r)
    (h : (x >>= f) = .ok (b, r)) : Advances p r := by
  rw [bind_ok] at h
  obtain ⟨a, h1, h2⟩ := h
  exact hf a h1 h2

/-- A returned pair whose record has advanced. -/
theorem moves_of_ok {α : Type} {a b : α} {p q r : Parser}
    (h : (Except.ok (a, q) : Res (α × Parser)) = .ok (b, r)) (hf : Advances p q) :
    Advances p r := by
  simp only [Except.ok.injEq, Prod.mk.injEq] at h
  obtain ⟨-, rfl⟩ := h
  exact hf

theorem expect_moves (ty : TokenType) : Moves (expect ty) := by
  intro p a q h
  unfold expect at h
  split at h
  · simp at h
  · split_ifs at h
    simp only [Except.ok.injEq, Prod.mk.injEq] at h
    obtain ⟨-, rfl⟩ := h
    exact (by simp [Advances, add_include, mem_set_insert])

theorem expect_current_moves : Moves expect_current := by
  intro p a q h
  unfold expect_current at h
  simp only [bind, Except.bind] at h
  split at h
  · simp at h
  · exact expect_moves _ _ _ _ h

theorem args_loop_moves (rec : Parser → Res (Expr × Parser)) (hrec : Moves rec) (n : Nat)
    (args : List String) : Moves (args_loop rec n args) := by
  induction n generalizing args with
  | zero => intro p a q h; simp [args_loop] at h
  | succ n ih =>
    intro p a q h
    simp only [args_loop, bind, Except.bind, pure, Except.pure] at h
    repeat' split at h
    all_goals first
      | (simp only [reduceCtorEq] at h)
      | (simp only [Except.ok.injEq, Prod.mk.injEq] at h
         obtain ⟨-, rfl⟩ := h
         exact advances_refl _)
      | (rename_i h1 _ _ h2 _ _ h3
         exact advances_trans (advances_trans (expect_moves _ _ _ _ h2) (hrec _ _ _ h3)) (ih _ _ _ _ h))
theorem parse_args_moves (rec : Parser → Res (Expr × Parser)) (hrec : Moves rec) (n : Nat) :
    Moves (parse_args rec n) := by
  intro p a q h
  unfold parse_args at h
  refine moves_read _ _ _ _ _ ?_ h
  intro t _ h
  split_ifs at h
  · refine moves_step _ _ _ _ _ (fun a q hq => hrec _ _ _ hq) ?_ h
    intro e q1 _ h
    exact args_loop_moves rec hrec _ _ _ _ _ h
  · simp only [pure, Except.pure, Except.ok.injEq, Prod.mk.injEq] at h
    obtain ⟨-, rfl⟩ := h
    exact advances_refl _

theorem parse_call_expr_moves (rec : Parser → Res (Expr × Parser)) (hrec : Moves rec) (n : Nat) :
    Moves (parse_call_expr rec n) := by
  intro p a q h
  unfold parse_call_expr at h
  refine moves_step _ _ _ _ _ (fun a q hq => expect_moves _ _ _ _ hq) ?_ h
  intro tok p1 _ h
  refine moves_step _ _ _ _ _ (fun a q hq => expect_moves _ _ _ _ hq) ?_ h
  intro _ p2 _ h
  refine moves_step _ _ _ _ _ (fun a q hq => parse_args_moves rec hrec n _ _ _ hq) ?_ h
  intro args p3 _ h
  refine moves_step _ _ _ _ _ (fun a q hq => expect_moves _ _ _ _ hq) ?_ h
  intro _ p4 _ h
  simp only [] at h
  split at h
  · simp at h
  · simp only [pure, Except.pure, Except.ok.injEq, Prod.mk.injEq] at h
    obtain ⟨-, rfl⟩ := h
    exact (by simp [Advances, add_include, mem_set_insert])
theorem parse_index_expr_moves (rec : Parser → Res (Expr × Parser)) (hrec : Moves rec) :
    Moves (parse_index_expr rec) := by
  intro p a q h
  unfold parse_index_expr at h
  refine moves_step _ _ _ _ _ (fun a q hq => expect_moves _ _ _ _ hq) ?_ h
  intro tok p1 _ h
  refine moves_step _ _ _ _ _ (fun a q hq => expect_moves _ _ _ _ hq) ?_ h
  intro _ p2 _ h
  refine moves_step _ _ _ _ _ (fun a q hq => hrec _ _ _ hq) ?_ h
  intro index p3 _ h
  refine moves_step _ _ _ _ _ (fun a q hq => expect_moves _ _ _ _ hq) ?_ h
  intro _ p4 _ h
  simp only [bind, Except.bind, pure, Except.pure] at h
  repeat' split at h
  all_goals first
    | (simp only [Except.ok.injEq, Prod.mk.injEq, throw_at_ne_ok, reduceCtorEq] at h
       obtain ⟨-, rfl⟩ := h
       simp [Advances, add_include, mem_set_insert]; tauto)
    | (simp only [throw_at_ne_ok, reduceCtorEq] at h)

theorem method_return_type_moves (m1 m2 : String) (vt : CollectionType) (method : String) :
    Moves (method_return_type m1 m2 vt method) := by
  intro p a q h
  unfold method_return_type at h
  repeat' split at h
  all_goals first
    | (simp only [Except.ok.injEq, Prod.mk.injEq, throw_at_ne_ok, reduceCtorEq] at h
       obtain ⟨-, rfl⟩ := h
       simp [Advances, add_include, mem_set_insert]; tauto)
    | (simp only [throw_at_ne_ok, reduceCtorEq] at h)

theorem parse_method_expr_moves (env : Env) (rec : Parser → Res (Expr × Parser))
    (hrec : Moves rec) (n : Nat) : Moves (parse_method_expr env rec n) := by
  intro p a q h
  unfold parse_method_expr at h
  refine moves_step _ _ _ _ _ (fun a q hq => expect_moves _ _ _ _ hq) ?_ h
  intro tok p1 _ h
  refine moves_step _ _ _ _ _ (fun a q hq => expect_moves _ _ _ _ hq) ?_ h
  intro _ p2 _ h
  refine moves_step _ _ _ _ _ (fun a q hq => expect_moves _ _ _ _ hq) ?_ h
  intro mtok p3 _ h
  refine moves_step _ _ _ _ _ (fun a q hq => expect_moves _ _ _ _ hq) ?_ h
  intro _ p4 _ h
  refine moves_step _ _ _ _ _ (fun a q hq => parse_args_moves rec hrec n _ _ _ hq) ?_ h
  intro args p5 _ h
  refine moves_step _ _ _ _ _ (fun a q hq => expect_moves _ _ _ _ hq) ?_ h
  intro _ p6 _ h
  simp only [] at h
  split at h
  · simp at h
  · refine moves_step _ _ _ _ _ (fun a q hq => method_return_type_moves _ _ _ _ _ _ _ hq) ?_ h
    intro rt p7 _ h
    simp only [bind, Except.bind, pure, Except.pure] at h
    repeat' split at h
    all_goals first
      | (simp only [Except.ok.injEq, Prod.mk.injEq, throw_at_ne_ok, reduceCtorEq] at h
         obtain ⟨-, rfl⟩ := h
         simp [Advances, add_include, mem_set_insert])
      | (simp only [throw_at_ne_ok, reduceCtorEq] at h)

theorem parse_identifier_expr_moves : Moves parse_identifier_expr := by
  intro p a q h
  unfold parse_identifier_expr at h
  refine moves_step _ _ _ _ _ (fun a q hq => expect_moves _ _ _ _ hq) ?_ h
  intro tok p1 _ h
  simp only [] at h
  split at h
  · simp at h
  · refine moves_of_ok h (advances_trans ?_ (include_for_moves _ _))
    simp [Advances]

theorem fstring_default_moves (ty : VarType) (format : String) (p : Parser) :
    Advances p (fstring_default ty format p).2 := by
  unfold fstring_default
  repeat' split
  all_goals first | exact advances_refl _ | exact add_include_moves _ _

theorem fstring_loop_moves (env : Env) (rec : Parser → Res (Expr × Parser)) (hrec : Moves rec)
    (n : Nat) (format : String) (args : List (String × VarType)) :
    Moves (fstring_loop env rec n format args) := by
  induction n generalizing format args with
  | zero => intro p a q h; simp [fstring_loop] at h
  | succ n ih =>
    intro p a q h
    unfold fstring_loop at h
    refine moves_read _ _ _ _ _ ?_ h
    intro t _ h
    by_cases c1 : t.type ≠ .FSTRING_END
    · rw [if_pos c1] at h
      by_cases c2 : t.type = .STRING_LITERAL
      · rw [if_pos c2] at h
        refine moves_step _ _ _ _ _ (fun a q hq => expect_moves _ _ _ _ hq) ?_ h
        intro tok p1 _ h
        exact advances_trans (add_include_moves _ _) (ih _ _ _ _ _ h)
      · rw [if_neg c2] at h
        by_cases c3 : t.type = .FSTRING_EXPR_START
        · rw [if_pos c3] at h
          refine moves_step _ _ _ _ _ (fun a q hq => expect_moves _ _ _ _ hq) ?_ h
          intro _ p1 _ h
          refine moves_step _ _ _ _ _ (fun a q hq => hrec _ _ _ hq) ?_ h
          intro expr p2 _ h
          refine moves_read _ _ _ _ _ ?_ h
          intro t2 _ h
          by_cases c4 : t2.type = .FSTRING_FORMAT_SPEC
          · rw [if_pos c4] at h
            refine moves_step _ _ _ _ _ (fun a q hq => expect_moves _ _ _ _ hq) ?_ h
            intro tok p3 _ h
            refine moves_step _ _ _ _ _ (fun a q hq => expect_moves _ _ _ _ hq) ?_ h
            intro _ p4 _ h
            exact ih _ _ _ _ _ h
          · rw [if_neg c4] at h
            refine advances_trans (fstring_default_moves expr.2 format p2) ?_
            refine moves_step _ _ _ _ _ (fun a q hq => expect_moves _ _ _ _ hq) ?_ h
            intro _ p4 _ h
            exact ih _ _ _ _ _ h
        · rw [if_neg c3] at h
          exact ih _ _ _ _ _ h
    · rw [if_neg c1] at h
      exact moves_of_ok h (advances_refl _)

theorem fstring_args_moves (args : List (String × VarType)) (result : String) (p : Parser) :
    Advances p (fstring_args args result p).2 := by
  induction args generalizing result p with
  | nil => exact advances_refl _
  | cons a rest ih =>
    obtain ⟨arg, ty⟩ := a
    unfold fstring_args
    simp only []
    repeat' split
    all_goals first
      | exact ih _ _
      | exact advances_trans (add_include_moves _ _) (ih _ _)

theorem parse_fstring_expr_moves (env : Env) (rec : Parser → Res (Expr × Parser))
    (hrec : Moves rec) (n : Nat) : Moves (parse_fstring_expr env rec n) := by
  intro p a q h
  unfold parse_fstring_expr at h
  refine moves_step _ _ _ _ _ (fun a q hq => expect_moves _ _ _ _ hq) ?_ h
  intro _ p1 _ h
  refine moves_step _ _ _ _ _ (fun a q hq => fstring_loop_moves env rec hrec n _ _ _ _ _ hq) ?_ h
  intro fa p2 _ h
  refine moves_step _ _ _ _ _ (fun a q hq => expect_moves _ _ _ _ hq) ?_ h
  intro _ p3 _ h
  simp only [] at h
  refine moves_of_ok h ?_
  have := fstring_args_moves fa.2
    ("char " ++ ("temp_string_" ++ toString p3.string_temp_counter) ++ "[1024];\n" ++
      ("snprintf(" ++ ("temp_string_" ++ toString p3.string_temp_counter) ++ ", 1024, \"" ++
        fa.1 ++ "\""))
    { p3 with string_temp_counter := p3.string_temp_counter + 1 }
  refine advances_trans ?_ (advances_trans this (advances_trans ?_ (add_include_moves _ _)))
  · simp [Advances]
  · simp [Advances]
theorem elements_loop_moves (rec : Parser → Res (Expr × Parser)) (hrec : Moves rec)
    (msg : String) (et : VarType) (n : Nat) (elements : List String) :
    Moves (elements_loop rec msg et n elements) := by
  induction n generalizing elements with
  | zero => intro p a q h; simp [elements_loop] at h
  | succ n ih =>
    intro p a q h
    unfold elements_loop at h
    refine moves_read _ _ _ _ _ ?_ h
    intro t _ h
    by_cases c1 : t.type = .COMMA
    · rw [if_pos c1] at h
      refine moves_step _ _ _ _ _ (fun a q hq => expect_moves _ _ _ _ hq) ?_ h
      intro _ p1 _ h
      refine moves_step _ _ _ _ _ (fun a q hq => hrec _ _ _ hq) ?_ h
      intro expr p2 _ h
      simp only [] at h
      split_ifs at h
      · simp at h
      · exact ih _ _ _ _ h
    · rw [if_neg c1] at h
      exact moves_of_ok h (advances_refl _)

theorem parse_list_expr_moves (env : Env) (rec : Parser → Res (Expr × Parser))
    (hrec : Moves rec) (n : Nat) : Moves (parse_list_expr env rec n) := by
  intro p a q h
  unfold parse_list_expr at h
  refine moves_step _ _ _ _ _ (fun a q hq => expect_moves _ _ _ _ hq) ?_ h
  intro _ p1 _ h
  refine moves_read _ _ _ _ _ ?_ h
  intro t _ h
  simp only [] at h
  by_cases c1 : t.type ≠ .RBRACKET
  · rw [if_pos c1] at h
    refine moves_step _ _ _ _ _ (fun a q hq => hrec _ _ _ hq) ?_ h
    intro expr p3 _ h
    refine moves_step _ _ _ _ _
      (fun a q hq => elements_loop_moves rec hrec _ _ _ _ _ _ _ hq) ?_ h
    intro els p4 _ h
    refine moves_step _ _ _ _ _ (fun a q hq => expect_moves _ _ _ _ hq) ?_ h
    intro _ p5 _ h
    exact moves_of_ok h (by simp [Advances, add_include, mem_set_insert]; tauto)
  · rw [if_neg c1] at h
    refine moves_step _ _ _ _ _ (fun a q hq => expect_moves _ _ _ _ hq) ?_ h
    intro _ p5 _ h
    exact moves_of_ok h (by simp [Advances, add_include, mem_set_insert]; tauto)

theorem parse_tuple_expr_moves (env : Env) (rec : Parser → Res (Expr × Parser))
    (hrec : Moves rec) (n : Nat) : Moves (parse_tuple_expr env rec n) := by
  intro p a q h
  unfold parse_tuple_expr at h
  refine moves_step _ _ _ _ _ (fun a q hq => expect_moves _ _ _ _ hq) ?_ h
  intro _ p1 _ h
  refine moves_read _ _ _ _ _ ?_ h
  intro t _ h
  simp only [] at h
  by_cases c1 : t.type ≠ .RPAREN
  · rw [if_pos c1] at h
    refine moves_step _ _ _ _ _ (fun a q hq => hrec _ _ _ hq) ?_ h
    intro expr p3 _ h
    refine moves_step _ _ _ _ _
      (fun a q hq => elements_loop_moves rec hrec _ _ _ _ _ _ _ hq) ?_ h
    intro els p4 _ h
    refine moves_step _ _ _ _ _ (fun a q hq => expect_moves _ _ _ _ hq) ?_ h
    intro _ p5 _ h
    exact moves_of_ok h (by simp [Advances, add_include, mem_set_insert]; tauto)
  · rw [if_neg c1] at h
    refine moves_step _ _ _ _ _ (fun a q hq => expect_moves _ _ _ _ hq) ?_ h
    intro _ p5 _ h
    exact moves_of_ok h (by simp [Advances, add_include, mem_set_insert]; tauto)

theorem entries_loop_moves (rec : Parser → Res (Expr × Parser)) (hrec : Moves rec)
    (vt : VarType) (n : Nat) (entries : List (String × String)) :
    Moves (entries_loop rec vt n entries) := by
  induction n generalizing entries with
  | zero => intro p a q h; simp [entries_loop] at h
  | succ n ih =>
    intro p a q h
    unfold entries_loop at h
    refine moves_read _ _ _ _ _ ?_ h
    intro t _ h
    by_cases c1 : t.type = .COMMA
    · rw [if_pos c1] at h
      refine moves_step _ _ _ _ _ (fun a q hq => expect_moves _ _ _ _ hq) ?_ h
      intro _ p1 _ h
      refine moves_step _ _ _ _ _ (fun a q hq => hrec _ _ _ hq) ?_ h
      intro key p2 _ h
      simp only [] at h
      by_cases c2 : key.2 ≠ .STRING
      · rw [if_pos c2] at h
        simp at h
      · rw [if_neg c2] at h
        refine moves_step _ _ _ _ _ (fun a q hq => expect_moves _ _ _ _ hq) ?_ h
        intro _ p3 _ h
        refine moves_step _ _ _ _ _ (fun a q hq => hrec _ _ _ hq) ?_ h
        intro value p4 _ h
        simp only [] at h
        split_ifs at h
        · simp at h
        · exact ih _ _ _ _ h
    · rw [if_neg c1] at h
      exact moves_of_ok h (advances_refl _)

theorem parse_dict_expr_moves (env : Env) (rec : Parser → Res (Expr × Parser))
    (hrec : Moves rec) (n : Nat) : Moves (parse_dict_expr env rec n) := by
  intro p a q h
  unfold parse_dict_expr at h
  refine moves_step _ _ _ _ _ (fun a q hq => expect_moves _ _ _ _ hq) ?_ h
  intro _ p1 _ h
  refine moves_read _ _ _ _ _ ?_ h
  intro t _ h
  simp only [] at h
  by_cases c1 : t.type ≠ .RBRACE
  · rw [if_pos c1] at h
    refine moves_step _ _ _ _ _ (fun a q hq => hrec _ _ _ hq) ?_ h
    intro key p3 _ h
    simp only [] at h
    by_cases c2 : key.2 ≠ .STRING
    · rw [if_pos c2, bind_ok] at h
      obtain ⟨y, hy, -⟩ := h
      simp at hy
    · rw [if_neg c2] at h
      refine moves_step _ _ _ _ _ (fun a q hq => expect_moves _ _ _ _ hq) ?_ h
      intro _ p4 _ h
      refine moves_step _ _ _ _ _ (fun a q hq => hrec _ _ _ hq) ?_ h
      intro value p5 _ h
      refine moves_step _ _ _ _ _
        (fun a q hq => entries_loop_moves rec hrec _ _ _ _ _ _ hq) ?_ h
      intro es p6 _ h
      refine moves_step _ _ _ _ _ (fun a q hq => expect_moves _ _ _ _ hq) ?_ h
      intro _ p7 _ h
      exact moves_of_ok h (by simp [Advances, add_include, mem_set_insert]; tauto)
  · rw [if_neg c1] at h
    refine moves_step _ _ _ _ _ (fun a q hq => expect_moves _ _ _ _ hq) ?_ h
    intro _ p7 _ h
    exact moves_of_ok h (by simp [Advances, add_include, mem_set_insert]; tauto)

theorem parse_len_expr_moves (rec : Parser → Res (Expr × Parser)) (hrec : Moves rec) :
    Moves (parse_len_expr rec) := by
  intro p a q h
  unfold parse_len_expr at h
  refine moves_step _ _ _ _ _ (fun a q hq => expect_moves _ _ _ _ hq) ?_ h
  intro _ p1 _ h
  refine moves_step _ _ _ _ _ (fun a q hq => expect_moves _ _ _ _ hq) ?_ h
  intro _ p2 _ h
  refine moves_step _ _ _ _ _ (fun a q hq => hrec _ _ _ hq) ?_ h
  intro expr p3 _ h
  refine moves_step _ _ _ _ _ (fun a q hq => expect_moves _ _ _ _ hq) ?_ h
  intro _ p4 _ h
  simp only [] at h
  by_cases c1 : expr.2 ≠ .STRING ∧ expr.2 ≠ .LIST ∧ expr.2 ≠ .TUPLE ∧ expr.2 ≠ .DICT
  · rw [if_pos c1] at h
    simp at h
  · rw [if_neg c1] at h
    refine moves_of_ok h (advances_trans (include_for_moves expr.2 p4) ?_)
    simp [Advances]

theorem operator_case_moves (tt : TokenType) (type : VarType) :
    Moves (operator_case tt type) := by
  intro p a q h
  cases tt <;> simp only [operator_case, reduceCtorEq, if_false, if_true] at h
  all_goals first
    | exact moves_of_ok h (advances_refl _)
    | (refine moves_step _ _ _ _ _ (fun a q hq => expect_moves _ _ _ _ hq) ?_ h
       intro _ p1 _ h
       simp only [pure, Except.pure] at h
       repeat' split at h
       all_goals first
         | (simp only [throw_at_ne_ok, reduceCtorEq] at h)
         | exact moves_of_ok h (advances_refl _)
         | exact moves_of_ok h (add_include_moves _ _))

theorem binary_operators_moves (rec : Parser → Res (Expr × Parser)) (hrec : Moves rec)
    (n : Nat) (result : String) (type : VarType) : Moves (binary_operators rec n result type) := by
  induction n generalizing result type with
  | zero => intro p a q h; simp [binary_operators] at h
  | succ n ih =>
    intro p a q h
    unfold binary_operators at h
    refine moves_read _ _ _ _ _ ?_ h
    intro t _ h
    by_cases c1 : is_binary_operator t.type = true
    · rw [if_pos c1] at h
      refine moves_step _ _ _ _ _ (fun a q hq => operator_case_moves _ _ _ _ _ hq) ?_ h
      intro o p1 _ h
      refine moves_step _ _ _ _ _ (fun a q hq => hrec _ _ _ hq) ?_ h
      intro right p2 _ h
      simp only [] at h
      split_ifs at h
      · simp at h
      · have h' := ih _ _ _ _ _ h
        refine advances_trans ?_ h'
        exact (by simp [Advances, add_include, mem_set_insert])
      · have h' := ih _ _ _ _ _ h
        refine advances_trans ?_ h'
        exact (by simp [Advances, add_include, mem_set_insert])
    · rw [if_neg c1] at h
      exact moves_of_ok h (advances_refl _)

theorem parse_primary_moves (env : Env) (rec : Parser → Res (Expr × Parser)) (hrec : Moves rec)
    (n : Nat) : Moves (parse_primary env rec n) := by
  intro p a q h
  unfold parse_primary at h
  refine moves_read _ _ _ _ _ ?_ h
  intro t _ h
  by_cases c1 : t.type = .NUMBER
  · rw [if_pos c1] at h
    refine moves_step _ _ _ _ _ (fun a q hq => expect_moves _ _ _ _ hq) ?_ h
    intro tok p1 _ h
    exact moves_of_ok h (by simp [Advances, add_include, mem_set_insert])
  rw [if_neg c1] at h
  by_cases c2 : t.type = .FLOATING
  · rw [if_pos c2] at h
    refine moves_step _ _ _ _ _ (fun a q hq => expect_moves _ _ _ _ hq) ?_ h
    intro tok p1 _ h
    exact moves_of_ok h (by simp [Advances, add_include, mem_set_insert])
  rw [if_neg c2] at h
  by_cases c3 : t.type = .STRING_LITERAL
  · rw [if_pos c3] at h
    refine moves_step _ _ _ _ _ (fun a q hq => expect_moves _ _ _ _ hq) ?_ h
    intro tok p1 _ h
    exact moves_of_ok h (by simp [Advances, add_include, mem_set_insert]; tauto)
  rw [if_neg c3] at h
  by_cases c4 : t.type = .TRUE ∨ t.type = .FALSE
  · rw [if_pos c4] at h
    refine moves_step _ _ _ _ _ (fun a q hq => expect_current_moves _ _ _ hq) ?_ h
    intro tok p1 _ h
    exact moves_of_ok h (by simp [Advances, add_include, mem_set_insert])
  rw [if_neg c4] at h
  by_cases c5 : t.type = .IDENTIFIER
  · rw [if_pos c5] at h
    refine moves_read _ _ _ _ _ ?_ h
    intro t1 _ h
    by_cases d1 : t1.type = .LPAREN
    · rw [if_pos d1] at h
      refine moves_step _ _ _ _ _ (fun a q hq => parse_call_expr_moves rec hrec n _ _ _ hq) ?_ h
      intro e p1 _ h
      exact moves_of_ok h (advances_refl _)
    rw [if_neg d1] at h
    by_cases d2 : t1.type = .LBRACKET
    · rw [if_pos d2] at h
      refine moves_step _ _ _ _ _ (fun a q hq => parse_index_expr_moves rec hrec _ _ _ hq) ?_ h
      intro e p1 _ h
      exact moves_of_ok h (advances_refl _)
    rw [if_neg d2] at h
    by_cases d3 : t1.type = .DOT
    · rw [if_pos d3] at h
      refine moves_step _ _ _ _ _
        (fun a q hq => parse_method_expr_moves env rec hrec n _ _ _ hq) ?_ h
      intro e p1 _ h
      exact moves_of_ok h (advances_refl _)
    rw [if_neg d3] at h
    refine moves_step _ _ _ _ _ (fun a q hq => parse_identifier_expr_moves _ _ _ hq) ?_ h
    intro e p1 _ h
    exact moves_of_ok h (advances_refl _)
  rw [if_neg c5] at h
  by_cases c6 : t.type = .FSTRING_START
  · rw [if_pos c6] at h
    refine moves_step _ _ _ _ _
      (fun a q hq => parse_fstring_expr_moves env rec hrec n _ _ _ hq) ?_ h
    intro e p1 _ h
    exact moves_of_ok h (advances_refl _)
  rw [if_neg c6] at h
  by_cases c7 : t.type = .LBRACKET
  · rw [if_pos c7] at h
    refine moves_step _ _ _ _ _ (fun a q hq => parse_list_expr_moves env rec hrec n _ _ _ hq) ?_ h
    intro e p1 _ h
    exact moves_of_ok h (advances_refl _)
  rw [if_neg c7] at h
  by_cases c8 : t.type = .LPAREN
  · rw [if_pos c8] at h
    refine moves_step _ _ _ _ _ (fun a q hq => parse_tuple_expr_moves env rec hrec n _ _ _ hq) ?_ h
    intro e p1 _ h
    exact moves_of_ok h (advances_refl _)
  rw [if_neg c8] at h
  by_cases c9 : t.type = .LBRACE
  · rw [if_pos c9] at h
    refine moves_step _ _ _ _ _ (fun a q hq => parse_dict_expr_moves env rec hrec n _ _ _ hq) ?_ h
    intro e p1 _ h
    exact moves_of_ok h (advances_refl _)
  rw [if_neg c9] at h
  by_cases c10 : t.type = .LEN
  · rw [if_pos c10] at h
    refine moves_step _ _ _ _ _ (fun a q hq => parse_len_expr_moves rec hrec _ _ _ hq) ?_ h
    intro e p1 _ h
    exact moves_of_ok h (advances_refl _)
  rw [if_neg c10] at h
  simp at h

/-- The expression parser only adds to `helper_includes` and never lowers its counters. -/
theorem parse_expression_moves (env : Env) (fuel : Nat) : Moves (parse_expression env fuel) := by
  induction fuel with
  | zero => intro p a q h; simp [parse_expression] at h
  | succ fuel ih =>
    intro p a q h
    rw [parse_expression_succ] at h
    split at h
    · simp at h
    · rename_i e returned p1 hp
      have h1 := parse_primary_moves env _ ih fuel _ _ _ hp
      split_ifs at h
      · exact advances_trans h1 (moves_of_ok h (advances_refl _))
      · exact advances_trans h1 (binary_operators_moves _ ih _ _ _ _ _ _ h)

theorem parse_collection_type_moves (env : Env) : Moves (parse_collection_type env) := by
  intro p a q h
  unfold parse_collection_type at h
  simp only [] at h
  refine moves_read _ _ _ _ _ ?_ h
  intro t _ h
  by_cases c1 : t.type = .LIST
  · rw [if_pos c1] at h
    refine moves_step _ _ _ _ _ (fun a q hq => expect_moves _ _ _ _ hq) ?_ h
    intro _ p1 _ h
    refine moves_step _ _ _ _ _ (fun a q hq => expect_moves _ _ _ _ hq) ?_ h
    intro _ p2 _ h
    refine moves_read _ _ _ _ _ ?_ h
    intro t1 _ h
    refine moves_read _ _ _ _ _ ?_ h
    intro et _ h
    refine moves_step _ _ _ _ _ (fun a q hq => expect_current_moves _ _ _ hq) ?_ h
    intro _ p3 _ h
    refine moves_step _ _ _ _ _ (fun a q hq => expect_moves _ _ _ _ hq) ?_ h
    intro _ p4 _ h
    exact moves_of_ok h (add_include_moves _ _)
  rw [if_neg c1] at h
  by_cases c2 : t.type = .TUPLE
  · rw [if_pos c2] at h
    refine moves_step _ _ _ _ _ (fun a q hq => expect_moves _ _ _ _ hq) ?_ h
    intro _ p1 _ h
    refine moves_step _ _ _ _ _ (fun a q hq => expect_moves _ _ _ _ hq) ?_ h
    intro _ p2 _ h
    refine moves_read _ _ _ _ _ ?_ h
    intro t1 _ h
    refine moves_read _ _ _ _ _ ?_ h
    intro et _ h
    refine moves_step _ _ _ _ _ (fun a q hq => expect_current_moves _ _ _ hq) ?_ h
    intro _ p3 _ h
    refine moves_step _ _ _ _ _ (fun a q hq => expect_moves _ _ _ _ hq) ?_ h
    intro _ p4 _ h
    exact moves_of_ok h (add_include_moves _ _)
  rw [if_neg c2] at h
  by_cases c3 : t.type = .DICT
  · rw [if_pos c3] at h
    refine moves_step _ _ _ _ _ (fun a q hq => expect_moves _ _ _ _ hq) ?_ h
    intro _ p1 _ h
    refine moves_step _ _ _ _ _ (fun a q hq => expect_moves _ _ _ _ hq) ?_ h
    intro _ p2 _ h
    refine moves_read _ _ _ _ _ ?_ h
    intro t1 _ h
    refine moves_read _ _ _ _ _ ?_ h
    intro kt _ h
    simp only [] at h
    by_cases ck : kt.base_type ≠ .STRING
    · rw [if_pos ck] at h
      simp at h
    rw [if_neg ck] at h
    refine moves_step _ _ _ _ _ (fun a q hq => expect_moves _ _ _ _ hq) ?_ h
    intro _ p3 _ h
    refine moves_step _ _ _ _ _ (fun a q hq => expect_moves _ _ _ _ hq) ?_ h
    intro _ p4 _ h
    refine moves_read _ _ _ _ _ ?_ h
    intro t2 _ h
    refine moves_read _ _ _ _ _ ?_ h
    intro vt _ h
    refine moves_step _ _ _ _ _ (fun a q hq => expect_current_moves _ _ _ hq) ?_ h
    intro _ p5 _ h
    refine moves_step _ _ _ _ _ (fun a q hq => expect_moves _ _ _ _ hq) ?_ h
    intro _ p6 _ h
    exact moves_of_ok h (add_include_moves _ _)
  rw [if_neg c3] at h
  refine moves_read _ _ _ _ _ ?_ h
  intro r _ h
  split_ifs at h
  · exact moves_of_ok h (add_include_moves _ _)
  · exact moves_of_ok h (advances_refl _)

theorem parse_assignment_moves (env : Env) (fuel : Nat) : Moves (parse_assignment env fuel) := by
  intro p a q h
  unfold parse_assignment at h
  refine moves_step _ _ _ _ _ (fun a q hq => parse_collection_type_moves env _ _ _ hq) ?_ h
  intro type p1 _ h
  refine moves_step _ _ _ _ _ (fun a q hq => expect_moves _ _ _ _ hq) ?_ h
  intro tok p2 _ h
  refine moves_step _ _ _ _ _ (fun a q hq => expect_moves _ _ _ _ hq) ?_ h
  intro _ p3 _ h
  refine moves_step _ _ _ _ _ (fun a q hq => parse_expression_moves env fuel _ _ _ hq) ?_ h
  intro expr p4 _ h
  simp only [] at h
  split at h
  · simp at h
  · refine advances_trans ?_
      (moves_step _ _ _ _ _ (fun a q hq => expect_moves _ _ _ _ hq) ?_ h)
    · simp [Advances]
    · intro _ p5 _ h
      exact moves_of_ok h (advances_refl _)

theorem parse_function_call_moves (env : Env) (fuel : Nat) :
    Moves (parse_function_call env fuel) := by
  intro p a q h
  unfold parse_function_call at h
  refine moves_step _ _ _ _ _ (fun a q hq => expect_moves _ _ _ _ hq) ?_ h
  intro tok p1 _ h
  refine moves_step _ _ _ _ _ (fun a q hq => expect_moves _ _ _ _ hq) ?_ h
  intro _ p2 _ h
  refine moves_step _ _ _ _ _
    (fun a q hq => parse_args_moves _ (parse_expression_moves env fuel) fuel _ _ _ hq) ?_ h
  intro args p3 _ h
  refine moves_step _ _ _ _ _ (fun a q hq => expect_moves _ _ _ _ hq) ?_ h
  intro _ p4 _ h
  refine moves_step _ _ _ _ _ (fun a q hq => expect_moves _ _ _ _ hq) ?_ h
  intro _ p5 _ h
  simp only [] at h
  split at h
  · simp at h
  · exact moves_of_ok h (advances_refl _)

theorem parse_method_call_moves (env : Env) (fuel : Nat) :
    Moves (parse_method_call env fuel) := by
  intro p a q h
  unfold parse_method_call at h
  refine moves_step _ _ _ _ _ (fun a q hq => expect_moves _ _ _ _ hq) ?_ h
  intro tok p1 _ h
  refine moves_step _ _ _ _ _ (fun a q hq => expect_moves _ _ _ _ hq) ?_ h
  intro _ p2 _ h
  refine moves_step _ _ _ _ _ (fun a q hq => expect_moves _ _ _ _ hq) ?_ h
  intro mtok p3 _ h
  refine moves_step _ _ _ _ _ (fun a q hq => expect_moves _ _ _ _ hq) ?_ h
  intro _ p4 _ h
  refine moves_step _ _ _ _ _
    (fun a q hq => parse_args_moves _ (parse_expression_moves env fuel) fuel _ _ _ hq) ?_ h
  intro args p5 _ h
  refine moves_step _ _ _ _ _ (fun a q hq => expect_moves _ _ _ _ hq) ?_ h
  intro _ p6 _ h
  refine moves_step _ _ _ _ _ (fun a q hq => expect_moves _ _ _ _ hq) ?_ h
  intro _ p7 _ h
  simp only [] at h
  split at h
  · simp at h
  · refine moves_step _ _ _ _ _ (fun a q hq => method_return_type_moves _ _ _ _ _ _ _ hq) ?_ h
    intro rt p8 _ h
    exact moves_of_ok h (advances_refl _)

theorem parse_return_moves (env : Env) (fuel : Nat) : Moves (parse_return env fuel) := by
  intro p a q h
  unfold parse_return at h
  refine moves_step _ _ _ _ _ (fun a q hq => expect_moves _ _ _ _ hq) ?_ h
  intro _ p1 _ h
  refine moves_step _ _ _ _ _ (fun a q hq => parse_expression_moves env fuel _ _ _ hq) ?_ h
  intro expr p2 _ h
  refine moves_step _ _ _ _ _ (fun a q hq => expect_moves _ _ _ _ hq) ?_ h
  intro _ p3 _ h
  exact moves_of_ok h (advances_refl _)

theorem print_loop_moves (env : Env) (fuel : Nat) : ∀ (n : Nat)
    (values : List (String × VarType)) (separator : String),
    Moves (print_loop env fuel n values separator) := by
  intro n
  induction n with
  | zero => intro values separator p a q h; cases h
  | succ n ih =>
    intro values separator p a q h
    unfold print_loop at h
    refine moves_read _ _ _ _ _ ?_ h
    intro t _ h
    by_cases hc : t.type = .COMMA
    · rw [if_pos hc] at h
      refine moves_step _ _ _ _ _ (fun a q hq => expect_moves _ _ _ _ hq) ?_ h
      intro _ p1 _ h
      refine moves_read _ _ _ _ _ ?_ h
      intro t1 _ h
      by_cases hs : t1.type = .SEP
      · rw [if_pos hs] at h
        refine moves_step _ _ _ _ _ (fun a q hq => expect_moves _ _ _ _ hq) ?_ h
        intro _ p2 _ h
        refine moves_step _ _ _ _ _ (fun a q hq => expect_moves _ _ _ _ hq) ?_ h
        intro _ p3 _ h
        refine moves_read _ _ _ _ _ ?_ h
        intro t3 _ h
        by_cases hl : t3.type ≠ .STRING_LITERAL
        · rw [if_pos hl] at h
          simp at h
        · rw [if_neg hl] at h
          refine moves_step _ _ _ _ _ (fun a q hq => expect_moves _ _ _ _ hq) ?_ h
          intro tok p4 _ h
          exact moves_of_ok h (add_include_moves _ _)
      · rw [if_neg hs] at h
        refine moves_step _ _ _ _ _
          (fun a q hq => parse_expression_moves env fuel _ _ _ hq) ?_ h
        intro expr p2 _ h
        exact advances_trans (include_for_moves _ _) (ih _ _ _ _ _ h)
    · rw [if_neg hc] at h
      exact moves_of_ok h (advances_refl _)

theorem parse_print_moves (env : Env) (fuel : Nat) : Moves (parse_print env fuel) := by
  intro p a q h
  unfold parse_print at h
  refine moves_step _ _ _ _ _ (fun a q hq => expect_moves _ _ _ _ hq) ?_ h
  intro _ p1 _ h
  refine moves_step _ _ _ _ _ (fun a q hq => expect_moves _ _ _ _ hq) ?_ h
  intro _ p2 _ h
  refine moves_read _ _ _ _ _ ?_ h
  intro t _ h
  by_cases hr : t.type ≠ .RPAREN
  · rw [if_pos hr] at h
    refine moves_step _ _ _ _ _ (fun a q hq => parse_expression_moves env fuel _ _ _ hq) ?_ h
    intro expr p3 _ h
    refine advances_trans (include_for_moves expr.2 p3) ?_
    refine moves_step _ _ _ _ _ (fun a q hq => print_loop_moves env fuel _ _ _ _ _ _ hq) ?_ h
    intro vs p4 _ h
    refine moves_step _ _ _ _ _ (fun a q hq => expect_moves _ _ _ _ hq) ?_ h
    intro _ p5 _ h
    refine moves_step _ _ _ _ _ (fun a q hq => expect_moves _ _ _ _ hq) ?_ h
    intro _ p6 _ h
    exact moves_of_ok h (advances_refl _)
  · rw [if_neg hr, bind_ok] at h
    obtain ⟨y, hy, h⟩ := h
    simp only [pure, Except.pure, Except.ok.injEq] at hy
    subst hy
    refine moves_step _ _ _ _ _ (fun a q hq => expect_moves _ _ _ _ hq) ?_ h
    intro _ p5 _ h
    refine moves_step _ _ _ _ _ (fun a q hq => expect_moves _ _ _ _ hq) ?_ h
    intro _ p6 _ h
    exact moves_of_ok h (advances_refl _)

theorem parse_index_assignment_moves (env : Env) (fuel : Nat) :
    Moves (parse_index_assignment env fuel) := by
  intro p a q h
  unfold parse_index_assignment at h
  refine moves_step _ _ _ _ _ (fun a q hq => expect_moves _ _ _ _ hq) ?_ h
  intro tok p1 _ h
  refine moves_step _ _ _ _ _ (fun a q hq => expect_moves _ _ _ _ hq) ?_ h
  intro _ p2 _ h
  refine moves_step _ _ _ _ _ (fun a q hq => parse_expression_moves env fuel _ _ _ hq) ?_ h
  intro index p3 _ h
  refine moves_step _ _ _ _ _ (fun a q hq => expect_moves _ _ _ _ hq) ?_ h
  intro _ p4 _ h
  refine moves_step _ _ _ _ _ (fun a q hq => expect_moves _ _ _ _ hq) ?_ h
  intro _ p5 _ h
  refine moves_step _ _ _ _ _ (fun a q hq => parse_expression_moves env fuel _ _ _ hq) ?_ h
  intro value p6 _ h
  refine moves_step _ _ _ _ _ (fun a q hq => expect_moves _ _ _ _ hq) ?_ h
  intro _ p7 _ h
  simp only [] at h
  split at h
  · simp at h
  · split_ifs at h
    all_goals first
      | simp at h
      | exact moves_of_ok h (add_include_moves _ _)

theorem block_loop_moves (stmt : Stmt) (hstmt : Moves stmt) (stop : TokenType → Bool) :
    ∀ (n : Nat) (body : List ASTNode), Moves (block_loop stmt stop n body) := by
  intro n
  induction n with
  | zero => intro body p a q h; cases h
  | succ n ih =>
    intro body p a q h
    unfold block_loop at h
    refine moves_read _ _ _ _ _ ?_ h
    intro t _ h
    by_cases hs : stop t.type = true
    · rw [if_pos hs] at h
      exact moves_of_ok h (advances_refl _)
    · rw [if_neg hs] at h
      refine moves_step _ _ _ _ _ (fun a q hq => hstmt _ _ _ hq) ?_ h
      intro node p1 _ h
      exact ih _ _ _ _ h

theorem parse_param_moves (env : Env) (args : List (String × CollectionType)) :
    Moves (parse_param env args) := by
  intro p a q h
  unfold parse_param at h
  refine moves_step _ _ _ _ _ (fun a q hq => parse_collection_type_moves env _ _ _ hq) ?_ h
  intro type p1 _ h
  refine moves_step _ _ _ _ _ (fun a q hq => expect_moves _ _ _ _ hq) ?_ h
  intro tok p2 _ h
  refine moves_of_ok h ?_
  simp [Advances]

theorem params_loop_moves (env : Env) : ∀ (n : Nat) (args : List (String × CollectionType)),
    Moves (params_loop env n args) := by
  intro n
  induction n with
  | zero => intro args p a q h; cases h
  | succ n ih =>
    intro args p a q h
    unfold params_loop at h
    refine moves_read _ _ _ _ _ ?_ h
    intro t _ h
    by_cases hc : t.type = .COMMA
    · rw [if_pos hc] at h
      refine moves_step _ _ _ _ _ (fun a q hq => expect_moves _ _ _ _ hq) ?_ h
      intro _ p1 _ h
      refine moves_step _ _ _ _ _ (fun a q hq => parse_param_moves env _ _ _ _ hq) ?_ h
      intro args1 p2 _ h
      exact ih _ _ _ _ h
    · rw [if_neg hc] at h
      exact moves_of_ok h (advances_refl _)

theorem parse_case_pattern_moves : Moves parse_case_pattern := by
  intro p a q h
  unfold parse_case_pattern at h
  refine moves_read _ _ _ _ _ ?_ h
  intro t _ h
  split_ifs at h
  · refine moves_step _ _ _ _ _ (fun a q hq => expect_moves _ _ _ _ hq) ?_ h
    intro tok p1 _ h
    exact moves_of_ok h (advances_refl _)
  · refine moves_step _ _ _ _ _ (fun a q hq => expect_current_moves _ _ _ hq) ?_ h
    intro tok p1 _ h
    exact moves_of_ok h (advances_refl _)
  · refine moves_step _ _ _ _ _ (fun a q hq => expect_moves _ _ _ _ hq) ?_ h
    intro tok p1 _ h
    exact moves_of_ok h (advances_refl _)
  · exact moves_of_ok h (advances_refl _)

theorem case_loop_moves (stmt : Stmt) (hstmt : Moves stmt) (fuel : Nat) : ∀ (n : Nat)
    (cases : List (String × List ASTNode)) (default_case : List ASTNode),
    Moves (case_loop stmt fuel n cases default_case) := by
  intro n
  induction n with
  | zero => intro cases default_case p a q h; cases h
  | succ n ih =>
    intro cases default_case p a q h
    unfold case_loop at h
    refine moves_read _ _ _ _ _ ?_ h
    intro t _ h
    by_cases hc : t.type = .CASE
    · rw [if_pos hc] at h
      refine moves_step _ _ _ _ _ (fun a q hq => expect_moves _ _ _ _ hq) ?_ h
      intro _ p1 _ h
      refine moves_step _ _ _ _ _ (fun a q hq => parse_case_pattern_moves _ _ _ hq) ?_ h
      intro pattern p2 _ h
      refine moves_step _ _ _ _ _ (fun a q hq => expect_moves _ _ _ _ hq) ?_ h
      intro _ p3 _ h
      refine moves_step _ _ _ _ _ (fun a q hq => expect_moves _ _ _ _ hq) ?_ h
      intro _ p4 _ h
      refine moves_step _ _ _ _ _ (fun a q hq => expect_moves _ _ _ _ hq) ?_ h
      intro _ p5 _ h
      refine moves_step _ _ _ _ _
        (fun a q hq => block_loop_moves stmt hstmt _ _ _ _ _ _ hq) ?_ h
      intro case_body p6 _ h
      refine moves_step _ _ _ _ _ (fun a q hq => expect_moves _ _ _ _ hq) ?_ h
      intro _ p7 _ h
      simp only [] at h
      split_ifs at h
      · exact ih _ _ _ _ _ h
      · exact ih _ _ _ _ _ h
    · rw [if_neg hc] at h
      exact moves_of_ok h (advances_refl _)

theorem parse_match_moves (env : Env) (stmt : Stmt) (hstmt : Moves stmt) (n : Nat) :
    Moves (parse_match env stmt n) := by
  intro p a q h
  unfold parse_match at h
  refine moves_step _ _ _ _ _ (fun a q hq => expect_moves _ _ _ _ hq) ?_ h
  intro _ p1 _ h
  refine moves_step _ _ _ _ _ (fun a q hq => parse_expression_moves env n _ _ _ hq) ?_ h
  intro expr p2 _ h
  simp only [] at h
  split_ifs at h
  · simp at h
  · refine moves_step _ _ _ _ _ (fun a q hq => expect_moves _ _ _ _ hq) ?_ h
    intro _ p3 _ h
    refine moves_step _ _ _ _ _ (fun a q hq => expect_moves _ _ _ _ hq) ?_ h
    intro _ p4 _ h
    refine moves_step _ _ _ _ _ (fun a q hq => expect_moves _ _ _ _ hq) ?_ h
    intro _ p5 _ h
    refine moves_step _ _ _ _ _
      (fun a q hq => case_loop_moves stmt hstmt _ _ _ _ _ _ _ hq) ?_ h
    intro cs p6 _ h
    refine moves_step _ _ _ _ _ (fun a q hq => expect_moves _ _ _ _ hq) ?_ h
    intro _ p7 _ h
    exact moves_of_ok h (advances_refl _)

theorem parse_while_moves (env : Env) (stmt : Stmt) (hstmt : Moves stmt) (n : Nat) :
    Moves (parse_while env stmt n) := by
  intro p a q h
  unfold parse_while at h
  refine moves_step _ _ _ _ _ (fun a q hq => expect_moves _ _ _ _ hq) ?_ h
  intro _ p1 _ h
  refine moves_step _ _ _ _ _ (fun a q hq => parse_expression_moves env n _ _ _ hq) ?_ h
  intro condition p2 _ h
  refine moves_step _ _ _ _ _ (fun a q hq => expect_moves _ _ _ _ hq) ?_ h
  intro _ p3 _ h
  refine moves_step _ _ _ _ _ (fun a q hq => expect_moves _ _ _ _ hq) ?_ h
  intro _ p4 _ h
  refine moves_step _ _ _ _ _ (fun a q hq => expect_moves _ _ _ _ hq) ?_ h
  intro _ p5 _ h
  refine moves_step _ _ _ _ _ (fun a q hq => block_loop_moves stmt hstmt _ _ _ _ _ _ hq) ?_ h
  intro body p6 _ h
  refine moves_step _ _ _ _ _ (fun a q hq => expect_moves _ _ _ _ hq) ?_ h
  intro _ p7 _ h
  exact moves_of_ok h (advances_refl _)

theorem parse_for_moves (env : Env) (stmt : Stmt) (hstmt : Moves stmt) (n : Nat) :
    Moves (parse_for env stmt n) := by
  intro p a q h
  unfold parse_for at h
  refine moves_step _ _ _ _ _ (fun a q hq => expect_moves _ _ _ _ hq) ?_ h
  intro _ p1 _ h
  refine moves_step _ _ _ _ _ (fun a q hq => expect_moves _ _ _ _ hq) ?_ h
  intro tok p2 _ h
  refine moves_step _ _ _ _ _ (fun a q hq => expect_moves _ _ _ _ hq) ?_ h
  intro _ p3 _ h
  refine moves_step _ _ _ _ _ (fun a q hq => expect_moves _ _ _ _ hq) ?_ h
  intro _ p4 _ h
  refine moves_step _ _ _ _ _ (fun a q hq => expect_moves _ _ _ _ hq) ?_ h
  intro _ p5 _ h
  refine moves_step _ _ _ _ _ (fun a q hq => parse_expression_moves env n _ _ _ hq) ?_ h
  intro start p6 _ h
  refine moves_step _ _ _ _ _ (fun a q hq => expect_moves _ _ _ _ hq) ?_ h
  intro _ p7 _ h
  refine moves_step _ _ _ _ _ (fun a q hq => parse_expression_moves env n _ _ _ hq) ?_ h
  intro stop p8 _ h
  refine moves_step _ _ _ _ _ (fun a q hq => expect_moves _ _ _ _ hq) ?_ h
  intro _ p9 _ h
  refine moves_step _ _ _ _ _ (fun a q hq => expect_moves _ _ _ _ hq) ?_ h
  intro _ p10 _ h
  refine moves_step _ _ _ _ _ (fun a q hq => expect_moves _ _ _ _ hq) ?_ h
  intro _ p11 _ h
  refine moves_step _ _ _ _ _ (fun a q hq => expect_moves _ _ _ _ hq) ?_ h
  intro _ p12 _ h
  simp only [] at h
  refine advances_trans ?_
    (moves_step _ _ _ _ _ (fun a q hq => block_loop_moves stmt hstmt _ _ _ _ _ _ hq) ?_ h)
  · simp [Advances]
  · intro body p13 _ h
    refine moves_step _ _ _ _ _ (fun a q hq => expect_moves _ _ _ _ hq) ?_ h
    intro _ p14 _ h
    exact moves_of_ok h (advances_refl _)

theorem elif_loop_moves (env : Env) (stmt : Stmt) (hstmt : Moves stmt) (fuel : Nat) :
    ∀ (n : Nat) (clauses : List (String × List ASTNode)),
    Moves (elif_loop env stmt fuel n clauses) := by
  intro n
  induction n with
  | zero => intro clauses p a q h; cases h
  | succ n ih =>
    intro clauses p a q h
    unfold elif_loop at h
    refine moves_read _ _ _ _ _ ?_ h
    intro t _ h
    by_cases hc : t.type = .ELIF
    · rw [if_pos hc] at h
      refine moves_step _ _ _ _ _ (fun a q hq => expect_moves _ _ _ _ hq) ?_ h
      intro _ p1 _ h
      refine moves_step _ _ _ _ _ (fun a q hq => parse_expression_moves env fuel _ _ _ hq) ?_ h
      intro cond p2 _ h
      refine moves_step _ _ _ _ _ (fun a q hq => expect_moves _ _ _ _ hq) ?_ h
      intro _ p3 _ h
      refine moves_step _ _ _ _ _ (fun a q hq => expect_moves _ _ _ _ hq) ?_ h
      intro _ p4 _ h
      refine moves_step _ _ _ _ _ (fun a q hq => expect_moves _ _ _ _ hq) ?_ h
      intro _ p5 _ h
      refine moves_step _ _ _ _ _
        (fun a q hq => block_loop_moves stmt hstmt _ _ _ _ _ _ hq) ?_ h
      intro body p6 _ h
      refine moves_step _ _ _ _ _ (fun a q hq => expect_moves _ _ _ _ hq) ?_ h
      intro _ p7 _ h
      exact ih _ _ _ _ h
    · rw [if_neg hc] at h
      exact moves_of_ok h (advances_refl _)

theorem parse_if_moves (env : Env) (stmt : Stmt) (hstmt : Moves stmt) (n : Nat) :
    Moves (parse_if env stmt n) := by
  intro p a q h
  unfold parse_if at h
  refine moves_step _ _ _ _ _ (fun a q hq => expect_moves _ _ _ _ hq) ?_ h
  intro _ p1 _ h
  refine moves_step _ _ _ _ _ (fun a q hq => parse_expression_moves env n _ _ _ hq) ?_ h
  intro condition p2 _ h
  refine moves_step _ _ _ _ _ (fun a q hq => expect_moves _ _ _ _ hq) ?_ h
  intro _ p3 _ h
  refine moves_step _ _ _ _ _ (fun a q hq => expect_moves _ _ _ _ hq) ?_ h
  intro _ p4 _ h
  refine moves_step _ _ _ _ _ (fun a q hq => expect_moves _ _ _ _ hq) ?_ h
  intro _ p5 _ h
  refine moves_step _ _ _ _ _ (fun a q hq => block_loop_moves stmt hstmt _ _ _ _ _ _ hq) ?_ h
  intro body p6 _ h
  refine moves_step _ _ _ _ _ (fun a q hq => expect_moves _ _ _ _ hq) ?_ h
  intro _ p7 _ h
  refine moves_step _ _ _ _ _
    (fun a q hq => elif_loop_moves env stmt hstmt _ _ _ _ _ _ hq) ?_ h
  intro clauses p8 _ h
  refine moves_read _ _ _ _ _ ?_ h
  intro t _ h
  by_cases he : t.type = .ELSE
  · rw [if_pos he] at h
    refine moves_step _ _ _ _ _ (fun a q hq => expect_moves _ _ _ _ hq) ?_ h
    intro _ p9 _ h
    refine moves_step _ _ _ _ _ (fun a q hq => expect_moves _ _ _ _ hq) ?_ h
    intro _ p10 _ h
    refine moves_step _ _ _ _ _ (fun a q hq => expect_moves _ _ _ _ hq) ?_ h
    intro _ p11 _ h
    refine moves_step _ _ _ _ _ (fun a q hq => expect_moves _ _ _ _ hq) ?_ h
    intro _ p12 _ h
    refine moves_step _ _ _ _ _
      (fun a q hq => block_loop_moves stmt hstmt _ _ _ _ _ _ hq) ?_ h
    intro else_body p13 _ h
    refine moves_step _ _ _ _ _ (fun a q hq => expect_moves _ _ _ _ hq) ?_ h
    intro _ p14 _ h
    exact moves_of_ok h (advances_refl _)
  · rw [if_neg he] at h
    exact moves_of_ok h (advances_refl _)

/-- The steps of `parse_function` after the return type. -/
theorem function_body_moves (stmt : Stmt) (hstmt : Moves stmt) (n : Nat) (name : String)
    (args : List (String × CollectionType)) (return_type : CollectionType)
    (p : Parser) (a : ASTNode) (q : Parser)
    (h : (do
      let (_, p) ← expect .COLON p
      let (_, p) ← expect .NEWLINE p
      let (_, p) ← expect .INDENT p
      let p := { p with functions := map_set p.functions name (args.map Prod.snd, return_type) }
      let (body, p) ← block_loop stmt stop_block n [] p
      let (_, p) ← expect .DEDENT p
      pure (ASTNode.FunctionNode name args return_type body [], p) : Res (ASTNode × Parser)) =
        .ok (a, q)) : Advances p q := by
  refine moves_step _ _ _ _ _ (fun a q hq => expect_moves _ _ _ _ hq) ?_ h
  intro _ p1 _ h
  refine moves_step _ _ _ _ _ (fun a q hq => expect_moves _ _ _ _ hq) ?_ h
  intro _ p2 _ h
  refine moves_step _ _ _ _ _ (fun a q hq => expect_moves _ _ _ _ hq) ?_ h
  intro _ p3 _ h
  simp only [] at h
  refine advances_trans ?_
    (moves_step _ _ _ _ _ (fun a q hq => block_loop_moves stmt hstmt _ _ _ _ _ _ hq) ?_ h)
  · simp [Advances]
  · intro body p4 _ h
    refine moves_step _ _ _ _ _ (fun a q hq => expect_moves _ _ _ _ hq) ?_ h
    intro _ p5 _ h
    exact moves_of_ok h (advances_refl _)

/-- The steps of `parse_function` after the parameters. -/
theorem function_head_moves (env : Env) (stmt : Stmt) (hstmt : Moves stmt) (n : Nat)
    (name : String) (args : List (String × CollectionType))
    (p : Parser) (a : ASTNode) (q : Parser)
    (h : (do
      let (_, p) ← expect .RPAREN p
      let t ← peek p
      let has_return_type ←
        if t.type = .COLON then do
          let t1 ← peek1 p
          pure (decide (t1.type ≠ .NEWLINE))
        else
          pure false
      let (return_type, p) ←
        if has_return_type then do
          let (_, p) ← expect .COLON p
          parse_collection_type env p
        else
          pure (⟨.NONE, .NONE, .NONE, .NONE⟩, p)
      let (_, p) ← expect .COLON p
      let (_, p) ← expect .NEWLINE p
      let (_, p) ← expect .INDENT p
      let p := { p with functions := map_set p.functions name (args.map Prod.snd, return_type) }
      let (body, p) ← block_loop stmt stop_block n [] p
      let (_, p) ← expect .DEDENT p
      pure (ASTNode.FunctionNode name args return_type body [], p) : Res (ASTNode × Parser)) =
        .ok (a, q)) : Advances p q := by
  refine moves_step _ _ _ _ _ (fun a q hq => expect_moves _ _ _ _ hq) ?_ h
  intro _ p1 _ h
  refine moves_read _ _ _ _ _ ?_ h
  intro t _ h
  by_cases c : t.type = .COLON
  · rw [if_pos c] at h
    refine moves_read _ _ _ _ _ ?_ h
    intro t1 _ h
    rw [bind_ok] at h
    obtain ⟨y, hy, h⟩ := h
    simp only [pure, Except.pure, Except.ok.injEq] at hy
    subst hy
    beta_reduce at h
    by_cases hf : decide (t1.type ≠ .NEWLINE) = true
    · rw [if_pos hf] at h
      refine moves_step _ _ _ _ _ (fun a q hq => expect_moves _ _ _ _ hq) ?_ h
      intro _ p2 _ h
      refine moves_step _ _ _ _ _ (fun a q hq => parse_collection_type_moves env _ _ _ hq) ?_ h
      intro rt p3 _ h
      exact function_body_moves stmt hstmt n name args rt p3 a q h
    · rw [if_neg hf, bind_ok] at h
      obtain ⟨y, hy, h⟩ := h
      simp only [pure, Except.pure, Except.ok.injEq] at hy
      subst hy
      exact function_body_moves stmt hstmt n name args _ p1 a q h
  · rw [if_neg c, bind_ok] at h
    obtain ⟨y, hy, h⟩ := h
    simp only [pure, Except.pure, Except.ok.injEq] at hy
    subst hy
    beta_reduce at h
    rw [if_neg (by simp), bind_ok] at h
    obtain ⟨y, hy, h⟩ := h
    simp only [pure, Except.pure, Except.ok.injEq] at hy
    subst hy
    exact function_body_moves stmt hstmt n name args _ p1 a q h

theorem parse_function_moves (env : Env) (stmt : Stmt) (hstmt : Moves stmt) (n : Nat) :
    Moves (parse_function env stmt n) := by
  intro p a q h
  unfold parse_function at h
  refine moves_step _ _ _ _ _ (fun a q hq => expect_moves _ _ _ _ hq) ?_ h
  intro _ p1 _ h
  refine moves_step _ _ _ _ _ (fun a q hq => expect_moves _ _ _ _ hq) ?_ h
  intro tok p2 _ h
  refine moves_step _ _ _ _ _ (fun a q hq => expect_moves _ _ _ _ hq) ?_ h
  intro _ p3 _ h
  refine moves_read _ _ _ _ _ ?_ h
  intro t _ h
  by_cases c : t.type ≠ .RPAREN
  · rw [if_pos c] at h
    refine moves_step _ _ _ _ _ (fun a q hq => parse_param_moves env _ _ _ _ hq) ?_ h
    intro args p4 _ h
    refine moves_step _ _ _ _ _ (fun a q hq => params_loop_moves env _ _ _ _ _ hq) ?_ h
    intro args1 p5 _ h
    exact function_head_moves env stmt hstmt n tok.value args1 p5 a q h
  · rw [if_neg c, bind_ok] at h
    obtain ⟨y, hy, h⟩ := h
    simp only [pure, Except.pure, Except.ok.injEq] at hy
    subst hy
    exact function_head_moves env stmt hstmt n tok.value [] p3 a q h

/-- Every statement only adds to `helper_includes`, keeps the tokens and never lowers the
counters. -/
theorem parse_statement_moves (env : Env) : ∀ (fuel : Nat), Moves (parse_statement env fuel) := by
  intro fuel
  induction fuel with
  | zero => intro p a q h; cases h
  | succ fuel ih =>
    intro p a q h
    unfold parse_statement at h
    refine moves_read _ _ _ _ _ ?_ h
    intro t _ h
    by_cases c1 : t.type = .DEF
    · rw [if_pos c1] at h
      exact parse_function_moves env _ ih fuel _ _ _ h
    rw [if_neg c1] at h
    by_cases c2 : t.type = .RETURN
    · rw [if_pos c2] at h
      exact parse_return_moves env fuel _ _ _ h
    rw [if_neg c2] at h
    by_cases c3 : t.type = .PRINT
    · rw [if_pos c3] at h
      exact parse_print_moves env fuel _ _ _ h
    rw [if_neg c3] at h
    by_cases c4 : t.type = .IF
    · rw [if_pos c4] at h
      exact parse_if_moves env _ ih fuel _ _ _ h
    rw [if_neg c4] at h
    by_cases c5 : t.type = .FOR
    · rw [if_pos c5] at h
      exact parse_for_moves env _ ih fuel _ _ _ h
    rw [if_neg c5] at h
    by_cases c6 : t.type = .WHILE
    · rw [if_pos c6] at h
      exact parse_while_moves env _ ih fuel _ _ _ h
    rw [if_neg c6] at h
    by_cases c7 : t.type = .MATCH
    · rw [if_pos c7] at h
      exact parse_match_moves env _ ih fuel _ _ _ h
    rw [if_neg c7] at h
    by_cases c8 : t.type = .INT ∨ t.type = .FLOAT ∨ t.type = .STRING ∨ t.type = .BOOL ∨
        t.type = .LIST ∨ t.type = .TUPLE ∨ t.type = .DICT
    · rw [if_pos c8] at h
      exact parse_assignment_moves env fuel _ _ _ h
    rw [if_neg c8] at h
    by_cases c9 : t.type = .IDENTIFIER
    · rw [if_pos c9] at h
      refine moves_read _ _ _ _ _ ?_ h
      intro t1 _ h
      by_cases d1 : t1.type = .LPAREN
      · rw [if_pos d1] at h
        exact parse_function_call_moves env fuel _ _ _ h
      rw [if_neg d1] at h
      by_cases d2 : t1.type = .DOT
      · rw [if_pos d2] at h
        exact parse_method_call_moves env fuel _ _ _ h
      rw [if_neg d2] at h
      by_cases d3 : t1.type = .LBRACKET
      · rw [if_pos d3] at h
        exact parse_index_assignment_moves env fuel _ _ _ h
      rw [if_neg d3] at h
      simp at h
    rw [if_neg c9] at h
    simp at h

/-- The whole parse only adds to `helper_includes`. -/
theorem parse_program_moves (env : Env) (fuel : Nat) : Moves (parse_program env fuel) := by
  intro p a q h
  unfold parse_program at h
  exact block_loop_moves _ (parse_statement_moves env fuel) _ _ _ _ _ _ h

/-! ## The headers of the type annotations -/

theorem covered_nil (s : List String) : Covered [] s := by
  intro t ht
  cases ht

theorem covered_append (a b : List CollectionType) (s : List String) :
    Covered (a ++ b) s ↔ Covered a s ∧ Covered b s := by
  unfold Covered
  constructor
  · intro h
    exact ⟨fun t ht => h t (List.mem_append.2 (Or.inl ht)),
      fun t ht => h t (List.mem_append.2 (Or.inr ht))⟩
  · rintro ⟨h1, h2⟩ t ht
    rcases List.mem_append.1 ht with ht | ht
    · exact h1 t ht
    · exact h2 t ht

theorem covered_advances {types : List CollectionType} {p q : Parser}
    (h : Covered types p.helper_includes) (ha : Advances p q) :
    Covered types q.helper_includes :=
  fun t ht hd hh => ha.2.1 hd (h t ht hd hh)

theorem annotations_of_body_append (a b : List ASTNode) :
    annotations_of_body (a ++ b) = annotations_of_body a ++ annotations_of_body b := by
  induction a with
  | nil => simp [annotations_of_body]
  | cons x rest ih => simp [annotations_of_body, ih]

theorem annotations_of_clauses_append (a b : List (String × List ASTNode)) :
    annotations_of_clauses (a ++ b) = annotations_of_clauses a ++ annotations_of_clauses b := by
  induction a with
  | nil => simp [annotations_of_clauses]
  | cons x rest ih =>
    obtain ⟨c, body⟩ := x
    simp [annotations_of_clauses, ih]

/-- A scalar type has no header. -/
theorem spec_header_scalar (v : CollectionType) (h : is_scalar v.base_type = true) :
    spec_header v = none := by
  unfold spec_header
  cases hb : v.base_type <;> simp [hb, is_scalar] at h ⊢

/-- The record after `parse_collection_type` has the header of the type it returns. -/
theorem parse_collection_type_header (env : Env) (p q : Parser) (result : CollectionType)
    (h : parse_collection_type env p = .ok (result, q)) :
    Covered [result] q.helper_includes := by
  unfold parse_collection_type at h
  simp only [] at h
  rw [bind_ok] at h
  obtain ⟨t, -, h⟩ := h
  intro r hr hd hh
  rw [List.mem_singleton] at hr
  subst hr
  by_cases c1 : t.type = .LIST
  · rw [if_pos c1, bind_ok] at h
    obtain ⟨⟨a1, p1⟩, -, h⟩ := h
    rw [bind_ok] at h
    obtain ⟨⟨a2, p2⟩, -, h⟩ := h
    rw [bind_ok] at h
    obtain ⟨t1, -, h⟩ := h
    rw [bind_ok] at h
    obtain ⟨et, het, h⟩ := h
    rw [bind_ok] at h
    obtain ⟨⟨a3, p3⟩, -, h⟩ := h
    rw [bind_ok] at h
    obtain ⟨⟨a4, p4⟩, -, h⟩ := h
    simp only [pure, Except.pure, Except.ok.injEq, Prod.mk.injEq] at h
    obtain ⟨rfl, rfl⟩ := h
    simp only [spec_header, Option.some.injEq] at hh
    subst hh
    simp [add_include, mem_set_insert]
  rw [if_neg c1] at h
  by_cases c2 : t.type = .TUPLE
  · rw [if_pos c2, bind_ok] at h
    obtain ⟨⟨a1, p1⟩, -, h⟩ := h
    rw [bind_ok] at h
    obtain ⟨⟨a2, p2⟩, -, h⟩ := h
    rw [bind_ok] at h
    obtain ⟨t1, -, h⟩ := h
    rw [bind_ok] at h
    obtain ⟨et, het, h⟩ := h
    rw [bind_ok] at h
    obtain ⟨⟨a3, p3⟩, -, h⟩ := h
    rw [bind_ok] at h
    obtain ⟨⟨a4, p4⟩, -, h⟩ := h
    simp only [pure, Except.pure, Except.ok.injEq, Prod.mk.injEq] at h
    obtain ⟨rfl, rfl⟩ := h
    simp only [spec_header, Option.some.injEq] at hh
    subst hh
    simp [add_include, mem_set_insert]
  rw [if_neg c2] at h
  by_cases c3 : t.type = .DICT
  · rw [if_pos c3, bind_ok] at h
    obtain ⟨⟨a1, p1⟩, -, h⟩ := h
    rw [bind_ok] at h
    obtain ⟨⟨a2, p2⟩, -, h⟩ := h
    rw [bind_ok] at h
    obtain ⟨t1, -, h⟩ := h
    rw [bind_ok] at h
    obtain ⟨kt, hkt, h⟩ := h
    by_cases ck : kt.base_type ≠ .STRING
    · rw [if_pos ck] at h
      simp at h
    rw [if_neg ck, bind_ok] at h
    obtain ⟨⟨a3, p3⟩, -, h⟩ := h
    rw [bind_ok] at h
    obtain ⟨⟨a4, p4⟩, -, h⟩ := h
    rw [bind_ok] at h
    obtain ⟨t2, -, h⟩ := h
    rw [bind_ok] at h
    obtain ⟨vt, hvt, h⟩ := h
    rw [bind_ok] at h
    obtain ⟨⟨a5, p5⟩, -, h⟩ := h
    rw [bind_ok] at h
    obtain ⟨⟨a6, p6⟩, -, h⟩ := h
    simp only [pure, Except.pure, Except.ok.injEq, Prod.mk.injEq] at h
    obtain ⟨rfl, rfl⟩ := h
    simp only [spec_header, Option.some.injEq] at hh
    subst hh
    simp [add_include, mem_set_insert]
  rw [if_neg c3, bind_ok] at h
  obtain ⟨r, hr, h⟩ := h
  have hs := spec_header_scalar r (token_to_vartype_scalar _ _ _ hr)
  split_ifs at h <;>
    (simp only [pure, Except.pure, Except.ok.injEq, Prod.mk.injEq] at h
     obtain ⟨rfl, -⟩ := h
     rw [hs] at hh
     cases hh)

/-- The value returned by `x >>= f` has a property that every value returned by `f` has. -/
theorem result_step {α β : Type} {P : β → Prop} (x : Res α) (f : α → Res β) (b : β)
    (hf : ∀ a, f a = .ok b → P b) (h : (x >>= f) = .ok b) : P b := by
  rw [bind_ok] at h
  obtain ⟨a, -, h2⟩ := h
  exact hf a h2

/-- A returned node without annotations. -/
theorem leaf_of_ok {node a : ASTNode} {p q : Parser}
    (h : (Except.ok (node, p) : Res (ASTNode × Parser)) = .ok (a, q))
    (hn : annotations node = []) : annotations (a, q).1 = [] := by
  simp only [Except.ok.injEq, Prod.mk.injEq] at h
  obtain ⟨rfl, -⟩ := h
  exact hn

theorem parse_function_call_leaf (env : Env) (fuel : Nat) (p q : Parser) (a : ASTNode)
    (h : parse_function_call env fuel p = .ok (a, q)) : annotations a = [] := by
  unfold parse_function_call at h
  refine result_step (P := fun r => annotations r.1 = []) _ _ _ ?_ h
  intro ⟨tok, p1⟩ h
  refine result_step (P := fun r => annotations r.1 = []) _ _ _ ?_ h
  intro ⟨_, p2⟩ h
  refine result_step (P := fun r => annotations r.1 = []) _ _ _ ?_ h
  intro ⟨args, p3⟩ h
  refine result_step (P := fun r => annotations r.1 = []) _ _ _ ?_ h
  intro ⟨_, p4⟩ h
  refine result_step (P := fun r => annotations r.1 = []) _ _ _ ?_ h
  intro ⟨_, p5⟩ h
  simp only [] at h
  split at h
  · simp at h
  · exact leaf_of_ok h (by simp [annotations])

theorem parse_method_call_leaf (env : Env) (fuel : Nat) (p q : Parser) (a : ASTNode)
    (h : parse_method_call env fuel p = .ok (a, q)) : annotations a = [] := by
  unfold parse_method_call at h
  refine result_step (P := fun r => annotations r.1 = []) _ _ _ ?_ h
  intro ⟨tok, p1⟩ h
  refine result_step (P := fun r => annotations r.1 = []) _ _ _ ?_ h
  intro ⟨_, p2⟩ h
  refine result_step (P := fun r => annotations r.1 = []) _ _ _ ?_ h
  intro ⟨mtok, p3⟩ h
  refine result_step (P := fun r => annotations r.1 = []) _ _ _ ?_ h
  intro ⟨_, p4⟩ h
  refine result_step (P := fun r => annotations r.1 = []) _ _ _ ?_ h
  intro ⟨args, p5⟩ h
  refine result_step (P := fun r => annotations r.1 = []) _ _ _ ?_ h
  intro ⟨_, p6⟩ h
  refine result_step (P := fun r => annotations r.1 = []) _ _ _ ?_ h
  intro ⟨_, p7⟩ h
  simp only [] at h
  split at h
  · simp at h
  · refine result_step (P := fun r => annotations r.1 = []) _ _ _ ?_ h
    intro ⟨rt, p8⟩ h
    exact leaf_of_ok h (by simp [annotations])

theorem parse_return_leaf (env : Env) (fuel : Nat) (p q : Parser) (a : ASTNode)
    (h : parse_return env fuel p = .ok (a, q)) : annotations a = [] := by
  unfold parse_return at h
  refine result_step (P := fun r => annotations r.1 = []) _ _ _ ?_ h
  intro ⟨_, p1⟩ h
  refine result_step (P := fun r => annotations r.1 = []) _ _ _ ?_ h
  intro ⟨expr, p2⟩ h
  refine result_step (P := fun r => annotations r.1 = []) _ _ _ ?_ h
  intro ⟨_, p3⟩ h
  exact leaf_of_ok h (by simp [annotations])

theorem parse_print_leaf (env : Env) (fuel : Nat) (p q : Parser) (a : ASTNode)
    (h : parse_print env fuel p = .ok (a, q)) : annotations a = [] := by
  unfold parse_print at h
  refine result_step (P := fun r => annotations r.1 = []) _ _ _ ?_ h
  intro ⟨_, p1⟩ h
  refine result_step (P := fun r => annotations r.1 = []) _ _ _ ?_ h
  intro ⟨_, p2⟩ h
  refine result_step (P := fun r => annotations r.1 = []) _ _ _ ?_ h
  intro t h
  by_cases hr : t.type ≠ .RPAREN
  · rw [if_pos hr] at h
    refine result_step (P := fun r => annotations r.1 = []) _ _ _ ?_ h
    intro ⟨expr, p3⟩ h
    refine result_step (P := fun r => annotations r.1 = []) _ _ _ ?_ h
    intro ⟨vs, p4⟩ h
    refine result_step (P := fun r => annotations r.1 = []) _ _ _ ?_ h
    intro ⟨_, p5⟩ h
    refine result_step (P := fun r => annotations r.1 = []) _ _ _ ?_ h
    intro ⟨_, p6⟩ h
    exact leaf_of_ok h (by simp [annotations])
  · rw [if_neg hr] at h
    refine result_step (P := fun r => annotations r.1 = []) _ _ _ ?_ h
    intro y h
    refine result_step (P := fun r => annotations r.1 = []) _ _ _ ?_ h
    intro ⟨_, p5⟩ h
    refine result_step (P := fun r => annotations r.1 = []) _ _ _ ?_ h
    intro ⟨_, p6⟩ h
    exact leaf_of_ok h (by simp [annotations])

theorem parse_index_assignment_leaf (env : Env) (fuel : Nat) (p q : Parser) (a : ASTNode)
    (h : parse_index_assignment env fuel p = .ok (a, q)) : annotations a = [] := by
  unfold parse_index_assignment at h
  refine result_step (P := fun r => annotations r.1 = []) _ _ _ ?_ h
  intro ⟨tok, p1⟩ h
  refine result_step (P := fun r => annotations r.1 = []) _ _ _ ?_ h
  intro ⟨_, p2⟩ h
  refine result_step (P := fun r => annotations r.1 = []) _ _ _ ?_ h
  intro ⟨index, p3⟩ h
  refine result_step (P := fun r => annotations r.1 = []) _ _ _ ?_ h
  intro ⟨_, p4⟩ h
  refine result_step (P := fun r => annotations r.1 = []) _ _ _ ?_ h
  intro ⟨_, p5⟩ h
  refine result_step (P := fun r => annotations r.1 = []) _ _ _ ?_ h
  intro ⟨value, p6⟩ h
  refine result_step (P := fun r => annotations r.1 = []) _ _ _ ?_ h
  intro ⟨_, p7⟩ h
  simp only [] at h
  split at h
  · simp at h
  · split_ifs at h
    all_goals first
      | simp at h
      | exact leaf_of_ok h (by simp [annotations])

/-- An assignment has the header of its declared type. -/
theorem parse_assignment_annotated (env : Env) (fuel : Nat) :
    Annotated (parse_assignment env fuel) := by
  intro p a q h
  unfold parse_assignment at h
  rw [bind_ok] at h
  obtain ⟨⟨type, p1⟩, h1, h⟩ := h
  have c1 := parse_collection_type_header env _ _ _ h1
  have tail : Advances p1 q ∧ annotations a = [type] := by
    constructor
    · refine moves_step _ _ _ _ _ (fun a q hq => expect_moves _ _ _ _ hq) ?_ h
      intro tok p2 _ h
      refine moves_step _ _ _ _ _ (fun a q hq => expect_moves _ _ _ _ hq) ?_ h
      intro _ p3 _ h
      refine moves_step _ _ _ _ _ (fun a q hq => parse_expression_moves env fuel _ _ _ hq) ?_ h
      intro expr p4 _ h
      simp only [] at h
      split at h
      · simp at h
      · refine advances_trans ?_
          (moves_step _ _ _ _ _ (fun a q hq => expect_moves _ _ _ _ hq) ?_ h)
        · simp [Advances]
        · intro _ p5 _ h
          exact moves_of_ok h (advances_refl _)
    · refine result_step (P := fun r => annotations r.1 = [type]) _ _ _ ?_ h
      intro ⟨tok, p2⟩ h
      refine result_step (P := fun r => annotations r.1 = [type]) _ _ _ ?_ h
      intro ⟨_, p3⟩ h
      refine result_step (P := fun r => annotations r.1 = [type]) _ _ _ ?_ h
      intro ⟨expr, p4⟩ h
      simp only [] at h
      split at h
      · simp at h
      · refine result_step (P := fun r => annotations r.1 = [type]) _ _ _ ?_ h
        intro ⟨_, p5⟩ h
        simp only [pure, Except.pure, Except.ok.injEq, Prod.mk.injEq] at h
        obtain ⟨rfl, -⟩ := h
        simp [annotations]
  rw [tail.2]
  exact covered_advances c1 tail.1

/-- A step that advances carries the headers found so far to the continuation. -/
theorem carry_step {α β : Type} {G : Prop} (T : List CollectionType)
    (x : Res (α × Parser)) (f : α × Parser → Res β) (p : Parser) (b : β)
    (h0 : Covered T p.helper_includes)
    (hx : ∀ a q, x = .ok (a, q) → Advances p q)
    (hf : ∀ a q, Covered T q.helper_includes → f (a, q) = .ok b → G)
    (h : (x >>= f) = .ok b) : G := by
  rw [bind_ok] at h
  obtain ⟨⟨a, q⟩, h1, h2⟩ := h
  exact hf a q (covered_advances h0 (hx a q h1)) h2

/-- A step that advances and has the headers of what it read adds them for the continuation. -/
theorem gain_step {α β : Type} {G : Prop} (T : List CollectionType)
    (ann : α → List CollectionType)
    (x : Res (α × Parser)) (f : α × Parser → Res β) (p : Parser) (b : β)
    (h0 : Covered T p.helper_includes)
    (hx : ∀ a q, x = .ok (a, q) → Advances p q ∧ Covered (ann a) q.helper_includes)
    (hf : ∀ a q, Covered (T ++ ann a) q.helper_includes → f (a, q) = .ok b → G)
    (h : (x >>= f) = .ok b) : G := by
  rw [bind_ok] at h
  obtain ⟨⟨a, q⟩, h1, h2⟩ := h
  exact hf a q ((covered_append _ _ _).2
    ⟨covered_advances h0 (hx a q h1).1, (hx a q h1).2⟩) h2

/-- A step that reads without moving. -/
theorem goal_read {α β : Type} {G : Prop} (x : Res α) (f : α → Res β) (b : β)
    (hf : ∀ a, f a = .ok b → G) (h : (x >>= f) = .ok b) : G := by
  rw [bind_ok] at h
  obtain ⟨a, -, h2⟩ := h
  exact hf a h2

theorem block_loop_covered (stmt : Stmt) (hm : Moves stmt) (hs : Annotated stmt)
    (stop : TokenType → Bool) : ∀ (n : Nat) (body : List ASTNode) (p : Parser)
    (result : List ASTNode) (q : Parser),
    block_loop stmt stop n body p = .ok (result, q) →
    Covered (annotations_of_body body) p.helper_includes →
    Covered (annotations_of_body result) q.helper_includes := by
  intro n
  induction n with
  | zero => intro body p result q h; cases h
  | succ n ih =>
    intro body p result q h h0
    unfold block_loop at h
    refine goal_read _ _ _ ?_ h
    intro t h
    by_cases hstop : stop t.type = true
    · rw [if_pos hstop] at h
      simp only [pure, Except.pure, Except.ok.injEq, Prod.mk.injEq] at h
      obtain ⟨rfl, rfl⟩ := h
      exact h0
    · rw [if_neg hstop, bind_ok] at h
      obtain ⟨⟨node, p1⟩, h1, h⟩ := h
      refine ih _ _ _ _ h ?_
      rw [annotations_of_body_append, covered_append]
      refine ⟨covered_advances h0 (hm _ _ _ h1), ?_⟩
      have := hs _ _ _ h1
      simpa [annotations_of_body] using this

/-- A block has advanced and has the headers of its statements. -/
theorem block_gain (stmt : Stmt) (hm : Moves stmt) (hs : Annotated stmt)
    (stop : TokenType → Bool) (n : Nat) (p : Parser) (body : List ASTNode) (q : Parser)
    (h : block_loop stmt stop n [] p = .ok (body, q)) :
    Advances p q ∧ Covered (annotations_of_body body) q.helper_includes :=
  ⟨block_loop_moves stmt hm stop n [] p body q h,
   block_loop_covered stmt hm hs stop n [] p body q h (by simpa [annotations_of_body] using covered_nil _)⟩

theorem parse_while_annotated (env : Env) (stmt : Stmt) (hm : Moves stmt) (hs : Annotated stmt)
    (n : Nat) : Annotated (parse_while env stmt n) := by
  intro p a q h
  have h0 := covered_nil p.helper_includes
  unfold parse_while at h
  refine carry_step _ _ _ _ _ h0 (fun a q hq => expect_moves _ _ _ _ hq) ?_ h
  intro _ p1 h0 h
  refine carry_step _ _ _ _ _ h0 (fun a q hq => parse_expression_moves env n _ _ _ hq) ?_ h
  intro condition p2 h0 h
  refine carry_step _ _ _ _ _ h0 (fun a q hq => expect_moves _ _ _ _ hq) ?_ h
  intro _ p3 h0 h
  refine carry_step _ _ _ _ _ h0 (fun a q hq => expect_moves _ _ _ _ hq) ?_ h
  intro _ p4 h0 h
  refine carry_step _ _ _ _ _ h0 (fun a q hq => expect_moves _ _ _ _ hq) ?_ h
  intro _ p5 h0 h
  refine gain_step _ annotations_of_body _ _ _ _ h0
    (fun a q hq => block_gain stmt hm hs _ _ _ _ _ hq) ?_ h
  intro body p6 h0 h
  refine carry_step _ _ _ _ _ h0 (fun a q hq => expect_moves _ _ _ _ hq) ?_ h
  intro _ p7 h0 h
  simp only [pure, Except.pure, Except.ok.injEq, Prod.mk.injEq] at h
  obtain ⟨rfl, rfl⟩ := h
  simpa [annotations] using h0

theorem parse_for_annotated (env : Env) (stmt : Stmt) (hm : Moves stmt) (hs : Annotated stmt)
    (n : Nat) : Annotated (parse_for env stmt n) := by
  intro p a q h
  have h0 := covered_nil p.helper_includes
  unfold parse_for at h
  refine carry_step _ _ _ _ _ h0 (fun a q hq => expect_moves _ _ _ _ hq) ?_ h
  intro _ p1 h0 h
  refine carry_step _ _ _ _ _ h0 (fun a q hq => expect_moves _ _ _ _ hq) ?_ h
  intro tok p2 h0 h
  refine carry_step _ _ _ _ _ h0 (fun a q hq => expect_moves _ _ _ _ hq) ?_ h
  intro _ p3 h0 h
  refine carry_step _ _ _ _ _ h0 (fun a q hq => expect_moves _ _ _ _ hq) ?_ h
  intro _ p4 h0 h
  refine carry_step _ _ _ _ _ h0 (fun a q hq => expect_moves _ _ _ _ hq) ?_ h
  intro _ p5 h0 h
  refine carry_step _ _ _ _ _ h0 (fun a q hq => parse_expression_moves env n _ _ _ hq) ?_ h
  intro start p6 h0 h
  refine carry_step _ _ _ _ _ h0 (fun a q hq => expect_moves _ _ _ _ hq) ?_ h
  intro _ p7 h0 h
  refine carry_step _ _ _ _ _ h0 (fun a q hq => parse_expression_moves env n _ _ _ hq) ?_ h
  intro stop p8 h0 h
  refine carry_step _ _ _ _ _ h0 (fun a q hq => expect_moves _ _ _ _ hq) ?_ h
  intro _ p9 h0 h
  refine carry_step _ _ _ _ _ h0 (fun a q hq => expect_moves _ _ _ _ hq) ?_ h
  intro _ p10 h0 h
  refine carry_step _ _ _ _ _ h0 (fun a q hq => expect_moves _ _ _ _ hq) ?_ h
  intro _ p11 h0 h
  refine carry_step _ _ _ _ _ h0 (fun a q hq => expect_moves _ _ _ _ hq) ?_ h
  intro _ p12 h0 h
  simp only [] at h
  have h0 : Covered []
      ({ p12 with variables_ := map_set p12.variables_ tok.value ⟨.INT, .NONE, .NONE, .NONE⟩ } :
        Parser).helper_includes := h0
  refine gain_step _ annotations_of_body _ _ _ _ h0
    (fun a q hq => block_gain stmt hm hs _ _ _ _ _ hq) ?_ h
  intro body p13 h0 h
  refine carry_step _ _ _ _ _ h0 (fun a q hq => expect_moves _ _ _ _ hq) ?_ h
  intro _ p14 h0 h
  simp only [pure, Except.pure, Except.ok.injEq, Prod.mk.injEq] at h
  obtain ⟨rfl, rfl⟩ := h
  simpa [annotations] using h0

theorem elif_loop_covered (env : Env) (stmt : Stmt) (hm : Moves stmt) (hs : Annotated stmt)
    (fuel : Nat) : ∀ (n : Nat) (clauses : List (String × List ASTNode)) (p : Parser)
    (result : List (String × List ASTNode)) (q : Parser),
    elif_loop env stmt fuel n clauses p = .ok (result, q) →
    Covered (annotations_of_clauses clauses) p.helper_includes →
    Covered (annotations_of_clauses result) q.helper_includes := by
  intro n
  induction n with
  | zero => intro clauses p result q h; cases h
  | succ n ih =>
    intro clauses p result q h h0
    unfold elif_loop at h
    refine goal_read _ _ _ ?_ h
    intro t h
    by_cases hc : t.type = .ELIF
    · rw [if_pos hc] at h
      refine carry_step _ _ _ _ _ h0 (fun a q hq => expect_moves _ _ _ _ hq) ?_ h
      intro _ p1 h0 h
      refine carry_step _ _ _ _ _ h0 (fun a q hq => parse_expression_moves env fuel _ _ _ hq) ?_ h
      intro cond p2 h0 h
      refine carry_step _ _ _ _ _ h0 (fun a q hq => expect_moves _ _ _ _ hq) ?_ h
      intro _ p3 h0 h
      refine carry_step _ _ _ _ _ h0 (fun a q hq => expect_moves _ _ _ _ hq) ?_ h
      intro _ p4 h0 h
      refine carry_step _ _ _ _ _ h0 (fun a q hq => expect_moves _ _ _ _ hq) ?_ h
      intro _ p5 h0 h
      refine gain_step _ annotations_of_body _ _ _ _ h0
        (fun a q hq => block_gain stmt hm hs _ _ _ _ _ hq) ?_ h
      intro body p6 h0 h
      refine carry_step _ _ _ _ _ h0 (fun a q hq => expect_moves _ _ _ _ hq) ?_ h
      intro _ p7 h0 h
      refine ih _ _ _ _ h ?_
      rw [annotations_of_clauses_append]
      simpa [annotations_of_clauses] using h0
    · rw [if_neg hc] at h
      simp only [pure, Except.pure, Except.ok.injEq, Prod.mk.injEq] at h
      obtain ⟨rfl, rfl⟩ := h
      exact h0

/-- The `elif` clauses have advanced and have the headers of their statements. -/
theorem elif_gain (env : Env) (stmt : Stmt) (hm : Moves stmt) (hs : Annotated stmt)
    (fuel n : Nat) (p : Parser) (clauses : List (String × List ASTNode)) (q : Parser)
    (h : elif_loop env stmt fuel n [] p = .ok (clauses, q)) :
    Advances p q ∧ Covered (annotations_of_clauses clauses) q.helper_includes :=
  ⟨elif_loop_moves env stmt hm fuel n [] p clauses q h,
   elif_loop_covered env stmt hm hs fuel n [] p clauses q h
     (by simpa [annotations_of_clauses] using covered_nil _)⟩

theorem parse_if_annotated (env : Env) (stmt : Stmt) (hm : Moves stmt) (hs : Annotated stmt)
    (n : Nat) : Annotated (parse_if env stmt n) := by
  intro p a q h
  have h0 := covered_nil p.helper_includes
  unfold parse_if at h
  refine carry_step _ _ _ _ _ h0 (fun a q hq => expect_moves _ _ _ _ hq) ?_ h
  intro _ p1 h0 h
  refine carry_step _ _ _ _ _ h0 (fun a q hq => parse_expression_moves env n _ _ _ hq) ?_ h
  intro condition p2 h0 h
  refine carry_step _ _ _ _ _ h0 (fun a q hq => expect_moves _ _ _ _ hq) ?_ h
  intro _ p3 h0 h
  refine carry_step _ _ _ _ _ h0 (fun a q hq => expect_moves _ _ _ _ hq) ?_ h
  intro _ p4 h0 h
  refine carry_step _ _ _ _ _ h0 (fun a q hq => expect_moves _ _ _ _ hq) ?_ h
  intro _ p5 h0 h
  refine gain_step _ annotations_of_body _ _ _ _ h0
    (fun a q hq => block_gain stmt hm hs _ _ _ _ _ hq) ?_ h
  intro body p6 h0 h
  refine carry_step _ _ _ _ _ h0 (fun a q hq => expect_moves _ _ _ _ hq) ?_ h
  intro _ p7 h0 h
  refine gain_step _ annotations_of_clauses _ _ _ _ h0
    (fun a q hq => elif_gain env stmt hm hs _ _ _ _ _ hq) ?_ h
  intro clauses p8 h0 h
  refine goal_read _ _ _ ?_ h
  intro t h
  by_cases he : t.type = .ELSE
  · rw [if_pos he] at h
    refine carry_step _ _ _ _ _ h0 (fun a q hq => expect_moves _ _ _ _ hq) ?_ h
    intro _ p9 h0 h
    refine carry_step _ _ _ _ _ h0 (fun a q hq => expect_moves _ _ _ _ hq) ?_ h
    intro _ p10 h0 h
    refine carry_step _ _ _ _ _ h0 (fun a q hq => expect_moves _ _ _ _ hq) ?_ h
    intro _ p11 h0 h
    refine carry_step _ _ _ _ _ h0 (fun a q hq => expect_moves _ _ _ _ hq) ?_ h
    intro _ p12 h0 h
    refine gain_step _ annotations_of_body _ _ _ _ h0
      (fun a q hq => block_gain stmt hm hs _ _ _ _ _ hq) ?_ h
    intro else_body p13 h0 h
    refine carry_step _ _ _ _ _ h0 (fun a q hq => expect_moves _ _ _ _ hq) ?_ h
    intro _ p14 h0 h
    simp only [pure, Except.pure, Except.ok.injEq, Prod.mk.injEq] at h
    obtain ⟨rfl, rfl⟩ := h
    simpa [annotations] using h0
  · rw [if_neg he] at h
    simp only [pure, Except.pure, Except.ok.injEq, Prod.mk.injEq] at h
    obtain ⟨rfl, rfl⟩ := h
    simpa [annotations, annotations_of_body] using h0

theorem case_loop_covered (stmt : Stmt) (hm : Moves stmt) (hs : Annotated stmt)
    (fuel : Nat) : ∀ (n : Nat) (cases : List (String × List ASTNode))
    (default_case : List ASTNode) (p : Parser)
    (result : List (String × List ASTNode) × List ASTNode) (q : Parser),
    case_loop stmt fuel n cases default_case p = .ok (result, q) →
    Covered (annotations_of_clauses cases) p.helper_includes →
    Covered (annotations_of_body default_case) p.helper_includes →
    Covered (annotations_of_clauses result.1 ++ annotations_of_body result.2)
      q.helper_includes := by
  intro n
  induction n with
  | zero => intro cases default_case p result q h; cases h
  | succ n ih =>
    intro cases default_case p result q h h0 hd
    unfold case_loop at h
    refine goal_read _ _ _ ?_ h
    intro t h
    by_cases hc : t.type = .CASE
    · rw [if_pos hc] at h
      have h0 := (covered_append _ _ _).2 ⟨h0, hd⟩
      refine carry_step _ _ _ _ _ h0 (fun a q hq => expect_moves _ _ _ _ hq) ?_ h
      intro _ p1 h0 h
      refine carry_step _ _ _ _ _ h0 (fun a q hq => parse_case_pattern_moves _ _ _ hq) ?_ h
      intro pattern p2 h0 h
      refine carry_step _ _ _ _ _ h0 (fun a q hq => expect_moves _ _ _ _ hq) ?_ h
      intro _ p3 h0 h
      refine carry_step _ _ _ _ _ h0 (fun a q hq => expect_moves _ _ _ _ hq) ?_ h
      intro _ p4 h0 h
      refine carry_step _ _ _ _ _ h0 (fun a q hq => expect_moves _ _ _ _ hq) ?_ h
      intro _ p5 h0 h
      refine gain_step _ annotations_of_body _ _ _ _ h0
        (fun a q hq => block_gain stmt hm hs _ _ _ _ _ hq) ?_ h
      intro case_body p6 h0 h
      refine carry_step _ _ _ _ _ h0 (fun a q hq => expect_moves _ _ _ _ hq) ?_ h
      intro _ p7 h0 h
      simp only [] at h
      rw [covered_append, covered_append] at h0
      split_ifs at h
      · exact ih _ _ _ _ _ h h0.1.1 h0.2
      · refine ih _ _ _ _ _ h ?_ h0.1.2
        rw [annotations_of_clauses_append, covered_append]
        refine ⟨h0.1.1, ?_⟩
        simpa [annotations_of_clauses] using h0.2
    · rw [if_neg hc] at h
      simp only [pure, Except.pure, Except.ok.injEq, Prod.mk.injEq] at h
      obtain ⟨rfl, rfl⟩ := h
      exact (covered_append _ _ _).2 ⟨h0, hd⟩

/-- The `case` arms have advanced and have the headers of their statements. -/
theorem case_gain (stmt : Stmt) (hm : Moves stmt) (hs : Annotated stmt)
    (fuel n : Nat) (p : Parser) (result : List (String × List ASTNode) × List ASTNode)
    (q : Parser) (h : case_loop stmt fuel n [] [] p = .ok (result, q)) :
    Advances p q ∧
    Covered (annotations_of_clauses result.1 ++ annotations_of_body result.2)
      q.helper_includes :=
  ⟨case_loop_moves stmt hm fuel n [] [] p result q h,
   case_loop_covered stmt hm hs fuel n [] [] p result q h
     (by simpa [annotations_of_clauses] using covered_nil _)
     (by simpa [annotations_of_body] using covered_nil _)⟩

theorem parse_match_annotated (env : Env) (stmt : Stmt) (hm : Moves stmt) (hs : Annotated stmt)
    (n : Nat) : Annotated (parse_match env stmt n) := by
  intro p a q h
  have h0 := covered_nil p.helper_includes
  unfold parse_match at h
  refine carry_step _ _ _ _ _ h0 (fun a q hq => expect_moves _ _ _ _ hq) ?_ h
  intro _ p1 h0 h
  refine carry_step _ _ _ _ _ h0 (fun a q hq => parse_expression_moves env n _ _ _ hq) ?_ h
  intro expr p2 h0 h
  simp only [] at h
  split_ifs at h
  · simp at h
  · refine carry_step _ _ _ _ _ h0 (fun a q hq => expect_moves _ _ _ _ hq) ?_ h
    intro _ p3 h0 h
    refine carry_step _ _ _ _ _ h0 (fun a q hq => expect_moves _ _ _ _ hq) ?_ h
    intro _ p4 h0 h
    refine carry_step _ _ _ _ _ h0 (fun a q hq => expect_moves _ _ _ _ hq) ?_ h
    intro _ p5 h0 h
    refine gain_step _
      (fun r : List (String × List ASTNode) × List ASTNode =>
        annotations_of_clauses r.1 ++ annotations_of_body r.2) _ _ _ _ h0
      (fun a q hq => case_gain stmt hm hs _ _ _ _ _ hq) ?_ h
    intro cs p6 h0 h
    refine carry_step _ _ _ _ _ h0 (fun a q hq => expect_moves _ _ _ _ hq) ?_ h
    intro _ p7 h0 h
    simp only [pure, Except.pure, Except.ok.injEq, Prod.mk.injEq] at h
    obtain ⟨rfl, rfl⟩ := h
    simpa [annotations] using h0

/-- One parameter has advanced and has the header of its type. -/
theorem parse_param_covered (env : Env) (args : List (String × CollectionType)) (p : Parser)
    (result : List (String × CollectionType)) (q : Parser)
    (h : parse_param env args p = .ok (result, q))
    (h0 : Covered (args.map Prod.snd) p.helper_includes) :
    Covered (result.map Prod.snd) q.helper_includes := by
  unfold parse_param at h
  refine gain_step _ (fun t : CollectionType => [t]) _ _ _ _ h0
    (fun a q hq => ⟨parse_collection_type_moves env _ _ _ hq,
      parse_collection_type_header env _ _ _ hq⟩) ?_ h
  intro type p1 h0 h
  refine carry_step _ _ _ _ _ h0 (fun a q hq => expect_moves _ _ _ _ hq) ?_ h
  intro tok p2 h0 h
  simp only [pure, Except.pure, Except.ok.injEq, Prod.mk.injEq] at h
  obtain ⟨rfl, rfl⟩ := h
  simpa using h0

theorem params_loop_covered (env : Env) : ∀ (n : Nat) (args : List (String × CollectionType))
    (p : Parser) (result : List (String × CollectionType)) (q : Parser),
    params_loop env n args p = .ok (result, q) →
    Covered (args.map Prod.snd) p.helper_includes →
    Covered (result.map Prod.snd) q.helper_includes := by
  intro n
  induction n with
  | zero => intro args p result q h; cases h
  | succ n ih =>
    intro args p result q h h0
    unfold params_loop at h
    refine goal_read _ _ _ ?_ h
    intro t h
    by_cases hc : t.type = .COMMA
    · rw [if_pos hc] at h
      refine carry_step _ _ _ _ _ h0 (fun a q hq => expect_moves _ _ _ _ hq) ?_ h
      intro _ p1 h0 h
      rw [bind_ok] at h
      obtain ⟨⟨args1, p2⟩, h1, h⟩ := h
      exact ih _ _ _ _ h (parse_param_covered env _ _ _ _ h1 h0)
    · rw [if_neg hc] at h
      simp only [pure, Except.pure, Except.ok.injEq, Prod.mk.injEq] at h
      obtain ⟨rfl, rfl⟩ := h
      exact h0

/-- The steps of `parse_function` after the return type. -/
theorem function_body_covered (stmt : Stmt) (hm : Moves stmt) (hs : Annotated stmt) (n : Nat)
    (name : String) (args : List (String × CollectionType)) (return_type : CollectionType)
    (p : Parser) (a : ASTNode) (q : Parser)
    (h0 : Covered (args.map Prod.snd ++ [return_type]) p.helper_includes)
    (h : (do
      let (_, p) ← expect .COLON p
      let (_, p) ← expect .NEWLINE p
      let (_, p) ← expect .INDENT p
      let p := { p with functions := map_set p.functions name (args.map Prod.snd, return_type) }
      let (body, p) ← block_loop stmt stop_block n [] p
      let (_, p) ← expect .DEDENT p
      pure (ASTNode.FunctionNode name args return_type body [], p) : Res (ASTNode × Parser)) =
        .ok (a, q)) : Covered (annotations a) q.helper_includes := by
  refine carry_step _ _ _ _ _ h0 (fun a q hq => expect_moves _ _ _ _ hq) ?_ h
  intro _ p1 h0 h
  refine carry_step _ _ _ _ _ h0 (fun a q hq => expect_moves _ _ _ _ hq) ?_ h
  intro _ p2 h0 h
  refine carry_step _ _ _ _ _ h0 (fun a q hq => expect_moves _ _ _ _ hq) ?_ h
  intro _ p3 h0 h
  simp only [] at h
  have h0 : Covered (args.map Prod.snd ++ [return_type])
      ({ p3 with functions := map_set p3.functions name (args.map Prod.snd, return_type) } :
        Parser).helper_includes := h0
  refine gain_step _ annotations_of_body _ _ _ _ h0
    (fun a q hq => block_gain stmt hm hs _ _ _ _ _ hq) ?_ h
  intro body p4 h0 h
  refine carry_step _ _ _ _ _ h0 (fun a q hq => expect_moves _ _ _ _ hq) ?_ h
  intro _ p5 h0 h
  simp only [pure, Except.pure, Except.ok.injEq, Prod.mk.injEq] at h
  obtain ⟨rfl, rfl⟩ := h
  simpa [annotations] using h0

/-- A function definition without return type has no header for it. -/
theorem covered_none (T : List CollectionType) (s : List String) (h : Covered T s) :
    Covered (T ++ [⟨.NONE, .NONE, .NONE, .NONE⟩]) s := by
  rw [covered_append]
  refine ⟨h, ?_⟩
  intro t ht hd hh
  rw [List.mem_singleton] at ht
  subst ht
  simp [spec_header] at hh

/-- The steps of `parse_function` after the parameters. -/
theorem function_head_covered (env : Env) (stmt : Stmt) (hm : Moves stmt) (hs : Annotated stmt)
    (n : Nat) (name : String) (args : List (String × CollectionType))
    (p : Parser) (a : ASTNode) (q : Parser)
    (h0 : Covered (args.map Prod.snd) p.helper_includes)
    (h : (do
      let (_, p) ← expect .RPAREN p
      let t ← peek p
      let has_return_type ←
        if t.type = .COLON then do
          let t1 ← peek1 p
          pure (decide (t1.type ≠ .NEWLINE))
        else
          pure false
      let (return_type, p) ←
        if has_return_type then do
          let (_, p) ← expect .COLON p
          parse_collection_type env p
        else
          pure (⟨.NONE, .NONE, .NONE, .NONE⟩, p)
      let (_, p) ← expect .COLON p
      let (_, p) ← expect .NEWLINE p
      let (_, p) ← expect .INDENT p
      let p := { p with functions := map_set p.functions name (args.map Prod.snd, return_type) }
      let (body, p) ← block_loop stmt stop_block n [] p
      let (_, p) ← expect .DEDENT p
      pure (ASTNode.FunctionNode name args return_type body [], p) : Res (ASTNode × Parser)) =
        .ok (a, q)) : Covered (annotations a) q.helper_includes := by
  refine carry_step _ _ _ _ _ h0 (fun a q hq => expect_moves _ _ _ _ hq) ?_ h
  intro _ p1 h0 h
  refine goal_read _ _ _ ?_ h
  intro t h
  by_cases c : t.type = .COLON
  · rw [if_pos c] at h
    refine goal_read _ _ _ ?_ h
    intro t1 h
    rw [bind_ok] at h
    obtain ⟨y, hy, h⟩ := h
    simp only [pure, Except.pure, Except.ok.injEq] at hy
    subst hy
    beta_reduce at h
    by_cases hf : decide (t1.type ≠ .NEWLINE) = true
    · rw [if_pos hf] at h
      refine carry_step _ _ _ _ _ h0 (fun a q hq => expect_moves _ _ _ _ hq) ?_ h
      intro _ p2 h0 h
      refine gain_step _ (fun t : CollectionType => [t]) _ _ _ _ h0
        (fun a q hq => ⟨parse_collection_type_moves env _ _ _ hq,
          parse_collection_type_header env _ _ _ hq⟩) ?_ h
      intro rt p3 h0 h
      exact function_body_covered stmt hm hs n name args rt p3 a q h0 h
    · rw [if_neg hf, bind_ok] at h
      obtain ⟨y, hy, h⟩ := h
      simp only [pure, Except.pure, Except.ok.injEq] at hy
      subst hy
      exact function_body_covered stmt hm hs n name args _ p1 a q (covered_none _ _ h0) h
  · rw [if_neg c, bind_ok] at h
    obtain ⟨y, hy, h⟩ := h
    simp only [pure, Except.pure, Except.ok.injEq] at hy
    subst hy
    beta_reduce at h
    rw [if_neg (by simp), bind_ok] at h
    obtain ⟨y, hy, h⟩ := h
    simp only [pure, Except.pure, Except.ok.injEq] at hy
    subst hy
    exact function_body_covered stmt hm hs n name args _ p1 a q (covered_none _ _ h0) h

theorem parse_function_annotated (env : Env) (stmt : Stmt) (hm : Moves stmt)
    (hs : Annotated stmt) (n : Nat) : Annotated (parse_function env stmt n) := by
  intro p a q h
  have h0 := covered_nil p.helper_includes
  unfold parse_function at h
  refine carry_step _ _ _ _ _ h0 (fun a q hq => expect_moves _ _ _ _ hq) ?_ h
  intro _ p1 h0 h
  refine carry_step _ _ _ _ _ h0 (fun a q hq => expect_moves _ _ _ _ hq) ?_ h
  intro tok p2 h0 h
  refine carry_step _ _ _ _ _ h0 (fun a q hq => expect_moves _ _ _ _ hq) ?_ h
  intro _ p3 h0 h
  refine goal_read _ _ _ ?_ h
  intro t h
  by_cases c : t.type ≠ .RPAREN
  · rw [if_pos c, bind_ok] at h
    obtain ⟨⟨args, p4⟩, h1, h⟩ := h
    have c1 := parse_param_covered env _ _ _ _ h1 (by simpa using h0)
    rw [bind_ok] at h
    obtain ⟨⟨args1, p5⟩, h2, h⟩ := h
    have c2 := params_loop_covered env _ _ _ _ _ h2 c1
    exact function_head_covered env stmt hm hs n tok.value args1 p5 a q c2 h
  · rw [if_neg c, bind_ok] at h
    obtain ⟨y, hy, h⟩ := h
    simp only [pure, Except.pure, Except.ok.injEq] at hy
    subst hy
    exact function_head_covered env stmt hm hs n tok.value [] p3 a q (by simpa using h0) h

/-- A leaf statement has no annotation. -/
theorem covered_leaf {a : ASTNode} (s : List String) (h : annotations a = []) :
    Covered (annotations a) s := by
  rw [h]
  exact covered_nil s

/-- Every statement has the headers of its annotations in the record it returns. -/
theorem parse_statement_annotated (env : Env) :
    ∀ (fuel : Nat), Annotated (parse_statement env fuel) := by
  intro fuel
  induction fuel with
  | zero => intro p a q h; cases h
  | succ fuel ih =>
    have hm := parse_statement_moves env fuel
    intro p a q h
    unfold parse_statement at h
    refine goal_read _ _ _ ?_ h
    intro t h
    by_cases c1 : t.type = .DEF
    · rw [if_pos c1] at h
      exact parse_function_annotated env _ hm ih fuel _ _ _ h
    rw [if_neg c1] at h
    by_cases c2 : t.type = .RETURN
    · rw [if_pos c2] at h
      exact covered_leaf _ (parse_return_leaf env fuel _ _ _ h)
    rw [if_neg c2] at h
    by_cases c3 : t.type = .PRINT
    · rw [if_pos c3] at h
      exact covered_leaf _ (parse_print_leaf env fuel _ _ _ h)
    rw [if_neg c3] at h
    by_cases c4 : t.type = .IF
    · rw [if_pos c4] at h
      exact parse_if_annotated env _ hm ih fuel _ _ _ h
    rw [if_neg c4] at h
    by_cases c5 : t.type = .FOR
    · rw [if_pos c5] at h
      exact parse_for_annotated env _ hm ih fuel _ _ _ h
    rw [if_neg c5] at h
    by_cases c6 : t.type = .WHILE
    · rw [if_pos c6] at h
      exact parse_while_annotated env _ hm ih fuel _ _ _ h
    rw [if_neg c6] at h
    by_cases c7 : t.type = .MATCH
    · rw [if_pos c7] at h
      exact parse_match_annotated env _ hm ih fuel _ _ _ h
    rw [if_neg c7] at h
    by_cases c8 : t.type = .INT ∨ t.type = .FLOAT ∨ t.type = .STRING ∨ t.type = .BOOL ∨
        t.type = .LIST ∨ t.type = .TUPLE ∨ t.type = .DICT
    · rw [if_pos c8] at h
      exact parse_assignment_annotated env fuel _ _ _ h
    rw [if_neg c8] at h
    by_cases c9 : t.type = .IDENTIFIER
    · rw [if_pos c9] at h
      refine goal_read _ _ _ ?_ h
      intro t1 h
      by_cases d1 : t1.type = .LPAREN
      · rw [if_pos d1] at h
        exact covered_leaf _ (parse_function_call_leaf env fuel _ _ _ h)
      rw [if_neg d1] at h
      by_cases d2 : t1.type = .DOT
      · rw [if_pos d2] at h
        exact covered_leaf _ (parse_method_call_leaf env fuel _ _ _ h)
      rw [if_neg d2] at h
      by_cases d3 : t1.type = .LBRACKET
      · rw [if_pos d3] at h
        exact covered_leaf _ (parse_index_assignment_leaf env fuel _ _ _ h)
      rw [if_neg d3] at h
      simp at h
    rw [if_neg c9] at h
    simp at h

/-- The record after `parse_program` has the header of every annotation of the program. -/
theorem parse_program_covered (env : Env) (fuel : Nat) (p : Parser) (ast : List ASTNode)
    (q : Parser) (h : parse_program env fuel p = .ok (ast, q)) :
    Covered (annotations_of_body ast) q.helper_includes := by
  unfold parse_program at h
  refine block_loop_covered _ (parse_statement_moves env fuel) (parse_statement_annotated env fuel)
    _ _ _ _ _ _ h ?_
  simpa [annotations_of_body, annotations] using covered_nil _

/-! ## C30: the headers in `helper_includes` -/

/-- C30. When `parse_program`, started on the record of the constructor, has returned,
`helper_includes` contains `common.h` and, for every LIST[T], TUPLE[T] or DICT[string, V] type of
a type annotation of the program (the declared type of an assignment, a parameter type or a return
type, at any depth of blocks), the header `list_T.h`, `tuple_T.h` or `dict_string_V.h`.  During
parsing the set only grows: whatever header is in the record before a statement, an expression, a
type annotation or a whole program is parsed is in the record after it. -/
theorem C30_helper_includes (env : Env) (fuel : Nat) (tokens : List Token)
    (types : List CollectionType) (includes : List String)
    (h : annotated env fuel tokens = .ok (types, includes)) :
    "common.h" ∈ includes ∧
    (∀ t, t ∈ types → ∀ header, spec_header t = some header → header ∈ includes) ∧
    (∀ (n : Nat) (p q : Parser) (a : ASTNode), parse_statement env n p = .ok (a, q) →
      ∀ header, header ∈ p.helper_includes → header ∈ q.helper_includes) ∧
    (∀ (n : Nat) (p q : Parser) (e : Expr), parse_expression env n p = .ok (e, q) →
      ∀ header, header ∈ p.helper_includes → header ∈ q.helper_includes) ∧
    (∀ (p q : Parser) (t : CollectionType), parse_collection_type env p = .ok (t, q) →
      ∀ header, header ∈ p.helper_includes → header ∈ q.helper_includes) ∧
    (∀ (n : Nat) (p q : Parser) (ast : List ASTNode), parse_program env n p = .ok (ast, q) →
      ∀ header, header ∈ p.helper_includes → header ∈ q.helper_includes) := by
  refine ⟨?_, ?_, fun n p q a hs => (parse_statement_moves env n p a q hs).2.1,
    fun n p q e hs => (parse_expression_moves env n p e q hs).2.1,
    fun p q t hs => (parse_collection_type_moves env p t q hs).2.1,
    fun n p q ast hs => (parse_program_moves env n p ast q hs).2.1⟩
  · unfold annotated at h
    cases hp : parse_program env fuel (Parser.init env tokens) with
    | error e => rw [hp] at h; cases h
    | ok r =>
      obtain ⟨ast, q⟩ := r
      rw [hp] at h
      simp only [Except.map, Except.ok.injEq, Prod.mk.injEq] at h
      obtain ⟨-, rfl⟩ := h
      refine (parse_program_moves env fuel _ _ _ hp).2.1 _ ?_
      simp [Parser.init, set_insert]
  · unfold annotated at h
    cases hp : parse_program env fuel (Parser.init env tokens) with
    | error e => rw [hp] at h; cases h
    | ok r =>
      obtain ⟨ast, q⟩ := r
      rw [hp] at h
      simp only [Except.map, Except.ok.injEq, Prod.mk.injEq] at h
      obtain ⟨rfl, rfl⟩ := h
      exact parse_program_covered env fuel _ _ _ hp

/-- C30 at the program `dict[string, int] m = {"a": 1, "b": 2}`: the set has `common.h` and
`dict_string_int.h`. -/
theorem C30_witness :
    annotated stale_env 20 c30_tokens =
      .ok ([⟨.DICT, .INT, .STRING, .INT⟩], ["common.h", "dict_string_int.h", "string_utils.h"]) ∧
    "common.h" ∈ ["common.h", "dict_string_int.h", "string_utils.h"] ∧
    ∀ header, spec_header ⟨.DICT, .INT, .STRING, .INT⟩ = some header →
      header ∈ ["common.h", "dict_string_int.h", "string_utils.h"] :=
  ⟨by decide!,
   (C30_helper_includes stale_env 20 c30_tokens [⟨.DICT, .INT, .STRING, .INT⟩]
      ["common.h", "dict_string_int.h", "string_utils.h"] (by decide!)).1,
   (C30_helper_includes stale_env 20 c30_tokens [⟨.DICT, .INT, .STRING, .INT⟩]
      ["common.h", "dict_string_int.h", "string_utils.h"] (by decide!)).2.1 _
      (List.mem_singleton.2 rfl)⟩

/-- The annotations and the set of two programs: the dictionary above, and a function
definition `def f(list[float] xs, tuple[bool] t): list[string]:` with the body `print(1)`. -/
theorem helper_includes_examples :
    annotated sample_env 20 c30_tokens =
      .ok ([⟨.DICT, .NONE, .STRING, .INT⟩], ["common.h", "dict_string_int.h", "string_utils.h"]) ∧
    spec_header ⟨.DICT, .NONE, .STRING, .INT⟩ = some "dict_string_int.h" ∧
    annotated sample_env 20 c30_function_tokens =
      .ok ([⟨.LIST, .FLOAT, .NONE, .NONE⟩, ⟨.TUPLE, .BOOL, .NONE, .NONE⟩,
            ⟨.LIST, .STRING, .NONE, .NONE⟩],
        ["common.h", "list_float.h", "list_string.h", "tuple_bool.h"]) := by
  refine ⟨?_, ?_, ?_⟩ <;> decide!

/-! ## C21: the names in the cleanup list -/

theorem allbound_nil (vars : List (String × CollectionType)) : AllBound [] vars := by
  intro x hx
  cases hx

theorem allbound_append (a b : List String) (vars : List (String × CollectionType)) :
    AllBound (a ++ b) vars ↔ AllBound a vars ∧ AllBound b vars := by
  constructor
  · intro h
    exact ⟨fun x hx => h x (List.mem_append.2 (Or.inl hx)),
      fun x hx => h x (List.mem_append.2 (Or.inr hx))⟩
  · intro h x hx
    rcases List.mem_append.1 hx with hx | hx
    · exact h.1 x hx
    · exact h.2 x hx

theorem allbound_grows {names : List String} {p q : Parser}
    (h : AllBound names p.variables_) (hg : Grows p q) : AllBound names q.variables_ :=
  fun x hx => hg x (h x hx)

theorem grows_refl (p : Parser) : Grows p p := fun _ h => h

theorem grows_trans {p q r : Parser} (h1 : Grows p q) (h2 : Grows q r) : Grows p r :=
  fun x h => h2 x (h1 x h)

/-- A record with the same table keeps the bound names bound. -/
theorem frame_grows {p q : Parser} (h : Frame p q) : Grows p q := by
  intro x hx
  rw [h.2.1]
  exact hx

theorem is_bound_set_self (vars : List (String × CollectionType)) (x : String)
    (T : CollectionType) (hT : cleanup_type T = true) : is_bound (map_set vars x T) x = true := by
  simp [is_bound, map_find_map_set_self, hT]

/-- Binding a name to a type of `cleanup_type` keeps the bound names bound. -/
theorem grows_set (p : Parser) (x : String) (T : CollectionType) (hT : cleanup_type T = true) :
    Grows p { p with variables_ := map_set p.variables_ x T } := by
  intro y hy
  by_cases hxy : y = x
  · subst hxy
    exact is_bound_set_self _ _ _ hT
  · simpa [is_bound, map_find_map_set_other _ _ _ _ hxy] using hy

/-- A step `x >>= f` keeps the bound names when `x` does and every continuation does. -/
theorem grows_step {α β : Type} (x : Res (α × Parser)) (f : α × Parser → Res (β × Parser))
    (p : Parser) (b : β) (r : Parser)
    (hx : ∀ a q, x = .ok (a, q) → Grows p q)
    (hf : ∀ a q, x = .ok (a, q) → f (a, q) = .ok (b, r) → Grows q r)
    (h : (x >>= f) = .ok (b, r)) : Grows p r := by
  rw [bind_ok] at h
  obtain ⟨⟨a, q⟩, h1, h2⟩ := h
  exact grows_trans (hx a q h1) (hf a q h1 h2)

theorem grows_read {α β : Type} (x : Res α) (f : α → Res (β × Parser))
    (p : Parser) (b : β) (r : Parser)
    (hf : ∀ a, x = .ok a → f a = .ok (b, r) → Grows p r)
    (h : (x >>= f) = .ok (b, r)) : Grows p r := by
  rw [bind_ok] at h
  obtain ⟨a, h1, h2⟩ := h
  exact hf a h1 h2

theorem grows_of_ok {α : Type} {a b : α} {p q r : Parser}
    (h : (Except.ok (a, q) : Res (α × Parser)) = .ok (b, r)) (hf : Grows p q) :
    Grows p r := by
  simp only [Except.ok.injEq, Prod.mk.injEq] at h
  obtain ⟨-, rfl⟩ := h
  exact hf

theorem add_include_grows (p : Parser) (h : String) : Grows p (add_include p h) :=
  frame_grows (add_include_frame p h)

theorem include_for_grows (ty : VarType) (p : Parser) : Grows p (include_for ty p) :=
  frame_grows (include_for_frame ty p)

theorem expect_grows (ty : TokenType) : GrowsFn (expect ty) :=
  fun p a q h => frame_grows (expect_frame ty p a q h)

theorem expect_current_grows : GrowsFn expect_current :=
  fun p a q h => frame_grows (expect_current_frame p a q h)

theorem parse_collection_type_grows (env : Env) : GrowsFn (parse_collection_type env) :=
  fun p a q h => frame_grows (parse_collection_type_frame env p a q h)

theorem parse_expression_grows (env : Env) (fuel : Nat) : GrowsFn (parse_expression env fuel) :=
  fun p a q h => frame_grows (parse_expression_frame env fuel p a q h)

theorem parse_args_grows (env : Env) (fuel n : Nat) :
    GrowsFn (parse_args (parse_expression env fuel) n) :=
  fun p a q h => frame_grows (parse_args_frame _ (parse_expression_frame env fuel) n p a q h)

theorem method_return_type_grows (m1 m2 : String) (vt : CollectionType) (method : String) :
    GrowsFn (method_return_type m1 m2 vt method) :=
  fun p a q h => frame_grows (method_return_type_frame m1 m2 vt method p a q h)

/-- A type annotation that is followed by a name is that of a container: after a scalar type
keyword `parse_collection_type` leaves the cursor on the keyword (parser.h 203-210), where
`expect(IDENTIFIER)` fails. -/
theorem typed_name_is_container (env : Env) (p : Parser) (type : CollectionType) (p1 : Parser)
    (tok : Token) (p2 : Parser) (h1 : parse_collection_type env p = .ok (type, p1))
    (h2 : expect .IDENTIFIER p1 = .ok (tok, p2)) :
    type.base_type = .LIST ∨ type.base_type = .TUPLE ∨ type.base_type = .DICT := by
  unfold parse_collection_type at h1
  simp only [] at h1
  rw [bind_ok] at h1
  obtain ⟨t, ht, h1⟩ := h1
  by_cases c1 : t.type = .LIST
  · rw [if_pos c1] at h1
    simp only [bind_ok] at h1
    obtain ⟨_, -, _, -, _, -, _, -, _, -, _, -, h1⟩ := h1
    simp only [pure, Except.pure, Except.ok.injEq, Prod.mk.injEq] at h1
    obtain ⟨rfl, -⟩ := h1
    exact Or.inl rfl
  rw [if_neg c1] at h1
  by_cases c2 : t.type = .TUPLE
  · rw [if_pos c2] at h1
    simp only [bind_ok] at h1
    obtain ⟨_, -, _, -, _, -, _, -, _, -, _, -, h1⟩ := h1
    simp only [pure, Except.pure, Except.ok.injEq, Prod.mk.injEq] at h1
    obtain ⟨rfl, -⟩ := h1
    exact Or.inr (Or.inl rfl)
  rw [if_neg c2] at h1
  by_cases c3 : t.type = .DICT
  · rw [if_pos c3] at h1
    simp only [bind_ok] at h1
    obtain ⟨_, -, _, -, _, -, kt, -, h1⟩ := h1
    by_cases ck : kt.base_type ≠ .STRING
    · rw [if_pos ck] at h1
      exact ((throw_at_ne_ok _ _ _).1 h1).elim
    rw [if_neg ck] at h1
    simp only [bind_ok] at h1
    obtain ⟨_, -, _, -, _, -, _, -, _, -, _, -, h1⟩ := h1
    simp only [pure, Except.pure, Except.ok.injEq, Prod.mk.injEq] at h1
    obtain ⟨rfl, -⟩ := h1
    exact Or.inr (Or.inr rfl)
  rw [if_neg c3] at h1
  rw [bind_ok] at h1
  obtain ⟨r, hr, h1⟩ := h1
  exfalso
  have hk : t.type = .INT ∨ t.type = .FLOAT ∨ t.type = .STRING ∨ t.type = .BOOL := by
    unfold token_to_vartype at hr
    split_ifs at hr with a b c d
    · exact Or.inl a
    · exact Or.inr (Or.inl b)
    · exact Or.inr (Or.inr (Or.inl c))
    · exact Or.inr (Or.inr (Or.inr d))
    · exact ((throw_at_ne_ok _ _ _).1 hr).elim
  have hp : p1.tokens = p.tokens ∧ p1.pos = p.pos := by
    split_ifs at h1 <;>
      (simp only [pure, Except.pure, Except.ok.injEq, Prod.mk.injEq] at h1
       obtain ⟨-, rfl⟩ := h1
       simp [add_include])
  have hpeek : p.tokens[p.pos]? = some t := by
    unfold peek at ht
    split at ht
    · rename_i t1 heq
      simp only [Except.ok.injEq] at ht
      rw [heq, ht]
    · cases ht
  unfold expect at h2
  rw [hp.1, hp.2, hpeek] at h2
  simp only [] at h2
  split_ifs at h2 with hne
  rcases hk with hk | hk | hk | hk <;> simp [hk] at hne

theorem parse_assignment_grows (env : Env) (fuel : Nat) :
    GrowsFn (parse_assignment env fuel) := by
  intro p a q h
  unfold parse_assignment at h
  refine grows_step _ _ _ _ _ (fun a q hq => parse_collection_type_grows env _ _ _ hq) ?_ h
  intro type p1 h1 h
  refine grows_step _ _ _ _ _ (fun a q hq => expect_grows _ _ _ _ hq) ?_ h
  intro tok p2 h2 h
  have hT : cleanup_type type = true := by
    rcases typed_name_is_container env _ _ _ _ _ h1 h2 with hb | hb | hb <;>
      simp [cleanup_type, is_heap, hb]
  refine grows_step _ _ _ _ _ (fun a q hq => expect_grows _ _ _ _ hq) ?_ h
  intro _ p3 _ h
  refine grows_step _ _ _ _ _ (fun a q hq => parse_expression_grows env fuel _ _ _ hq) ?_ h
  intro expr p4 _ h
  simp only [] at h
  split at h
  · simp at h
  · refine grows_trans (grows_set _ _ _ hT)
      (grows_step _ _ _ _ _ (fun a q hq => expect_grows _ _ _ _ hq) ?_ h)
    intro _ p5 _ h
    exact grows_of_ok h (grows_refl _)

theorem parse_function_call_grows (env : Env) (fuel : Nat) :
    GrowsFn (parse_function_call env fuel) := by
  intro p a q h
  unfold parse_function_call at h
  refine grows_step _ _ _ _ _ (fun a q hq => expect_grows _ _ _ _ hq) ?_ h
  intro tok p1 _ h
  refine grows_step _ _ _ _ _ (fun a q hq => expect_grows _ _ _ _ hq) ?_ h
  intro _ p2 _ h
  refine grows_step _ _ _ _ _
    (fun a q hq => parse_args_grows env fuel fuel _ _ _ hq) ?_ h
  intro args p3 _ h
  refine grows_step _ _ _ _ _ (fun a q hq => expect_grows _ _ _ _ hq) ?_ h
  intro _ p4 _ h
  refine grows_step _ _ _ _ _ (fun a q hq => expect_grows _ _ _ _ hq) ?_ h
  intro _ p5 _ h
  simp only [] at h
  split at h
  · simp at h
  · exact grows_of_ok h (grows_refl _)

theorem parse_method_call_grows (env : Env) (fuel : Nat) :
    GrowsFn (parse_method_call env fuel) := by
  intro p a q h
  unfold parse_method_call at h
  refine grows_step _ _ _ _ _ (fun a q hq => expect_grows _ _ _ _ hq) ?_ h
  intro tok p1 _ h
  refine grows_step _ _ _ _ _ (fun a q hq => expect_grows _ _ _ _ hq) ?_ h
  intro _ p2 _ h
  refine grows_step _ _ _ _ _ (fun a q hq => expect_grows _ _ _ _ hq) ?_ h
  intro mtok p3 _ h
  refine grows_step _ _ _ _ _ (fun a q hq => expect_grows _ _ _ _ hq) ?_ h
  intro _ p4 _ h
  refine grows_step _ _ _ _ _
    (fun a q hq => parse_args_grows env fuel fuel _ _ _ hq) ?_ h
  intro args p5 _ h
  refine grows_step _ _ _ _ _ (fun a q hq => expect_grows _ _ _ _ hq) ?_ h
  intro _ p6 _ h
  refine grows_step _ _ _ _ _ (fun a q hq => expect_grows _ _ _ _ hq) ?_ h
  intro _ p7 _ h
  simp only [] at h
  split at h
  · simp at h
  · refine grows_step _ _ _ _ _ (fun a q hq => method_return_type_grows _ _ _ _ _ _ _ hq) ?_ h
    intro rt p8 _ h
    exact grows_of_ok h (grows_refl _)

theorem parse_return_grows (env : Env) (fuel : Nat) : GrowsFn (parse_return env fuel) := by
  intro p a q h
  unfold parse_return at h
  refine grows_step _ _ _ _ _ (fun a q hq => expect_grows _ _ _ _ hq) ?_ h
  intro _ p1 _ h
  refine grows_step _ _ _ _ _ (fun a q hq => parse_expression_grows env fuel _ _ _ hq) ?_ h
  intro expr p2 _ h
  refine grows_step _ _ _ _ _ (fun a q hq => expect_grows _ _ _ _ hq) ?_ h
  intro _ p3 _ h
  exact grows_of_ok h (grows_refl _)

theorem print_loop_grows (env : Env) (fuel : Nat) : ∀ (n : Nat)
    (values : List (String × VarType)) (separator : String),
    GrowsFn (print_loop env fuel n values separator) := by
  intro n
  induction n with
  | zero => intro values separator p a q h; cases h
  | succ n ih =>
    intro values separator p a q h
    unfold print_loop at h
    refine grows_read _ _ _ _ _ ?_ h
    intro t _ h
    by_cases hc : t.type = .COMMA
    · rw [if_pos hc] at h
      refine grows_step _ _ _ _ _ (fun a q hq => expect_grows _ _ _ _ hq) ?_ h
      intro _ p1 _ h
      refine grows_read _ _ _ _ _ ?_ h
      intro t1 _ h
      by_cases hs : t1.type = .SEP
      · rw [if_pos hs] at h
        refine grows_step _ _ _ _ _ (fun a q hq => expect_grows _ _ _ _ hq) ?_ h
        intro _ p2 _ h
        refine grows_step _ _ _ _ _ (fun a q hq => expect_grows _ _ _ _ hq) ?_ h
        intro _ p3 _ h
        refine grows_read _ _ _ _ _ ?_ h
        intro t3 _ h
        by_cases hl : t3.type ≠ .STRING_LITERAL
        · rw [if_pos hl] at h
          simp at h
        · rw [if_neg hl] at h
          refine grows_step _ _ _ _ _ (fun a q hq => expect_grows _ _ _ _ hq) ?_ h
          intro tok p4 _ h
          exact grows_of_ok h (add_include_grows _ _)
      · rw [if_neg hs] at h
        refine grows_step _ _ _ _ _
          (fun a q hq => parse_expression_grows env fuel _ _ _ hq) ?_ h
        intro expr p2 _ h
        exact grows_trans (include_for_grows _ _) (ih _ _ _ _ _ h)
    · rw [if_neg hc] at h
      exact grows_of_ok h (grows_refl _)

theorem parse_print_grows (env : Env) (fuel : Nat) : GrowsFn (parse_print env fuel) := by
  intro p a q h
  unfold parse_print at h
  refine grows_step _ _ _ _ _ (fun a q hq => expect_grows _ _ _ _ hq) ?_ h
  intro _ p1 _ h
  refine grows_step _ _ _ _ _ (fun a q hq => expect_grows _ _ _ _ hq) ?_ h
  intro _ p2 _ h
  refine grows_read _ _ _ _ _ ?_ h
  intro t _ h
  by_cases hr : t.type ≠ .RPAREN
  · rw [if_pos hr] at h
    refine grows_step _ _ _ _ _ (fun a q hq => parse_expression_grows env fuel _ _ _ hq) ?_ h
    intro expr p3 _ h
    refine grows_trans (include_for_grows expr.2 p3) ?_
    refine grows_step _ _ _ _ _ (fun a q hq => print_loop_grows env fuel _ _ _ _ _ _ hq) ?_ h
    intro vs p4 _ h
    refine grows_step _ _ _ _ _ (fun a q hq => expect_grows _ _ _ _ hq) ?_ h
    intro _ p5 _ h
    refine grows_step _ _ _ _ _ (fun a q hq => expect_grows _ _ _ _ hq) ?_ h
    intro _ p6 _ h
    exact grows_of_ok h (grows_refl _)
  · rw [if_neg hr, bind_ok] at h
    obtain ⟨y, hy, h⟩ := h
    simp only [pure, Except.pure, Except.ok.injEq] at hy
    subst hy
    refine grows_step _ _ _ _ _ (fun a q hq => expect_grows _ _ _ _ hq) ?_ h
    intro _ p5 _ h
    refine grows_step _ _ _ _ _ (fun a q hq => expect_grows _ _ _ _ hq) ?_ h
    intro _ p6 _ h
    exact grows_of_ok h (grows_refl _)

theorem parse_index_assignment_grows (env : Env) (fuel : Nat) :
    GrowsFn (parse_index_assignment env fuel) := by
  intro p a q h
  unfold parse_index_assignment at h
  refine grows_step _ _ _ _ _ (fun a q hq => expect_grows _ _ _ _ hq) ?_ h
  intro tok p1 _ h
  refine grows_step _ _ _ _ _ (fun a q hq => expect_grows _ _ _ _ hq) ?_ h
  intro _ p2 _ h
  refine grows_step _ _ _ _ _ (fun a q hq => parse_expression_grows env fuel _ _ _ hq) ?_ h
  intro index p3 _ h
  refine grows_step _ _ _ _ _ (fun a q hq => expect_grows _ _ _ _ hq) ?_ h
  intro _ p4 _ h
  refine grows_step _ _ _ _ _ (fun a q hq => expect_grows _ _ _ _ hq) ?_ h
  intro _ p5 _ h
  refine grows_step _ _ _ _ _ (fun a q hq => parse_expression_grows env fuel _ _ _ hq) ?_ h
  intro value p6 _ h
  refine grows_step _ _ _ _ _ (fun a q hq => expect_grows _ _ _ _ hq) ?_ h
  intro _ p7 _ h
  simp only [] at h
  split at h
  · simp at h
  · split_ifs at h
    all_goals first
      | simp at h
      | exact grows_of_ok h (add_include_grows _ _)

theorem block_loop_grows (stmt : Stmt) (hstmt : GrowsFn stmt) (stop : TokenType → Bool) :
    ∀ (n : Nat) (body : List ASTNode), GrowsFn (block_loop stmt stop n body) := by
  intro n
  induction n with
  | zero => intro body p a q h; cases h
  | succ n ih =>
    intro body p a q h
    unfold block_loop at h
    refine grows_read _ _ _ _ _ ?_ h
    intro t _ h
    by_cases hs : stop t.type = true
    · rw [if_pos hs] at h
      exact grows_of_ok h (grows_refl _)
    · rw [if_neg hs] at h
      refine grows_step _ _ _ _ _ (fun a q hq => hstmt _ _ _ hq) ?_ h
      intro node p1 _ h
      exact ih _ _ _ _ h

theorem parse_param_grows (env : Env) (args : List (String × CollectionType)) :
    GrowsFn (parse_param env args) := by
  intro p a q h
  unfold parse_param at h
  refine grows_step _ _ _ _ _ (fun a q hq => parse_collection_type_grows env _ _ _ hq) ?_ h
  intro type p1 h1 h
  refine grows_step _ _ _ _ _ (fun a q hq => expect_grows _ _ _ _ hq) ?_ h
  intro tok p2 h2 h
  have hT : cleanup_type type = true := by
    rcases typed_name_is_container env _ _ _ _ _ h1 h2 with hb | hb | hb <;>
      simp [cleanup_type, is_heap, hb]
  exact grows_of_ok h (grows_set _ _ _ hT)

theorem params_loop_grows (env : Env) : ∀ (n : Nat) (args : List (String × CollectionType)),
    GrowsFn (params_loop env n args) := by
  intro n
  induction n with
  | zero => intro args p a q h; cases h
  | succ n ih =>
    intro args p a q h
    unfold params_loop at h
    refine grows_read _ _ _ _ _ ?_ h
    intro t _ h
    by_cases hc : t.type = .COMMA
    · rw [if_pos hc] at h
      refine grows_step _ _ _ _ _ (fun a q hq => expect_grows _ _ _ _ hq) ?_ h
      intro _ p1 _ h
      refine grows_step _ _ _ _ _ (fun a q hq => parse_param_grows env _ _ _ _ hq) ?_ h
      intro args1 p2 _ h
      exact ih _ _ _ _ h
    · rw [if_neg hc] at h
      exact grows_of_ok h (grows_refl _)

theorem parse_case_pattern_grows : GrowsFn parse_case_pattern := by
  intro p a q h
  unfold parse_case_pattern at h
  refine grows_read _ _ _ _ _ ?_ h
  intro t _ h
  split_ifs at h
  · refine grows_step _ _ _ _ _ (fun a q hq => expect_grows _ _ _ _ hq) ?_ h
    intro tok p1 _ h
    exact grows_of_ok h (grows_refl _)
  · refine grows_step _ _ _ _ _ (fun a q hq => expect_current_grows _ _ _ hq) ?_ h
    intro tok p1 _ h
    exact grows_of_ok h (grows_refl _)
  · refine grows_step _ _ _ _ _ (fun a q hq => expect_grows _ _ _ _ hq) ?_ h
    intro tok p1 _ h
    exact grows_of_ok h (grows_refl _)
  · exact grows_of_ok h (grows_refl _)

theorem case_loop_grows (stmt : Stmt) (hstmt : GrowsFn stmt) (fuel : Nat) : ∀ (n : Nat)
    (cases : List (String × List ASTNode)) (default_case : List ASTNode),
    GrowsFn (case_loop stmt fuel n cases default_case) := by
  intro n
  induction n with
  | zero => intro cases default_case p a q h; cases h
  | succ n ih =>
    intro cases default_case p a q h
    unfold case_loop at h
    refine grows_read _ _ _ _ _ ?_ h
    intro t _ h
    by_cases hc : t.type = .CASE
    · rw [if_pos hc] at h
      refine grows_step _ _ _ _ _ (fun a q hq => expect_grows _ _ _ _ hq) ?_ h
      intro _ p1 _ h
      refine grows_step _ _ _ _ _ (fun a q hq => parse_case_pattern_grows _ _ _ hq) ?_ h
      intro pattern p2 _ h
      refine grows_step _ _ _ _ _ (fun a q hq => expect_grows _ _ _ _ hq) ?_ h
      intro _ p3 _ h
      refine grows_step _ _ _ _ _ (fun a q hq => expect_grows _ _ _ _ hq) ?_ h
      intro _ p4 _ h
      refine grows_step _ _ _ _ _ (fun a q hq => expect_grows _ _ _ _ hq) ?_ h
      intro _ p5 _ h
      refine grows_step _ _ _ _ _
        (fun a q hq => block_loop_grows stmt hstmt _ _ _ _ _ _ hq) ?_ h
      intro case_body p6 _ h
      refine grows_step _ _ _ _ _ (fun a q hq => expect_grows _ _ _ _ hq) ?_ h
      intro _ p7 _ h
      simp only [] at h
      split_ifs at h
      · exact ih _ _ _ _ _ h
      · exact ih _ _ _ _ _ h
    · rw [if_neg hc] at h
      exact grows_of_ok h (grows_refl _)

theorem parse_match_grows (env : Env) (stmt : Stmt) (hstmt : GrowsFn stmt) (n : Nat) :
    GrowsFn (parse_match env stmt n) := by
  intro p a q h
  unfold parse_match at h
  refine grows_step _ _ _ _ _ (fun a q hq => expect_grows _ _ _ _ hq) ?_ h
  intro _ p1 _ h
  refine grows_step _ _ _ _ _ (fun a q hq => parse_expression_grows env n _ _ _ hq) ?_ h
  intro expr p2 _ h
  simp only [] at h
  split_ifs at h
  · simp at h
  · refine grows_step _ _ _ _ _ (fun a q hq => expect_grows _ _ _ _ hq) ?_ h
    intro _ p3 _ h
    refine grows_step _ _ _ _ _ (fun a q hq => expect_grows _ _ _ _ hq) ?_ h
    intro _ p4 _ h
    refine grows_step _ _ _ _ _ (fun a q hq => expect_grows _ _ _ _ hq) ?_ h
    intro _ p5 _ h
    refine grows_step _ _ _ _ _
      (fun a q hq => case_loop_grows stmt hstmt _ _ _ _ _ _ _ hq) ?_ h
    intro cs p6 _ h
    refine grows_step _ _ _ _ _ (fun a q hq => expect_grows _ _ _ _ hq) ?_ h
    intro _ p7 _ h
    exact grows_of_ok h (grows_refl _)

theorem parse_while_grows (env : Env) (stmt : Stmt) (hstmt : GrowsFn stmt) (n : Nat) :
    GrowsFn (parse_while env stmt n) := by
  intro p a q h
  unfold parse_while at h
  refine grows_step _ _ _ _ _ (fun a q hq => expect_grows _ _ _ _ hq) ?_ h
  intro _ p1 _ h
  refine grows_step _ _ _ _ _ (fun a q hq => parse_expression_grows env n _ _ _ hq) ?_ h
  intro condition p2 _ h
  refine grows_step _ _ _ _ _ (fun a q hq => expect_grows _ _ _ _ hq) ?_ h
  intro _ p3 _ h
  refine grows_step _ _ _ _ _ (fun a q hq => expect_grows _ _ _ _ hq) ?_ h
  intro _ p4 _ h
  refine grows_step _ _ _ _ _ (fun a q hq => expect_grows _ _ _ _ hq) ?_ h
  intro _ p5 _ h
  refine grows_step _ _ _ _ _ (fun a q hq => block_loop_grows stmt hstmt _ _ _ _ _ _ hq) ?_ h
  intro body p6 _ h
  refine grows_step _ _ _ _ _ (fun a q hq => expect_grows _ _ _ _ hq) ?_ h
  intro _ p7 _ h
  exact grows_of_ok h (grows_refl _)

theorem parse_for_grows (env : Env) (stmt : Stmt) (hstmt : GrowsFn stmt) (n : Nat) :
    GrowsFn (parse_for env stmt n) := by
  intro p a q h
  unfold parse_for at h
  refine grows_step _ _ _ _ _ (fun a q hq => expect_grows _ _ _ _ hq) ?_ h
  intro _ p1 _ h
  refine grows_step _ _ _ _ _ (fun a q hq => expect_grows _ _ _ _ hq) ?_ h
  intro tok p2 _ h
  refine grows_step _ _ _ _ _ (fun a q hq => expect_grows _ _ _ _ hq) ?_ h
  intro _ p3 _ h
  refine grows_step _ _ _ _ _ (fun a q hq => expect_grows _ _ _ _ hq) ?_ h
  intro _ p4 _ h
  refine grows_step _ _ _ _ _ (fun a q hq => expect_grows _ _ _ _ hq) ?_ h
  intro _ p5 _ h
  refine grows_step _ _ _ _ _ (fun a q hq => parse_expression_grows env n _ _ _ hq) ?_ h
  intro start p6 _ h
  refine grows_step _ _ _ _ _ (fun a q hq => expect_grows _ _ _ _ hq) ?_ h
  intro _ p7 _ h
  refine grows_step _ _ _ _ _ (fun a q hq => parse_expression_grows env n _ _ _ hq) ?_ h
  intro stop p8 _ h
  refine grows_step _ _ _ _ _ (fun a q hq => expect_grows _ _ _ _ hq) ?_ h
  intro _ p9 _ h
  refine grows_step _ _ _ _ _ (fun a q hq => expect_grows _ _ _ _ hq) ?_ h
  intro _ p10 _ h
  refine grows_step _ _ _ _ _ (fun a q hq => expect_grows _ _ _ _ hq) ?_ h
  intro _ p11 _ h
  refine grows_step _ _ _ _ _ (fun a q hq => expect_grows _ _ _ _ hq) ?_ h
  intro _ p12 _ h
  simp only [] at h
  refine grows_trans ?_
    (grows_step _ _ _ _ _ (fun a q hq => block_loop_grows stmt hstmt _ _ _ _ _ _ hq) ?_ h)
  · exact grows_set _ _ _ (by decide)
  · intro body p13 _ h
    refine grows_step _ _ _ _ _ (fun a q hq => expect_grows _ _ _ _ hq) ?_ h
    intro _ p14 _ h
    exact grows_of_ok h (grows_refl _)

theorem elif_loop_grows (env : Env) (stmt : Stmt) (hstmt : GrowsFn stmt) (fuel : Nat) :
    ∀ (n : Nat) (clauses : List (String × List ASTNode)),
    GrowsFn (elif_loop env stmt fuel n clauses) := by
  intro n
  induction n with
  | zero => intro clauses p a q h; cases h
  | succ n ih =>
    intro clauses p a q h
    unfold elif_loop at h
    refine grows_read _ _ _ _ _ ?_ h
    intro t _ h
    by_cases hc : t.type = .ELIF
    · rw [if_pos hc] at h
      refine grows_step _ _ _ _ _ (fun a q hq => expect_grows _ _ _ _ hq) ?_ h
      intro _ p1 _ h
      refine grows_step _ _ _ _ _ (fun a q hq => parse_expression_grows env fuel _ _ _ hq) ?_ h
      intro cond p2 _ h
      refine grows_step _ _ _ _ _ (fun a q hq => expect_grows _ _ _ _ hq) ?_ h
      intro _ p3 _ h
      refine grows_step _ _ _ _ _ (fun a q hq => expect_grows _ _ _ _ hq) ?_ h
      intro _ p4 _ h
      refine grows_step _ _ _ _ _ (fun a q hq => expect_grows _ _ _ _ hq) ?_ h
      intro _ p5 _ h
      refine grows_step _ _ _ _ _
        (fun a q hq => block_loop_grows stmt hstmt _ _ _ _ _ _ hq) ?_ h
      intro body p6 _ h
      refine grows_step _ _ _ _ _ (fun a q hq => expect_grows _ _ _ _ hq) ?_ h
      intro _ p7 _ h
      exact ih _ _ _ _ h
    · rw [if_neg hc] at h
      exact grows_of_ok h (grows_refl _)

theorem parse_if_grows (env : Env) (stmt : Stmt) (hstmt : GrowsFn stmt) (n : Nat) :
    GrowsFn (parse_if env stmt n) := by
  intro p a q h
  unfold parse_if at h
  refine grows_step _ _ _ _ _ (fun a q hq => expect_grows _ _ _ _ hq) ?_ h
  intro _ p1 _ h
  refine grows_step _ _ _ _ _ (fun a q hq => parse_expression_grows env n _ _ _ hq) ?_ h
  intro condition p2 _ h
  refine grows_step _ _ _ _ _ (fun a q hq => expect_grows _ _ _ _ hq) ?_ h
  intro _ p3 _ h
  refine grows_step _ _ _ _ _ (fun a q hq => expect_grows _ _ _ _ hq) ?_ h
  intro _ p4 _ h
  refine grows_step _ _ _ _ _ (fun a q hq => expect_grows _ _ _ _ hq) ?_ h
  intro _ p5 _ h
  refine grows_step _ _ _ _ _ (fun a q hq => block_loop_grows stmt hstmt _ _ _ _ _ _ hq) ?_ h
  intro body p6 _ h
  refine grows_step _ _ _ _ _ (fun a q hq => expect_grows _ _ _ _ hq) ?_ h
  intro _ p7 _ h
  refine grows_step _ _ _ _ _
    (fun a q hq => elif_loop_grows env stmt hstmt _ _ _ _ _ _ hq) ?_ h
  intro clauses p8 _ h
  refine grows_read _ _ _ _ _ ?_ h
  intro t _ h
  by_cases he : t.type = .ELSE
  · rw [if_pos he] at h
    refine grows_step _ _ _ _ _ (fun a q hq => expect_grows _ _ _ _ hq) ?_ h
    intro _ p9 _ h
    refine grows_step _ _ _ _ _ (fun a q hq => expect_grows _ _ _ _ hq) ?_ h
    intro _ p10 _ h
    refine grows_step _ _ _ _ _ (fun a q hq => expect_grows _ _ _ _ hq) ?_ h
    intro _ p11 _ h
    refine grows_step _ _ _ _ _ (fun a q hq => expect_grows _ _ _ _ hq) ?_ h
    intro _ p12 _ h
    refine grows_step _ _ _ _ _
      (fun a q hq => block_loop_grows stmt hstmt _ _ _ _ _ _ hq) ?_ h
    intro else_body p13 _ h
    refine grows_step _ _ _ _ _ (fun a q hq => expect_grows _ _ _ _ hq) ?_ h
    intro _ p14 _ h
    exact grows_of_ok h (grows_refl _)
  · rw [if_neg he] at h
    exact grows_of_ok h (grows_refl _)

/-- The steps of `parse_function` after the return type. -/
theorem function_body_grows (stmt : Stmt) (hstmt : GrowsFn stmt) (n : Nat) (name : String)
    (args : List (String × CollectionType)) (return_type : CollectionType)
    (p : Parser) (a : ASTNode) (q : Parser)
    (h : (do
      let (_, p) ← expect .COLON p
      let (_, p) ← expect .NEWLINE p
      let (_, p) ← expect .INDENT p
      let p := { p with functions := map_set p.functions name (args.map Prod.snd, return_type) }
      let (body, p) ← block_loop stmt stop_block n [] p
      let (_, p) ← expect .DEDENT p
      pure (ASTNode.FunctionNode name args return_type body [], p) : Res (ASTNode × Parser)) =
        .ok (a, q)) : Grows p q := by
  refine grows_step _ _ _ _ _ (fun a q hq => expect_grows _ _ _ _ hq) ?_ h
  intro _ p1 _ h
  refine grows_step _ _ _ _ _ (fun a q hq => expect_grows _ _ _ _ hq) ?_ h
  intro _ p2 _ h
  refine grows_step _ _ _ _ _ (fun a q hq => expect_grows _ _ _ _ hq) ?_ h
  intro _ p3 _ h
  simp only [] at h
  refine grows_trans ?_
    (grows_step _ _ _ _ _ (fun a q hq => block_loop_grows stmt hstmt _ _ _ _ _ _ hq) ?_ h)
  · exact (fun _ hx => hx)
  · intro body p4 _ h
    refine grows_step _ _ _ _ _ (fun a q hq => expect_grows _ _ _ _ hq) ?_ h
    intro _ p5 _ h
    exact grows_of_ok h (grows_refl _)

/-- The steps of `parse_function` after the parameters. -/
theorem function_head_grows (env : Env) (stmt : Stmt) (hstmt : GrowsFn stmt) (n : Nat)
    (name : String) (args : List (String × CollectionType))
    (p : Parser) (a : ASTNode) (q : Parser)
    (h : (do
      let (_, p) ← expect .RPAREN p
      let t ← peek p
      let has_return_type ←
        if t.type = .COLON then do
          let t1 ← peek1 p
          pure (decide (t1.type ≠ .NEWLINE))
        else
          pure false
      let (return_type, p) ←
        if has_return_type then do
          let (_, p) ← expect .COLON p
          parse_collection_type env p
        else
          pure (⟨.NONE, .NONE, .NONE, .NONE⟩, p)
      let (_, p) ← expect .COLON p
      let (_, p) ← expect .NEWLINE p
      let (_, p) ← expect .INDENT p
      let p := { p with functions := map_set p.functions name (args.map Prod.snd, return_type) }
      let (body, p) ← block_loop stmt stop_block n [] p
      let (_, p) ← expect .DEDENT p
      pure (ASTNode.FunctionNode name args return_type body [], p) : Res (ASTNode × Parser)) =
        .ok (a, q)) : Grows p q := by
  refine grows_step _ _ _ _ _ (fun a q hq => expect_grows _ _ _ _ hq) ?_ h
  intro _ p1 _ h
  refine grows_read _ _ _ _ _ ?_ h
  intro t _ h
  by_cases c : t.type = .COLON
  · rw [if_pos c] at h
    refine grows_read _ _ _ _ _ ?_ h
    intro t1 _ h
    rw [bind_ok] at h
    obtain ⟨y, hy, h⟩ := h
    simp only [pure, Except.pure, Except.ok.injEq] at hy
    subst hy
    beta_reduce at h
    by_cases hf : decide (t1.type ≠ .NEWLINE) = true
    · rw [if_pos hf] at h
      refine grows_step _ _ _ _ _ (fun a q hq => expect_grows _ _ _ _ hq) ?_ h
      intro _ p2 _ h
      refine grows_step _ _ _ _ _ (fun a q hq => parse_collection_type_grows env _ _ _ hq) ?_ h
      intro rt p3 _ h
      exact function_body_grows stmt hstmt n name args rt p3 a q h
    · rw [if_neg hf, bind_ok] at h
      obtain ⟨y, hy, h⟩ := h
      simp only [pure, Except.pure, Except.ok.injEq] at hy
      subst hy
      exact function_body_grows stmt hstmt n name args _ p1 a q h
  · rw [if_neg c, bind_ok] at h
    obtain ⟨y, hy, h⟩ := h
    simp only [pure, Except.pure, Except.ok.injEq] at hy
    subst hy
    beta_reduce at h
    rw [if_neg (by simp), bind_ok] at h
    obtain ⟨y, hy, h⟩ := h
    simp only [pure, Except.pure, Except.ok.injEq] at hy
    subst hy
    exact function_body_grows stmt hstmt n name args _ p1 a q h

theorem parse_function_grows (env : Env) (stmt : Stmt) (hstmt : GrowsFn stmt) (n : Nat) :
    GrowsFn (parse_function env stmt n) := by
  intro p a q h
  unfold parse_function at h
  refine grows_step _ _ _ _ _ (fun a q hq => expect_grows _ _ _ _ hq) ?_ h
  intro _ p1 _ h
  refine grows_step _ _ _ _ _ (fun a q hq => expect_grows _ _ _ _ hq) ?_ h
  intro tok p2 _ h
  refine grows_step _ _ _ _ _ (fun a q hq => expect_grows _ _ _ _ hq) ?_ h
  intro _ p3 _ h
  refine grows_read _ _ _ _ _ ?_ h
  intro t _ h
  by_cases c : t.type ≠ .RPAREN
  · rw [if_pos c] at h
    refine grows_step _ _ _ _ _ (fun a q hq => parse_param_grows env _ _ _ _ hq) ?_ h
    intro args p4 _ h
    refine grows_step _ _ _ _ _ (fun a q hq => params_loop_grows env _ _ _ _ _ hq) ?_ h
    intro args1 p5 _ h
    exact function_head_grows env stmt hstmt n tok.value args1 p5 a q h
  · rw [if_neg c, bind_ok] at h
    obtain ⟨y, hy, h⟩ := h
    simp only [pure, Except.pure, Except.ok.injEq] at hy
    subst hy
    exact function_head_grows env stmt hstmt n tok.value [] p3 a q h

/-- Every statement only adds to `helper_includes`, keeps the tokens and never lowers the
counters. -/
theorem parse_statement_grows (env : Env) : ∀ (fuel : Nat), GrowsFn (parse_statement env fuel) := by
  intro fuel
  induction fuel with
  | zero => intro p a q h; cases h
  | succ fuel ih =>
    intro p a q h
    unfold parse_statement at h
    refine grows_read _ _ _ _ _ ?_ h
    intro t _ h
    by_cases c1 : t.type = .DEF
    · rw [if_pos c1] at h
      exact parse_function_grows env _ ih fuel _ _ _ h
    rw [if_neg c1] at h
    by_cases c2 : t.type = .RETURN
    · rw [if_pos c2] at h
      exact parse_return_grows env fuel _ _ _ h
    rw [if_neg c2] at h
    by_cases c3 : t.type = .PRINT
    · rw [if_pos c3] at h
      exact parse_print_grows env fuel _ _ _ h
    rw [if_neg c3] at h
    by_cases c4 : t.type = .IF
    · rw [if_pos c4] at h
      exact parse_if_grows env _ ih fuel _ _ _ h
    rw [if_neg c4] at h
    by_cases c5 : t.type = .FOR
    · rw [if_pos c5] at h
      exact parse_for_grows env _ ih fuel _ _ _ h
    rw [if_neg c5] at h
    by_cases c6 : t.type = .WHILE
    · rw [if_pos c6] at h
      exact parse_while_grows env _ ih fuel _ _ _ h
    rw [if_neg c6] at h
    by_cases c7 : t.type = .MATCH
    · rw [if_pos c7] at h
      exact parse_match_grows env _ ih fuel _ _ _ h
    rw [if_neg c7] at h
    by_cases c8 : t.type = .INT ∨ t.type = .FLOAT ∨ t.type = .STRING ∨ t.type = .BOOL ∨
        t.type = .LIST ∨ t.type = .TUPLE ∨ t.type = .DICT
    · rw [if_pos c8] at h
      exact parse_assignment_grows env fuel _ _ _ h
    rw [if_neg c8] at h
    by_cases c9 : t.type = .IDENTIFIER
    · rw [if_pos c9] at h
      refine grows_read _ _ _ _ _ ?_ h
      intro t1 _ h
      by_cases d1 : t1.type = .LPAREN
      · rw [if_pos d1] at h
        exact parse_function_call_grows env fuel _ _ _ h
      rw [if_neg d1] at h
      by_cases d2 : t1.type = .DOT
      · rw [if_pos d2] at h
        exact parse_method_call_grows env fuel _ _ _ h
      rw [if_neg d2] at h
      by_cases d3 : t1.type = .LBRACKET
      · rw [if_pos d3] at h
        exact parse_index_assignment_grows env fuel _ _ _ h
      rw [if_neg d3] at h
      simp at h
    rw [if_neg c9] at h
    simp at h

/-- The whole parse keeps the bound names bound. -/
theorem parse_program_grows (env : Env) (fuel : Nat) : GrowsFn (parse_program env fuel) := by
  intro p a q h
  unfold parse_program at h
  exact block_loop_grows _ (parse_statement_grows env fuel) _ _ _ _ _ _ h

theorem variable_names_of_body_append (a b : List ASTNode) :
    variable_names_of_body (a ++ b) = variable_names_of_body a ++ variable_names_of_body b := by
  induction a with
  | nil => simp [variable_names_of_body]
  | cons x rest ih => simp [variable_names_of_body, ih]

theorem variable_names_of_clauses_append (a b : List (String × List ASTNode)) :
    variable_names_of_clauses (a ++ b) = variable_names_of_clauses a ++ variable_names_of_clauses b := by
  induction a with
  | nil => simp [variable_names_of_clauses]
  | cons x rest ih =>
    obtain ⟨c, body⟩ := x
    simp [variable_names_of_clauses, ih]

/-- A returned node without variable names. -/
theorem names_of_ok {node a : ASTNode} {p q : Parser}
    (h : (Except.ok (node, p) : Res (ASTNode × Parser)) = .ok (a, q))
    (hn : variable_names node = []) : variable_names (a, q).1 = [] := by
  simp only [Except.ok.injEq, Prod.mk.injEq] at h
  obtain ⟨rfl, -⟩ := h
  exact hn

theorem parse_function_call_names (env : Env) (fuel : Nat) (p q : Parser) (a : ASTNode)
    (h : parse_function_call env fuel p = .ok (a, q)) : variable_names a = [] := by
  unfold parse_function_call at h
  refine result_step (P := fun r => variable_names r.1 = []) _ _ _ ?_ h
  intro ⟨tok, p1⟩ h
  refine result_step (P := fun r => variable_names r.1 = []) _ _ _ ?_ h
  intro ⟨_, p2⟩ h
  refine result_step (P := fun r => variable_names r.1 = []) _ _ _ ?_ h
  intro ⟨args, p3⟩ h
  refine result_step (P := fun r => variable_names r.1 = []) _ _ _ ?_ h
  intro ⟨_, p4⟩ h
  refine result_step (P := fun r => variable_names r.1 = []) _ _ _ ?_ h
  intro ⟨_, p5⟩ h
  simp only [] at h
  split at h
  · simp at h
  · exact names_of_ok h (by simp [variable_names])

theorem parse_method_call_names (env : Env) (fuel : Nat) (p q : Parser) (a : ASTNode)
    (h : parse_method_call env fuel p = .ok (a, q)) : variable_names a = [] := by
  unfold parse_method_call at h
  refine result_step (P := fun r => variable_names r.1 = []) _ _ _ ?_ h
  intro ⟨tok, p1⟩ h
  refine result_step (P := fun r => variable_names r.1 = []) _ _ _ ?_ h
  intro ⟨_, p2⟩ h
  refine result_step (P := fun r => variable_names r.1 = []) _ _ _ ?_ h
  intro ⟨mtok, p3⟩ h
  refine result_step (P := fun r => variable_names r.1 = []) _ _ _ ?_ h
  intro ⟨_, p4⟩ h
  refine result_step (P := fun r => variable_names r.1 = []) _ _ _ ?_ h
  intro ⟨args, p5⟩ h
  refine result_step (P := fun r => variable_names r.1 = []) _ _ _ ?_ h
  intro ⟨_, p6⟩ h
  refine result_step (P := fun r => variable_names r.1 = []) _ _ _ ?_ h
  intro ⟨_, p7⟩ h
  simp only [] at h
  split at h
  · simp at h
  · refine result_step (P := fun r => variable_names r.1 = []) _ _ _ ?_ h
    intro ⟨rt, p8⟩ h
    exact names_of_ok h (by simp [variable_names])

theorem parse_return_names (env : Env) (fuel : Nat) (p q : Parser) (a : ASTNode)
    (h : parse_return env fuel p = .ok (a, q)) : variable_names a = [] := by
  unfold parse_return at h
  refine result_step (P := fun r => variable_names r.1 = []) _ _ _ ?_ h
  intro ⟨_, p1⟩ h
  refine result_step (P := fun r => variable_names r.1 = []) _ _ _ ?_ h
  intro ⟨expr, p2⟩ h
  refine result_step (P := fun r => variable_names r.1 = []) _ _ _ ?_ h
  intro ⟨_, p3⟩ h
  exact names_of_ok h (by simp [variable_names])

theorem parse_print_names (env : Env) (fuel : Nat) (p q : Parser) (a : ASTNode)
    (h : parse_print env fuel p = .ok (a, q)) : variable_names a = [] := by
  unfold parse_print at h
  refine result_step (P := fun r => variable_names r.1 = []) _ _ _ ?_ h
  intro ⟨_, p1⟩ h
  refine result_step (P := fun r => variable_names r.1 = []) _ _ _ ?_ h
  intro ⟨_, p2⟩ h
  refine result_step (P := fun r => variable_names r.1 = []) _ _ _ ?_ h
  intro t h
  by_cases hr : t.type ≠ .RPAREN
  · rw [if_pos hr] at h
    refine result_step (P := fun r => variable_names r.1 = []) _ _ _ ?_ h
    intro ⟨expr, p3⟩ h
    refine result_step (P := fun r => variable_names r.1 = []) _ _ _ ?_ h
    intro ⟨vs, p4⟩ h
    refine result_step (P := fun r => variable_names r.1 = []) _ _ _ ?_ h
    intro ⟨_, p5⟩ h
    refine result_step (P := fun r => variable_names r.1 = []) _ _ _ ?_ h
    intro ⟨_, p6⟩ h
    exact names_of_ok h (by simp [variable_names])
  · rw [if_neg hr] at h
    refine result_step (P := fun r => variable_names r.1 = []) _ _ _ ?_ h
    intro y h
    refine result_step (P := fun r => variable_names r.1 = []) _ _ _ ?_ h
    intro ⟨_, p5⟩ h
    refine result_step (P := fun r => variable_names r.1 = []) _ _ _ ?_ h
    intro ⟨_, p6⟩ h
    exact names_of_ok h (by simp [variable_names])

theorem parse_index_assignment_names (env : Env) (fuel : Nat) (p q : Parser) (a : ASTNode)
    (h : parse_index_assignment env fuel p = .ok (a, q)) : variable_names a = [] := by
  unfold parse_index_assignment at h
  refine result_step (P := fun r => variable_names r.1 = []) _ _ _ ?_ h
  intro ⟨tok, p1⟩ h
  refine result_step (P := fun r => variable_names r.1 = []) _ _ _ ?_ h
  intro ⟨_, p2⟩ h
  refine result_step (P := fun r => variable_names r.1 = []) _ _ _ ?_ h
  intro ⟨index, p3⟩ h
  refine result_step (P := fun r => variable_names r.1 = []) _ _ _ ?_ h
  intro ⟨_, p4⟩ h
  refine result_step (P := fun r => variable_names r.1 = []) _ _ _ ?_ h
  intro ⟨_, p5⟩ h
  refine result_step (P := fun r => variable_names r.1 = []) _ _ _ ?_ h
  intro ⟨value, p6⟩ h
  refine result_step (P := fun r => variable_names r.1 = []) _ _ _ ?_ h
  intro ⟨_, p7⟩ h
  simp only [] at h
  split at h
  · simp at h
  · split_ifs at h
    all_goals first
      | simp at h
      | exact names_of_ok h (by simp [variable_names])

/-- An assignment has the header of its declared type. -/
theorem parse_assignment_binding (env : Env) (fuel : Nat) :
    Binding (parse_assignment env fuel) := by
  intro p a q h
  unfold parse_assignment at h
  rw [bind_ok] at h
  obtain ⟨⟨type, p1⟩, h1, h⟩ := h
  rw [bind_ok] at h
  obtain ⟨⟨tok, p2⟩, h2, h⟩ := h
  have hT : cleanup_type type = true := by
    rcases typed_name_is_container env _ _ _ _ _ h1 h2 with hb | hb | hb <;>
      simp [cleanup_type, is_heap, hb]
  rw [bind_ok] at h
  obtain ⟨⟨_, p3⟩, -, h⟩ := h
  rw [bind_ok] at h
  obtain ⟨⟨expr, p4⟩, -, h⟩ := h
  simp only [] at h
  split at h
  · simp at h
  · rw [bind_ok] at h
    obtain ⟨⟨_, p5⟩, h5, h⟩ := h
    simp only [pure, Except.pure, Except.ok.injEq, Prod.mk.injEq] at h
    obtain ⟨rfl, rfl⟩ := h
    intro x hx
    have hx2 : x = tok.value := by
      simp only [variable_names] at hx
      split_ifs at hx
      · simpa using hx
      · cases hx
    subst hx2
    exact expect_grows _ _ _ _ h5 _ (is_bound_set_self _ _ _ hT)

/-- A step that keeps the bound names carries the names bound so far to the continuation. -/
theorem carry_bound {α β : Type} {G : Prop} (T : List String)
    (x : Res (α × Parser)) (f : α × Parser → Res β) (p : Parser) (b : β)
    (h0 : AllBound T p.variables_)
    (hx : ∀ a q, x = .ok (a, q) → Grows p q)
    (hf : ∀ a q, AllBound T q.variables_ → f (a, q) = .ok b → G)
    (h : (x >>= f) = .ok b) : G := by
  rw [bind_ok] at h
  obtain ⟨⟨a, q⟩, h1, h2⟩ := h
  exact hf a q (allbound_grows h0 (hx a q h1)) h2

/-- A step that keeps the bound names and binds those of what it read adds them for the
continuation. -/
theorem gain_bound {α β : Type} {G : Prop} (T : List String)
    (ann : α → List String)
    (x : Res (α × Parser)) (f : α × Parser → Res β) (p : Parser) (b : β)
    (h0 : AllBound T p.variables_)
    (hx : ∀ a q, x = .ok (a, q) → Grows p q ∧ AllBound (ann a) q.variables_)
    (hf : ∀ a q, AllBound (T ++ ann a) q.variables_ → f (a, q) = .ok b → G)
    (h : (x >>= f) = .ok b) : G := by
  rw [bind_ok] at h
  obtain ⟨⟨a, q⟩, h1, h2⟩ := h
  exact hf a q ((allbound_append _ _ _).2
    ⟨allbound_grows h0 (hx a q h1).1, (hx a q h1).2⟩) h2

theorem block_loop_bound (stmt : Stmt) (hm : GrowsFn stmt) (hs : Binding stmt)
    (stop : TokenType → Bool) : ∀ (n : Nat) (body : List ASTNode) (p : Parser)
    (result : List ASTNode) (q : Parser),
    block_loop stmt stop n body p = .ok (result, q) →
    AllBound (variable_names_of_body body) p.variables_ →
    AllBound (variable_names_of_body result) q.variables_ := by
  intro n
  induction n with
  | zero => intro body p result q h; cases h
  | succ n ih =>
    intro body p result q h h0
    unfold block_loop at h
    refine goal_read _ _ _ ?_ h
    intro t h
    by_cases hstop : stop t.type = true
    · rw [if_pos hstop] at h
      simp only [pure, Except.pure, Except.ok.injEq, Prod.mk.injEq] at h
      obtain ⟨rfl, rfl⟩ := h
      exact h0
    · rw [if_neg hstop, bind_ok] at h
      obtain ⟨⟨node, p1⟩, h1, h⟩ := h
      refine ih _ _ _ _ h ?_
      rw [variable_names_of_body_append, allbound_append]
      refine ⟨allbound_grows h0 (hm _ _ _ h1), ?_⟩
      have := hs _ _ _ h1
      simpa [variable_names_of_body] using this

/-- A block keeps the bound names and binds the names of its statements. -/
theorem block_binds (stmt : Stmt) (hm : GrowsFn stmt) (hs : Binding stmt)
    (stop : TokenType → Bool) (n : Nat) (p : Parser) (body : List ASTNode) (q : Parser)
    (h : block_loop stmt stop n [] p = .ok (body, q)) :
    Grows p q ∧ AllBound (variable_names_of_body body) q.variables_ :=
  ⟨block_loop_grows stmt hm stop n [] p body q h,
   block_loop_bound stmt hm hs stop n [] p body q h (by simpa [variable_names_of_body] using allbound_nil _)⟩

theorem parse_while_binding (env : Env) (stmt : Stmt) (hm : GrowsFn stmt) (hs : Binding stmt)
    (n : Nat) : Binding (parse_while env stmt n) := by
  intro p a q h
  have h0 := allbound_nil p.variables_
  unfold parse_while at h
  refine carry_bound _ _ _ _ _ h0 (fun a q hq => expect_grows _ _ _ _ hq) ?_ h
  intro _ p1 h0 h
  refine carry_bound _ _ _ _ _ h0 (fun a q hq => parse_expression_grows env n _ _ _ hq) ?_ h
  intro condition p2 h0 h
  refine carry_bound _ _ _ _ _ h0 (fun a q hq => expect_grows _ _ _ _ hq) ?_ h
  intro _ p3 h0 h
  refine carry_bound _ _ _ _ _ h0 (fun a q hq => expect_grows _ _ _ _ hq) ?_ h
  intro _ p4 h0 h
  refine carry_bound _ _ _ _ _ h0 (fun a q hq => expect_grows _ _ _ _ hq) ?_ h
  intro _ p5 h0 h
  refine gain_bound _ variable_names_of_body _ _ _ _ h0
    (fun a q hq => block_binds stmt hm hs _ _ _ _ _ hq) ?_ h
  intro body p6 h0 h
  refine carry_bound _ _ _ _ _ h0 (fun a q hq => expect_grows _ _ _ _ hq) ?_ h
  intro _ p7 h0 h
  simp only [pure, Except.pure, Except.ok.injEq, Prod.mk.injEq] at h
  obtain ⟨rfl, rfl⟩ := h
  simpa [variable_names] using h0

theorem parse_for_binding (env : Env) (stmt : Stmt) (hm : GrowsFn stmt) (hs : Binding stmt)
    (n : Nat) : Binding (parse_for env stmt n) := by
  intro p a q h
  have h0 := allbound_nil p.variables_
  unfold parse_for at h
  refine carry_bound _ _ _ _ _ h0 (fun a q hq => expect_grows _ _ _ _ hq) ?_ h
  intro _ p1 h0 h
  refine carry_bound _ _ _ _ _ h0 (fun a q hq => expect_grows _ _ _ _ hq) ?_ h
  intro tok p2 h0 h
  refine carry_bound _ _ _ _ _ h0 (fun a q hq => expect_grows _ _ _ _ hq) ?_ h
  intro _ p3 h0 h
  refine carry_bound _ _ _ _ _ h0 (fun a q hq => expect_grows _ _ _ _ hq) ?_ h
  intro _ p4 h0 h
  refine carry_bound _ _ _ _ _ h0 (fun a q hq => expect_grows _ _ _ _ hq) ?_ h
  intro _ p5 h0 h
  refine carry_bound _ _ _ _ _ h0 (fun a q hq => parse_expression_grows env n _ _ _ hq) ?_ h
  intro start p6 h0 h
  refine carry_bound _ _ _ _ _ h0 (fun a q hq => expect_grows _ _ _ _ hq) ?_ h
  intro _ p7 h0 h
  refine carry_bound _ _ _ _ _ h0 (fun a q hq => parse_expression_grows env n _ _ _ hq) ?_ h
  intro stop p8 h0 h
  refine carry_bound _ _ _ _ _ h0 (fun a q hq => expect_grows _ _ _ _ hq) ?_ h
  intro _ p9 h0 h
  refine carry_bound _ _ _ _ _ h0 (fun a q hq => expect_grows _ _ _ _ hq) ?_ h
  intro _ p10 h0 h
  refine carry_bound _ _ _ _ _ h0 (fun a q hq => expect_grows _ _ _ _ hq) ?_ h
  intro _ p11 h0 h
  refine carry_bound _ _ _ _ _ h0 (fun a q hq => expect_grows _ _ _ _ hq) ?_ h
  intro _ p12 h0 h
  simp only [] at h
  have h0 : AllBound []
      ({ p12 with variables_ := map_set p12.variables_ tok.value ⟨.INT, .NONE, .NONE, .NONE⟩ } :
        Parser).variables_ := allbound_grows h0 (grows_set _ _ _ (by decide))
  refine gain_bound _ variable_names_of_body _ _ _ _ h0
    (fun a q hq => block_binds stmt hm hs _ _ _ _ _ hq) ?_ h
  intro body p13 h0 h
  refine carry_bound _ _ _ _ _ h0 (fun a q hq => expect_grows _ _ _ _ hq) ?_ h
  intro _ p14 h0 h
  simp only [pure, Except.pure, Except.ok.injEq, Prod.mk.injEq] at h
  obtain ⟨rfl, rfl⟩ := h
  simpa [variable_names] using h0

theorem elif_loop_bound (env : Env) (stmt : Stmt) (hm : GrowsFn stmt) (hs : Binding stmt)
    (fuel : Nat) : ∀ (n : Nat) (clauses : List (String × List ASTNode)) (p : Parser)
    (result : List (String × List ASTNode)) (q : Parser),
    elif_loop env stmt fuel n clauses p = .ok (result, q) →
    AllBound (variable_names_of_clauses clauses) p.variables_ →
    AllBound (variable_names_of_clauses result) q.variables_ := by
  intro n
  induction n with
  | zero => intro clauses p result q h; cases h
  | succ n ih =>
    intro clauses p result q h h0
    unfold elif_loop at h
    refine goal_read _ _ _ ?_ h
    intro t h
    by_cases hc : t.type = .ELIF
    · rw [if_pos hc] at h
      refine carry_bound _ _ _ _ _ h0 (fun a q hq => expect_grows _ _ _ _ hq) ?_ h
      intro _ p1 h0 h
      refine carry_bound _ _ _ _ _ h0 (fun a q hq => parse_expression_grows env fuel _ _ _ hq) ?_ h
      intro cond p2 h0 h
      refine carry_bound _ _ _ _ _ h0 (fun a q hq => expect_grows _ _ _ _ hq) ?_ h
      intro _ p3 h0 h
      refine carry_bound _ _ _ _ _ h0 (fun a q hq => expect_grows _ _ _ _ hq) ?_ h
      intro _ p4 h0 h
      refine carry_bound _ _ _ _ _ h0 (fun a q hq => expect_grows _ _ _ _ hq) ?_ h
      intro _ p5 h0 h
      refine gain_bound _ variable_names_of_body _ _ _ _ h0
        (fun a q hq => block_binds stmt hm hs _ _ _ _ _ hq) ?_ h
      intro body p6 h0 h
      refine carry_bound _ _ _ _ _ h0 (fun a q hq => expect_grows _ _ _ _ hq) ?_ h
      intro _ p7 h0 h
      refine ih _ _ _ _ h ?_
      rw [variable_names_of_clauses_append]
      simpa [variable_names_of_clauses] using h0
    · rw [if_neg hc] at h
      simp only [pure, Except.pure, Except.ok.injEq, Prod.mk.injEq] at h
      obtain ⟨rfl, rfl⟩ := h
      exact h0

/-- The `elif` clauses keep the bound names and bind the names of their statements. -/
theorem elif_binds (env : Env) (stmt : Stmt) (hm : GrowsFn stmt) (hs : Binding stmt)
    (fuel n : Nat) (p : Parser) (clauses : List (String × List ASTNode)) (q : Parser)
    (h : elif_loop env stmt fuel n [] p = .ok (clauses, q)) :
    Grows p q ∧ AllBound (variable_names_of_clauses clauses) q.variables_ :=
  ⟨elif_loop_grows env stmt hm fuel n [] p clauses q h,
   elif_loop_bound env stmt hm hs fuel n [] p clauses q h
     (by simpa [variable_names_of_clauses] using allbound_nil _)⟩

theorem parse_if_binding (env : Env) (stmt : Stmt) (hm : GrowsFn stmt) (hs : Binding stmt)
    (n : Nat) : Binding (parse_if env stmt n) := by
  intro p a q h
  have h0 := allbound_nil p.variables_
  unfold parse_if at h
  refine carry_bound _ _ _ _ _ h0 (fun a q hq => expect_grows _ _ _ _ hq) ?_ h
  intro _ p1 h0 h
  refine carry_bound _ _ _ _ _ h0 (fun a q hq => parse_expression_grows env n _ _ _ hq) ?_ h
  intro condition p2 h0 h
  refine carry_bound _ _ _ _ _ h0 (fun a q hq => expect_grows _ _ _ _ hq) ?_ h
  intro _ p3 h0 h
  refine carry_bound _ _ _ _ _ h0 (fun a q hq => expect_grows _ _ _ _ hq) ?_ h
  intro _ p4 h0 h
  refine carry_bound _ _ _ _ _ h0 (fun a q hq => expect_grows _ _ _ _ hq) ?_ h
  intro _ p5 h0 h
  refine gain_bound _ variable_names_of_body _ _ _ _ h0
    (fun a q hq => block_binds stmt hm hs _ _ _ _ _ hq) ?_ h
  intro body p6 h0 h
  refine carry_bound _ _ _ _ _ h0 (fun a q hq => expect_grows _ _ _ _ hq) ?_ h
  intro _ p7 h0 h
  refine gain_bound _ variable_names_of_clauses _ _ _ _ h0
    (fun a q hq => elif_binds env stmt hm hs _ _ _ _ _ hq) ?_ h
  intro clauses p8 h0 h
  refine goal_read _ _ _ ?_ h
  intro t h
  by_cases he : t.type = .ELSE
  · rw [if_pos he] at h
    refine carry_bound _ _ _ _ _ h0 (fun a q hq => expect_grows _ _ _ _ hq) ?_ h
    intro _ p9 h0 h
    refine carry_bound _ _ _ _ _ h0 (fun a q hq => expect_grows _ _ _ _ hq) ?_ h
    intro _ p10 h0 h
    refine carry_bound _ _ _ _ _ h0 (fun a q hq => expect_grows _ _ _ _ hq) ?_ h
    intro _ p11 h0 h
    refine carry_bound _ _ _ _ _ h0 (fun a q hq => expect_grows _ _ _ _ hq) ?_ h
    intro _ p12 h0 h
    refine gain_bound _ variable_names_of_body _ _ _ _ h0
      (fun a q hq => block_binds stmt hm hs _ _ _ _ _ hq) ?_ h
    intro else_body p13 h0 h
    refine carry_bound _ _ _ _ _ h0 (fun a q hq => expect_grows _ _ _ _ hq) ?_ h
    intro _ p14 h0 h
    simp only [pure, Except.pure, Except.ok.injEq, Prod.mk.injEq] at h
    obtain ⟨rfl, rfl⟩ := h
    simpa [variable_names] using h0
  · rw [if_neg he] at h
    simp only [pure, Except.pure, Except.ok.injEq, Prod.mk.injEq] at h
    obtain ⟨rfl, rfl⟩ := h
    simpa [variable_names, variable_names_of_body] using h0

theorem case_loop_bound (stmt : Stmt) (hm : GrowsFn stmt) (hs : Binding stmt)
    (fuel : Nat) : ∀ (n : Nat) (cases : List (String × List ASTNode))
    (default_case : List ASTNode) (p : Parser)
    (result : List (String × List ASTNode) × List ASTNode) (q : Parser),
    case_loop stmt fuel n cases default_case p = .ok (result, q) →
    AllBound (variable_names_of_clauses cases) p.variables_ →
    AllBound (variable_names_of_body default_case) p.variables_ →
    AllBound (variable_names_of_clauses result.1 ++ variable_names_of_body result.2)
      q.variables_ := by
  intro n
  induction n with
  | zero => intro cases default_case p result q h; cases h
  | succ n ih =>
    intro cases default_case p result q h h0 hd
    unfold case_loop at h
    refine goal_read _ _ _ ?_ h
    intro t h
    by_cases hc : t.type = .CASE
    · rw [if_pos hc] at h
      have h0 := (allbound_append _ _ _).2 ⟨h0, hd⟩
      refine carry_bound _ _ _ _ _ h0 (fun a q hq => expect_grows _ _ _ _ hq) ?_ h
      intro _ p1 h0 h
      refine carry_bound _ _ _ _ _ h0 (fun a q hq => parse_case_pattern_grows _ _ _ hq) ?_ h
      intro pattern p2 h0 h
      refine carry_bound _ _ _ _ _ h0 (fun a q hq => expect_grows _ _ _ _ hq) ?_ h
      intro _ p3 h0 h
      refine carry_bound _ _ _ _ _ h0 (fun a q hq => expect_grows _ _ _ _ hq) ?_ h
      intro _ p4 h0 h
      refine carry_bound _ _ _ _ _ h0 (fun a q hq => expect_grows _ _ _ _ hq) ?_ h
      intro _ p5 h0 h
      refine gain_bound _ variable_names_of_body _ _ _ _ h0
        (fun a q hq => block_binds stmt hm hs _ _ _ _ _ hq) ?_ h
      intro case_body p6 h0 h
      refine carry_bound _ _ _ _ _ h0 (fun a q hq => expect_grows _ _ _ _ hq) ?_ h
      intro _ p7 h0 h
      simp only [] at h
      rw [allbound_append, allbound_append] at h0
      split_ifs at h
      · exact ih _ _ _ _ _ h h0.1.1 h0.2
      · refine ih _ _ _ _ _ h ?_ h0.1.2
        rw [variable_names_of_clauses_append, allbound_append]
        refine ⟨h0.1.1, ?_⟩
        simpa [variable_names_of_clauses] using h0.2
    · rw [if_neg hc] at h
      simp only [pure, Except.pure, Except.ok.injEq, Prod.mk.injEq] at h
      obtain ⟨rfl, rfl⟩ := h
      exact (allbound_append _ _ _).2 ⟨h0, hd⟩

/-- The `case` arms keep the bound names and bind the names of their statements. -/
theorem case_binds (stmt : Stmt) (hm : GrowsFn stmt) (hs : Binding stmt)
    (fuel n : Nat) (p : Parser) (result : List (String × List ASTNode) × List ASTNode)
    (q : Parser) (h : case_loop stmt fuel n [] [] p = .ok (result, q)) :
    Grows p q ∧
    AllBound (variable_names_of_clauses result.1 ++ variable_names_of_body result.2)
      q.variables_ :=
  ⟨case_loop_grows stmt hm fuel n [] [] p result q h,
   case_loop_bound stmt hm hs fuel n [] [] p result q h
     (by simpa [variable_names_of_clauses] using allbound_nil _)
     (by simpa [variable_names_of_body] using allbound_nil _)⟩

theorem parse_match_binding (env : Env) (stmt : Stmt) (hm : GrowsFn stmt) (hs : Binding stmt)
    (n : Nat) : Binding (parse_match env stmt n) := by
  intro p a q h
  have h0 := allbound_nil p.variables_
  unfold parse_match at h
  refine carry_bound _ _ _ _ _ h0 (fun a q hq => expect_grows _ _ _ _ hq) ?_ h
  intro _ p1 h0 h
  refine carry_bound _ _ _ _ _ h0 (fun a q hq => parse_expression_grows env n _ _ _ hq) ?_ h
  intro expr p2 h0 h
  simp only [] at h
  split_ifs at h
  · simp at h
  · refine carry_bound _ _ _ _ _ h0 (fun a q hq => expect_grows _ _ _ _ hq) ?_ h
    intro _ p3 h0 h
    refine carry_bound _ _ _ _ _ h0 (fun a q hq => expect_grows _ _ _ _ hq) ?_ h
    intro _ p4 h0 h
    refine carry_bound _ _ _ _ _ h0 (fun a q hq => expect_grows _ _ _ _ hq) ?_ h
    intro _ p5 h0 h
    refine gain_bound _
      (fun r : List (String × List ASTNode) × List ASTNode =>
        variable_names_of_clauses r.1 ++ variable_names_of_body r.2) _ _ _ _ h0
      (fun a q hq => case_binds stmt hm hs _ _ _ _ _ hq) ?_ h
    intro cs p6 h0 h
    refine carry_bound _ _ _ _ _ h0 (fun a q hq => expect_grows _ _ _ _ hq) ?_ h
    intro _ p7 h0 h
    simp only [pure, Except.pure, Except.ok.injEq, Prod.mk.injEq] at h
    obtain ⟨rfl, rfl⟩ := h
    simpa [variable_names] using h0

theorem heap_parameters_append (a b : List (String × CollectionType)) :
    heap_parameters (a ++ b) = heap_parameters a ++ heap_parameters b := by
  induction a with
  | nil => simp [heap_parameters]
  | cons x rest ih =>
    obtain ⟨name, type⟩ := x
    simp [heap_parameters, ih]

/-- One parameter keeps the bound names and is bound itself. -/
theorem parse_param_bound (env : Env) (args : List (String × CollectionType)) (p : Parser)
    (result : List (String × CollectionType)) (q : Parser)
    (h : parse_param env args p = .ok (result, q))
    (h0 : AllBound (heap_parameters args) p.variables_) :
    AllBound (heap_parameters result) q.variables_ := by
  have hg := parse_param_grows env args p result q h
  unfold parse_param at h
  rw [bind_ok] at h
  obtain ⟨⟨type, p1⟩, h1, h⟩ := h
  rw [bind_ok] at h
  obtain ⟨⟨tok, p2⟩, h2, h⟩ := h
  have hT : cleanup_type type = true := by
    rcases typed_name_is_container env _ _ _ _ _ h1 h2 with hb | hb | hb <;>
      simp [cleanup_type, is_heap, hb]
  simp only [pure, Except.pure, Except.ok.injEq, Prod.mk.injEq] at h
  obtain ⟨rfl, rfl⟩ := h
  rw [heap_parameters_append, allbound_append]
  refine ⟨allbound_grows h0 hg, ?_⟩
  intro x hx
  have hx2 : x = tok.value := by
    simp only [heap_parameters, List.append_nil] at hx
    split_ifs at hx
    · simpa using hx
    · cases hx
  subst hx2
  exact is_bound_set_self _ _ _ hT

theorem params_loop_bound (env : Env) : ∀ (n : Nat) (args : List (String × CollectionType))
    (p : Parser) (result : List (String × CollectionType)) (q : Parser),
    params_loop env n args p = .ok (result, q) →
    AllBound (heap_parameters args) p.variables_ →
    AllBound (heap_parameters result) q.variables_ := by
  intro n
  induction n with
  | zero => intro args p result q h; cases h
  | succ n ih =>
    intro args p result q h h0
    unfold params_loop at h
    refine goal_read _ _ _ ?_ h
    intro t h
    by_cases hc : t.type = .COMMA
    · rw [if_pos hc] at h
      refine carry_bound _ _ _ _ _ h0 (fun a q hq => expect_grows _ _ _ _ hq) ?_ h
      intro _ p1 h0 h
      rw [bind_ok] at h
      obtain ⟨⟨args1, p2⟩, h1, h⟩ := h
      exact ih _ _ _ _ h (parse_param_bound env _ _ _ _ h1 h0)
    · rw [if_neg hc] at h
      simp only [pure, Except.pure, Except.ok.injEq, Prod.mk.injEq] at h
      obtain ⟨rfl, rfl⟩ := h
      exact h0

/-- The steps of `parse_function` after the return type. -/
theorem function_body_bound (stmt : Stmt) (hm : GrowsFn stmt) (hs : Binding stmt) (n : Nat)
    (name : String) (args : List (String × CollectionType)) (return_type : CollectionType)
    (p : Parser) (a : ASTNode) (q : Parser)
    (h0 : AllBound (heap_parameters args) p.variables_)
    (h : (do
      let (_, p) ← expect .COLON p
      let (_, p) ← expect .NEWLINE p
      let (_, p) ← expect .INDENT p
      let p := { p with functions := map_set p.functions name (args.map Prod.snd, return_type) }
      let (body, p) ← block_loop stmt stop_block n [] p
      let (_, p) ← expect .DEDENT p
      pure (ASTNode.FunctionNode name args return_type body [], p) : Res (ASTNode × Parser)) =
        .ok (a, q)) : AllBound (variable_names a) q.variables_ := by
  refine carry_bound _ _ _ _ _ h0 (fun a q hq => expect_grows _ _ _ _ hq) ?_ h
  intro _ p1 h0 h
  refine carry_bound _ _ _ _ _ h0 (fun a q hq => expect_grows _ _ _ _ hq) ?_ h
  intro _ p2 h0 h
  refine carry_bound _ _ _ _ _ h0 (fun a q hq => expect_grows _ _ _ _ hq) ?_ h
  intro _ p3 h0 h
  simp only [] at h
  have h0 : AllBound (heap_parameters args)
      ({ p3 with functions := map_set p3.functions name (args.map Prod.snd, return_type) } :
        Parser).variables_ := h0
  refine gain_bound _ variable_names_of_body _ _ _ _ h0
    (fun a q hq => block_binds stmt hm hs _ _ _ _ _ hq) ?_ h
  intro body p4 h0 h
  refine carry_bound _ _ _ _ _ h0 (fun a q hq => expect_grows _ _ _ _ hq) ?_ h
  intro _ p5 h0 h
  simp only [pure, Except.pure, Except.ok.injEq, Prod.mk.injEq] at h
  obtain ⟨rfl, rfl⟩ := h
  simpa [variable_names] using h0

/-- The steps of `parse_function` after the parameters. -/
theorem function_head_bound (env : Env) (stmt : Stmt) (hm : GrowsFn stmt) (hs : Binding stmt)
    (n : Nat) (name : String) (args : List (String × CollectionType))
    (p : Parser) (a : ASTNode) (q : Parser)
    (h0 : AllBound (heap_parameters args) p.variables_)
    (h : (do
      let (_, p) ← expect .RPAREN p
      let t ← peek p
      let has_return_type ←
        if t.type = .COLON then do
          let t1 ← peek1 p
          pure (decide (t1.type ≠ .NEWLINE))
        else
          pure false
      let (return_type, p) ←
        if has_return_type then do
          let (_, p) ← expect .COLON p
          parse_collection_type env p
        else
          pure (⟨.NONE, .NONE, .NONE, .NONE⟩, p)
      let (_, p) ← expect .COLON p
      let (_, p) ← expect .NEWLINE p
      let (_, p) ← expect .INDENT p
      let p := { p with functions := map_set p.functions name (args.map Prod.snd, return_type) }
      let (body, p) ← block_loop stmt stop_block n [] p
      let (_, p) ← expect .DEDENT p
      pure (ASTNode.FunctionNode name args return_type body [], p) : Res (ASTNode × Parser)) =
        .ok (a, q)) : AllBound (variable_names a) q.variables_ := by
  refine carry_bound _ _ _ _ _ h0 (fun a q hq => expect_grows _ _ _ _ hq) ?_ h
  intro _ p1 h0 h
  refine goal_read _ _ _ ?_ h
  intro t h
  by_cases c : t.type = .COLON
  · rw [if_pos c] at h
    refine goal_read _ _ _ ?_ h
    intro t1 h
    rw [bind_ok] at h
    obtain ⟨y, hy, h⟩ := h
    simp only [pure, Except.pure, Except.ok.injEq] at hy
    subst hy
    beta_reduce at h
    by_cases hf : decide (t1.type ≠ .NEWLINE) = true
    · rw [if_pos hf] at h
      refine carry_bound _ _ _ _ _ h0 (fun a q hq => expect_grows _ _ _ _ hq) ?_ h
      intro _ p2 h0 h
      refine carry_bound _ _ _ _ _ h0
        (fun a q hq => parse_collection_type_grows env _ _ _ hq) ?_ h
      intro rt p3 h0 h
      exact function_body_bound stmt hm hs n name args rt p3 a q h0 h
    · rw [if_neg hf, bind_ok] at h
      obtain ⟨y, hy, h⟩ := h
      simp only [pure, Except.pure, Except.ok.injEq] at hy
      subst hy
      exact function_body_bound stmt hm hs n name args _ p1 a q h0 h
  · rw [if_neg c, bind_ok] at h
    obtain ⟨y, hy, h⟩ := h
    simp only [pure, Except.pure, Except.ok.injEq] at hy
    subst hy
    beta_reduce at h
    rw [if_neg (by simp), bind_ok] at h
    obtain ⟨y, hy, h⟩ := h
    simp only [pure, Except.pure, Except.ok.injEq] at hy
    subst hy
    exact function_body_bound stmt hm hs n name args _ p1 a q h0 h

theorem parse_function_binding (env : Env) (stmt : Stmt) (hm : GrowsFn stmt)
    (hs : Binding stmt) (n : Nat) : Binding (parse_function env stmt n) := by
  intro p a q h
  have h0 := allbound_nil p.variables_
  unfold parse_function at h
  refine carry_bound _ _ _ _ _ h0 (fun a q hq => expect_grows _ _ _ _ hq) ?_ h
  intro _ p1 h0 h
  refine carry_bound _ _ _ _ _ h0 (fun a q hq => expect_grows _ _ _ _ hq) ?_ h
  intro tok p2 h0 h
  refine carry_bound _ _ _ _ _ h0 (fun a q hq => expect_grows _ _ _ _ hq) ?_ h
  intro _ p3 h0 h
  refine goal_read _ _ _ ?_ h
  intro t h
  by_cases c : t.type ≠ .RPAREN
  · rw [if_pos c, bind_ok] at h
    obtain ⟨⟨args, p4⟩, h1, h⟩ := h
    have c1 := parse_param_bound env _ _ _ _ h1 (by simpa [heap_parameters] using h0)
    rw [bind_ok] at h
    obtain ⟨⟨args1, p5⟩, h2, h⟩ := h
    have c2 := params_loop_bound env _ _ _ _ _ h2 c1
    exact function_head_bound env stmt hm hs n tok.value args1 p5 a q c2 h
  · rw [if_neg c, bind_ok] at h
    obtain ⟨y, hy, h⟩ := h
    simp only [pure, Except.pure, Except.ok.injEq] at hy
    subst hy
    exact function_head_bound env stmt hm hs n tok.value [] p3 a q (by simpa [heap_parameters] using h0) h

/-- A statement without variable names. -/
theorem bound_leaf {a : ASTNode} (s : List (String × CollectionType)) (h : variable_names a = []) :
    AllBound (variable_names a) s := by
  rw [h]
  exact allbound_nil s

/-- Every statement binds its variable names in the record it returns. -/
theorem parse_statement_binding (env : Env) :
    ∀ (fuel : Nat), Binding (parse_statement env fuel) := by
  intro fuel
  induction fuel with
  | zero => intro p a q h; cases h
  | succ fuel ih =>
    have hm := parse_statement_grows env fuel
    intro p a q h
    unfold parse_statement at h
    refine goal_read _ _ _ ?_ h
    intro t h
    by_cases c1 : t.type = .DEF
    · rw [if_pos c1] at h
      exact parse_function_binding env _ hm ih fuel _ _ _ h
    rw [if_neg c1] at h
    by_cases c2 : t.type = .RETURN
    · rw [if_pos c2] at h
      exact bound_leaf _ (parse_return_names env fuel _ _ _ h)
    rw [if_neg c2] at h
    by_cases c3 : t.type = .PRINT
    · rw [if_pos c3] at h
      exact bound_leaf _ (parse_print_names env fuel _ _ _ h)
    rw [if_neg c3] at h
    by_cases c4 : t.type = .IF
    · rw [if_pos c4] at h
      exact parse_if_binding env _ hm ih fuel _ _ _ h
    rw [if_neg c4] at h
    by_cases c5 : t.type = .FOR
    · rw [if_pos c5] at h
      exact parse_for_binding env _ hm ih fuel _ _ _ h
    rw [if_neg c5] at h
    by_cases c6 : t.type = .WHILE
    · rw [if_pos c6] at h
      exact parse_while_binding env _ hm ih fuel _ _ _ h
    rw [if_neg c6] at h
    by_cases c7 : t.type = .MATCH
    · rw [if_pos c7] at h
      exact parse_match_binding env _ hm ih fuel _ _ _ h
    rw [if_neg c7] at h
    by_cases c8 : t.type = .INT ∨ t.type = .FLOAT ∨ t.type = .STRING ∨ t.type = .BOOL ∨
        t.type = .LIST ∨ t.type = .TUPLE ∨ t.type = .DICT
    · rw [if_pos c8] at h
      exact parse_assignment_binding env fuel _ _ _ h
    rw [if_neg c8] at h
    by_cases c9 : t.type = .IDENTIFIER
    · rw [if_pos c9] at h
      refine goal_read _ _ _ ?_ h
      intro t1 h
      by_cases d1 : t1.type = .LPAREN
      · rw [if_pos d1] at h
        exact bound_leaf _ (parse_function_call_names env fuel _ _ _ h)
      rw [if_neg d1] at h
      by_cases d2 : t1.type = .DOT
      · rw [if_pos d2] at h
        exact bound_leaf _ (parse_method_call_names env fuel _ _ _ h)
      rw [if_neg d2] at h
      by_cases d3 : t1.type = .LBRACKET
      · rw [if_pos d3] at h
        exact bound_leaf _ (parse_index_assignment_names env fuel _ _ _ h)
      rw [if_neg d3] at h
      simp at h
    rw [if_neg c9] at h
    simp at h

/-- The record after `parse_program` binds every variable name of the program. -/
theorem parse_program_bound (env : Env) (fuel : Nat) (p : Parser) (ast : List ASTNode)
    (q : Parser) (h : parse_program env fuel p = .ok (ast, q)) :
    AllBound (variable_names_of_body ast) q.variables_ := by
  unfold parse_program at h
  refine block_loop_bound _ (parse_statement_grows env fuel) (parse_statement_binding env fuel)
    _ _ _ _ _ _ h ?_
  simpa [variable_names_of_body, variable_names] using allbound_nil _

theorem names_refl (extra : List String) (g : Gen) : NamesFrom extra g g :=
  fun _ h => Or.inl h

theorem names_trans {a b : List String} {g g1 g2 : Gen} (h1 : NamesFrom a g g1)
    (h2 : NamesFrom b g1 g2) : NamesFrom (a ++ b) g g2 := by
  intro x hx
  rcases h2 x hx with h | h | h
  · rcases h1 x h with h | h | h
    · exact Or.inl h
    · exact Or.inr (Or.inl (List.mem_append.2 (Or.inl h)))
    · exact Or.inr (Or.inr h)
  · exact Or.inr (Or.inl (List.mem_append.2 (Or.inr h)))
  · exact Or.inr (Or.inr h)

theorem names_mono {a b : List String} {g g1 : Gen} (h : NamesFrom a g g1)
    (hab : ∀ x, x ∈ a → x ∈ b) : NamesFrom b g g1 := by
  intro x hx
  rcases h x hx with h | h | h
  · exact Or.inl h
  · exact Or.inr (Or.inl (hab x h))
  · exact Or.inr (Or.inr h)

/-- A name with one of the five prefixes of the generator is a temporary. -/
theorem prefix_is_temporary (pre s : String)
    (h : pre ∈ ["temp_call_", "temp_method_", "temp_list_", "temp_tuple_", "temp_dict_"]) :
    is_temporary (pre ++ s) = true := by
  unfold is_temporary
  rw [Bool.or_eq_true]
  right
  rw [List.any_eq_true]
  refine ⟨pre, h, ?_⟩
  rw [List.isPrefixOf_iff_prefix, String.data_append]
  exact List.prefix_append _ _

/-- The cleanup list with one temporary more. -/
theorem names_push (extra : List String) (g g1 : Gen) (x : String)
    (hx : is_temporary x = true) (h : g1.gc_strings = g.gc_strings ++ [x]) :
    NamesFrom extra g g1 := by
  intro y hy
  rw [h, List.mem_append, List.mem_singleton] at hy
  rcases hy with hy | hy
  · exact Or.inl hy
  · exact Or.inr (Or.inr (hy ▸ hx))

theorem names_same (extra : List String) (g g1 : Gen) (h : g1.gc_strings = g.gc_strings) :
    NamesFrom extra g g1 := by
  intro y hy
  rw [h] at hy
  exact Or.inl hy

/-- The names that `AssignNode::generate_c_code` adds (ASTNodes.h 92-109). -/
theorem assign_c_code_names (var expr : String) (type : CollectionType) (is_declaration : Bool)
    (g : Gen) :
    (assign_c_code var expr type is_declaration g).2.gc_strings =
      g.gc_strings ++ variable_names (.AssignNode var expr type is_declaration) := by
  unfold assign_c_code
  simp only [variable_names]
  split_ifs <;> simp

/-- The names that the parameter loop of `FunctionNode::generate_c_code` adds
(ASTNodes.h 183-185). -/
theorem function_params_names : ∀ (args : List (String × CollectionType)) (g : Gen),
    (function_params args g).2.gc_strings = g.gc_strings ++ heap_parameters args
  | [], g => by simp [function_params, heap_parameters]
  | (name, type) :: rest, g => by
    simp only [function_params, heap_parameters]
    rw [function_params_names rest]
    split_ifs <;> simp

theorem call_c_code_names (env : Env) (func_name : String) (args : List String)
    (return_type : CollectionType) (g : Gen) (extra : List String) :
    NamesFrom extra g (call_c_code env func_name args return_type g).2 := by
  unfold call_c_code
  split_ifs <;> first
    | exact names_refl _ _
    | exact names_push _ _ _ _ (prefix_is_temporary _ _ (by simp)) rfl

theorem return_c_code_names (expr : String) (type : CollectionType) (g : Gen)
    (extra : List String) : NamesFrom extra g (return_c_code expr type g).2 := by
  unfold return_c_code
  split_ifs <;> first
    | exact names_refl _ _
    | exact names_push _ _ _ _ (by decide) rfl

theorem method_call_c_code_names (env : Env) (var method : String) (args : List String)
    (return_type : CollectionType) (g : Gen) (code : String) (g1 : Gen) (extra : List String)
    (h : method_call_c_code env var method args return_type g = .ok (code, g1)) :
    NamesFrom extra g g1 := by
  unfold method_call_c_code at h
  simp only [] at h
  split_ifs at h
  all_goals first
    | (simp only [bind_ok] at h
       obtain ⟨_, -, _, -, h⟩ := h
       simp only [pure, Except.pure, Except.ok.injEq, Prod.mk.injEq] at h
       obtain ⟨-, rfl⟩ := h
       first
         | exact names_same _ _ _ rfl
         | exact names_push _ _ _ _ (prefix_is_temporary _ _ (by simp)) rfl)
    | (simp only [bind_ok] at h
       obtain ⟨_, -, h⟩ := h
       simp only [pure, Except.pure, Except.ok.injEq, Prod.mk.injEq] at h
       obtain ⟨-, rfl⟩ := h
       first
         | exact names_same _ _ _ rfl
         | exact names_push _ _ _ _ (prefix_is_temporary _ _ (by simp)) rfl)
    | (simp only [pure, Except.pure, Except.ok.injEq, Prod.mk.injEq] at h
       obtain ⟨-, rfl⟩ := h
       first
         | exact names_same _ _ _ rfl
         | exact names_push _ _ _ _ (prefix_is_temporary _ _ (by simp)) rfl)

mutual
/-- Every name that the `generate_c_code` of a node leaves in `gc_strings` was there, is a
variable name of the node, or is a temporary of the generator. -/
theorem generate_c_code_names (env : Env) : ∀ (node : ASTNode) (g : Gen) (code : String)
    (g1 : Gen), generate_c_code env node g = .ok (code, g1) →
    NamesFrom (variable_names node) g g1
  | .HelperNode _, g, code, g1, h => by
    simp only [generate_c_code, Except.ok.injEq, Prod.mk.injEq] at h
    exact names_same _ _ _ (by rw [← h.2])
  | .AssignNode var expr type is_declaration, g, code, g1, h => by
    simp only [generate_c_code, Except.ok.injEq] at h
    intro x hx
    have h2 : g1 = (assign_c_code var expr type is_declaration g).2 := by rw [h]
    rw [h2, assign_c_code_names, List.mem_append] at hx
    rcases hx with hx | hx
    · exact Or.inl hx
    · exact Or.inr (Or.inl hx)
  | .FunctionNode name args return_type body locals, g, code, g1, h => by
    simp only [generate_c_code] at h
    split at h
    · cases h
    · simp only [Except.ok.injEq, Prod.mk.injEq] at h
      intro x hx
      rw [← h.2] at hx
      cases hx
  | .CallNode func_name args return_type, g, code, g1, h => by
    simp only [generate_c_code, Except.ok.injEq] at h
    have h2 : g1 = (call_c_code env func_name args return_type g).2 := by rw [h]
    rw [h2]
    exact call_c_code_names _ _ _ _ _ _
  | .MethodCallNode var method args return_type, g, code, g1, h => by
    simp only [generate_c_code] at h
    exact method_call_c_code_names _ _ _ _ _ _ _ _ _ h
  | .ReturnNode expr type, g, code, g1, h => by
    simp only [generate_c_code, Except.ok.injEq] at h
    have h2 : g1 = (return_c_code expr type g).2 := by rw [h]
    rw [h2]
    exact return_c_code_names _ _ _ _
  | .PrintNode _ _, g, code, g1, h => by
    simp only [generate_c_code, Except.ok.injEq, Prod.mk.injEq] at h
    exact names_same _ _ _ (by rw [← h.2])
  | .IfNode condition body elif_clauses else_body, g, code, g1, h => by
    simp only [generate_c_code] at h
    split at h
    · cases h
    · rename_i c1 ga h1
      split at h
      · cases h
      · rename_i c2 gb h2
        split at h
        · cases h
        · rename_i c3 gc h3
          simp only [Except.ok.injEq, Prod.mk.injEq] at h
          obtain ⟨-, rfl⟩ := h
          simp only [variable_names]
          exact names_trans (names_trans (generate_body_names env _ body g c1 ga h1)
            (generate_elifs_names env elif_clauses ga c2 gb h2))
            (generate_body_names env _ else_body gb c3 gc h3)
  | .ForNode _ _ _ body, g, code, g1, h => by
    simp only [generate_c_code] at h
    split at h
    · cases h
    · rename_i c1 ga h1
      simp only [Except.ok.injEq, Prod.mk.injEq] at h
      obtain ⟨-, rfl⟩ := h
      simp only [variable_names]
      exact generate_body_names env _ body g c1 ga h1
  | .WhileNode _ body, g, code, g1, h => by
    simp only [generate_c_code] at h
    split at h
    · cases h
    · rename_i c1 ga h1
      simp only [Except.ok.injEq, Prod.mk.injEq] at h
      obtain ⟨-, rfl⟩ := h
      simp only [variable_names]
      exact generate_body_names env _ body g c1 ga h1
  | .MatchNode _ _ cases default_case, g, code, g1, h => by
    simp only [generate_c_code] at h
    split at h
    · cases h
    · rename_i c1 ga h1
      split at h
      · cases h
      · rename_i c2 gb h2
        simp only [Except.ok.injEq, Prod.mk.injEq] at h
        obtain ⟨-, rfl⟩ := h
        simp only [variable_names]
        exact names_trans (generate_cases_names env cases g c1 ga h1)
          (generate_body_names env _ default_case ga c2 gb h2)
  | .ListNode _ _, g, code, g1, h => by
    simp only [generate_c_code, Except.ok.injEq, Prod.mk.injEq] at h
    obtain ⟨-, rfl⟩ := h
    exact names_push _ _ _ _ (prefix_is_temporary _ _ (by simp)) rfl
  | .TupleNode _ _, g, code, g1, h => by
    simp only [generate_c_code, Except.ok.injEq, Prod.mk.injEq] at h
    obtain ⟨-, rfl⟩ := h
    exact names_push _ _ _ _ (prefix_is_temporary _ _ (by simp)) rfl
  | .DictNode _ _, g, code, g1, h => by
    simp only [generate_c_code, Except.ok.injEq, Prod.mk.injEq] at h
    obtain ⟨-, rfl⟩ := h
    exact names_push _ _ _ _ (prefix_is_temporary _ _ (by simp)) rfl
  | .LenNode _ _, g, code, g1, h => by
    simp only [generate_c_code, Except.ok.injEq, Prod.mk.injEq] at h
    exact names_same _ _ _ (by rw [← h.2])
/-- The same for the statements of a block. -/
theorem generate_body_names (env : Env) (indent : String) : ∀ (body : List ASTNode) (g : Gen)
    (code : String) (g1 : Gen), generate_body env indent body g = .ok (code, g1) →
    NamesFrom (variable_names_of_body body) g g1
  | [], g, code, g1, h => by
    simp only [generate_body, Except.ok.injEq, Prod.mk.injEq] at h
    exact names_same _ _ _ (by rw [← h.2])
  | node :: rest, g, code, g1, h => by
    simp only [generate_body] at h
    split at h
    · cases h
    · rename_i c1 ga h1
      split at h
      · cases h
      · rename_i c2 gb h2
        simp only [Except.ok.injEq, Prod.mk.injEq] at h
        obtain ⟨-, rfl⟩ := h
        simp only [variable_names_of_body]
        exact names_trans (generate_c_code_names env node g c1 ga h1)
          (generate_body_names env indent rest ga c2 gb h2)
/-- The same for the blocks of `elif` clauses. -/
theorem generate_elifs_names (env : Env) : ∀ (clauses : List (String × List ASTNode)) (g : Gen)
    (code : String) (g1 : Gen), generate_elifs env clauses g = .ok (code, g1) →
    NamesFrom (variable_names_of_clauses clauses) g g1
  | [], g, code, g1, h => by
    simp only [generate_elifs, Except.ok.injEq, Prod.mk.injEq] at h
    exact names_same _ _ _ (by rw [← h.2])
  | (cond, body) :: rest, g, code, g1, h => by
    simp only [generate_elifs] at h
    split at h
    · cases h
    · rename_i c1 ga h1
      split at h
      · cases h
      · rename_i c2 gb h2
        simp only [Except.ok.injEq, Prod.mk.injEq] at h
        obtain ⟨-, rfl⟩ := h
        simp only [variable_names_of_clauses]
        exact names_trans (generate_body_names env _ body g c1 ga h1)
          (generate_elifs_names env rest ga c2 gb h2)
/-- The same for the blocks of `case` arms. -/
theorem generate_cases_names (env : Env) : ∀ (clauses : List (String × List ASTNode)) (g : Gen)
    (code : String) (g1 : Gen), generate_cases env clauses g = .ok (code, g1) →
    NamesFrom (variable_names_of_clauses clauses) g g1
  | [], g, code, g1, h => by
    simp only [generate_cases, Except.ok.injEq, Prod.mk.injEq] at h
    exact names_same _ _ _ (by rw [← h.2])
  | (pattern, body) :: rest, g, code, g1, h => by
    simp only [generate_cases] at h
    split at h
    · cases h
    · rename_i c1 ga h1
      split at h
      · cases h
      · rename_i c2 gb h2
        simp only [Except.ok.injEq, Prod.mk.injEq] at h
        obtain ⟨-, rfl⟩ := h
        simp only [variable_names_of_clauses]
        exact names_trans (generate_body_names env _ body g c1 ga h1)
          (generate_cases_names env rest ga c2 gb h2)
end

theorem emit_functions_names (env : Env) : ∀ (ast : List ASTNode) (g : Gen) (code : String)
    (g1 : Gen), emit_functions env ast g = .ok (code, g1) →
    NamesFrom (variable_names_of_body ast) g g1
  | [], g, code, g1, h => by
    simp only [emit_functions, Except.ok.injEq, Prod.mk.injEq] at h
    exact names_same _ _ _ (by rw [← h.2])
  | node :: rest, g, code, g1, h => by
    simp only [emit_functions] at h
    simp only [variable_names_of_body]
    split_ifs at h
    · split at h
      · cases h
      · rename_i c1 ga h1
        split at h
        · cases h
        · rename_i c2 gb h2
          simp only [Except.ok.injEq, Prod.mk.injEq] at h
          obtain ⟨-, rfl⟩ := h
          exact names_trans (generate_c_code_names env node g c1 ga h1)
            (emit_functions_names env rest ga c2 gb h2)
    · exact names_mono (emit_functions_names env rest g code g1 h)
        (fun x hx => List.mem_append.2 (Or.inr hx))

theorem emit_main_body_names (env : Env) : ∀ (ast : List ASTNode) (g : Gen) (code : String)
    (g1 : Gen), emit_main_body env ast g = .ok (code, g1) →
    NamesFrom (variable_names_of_body ast) g g1
  | [], g, code, g1, h => by
    simp only [emit_main_body, Except.ok.injEq, Prod.mk.injEq] at h
    exact names_same _ _ _ (by rw [← h.2])
  | node :: rest, g, code, g1, h => by
    simp only [emit_main_body] at h
    simp only [variable_names_of_body]
    split_ifs at h
    · exact names_mono (emit_main_body_names env rest g code g1 h)
        (fun x hx => List.mem_append.2 (Or.inr hx))
    · split at h
      · cases h
      · rename_i c1 ga h1
        split at h
        · cases h
        · rename_i c2 gb h2
          simp only [Except.ok.injEq, Prod.mk.injEq] at h
          obtain ⟨-, rfl⟩ := h
          exact names_trans (generate_c_code_names env node g c1 ga h1)
            (emit_main_body_names env rest ga c2 gb h2)

/-- What `is_bound` says, in words of the table. -/
theorem is_bound_iff (vars : List (String × CollectionType)) (x : String) :
    is_bound vars x = true ↔
      ∃ T, map_find vars x = some T ∧
        (is_heap T.base_type = true ∨ T = ⟨.INT, .NONE, .NONE, .NONE⟩) := by
  unfold is_bound
  cases map_find vars x with
  | none => simp
  | some T => simp [cleanup_type]

/-- The parse from the empty table binds every variable name of the program. -/
theorem program_names_bound (env : Env) (fuel : Nat) (tokens : List Token)
    (ast : List ASTNode) (q : Parser)
    (h : parse_program env fuel (Parser.init env tokens) = .ok (ast, q)) (x : String)
    (hx : x ∈ variable_names_of_body ast) :
    ∃ T, map_find q.variables_ x = some T ∧
      (is_heap T.base_type = true ∨ T = ⟨.INT, .NONE, .NONE, .NONE⟩) :=
  (is_bound_iff _ _).1 (parse_program_bound env fuel _ ast q h x hx)

/-- C21 (the claim fails). A `CallNode` whose function returns a list adds its temporary
`temp_call_N` to the cleanup list, and a `ReturnNode` of a list adds `return_value`; neither is a
variable. In the program that defines `f` returning a list and calls it, the cleanup list of `main`
is `temp_call_0` while `variables` is empty. In the program that assigns a list to `xs` and then
runs a `for` loop over `xs`, the cleanup list is `xs`, which `variables` binds to INT. -/
theorem C21_counterexample :
    emitted (generate_c_code sample_env (.CallNode "f" [] (list_of .INT))
        { gc_strings := [], rand_calls := 0 }) =
      .ok ("Listint* temp_call_0 = f();\n", ["temp_call_0"]) ∧
    emitted (generate_c_code sample_env (.ReturnNode "x" (list_of .INT))
        { gc_strings := [], rand_calls := 0 }) =
      .ok ("return_value = x;\n    return return_value;\n", ["return_value"]) ∧
    cleanup_names sample_env 20 c21_tokens = .ok (["temp_call_0"], []) ∧
    cleanup_names sample_env 20 c21_loop_tokens = .ok (["xs"], [("xs", scalar .INT)]) := by
  refine ⟨?_, ?_, ?_, ?_⟩ <;> decide!

/-- C21 (amended). Every name that is in `gc_strings` after the `generate_c_code` of a node was
there before, is a temporary of the generator (`return_value`, or a name that starts with
`temp_call_`, `temp_method_`, `temp_list_`, `temp_tuple_` or `temp_dict_`), or is a variable
name of the node: the assigned name of an `AssignNode` or a parameter of a `FunctionNode`, of a
type with base STRING, LIST, TUPLE or DICT; these are exactly the names that the two add. The parse of
a program from the empty table leaves every variable name of the program bound in `variables`, to a
type with base STRING, LIST, TUPLE or DICT, or to INT (which `parse_for` gives to its loop variable,
parser.h 1275). So every name of the cleanup list of `main` is a temporary of the generator or is
bound so, and so is every name of the list that a `FunctionNode` gives to its cleanup loop. -/
theorem C21_variable_names_are_bound (env : Env) (fuel : Nat) (tokens : List Token)
    (names : List String) (vars : List (String × CollectionType))
    (h : cleanup_names env fuel tokens = .ok (names, vars)) :
    (∀ x, x ∈ names → is_temporary x = true ∨
      ∃ T, map_find vars x = some T ∧
        (is_heap T.base_type = true ∨ T = ⟨.INT, .NONE, .NONE, .NONE⟩)) ∧
    (∀ ast q, parse_program env fuel (Parser.init env tokens) = .ok (ast, q) →
      ∀ x, x ∈ variable_names_of_body ast →
        ∃ T, map_find q.variables_ x = some T ∧
          (is_heap T.base_type = true ∨ T = ⟨.INT, .NONE, .NONE, .NONE⟩)) ∧
    (∀ node g code g1, generate_c_code env node g = .ok (code, g1) →
      ∀ x, x ∈ g1.gc_strings →
        x ∈ g.gc_strings ∨ x ∈ variable_names node ∨ is_temporary x = true) ∧
    (∀ name args return_type body locals g code g1,
      generate_body env "    " body (function_params args g).2 = .ok (code, g1) →
      ∀ x, x ∈ g1.gc_strings →
        x ∈ g.gc_strings ∨
          x ∈ variable_names (.FunctionNode name args return_type body locals) ∨
          is_temporary x = true) ∧
    (∀ var expr type is_declaration g,
      (assign_c_code var expr type is_declaration g).2.gc_strings =
        g.gc_strings ++ variable_names (.AssignNode var expr type is_declaration)) ∧
    (∀ args g, (function_params args g).2.gc_strings = g.gc_strings ++ heap_parameters args) := by
  refine ⟨?_, fun ast q hp x hx => program_names_bound env fuel tokens ast q hp x hx,
    fun node g code g1 hg => generate_c_code_names env node g code g1 hg, ?_,
    assign_c_code_names, function_params_names⟩
  · intro x hx
    unfold cleanup_names at h
    split at h
    · cases h
    · rename_i ast p hp
      split at h
      · cases h
      · rename_i c1 ga h1
        split at h
        · cases h
        · rename_i c2 gb h2
          simp only [Except.ok.injEq, Prod.mk.injEq] at h
          obtain ⟨rfl, rfl⟩ := h
          rcases names_trans (emit_functions_names env ast _ c1 ga h1)
            (emit_main_body_names env ast ga c2 gb h2) x hx with hm | hm | hm
          · cases hm
          · right
            refine program_names_bound env fuel tokens ast p hp x ?_
            rcases List.mem_append.1 hm with hm | hm <;> exact hm
          · exact Or.inl hm
  · intro name args return_type body locals g code g1 hg x hx
    rcases generate_body_names env _ body _ code g1 hg x hx with hm | hm | hm
    · rw [function_params_names, List.mem_append] at hm
      rcases hm with hm | hm
      · exact Or.inl hm
      · exact Or.inr (Or.inl (by
          simp only [variable_names]
          exact List.mem_append.2 (Or.inl hm)))
    · exact Or.inr (Or.inl (by
        simp only [variable_names]
        exact List.mem_append.2 (Or.inr hm)))
    · exact Or.inr (Or.inr hm)

/-- C21 (amended) at the program that defines `f` returning a list, assigns a list to `xs` and
calls `f`: the cleanup list of `main` is `xs`, bound to LIST[INT], and the temporary
`temp_call_0`. -/
theorem C21_witness :
    cleanup_names sample_env 20 c21_both_tokens =
      .ok (["xs", "temp_call_0"], [("xs", list_of .INT)]) ∧
    ∀ x, x ∈ ["xs", "temp_call_0"] → is_temporary x = true ∨
      ∃ T, map_find [("xs", list_of .INT)] x = some T ∧
        (is_heap T.base_type = true ∨ T = ⟨.INT, .NONE, .NONE, .NONE⟩) :=
  ⟨by decide!, (C21_variable_names_are_bound sample_env 20 c21_both_tokens
    ["xs", "temp_call_0"] [("xs", list_of .INT)] (by decide!)).1⟩

/-- The two kinds of name of the witness: the variable is no temporary, and the temporary is
not bound. -/
theorem cleanup_name_examples :
    is_temporary "xs" = false ∧ is_temporary "temp_call_0" = true ∧
    is_bound [("xs", list_of .INT)] "xs" = true ∧
    is_bound [("xs", list_of .INT)] "temp_call_0" = false ∧
    is_bound [("xs", scalar .INT)] "xs" = true ∧
    variable_names (.AssignNode "xs" "temp_list_0" (list_of .INT) true) = ["xs"] ∧
    variable_names (.AssignNode "n" "1" (scalar .INT) true) = [] ∧
    heap_parameters [("a", list_of .INT), ("n", scalar .INT), ("s", scalar .STRING)] =
      ["a", "s"] := by
  refine ⟨?_, ?_, ?_, ?_, ?_, ?_, ?_, ?_⟩ <;> decide

/-! ## C31: the counter of temporaries and their names -/

theorem digit_char_value (k : Nat) (hk : k < 10) : (Nat.digitChar k).toNat - 48 = k := by
  interval_cases k <;> rfl

/-- The digits that `to_string` writes stand for the number written. -/
theorem digits_value_core : ∀ (fuel n : Nat) (ds : List Char), n < fuel →
    digits_value 0 (Nat.toDigitsCore 10 fuel n ds) = digits_value n ds := by
  intro fuel
  induction fuel with
  | zero => intro n ds h; omega
  | succ f ih =>
    intro n ds h
    unfold Nat.toDigitsCore
    simp only []
    have hd := digit_char_value (n % 10) (Nat.mod_lt _ (by decide))
    by_cases h0 : n / 10 = 0
    · rw [if_pos h0]
      have hn : n % 10 = n := by omega
      simp only [digits_value, List.foldl_cons, hd, Nat.zero_mul, Nat.zero_add]
      rw [hn]
    · rw [if_neg h0, ih (n / 10) _ (by omega)]
      simp only [digits_value, List.foldl_cons, hd]
      have : n / 10 * 10 + n % 10 = n := by omega
      rw [this]

theorem to_string_value (n : Nat) : digits_value 0 (toString n).data = n := by
  show digits_value 0 (Nat.toDigitsCore 10 (n + 1) n []) = n
  rw [digits_value_core (n + 1) n [] (by omega)]
  rfl

theorem to_string_injective (n m : Nat) (h : toString n = toString m) : n = m := by
  rw [← to_string_value n, ← to_string_value m, h]

/-- Two names of temporaries are the same only for the same prefix and the same number. -/
theorem temp_name_injective (pre1 pre2 : String) (c1 c2 : Nat)
    (h1 : pre1 ∈ temp_prefixes) (h2 : pre2 ∈ temp_prefixes)
    (h : temp_name pre1 c1 = temp_name pre2 c2) : pre1 = pre2 ∧ c1 = c2 := by
  have hd : pre1.data ++ (toString c1).data = pre2.data ++ (toString c2).data := by
    have := congrArg String.data h
    simpa [temp_name, String.data_append] using this
  have h5 := congrArg (fun l => l[5]?) hd
  simp only [temp_prefixes, List.mem_cons, List.mem_singleton, List.not_mem_nil, or_false] at h1 h2
  have hp : pre1 = pre2 := by
    rcases h1 with rfl | rfl | rfl | rfl <;> rcases h2 with rfl | rfl | rfl | rfl <;>
      first
        | rfl
        | (exfalso; simp at h5)
  subst hp
  refine ⟨rfl, to_string_injective c1 c2 ?_⟩
  exact String.ext (List.append_cancel_left hd)

/-- A step inside a span of the parse that starts at `p0`. -/
theorem span_step {α β : Type} {G : Prop} (x : Res (α × Parser)) (f : α × Parser → Res β)
    (p0 p : Parser) (b : β) (h0 : Advances p0 p)
    (hx : ∀ a q, x = .ok (a, q) → Advances p q)
    (hf : ∀ a q, Advances p0 q → f (a, q) = .ok b → G)
    (h : (x >>= f) = .ok b) : G := by
  rw [bind_ok] at h
  obtain ⟨⟨a, q⟩, h1, h2⟩ := h
  exact hf a q (advances_trans h0 (hx a q h1)) h2

theorem fstring_args_counter (args : List (String × VarType)) (result : String) (p : Parser) :
    (fstring_args args result p).2.string_temp_counter = p.string_temp_counter := by
  induction args generalizing result p with
  | nil => rfl
  | cons a rest ih =>
    obtain ⟨arg, ty⟩ := a
    unfold fstring_args
    simp only []
    repeat' split
    all_goals
      rw [ih]
      try rfl

/-- The f-string branch names its temporary after the counter and leaves the next number. -/
theorem parse_fstring_expr_name (env : Env) (rec : Parser → Res (Expr × Parser))
    (hrec : Moves rec) (n : Nat) (p : Parser) (e : Expr) (q : Parser)
    (h : parse_fstring_expr env rec n p = .ok (e, q)) :
    p.string_temp_counter < q.string_temp_counter ∧
    ∃ body, e.1 = body ++ temp_name "temp_string_" (q.string_temp_counter - 1) := by
  have h0 := advances_refl p
  unfold parse_fstring_expr at h
  refine span_step _ _ p _ _ h0 (fun a q hq => expect_moves _ _ _ _ hq) ?_ h
  intro _ p1 h0 h
  refine span_step _ _ p _ _ h0
    (fun a q hq => fstring_loop_moves env rec hrec n _ _ _ _ _ hq) ?_ h
  intro fa p2 h0 h
  refine span_step _ _ p _ _ h0 (fun a q hq => expect_moves _ _ _ _ hq) ?_ h
  intro _ p3 h0 h
  simp only [pure, Except.pure, Except.ok.injEq, Prod.mk.injEq] at h
  obtain ⟨rfl, rfl⟩ := h
  have hle := h0.2.2.1
  simp only [add_include, fstring_args_counter, temp_name, Nat.add_sub_cancel]
  exact ⟨by omega, _, (String.append_assoc _ _ _).symm⟩

/-- The list branch names its temporary after the counter and leaves the next number. -/
theorem parse_list_expr_name (env : Env) (rec : Parser → Res (Expr × Parser))
    (hrec : Moves rec) (n : Nat) (p : Parser) (e : Expr) (q : Parser)
    (h : parse_list_expr env rec n p = .ok (e, q)) :
    p.string_temp_counter < q.string_temp_counter ∧
    ∃ body, e.1 = body ++ temp_name "temp_list_" (q.string_temp_counter - 1) := by
  have h0 := advances_refl p
  unfold parse_list_expr at h
  refine span_step _ _ p _ _ h0 (fun a q hq => expect_moves _ _ _ _ hq) ?_ h
  intro _ p1 h0 h
  refine goal_read _ _ _ ?_ h
  intro t h
  simp only [] at h
  by_cases c1 : t.type ≠ .RBRACKET
  · rw [if_pos c1] at h
    refine span_step _ _ p _ _ h0 (fun a q hq => hrec _ _ _ hq) ?_ h
    intro expr p3 h0 h
    refine span_step _ _ p _ _ h0
      (fun a q hq => elements_loop_moves rec hrec _ _ _ _ _ _ _ hq) ?_ h
    intro els p4 h0 h
    refine span_step _ _ p _ _ h0 (fun a q hq => expect_moves _ _ _ _ hq) ?_ h
    intro _ p5 h0 h
    simp only [pure, Except.pure, Except.ok.injEq, Prod.mk.injEq] at h
    obtain ⟨rfl, rfl⟩ := h
    have hle := h0.2.2.1
    simp only [add_include, temp_name, Nat.add_sub_cancel]
    exact ⟨by omega, _, rfl⟩
  · rw [if_neg c1] at h
    refine span_step _ _ p _ _ h0 (fun a q hq => expect_moves _ _ _ _ hq) ?_ h
    intro _ p5 h0 h
    simp only [pure, Except.pure, Except.ok.injEq, Prod.mk.injEq] at h
    obtain ⟨rfl, rfl⟩ := h
    have hle := h0.2.2.1
    simp only [add_include, temp_name, Nat.add_sub_cancel]
    exact ⟨by omega, _, rfl⟩

/-- The parenthesis branch names its temporary after the counter and leaves the next number. -/
theorem parse_tuple_expr_name (env : Env) (rec : Parser → Res (Expr × Parser))
    (hrec : Moves rec) (n : Nat) (p : Parser) (e : Expr) (q : Parser)
    (h : parse_tuple_expr env rec n p = .ok (e, q)) :
    p.string_temp_counter < q.string_temp_counter ∧
    ∃ body, e.1 = body ++ temp_name "temp_tuple_" (q.string_temp_counter - 1) := by
  have h0 := advances_refl p
  unfold parse_tuple_expr at h
  refine span_step _ _ p _ _ h0 (fun a q hq => expect_moves _ _ _ _ hq) ?_ h
  intro _ p1 h0 h
  refine goal_read _ _ _ ?_ h
  intro t h
  simp only [] at h
  by_cases c1 : t.type ≠ .RPAREN
  · rw [if_pos c1] at h
    refine span_step _ _ p _ _ h0 (fun a q hq => hrec _ _ _ hq) ?_ h
    intro expr p3 h0 h
    refine span_step _ _ p _ _ h0
      (fun a q hq => elements_loop_moves rec hrec _ _ _ _ _ _ _ hq) ?_ h
    intro els p4 h0 h
    refine span_step _ _ p _ _ h0 (fun a q hq => expect_moves _ _ _ _ hq) ?_ h
    intro _ p5 h0 h
    simp only [pure, Except.pure, Except.ok.injEq, Prod.mk.injEq] at h
    obtain ⟨rfl, rfl⟩ := h
    have hle := h0.2.2.1
    simp only [add_include, temp_name, Nat.add_sub_cancel]
    exact ⟨by omega, _, rfl⟩
  · rw [if_neg c1] at h
    refine span_step _ _ p _ _ h0 (fun a q hq => expect_moves _ _ _ _ hq) ?_ h
    intro _ p5 h0 h
    simp only [pure, Except.pure, Except.ok.injEq, Prod.mk.injEq] at h
    obtain ⟨rfl, rfl⟩ := h
    have hle := h0.2.2.1
    simp only [add_include, temp_name, Nat.add_sub_cancel]
    exact ⟨by omega, _, rfl⟩

/-- The brace branch names its temporary after the counter and leaves the next number. -/
theorem parse_dict_expr_name (env : Env) (rec : Parser → Res (Expr × Parser))
    (hrec : Moves rec) (n : Nat) (p : Parser) (e : Expr) (q : Parser)
    (h : parse_dict_expr env rec n p = .ok (e, q)) :
    p.string_temp_counter < q.string_temp_counter ∧
    ∃ body, e.1 = body ++ temp_name "temp_dict_" (q.string_temp_counter - 1) := by
  have h0 := advances_refl p
  unfold parse_dict_expr at h
  refine span_step _ _ p _ _ h0 (fun a q hq => expect_moves _ _ _ _ hq) ?_ h
  intro _ p1 h0 h
  refine goal_read _ _ _ ?_ h
  intro t h
  simp only [] at h
  by_cases c1 : t.type ≠ .RBRACE
  · rw [if_pos c1] at h
    refine span_step _ _ p _ _ h0 (fun a q hq => hrec _ _ _ hq) ?_ h
    intro key p3 h0 h
    simp only [] at h
    by_cases c2 : key.2 ≠ .STRING
    · rw [if_pos c2, bind_ok] at h
      obtain ⟨y, hy, -⟩ := h
      simp at hy
    · rw [if_neg c2] at h
      refine span_step _ _ p _ _ h0 (fun a q hq => expect_moves _ _ _ _ hq) ?_ h
      intro _ p4 h0 h
      refine span_step _ _ p _ _ h0 (fun a q hq => hrec _ _ _ hq) ?_ h
      intro value p5 h0 h
      refine span_step _ _ p _ _ h0
        (fun a q hq => entries_loop_moves rec hrec _ _ _ _ _ _ hq) ?_ h
      intro es p6 h0 h
      refine span_step _ _ p _ _ h0 (fun a q hq => expect_moves _ _ _ _ hq) ?_ h
      intro _ p7 h0 h
      simp only [pure, Except.pure, Except.ok.injEq, Prod.mk.injEq] at h
      obtain ⟨rfl, rfl⟩ := h
      have hle := h0.2.2.1
      simp only [add_include, temp_name, Nat.add_sub_cancel]
      exact ⟨by omega, _, rfl⟩
  · rw [if_neg c1] at h
    refine span_step _ _ p _ _ h0 (fun a q hq => expect_moves _ _ _ _ hq) ?_ h
    intro _ p7 h0 h
    simp only [pure, Except.pure, Except.ok.injEq, Prod.mk.injEq] at h
    obtain ⟨rfl, rfl⟩ := h
    have hle := h0.2.2.1
    simp only [add_include, temp_name, Nat.add_sub_cancel]
    exact ⟨by omega, _, rfl⟩

theorem erase_ok {α : Type} (a : α) (q : Parser) (l : List String) :
    erase (Except.ok (a, q, l)) = .ok (a, q) := rfl

theorem erase_pure {α : Type} (a : α) (q : Parser) (l : List String) :
    erase (pure (a, q, l)) = pure (a, q) := rfl

theorem erase_error {α : Type} (e : Fault) :
    erase (Except.error e : Res (α × Parser × List String)) = .error e := rfl

theorem erase_throw {α : Type} (msg : String) (p : Parser) :
    erase (throw_at msg p : Res (α × Parser × List String)) = throw_at msg p := by
  unfold throw_at
  split <;> rfl

/-- A step that both functions take alike and that returns a parser record. -/
theorem erase_bind_pair {α β : Type} (x : Res (α × Parser))
    (f_log : α × Parser → Res (β × Parser × List String)) (f : α × Parser → Res (β × Parser))
    (h : ∀ a q, erase (f_log (a, q)) = f (a, q)) : erase (x >>= f_log) = (x >>= f) := by
  cases x with
  | error e => rfl
  | ok r =>
    obtain ⟨a, q⟩ := r
    exact h a q

/-- A step that both functions take alike. -/
theorem erase_bind_read {α β : Type} (x : Res α)
    (f_log : α → Res (β × Parser × List String)) (f : α → Res (β × Parser))
    (h : ∀ a, erase (f_log a) = f a) : erase (x >>= f_log) = (x >>= f) := by
  cases x with
  | error e => rfl
  | ok a => exact h a

/-- A step that passes the list of names on. -/
theorem erase_bind_logged {α β : Type} (x_log : Res (α × Parser × List String))
    (x : Res (α × Parser)) (hx : erase x_log = x)
    (f_log : α × Parser × List String → Res (β × Parser × List String))
    (f : α × Parser → Res (β × Parser))
    (h : ∀ a q l, erase (f_log (a, q, l)) = f (a, q)) : erase (x_log >>= f_log) = (x >>= f) := by
  subst hx
  cases x_log with
  | error e => rfl
  | ok r =>
    obtain ⟨a, q, l⟩ := r
    exact h a q l

/-- A failing step before a continuation. -/
theorem erase_throw_bind {α β γ : Type} (msg : String) (p : Parser)
    (f_log : α → Res (β × Parser × List String)) (f : γ → Res (β × Parser)) :
    erase ((throw_at msg p : Res α) >>= f_log) = ((throw_at msg p : Res γ) >>= f) := by
  unfold throw_at
  split <;> rfl

/-- A test that both functions make alike. -/
theorem erase_ite {α : Type} (c : Prop) [Decidable c] (a_log b_log : Res (α × Parser × List String))
    (a b : Res (α × Parser)) (ha : c → erase a_log = a) (hb : ¬c → erase b_log = b) :
    erase (if c then a_log else b_log) = if c then a else b := by
  by_cases h : c
  · rw [if_pos h, if_pos h]
    exact ha h
  · rw [if_neg h, if_neg h]
    exact hb h

theorem args_loop_erases (rec_log : ExprLog) (rec : Parser → Res (Expr × Parser)) (hrec : Erases rec_log rec) : ∀ (n : Nat) (args : List String),
    Erases (args_loop_log rec_log n args) (args_loop rec n args) := by
  intro n
  induction n with
  | zero => intro args p log; rfl
  | succ n ih =>
    intro args p log
    unfold args_loop_log args_loop
    generalize args_loop_log rec_log n = loop_log at ih ⊢
    generalize args_loop rec n = loop at ih ⊢
    repeat' first
      | (refine erase_ite _ _ _ _ _ ?_ ?_ <;> intro _)
      | exact erase_pure _ _ _
      | exact erase_ok _ _ _
      | exact erase_error _
      | exact erase_throw _ _
      | exact erase_throw_bind _ _ _ _
      | exact (ih _ _ _)
      | exact (hrec _ _)
      | (refine erase_bind_logged _ _ (hrec _ _) _ _ ?_; intro _ _ _; try dsimp only)
      | (refine erase_bind_pair _ _ _ ?_; intro _ _; try dsimp only)
      | (refine erase_bind_read _ _ _ ?_; intro _; try dsimp only)

theorem parse_args_erases (rec_log : ExprLog) (rec : Parser → Res (Expr × Parser)) (hrec : Erases rec_log rec) (n : Nat) :
    Erases (parse_args_log rec_log n) (parse_args rec n) := by
  intro p log
  unfold parse_args_log parse_args
  have h0 := args_loop_erases _ _ hrec
  generalize args_loop_log rec_log = g0_log at h0 ⊢
  generalize args_loop rec = g0 at h0 ⊢
  repeat' first
    | (refine erase_ite _ _ _ _ _ ?_ ?_ <;> intro _)
    | exact erase_pure _ _ _
    | exact erase_ok _ _ _
    | exact erase_error _
    | exact erase_throw _ _
    | exact erase_throw_bind _ _ _ _
    | exact (hrec _ _)
    | exact (h0 _ _ _ _)
    | (refine erase_bind_logged _ _ (hrec _ _) _ _ ?_; intro _ _ _; try dsimp only)
    | (refine erase_bind_read _ _ _ ?_; intro _; try dsimp only)

theorem parse_call_expr_erases (rec_log : ExprLog) (rec : Parser → Res (Expr × Parser)) (hrec : Erases rec_log rec) (n : Nat) :
    Erases (parse_call_expr_log rec_log n) (parse_call_expr rec n) := by
  intro p log
  unfold parse_call_expr_log parse_call_expr
  have h0 := parse_args_erases _ _ hrec
  generalize parse_args_log rec_log = g0_log at h0 ⊢
  generalize parse_args rec = g0 at h0 ⊢
  repeat' first
    | exact erase_pure _ _ _
    | exact erase_ok _ _ _
    | exact erase_error _
    | exact erase_throw _ _
    | exact erase_throw_bind _ _ _ _
    | exact (hrec _ _)
    | exact (h0 _ _ _)
    | (refine erase_bind_logged _ _ (h0 _ _ _) _ _ ?_; intro _ _ _; try dsimp only)
    | (refine erase_bind_pair _ _ _ ?_; intro _ _; try dsimp only)
    | split
    | simp_all only [Option.some.injEq, reduceCtorEq]

theorem parse_index_expr_erases (rec_log : ExprLog) (rec : Parser → Res (Expr × Parser)) (hrec : Erases rec_log rec) :
    Erases (parse_index_expr_log rec_log) (parse_index_expr rec) := by
  intro p log
  unfold parse_index_expr_log parse_index_expr
  repeat' first
    | exact erase_pure _ _ _
    | exact erase_ok _ _ _
    | exact erase_error _
    | exact erase_throw _ _
    | exact erase_throw_bind _ _ _ _
    | exact (hrec _ _)
    | (refine erase_bind_logged _ _ (hrec _ _) _ _ ?_; intro _ _ _; try dsimp only)
    | (refine erase_bind_pair _ _ _ ?_; intro _ _; try dsimp only)
    | split
    | simp_all only [Option.some.injEq, reduceCtorEq]
    | contradiction

theorem parse_method_expr_erases (env : Env) (rec_log : ExprLog) (rec : Parser → Res (Expr × Parser)) (hrec : Erases rec_log rec) (n : Nat) :
    Erases (parse_method_expr_log env rec_log n) (parse_method_expr env rec n) := by
  intro p log
  unfold parse_method_expr_log parse_method_expr
  have h0 := parse_args_erases _ _ hrec
  generalize parse_args_log rec_log = g0_log at h0 ⊢
  generalize parse_args rec = g0 at h0 ⊢
  refine erase_bind_pair _ _ _ ?_; intro tok p1; dsimp only
  refine erase_bind_pair _ _ _ ?_; intro _ p2; dsimp only
  refine erase_bind_pair _ _ _ ?_; intro mtok p3; dsimp only
  refine erase_bind_pair _ _ _ ?_; intro _ p4; dsimp only
  refine erase_bind_logged _ _ (h0 _ _ _) _ _ ?_; intro args p5 l; dsimp only
  refine erase_bind_pair _ _ _ ?_; intro _ p6; dsimp only
  generalize map_find p6.variables_ tok.value = o
  cases o with
  | none => exact erase_throw _ _
  | some var_type =>
    dsimp only
    refine erase_bind_pair _ _ _ ?_; intro _ p7; dsimp only
    split_ifs
    all_goals first
      | exact erase_pure _ _ _
      | (refine erase_bind_read _ _ _ ?_; intro _; try dsimp only
         first
           | exact erase_pure _ _ _
           | (refine erase_bind_read _ _ _ ?_; intro _; exact erase_pure _ _ _))

theorem fstring_loop_erases (env : Env) (rec_log : ExprLog) (rec : Parser → Res (Expr × Parser)) (hrec : Erases rec_log rec) : ∀ (n : Nat) (format : String) (args : List (String × VarType)),
    Erases (fstring_loop_log env rec_log n format args) (fstring_loop env rec n format args) := by
  intro n
  induction n with
  | zero => intro format args p log; rfl
  | succ n ih =>
    intro format args p log
    unfold fstring_loop_log fstring_loop
    generalize fstring_loop_log env rec_log n = loop_log at ih ⊢
    generalize fstring_loop env rec n = loop at ih ⊢
    repeat' first
      | (refine erase_ite _ _ _ _ _ ?_ ?_ <;> intro _)
      | exact erase_pure _ _ _
      | exact erase_ok _ _ _
      | exact erase_error _
      | exact erase_throw _ _
      | exact erase_throw_bind _ _ _ _
      | exact (ih _ _ _ _)
      | exact (hrec _ _)
      | (refine erase_bind_logged _ _ (hrec _ _) _ _ ?_; intro _ _ _; try dsimp only)
      | (refine erase_bind_pair _ _ _ ?_; intro _ _; try dsimp only)
      | (refine erase_bind_read _ _ _ ?_; intro _; try dsimp only)

theorem parse_fstring_expr_erases (env : Env) (rec_log : ExprLog) (rec : Parser → Res (Expr × Parser)) (hrec : Erases rec_log rec) (n : Nat) :
    Erases (parse_fstring_expr_log env rec_log n) (parse_fstring_expr env rec n) := by
  intro p log
  unfold parse_fstring_expr_log parse_fstring_expr
  have h0 := fstring_loop_erases env _ _ hrec
  generalize fstring_loop_log env rec_log = g0_log at h0 ⊢
  generalize fstring_loop env rec = g0 at h0 ⊢
  repeat' first
    | exact erase_pure _ _ _
    | exact erase_ok _ _ _
    | exact erase_error _
    | exact erase_throw _ _
    | exact erase_throw_bind _ _ _ _
    | exact (hrec _ _)
    | exact (h0 _ _ _ _ _)
    | (refine erase_bind_logged _ _ (h0 _ _ _ _ _) _ _ ?_; intro _ _ _; try dsimp only)
    | (refine erase_bind_pair _ _ _ ?_; intro _ _; try dsimp only)

theorem elements_loop_erases (rec_log : ExprLog) (rec : Parser → Res (Expr × Parser)) (hrec : Erases rec_log rec) (msg : String) (element_type : VarType) : ∀ (n : Nat) (elements : List String),
    Erases (elements_loop_log rec_log msg element_type n elements) (elements_loop rec msg element_type n elements) := by
  intro n
  induction n with
  | zero => intro elements p log; rfl
  | succ n ih =>
    intro elements p log
    unfold elements_loop_log elements_loop
    generalize elements_loop_log rec_log msg element_type n = loop_log at ih ⊢
    generalize elements_loop rec msg element_type n = loop at ih ⊢
    repeat' first
      | (refine erase_ite _ _ _ _ _ ?_ ?_ <;> intro _)
      | exact erase_pure _ _ _
      | exact erase_ok _ _ _
      | exact erase_error _
      | exact erase_throw _ _
      | exact erase_throw_bind _ _ _ _
      | exact (ih _ _ _)
      | exact (hrec _ _)
      | (refine erase_bind_logged _ _ (hrec _ _) _ _ ?_; intro _ _ _; try dsimp only)
      | (refine erase_bind_pair _ _ _ ?_; intro _ _; try dsimp only)
      | (refine erase_bind_read _ _ _ ?_; intro _; try dsimp only)

theorem parse_list_expr_erases (env : Env) (rec_log : ExprLog) (rec : Parser → Res (Expr × Parser)) (hrec : Erases rec_log rec) (n : Nat) :
    Erases (parse_list_expr_log env rec_log n) (parse_list_expr env rec n) := by
  intro p log
  unfold parse_list_expr_log parse_list_expr
  have h0 := (fun msg ty => elements_loop_erases _ _ hrec msg ty)
  generalize elements_loop_log rec_log = g0_log at h0 ⊢
  generalize elements_loop rec = g0 at h0 ⊢
  repeat' first
    | (refine erase_ite _ _ _ _ _ ?_ ?_ <;> intro _)
    | exact erase_pure _ _ _
    | exact erase_ok _ _ _
    | exact erase_error _
    | exact erase_throw _ _
    | exact erase_throw_bind _ _ _ _
    | exact (hrec _ _)
    | exact (h0 _ _ _ _ _ _)
    | (refine erase_bind_logged _ _ (hrec _ _) _ _ ?_; intro _ _ _; try dsimp only)
    | (refine erase_bind_logged _ _ (h0 _ _ _ _ _ _) _ _ ?_; intro _ _ _; try dsimp only)
    | (refine erase_bind_pair _ _ _ ?_; intro _ _; try dsimp only)
    | (refine erase_bind_read _ _ _ ?_; intro _; try dsimp only)

theorem parse_tuple_expr_erases (env : Env) (rec_log : ExprLog) (rec : Parser → Res (Expr × Parser)) (hrec : Erases rec_log rec) (n : Nat) :
    Erases (parse_tuple_expr_log env rec_log n) (parse_tuple_expr env rec n) := by
  intro p log
  unfold parse_tuple_expr_log parse_tuple_expr
  have h0 := (fun msg ty => elements_loop_erases _ _ hrec msg ty)
  generalize elements_loop_log rec_log = g0_log at h0 ⊢
  generalize elements_loop rec = g0 at h0 ⊢
  repeat' first
    | (refine erase_ite _ _ _ _ _ ?_ ?_ <;> intro _)
    | exact erase_pure _ _ _
    | exact erase_ok _ _ _
    | exact erase_error _
    | exact erase_throw _ _
    | exact erase_throw_bind _ _ _ _
    | exact (hrec _ _)
    | exact (h0 _ _ _ _ _ _)
    | (refine erase_bind_logged _ _ (hrec _ _) _ _ ?_; intro _ _ _; try dsimp only)
    | (refine erase_bind_logged _ _ (h0 _ _ _ _ _ _) _ _ ?_; intro _ _ _; try dsimp only)
    | (refine erase_bind_pair _ _ _ ?_; intro _ _; try dsimp only)
    | (refine erase_bind_read _ _ _ ?_; intro _; try dsimp only)

theorem entries_loop_erases (rec_log : ExprLog) (rec : Parser → Res (Expr × Parser)) (hrec : Erases rec_log rec) (value_type : VarType) : ∀ (n : Nat) (entries : List (String × String)),
    Erases (entries_loop_log rec_log value_type n entries) (entries_loop rec value_type n entries) := by
  intro n
  induction n with
  | zero => intro entries p log; rfl
  | succ n ih =>
    intro entries p log
    unfold entries_loop_log entries_loop
    generalize entries_loop_log rec_log value_type n = loop_log at ih ⊢
    generalize entries_loop rec value_type n = loop at ih ⊢
    repeat' first
      | (refine erase_ite _ _ _ _ _ ?_ ?_ <;> intro _)
      | exact erase_pure _ _ _
      | exact erase_ok _ _ _
      | exact erase_error _
      | exact erase_throw _ _
      | exact erase_throw_bind _ _ _ _
      | exact (ih _ _ _)
      | exact (hrec _ _)
      | (refine erase_bind_logged _ _ (hrec _ _) _ _ ?_; intro _ _ _; try dsimp only)
      | (refine erase_bind_pair _ _ _ ?_; intro _ _; try dsimp only)
      | (refine erase_bind_read _ _ _ ?_; intro _; try dsimp only)

theorem parse_dict_expr_erases (env : Env) (rec_log : ExprLog) (rec : Parser → Res (Expr × Parser)) (hrec : Erases rec_log rec) (n : Nat) :
    Erases (parse_dict_expr_log env rec_log n) (parse_dict_expr env rec n) := by
  intro p log
  unfold parse_dict_expr_log parse_dict_expr
  have h0 := (fun ty => entries_loop_erases _ _ hrec ty)
  generalize entries_loop_log rec_log = g0_log at h0 ⊢
  generalize entries_loop rec = g0 at h0 ⊢
  repeat' first
    | (refine erase_ite _ _ _ _ _ ?_ ?_ <;> intro _)
    | exact erase_pure _ _ _
    | exact erase_ok _ _ _
    | exact erase_error _
    | exact erase_throw _ _
    | exact erase_throw_bind _ _ _ _
    | exact (hrec _ _)
    | exact (h0 _ _ _ _ _)
    | (refine erase_bind_logged _ _ (hrec _ _) _ _ ?_; intro _ _ _; try dsimp only)
    | (refine erase_bind_logged _ _ (h0 _ _ _ _ _) _ _ ?_; intro _ _ _; try dsimp only)
    | (refine erase_bind_pair _ _ _ ?_; intro _ _; try dsimp only)
    | (refine erase_bind_read _ _ _ ?_; intro _; try dsimp only)

theorem parse_len_expr_erases (rec_log : ExprLog) (rec : Parser → Res (Expr × Parser)) (hrec : Erases rec_log rec) :
    Erases (parse_len_expr_log rec_log) (parse_len_expr rec) := by
  intro p log
  unfold parse_len_expr_log parse_len_expr
  repeat' first
    | (refine erase_ite _ _ _ _ _ ?_ ?_ <;> intro _)
    | exact erase_pure _ _ _
    | exact erase_ok _ _ _
    | exact erase_error _
    | exact erase_throw _ _
    | exact erase_throw_bind _ _ _ _
    | exact (hrec _ _)
    | (refine erase_bind_logged _ _ (hrec _ _) _ _ ?_; intro _ _ _; try dsimp only)
    | (refine erase_bind_pair _ _ _ ?_; intro _ _; try dsimp only)

theorem binary_operators_erases (rec_log : ExprLog) (rec : Parser → Res (Expr × Parser)) (hrec : Erases rec_log rec) : ∀ (n : Nat) (result : String) (type : VarType),
    Erases (binary_operators_log rec_log n result type) (binary_operators rec n result type) := by
  intro n
  induction n with
  | zero => intro result type p log; rfl
  | succ n ih =>
    intro result type p log
    unfold binary_operators_log binary_operators
    generalize binary_operators_log rec_log n = loop_log at ih ⊢
    generalize binary_operators rec n = loop at ih ⊢
    repeat' first
      | (refine erase_ite _ _ _ _ _ ?_ ?_ <;> intro _)
      | exact erase_pure _ _ _
      | exact erase_ok _ _ _
      | exact erase_error _
      | exact erase_throw _ _
      | exact erase_throw_bind _ _ _ _
      | exact (ih _ _ _ _)
      | exact (hrec _ _)
      | (refine erase_bind_logged _ _ (hrec _ _) _ _ ?_; intro _ _ _; try dsimp only)
      | (refine erase_bind_pair _ _ _ ?_; intro _ _; try dsimp only)
      | (refine erase_bind_read _ _ _ ?_; intro _; try dsimp only)

theorem parse_primary_erases (env : Env) (rec_log : ExprLog) (rec : Parser → Res (Expr × Parser)) (hrec : Erases rec_log rec) (n : Nat) :
    Erases (parse_primary_log env rec_log n) (parse_primary env rec n) := by
  intro p log
  unfold parse_primary_log parse_primary
  have h0 := parse_call_expr_erases _ _ hrec n
  generalize parse_call_expr_log rec_log n = g0_log at h0 ⊢
  generalize parse_call_expr rec n = g0 at h0 ⊢
  have h1 := parse_index_expr_erases _ _ hrec
  generalize parse_index_expr_log rec_log = g1_log at h1 ⊢
  generalize parse_index_expr rec = g1 at h1 ⊢
  have h2 := parse_method_expr_erases env _ _ hrec n
  generalize parse_method_expr_log env rec_log n = g2_log at h2 ⊢
  generalize parse_method_expr env rec n = g2 at h2 ⊢
  have h3 := parse_fstring_expr_erases env _ _ hrec n
  generalize parse_fstring_expr_log env rec_log n = g3_log at h3 ⊢
  generalize parse_fstring_expr env rec n = g3 at h3 ⊢
  have h4 := parse_list_expr_erases env _ _ hrec n
  generalize parse_list_expr_log env rec_log n = g4_log at h4 ⊢
  generalize parse_list_expr env rec n = g4 at h4 ⊢
  have h5 := parse_tuple_expr_erases env _ _ hrec n
  generalize parse_tuple_expr_log env rec_log n = g5_log at h5 ⊢
  generalize parse_tuple_expr env rec n = g5 at h5 ⊢
  have h6 := parse_dict_expr_erases env _ _ hrec n
  generalize parse_dict_expr_log env rec_log n = g6_log at h6 ⊢
  generalize parse_dict_expr env rec n = g6 at h6 ⊢
  have h7 := parse_len_expr_erases _ _ hrec
  generalize parse_len_expr_log rec_log = g7_log at h7 ⊢
  generalize parse_len_expr rec = g7 at h7 ⊢
  repeat' first
    | (refine erase_ite _ _ _ _ _ ?_ ?_ <;> intro _)
    | exact erase_pure _ _ _
    | exact erase_ok _ _ _
    | exact erase_error _
    | exact erase_throw _ _
    | exact erase_throw_bind _ _ _ _
    | exact (hrec _ _)
    | exact (h0 _ _)
    | exact (h1 _ _)
    | exact (h2 _ _)
    | exact (h3 _ _)
    | exact (h4 _ _)
    | exact (h5 _ _)
    | exact (h6 _ _)
    | exact (h7 _ _)
    | (refine erase_bind_logged _ _ (h0 _ _) _ _ ?_; intro _ _ _; try dsimp only)
    | (refine erase_bind_logged _ _ (h1 _ _) _ _ ?_; intro _ _ _; try dsimp only)
    | (refine erase_bind_logged _ _ (h2 _ _) _ _ ?_; intro _ _ _; try dsimp only)
    | (refine erase_bind_logged _ _ (h3 _ _) _ _ ?_; intro _ _ _; try dsimp only)
    | (refine erase_bind_logged _ _ (h4 _ _) _ _ ?_; intro _ _ _; try dsimp only)
    | (refine erase_bind_logged _ _ (h5 _ _) _ _ ?_; intro _ _ _; try dsimp only)
    | (refine erase_bind_logged _ _ (h6 _ _) _ _ ?_; intro _ _ _; try dsimp only)
    | (refine erase_bind_logged _ _ (h7 _ _) _ _ ?_; intro _ _ _; try dsimp only)
    | (refine erase_bind_pair _ _ _ ?_; intro _ _; try dsimp only)
    | (refine erase_bind_read _ _ _ ?_; intro _; try dsimp only)

theorem parse_expression_erases (env : Env) : ∀ (fuel : Nat),
    Erases (parse_expression_log env fuel) (parse_expression env fuel) := by
  intro fuel
  induction fuel with
  | zero => intro p log; rfl
  | succ fuel ih =>
    intro p log
    unfold parse_expression_log parse_expression
    have h0 := parse_primary_erases env _ _ ih fuel
    generalize parse_primary_log env (parse_expression_log env fuel) fuel = g0_log at h0 ⊢
    generalize parse_primary env (parse_expression env fuel) fuel = g0 at h0 ⊢
    have h1 := binary_operators_erases _ _ ih fuel
    generalize binary_operators_log (parse_expression_log env fuel) fuel = g1_log at h1 ⊢
    generalize binary_operators (parse_expression env fuel) fuel = g1 at h1 ⊢
    repeat' first
      | (refine erase_ite _ _ _ _ _ ?_ ?_ <;> intro _)
      | exact erase_pure _ _ _
      | exact erase_ok _ _ _
      | exact erase_error _
      | exact erase_throw _ _
      | exact erase_throw_bind _ _ _ _
      | exact (h0 _ _)
      | exact (h1 _ _ _ _)
      | (refine erase_bind_logged _ _ (h0 _ _) _ _ ?_; intro _ _ _; try dsimp only)

theorem parse_assignment_erases (env : Env) (fuel : Nat) :
    Erases (parse_assignment_log env fuel) (parse_assignment env fuel) := by
  intro p log
  unfold parse_assignment_log parse_assignment
  have h0 := parse_expression_erases env fuel
  generalize parse_expression_log env fuel = g0_log at h0 ⊢
  generalize parse_expression env fuel = g0 at h0 ⊢
  repeat' first
    | exact erase_pure _ _ _
    | exact erase_ok _ _ _
    | exact erase_error _
    | exact erase_throw _ _
    | exact erase_throw_bind _ _ _ _
    | exact (h0 _ _)
    | (refine erase_bind_logged _ _ (h0 _ _) _ _ ?_; intro _ _ _; try dsimp only)
    | (refine erase_bind_pair _ _ _ ?_; intro _ _; try dsimp only)
    | split
    | simp_all only [Option.some.injEq, reduceCtorEq]

theorem parse_function_call_erases (env : Env) (fuel : Nat) :
    Erases (parse_function_call_log env fuel) (parse_function_call env fuel) := by
  intro p log
  unfold parse_function_call_log parse_function_call
  have h0 := parse_args_erases _ _ (parse_expression_erases env fuel)
  generalize parse_args_log (parse_expression_log env fuel) = g0_log at h0 ⊢
  generalize parse_args (parse_expression env fuel) = g0 at h0 ⊢
  repeat' first
    | exact erase_pure _ _ _
    | exact erase_ok _ _ _
    | exact erase_error _
    | exact erase_throw _ _
    | exact erase_throw_bind _ _ _ _
    | exact (h0 _ _ _)
    | (refine erase_bind_logged _ _ (h0 _ _ _) _ _ ?_; intro _ _ _; try dsimp only)
    | (refine erase_bind_pair _ _ _ ?_; intro _ _; try dsimp only)
    | split
    | simp_all only [Option.some.injEq, reduceCtorEq]

theorem parse_method_call_erases (env : Env) (fuel : Nat) :
    Erases (parse_method_call_log env fuel) (parse_method_call env fuel) := by
  intro p log
  unfold parse_method_call_log parse_method_call
  have h0 := parse_args_erases _ _ (parse_expression_erases env fuel)
  generalize parse_args_log (parse_expression_log env fuel) = g0_log at h0 ⊢
  generalize parse_args (parse_expression env fuel) = g0 at h0 ⊢
  repeat' first
    | exact erase_pure _ _ _
    | exact erase_ok _ _ _
    | exact erase_error _
    | exact erase_throw _ _
    | exact erase_throw_bind _ _ _ _
    | exact (h0 _ _ _)
    | (refine erase_bind_logged _ _ (h0 _ _ _) _ _ ?_; intro _ _ _; try dsimp only)
    | (refine erase_bind_pair _ _ _ ?_; intro _ _; try dsimp only)
    | split
    | simp_all only [Option.some.injEq, reduceCtorEq]

theorem parse_return_erases (env : Env) (fuel : Nat) :
    Erases (parse_return_log env fuel) (parse_return env fuel) := by
  intro p log
  unfold parse_return_log parse_return
  have h0 := parse_expression_erases env fuel
  generalize parse_expression_log env fuel = g0_log at h0 ⊢
  generalize parse_expression env fuel = g0 at h0 ⊢
  repeat' first
    | exact erase_pure _ _ _
    | exact erase_ok _ _ _
    | exact erase_error _
    | exact erase_throw _ _
    | exact erase_throw_bind _ _ _ _
    | exact (h0 _ _)
    | (refine erase_bind_logged _ _ (h0 _ _) _ _ ?_; intro _ _ _; try dsimp only)
    | (refine erase_bind_pair _ _ _ ?_; intro _ _; try dsimp only)

theorem print_loop_erases (env : Env) (fuel : Nat) : ∀ (n : Nat) (values : List (String × VarType)) (separator : String),
    Erases (print_loop_log env fuel n values separator) (print_loop env fuel n values separator) := by
  intro n
  induction n with
  | zero => intro values separator p log; rfl
  | succ n ih =>
    intro values separator p log
    unfold print_loop_log print_loop
    generalize print_loop_log env fuel n = loop_log at ih ⊢
    generalize print_loop env fuel n = loop at ih ⊢
    have h0 := parse_expression_erases env fuel
    generalize parse_expression_log env fuel = g0_log at h0 ⊢
    generalize parse_expression env fuel = g0 at h0 ⊢
    repeat' first
      | (refine erase_ite _ _ _ _ _ ?_ ?_ <;> intro _)
      | exact erase_pure _ _ _
      | exact erase_ok _ _ _
      | exact erase_error _
      | exact erase_throw _ _
      | exact erase_throw_bind _ _ _ _
      | exact (ih _ _ _ _)
      | exact (h0 _ _)
      | (refine erase_bind_logged _ _ (h0 _ _) _ _ ?_; intro _ _ _; try dsimp only)
      | (refine erase_bind_pair _ _ _ ?_; intro _ _; try dsimp only)
      | (refine erase_bind_read _ _ _ ?_; intro _; try dsimp only)

theorem parse_print_erases (env : Env) (fuel : Nat) :
    Erases (parse_print_log env fuel) (parse_print env fuel) := by
  intro p log
  unfold parse_print_log parse_print
  have h0 := parse_expression_erases env fuel
  generalize parse_expression_log env fuel = g0_log at h0 ⊢
  generalize parse_expression env fuel = g0 at h0 ⊢
  have h1 := print_loop_erases env fuel
  generalize print_loop_log env fuel = g1_log at h1 ⊢
  generalize print_loop env fuel = g1 at h1 ⊢
  repeat' first
    | (refine erase_ite _ _ _ _ _ ?_ ?_ <;> intro _)
    | exact erase_pure _ _ _
    | exact erase_ok _ _ _
    | exact erase_error _
    | exact erase_throw _ _
    | exact erase_throw_bind _ _ _ _
    | exact (h0 _ _)
    | exact (h1 _ _ _ _ _)
    | (refine erase_bind_logged _ _ (h0 _ _) _ _ ?_; intro _ _ _; try dsimp only)
    | (refine erase_bind_logged _ _ (h1 _ _ _ _ _) _ _ ?_; intro _ _ _; try dsimp only)
    | (refine erase_bind_pair _ _ _ ?_; intro _ _; try dsimp only)
    | (refine erase_bind_read _ _ _ ?_; intro _; try dsimp only)

theorem parse_index_assignment_erases (env : Env) (fuel : Nat) :
    Erases (parse_index_assignment_log env fuel) (parse_index_assignment env fuel) := by
  intro p log
  unfold parse_index_assignment_log parse_index_assignment
  have h0 := parse_expression_erases env fuel
  generalize parse_expression_log env fuel = g0_log at h0 ⊢
  generalize parse_expression env fuel = g0 at h0 ⊢
  refine erase_bind_pair _ _ _ ?_; intro tok p1; dsimp only
  refine erase_bind_pair _ _ _ ?_; intro _ p2; dsimp only
  refine erase_bind_logged _ _ (h0 _ _) _ _ ?_; intro index p3 l1; dsimp only
  refine erase_bind_pair _ _ _ ?_; intro _ p4; dsimp only
  refine erase_bind_pair _ _ _ ?_; intro _ p5; dsimp only
  refine erase_bind_logged _ _ (h0 _ _) _ _ ?_; intro value p6 l2; dsimp only
  refine erase_bind_pair _ _ _ ?_; intro _ p7; dsimp only
  generalize map_find p7.variables_ tok.value = o
  cases o with
  | none => exact erase_throw _ _
  | some var_type =>
    dsimp only
    split_ifs
    all_goals first
      | exact erase_pure _ _ _
      | exact erase_throw _ _

theorem block_loop_erases (stmt_log : StmtLog) (stmt : Stmt) (hstmt : Erases stmt_log stmt) (stop : TokenType → Bool) : ∀ (n : Nat) (body : List ASTNode),
    Erases (block_loop_log stmt_log stop n body) (block_loop stmt stop n body) := by
  intro n
  induction n with
  | zero => intro body p log; rfl
  | succ n ih =>
    intro body p log
    unfold block_loop_log block_loop
    generalize block_loop_log stmt_log stop n = loop_log at ih ⊢
    generalize block_loop stmt stop n = loop at ih ⊢
    repeat' first
      | (refine erase_ite _ _ _ _ _ ?_ ?_ <;> intro _)
      | exact erase_pure _ _ _
      | exact erase_ok _ _ _
      | exact erase_error _
      | exact erase_throw _ _
      | exact erase_throw_bind _ _ _ _
      | exact (ih _ _ _)
      | exact (hstmt _ _)
      | (refine erase_bind_logged _ _ (hstmt _ _) _ _ ?_; intro _ _ _; try dsimp only)
      | (refine erase_bind_read _ _ _ ?_; intro _; try dsimp only)

theorem parse_function_erases (env : Env) (stmt_log : StmtLog) (stmt : Stmt) (hstmt : Erases stmt_log stmt) (n : Nat) :
    Erases (parse_function_log env stmt_log n) (parse_function env stmt n) := by
  intro p log
  unfold parse_function_log parse_function
  have h0 := (fun stop => block_loop_erases _ _ hstmt stop)
  generalize block_loop_log stmt_log = g0_log at h0 ⊢
  generalize block_loop stmt = g0 at h0 ⊢
  repeat' first
    | (refine erase_ite _ _ _ _ _ ?_ ?_ <;> intro _)
    | exact erase_pure _ _ _
    | exact erase_ok _ _ _
    | exact erase_error _
    | exact erase_throw _ _
    | exact erase_throw_bind _ _ _ _
    | exact (hstmt _ _)
    | exact (h0 _ _ _ _ _)
    | (refine erase_bind_logged _ _ (h0 _ _ _ _ _) _ _ ?_; intro _ _ _; try dsimp only)
    | (refine erase_bind_pair _ _ _ ?_; intro _ _; try dsimp only)
    | (refine erase_bind_read _ _ _ ?_; intro _; try dsimp only)

theorem elif_loop_erases (env : Env) (stmt_log : StmtLog) (stmt : Stmt) (hstmt : Erases stmt_log stmt) (fuel : Nat) : ∀ (n : Nat) (clauses : List (String × List ASTNode)),
    Erases (elif_loop_log env stmt_log fuel n clauses) (elif_loop env stmt fuel n clauses) := by
  intro n
  induction n with
  | zero => intro clauses p log; rfl
  | succ n ih =>
    intro clauses p log
    unfold elif_loop_log elif_loop
    generalize elif_loop_log env stmt_log fuel n = loop_log at ih ⊢
    generalize elif_loop env stmt fuel n = loop at ih ⊢
    have h0 := parse_expression_erases env fuel
    generalize parse_expression_log env fuel = g0_log at h0 ⊢
    generalize parse_expression env fuel = g0 at h0 ⊢
    have h1 := (fun stop => block_loop_erases _ _ hstmt stop)
    generalize block_loop_log stmt_log = g1_log at h1 ⊢
    generalize block_loop stmt = g1 at h1 ⊢
    repeat' first
      | (refine erase_ite _ _ _ _ _ ?_ ?_ <;> intro _)
      | exact erase_pure _ _ _
      | exact erase_ok _ _ _
      | exact erase_error _
      | exact erase_throw _ _
      | exact erase_throw_bind _ _ _ _
      | exact (ih _ _ _)
      | exact (hstmt _ _)
      | exact (h0 _ _)
      | exact (h1 _ _ _ _ _)
      | (refine erase_bind_logged _ _ (h0 _ _) _ _ ?_; intro _ _ _; try dsimp only)
      | (refine erase_bind_logged _ _ (h1 _ _ _ _ _) _ _ ?_; intro _ _ _; try dsimp only)
      | (refine erase_bind_pair _ _ _ ?_; intro _ _; try dsimp only)
      | (refine erase_bind_read _ _ _ ?_; intro _; try dsimp only)

theorem parse_if_erases (env : Env) (stmt_log : StmtLog) (stmt : Stmt) (hstmt : Erases stmt_log stmt) (n : Nat) :
    Erases (parse_if_log env stmt_log n) (parse_if env stmt n) := by
  intro p log
  unfold parse_if_log parse_if
  have h0 := parse_expression_erases env n
  generalize parse_expression_log env n = g0_log at h0 ⊢
  generalize parse_expression env n = g0 at h0 ⊢
  have h1 := (fun stop => block_loop_erases _ _ hstmt stop)
  generalize block_loop_log stmt_log = g1_log at h1 ⊢
  generalize block_loop stmt = g1 at h1 ⊢
  have h2 := elif_loop_erases env _ _ hstmt n
  generalize elif_loop_log env stmt_log n = g2_log at h2 ⊢
  generalize elif_loop env stmt n = g2 at h2 ⊢
  repeat' first
    | (refine erase_ite _ _ _ _ _ ?_ ?_ <;> intro _)
    | exact erase_pure _ _ _
    | exact erase_ok _ _ _
    | exact erase_error _
    | exact erase_throw _ _
    | exact erase_throw_bind _ _ _ _
    | exact (hstmt _ _)
    | exact (h0 _ _)
    | exact (h1 _ _ _ _ _)
    | exact (h2 _ _ _ _)
    | (refine erase_bind_logged _ _ (h0 _ _) _ _ ?_; intro _ _ _; try dsimp only)
    | (refine erase_bind_logged _ _ (h1 _ _ _ _ _) _ _ ?_; intro _ _ _; try dsimp only)
    | (refine erase_bind_logged _ _ (h2 _ _ _ _) _ _ ?_; intro _ _ _; try dsimp only)
    | (refine erase_bind_pair _ _ _ ?_; intro _ _; try dsimp only)
    | (refine erase_bind_read _ _ _ ?_; intro _; try dsimp only)

theorem parse_for_erases (env : Env) (stmt_log : StmtLog) (stmt : Stmt) (hstmt : Erases stmt_log stmt) (n : Nat) :
    Erases (parse_for_log env stmt_log n) (parse_for env stmt n) := by
  intro p log
  unfold parse_for_log parse_for
  have h0 := parse_expression_erases env n
  generalize parse_expression_log env n = g0_log at h0 ⊢
  generalize parse_expression env n = g0 at h0 ⊢
  have h1 := (fun stop => block_loop_erases _ _ hstmt stop)
  generalize block_loop_log stmt_log = g1_log at h1 ⊢
  generalize block_loop stmt = g1 at h1 ⊢
  repeat' first
    | exact erase_pure _ _ _
    | exact erase_ok _ _ _
    | exact erase_error _
    | exact erase_throw _ _
    | exact erase_throw_bind _ _ _ _
    | exact (hstmt _ _)
    | exact (h0 _ _)
    | exact (h1 _ _ _ _ _)
    | (refine erase_bind_logged _ _ (h0 _ _) _ _ ?_; intro _ _ _; try dsimp only)
    | (refine erase_bind_logged _ _ (h1 _ _ _ _ _) _ _ ?_; intro _ _ _; try dsimp only)
    | (refine erase_bind_pair _ _ _ ?_; intro _ _; try dsimp only)

theorem parse_while_erases (env : Env) (stmt_log : StmtLog) (stmt : Stmt) (hstmt : Erases stmt_log stmt) (n : Nat) :
    Erases (parse_while_log env stmt_log n) (parse_while env stmt n) := by
  intro p log
  unfold parse_while_log parse_while
  have h0 := parse_expression_erases env n
  generalize parse_expression_log env n = g0_log at h0 ⊢
  generalize parse_expression env n = g0 at h0 ⊢
  have h1 := (fun stop => block_loop_erases _ _ hstmt stop)
  generalize block_loop_log stmt_log = g1_log at h1 ⊢
  generalize block_loop stmt = g1 at h1 ⊢
  repeat' first
    | exact erase_pure _ _ _
    | exact erase_ok _ _ _
    | exact erase_error _
    | exact erase_throw _ _
    | exact erase_throw_bind _ _ _ _
    | exact (hstmt _ _)
    | exact (h0 _ _)
    | exact (h1 _ _ _ _ _)
    | (refine erase_bind_logged _ _ (h0 _ _) _ _ ?_; intro _ _ _; try dsimp only)
    | (refine erase_bind_logged _ _ (h1 _ _ _ _ _) _ _ ?_; intro _ _ _; try dsimp only)
    | (refine erase_bind_pair _ _ _ ?_; intro _ _; try dsimp only)

theorem case_loop_erases (stmt_log : StmtLog) (stmt : Stmt) (hstmt : Erases stmt_log stmt) (fuel : Nat) : ∀ (n : Nat) (cases : List (String × List ASTNode)) (default_case : List ASTNode),
    Erases (case_loop_log stmt_log fuel n cases default_case) (case_loop stmt fuel n cases default_case) := by
  intro n
  induction n with
  | zero => intro cases default_case p log; rfl
  | succ n ih =>
    intro cases default_case p log
    unfold case_loop_log case_loop
    generalize case_loop_log stmt_log fuel n = loop_log at ih ⊢
    generalize case_loop stmt fuel n = loop at ih ⊢
    have h0 := (fun stop => block_loop_erases _ _ hstmt stop)
    generalize block_loop_log stmt_log = g0_log at h0 ⊢
    generalize block_loop stmt = g0 at h0 ⊢
    repeat' first
      | (refine erase_ite _ _ _ _ _ ?_ ?_ <;> intro _)
      | exact erase_pure _ _ _
      | exact erase_ok _ _ _
      | exact erase_error _
      | exact erase_throw _ _
      | exact erase_throw_bind _ _ _ _
      | exact (ih _ _ _ _)
      | exact (hstmt _ _)
      | exact (h0 _ _ _ _ _)
      | (refine erase_bind_logged _ _ (h0 _ _ _ _ _) _ _ ?_; intro _ _ _; try dsimp only)
      | (refine erase_bind_pair _ _ _ ?_; intro _ _; try dsimp only)
      | (refine erase_bind_read _ _ _ ?_; intro _; try dsimp only)

theorem parse_match_erases (env : Env) (stmt_log : StmtLog) (stmt : Stmt) (hstmt : Erases stmt_log stmt) (n : Nat) :
    Erases (parse_match_log env stmt_log n) (parse_match env stmt n) := by
  intro p log
  unfold parse_match_log parse_match
  have h0 := parse_expression_erases env n
  generalize parse_expression_log env n = g0_log at h0 ⊢
  generalize parse_expression env n = g0 at h0 ⊢
  have h1 := case_loop_erases _ _ hstmt n
  generalize case_loop_log stmt_log n = g1_log at h1 ⊢
  generalize case_loop stmt n = g1 at h1 ⊢
  repeat' first
    | (refine erase_ite _ _ _ _ _ ?_ ?_ <;> intro _)
    | exact erase_pure _ _ _
    | exact erase_ok _ _ _
    | exact erase_error _
    | exact erase_throw _ _
    | exact erase_throw_bind _ _ _ _
    | exact (hstmt _ _)
    | exact (h0 _ _)
    | exact (h1 _ _ _ _ _)
    | (refine erase_bind_logged _ _ (h0 _ _) _ _ ?_; intro _ _ _; try dsimp only)
    | (refine erase_bind_logged _ _ (h1 _ _ _ _ _) _ _ ?_; intro _ _ _; try dsimp only)
    | (refine erase_bind_pair _ _ _ ?_; intro _ _; try dsimp only)

theorem parse_statement_erases (env : Env) : ∀ (fuel : Nat),
    Erases (parse_statement_log env fuel) (parse_statement env fuel) := by
  intro fuel
  induction fuel with
  | zero => intro p log; rfl
  | succ fuel ih =>
    intro p log
    unfold parse_statement_log parse_statement
    have h0 := parse_function_erases env _ _ ih fuel
    generalize parse_function_log env (parse_statement_log env fuel) fuel = g0_log at h0 ⊢
    generalize parse_function env (parse_statement env fuel) fuel = g0 at h0 ⊢
    have h1 := parse_if_erases env _ _ ih fuel
    generalize parse_if_log env (parse_statement_log env fuel) fuel = g1_log at h1 ⊢
    generalize parse_if env (parse_statement env fuel) fuel = g1 at h1 ⊢
    have h2 := parse_for_erases env _ _ ih fuel
    generalize parse_for_log env (parse_statement_log env fuel) fuel = g2_log at h2 ⊢
    generalize parse_for env (parse_statement env fuel) fuel = g2 at h2 ⊢
    have h3 := parse_while_erases env _ _ ih fuel
    generalize parse_while_log env (parse_statement_log env fuel) fuel = g3_log at h3 ⊢
    generalize parse_while env (parse_statement env fuel) fuel = g3 at h3 ⊢
    have h4 := parse_match_erases env _ _ ih fuel
    generalize parse_match_log env (parse_statement_log env fuel) fuel = g4_log at h4 ⊢
    generalize parse_match env (parse_statement env fuel) fuel = g4 at h4 ⊢
    have h5 := parse_return_erases env fuel
    generalize parse_return_log env fuel = g5_log at h5 ⊢
    generalize parse_return env fuel = g5 at h5 ⊢
    have h6 := parse_print_erases env fuel
    generalize parse_print_log env fuel = g6_log at h6 ⊢
    generalize parse_print env fuel = g6 at h6 ⊢
    have h7 := parse_assignment_erases env fuel
    generalize parse_assignment_log env fuel = g7_log at h7 ⊢
    generalize parse_assignment env fuel = g7 at h7 ⊢
    have h8 := parse_function_call_erases env fuel
    generalize parse_function_call_log env fuel = g8_log at h8 ⊢
    generalize parse_function_call env fuel = g8 at h8 ⊢
    have h9 := parse_method_call_erases env fuel
    generalize parse_method_call_log env fuel = g9_log at h9 ⊢
    generalize parse_method_call env fuel = g9 at h9 ⊢
    have h10 := parse_index_assignment_erases env fuel
    generalize parse_index_assignment_log env fuel = g10_log at h10 ⊢
    generalize parse_index_assignment env fuel = g10 at h10 ⊢
    repeat' first
      | (refine erase_ite _ _ _ _ _ ?_ ?_ <;> intro _)
      | exact erase_pure _ _ _
      | exact erase_ok _ _ _
      | exact erase_error _
      | exact erase_throw _ _
      | exact erase_throw_bind _ _ _ _
      | exact (h0 _ _)
      | exact (h1 _ _)
      | exact (h2 _ _)
      | exact (h3 _ _)
      | exact (h4 _ _)
      | exact (h5 _ _)
      | exact (h6 _ _)
      | exact (h7 _ _)
      | exact (h8 _ _)
      | exact (h9 _ _)
      | exact (h10 _ _)
      | (refine erase_bind_read _ _ _ ?_; intro _; try dsimp only)

theorem ascending_le : ∀ (l : List String) (lo hi : Nat), ascending lo l hi → lo ≤ hi
  | [], lo, hi, h => h
  | x :: rest, lo, hi, h => by
    obtain ⟨pre, -, n, hn, -, hr⟩ := h
    have := ascending_le rest (n + 1) hi hr
    omega

theorem ascending_mono : ∀ (l : List String) (lo lo1 hi hi1 : Nat), lo1 ≤ lo → hi ≤ hi1 →
    ascending lo l hi → ascending lo1 l hi1
  | [], lo, lo1, hi, hi1, h1, h2, h => by
    unfold ascending at h ⊢
    omega
  | x :: rest, lo, lo1, hi, hi1, h1, h2, h => by
    obtain ⟨pre, hpre, n, hn, hx, hr⟩ := h
    exact ⟨pre, hpre, n, by omega, hx, ascending_mono rest _ _ _ _ (le_refl _) h2 hr⟩

theorem ascending_append : ∀ (a b : List String) (lo mid hi : Nat), ascending lo a mid →
    ascending mid b hi → ascending lo (a ++ b) hi
  | [], b, lo, mid, hi, ha, hb => ascending_mono b _ _ _ _ ha (le_refl _) hb
  | x :: rest, b, lo, mid, hi, ha, hb => by
    obtain ⟨pre, hpre, n, hn, hx, hr⟩ := ha
    exact ⟨pre, hpre, n, hn, hx, ascending_append rest b _ _ _ hr hb⟩

/-- A name of an ascending list has a number not below the start and below the end. -/
theorem ascending_mem : ∀ (l : List String) (lo hi : Nat), ascending lo l hi →
    ∀ x, x ∈ l → ∃ pre, pre ∈ temp_prefixes ∧ ∃ n, lo ≤ n ∧ n < hi ∧ x = temp_name pre n
  | [], _, _, _, x, hx => by cases hx
  | y :: rest, lo, hi, h, x, hx => by
    obtain ⟨pre, hpre, n, hn, hy, hr⟩ := h
    rcases List.mem_cons.1 hx with rfl | hx
    · exact ⟨pre, hpre, n, hn, by have := ascending_le _ _ _ hr; omega, hy⟩
    · obtain ⟨pre1, hpre1, m, hm, hm2, hxm⟩ := ascending_mem rest _ _ hr x hx
      exact ⟨pre1, hpre1, m, by omega, hm2, hxm⟩

/-- The names of an ascending list differ from one another. -/
theorem ascending_nodup : ∀ (l : List String) (lo hi : Nat), ascending lo l hi → l.Nodup
  | [], _, _, _ => List.nodup_nil
  | y :: rest, lo, hi, h => by
    obtain ⟨pre, hpre, n, hn, hy, hr⟩ := h
    refine List.nodup_cons.2 ⟨?_, ascending_nodup rest _ _ hr⟩
    intro hmem
    obtain ⟨pre1, hpre1, m, hm, -, hxm⟩ := ascending_mem rest _ _ hr y hmem
    rw [hy] at hxm
    have := (temp_name_injective pre pre1 n m hpre hpre1 hxm).2
    omega

theorem fresh_refl (p : Parser) (log : List String) : Fresh p log p log :=
  ⟨[], (List.append_nil _).symm, le_refl _⟩

theorem fresh_trans {p q r : Parser} {l1 l2 l3 : List String} (h1 : Fresh p l1 q l2)
    (h2 : Fresh q l2 r l3) : Fresh p l1 r l3 := by
  obtain ⟨a, ha, ha2⟩ := h1
  obtain ⟨b, hb, hb2⟩ := h2
  exact ⟨a ++ b, by rw [hb, ha, List.append_assoc], ascending_append _ _ _ _ _ ha2 hb2⟩

/-- A step that adds no name and does not lower the counter. -/
theorem fresh_le {p0 p q : Parser} {log0 log : List String} (h : Fresh p0 log0 p log)
    (hle : p.string_temp_counter ≤ q.string_temp_counter) : Fresh p0 log0 q log := by
  obtain ⟨a, ha, ha2⟩ := h
  exact ⟨a, ha, ascending_mono _ _ _ _ _ (le_refl _) hle ha2⟩

/-- A statement that names a temporary after the counter and leaves the next number. -/
theorem fresh_name {p0 p m q : Parser} {log0 log : List String} (pre : String)
    (h : Fresh p0 log0 p log) (hpre : pre ∈ temp_prefixes)
    (hm : p.string_temp_counter ≤ m.string_temp_counter)
    (hq : m.string_temp_counter + 1 ≤ q.string_temp_counter) :
    Fresh p0 log0 q (log ++ [pre ++ toString m.string_temp_counter]) := by
  refine fresh_trans h ⟨[pre ++ toString m.string_temp_counter], rfl, ?_⟩
  exact ⟨pre, hpre, m.string_temp_counter, hm, rfl, hq⟩

theorem logs_fuel {p0 : Parser} {log0 : List String} {α : Type} :
    Logs p0 log0 (.error .out_of_fuel : Res (α × Parser × List String)) :=
  fun a q l h => (by cases h)

theorem logs_pure {p0 : Parser} {log0 : List String} {α : Type} {a : α} {q : Parser}
    {l : List String} (h : Fresh p0 log0 q l) :
    Logs p0 log0 (pure (a, q, l) : Res (α × Parser × List String)) := by
  intro b r l1 hr
  simp only [pure, Except.pure, Except.ok.injEq, Prod.mk.injEq] at hr
  rw [← hr.2.1, ← hr.2.2]
  exact h

theorem logs_throw {p0 : Parser} {log0 : List String} {α : Type} (msg : String) (p : Parser) :
    Logs p0 log0 (throw_at msg p : Res (α × Parser × List String)) := by
  intro a q l h
  exact ((throw_at_ne_ok _ _ _).1 h).elim

theorem logs_throw_bind {p0 : Parser} {log0 : List String} {α β : Type} (msg : String)
    (p : Parser) (f : α → Res (β × Parser × List String)) :
    Logs p0 log0 ((throw_at msg p : Res α) >>= f) := by
  intro a q l h
  rw [bind_ok] at h
  obtain ⟨x, hx, -⟩ := h
  exact ((throw_at_ne_ok _ _ _).1 hx).elim

theorem logs_ite {p0 : Parser} {log0 : List String} {α : Type} (c : Prop) [Decidable c]
    {a b : Res (α × Parser × List String)} (ha : c → Logs p0 log0 a)
    (hb : ¬c → Logs p0 log0 b) : Logs p0 log0 (if c then a else b) := by
  split
  · exact ha (by assumption)
  · exact hb (by assumption)

/-- A step that reads without moving. -/
theorem logs_read {p0 : Parser} {log0 : List String} {α β : Type} {x : Res α}
    {f : α → Res (β × Parser × List String)} (hf : ∀ a, Logs p0 log0 (f a)) :
    Logs p0 log0 (x >>= f) := by
  cases x with
  | error err => exact fun a q l h => (by cases h)
  | ok a => exact hf a

/-- A call of a function that makes no name, with its continuation. -/
theorem logs_bind_plain {p0 m : Parser} {log0 log : List String} {α β : Type}
    {g : Parser → Res (α × Parser)} {f : α × Parser → Res (β × Parser × List String)}
    (hg : Moves g) (h : Fresh p0 log0 m log)
    (hf : ∀ a q, Fresh p0 log0 q log → Logs p0 log0 (f (a, q))) :
    Logs p0 log0 (g m >>= f) := by
  cases hx : g m with
  | error err => exact fun a q l h => (by cases h)
  | ok r =>
    obtain ⟨a, q⟩ := r
    exact hf a q (fresh_le h (hg m a q hx).2.2.1)

/-- A call of a function with the list of names, with its continuation. -/
theorem logs_bind_logged {p0 m : Parser} {log0 log : List String} {α β : Type}
    {g : Parser → List String → Res (α × Parser × List String)}
    {f : α × Parser × List String → Res (β × Parser × List String)}
    (hg : LogsFn g) (h : Fresh p0 log0 m log)
    (hf : ∀ a q l, Fresh p0 log0 q l → Logs p0 log0 (f (a, q, l))) :
    Logs p0 log0 (g m log >>= f) := by
  cases hx : g m log with
  | error err => exact fun a q l h => (by cases h)
  | ok r =>
    obtain ⟨a, q, l⟩ := r
    exact hf a q l (fresh_trans h (hg m log a q l hx))

/-- A call of a function with the list of names, in the last position. -/
theorem logs_call {p0 m : Parser} {log0 log : List String} {α : Type}
    {g : Parser → List String → Res (α × Parser × List String)}
    (hg : LogsFn g) (h : Fresh p0 log0 m log) : Logs p0 log0 (g m log) :=
  fun a q l hx => fresh_trans h (hg m log a q l hx)

/-- A function is `LogsFn` when each of its runs continues the empty run. -/
theorem logsfn_of {α : Type} {f_log : Parser → List String → Res (α × Parser × List String)}
    (h : ∀ p log, Logs p log (f_log p log)) : LogsFn f_log :=
  fun p log a q l hx => h p log a q l hx

theorem include_for_counter (ty : VarType) (p : Parser) :
    (include_for ty p).string_temp_counter = p.string_temp_counter := by
  unfold include_for
  split_ifs <;> rfl

/-- A value returned to a continuation. -/
theorem logs_bind_pure {p0 q : Parser} {log0 log : List String} {α β : Type} {a : α}
    {f : α × Parser → Res (β × Parser × List String)} (h : Fresh p0 log0 q log)
    (hf : Fresh p0 log0 q log → Logs p0 log0 (f (a, q))) :
    Logs p0 log0 (pure (a, q) >>= f) :=
  hf h

theorem args_loop_logs (rec_log : ExprLog) (hrec : LogsFn rec_log) : ∀ (n : Nat) (args : List String),
    LogsFn (args_loop_log rec_log n args) := by
  intro n
  induction n with
  | zero => intro args; exact logsfn_of (fun p log => logs_fuel)
  | succ n ih =>
    intro args
    refine logsfn_of ?_
    intro p log
    have hS := fresh_refl p log
    unfold args_loop_log
    generalize args_loop_log rec_log n = loop_log at ih ⊢
    have m0 := expect_moves
    generalize expect = c0 at m0 ⊢
    repeat' first
      | (refine logs_ite _ ?_ ?_ <;> intro _)
      | exact logs_fuel
      | exact logs_throw _ _
      | exact logs_throw_bind _ _ _
      | exact logs_pure (by assumption)
      | exact logs_call (ih _) (by assumption)
      | exact logs_call hrec (by assumption)
      | (refine logs_bind_logged hrec (by assumption) ?_; intro _ _ _ _; try dsimp only)
      | (refine logs_bind_plain (m0 _) (by assumption) ?_; intro _ _ _; try dsimp only)
      | (refine logs_read ?_; intro _; try dsimp only)

theorem parse_args_logs (rec_log : ExprLog) (hrec : LogsFn rec_log) (n : Nat) :
    LogsFn (parse_args_log rec_log n) := by
  refine logsfn_of ?_
  intro p log
  have hS := fresh_refl p log
  unfold parse_args_log
  have h0 := args_loop_logs _ hrec
  generalize args_loop_log rec_log = g0_log at h0 ⊢
  repeat' first
    | (refine logs_ite _ ?_ ?_ <;> intro _)
    | exact logs_fuel
    | exact logs_throw _ _
    | exact logs_throw_bind _ _ _
    | exact logs_pure (by assumption)
    | exact logs_call hrec (by assumption)
    | exact logs_call (h0 _ _) (by assumption)
    | (refine logs_bind_logged hrec (by assumption) ?_; intro _ _ _ _; try dsimp only)
    | (refine logs_read ?_; intro _; try dsimp only)

theorem parse_call_expr_logs (rec_log : ExprLog) (hrec : LogsFn rec_log) (n : Nat) :
    LogsFn (parse_call_expr_log rec_log n) := by
  refine logsfn_of ?_
  intro p log
  have hS := fresh_refl p log
  unfold parse_call_expr_log
  have h0 := parse_args_logs _ hrec
  generalize parse_args_log rec_log = g0_log at h0 ⊢
  have m0 := expect_moves
  generalize expect = c0 at m0 ⊢
  repeat' first
    | exact logs_fuel
    | exact logs_throw _ _
    | exact logs_throw_bind _ _ _
    | exact logs_pure (by assumption)
    | exact logs_call hrec (by assumption)
    | exact logs_call (h0 _) (by assumption)
    | (refine logs_bind_logged (h0 _) (by assumption) ?_; intro _ _ _ _; try dsimp only)
    | (refine logs_bind_plain (m0 _) (by assumption) ?_; intro _ _ _; try dsimp only)
    | split

theorem parse_index_expr_logs (rec_log : ExprLog) (hrec : LogsFn rec_log) :
    LogsFn (parse_index_expr_log rec_log) := by
  refine logsfn_of ?_
  intro p log
  have hS := fresh_refl p log
  unfold parse_index_expr_log
  have m0 := expect_moves
  generalize expect = c0 at m0 ⊢
  repeat' first
    | (refine logs_ite _ ?_ ?_ <;> intro _)
    | exact logs_fuel
    | exact logs_throw _ _
    | exact logs_throw_bind _ _ _
    | exact logs_pure (by first | assumption | exact fresh_le (by assumption) (by first | exact le_refl _ | exact (include_for_moves _ _).2.2.1 | exact (fstring_default_moves _ _ _).2.2.1 | exact (fstring_args_moves _ _ _).2.2.1 | (simp only [add_include, include_for_counter, fstring_args_counter]; split_ifs <;> exact le_refl _)))
    | exact logs_call hrec (by assumption)
    | (refine logs_bind_logged hrec (by assumption) ?_; intro _ _ _ _; try dsimp only)
    | (refine logs_bind_plain (m0 _) (by assumption) ?_; intro _ _ _; try dsimp only)
    | split

theorem parse_method_expr_logs (env : Env) (rec_log : ExprLog) (hrec : LogsFn rec_log) (n : Nat) :
    LogsFn (parse_method_expr_log env rec_log n) := by
  refine logsfn_of ?_
  intro p log
  have hS := fresh_refl p log
  unfold parse_method_expr_log
  have h0 := parse_args_logs _ hrec
  generalize parse_args_log rec_log = g0_log at h0 ⊢
  have m0 := expect_moves
  generalize expect = c0 at m0 ⊢
  have m1 := method_return_type_moves
  generalize method_return_type = c1 at m1 ⊢
  repeat' first
    | (refine logs_ite _ ?_ ?_ <;> intro _)
    | exact logs_fuel
    | exact logs_throw _ _
    | exact logs_throw_bind _ _ _
    | exact logs_pure (by assumption)
    | exact logs_call hrec (by assumption)
    | exact logs_call (h0 _) (by assumption)
    | (refine logs_bind_logged (h0 _) (by assumption) ?_; intro _ _ _ _; try dsimp only)
    | (refine logs_bind_plain (m0 _) (by assumption) ?_; intro _ _ _; try dsimp only)
    | (refine logs_bind_plain (m1 _ _ _ _) (by assumption) ?_; intro _ _ _; try dsimp only)
    | (refine logs_read ?_; intro _; try dsimp only)
    | split

theorem fstring_loop_logs (env : Env) (rec_log : ExprLog) (hrec : LogsFn rec_log) : ∀ (n : Nat) (format : String) (args : List (String × VarType)),
    LogsFn (fstring_loop_log env rec_log n format args) := by
  intro n
  induction n with
  | zero => intro format args; exact logsfn_of (fun p log => logs_fuel)
  | succ n ih =>
    intro format args
    refine logsfn_of ?_
    intro p log
    have hS := fresh_refl p log
    unfold fstring_loop_log
    generalize fstring_loop_log env rec_log n = loop_log at ih ⊢
    have m0 := expect_moves
    generalize expect = c0 at m0 ⊢
    repeat' first
      | (refine logs_ite _ ?_ ?_ <;> intro _)
      | exact logs_fuel
      | exact logs_throw _ _
      | exact logs_throw_bind _ _ _
      | exact logs_pure (by assumption)
      | exact logs_call (ih _ _) (by assumption)
      | exact logs_call hrec (by assumption)
      | (refine logs_bind_logged hrec (by assumption) ?_; intro _ _ _ _; try dsimp only)
      | (refine logs_bind_plain (m0 _) (by first | assumption | exact fresh_le (by assumption) (by first | exact le_refl _ | exact (include_for_moves _ _).2.2.1 | exact (fstring_default_moves _ _ _).2.2.1)) ?_; intro _ _ _; try dsimp only)
      | (refine logs_read ?_; intro _; try dsimp only)

theorem parse_fstring_expr_logs (env : Env) (rec_log : ExprLog) (hrec : LogsFn rec_log) (n : Nat) :
    LogsFn (parse_fstring_expr_log env rec_log n) := by
  refine logsfn_of ?_
  intro p log
  have hS := fresh_refl p log
  unfold parse_fstring_expr_log
  refine logs_bind_plain (expect_moves _) hS ?_
  intro _ p1 h1
  dsimp only
  refine logs_bind_logged (fstring_loop_logs env _ hrec _ _ _) h1 ?_
  intro fa p2 l2 h2
  dsimp only
  refine logs_bind_plain (expect_moves _) h2 ?_
  intro _ p3 h3
  dsimp only
  refine logs_pure (fresh_name _ h3 (by simp [temp_prefixes]) (le_refl _) ?_)
  simp only [add_include, fstring_args_counter, le_refl]

theorem elements_loop_logs (rec_log : ExprLog) (hrec : LogsFn rec_log) (msg : String) (element_type : VarType) : ∀ (n : Nat) (elements : List String),
    LogsFn (elements_loop_log rec_log msg element_type n elements) := by
  intro n
  induction n with
  | zero => intro elements; exact logsfn_of (fun p log => logs_fuel)
  | succ n ih =>
    intro elements
    refine logsfn_of ?_
    intro p log
    have hS := fresh_refl p log
    unfold elements_loop_log
    generalize elements_loop_log rec_log msg element_type n = loop_log at ih ⊢
    have m0 := expect_moves
    generalize expect = c0 at m0 ⊢
    repeat' first
      | (refine logs_ite _ ?_ ?_ <;> intro _)
      | exact logs_fuel
      | exact logs_throw _ _
      | exact logs_throw_bind _ _ _
      | exact logs_pure (by assumption)
      | exact logs_call (ih _) (by assumption)
      | exact logs_call hrec (by assumption)
      | (refine logs_bind_logged hrec (by assumption) ?_; intro _ _ _ _; try dsimp only)
      | (refine logs_bind_plain (m0 _) (by assumption) ?_; intro _ _ _; try dsimp only)
      | (refine logs_read ?_; intro _; try dsimp only)

theorem parse_list_expr_logs (env : Env) (rec_log : ExprLog) (hrec : LogsFn rec_log) (n : Nat) :
    LogsFn (parse_list_expr_log env rec_log n) := by
  refine logsfn_of ?_
  intro p log
  have hS := fresh_refl p log
  unfold parse_list_expr_log
  have h0 := (fun msg ty => elements_loop_logs _ hrec msg ty)
  generalize elements_loop_log rec_log = g0_log at h0 ⊢
  have m0 := expect_moves
  generalize expect = c0 at m0 ⊢
  repeat' first
    | (refine logs_ite _ ?_ ?_ <;> intro _)
    | exact logs_fuel
    | exact logs_throw _ _
    | exact logs_throw_bind _ _ _
    | exact logs_pure (by first | assumption | exact fresh_le (by assumption) (by first | exact le_refl _ | exact (include_for_moves _ _).2.2.1 | exact (fstring_default_moves _ _ _).2.2.1 | exact (fstring_args_moves _ _ _).2.2.1 | (simp only [add_include, include_for_counter, fstring_args_counter]; split_ifs <;> exact le_refl _)))
    | exact logs_pure (fresh_name _ (by assumption) (by simp [temp_prefixes]) (by first | exact le_refl _) (by first | exact le_refl _ | exact (include_for_moves _ _).2.2.1 | exact (fstring_default_moves _ _ _).2.2.1 | exact (fstring_args_moves _ _ _).2.2.1 | (simp only [add_include, include_for_counter, fstring_args_counter]; split_ifs <;> exact le_refl _)))
    | exact logs_call hrec (by assumption)
    | exact logs_call (h0 _ _ _ _) (by assumption)
    | (refine logs_bind_logged hrec (by assumption) ?_; intro _ _ _ _; try dsimp only)
    | (refine logs_bind_logged (h0 _ _ _ _) (by assumption) ?_; intro _ _ _ _; try dsimp only)
    | (refine logs_bind_plain (m0 _) (by assumption) ?_; intro _ _ _; try dsimp only)
    | (refine logs_read ?_; intro _; try dsimp only)

theorem parse_tuple_expr_logs (env : Env) (rec_log : ExprLog) (hrec : LogsFn rec_log) (n : Nat) :
    LogsFn (parse_tuple_expr_log env rec_log n) := by
  refine logsfn_of ?_
  intro p log
  have hS := fresh_refl p log
  unfold parse_tuple_expr_log
  have h0 := (fun msg ty => elements_loop_logs _ hrec msg ty)
  generalize elements_loop_log rec_log = g0_log at h0 ⊢
  have m0 := expect_moves
  generalize expect = c0 at m0 ⊢
  repeat' first
    | (refine logs_ite _ ?_ ?_ <;> intro _)
    | exact logs_fuel
    | exact logs_throw _ _
    | exact logs_throw_bind _ _ _
    | exact logs_pure (by first | assumption | exact fresh_le (by assumption) (by first | exact le_refl _ | exact (include_for_moves _ _).2.2.1 | exact (fstring_default_moves _ _ _).2.2.1 | exact (fstring_args_moves _ _ _).2.2.1 | (simp only [add_include, include_for_counter, fstring_args_counter]; split_ifs <;> exact le_refl _)))
    | exact logs_pure (fresh_name _ (by assumption) (by simp [temp_prefixes]) (by first | exact le_refl _) (by first | exact le_refl _ | exact (include_for_moves _ _).2.2.1 | exact (fstring_default_moves _ _ _).2.2.1 | exact (fstring_args_moves _ _ _).2.2.1 | (simp only [add_include, include_for_counter, fstring_args_counter]; split_ifs <;> exact le_refl _)))
    | exact logs_call hrec (by assumption)
    | exact logs_call (h0 _ _ _ _) (by assumption)
    | (refine logs_bind_logged hrec (by assumption) ?_; intro _ _ _ _; try dsimp only)
    | (refine logs_bind_logged (h0 _ _ _ _) (by assumption) ?_; intro _ _ _ _; try dsimp only)
    | (refine logs_bind_plain (m0 _) (by assumption) ?_; intro _ _ _; try dsimp only)
    | (refine logs_read ?_; intro _; try dsimp only)

theorem entries_loop_logs (rec_log : ExprLog) (hrec : LogsFn rec_log) (value_type : VarType) : ∀ (n : Nat) (entries : List (String × String)),
    LogsFn (entries_loop_log rec_log value_type n entries) := by
  intro n
  induction n with
  | zero => intro entries; exact logsfn_of (fun p log => logs_fuel)
  | succ n ih =>
    intro entries
    refine logsfn_of ?_
    intro p log
    have hS := fresh_refl p log
    unfold entries_loop_log
    generalize entries_loop_log rec_log value_type n = loop_log at ih ⊢
    have m0 := expect_moves
    generalize expect = c0 at m0 ⊢
    repeat' first
      | (refine logs_ite _ ?_ ?_ <;> intro _)
      | exact logs_fuel
      | exact logs_throw _ _
      | exact logs_throw_bind _ _ _
      | exact logs_pure (by assumption)
      | exact logs_call (ih _) (by assumption)
      | exact logs_call hrec (by assumption)
      | (refine logs_bind_logged hrec (by assumption) ?_; intro _ _ _ _; try dsimp only)
      | (refine logs_bind_plain (m0 _) (by assumption) ?_; intro _ _ _; try dsimp only)
      | (refine logs_read ?_; intro _; try dsimp only)

theorem parse_dict_expr_logs (env : Env) (rec_log : ExprLog) (hrec : LogsFn rec_log) (n : Nat) :
    LogsFn (parse_dict_expr_log env rec_log n) := by
  refine logsfn_of ?_
  intro p log
  have hS := fresh_refl p log
  unfold parse_dict_expr_log
  have h0 := (fun ty => entries_loop_logs _ hrec ty)
  generalize entries_loop_log rec_log = g0_log at h0 ⊢
  have m0 := expect_moves
  generalize expect = c0 at m0 ⊢
  repeat' first
    | (refine logs_ite _ ?_ ?_ <;> intro _)
    | exact logs_fuel
    | exact logs_throw _ _
    | exact logs_throw_bind _ _ _
    | exact logs_pure (by first | assumption | exact fresh_le (by assumption) (by first | exact le_refl _ | exact (include_for_moves _ _).2.2.1 | exact (fstring_default_moves _ _ _).2.2.1 | exact (fstring_args_moves _ _ _).2.2.1 | (simp only [add_include, include_for_counter, fstring_args_counter]; split_ifs <;> exact le_refl _)))
    | exact logs_pure (fresh_name _ (by assumption) (by simp [temp_prefixes]) (by first | exact le_refl _) (by first | exact le_refl _ | exact (include_for_moves _ _).2.2.1 | exact (fstring_default_moves _ _ _).2.2.1 | exact (fstring_args_moves _ _ _).2.2.1 | (simp only [add_include, include_for_counter, fstring_args_counter]; split_ifs <;> exact le_refl _)))
    | exact logs_call hrec (by assumption)
    | exact logs_call (h0 _ _ _) (by assumption)
    | (refine logs_bind_logged hrec (by assumption) ?_; intro _ _ _ _; try dsimp only)
    | (refine logs_bind_logged (h0 _ _ _) (by assumption) ?_; intro _ _ _ _; try dsimp only)
    | (refine logs_bind_plain (m0 _) (by assumption) ?_; intro _ _ _; try dsimp only)
    | (refine logs_read ?_; intro _; try dsimp only)

theorem parse_len_expr_logs (rec_log : ExprLog) (hrec : LogsFn rec_log) :
    LogsFn (parse_len_expr_log rec_log) := by
  refine logsfn_of ?_
  intro p log
  have hS := fresh_refl p log
  unfold parse_len_expr_log
  have m0 := expect_moves
  generalize expect = c0 at m0 ⊢
  repeat' first
    | (refine logs_ite _ ?_ ?_ <;> intro _)
    | exact logs_fuel
    | exact logs_throw _ _
    | exact logs_throw_bind _ _ _
    | exact logs_pure (by first | assumption | exact fresh_le (by assumption) (by first | exact le_refl _ | exact (include_for_moves _ _).2.2.1))
    | exact logs_call hrec (by assumption)
    | (refine logs_bind_logged hrec (by assumption) ?_; intro _ _ _ _; try dsimp only)
    | (refine logs_bind_plain (m0 _) (by assumption) ?_; intro _ _ _; try dsimp only)

theorem binary_operators_logs (rec_log : ExprLog) (hrec : LogsFn rec_log) : ∀ (n : Nat) (result : String) (type : VarType),
    LogsFn (binary_operators_log rec_log n result type) := by
  intro n
  induction n with
  | zero => intro result type; exact logsfn_of (fun p log => logs_fuel)
  | succ n ih =>
    intro result type
    refine logsfn_of ?_
    intro p log
    have hS := fresh_refl p log
    unfold binary_operators_log
    generalize binary_operators_log rec_log n = loop_log at ih ⊢
    have m0 := operator_case_moves
    generalize operator_case = c0 at m0 ⊢
    repeat' first
      | (refine logs_ite _ ?_ ?_ <;> intro _)
      | exact logs_fuel
      | exact logs_throw _ _
      | exact logs_throw_bind _ _ _
      | exact logs_pure (by assumption)
      | exact logs_call (ih _ _) (by assumption)
      | exact logs_call hrec (by assumption)
      | (refine logs_bind_logged hrec (by assumption) ?_; intro _ _ _ _; try dsimp only)
      | (refine logs_bind_plain (m0 _ _) (by assumption) ?_; intro _ _ _; try dsimp only)
      | (refine logs_read ?_; intro _; try dsimp only)

theorem parse_primary_logs (env : Env) (rec_log : ExprLog) (hrec : LogsFn rec_log) (n : Nat) :
    LogsFn (parse_primary_log env rec_log n) := by
  refine logsfn_of ?_
  intro p log
  have hS := fresh_refl p log
  unfold parse_primary_log
  have h0 := parse_call_expr_logs _ hrec n
  generalize parse_call_expr_log rec_log n = g0_log at h0 ⊢
  have h1 := parse_index_expr_logs _ hrec
  generalize parse_index_expr_log rec_log = g1_log at h1 ⊢
  have h2 := parse_method_expr_logs env _ hrec n
  generalize parse_method_expr_log env rec_log n = g2_log at h2 ⊢
  have h3 := parse_fstring_expr_logs env _ hrec n
  generalize parse_fstring_expr_log env rec_log n = g3_log at h3 ⊢
  have h4 := parse_list_expr_logs env _ hrec n
  generalize parse_list_expr_log env rec_log n = g4_log at h4 ⊢
  have h5 := parse_tuple_expr_logs env _ hrec n
  generalize parse_tuple_expr_log env rec_log n = g5_log at h5 ⊢
  have h6 := parse_dict_expr_logs env _ hrec n
  generalize parse_dict_expr_log env rec_log n = g6_log at h6 ⊢
  have h7 := parse_len_expr_logs _ hrec
  generalize parse_len_expr_log rec_log = g7_log at h7 ⊢
  have m0 := expect_moves
  generalize expect = c0 at m0 ⊢
  have m1 := expect_current_moves
  generalize expect_current = c1 at m1 ⊢
  have m2 := parse_identifier_expr_moves
  generalize parse_identifier_expr = c2 at m2 ⊢
  repeat' first
    | (refine logs_ite _ ?_ ?_ <;> intro _)
    | exact logs_fuel
    | exact logs_throw _ _
    | exact logs_throw_bind _ _ _
    | exact logs_pure (by assumption)
    | exact logs_call hrec (by assumption)
    | exact logs_call h0 (by assumption)
    | exact logs_call h1 (by assumption)
    | exact logs_call h2 (by assumption)
    | exact logs_call h3 (by assumption)
    | exact logs_call h4 (by assumption)
    | exact logs_call h5 (by assumption)
    | exact logs_call h6 (by assumption)
    | exact logs_call h7 (by assumption)
    | (refine logs_bind_logged h0 (by assumption) ?_; intro _ _ _ _; try dsimp only)
    | (refine logs_bind_logged h1 (by assumption) ?_; intro _ _ _ _; try dsimp only)
    | (refine logs_bind_logged h2 (by assumption) ?_; intro _ _ _ _; try dsimp only)
    | (refine logs_bind_logged h3 (by assumption) ?_; intro _ _ _ _; try dsimp only)
    | (refine logs_bind_logged h4 (by assumption) ?_; intro _ _ _ _; try dsimp only)
    | (refine logs_bind_logged h5 (by assumption) ?_; intro _ _ _ _; try dsimp only)
    | (refine logs_bind_logged h6 (by assumption) ?_; intro _ _ _ _; try dsimp only)
    | (refine logs_bind_logged h7 (by assumption) ?_; intro _ _ _ _; try dsimp only)
    | (refine logs_bind_plain (m0 _) (by assumption) ?_; intro _ _ _; try dsimp only)
    | (refine logs_bind_plain m1 (by assumption) ?_; intro _ _ _; try dsimp only)
    | (refine logs_bind_plain m2 (by assumption) ?_; intro _ _ _; try dsimp only)
    | (refine logs_read ?_; intro _; try dsimp only)

theorem parse_expression_logs (env : Env) : ∀ (fuel : Nat),
    LogsFn (parse_expression_log env fuel) := by
  intro fuel
  induction fuel with
  | zero => exact logsfn_of (fun p log => logs_fuel)
  | succ fuel ih =>
    refine logsfn_of ?_
    intro p log
    have hS := fresh_refl p log
    unfold parse_expression_log
    have h0 := parse_primary_logs env _ ih fuel
    generalize parse_primary_log env (parse_expression_log env fuel) fuel = g0_log at h0 ⊢
    have h1 := binary_operators_logs _ ih fuel
    generalize binary_operators_log (parse_expression_log env fuel) fuel = g1_log at h1 ⊢
    repeat' first
      | (refine logs_ite _ ?_ ?_ <;> intro _)
      | exact logs_fuel
      | exact logs_throw _ _
      | exact logs_throw_bind _ _ _
      | exact logs_pure (by assumption)
      | exact logs_call h0 (by assumption)
      | exact logs_call (h1 _ _) (by assumption)
      | (refine logs_bind_logged h0 (by assumption) ?_; intro _ _ _ _; try dsimp only)

theorem parse_assignment_logs (env : Env) (fuel : Nat) :
    LogsFn (parse_assignment_log env fuel) := by
  refine logsfn_of ?_
  intro p log
  have hS := fresh_refl p log
  unfold parse_assignment_log
  have h0 := parse_expression_logs env fuel
  generalize parse_expression_log env fuel = g0_log at h0 ⊢
  have m0 := expect_moves
  generalize expect = c0 at m0 ⊢
  have m1 := parse_collection_type_moves env
  generalize parse_collection_type env = c1 at m1 ⊢
  repeat' first
    | exact logs_fuel
    | exact logs_throw _ _
    | exact logs_throw_bind _ _ _
    | exact logs_pure (by assumption)
    | exact logs_call h0 (by assumption)
    | (refine logs_bind_logged h0 (by assumption) ?_; intro _ _ _ _; try dsimp only)
    | (refine logs_bind_plain (m0 _) (by assumption) ?_; intro _ _ _; try dsimp only)
    | (refine logs_bind_plain m1 (by assumption) ?_; intro _ _ _; try dsimp only)
    | split

theorem parse_function_call_logs (env : Env) (fuel : Nat) :
    LogsFn (parse_function_call_log env fuel) := by
  refine logsfn_of ?_
  intro p log
  have hS := fresh_refl p log
  unfold parse_function_call_log
  have h0 := parse_args_logs _ (parse_expression_logs env fuel)
  generalize parse_args_log (parse_expression_log env fuel) = g0_log at h0 ⊢
  have m0 := expect_moves
  generalize expect = c0 at m0 ⊢
  repeat' first
    | exact logs_fuel
    | exact logs_throw _ _
    | exact logs_throw_bind _ _ _
    | exact logs_pure (by assumption)
    | exact logs_call (h0 _) (by assumption)
    | (refine logs_bind_logged (h0 _) (by assumption) ?_; intro _ _ _ _; try dsimp only)
    | (refine logs_bind_plain (m0 _) (by assumption) ?_; intro _ _ _; try dsimp only)
    | split

theorem parse_method_call_logs (env : Env) (fuel : Nat) :
    LogsFn (parse_method_call_log env fuel) := by
  refine logsfn_of ?_
  intro p log
  have hS := fresh_refl p log
  unfold parse_method_call_log
  have h0 := parse_args_logs _ (parse_expression_logs env fuel)
  generalize parse_args_log (parse_expression_log env fuel) = g0_log at h0 ⊢
  have m0 := expect_moves
  generalize expect = c0 at m0 ⊢
  have m1 := method_return_type_moves
  generalize method_return_type = c1 at m1 ⊢
  repeat' first
    | exact logs_fuel
    | exact logs_throw _ _
    | exact logs_throw_bind _ _ _
    | exact logs_pure (by assumption)
    | exact logs_call (h0 _) (by assumption)
    | (refine logs_bind_logged (h0 _) (by assumption) ?_; intro _ _ _ _; try dsimp only)
    | (refine logs_bind_plain (m0 _) (by assumption) ?_; intro _ _ _; try dsimp only)
    | (refine logs_bind_plain (m1 _ _ _ _) (by assumption) ?_; intro _ _ _; try dsimp only)
    | split

theorem parse_return_logs (env : Env) (fuel : Nat) :
    LogsFn (parse_return_log env fuel) := by
  refine logsfn_of ?_
  intro p log
  have hS := fresh_refl p log
  unfold parse_return_log
  have h0 := parse_expression_logs env fuel
  generalize parse_expression_log env fuel = g0_log at h0 ⊢
  have m0 := expect_moves
  generalize expect = c0 at m0 ⊢
  repeat' first
    | exact logs_fuel
    | exact logs_throw _ _
    | exact logs_throw_bind _ _ _
    | exact logs_pure (by assumption)
    | exact logs_call h0 (by assumption)
    | (refine logs_bind_logged h0 (by assumption) ?_; intro _ _ _ _; try dsimp only)
    | (refine logs_bind_plain (m0 _) (by assumption) ?_; intro _ _ _; try dsimp only)

theorem print_loop_logs (env : Env) (fuel : Nat) : ∀ (n : Nat) (values : List (String × VarType)) (separator : String),
    LogsFn (print_loop_log env fuel n values separator) := by
  intro n
  induction n with
  | zero => intro values separator; exact logsfn_of (fun p log => logs_fuel)
  | succ n ih =>
    intro values separator
    refine logsfn_of ?_
    intro p log
    have hS := fresh_refl p log
    unfold print_loop_log
    generalize print_loop_log env fuel n = loop_log at ih ⊢
    have h0 := parse_expression_logs env fuel
    generalize parse_expression_log env fuel = g0_log at h0 ⊢
    have m0 := expect_moves
    generalize expect = c0 at m0 ⊢
    repeat' first
      | (refine logs_ite _ ?_ ?_ <;> intro _)
      | exact logs_fuel
      | exact logs_throw _ _
      | exact logs_throw_bind _ _ _
      | exact logs_pure (by assumption)
      | exact logs_call (ih _ _) (by first | assumption | exact fresh_le (by assumption) (by first | exact le_refl _ | exact (include_for_moves _ _).2.2.1))
      | exact logs_call h0 (by assumption)
      | (refine logs_bind_logged h0 (by assumption) ?_; intro _ _ _ _; try dsimp only)
      | (refine logs_bind_plain (m0 _) (by assumption) ?_; intro _ _ _; try dsimp only)
      | (refine logs_read ?_; intro _; try dsimp only)

theorem parse_print_logs (env : Env) (fuel : Nat) :
    LogsFn (parse_print_log env fuel) := by
  refine logsfn_of ?_
  intro p log
  have hS := fresh_refl p log
  unfold parse_print_log
  have h0 := parse_expression_logs env fuel
  generalize parse_expression_log env fuel = g0_log at h0 ⊢
  have h1 := print_loop_logs env fuel
  generalize print_loop_log env fuel = g1_log at h1 ⊢
  have m0 := expect_moves
  generalize expect = c0 at m0 ⊢
  repeat' first
    | (refine logs_ite _ ?_ ?_ <;> intro _)
    | exact logs_fuel
    | exact logs_throw _ _
    | exact logs_throw_bind _ _ _
    | exact logs_pure (by assumption)
    | exact logs_call h0 (by assumption)
    | exact logs_call (h1 _ _ _) (by assumption)
    | (refine logs_bind_logged h0 (by assumption) ?_; intro _ _ _ _; try dsimp only)
    | (refine logs_bind_logged (h1 _ _ _) (by first | assumption | exact fresh_le (by assumption) (by first | exact le_refl _ | exact (include_for_moves _ _).2.2.1)) ?_; intro _ _ _ _; try dsimp only)
    | (refine logs_bind_plain (m0 _) (by assumption) ?_; intro _ _ _; try dsimp only)
    | (refine logs_read ?_; intro _; try dsimp only)

theorem parse_index_assignment_logs (env : Env) (fuel : Nat) :
    LogsFn (parse_index_assignment_log env fuel) := by
  refine logsfn_of ?_
  intro p log
  have hS := fresh_refl p log
  unfold parse_index_assignment_log
  have h0 := parse_expression_logs env fuel
  generalize parse_expression_log env fuel = g0_log at h0 ⊢
  have m0 := expect_moves
  generalize expect = c0 at m0 ⊢
  repeat' first
    | (refine logs_ite _ ?_ ?_ <;> intro _)
    | exact logs_fuel
    | exact logs_throw _ _
    | exact logs_throw_bind _ _ _
    | exact logs_pure (by assumption)
    | exact logs_call h0 (by assumption)
    | (refine logs_bind_logged h0 (by assumption) ?_; intro _ _ _ _; try dsimp only)
    | (refine logs_bind_plain (m0 _) (by assumption) ?_; intro _ _ _; try dsimp only)
    | split

theorem block_loop_logs (stmt_log : StmtLog) (hstmt : LogsFn stmt_log) (stop : TokenType → Bool) : ∀ (n : Nat) (body : List ASTNode),
    LogsFn (block_loop_log stmt_log stop n body) := by
  intro n
  induction n with
  | zero => intro body; exact logsfn_of (fun p log => logs_fuel)
  | succ n ih =>
    intro body
    refine logsfn_of ?_
    intro p log
    have hS := fresh_refl p log
    unfold block_loop_log
    generalize block_loop_log stmt_log stop n = loop_log at ih ⊢
    repeat' first
      | (refine logs_ite _ ?_ ?_ <;> intro _)
      | exact logs_fuel
      | exact logs_throw _ _
      | exact logs_throw_bind _ _ _
      | exact logs_pure (by assumption)
      | exact logs_call (ih _) (by assumption)
      | exact logs_call hstmt (by assumption)
      | (refine logs_bind_logged hstmt (by assumption) ?_; intro _ _ _ _; try dsimp only)
      | (refine logs_read ?_; intro _; try dsimp only)

theorem parse_function_logs (env : Env) (stmt_log : StmtLog) (hstmt : LogsFn stmt_log) (n : Nat) :
    LogsFn (parse_function_log env stmt_log n) := by
  refine logsfn_of ?_
  intro p log
  have hS := fresh_refl p log
  unfold parse_function_log
  have h0 := (fun stop => block_loop_logs _ hstmt stop)
  generalize block_loop_log stmt_log = g0_log at h0 ⊢
  have m0 := expect_moves
  generalize expect = c0 at m0 ⊢
  have m1 := parse_param_moves env
  generalize parse_param env = c1 at m1 ⊢
  have m2 := params_loop_moves env
  generalize params_loop env = c2 at m2 ⊢
  have m3 := parse_collection_type_moves env
  generalize parse_collection_type env = c3 at m3 ⊢
  repeat' first
    | (refine logs_ite _ ?_ ?_ <;> intro _)
    | exact logs_fuel
    | exact logs_throw _ _
    | exact logs_throw_bind _ _ _
    | exact logs_pure (by assumption)
    | exact logs_call hstmt (by assumption)
    | exact logs_call (h0 _ _ _) (by assumption)
    | (refine logs_bind_logged (h0 _ _ _) (by assumption) ?_; intro _ _ _ _; try dsimp only)
    | (refine logs_bind_plain (m0 _) (by assumption) ?_; intro _ _ _; try dsimp only)
    | (refine logs_bind_plain (m1 _) (by assumption) ?_; intro _ _ _; try dsimp only)
    | (refine logs_bind_plain (m2 _ _) (by assumption) ?_; intro _ _ _; try dsimp only)
    | (refine logs_bind_plain m3 (by assumption) ?_; intro _ _ _; try dsimp only)
    | (refine logs_read ?_; intro _; try dsimp only)

theorem elif_loop_logs (env : Env) (stmt_log : StmtLog) (hstmt : LogsFn stmt_log) (fuel : Nat) : ∀ (n : Nat) (clauses : List (String × List ASTNode)),
    LogsFn (elif_loop_log env stmt_log fuel n clauses) := by
  intro n
  induction n with
  | zero => intro clauses; exact logsfn_of (fun p log => logs_fuel)
  | succ n ih =>
    intro clauses
    refine logsfn_of ?_
    intro p log
    have hS := fresh_refl p log
    unfold elif_loop_log
    generalize elif_loop_log env stmt_log fuel n = loop_log at ih ⊢
    have h0 := parse_expression_logs env fuel
    generalize parse_expression_log env fuel = g0_log at h0 ⊢
    have h1 := (fun stop => block_loop_logs _ hstmt stop)
    generalize block_loop_log stmt_log = g1_log at h1 ⊢
    have m0 := expect_moves
    generalize expect = c0 at m0 ⊢
    repeat' first
      | (refine logs_ite _ ?_ ?_ <;> intro _)
      | exact logs_fuel
      | exact logs_throw _ _
      | exact logs_throw_bind _ _ _
      | exact logs_pure (by assumption)
      | exact logs_call (ih _) (by assumption)
      | exact logs_call hstmt (by assumption)
      | exact logs_call h0 (by assumption)
      | exact logs_call (h1 _ _ _) (by assumption)
      | (refine logs_bind_logged h0 (by assumption) ?_; intro _ _ _ _; try dsimp only)
      | (refine logs_bind_logged (h1 _ _ _) (by assumption) ?_; intro _ _ _ _; try dsimp only)
      | (refine logs_bind_plain (m0 _) (by assumption) ?_; intro _ _ _; try dsimp only)
      | (refine logs_read ?_; intro _; try dsimp only)

theorem parse_if_logs (env : Env) (stmt_log : StmtLog) (hstmt : LogsFn stmt_log) (n : Nat) :
    LogsFn (parse_if_log env stmt_log n) := by
  refine logsfn_of ?_
  intro p log
  have hS := fresh_refl p log
  unfold parse_if_log
  have h0 := parse_expression_logs env n
  generalize parse_expression_log env n = g0_log at h0 ⊢
  have h1 := (fun stop => block_loop_logs _ hstmt stop)
  generalize block_loop_log stmt_log = g1_log at h1 ⊢
  have h2 := elif_loop_logs env _ hstmt n
  generalize elif_loop_log env stmt_log n = g2_log at h2 ⊢
  have m0 := expect_moves
  generalize expect = c0 at m0 ⊢
  repeat' first
    | (refine logs_ite _ ?_ ?_ <;> intro _)
    | exact logs_fuel
    | exact logs_throw _ _
    | exact logs_throw_bind _ _ _
    | exact logs_pure (by assumption)
    | exact logs_call hstmt (by assumption)
    | exact logs_call h0 (by assumption)
    | exact logs_call (h1 _ _ _) (by assumption)
    | exact logs_call (h2 _ _) (by assumption)
    | (refine logs_bind_logged h0 (by assumption) ?_; intro _ _ _ _; try dsimp only)
    | (refine logs_bind_logged (h1 _ _ _) (by assumption) ?_; intro _ _ _ _; try dsimp only)
    | (refine logs_bind_logged (h2 _ _) (by assumption) ?_; intro _ _ _ _; try dsimp only)
    | (refine logs_bind_plain (m0 _) (by assumption) ?_; intro _ _ _; try dsimp only)
    | (refine logs_read ?_; intro _; try dsimp only)

theorem parse_for_logs (env : Env) (stmt_log : StmtLog) (hstmt : LogsFn stmt_log) (n : Nat) :
    LogsFn (parse_for_log env stmt_log n) := by
  refine logsfn_of ?_
  intro p log
  have hS := fresh_refl p log
  unfold parse_for_log
  have h0 := parse_expression_logs env n
  generalize parse_expression_log env n = g0_log at h0 ⊢
  have h1 := (fun stop => block_loop_logs _ hstmt stop)
  generalize block_loop_log stmt_log = g1_log at h1 ⊢
  have m0 := expect_moves
  generalize expect = c0 at m0 ⊢
  repeat' first
    | exact logs_fuel
    | exact logs_throw _ _
    | exact logs_throw_bind _ _ _
    | exact logs_pure (by assumption)
    | exact logs_call hstmt (by assumption)
    | exact logs_call h0 (by assumption)
    | exact logs_call (h1 _ _ _) (by assumption)
    | (refine logs_bind_logged h0 (by assumption) ?_; intro _ _ _ _; try dsimp only)
    | (refine logs_bind_logged (h1 _ _ _) (by assumption) ?_; intro _ _ _ _; try dsimp only)
    | (refine logs_bind_plain (m0 _) (by assumption) ?_; intro _ _ _; try dsimp only)

theorem parse_while_logs (env : Env) (stmt_log : StmtLog) (hstmt : LogsFn stmt_log) (n : Nat) :
    LogsFn (parse_while_log env stmt_log n) := by
  refine logsfn_of ?_
  intro p log
  have hS := fresh_refl p log
  unfold parse_while_log
  have h0 := parse_expression_logs env n
  generalize parse_expression_log env n = g0_log at h0 ⊢
  have h1 := (fun stop => block_loop_logs _ hstmt stop)
  generalize block_loop_log stmt_log = g1_log at h1 ⊢
  have m0 := expect_moves
  generalize expect = c0 at m0 ⊢
  repeat' first
    | exact logs_fuel
    | exact logs_throw _ _
    | exact logs_throw_bind _ _ _
    | exact logs_pure (by assumption)
    | exact logs_call hstmt (by assumption)
    | exact logs_call h0 (by assumption)
    | exact logs_call (h1 _ _ _) (by assumption)
    | (refine logs_bind_logged h0 (by assumption) ?_; intro _ _ _ _; try dsimp only)
    | (refine logs_bind_logged (h1 _ _ _) (by assumption) ?_; intro _ _ _ _; try dsimp only)
    | (refine logs_bind_plain (m0 _) (by assumption) ?_; intro _ _ _; try dsimp only)

theorem case_loop_logs (stmt_log : StmtLog) (hstmt : LogsFn stmt_log) (fuel : Nat) : ∀ (n : Nat) (cases : List (String × List ASTNode)) (default_case : List ASTNode),
    LogsFn (case_loop_log stmt_log fuel n cases default_case) := by
  intro n
  induction n with
  | zero => intro cases default_case; exact logsfn_of (fun p log => logs_fuel)
  | succ n ih =>
    intro cases default_case
    refine logsfn_of ?_
    intro p log
    have hS := fresh_refl p log
    unfold case_loop_log
    generalize case_loop_log stmt_log fuel n = loop_log at ih ⊢
    have h0 := (fun stop => block_loop_logs _ hstmt stop)
    generalize block_loop_log stmt_log = g0_log at h0 ⊢
    have m0 := expect_moves
    generalize expect = c0 at m0 ⊢
    have m1 := parse_case_pattern_moves
    generalize parse_case_pattern = c1 at m1 ⊢
    repeat' first
      | (refine logs_ite _ ?_ ?_ <;> intro _)
      | exact logs_fuel
      | exact logs_throw _ _
      | exact logs_throw_bind _ _ _
      | exact logs_pure (by assumption)
      | exact logs_call (ih _ _) (by assumption)
      | exact logs_call hstmt (by assumption)
      | exact logs_call (h0 _ _ _) (by assumption)
      | (refine logs_bind_logged (h0 _ _ _) (by assumption) ?_; intro _ _ _ _; try dsimp only)
      | (refine logs_bind_plain (m0 _) (by assumption) ?_; intro _ _ _; try dsimp only)
      | (refine logs_bind_plain m1 (by assumption) ?_; intro _ _ _; try dsimp only)
      | (refine logs_read ?_; intro _; try dsimp only)

theorem parse_match_logs (env : Env) (stmt_log : StmtLog) (hstmt : LogsFn stmt_log) (n : Nat) :
    LogsFn (parse_match_log env stmt_log n) := by
  refine logsfn_of ?_
  intro p log
  have hS := fresh_refl p log
  unfold parse_match_log
  have h0 := parse_expression_logs env n
  generalize parse_expression_log env n = g0_log at h0 ⊢
  have h1 := case_loop_logs _ hstmt n
  generalize case_loop_log stmt_log n = g1_log at h1 ⊢
  have m0 := expect_moves
  generalize expect = c0 at m0 ⊢
  repeat' first
    | (refine logs_ite _ ?_ ?_ <;> intro _)
    | exact logs_fuel
    | exact logs_throw _ _
    | exact logs_throw_bind _ _ _
    | exact logs_pure (by assumption)
    | exact logs_call hstmt (by assumption)
    | exact logs_call h0 (by assumption)
    | exact logs_call (h1 _ _ _) (by assumption)
    | (refine logs_bind_logged h0 (by assumption) ?_; intro _ _ _ _; try dsimp only)
    | (refine logs_bind_logged (h1 _ _ _) (by assumption) ?_; intro _ _ _ _; try dsimp only)
    | (refine logs_bind_plain (m0 _) (by assumption) ?_; intro _ _ _; try dsimp only)

theorem parse_statement_logs (env : Env) : ∀ (fuel : Nat),
    LogsFn (parse_statement_log env fuel) := by
  intro fuel
  induction fuel with
  | zero => exact logsfn_of (fun p log => logs_fuel)
  | succ fuel ih =>
    refine logsfn_of ?_
    intro p log
    have hS := fresh_refl p log
    unfold parse_statement_log
    have h0 := parse_function_logs env _ ih fuel
    generalize parse_function_log env (parse_statement_log env fuel) fuel = g0_log at h0 ⊢
    have h1 := parse_if_logs env _ ih fuel
    generalize parse_if_log env (parse_statement_log env fuel) fuel = g1_log at h1 ⊢
    have h2 := parse_for_logs env _ ih fuel
    generalize parse_for_log env (parse_statement_log env fuel) fuel = g2_log at h2 ⊢
    have h3 := parse_while_logs env _ ih fuel
    generalize parse_while_log env (parse_statement_log env fuel) fuel = g3_log at h3 ⊢
    have h4 := parse_match_logs env _ ih fuel
    generalize parse_match_log env (parse_statement_log env fuel) fuel = g4_log at h4 ⊢
    have h5 := parse_return_logs env fuel
    generalize parse_return_log env fuel = g5_log at h5 ⊢
    have h6 := parse_print_logs env fuel
    generalize parse_print_log env fuel = g6_log at h6 ⊢
    have h7 := parse_assignment_logs env fuel
    generalize parse_assignment_log env fuel = g7_log at h7 ⊢
    have h8 := parse_function_call_logs env fuel
    generalize parse_function_call_log env fuel = g8_log at h8 ⊢
    have h9 := parse_method_call_logs env fuel
    generalize parse_method_call_log env fuel = g9_log at h9 ⊢
    have h10 := parse_index_assignment_logs env fuel
    generalize parse_index_assignment_log env fuel = g10_log at h10 ⊢
    repeat' first
      | (refine logs_ite _ ?_ ?_ <;> intro _)
      | exact logs_fuel
      | exact logs_throw _ _
      | exact logs_throw_bind _ _ _
      | exact logs_pure (by assumption)
      | exact logs_call h0 (by assumption)
      | exact logs_call h1 (by assumption)
      | exact logs_call h2 (by assumption)
      | exact logs_call h3 (by assumption)
      | exact logs_call h4 (by assumption)
      | exact logs_call h5 (by assumption)
      | exact logs_call h6 (by assumption)
      | exact logs_call h7 (by assumption)
      | exact logs_call h8 (by assumption)
      | exact logs_call h9 (by assumption)
      | exact logs_call h10 (by assumption)
      | (refine logs_read ?_; intro _; try dsimp only)

theorem ends_bind3 {pre : String} {α β : Type} {x : Res (α × Parser × List String)}
    {f : α × Parser × List String → Res (β × Parser × List String)}
    (hf : ∀ a q l, EndsWith pre (f (a, q, l))) : EndsWith pre (x >>= f) := by
  cases x with
  | error err => exact fun a q l h => (by cases h)
  | ok r =>
    obtain ⟨a, q, l⟩ := r
    exact hf a q l

theorem ends_bind2 {pre : String} {α β : Type} {x : Res (α × Parser)}
    {f : α × Parser → Res (β × Parser × List String)}
    (hf : ∀ a q, EndsWith pre (f (a, q))) : EndsWith pre (x >>= f) := by
  cases x with
  | error err => exact fun a q l h => (by cases h)
  | ok r =>
    obtain ⟨a, q⟩ := r
    exact hf a q

theorem ends_bind1 {pre : String} {α β : Type} {x : Res α}
    {f : α → Res (β × Parser × List String)}
    (hf : ∀ a, EndsWith pre (f a)) : EndsWith pre (x >>= f) := by
  cases x with
  | error err => exact fun a q l h => (by cases h)
  | ok a => exact hf a

/-- The statement that names a temporary, in the last position. -/
theorem ends_pure {pre : String} {α : Type} (a : α) (q m : Parser) (front : List String)
    (hq : q.string_temp_counter = m.string_temp_counter + 1) :
    EndsWith pre (pure (a, q, front ++ [pre ++ toString m.string_temp_counter]) :
      Res (α × Parser × List String)) := by
  intro b r l h
  simp only [pure, Except.pure, Except.ok.injEq, Prod.mk.injEq] at h
  obtain ⟨-, rfl, rfl⟩ := h
  refine ⟨front, ?_⟩
  rw [hq, Nat.add_sub_cancel]
  rfl

theorem parse_fstring_expr_last (env : Env) (rec_log : ExprLog) (n : Nat) (p : Parser)
    (log : List String) : EndsWith "temp_string_" (parse_fstring_expr_log env rec_log n p log) := by
  unfold parse_fstring_expr_log
  refine ends_bind2 ?_
  intro _ p1
  refine ends_bind3 ?_
  intro fa p2 l2
  refine ends_bind2 ?_
  intro _ p3
  dsimp only
  refine ends_pure _ _ p3 _ ?_
  simp only [add_include, fstring_args_counter]

theorem ends_ite {pre : String} {α : Type} (c : Prop) [Decidable c]
    {a b : Res (α × Parser × List String)} (ha : c → EndsWith pre a) (hb : ¬c → EndsWith pre b) :
    EndsWith pre (if c then a else b) := by
  split
  · exact ha (by assumption)
  · exact hb (by assumption)

theorem ends_throw {pre : String} {α : Type} (msg : String) (p : Parser) :
    EndsWith pre (throw_at msg p : Res (α × Parser × List String)) := by
  intro a q l h
  exact ((throw_at_ne_ok _ _ _).1 h).elim

theorem ends_throw_bind {pre : String} {α β : Type} (msg : String) (p : Parser)
    (f : α → Res (β × Parser × List String)) :
    EndsWith pre ((throw_at msg p : Res α) >>= f) := by
  intro a q l h
  rw [bind_ok] at h
  obtain ⟨x, hx, -⟩ := h
  exact ((throw_at_ne_ok _ _ _).1 hx).elim

theorem parse_list_expr_last (env : Env) (rec_log : ExprLog) (n : Nat) (p : Parser)
    (log : List String) : EndsWith "temp_list_" (parse_list_expr_log env rec_log n p log) := by
  unfold parse_list_expr_log
  dsimp only
  repeat' first
    | (refine ends_ite _ ?_ ?_ <;> intro _)
    | exact ends_pure _ _ _ _ rfl
    | exact ends_throw _ _
    | exact ends_throw_bind _ _ _
    | (refine ends_bind3 ?_; intro _ _ _; try dsimp only)
    | (refine ends_bind2 ?_; intro _ _; try dsimp only)
    | (refine ends_bind1 ?_; intro _; try dsimp only)

theorem parse_tuple_expr_last (env : Env) (rec_log : ExprLog) (n : Nat) (p : Parser)
    (log : List String) : EndsWith "temp_tuple_" (parse_tuple_expr_log env rec_log n p log) := by
  unfold parse_tuple_expr_log
  dsimp only
  repeat' first
    | (refine ends_ite _ ?_ ?_ <;> intro _)
    | exact ends_pure _ _ _ _ rfl
    | exact ends_throw _ _
    | exact ends_throw_bind _ _ _
    | (refine ends_bind3 ?_; intro _ _ _; try dsimp only)
    | (refine ends_bind2 ?_; intro _ _; try dsimp only)
    | (refine ends_bind1 ?_; intro _; try dsimp only)

theorem parse_dict_expr_last (env : Env) (rec_log : ExprLog) (n : Nat) (p : Parser)
    (log : List String) : EndsWith "temp_dict_" (parse_dict_expr_log env rec_log n p log) := by
  unfold parse_dict_expr_log
  dsimp only
  repeat' first
    | (refine ends_ite _ ?_ ?_ <;> intro _)
    | exact ends_pure _ _ _ _ rfl
    | exact ends_throw _ _
    | exact ends_throw_bind _ _ _
    | (refine ends_bind3 ?_; intro _ _ _; try dsimp only)
    | (refine ends_bind2 ?_; intro _ _; try dsimp only)
    | (refine ends_bind1 ?_; intro _; try dsimp only)

theorem parse_program_erases (env : Env) (fuel : Nat) :
    Erases (parse_program_log env fuel) (parse_program env fuel) := by
  intro p log
  unfold parse_program_log parse_program
  exact block_loop_erases _ _ (parse_statement_erases env fuel) _ _ _ _ _

theorem parse_program_logs (env : Env) (fuel : Nat) : LogsFn (parse_program_log env fuel) := by
  intro p log a q l h
  unfold parse_program_log at h
  exact block_loop_logs _ (parse_statement_logs env fuel) _ _ _ _ _ _ _ _ h

/-- A run with the list of names that returns, and the run without the list. -/
theorem erase_of_ok {α : Type} {r_log : Res (α × Parser × List String)} {r : Res (α × Parser)}
    (h : erase r_log = r) {a : α} {q : Parser} {l : List String} (hr : r_log = .ok (a, q, l)) :
    r = .ok (a, q) := by
  rw [← h, hr]
  rfl

/-- The name of a branch that names a temporary: the text ends with it, and so does the list. -/
theorem branch_name {pre : String} {e : Expr} {p q : Parser} {l : List String}
    (h1 : p.string_temp_counter < q.string_temp_counter ∧
      ∃ body, e.1 = body ++ temp_name pre (q.string_temp_counter - 1))
    (h2 : ∃ front, l = front ++ [temp_name pre (q.string_temp_counter - 1)]) :
    p.string_temp_counter < q.string_temp_counter ∧
    ∃ body front, e.1 = body ++ temp_name pre (q.string_temp_counter - 1) ∧
      l = front ++ [temp_name pre (q.string_temp_counter - 1)] := by
  obtain ⟨hlt, body, hb⟩ := h1
  obtain ⟨front, hf⟩ := h2
  exact ⟨hlt, body, front, hb, hf⟩

/-- C31. The parser is run with the list of the temporaries it names: each of the four statements
that build a name from `string_temp_counter` (`temp_string_N` of an f-string, `temp_list_N`,
`temp_tuple_N`, `temp_dict_N` of a literal) appends its name, and the run returns what the parser
returns. In the list of one parse every name differs from every name before it: each is a prefix
with a number N, not below the counter at the start and below the counter at the end, and the
numbers increase along the list. The counter never decreases: it is not lower after a program, a
statement or an expression than before. Each of the four branches takes for N the counter reached
when its parts are read and leaves N + 1; the name is the end of the text it returns and the last
name of the list. Two names with the same text have the same prefix and the same number. -/
theorem C31_temporary_names (env : Env) (fuel : Nat) (p : Parser) (names : List String) (n : Nat)
    (h : names_after (parse_program_log env fuel p []) = .ok (names, n)) :
    List.Pairwise (fun earlier later => later ≠ earlier) names ∧
    (∀ x, x ∈ names → ∃ pre, pre ∈ temp_prefixes ∧
      ∃ k, p.string_temp_counter ≤ k ∧ k < n ∧ x = temp_name pre k) ∧
    ascending p.string_temp_counter names n ∧
    counter_after (parse_program env fuel p) = .ok n ∧
    p.string_temp_counter ≤ n ∧
    (∀ (k : Nat) (p1 : Parser) (log : List String),
      erase (parse_program_log env k p1 log) = parse_program env k p1 ∧
      erase (parse_statement_log env k p1 log) = parse_statement env k p1 ∧
      erase (parse_expression_log env k p1 log) = parse_expression env k p1) ∧
    (∀ (k : Nat) (p1 q1 : Parser) (log l : List String),
      (∀ a, parse_program_log env k p1 log = .ok (a, q1, l) → Fresh p1 log q1 l) ∧
      (∀ a, parse_statement_log env k p1 log = .ok (a, q1, l) → Fresh p1 log q1 l) ∧
      (∀ e, parse_expression_log env k p1 log = .ok (e, q1, l) → Fresh p1 log q1 l)) ∧
    (∀ (k : Nat) (p1 q1 : Parser) (a : ASTNode), parse_statement env k p1 = .ok (a, q1) →
      p1.string_temp_counter ≤ q1.string_temp_counter) ∧
    (∀ (k : Nat) (p1 q1 : Parser) (e : Expr), parse_expression env k p1 = .ok (e, q1) →
      p1.string_temp_counter ≤ q1.string_temp_counter) ∧
    (∀ (k : Nat) (p1 q1 : Parser) (log l : List String) (e : Expr),
      (parse_fstring_expr_log env (parse_expression_log env k) k p1 log = .ok (e, q1, l) →
        p1.string_temp_counter < q1.string_temp_counter ∧
        ∃ body front, e.1 = body ++ temp_name "temp_string_" (q1.string_temp_counter - 1) ∧
          l = front ++ [temp_name "temp_string_" (q1.string_temp_counter - 1)]) ∧
      (parse_list_expr_log env (parse_expression_log env k) k p1 log = .ok (e, q1, l) →
        p1.string_temp_counter < q1.string_temp_counter ∧
        ∃ body front, e.1 = body ++ temp_name "temp_list_" (q1.string_temp_counter - 1) ∧
          l = front ++ [temp_name "temp_list_" (q1.string_temp_counter - 1)]) ∧
      (parse_tuple_expr_log env (parse_expression_log env k) k p1 log = .ok (e, q1, l) →
        p1.string_temp_counter < q1.string_temp_counter ∧
        ∃ body front, e.1 = body ++ temp_name "temp_tuple_" (q1.string_temp_counter - 1) ∧
          l = front ++ [temp_name "temp_tuple_" (q1.string_temp_counter - 1)]) ∧
      (parse_dict_expr_log env (parse_expression_log env k) k p1 log = .ok (e, q1, l) →
        p1.string_temp_counter < q1.string_temp_counter ∧
        ∃ body front, e.1 = body ++ temp_name "temp_dict_" (q1.string_temp_counter - 1) ∧
          l = front ++ [temp_name "temp_dict_" (q1.string_temp_counter - 1)])) ∧
    (∀ (pre1 pre2 : String) (c1 c2 : Nat), pre1 ∈ temp_prefixes → pre2 ∈ temp_prefixes →
      temp_name pre1 c1 = temp_name pre2 c2 → pre1 = pre2 ∧ c1 = c2) := by
  have hrun : ∃ ast q, parse_program_log env fuel p [] = .ok (ast, q, names) ∧
      q.string_temp_counter = n := by
    unfold names_after at h
    cases hp : parse_program_log env fuel p [] with
    | error e => rw [hp] at h; cases h
    | ok r =>
      obtain ⟨ast, q, l⟩ := r
      rw [hp] at h
      simp only [Except.map, Except.ok.injEq, Prod.mk.injEq] at h
      obtain ⟨rfl, rfl⟩ := h
      exact ⟨ast, q, rfl, rfl⟩
  obtain ⟨ast, q, hp, rfl⟩ := hrun
  obtain ⟨new, hnew, hasc⟩ := parse_program_logs env fuel p [] ast q names hp
  rw [List.nil_append] at hnew
  subst hnew
  have hplain := erase_of_ok (parse_program_erases env fuel p []) hp
  refine ⟨?_, ascending_mem _ _ _ hasc, hasc, ?_, ascending_le _ _ _ hasc,
    fun k p1 log => ⟨parse_program_erases env k p1 log, parse_statement_erases env k p1 log,
      parse_expression_erases env k p1 log⟩,
    fun k p1 q1 log l => ⟨fun a ha => parse_program_logs env k p1 log a q1 l ha,
      fun a ha => parse_statement_logs env k p1 log a q1 l ha,
      fun e he => parse_expression_logs env k p1 log e q1 l he⟩,
    fun k p1 q1 a hs => (parse_statement_moves env k p1 a q1 hs).2.2.1,
    fun k p1 q1 e hs => (parse_expression_moves env k p1 e q1 hs).2.2.1, ?_, temp_name_injective⟩
  · exact (ascending_nodup _ _ _ hasc).imp (fun hne => Ne.symm hne)
  · unfold counter_after
    rw [hplain]
    rfl
  · intro k p1 q1 log l e
    refine ⟨fun hb => ?_, fun hb => ?_, fun hb => ?_, fun hb => ?_⟩
    · exact branch_name (parse_fstring_expr_name env _ (parse_expression_moves env k) k p1 e q1
        (erase_of_ok (parse_fstring_expr_erases env _ _ (parse_expression_erases env k) k p1 log)
          hb)) (parse_fstring_expr_last env _ k p1 log e q1 l hb)
    · exact branch_name (parse_list_expr_name env _ (parse_expression_moves env k) k p1 e q1
        (erase_of_ok (parse_list_expr_erases env _ _ (parse_expression_erases env k) k p1 log)
          hb)) (parse_list_expr_last env _ k p1 log e q1 l hb)
    · exact branch_name (parse_tuple_expr_name env _ (parse_expression_moves env k) k p1 e q1
        (erase_of_ok (parse_tuple_expr_erases env _ _ (parse_expression_erases env k) k p1 log)
          hb)) (parse_tuple_expr_last env _ k p1 log e q1 l hb)
    · exact branch_name (parse_dict_expr_name env _ (parse_expression_moves env k) k p1 e q1
        (erase_of_ok (parse_dict_expr_erases env _ _ (parse_expression_erases env k) k p1 log)
          hb)) (parse_dict_expr_last env _ k p1 log e q1 l hb)

/-- C31 at the program `print([[1], [2]], f"a")`: the inner lists are named `temp_list_0` and
`temp_list_1` before the outer list `temp_list_2`, then the f-string `temp_string_3`; the four
names differ from one another. -/
theorem C31_witness :
    names_after (parse_program_log sample_env 20 (Parser.init sample_env c31_nested_tokens) []) =
      .ok (["temp_list_0", "temp_list_1", "temp_list_2", "temp_string_3"], 4) ∧
    List.Pairwise (fun earlier later => later ≠ earlier)
      ["temp_list_0", "temp_list_1", "temp_list_2", "temp_string_3"] :=
  ⟨by decide!,
   (C31_temporary_names sample_env 20 (Parser.init sample_env c31_nested_tokens)
    ["temp_list_0", "temp_list_1", "temp_list_2", "temp_string_3"] 4 (by decide!)).1⟩

/-- The nested literal of the witness: the text that `parse_expression` returns for
`[[1], [2]]` names the inner lists before the outer one. -/
theorem nested_name_examples :
    value_at (parse_expression sample_env 8 (at_point (parser_at c31_nested_tokens [] []) 2 0
        (scalar .NONE) ["common.h"])) =
      .ok (("listList*temp_list_2 = create_list_list();\nlist_append_list(temp_list_2, " ++
        "intList*temp_list_0 = create_list_int();\nlist_append_int(temp_list_0, 1);\n" ++
        "temp_list_0);\nlist_append_list(temp_list_2, " ++
        "intList*temp_list_1 = create_list_int();\nlist_append_int(temp_list_1, 2);\n" ++
        "temp_list_1);\ntemp_list_2", .LIST), 11) ∧
    names_after (parse_program_log sample_env 20 (Parser.init sample_env c31_tokens) []) =
      .ok (["temp_list_0", "temp_list_1"], 2) := by
  refine ⟨?_, ?_⟩ <;> decide!

/-- The two lists of `print([1], [2])` are named `temp_list_0` and `temp_list_1`. -/
theorem temporary_name_examples :
    value_at (parse_expression sample_env 6 (at_point (parser_at c31_tokens [] []) 2 0
        (scalar .NONE) ["common.h"])) =
      .ok (("intList*temp_list_0 = create_list_int();\nlist_append_int(temp_list_0, 1);\n" ++
        temp_name "temp_list_" 0, .LIST), 5) ∧
    value_at (parse_expression sample_env 6 (at_point (parser_at c31_tokens [] []) 6 1
        (list_of .INT) ["common.h", "list_int.h"])) =
      .ok (("intList*temp_list_1 = create_list_int();\nlist_append_int(temp_list_1, 2);\n" ++
        temp_name "temp_list_" 1, .LIST), 9) ∧
    temp_name "temp_list_" 0 = "temp_list_0" ∧ temp_name "temp_list_" 1 = "temp_list_1" := by
  refine ⟨?_, ?_, ?_, ?_⟩ <;> decide!

/-! ## C32: the primaries that skip the operator loop -/

/-- The branch of `parse_primary` at `[`, `(`, `\x7b` or `len` sets the flag `returned`. -/
theorem parse_primary_returned (env : Env) (rec : Parser → Res (Expr × Parser)) (n : Nat)
    (p : Parser) (t : Token) (e : Expr) (flag : Bool) (q : Parser)
    (ht : p.tokens[p.pos]? = some t)
    (hk : t.type = .LBRACKET ∨ t.type = .LPAREN ∨ t.type = .LBRACE ∨ t.type = .LEN)
    (h : parse_primary env rec n p = .ok ((e, flag), q)) : flag = true := by
  unfold parse_primary at h
  simp only [peek, ht, bind, Except.bind] at h
  rcases hk with hk | hk | hk | hk <;>
    (simp only [hk, reduceCtorEq, if_false, if_true, false_or, or_false] at h
     split at h
     · cases h
     · simp only [pure, Except.pure, Except.ok.injEq, Prod.mk.injEq] at h
       exact h.1.2.symm)

/-- C32. When the primary of an expression is a list literal, a parenthesised expression, a dict
literal or `len(e)`, `parse_expression` returns the primary as it is, with the cursor after the
primary: the operator loop is not entered, and a binary operator that follows is left in the
tokens. -/
theorem C32_operator_left_unread (env : Env) (fuel : Nat) (p : Parser) (t : Token) (e : Expr)
    (q : Parser) (ht : p.tokens[p.pos]? = some t)
    (hk : t.type = .LBRACKET ∨ t.type = .LPAREN ∨ t.type = .LBRACE ∨ t.type = .LEN)
    (h : parse_expression env (fuel + 1) p = .ok (e, q)) :
    parse_primary env (parse_expression env fuel) fuel p = .ok ((e, true), q) := by
  rw [parse_expression_succ] at h
  cases hp : parse_primary env (parse_expression env fuel) fuel p with
  | error err => rw [hp] at h; cases h
  | ok r =>
    obtain ⟨⟨e1, flag⟩, p1⟩ := r
    have hf := parse_primary_returned env _ fuel p t e1 flag p1 ht hk hp
    subst hf
    rw [hp] at h
    simp only [if_true, Except.ok.injEq, Prod.mk.injEq] at h
    rw [h.1, h.2]

/-- C32 at the expression `len(s) + 1` with `s` : STRING: the value is that of `len(s)` and the
cursor is at the `+`. -/
theorem C32_witness :
    parse_primary sample_env (parse_expression sample_env 5) 5 (parser_at c32_tokens c33_vars []) =
      .ok ((("strlen(s)", .INT), true),
        at_point (parser_at c32_tokens c33_vars []) 4 0 (scalar .INT)
          ["common.h", "string_utils.h"]) :=
  C32_operator_left_unread sample_env 5 (parser_at c32_tokens c33_vars []) (tk .LEN "len" 1)
    ("strlen(s)", .INT)
    (at_point (parser_at c32_tokens c33_vars []) 4 0 (scalar .INT) ["common.h", "string_utils.h"])
    (by decide) (by decide) (by decide!)

/-- The expression `len(s) + 1` ends before the `+`, so that `print(len(s) + 1)` is rejected; so does
`[1] + [2]`; after an identifier the operator is consumed. -/
theorem operator_after_primary_examples :
    value_at (parse_expression sample_env 6 (parser_at c32_tokens c33_vars [])) =
      .ok (("strlen(s)", .INT), 4) ∧
    c32_tokens[4]? = some (tk .PLUS "+" 1) ∧
    outcome (parse_statement sample_env 6 (parser_at c32_print_tokens c33_vars [])) =
      .error (.thrown "Unexpected Token Type at Line 1") ∧
    value_at (parse_expression sample_env 6 (parser_at c32_list_tokens c33_vars [])) =
      .ok (("intList*temp_list_0 = create_list_int();\nlist_append_int(temp_list_0, 1);\n" ++
        "temp_list_0", .LIST), 3) ∧
    value_at (parse_expression sample_env 6 (parser_at c32_plain_tokens c33_vars [])) =
      .ok (("(a + 1)", .INT), 3) := by
  refine ⟨?_, ?_, ?_, ?_, ?_⟩ <;> decide!

/-! ## C33: the C operator of a binary operator token -/

/-- C33. The operator branch of `parse_expression` gives every binary operator token the C operator
that the specification names, except LESSEREQ: the branch of LESSEREQ sets `op = ">="`, the
operator of GREATEREQ. -/
theorem C33_operator_text (tt : TokenType) (type : VarType) (p q : Parser) (op : String)
    (rt : VarType) (hb : is_binary_operator tt = true)
    (h : operator_case tt type p = .ok ((op, rt), q)) :
    (tt ≠ .LESSEREQ → op = spec_operator tt) ∧
    (tt = .LESSEREQ → op = ">=" ∧ op = spec_operator .GREATEREQ ∧ op ≠ spec_operator tt) := by
  cases tt <;> simp [is_binary_operator] at hb <;>
    (unfold operator_case at h
     simp only [reduceCtorEq, if_false, if_true] at h
     rw [bind_ok] at h
     obtain ⟨⟨a, p1⟩, -, h⟩ := h
     simp only [] at h
     repeat' split at h
     all_goals
       simp only [pure, Except.pure, Except.ok.injEq, Prod.mk.injEq, throw_at_ne_ok] at h
     all_goals
       (obtain ⟨⟨rfl, -⟩, -⟩ := h
        simp [spec_operator]))

/-- C33 at the token LESSEREQ after an INT operand, in the expression `a <= b`. -/
theorem C33_witness :
    (TokenType.LESSEREQ ≠ .LESSEREQ → ">=" = spec_operator .LESSEREQ) ∧
    (TokenType.LESSEREQ = .LESSEREQ →
      ">=" = ">=" ∧ ">=" = spec_operator .GREATEREQ ∧ ">=" ≠ spec_operator .LESSEREQ) :=
  C33_operator_text .LESSEREQ .INT
    (at_point (parser_at c33_tokens c33_vars []) 1 0 (scalar .INT) ["common.h"])
    (at_point (parser_at c33_tokens c33_vars []) 2 0 (scalar .INT) ["common.h"])
    ">=" .BOOL (by decide) (by decide!)

/-- The expressions `a <= b` and `a >= b` on INT variables are lowered to the same text. -/
theorem comparison_examples :
    value_at (parse_expression sample_env 6 (parser_at c33_tokens c33_vars [])) =
      .ok (("(a >= b)", .BOOL), 3) ∧
    value_at (parse_expression sample_env 6 (parser_at c33_greater_tokens c33_vars [])) =
      .ok (("(a >= b)", .BOOL), 3) := by
  refine ⟨?_, ?_⟩ <;> decide!

/-! ## C34: two operators in a row -/

/-- C34. For primaries `a`, `b`, `c` that do not end the expression themselves (literals,
identifiers), two binary operators between them whose operand checks pass, and a token after `c`
that is not a binary operator, `parse_expression` returns the text `(a o1 (b o2 c))`, where `o1`
and `o2` are the C operators of the operator branch: the right operand of the first operator is the
whole rest of the expression. The operand texts are those without the word `snprintf`, which the
loop takes for the mark of an f-string temporary. -/
theorem C34_right_nested (env : Env) (fuel : Nat) (p : Parser) (a : String) (A : VarType)
    (p1 : Parser) (t1 : Token) (o1 : String) (R1 : VarType) (p2 : Parser) (b : String)
    (B : VarType) (p3 : Parser) (t2 : Token) (o2 : String) (R2 : VarType) (p4 : Parser)
    (c : String) (C : VarType) (p5 : Parser) (t3 : Token)
    (hA : parse_primary env (parse_expression env (fuel + 3)) (fuel + 3) p =
      .ok (((a, A), false), p1))
    (h1 : p1.tokens[p1.pos]? = some t1) (hb1 : is_binary_operator t1.type = true)
    (ho1 : operator_case t1.type A p1 = .ok ((o1, R1), p2))
    (hB : parse_primary env (parse_expression env (fuel + 2)) (fuel + 2) p2 =
      .ok (((b, B), false), p3))
    (h2 : p3.tokens[p3.pos]? = some t2) (hb2 : is_binary_operator t2.type = true)
    (ho2 : operator_case t2.type B p3 = .ok ((o2, R2), p4))
    (hC : parse_primary env (parse_expression env (fuel + 1)) (fuel + 1) p4 =
      .ok (((c, C), false), p5))
    (h3 : p5.tokens[p5.pos]? = some t3) (hstop : is_binary_operator t3.type = false)
    (hBC : operand_mismatch B C = false) (hAR : operand_mismatch A R2 = false)
    (hc : contains_sub "snprintf".toList c.toList = false)
    (hbc : contains_sub "snprintf".toList
      ("(" ++ b ++ " " ++ o2 ++ " " ++ c ++ ")").toList = false) :
    parse_expression env (fuel + 4) p =
      .ok (("(" ++ a ++ " " ++ o1 ++ " " ++ ("(" ++ b ++ " " ++ o2 ++ " " ++ c ++ ")") ++ ")", R1),
        { p5 with expr_type := { p5.expr_type with base_type := R1 } }) := by
  have hr3 : parse_expression env (fuel + 2) p4 = .ok ((c, C), p5) := by
    rw [parse_expression_succ, hC]
    simp only [Bool.false_eq_true, if_false]
    rw [binary_operators_stop _ _ _ _ _ t3 h3 hstop]
  have hr2 : parse_expression env (fuel + 3) p2 =
      .ok (("(" ++ b ++ " " ++ o2 ++ " " ++ c ++ ")", R2),
        { p5 with expr_type := { p5.expr_type with base_type := R2 } }) := by
    rw [parse_expression_succ, hB]
    simp only [Bool.false_eq_true, if_false]
    rw [binary_operators_step _ _ _ _ _ t2 h2 hb2, ho2]
    simp only [hr3, hBC, hc, Bool.false_eq_true, if_false]
    rw [binary_operators_stop _ _ _ _ _ t3 (by simpa using h3) hstop]
  rw [parse_expression_succ, hA]
  simp only [Bool.false_eq_true, if_false]
  rw [binary_operators_step _ _ _ _ _ t1 h1 hb1, ho1]
  simp only [hr2, hAR, hbc, Bool.false_eq_true, if_false]
  rw [binary_operators_stop _ _ _ _ _ t3 (by simpa using h3) hstop]

/-- C34 at the expression `1 - 2 - 3`. -/
theorem C34_witness :
    parse_expression sample_env 4 (parser_at c34_minus_tokens [] []) =
      .ok (("(" ++ "1" ++ " " ++ "-" ++ " " ++ ("(" ++ "2" ++ " " ++ "-" ++ " " ++ "3" ++ ")") ++ ")",
        .INT),
        { at_point (parser_at c34_minus_tokens [] []) 5 0 (scalar .INT) ["common.h"] with
          expr_type := { (at_point (parser_at c34_minus_tokens [] []) 5 0 (scalar .INT)
            ["common.h"]).expr_type with base_type := .INT } }) :=
  C34_right_nested sample_env 0 (parser_at c34_minus_tokens [] []) "1" .INT
    (at_point (parser_at c34_minus_tokens [] []) 1 0 (scalar .INT) ["common.h"])
    (tk .MINUS "-" 1) "-" .INT
    (at_point (parser_at c34_minus_tokens [] []) 2 0 (scalar .INT) ["common.h"]) "2" .INT
    (at_point (parser_at c34_minus_tokens [] []) 3 0 (scalar .INT) ["common.h"])
    (tk .MINUS "-" 1) "-" .INT
    (at_point (parser_at c34_minus_tokens [] []) 4 0 (scalar .INT) ["common.h"]) "3" .INT
    (at_point (parser_at c34_minus_tokens [] []) 5 0 (scalar .INT) ["common.h"])
    (tk .NEWLINE "" 1)
    (by decide!) (by decide) (by decide) (by decide!) (by decide!) (by decide) (by decide)
    (by decide!) (by decide!) (by decide) (by decide) (by decide) (by decide) (by decide!)
    (by decide!)

/-- The examples of the claim, and the two inputs on which the text is another one: `<=` is lowered
to `>=`, and a string literal with the word `snprintf` and a blank is cut to its last word. -/
theorem nesting_examples :
    value_at (parse_expression sample_env 6 (parser_at c34_minus_tokens [] [])) =
      .ok (("(1 - (2 - 3))", .INT), 5) ∧
    value_at (parse_expression sample_env 6 (parser_at c34_mult_tokens [] [])) =
      .ok (("(1 * (2 + 3))", .INT), 5) ∧
    value_at (parse_expression sample_env 6 (parser_at c34_lesseq_tokens [] [])) =
      .ok (("(1 >= (2 >= 3))", .BOOL), 5) ∧
    value_at (parse_expression sample_env 6 (parser_at c34_literal_tokens [] [])) =
      .ok (("(\"a\" + \"c\"))", .STRING), 5) := by
  refine ⟨?_, ?_, ?_, ?_⟩ <;> decide!

/-! ## C35: an expression in parentheses -/

/-- The parenthesis branch returns the type TUPLE. -/
theorem parse_tuple_expr_type (env : Env) (rec : Parser → Res (Expr × Parser)) (n : Nat)
    (p : Parser) (e : Expr) (q : Parser) (h : parse_tuple_expr env rec n p = .ok (e, q)) :
    e.2 = .TUPLE ∧ q.expr_type.base_type = .TUPLE := by
  unfold parse_tuple_expr at h
  refine result_step (P := fun r : Expr × Parser =>
    r.1.2 = .TUPLE ∧ r.2.expr_type.base_type = .TUPLE) _ _ _ ?_ h
  intro ⟨_, p1⟩ h
  refine result_step (P := fun r : Expr × Parser =>
    r.1.2 = .TUPLE ∧ r.2.expr_type.base_type = .TUPLE) _ _ _ ?_ h
  intro t h
  simp only [] at h
  split_ifs at h
  all_goals
    repeat
      (refine result_step (P := fun r : Expr × Parser =>
        r.1.2 = .TUPLE ∧ r.2.expr_type.base_type = .TUPLE) _ _ _ ?_ h
       clear h
       intro _ h)
  all_goals
    simp only [pure, Except.pure, Except.ok.injEq, Prod.mk.injEq] at h
    obtain ⟨rfl, rfl⟩ := h
    exact ⟨rfl, rfl⟩

/-- C35. An expression whose first token is `(` has the type TUPLE, and `expr_type` records the base
TUPLE, whatever the parentheses enclose. -/
theorem C35_parenthesis_is_tuple (env : Env) (fuel : Nat) (p : Parser) (t : Token) (e : Expr)
    (q : Parser) (ht : p.tokens[p.pos]? = some t) (hk : t.type = .LPAREN)
    (h : parse_expression env (fuel + 1) p = .ok (e, q)) :
    e.2 = .TUPLE ∧ q.expr_type.base_type = .TUPLE := by
  rw [parse_expression_succ] at h
  cases hp : parse_primary env (parse_expression env fuel) fuel p with
  | error err => rw [hp] at h; cases h
  | ok r =>
    obtain ⟨⟨e1, flag⟩, p1⟩ := r
    have hf := parse_primary_returned env _ fuel p t e1 flag p1 ht (Or.inr (Or.inl hk)) hp
    subst hf
    rw [hp] at h
    simp only [if_true, Except.ok.injEq, Prod.mk.injEq] at h
    obtain ⟨rfl, rfl⟩ := h
    unfold parse_primary at hp
    simp only [peek, ht, bind, Except.bind, hk, reduceCtorEq, if_false, if_true, false_or,
      or_false] at hp
    cases ht2 : parse_tuple_expr env (parse_expression env fuel) fuel p with
    | error err => rw [ht2] at hp; cases hp
    | ok r2 =>
      obtain ⟨e2, p2⟩ := r2
      rw [ht2] at hp
      simp only [pure, Except.pure, Except.ok.injEq, Prod.mk.injEq] at hp
      obtain ⟨⟨rfl, -⟩, rfl⟩ := hp
      exact parse_tuple_expr_type env _ fuel p _ _ ht2

/-- C35 at the expression `(1 + 2)`. -/
theorem C35_witness :
    ("intTuple* temp_tuple_0 = create_tuple_int(1);\ntemp_tuple_0->data[0] = (1 + 2);\n" ++
      "temp_tuple_0", VarType.TUPLE).2 = .TUPLE ∧
    (at_point (parser_at c35_tokens [] []) 5 1 ⟨.TUPLE, .INT, .NONE, .NONE⟩
      ["common.h", "tuple_int.h"]).expr_type.base_type = .TUPLE :=
  C35_parenthesis_is_tuple sample_env 5 (parser_at c35_tokens [] []) (tk .LPAREN "(" 1)
    ("intTuple* temp_tuple_0 = create_tuple_int(1);\ntemp_tuple_0->data[0] = (1 + 2);\n" ++
      "temp_tuple_0", .TUPLE)
    (at_point (parser_at c35_tokens [] []) 5 1 ⟨.TUPLE, .INT, .NONE, .NONE⟩
      ["common.h", "tuple_int.h"])
    (by decide) (by decide) (by decide!)

/-- The statement `int x = (1 + 2)` is rejected before its expression is read, with the error of
`expect`; with a list target the expression is read and the statement is rejected for its type. -/
theorem parenthesis_assignment_examples :
    typed (parse_expression sample_env 6 (parser_at c35_tokens [] [])) =
      .ok (("intTuple* temp_tuple_0 = create_tuple_int(1);\ntemp_tuple_0->data[0] = (1 + 2);\n" ++
        "temp_tuple_0", .TUPLE), ⟨.TUPLE, .INT, .NONE, .NONE⟩) ∧
    outcome (parse_statement sample_env 6 (parser_at c35_int_tokens [] [])) =
      .error (.thrown "Unexpected Token Type at Line 1") ∧
    (parse_collection_type sample_env (parser_at c35_int_tokens [] [])).map
        (fun r => (r.1, r.2.pos)) = .ok (scalar .INT, 0) ∧
    outcome (parse_statement sample_env 6 (parser_at c35_list_tokens [] [])) =
      .error (.thrown "Type Mismatch in List Assignment at Line 1") := by
  refine ⟨?_, ?_, ?_, ?_⟩ <;> decide!

/-! ## C36: no DOT token -/

/-- C36. No token of a list that `tokenize` returns is a DOT: at a `.` the loop of `tokenize` takes
the branch of numbers, so that the `.` of `s.upper()` is read as a FLOATING token. -/
theorem C36_no_dot_token (fuel : Nat) (source : String) (tokens : List Token)
    (h : tokenize fuel source = .ok tokens) :
    (∀ t ∈ tokens, t.type ≠ .DOT) ∧
    (∀ (n : Nat) (lx : Lexer), lex_step n lx '.' =
      (read_number_or_float lx).map (fun r => ([r.1], r.2))) := by
  constructor
  · obtain ⟨body, lx, levels, -, -, -, -, hk, rfl⟩ := tokenize_shape fuel source tokens h
    intro t ht
    simp only [List.mem_append, List.mem_singleton] at ht
    rcases ht with (ht | ht) | ht
    · exact (loop_kind_ne t (hk t ht)).2.2
    · rw [(mem_replicate_dedent _ _ _ ht).1]
      decide
    · rw [ht]
      simp [eof_at]
  · intro n lx
    have h1 : ('.' = '\n') = False := by decide
    have h2 : (isspace '.' && '.' != '\n') = false := by decide
    have h3 : isalpha '.' = false := by decide
    have h4 : (isdigit '.' || decide ('.' = '.')) = true := by decide
    unfold lex_step
    simp only [h1, h2, h3, h4, if_false, if_true, Bool.false_eq_true]
    cases read_number_or_float lx with
    | error e => rfl
    | ok r => rfl

/-- C36 at the source `s.upper()`. -/
theorem C36_witness :
    tokenize 10 c36_source = .ok c36_tokens ∧ ∀ t ∈ c36_tokens, t.type ≠ .DOT :=
  ⟨by decide!, (C36_no_dot_token 10 c36_source c36_tokens (by decide!)).1⟩

/-! ## C37: the lines of the tokens -/

theorem count_type_append (k : TokenType) (a b : List Token) :
    count_type k (a ++ b) = count_type k a + count_type k b := by
  simp [count_type]

theorem lines_from_append : ∀ (a b : List Token) (l : Int),
    lines_from l (a ++ b) ↔
      lines_from l a ∧ lines_from (l + (count_type .NEWLINE a : Int)) b := by
  intro a
  induction a with
  | nil => intro b l; simp [lines_from, count_type]
  | cons t rest ih =>
    intro b l
    have e : (if t.type = .NEWLINE then l + 1 else l) + (count_type .NEWLINE rest : Int) =
        l + (count_type .NEWLINE (t :: rest) : Int) := by
      by_cases ht : t.type = .NEWLINE
      · simp only [ht, if_true, count_type, List.countP_cons, decide_True]
        push_cast
        ring
      · simp [ht, count_type]
    show (t.line = l ∧ lines_from (if t.type = .NEWLINE then l + 1 else l) (rest ++ b)) ↔
      (t.line = l ∧ lines_from (if t.type = .NEWLINE then l + 1 else l) rest) ∧
        lines_from (l + (count_type .NEWLINE (t :: rest) : Int)) b
    rw [ih, e, and_assoc]

/-- Tokens of one line, none of them a NEWLINE. -/
theorem lines_from_same (l : Int) : ∀ (more : List Token),
    (∀ t ∈ more, t.type ≠ .NEWLINE ∧ t.line = l) →
    lines_from l more ∧ count_type .NEWLINE more = 0 := by
  intro more
  induction more with
  | nil => intro _; simp [lines_from, count_type]
  | cons t rest ih =>
    intro h
    have ht := h t (List.mem_cons_self _ _)
    have hr := ih (fun u hu => h u (List.mem_cons_of_mem _ hu))
    simp only [lines_from, ht.1, if_false, ht.2, true_and, count_type, List.countP_cons,
      decide_False, Bool.false_eq_true, add_zero]
    exact ⟨hr.1, by simpa [count_type] using hr.2⟩

/-- The line of the token at an index of a list numbered from `l`. -/
theorem lines_from_get : ∀ (tokens : List Token) (l : Int), lines_from l tokens →
    ∀ (i : Nat) (t : Token), tokens[i]? = some t →
      t.line = l + (count_type .NEWLINE (tokens.take i) : Int) := by
  intro tokens
  induction tokens with
  | nil => intro l _ i t h; simp at h
  | cons u rest ih =>
    intro l hl i t h
    simp only [lines_from] at hl
    cases i with
    | zero =>
      simp only [List.getElem?_cons_zero, Option.some.injEq] at h
      subst h
      simp [count_type, hl.1]
    | succ i =>
      simp only [List.getElem?_cons_succ] at h
      have := ih _ hl.2 i t h
      rw [this]
      simp only [List.take_succ_cons, count_type, List.countP_cons]
      by_cases hu : u.type = .NEWLINE
      · simp only [hu, if_true, decide_True, Nat.cast_add, Nat.cast_one]
        ring
      · simp [hu]

/-- The invariant of the loop of `tokenize` on lines: the tokens are numbered from line 1, and the
line of the lexer is the line reached. -/
theorem lex_step_lines (fuel : Nat) (lx lx1 : Lexer) (c : Char) (tokens more : List Token)
    (hinv : LexInv tokens lx) (hl : lines_from 1 tokens)
    (hline : lx.line = 1 + (count_type .NEWLINE tokens : Int))
    (h : lex_step fuel lx c = .ok (more, lx1)) :
    lines_from 1 (tokens ++ more) ∧
    lx1.line = 1 + (count_type .NEWLINE (tokens ++ more) : Int) := by
  rw [lines_from_append, count_type_append]
  by_cases hc : c = '\n'
  · obtain ⟨levels, hst, hpos, -, -⟩ := hinv
    unfold lex_step at h
    rw [if_pos hc, bind_ok] at h
    obtain ⟨⟨more1, lx2⟩, hh, h⟩ := h
    simp only [pure, Except.pure, Except.ok.injEq, Prod.mk.injEq] at h
    obtain ⟨rfl, rfl⟩ := h
    obtain ⟨levels1, -, -, -, e4, e5, -⟩ :=
      handle_indent_levels _ _ levels more1 (by exact hst) hpos hh
    have hsame := lines_from_same (lx.line + 1) more1 (fun t ht => by
      have := e4 t ht
      refine ⟨?_, this.2⟩
      rcases this.1 with e | e <;> rw [e] <;> decide)
    refine ⟨⟨hl, ?_⟩, ?_⟩
    · simp only [lines_from, if_true, ← hline, true_and]
      exact hsame.1
    · rw [e5]
      simp only [count_type, List.countP_cons, decide_True, if_true] at hsame ⊢
      rw [hsame.2, hline]
      simp only [count_type]
      push_cast
      ring
  · obtain ⟨e1, e2, e3, e4⟩ := lex_step_plain fuel lx c hc more lx1 h
    have hsame := lines_from_same lx.line more (fun t ht => by
      have := e4 t ht
      refine ⟨?_, this.2⟩
      intro e
      rw [e] at this
      cases this.1)
    refine ⟨⟨hl, ?_⟩, ?_⟩
    · rw [← hline]
      exact hsame.1
    · rw [e2, hsame.2, hline]
      simp

theorem tokenize_loop_lines : ∀ (fuel : Nat) (lx lx1 : Lexer) (tokens out : List Token),
    LexInv tokens lx → lines_from 1 tokens →
    lx.line = 1 + (count_type .NEWLINE tokens : Int) →
    tokenize_loop fuel lx tokens = .ok (out, lx1) →
    lines_from 1 out ∧ lx1.line = 1 + (count_type .NEWLINE out : Int) := by
  intro fuel
  induction fuel with
  | zero => intro lx lx1 tokens out _ _ _ h; cases h
  | succ n ih =>
    intro lx lx1 tokens out hinv hl hline h
    unfold tokenize_loop at h
    split at h
    · simp only [Except.ok.injEq, Prod.mk.injEq] at h
      obtain ⟨rfl, rfl⟩ := h
      exact ⟨hl, hline⟩
    · rw [bind_ok] at h
      obtain ⟨⟨more, lx2⟩, hs, h⟩ := h
      have h2 := lex_step_lines _ _ _ _ _ _ hinv hl hline hs
      exact ih _ _ _ _ (lex_step_inv _ _ _ _ _ _ hinv hs) h2.1 h2.2 h

/-- C37. In a list that `tokenize` returns, the line of every token is 1 plus the number of NEWLINE
tokens before it (a NEWLINE token has the line it ends), and so the lines do not decrease along the
list. -/
theorem C37_token_lines (fuel : Nat) (source : String) (tokens : List Token)
    (h : tokenize fuel source = .ok tokens) :
    lines_counted tokens ∧ lines_sorted tokens := by
  have hc : lines_counted tokens := by
    obtain ⟨body, lx, levels, hs, hst, hpos, hd, hk, rfl⟩ := tokenize_shape fuel source tokens h
    have h0 : LexInv [] (Lexer.init source.toList) :=
      ⟨[], rfl, by simp, by simp [depth_after], by simp⟩
    obtain ⟨hl, hline⟩ := tokenize_loop_lines fuel _ _ _ _ h0 (by simp [lines_from])
      (by simp [count_type, Lexer.init]) hs
    have hfrom : lines_from 1
        (body ++ List.replicate levels.length (dedent_at lx.line) ++ [eof_at lx.line]) := by
      have hsame := lines_from_same lx.line
        (List.replicate levels.length (dedent_at lx.line) ++ [eof_at lx.line]) (fun t ht => by
          simp only [List.mem_append, List.mem_singleton] at ht
          rcases ht with ht | ht
          · have := mem_replicate_dedent _ _ _ ht
            refine ⟨?_, this.2⟩
            rw [this.1]
            decide
          · rw [ht]
            simp [eof_at])
      rw [List.append_assoc, lines_from_append, ← hline]
      exact ⟨hl, hsame.1⟩
    intro i t ht
    exact lines_from_get _ 1 hfrom i t ht
  refine ⟨hc, ?_⟩
  intro i j t u hij ht hu
  rw [hc i t ht, hc j u hu]
  have : count_type .NEWLINE (tokens.take i) ≤ count_type .NEWLINE (tokens.take j) := by
    unfold count_type
    apply List.Sublist.countP_le
    exact List.take_sublist_take_left tokens hij
  omega

/-- C37 at a source of three lines with a block. -/
theorem C37_witness :
    tokenize 30 c37_source = .ok c37_tokens ∧ lines_counted c37_tokens ∧ lines_sorted c37_tokens :=
  ⟨by decide!, C37_token_lines 30 c37_source c37_tokens (by decide!)⟩

/-! ## C38: every token read is inside the vector -/

theorem guarded_get {toks : List Token} {e : Nat} {p : Parser} (h : Guarded toks e p) :
    ∃ t, p.tokens[p.pos]? = some t := by
  obtain ⟨h1, h2, te, h3, -⟩ := h
  have he : e < toks.length := (List.getElem?_eq_some.1 h3).1
  rw [h1]
  have hp : p.pos < toks.length := by omega
  exact ⟨toks[p.pos], List.getElem?_eq_getElem hp⟩

/-- After a token that is not EOF_TOKEN the next index is not after `e`. -/
theorem guarded_next {toks : List Token} {e : Nat} {p : Parser} {t : Token}
    (h : Guarded toks e p) (ht : p.tokens[p.pos]? = some t) (hne : t.type ≠ .EOF_TOKEN) :
    p.pos + 1 ≤ e := by
  obtain ⟨h1, h2, te, h3, h4⟩ := h
  by_contra hc
  have : p.pos = e := by omega
  rw [h1, this, h3] at ht
  simp only [Option.some.injEq] at ht
  rw [ht] at h4
  exact hne h4

theorem guarded_of_eq {toks : List Token} {e : Nat} {p q : Parser} (h : Guarded toks e p)
    (ht : q.tokens = p.tokens) (hp : q.pos = p.pos) : Guarded toks e q :=
  ⟨ht.trans h.1, by rw [hp]; exact h.2.1, h.2.2⟩

theorem saferun_fuel {M : Prop} {toks : List Token} {e : Nat} {α : Type} :
    SafeRun M toks e (.error .out_of_fuel : Res (α × Parser)) :=
  ⟨fun h => (by cases h), fun a q h => (by cases h)⟩

theorem saferun_thrown {M : Prop} {toks : List Token} {e : Nat} {α : Type} (msg : String) :
    SafeRun M toks e (.error (.thrown msg) : Res (α × Parser)) :=
  ⟨fun h => (by cases h), fun a q h => (by cases h)⟩

theorem saferun_pure {M : Prop} {toks : List Token} {e : Nat} {α : Type} {a : α} {q : Parser}
    (h : Guarded toks e q) : SafeRun M toks e (pure (a, q) : Res (α × Parser)) := by
  refine ⟨fun h => (by cases h), ?_⟩
  intro b r hr
  simp only [pure, Except.pure, Except.ok.injEq, Prod.mk.injEq] at hr
  rw [← hr.2]
  exact h

theorem saferun_throw {M : Prop} {toks : List Token} {e : Nat} {α : Type} {p : Parser} (msg : String)
    (h : Guarded toks e p) : SafeRun M toks e (throw_at msg p : Res (α × Parser)) := by
  obtain ⟨t, ht⟩ := guarded_get h
  unfold throw_at
  rw [ht]
  exact saferun_thrown _

theorem throw_at_in_range {toks : List Token} {e : Nat} {α : Type} {p : Parser} (msg : String)
    (h : Guarded toks e p) : (throw_at msg p : Res α) ≠ .error .out_of_range := by
  obtain ⟨t, ht⟩ := guarded_get h
  unfold throw_at
  rw [ht]
  intro hc
  cases hc

theorem saferun_bind {M : Prop} {toks : List Token} {e : Nat} {α β : Type} {x : Res (α × Parser)}
    {f : α × Parser → Res (β × Parser)} (hx : SafeRun M toks e x)
    (hf : ∀ a q, x = .ok (a, q) → Guarded toks e q → SafeRun M toks e (f (a, q))) :
    SafeRun M toks e (x >>= f) := by
  cases x with
  | error err =>
    refine ⟨fun h => hx.1 ?_, fun a q h => by cases h⟩
    simp only [bind, Except.bind] at h
    cases h
    rfl
  | ok r =>
    obtain ⟨a, q⟩ := r
    exact hf a q rfl (hx.2 a q rfl)

/-- A step that reads without moving and does not read out of range. -/
theorem saferun_read {M : Prop} {toks : List Token} {e : Nat} {α β : Type} {x : Res α}
    {f : α → Res (β × Parser)} (hx : x ≠ .error .out_of_range)
    (hf : ∀ a, x = .ok a → SafeRun M toks e (f a)) : SafeRun M toks e (x >>= f) := by
  cases x with
  | error err =>
    refine ⟨fun h => ?_, fun a q h => by cases h⟩
    simp only [bind, Except.bind] at h
    cases h
    exact absurd rfl hx
  | ok a => exact hf a rfl

/-- The read `tokens[pos]` of a guarded record. -/
theorem saferun_peek {M : Prop} {toks : List Token} {e : Nat} {β : Type} {p : Parser}
    {f : Token → Res (β × Parser)} (h : Guarded toks e p)
    (hf : ∀ t, p.tokens[p.pos]? = some t → SafeRun M toks e (f t)) :
    SafeRun M toks e (peek p >>= f) := by
  obtain ⟨t, ht⟩ := guarded_get h
  have : peek p = .ok t := by simp [peek, ht]
  rw [this]
  exact hf t ht

/-- The read `tokens[pos + 1]` after a token that is not EOF_TOKEN. -/
theorem saferun_peek1 {M : Prop} {toks : List Token} {e : Nat} {β : Type} {p : Parser} {t : Token}
    {f : Token → Res (β × Parser)} (h : Guarded toks e p) (ht : p.tokens[p.pos]? = some t)
    (hne : t.type ≠ .EOF_TOKEN) (hf : ∀ t1, SafeRun M toks e (f t1)) :
    SafeRun M toks e (peek1 p >>= f) := by
  have hn := guarded_next h ht hne
  obtain ⟨t1, ht1⟩ := guarded_get (p := { p with pos := p.pos + 1 }) ⟨h.1, hn, h.2.2⟩
  have : peek1 p = .ok t1 := by
    unfold peek1
    simp only [] at ht1
    rw [ht1]
  rw [this]
  exact hf t1

theorem saferun_ite {M : Prop} {toks : List Token} {e : Nat} {α : Type} (c : Prop) [Decidable c]
    {a b : Res (α × Parser)} (ha : c → SafeRun M toks e a) (hb : ¬ c → SafeRun M toks e b) :
    SafeRun M toks e (if c then a else b) := by
  split
  · exact ha (by assumption)
  · exact hb (by assumption)

/-- The function `expect` for a kind other than EOF_TOKEN. -/
theorem saferun_expect {M : Prop} {toks : List Token} {e : Nat} {p : Parser} (ty : TokenType)
    (h : Guarded toks e p) (hty : ty ≠ .EOF_TOKEN) : SafeRun M toks e (expect ty p) := by
  obtain ⟨t, ht⟩ := guarded_get h
  unfold expect
  rw [ht]
  simp only []
  split
  · exact saferun_thrown _
  · rename_i hc
    simp only [ne_eq, not_not] at hc
    refine ⟨fun h => (by cases h), ?_⟩
    intro a q hq
    simp only [Except.ok.injEq, Prod.mk.injEq] at hq
    rw [← hq.2]
    exact ⟨h.1, guarded_next h ht (by rw [hc]; exact hty), h.2.2⟩

/-- The statement `expect(tokens[pos].type)` at a token that is not EOF_TOKEN. -/
theorem saferun_expect_current {M : Prop} {toks : List Token} {e : Nat} {p : Parser} {t : Token}
    (h : Guarded toks e p) (ht : p.tokens[p.pos]? = some t) (hne : t.type ≠ .EOF_TOKEN) :
    SafeRun M toks e (expect_current p) := by
  unfold expect_current
  refine saferun_peek h ?_
  intro t1 ht1
  rw [ht] at ht1
  simp only [Option.some.injEq] at ht1
  subst ht1
  exact saferun_expect _ h hne

theorem token_to_vartype_in_range {toks : List Token} {e : Nat} {p : Parser} (ty : TokenType)
    (h : Guarded toks e p) : token_to_vartype p ty ≠ .error .out_of_range := by
  unfold token_to_vartype
  split_ifs
  · intro hc; cases hc
  · intro hc; cases hc
  · intro hc; cases hc
  · intro hc; cases hc
  · exact throw_at_in_range _ h

theorem token_to_vartype_kind (p : Parser) (ty : TokenType) (v : CollectionType)
    (h : token_to_vartype p ty = .ok v) : ty ≠ .EOF_TOKEN := by
  intro hc
  subst hc
  unfold token_to_vartype at h
  simp at h

theorem parse_collection_type_safe {M : Prop} (env : Env) (toks : List Token) (e : Nat) :
    Safe M toks e (parse_collection_type env) := by
  intro p hG
  unfold parse_collection_type
  simp only []
  refine saferun_peek hG ?_
  intro t ht
  refine saferun_ite _ (fun _ => ?_) (fun _ => ?_)
  · refine saferun_bind (saferun_expect _ hG (by decide)) ?_
    intro _ p1 _ hG
    refine saferun_bind (saferun_expect _ hG (by decide)) ?_
    intro _ p2 _ hG
    refine saferun_peek hG ?_
    intro t1 ht1
    refine saferun_read (token_to_vartype_in_range _ hG) ?_
    intro et het
    refine saferun_bind (saferun_expect_current hG ht1 (token_to_vartype_kind _ _ _ het)) ?_
    intro _ p3 _ hG
    refine saferun_bind (saferun_expect _ hG (by decide)) ?_
    intro _ p4 _ hG
    exact saferun_pure hG
  refine saferun_ite _ (fun _ => ?_) (fun _ => ?_)
  · refine saferun_bind (saferun_expect _ hG (by decide)) ?_
    intro _ p1 _ hG
    refine saferun_bind (saferun_expect _ hG (by decide)) ?_
    intro _ p2 _ hG
    refine saferun_peek hG ?_
    intro t1 ht1
    refine saferun_read (token_to_vartype_in_range _ hG) ?_
    intro et het
    refine saferun_bind (saferun_expect_current hG ht1 (token_to_vartype_kind _ _ _ het)) ?_
    intro _ p3 _ hG
    refine saferun_bind (saferun_expect _ hG (by decide)) ?_
    intro _ p4 _ hG
    exact saferun_pure hG
  refine saferun_ite _ (fun _ => ?_) (fun _ => ?_)
  · refine saferun_bind (saferun_expect _ hG (by decide)) ?_
    intro _ p1 _ hG
    refine saferun_bind (saferun_expect _ hG (by decide)) ?_
    intro _ p2 _ hG
    refine saferun_peek hG ?_
    intro t1 ht1
    refine saferun_read (token_to_vartype_in_range _ hG) ?_
    intro kt hkt
    refine saferun_ite _ (fun _ => ?_) (fun _ => ?_)
    · exact saferun_throw _ hG
    refine saferun_bind (saferun_expect _ hG (by decide)) ?_
    intro _ p3 _ hG
    refine saferun_bind (saferun_expect _ hG (by decide)) ?_
    intro _ p4 _ hG
    refine saferun_peek hG ?_
    intro t2 ht2
    refine saferun_read (token_to_vartype_in_range _ hG) ?_
    intro vt hvt
    refine saferun_bind (saferun_expect_current hG ht2 (token_to_vartype_kind _ _ _ hvt)) ?_
    intro _ p5 _ hG
    refine saferun_bind (saferun_expect _ hG (by decide)) ?_
    intro _ p6 _ hG
    exact saferun_pure hG
  refine saferun_read (token_to_vartype_in_range _ hG) ?_
  intro r hr
  refine saferun_ite _ (fun _ => ?_) (fun _ => ?_)
  · exact saferun_pure hG
  · exact saferun_pure hG
theorem add_include_guarded {toks : List Token} {e : Nat} {p : Parser} (h : String)
    (hG : Guarded toks e p) : Guarded toks e (add_include p h) := hG

theorem include_for_guarded {toks : List Token} {e : Nat} {p : Parser} (ty : VarType)
    (hG : Guarded toks e p) : Guarded toks e (include_for ty p) := by
  unfold include_for
  split_ifs <;> exact hG

theorem args_loop_safe {M : Prop} (toks : List Token) (e : Nat) (rec : Parser → Res (Expr × Parser))
    (hrec : Safe M toks e rec) (n : Nat) (args : List String) :
    Safe M toks e (args_loop rec n args) := by
  induction n generalizing args with
  | zero => intro p _; exact saferun_fuel
  | succ n ih =>
    intro p hG
    unfold args_loop
    repeat' (first
      | exact saferun_pure (by assumption)
      | exact saferun_throw _ (by assumption)
      | exact ih _ _ (by assumption)
      | (refine saferun_bind (saferun_expect _ (by assumption) (by decide)) ?_; intro _ _ _ _; try dsimp only)
      | (refine saferun_bind (hrec _ (by assumption)) ?_; intro _ _ _ _; try dsimp only)
      | (refine saferun_peek (by assumption) ?_; intro _ _)
      | (refine saferun_ite _ (fun _ => ?_) (fun _ => ?_)))

theorem parse_args_safe {M : Prop} (toks : List Token) (e : Nat) (rec : Parser → Res (Expr × Parser))
    (hrec : Safe M toks e rec) (n : Nat) : Safe M toks e (parse_args rec n) := by
  intro p hG
  unfold parse_args
  repeat' (first
    | exact saferun_pure (by assumption)
    | exact saferun_throw _ (by assumption)
    | exact args_loop_safe toks e rec hrec _ _ _ (by assumption)
    | (refine saferun_bind (hrec _ (by assumption)) ?_; intro _ _ _ _; try dsimp only)
    | (refine saferun_peek (by assumption) ?_; intro _ _)
    | (refine saferun_ite _ (fun _ => ?_) (fun _ => ?_)))

theorem parse_call_expr_safe {M : Prop} (toks : List Token) (e : Nat) (rec : Parser → Res (Expr × Parser))
    (hrec : Safe M toks e rec) (n : Nat) : Safe M toks e (parse_call_expr rec n) := by
  intro p hG
  unfold parse_call_expr
  repeat' (first
    | exact saferun_pure (by assumption)
    | exact saferun_throw _ (by assumption)
    | (refine saferun_bind (saferun_expect _ (by assumption) (by decide)) ?_; intro _ _ _ _; try dsimp only)
    | (refine saferun_bind (parse_args_safe toks e rec hrec _ _ (by assumption)) ?_; intro _ _ _ _; try dsimp only)
    | (refine saferun_ite _ (fun _ => ?_) (fun _ => ?_))
    | split)

theorem parse_index_expr_safe {M : Prop} (toks : List Token) (e : Nat) (rec : Parser → Res (Expr × Parser))
    (hrec : Safe M toks e rec) : Safe M toks e (parse_index_expr rec) := by
  intro p hG
  unfold parse_index_expr
  repeat' (first
    | exact saferun_pure (by assumption)
    | exact saferun_throw _ (by assumption)
    | (refine saferun_bind (saferun_expect _ (by assumption) (by decide)) ?_; intro _ _ _ _; try dsimp only)
    | (refine saferun_bind (hrec _ (by assumption)) ?_; intro _ _ _ _; try dsimp only)
    | (refine saferun_ite _ (fun _ => ?_) (fun _ => ?_))
    | split)

theorem method_return_type_safe {M : Prop} (toks : List Token) (e : Nat) (m1 m2 : String)
    (vt : CollectionType) (method : String) :
    Safe M toks e (method_return_type m1 m2 vt method) := by
  intro p hG
  unfold method_return_type
  repeat' (first
    | exact saferun_pure (by assumption)
    | exact saferun_throw _ (by assumption)
    | (refine saferun_ite _ (fun _ => ?_) (fun _ => ?_)))

theorem parse_identifier_expr_safe {M : Prop} (toks : List Token) (e : Nat) :
    Safe M toks e parse_identifier_expr := by
  intro p hG
  unfold parse_identifier_expr
  repeat' (first
    | exact saferun_pure (include_for_guarded _ (by assumption))
    | exact saferun_throw _ (by assumption)
    | (refine saferun_bind (saferun_expect _ (by assumption) (by decide)) ?_; intro _ _ _ _; try dsimp only)
    | (refine saferun_ite _ (fun _ => ?_) (fun _ => ?_))
    | split)
/-- A consumed token is a token of the vector. -/
theorem expect_mem {toks : List Token} {p q : Parser} {t : Token} (ty : TokenType)
    (hG : p.tokens = toks) (h : expect ty p = .ok (t, q)) : ∃ t, t ∈ toks ∧ t.type = ty := by
  unfold expect at h
  split at h
  · simp at h
  · rename_i t1 ht1
    split_ifs at h with hc
    simp only [ne_eq, not_not] at hc
    rw [hG] at ht1
    exact ⟨t1, List.getElem?_mem ht1, hc⟩

/-- A read `args[i]` that is not in the vector. -/
theorem arg_at_short (args : List String) (i : Nat) (f : Fault) (h : arg_at args i = .error f) :
    args.length ≤ i := by
  unfold arg_at at h
  split at h
  · cases h
  · rename_i hn
    exact List.getElem?_eq_none_iff.1 hn

/-- The read of an argument of a method call: out of the vector only when `M` holds. -/
theorem saferun_arg {M : Prop} {toks : List Token} {e : Nat} {β : Type} {args : List String}
    {i : Nat} {f : String → Res (β × Parser)} (hM : args.length ≤ i → M)
    (hf : ∀ a, SafeRun M toks e (f a)) : SafeRun M toks e (arg_at args i >>= f) := by
  cases hx : arg_at args i with
  | error err => exact ⟨fun _ => hM (arg_at_short args i err hx), fun a q h => (by cases h)⟩
  | ok a => exact hf a

theorem parse_method_expr_safe {M : Prop} (toks : List Token) (e : Nat) (env : Env)
    (rec : Parser → Res (Expr × Parser)) (hrec : Safe M toks e rec) (n : Nat)
    (hcall : ShortArgs toks e rec n → M) : Safe M toks e (parse_method_expr env rec n) := by
  intro p hG0
  unfold parse_method_expr
  refine saferun_bind (saferun_expect _ hG0 (by decide)) ?_
  intro tok p1 h1 hG1
  refine saferun_bind (saferun_expect _ hG1 (by decide)) ?_
  intro d p2 h2 hG2
  refine saferun_bind (saferun_expect _ hG2 (by decide)) ?_
  intro mtok p3 h3 hG3
  refine saferun_bind (saferun_expect _ hG3 (by decide)) ?_
  intro l p4 h4 hG4
  refine saferun_bind (parse_args_safe toks e rec hrec _ _ hG4) ?_
  intro args p5 h5 hG5
  have hshort : reads_args mtok.value args = false → M := fun hr =>
    hcall ⟨p, tok, p1, d, p2, mtok, p3, l, p4, args, p5, hG0, h1, h2, h3, h4, h5, hr⟩
  refine saferun_bind (saferun_expect _ hG5 (by decide)) ?_
  intro r p6 _ hG6
  dsimp only
  split
  · exact saferun_throw _ hG6
  · refine saferun_bind (method_return_type_safe toks e _ _ _ _ _ hG6) ?_
    intro rt p7 _ hG7
    dsimp only
    refine saferun_ite _ (fun hm => ?_) (fun hm1 => ?_)
    · refine saferun_arg (fun hl => hshort ?_) (fun a0 => saferun_pure hG7)
      simp only [reads_args, hm, true_or, if_true, decide_eq_false_iff_not]
      omega
    refine saferun_ite _ (fun hm => saferun_pure hG7) (fun hm2 => ?_)
    refine saferun_ite _ (fun hm => ?_) (fun hm3 => ?_)
    · have hr : args.length ≤ 1 → reads_args mtok.value args = false := by
        intro hl
        simp [reads_args, hm]
        omega
      refine saferun_arg (fun hl => hshort (hr (by omega))) (fun a0 => ?_)
      exact saferun_arg (fun hl => hshort (hr hl)) (fun a1 => saferun_pure hG7)
    refine saferun_ite _ (fun hm => ?_) (fun hm4 => ?_)
    · refine saferun_ite _ (fun _ => ?_) (fun hne => ?_)
      · exact saferun_read (fun hc => (by cases hc)) (fun tail _ => saferun_pure hG7)
      · refine saferun_read ?_ (fun tail _ => saferun_pure hG7)
        cases args with
        | nil => exact absurd rfl hne
        | cons a rest => intro hc; simp [arg_at, bind, Except.bind, pure, Except.pure] at hc
    refine saferun_ite _ (fun hm => ?_) (fun hm5 => saferun_pure hG7)
    refine saferun_arg (fun hl => hshort ?_) (fun a0 => saferun_pure hG7)
    simp only [reads_args, hm, or_true, if_true, decide_eq_false_iff_not]
    omega
theorem fstring_default_guarded {toks : List Token} {e : Nat} {p : Parser} (ty : VarType)
    (format : String) (hG : Guarded toks e p) : Guarded toks e (fstring_default ty format p).2 := by
  unfold fstring_default
  repeat' split
  all_goals exact hG

theorem fstring_args_guarded {toks : List Token} {e : Nat} (args : List (String × VarType))
    (result : String) (p : Parser) (hG : Guarded toks e p) :
    Guarded toks e (fstring_args args result p).2 := by
  induction args generalizing result p with
  | nil => exact hG
  | cons a rest ih =>
    obtain ⟨arg, ty⟩ := a
    unfold fstring_args
    simp only []
    repeat' split
    all_goals exact ih _ _ (by assumption)

theorem fstring_loop_safe {M : Prop} (toks : List Token) (e : Nat) (env : Env) (rec : Parser → Res (Expr × Parser))
    (hrec : Safe M toks e rec) (n : Nat)
    (format : String) (args : List (String × VarType)) :
    Safe M toks e (fstring_loop env rec n format args) := by
  induction n generalizing format args with
  | zero => intro p _; exact saferun_fuel
  | succ n ih =>
    intro p hG
    unfold fstring_loop
    repeat' (first
      | exact saferun_fuel
      | exact saferun_pure (by assumption)
      | exact saferun_throw _ (by assumption)
      | exact ih _ _ _ (by assumption)
      | exact ih _ _ _ (fstring_default_guarded _ _ (by assumption))
      | (refine saferun_bind (saferun_expect _ (by assumption) (by decide)) ?_; intro _ _ _ _; try dsimp only)
      | (refine saferun_bind (hrec _ (by assumption)) ?_; intro _ _ _ _; try dsimp only)
      | (refine saferun_bind (saferun_expect _ (fstring_default_guarded _ _ (by assumption)) (by decide)) ?_; intro _ _ _ _; try dsimp only)
      | (refine saferun_peek (by assumption) ?_; intro _ _)
      | (refine saferun_ite _ (fun _ => ?_) (fun _ => ?_)))

theorem parse_fstring_expr_safe {M : Prop} (toks : List Token) (e : Nat) (env : Env) (rec : Parser → Res (Expr × Parser))
    (hrec : Safe M toks e rec) (n : Nat) :
    Safe M toks e (parse_fstring_expr env rec n) := by
  intro p hG
  unfold parse_fstring_expr
  repeat' (first
    | exact saferun_fuel
    | exact saferun_pure (by assumption)
    | exact saferun_throw _ (by assumption)
    | exact saferun_pure (fstring_args_guarded _ _ _ (by assumption))
    | (refine saferun_bind (saferun_expect _ (by assumption) (by decide)) ?_; intro _ _ _ _; try dsimp only)
    | (refine saferun_bind (fstring_loop_safe toks e env rec hrec _ _ _ _ (by assumption)) ?_; intro _ _ _ _; try dsimp only))

theorem elements_loop_safe {M : Prop} (toks : List Token) (e : Nat) (rec : Parser → Res (Expr × Parser))
    (hrec : Safe M toks e rec) (msg : String)
    (et : VarType) (n : Nat) (elements : List String) :
    Safe M toks e (elements_loop rec msg et n elements) := by
  induction n generalizing elements with
  | zero => intro p _; exact saferun_fuel
  | succ n ih =>
    intro p hG
    unfold elements_loop
    repeat' (first
      | exact saferun_fuel
      | exact saferun_pure (by assumption)
      | exact saferun_throw _ (by assumption)
      | exact ih _ _ (by assumption)
      | (refine saferun_bind (saferun_expect _ (by assumption) (by decide)) ?_; intro _ _ _ _; try dsimp only)
      | (refine saferun_bind (hrec _ (by assumption)) ?_; intro _ _ _ _; try dsimp only)
      | (refine saferun_peek (by assumption) ?_; intro _ _)
      | (refine saferun_ite _ (fun _ => ?_) (fun _ => ?_)))

theorem parse_list_expr_safe {M : Prop} (toks : List Token) (e : Nat) (env : Env) (rec : Parser → Res (Expr × Parser))
    (hrec : Safe M toks e rec) (n : Nat) :
    Safe M toks e (parse_list_expr env rec n) := by
  intro p hG
  unfold parse_list_expr
  repeat' (first
    | exact saferun_fuel
    | exact saferun_pure (by assumption)
    | exact saferun_throw _ (by assumption)
    | (refine saferun_bind (saferun_expect _ (by assumption) (by decide)) ?_; intro _ _ _ _; try dsimp only)
    | (refine saferun_bind (saferun_pure (by assumption)) ?_; intro _ _ _ _; try dsimp only)
    | (refine saferun_bind (hrec _ (by assumption)) ?_; intro _ _ _ _; try dsimp only)
    | (refine saferun_bind (elements_loop_safe toks e rec hrec _ _ _ _ _ (by assumption)) ?_; intro _ _ _ _; try dsimp only)
    | (refine saferun_peek (by assumption) ?_; intro _ _)
    | (refine saferun_ite _ (fun _ => ?_) (fun _ => ?_)))

theorem parse_tuple_expr_safe {M : Prop} (toks : List Token) (e : Nat) (env : Env) (rec : Parser → Res (Expr × Parser))
    (hrec : Safe M toks e rec) (n : Nat) :
    Safe M toks e (parse_tuple_expr env rec n) := by
  intro p hG
  unfold parse_tuple_expr
  repeat' (first
    | exact saferun_fuel
    | exact saferun_pure (by assumption)
    | exact saferun_throw _ (by assumption)
    | (refine saferun_bind (saferun_expect _ (by assumption) (by decide)) ?_; intro _ _ _ _; try dsimp only)
    | (refine saferun_bind (saferun_pure (by assumption)) ?_; intro _ _ _ _; try dsimp only)
    | (refine saferun_bind (hrec _ (by assumption)) ?_; intro _ _ _ _; try dsimp only)
    | (refine saferun_bind (elements_loop_safe toks e rec hrec _ _ _ _ _ (by assumption)) ?_; intro _ _ _ _; try dsimp only)
    | (refine saferun_peek (by assumption) ?_; intro _ _)
    | (refine saferun_ite _ (fun _ => ?_) (fun _ => ?_)))

theorem entries_loop_safe {M : Prop} (toks : List Token) (e : Nat) (rec : Parser → Res (Expr × Parser))
    (hrec : Safe M toks e rec) (vt : VarType) (n : Nat)
    (entries : List (String × String)) : Safe M toks e (entries_loop rec vt n entries) := by
  induction n generalizing entries with
  | zero => intro p _; exact saferun_fuel
  | succ n ih =>
    intro p hG
    unfold entries_loop
    repeat' (first
      | exact saferun_fuel
      | exact saferun_pure (by assumption)
      | exact saferun_throw _ (by assumption)
      | exact ih _ _ (by assumption)
      | (refine saferun_bind (saferun_expect _ (by assumption) (by decide)) ?_; intro _ _ _ _; try dsimp only)
      | (refine saferun_bind (hrec _ (by assumption)) ?_; intro _ _ _ _; try dsimp only)
      | (refine saferun_peek (by assumption) ?_; intro _ _)
      | (refine saferun_ite _ (fun _ => ?_) (fun _ => ?_)))

theorem parse_dict_expr_safe {M : Prop} (toks : List Token) (e : Nat) (env : Env) (rec : Parser → Res (Expr × Parser))
    (hrec : Safe M toks e rec) (n : Nat) :
    Safe M toks e (parse_dict_expr env rec n) := by
  intro p hG
  unfold parse_dict_expr
  repeat' (first
    | exact saferun_fuel
    | exact saferun_pure (by assumption)
    | exact saferun_throw _ (by assumption)
    | (refine saferun_bind (saferun_expect _ (by assumption) (by decide)) ?_; intro _ _ _ _; try dsimp only)
    | (refine saferun_bind (saferun_pure (by assumption)) ?_; intro _ _ _ _; try dsimp only)
    | (refine saferun_bind (saferun_throw _ (by assumption)) ?_; intro _ _ _ _; try dsimp only)
    | (refine saferun_bind (hrec _ (by assumption)) ?_; intro _ _ _ _; try dsimp only)
    | (refine saferun_bind (entries_loop_safe toks e rec hrec _ _ _ _ (by assumption)) ?_; intro _ _ _ _; try dsimp only)
    | (refine saferun_peek (by assumption) ?_; intro _ _)
    | (refine saferun_ite _ (fun _ => ?_) (fun _ => ?_)))

theorem parse_len_expr_safe {M : Prop} (toks : List Token) (e : Nat) (rec : Parser → Res (Expr × Parser))
    (hrec : Safe M toks e rec) :
    Safe M toks e (parse_len_expr rec) := by
  intro p hG
  unfold parse_len_expr
  repeat' (first
    | exact saferun_fuel
    | exact saferun_pure (by assumption)
    | exact saferun_throw _ (by assumption)
    | exact saferun_pure (include_for_guarded _ (by assumption))
    | (refine saferun_bind (saferun_expect _ (by assumption) (by decide)) ?_; intro _ _ _ _; try dsimp only)
    | (refine saferun_bind (hrec _ (by assumption)) ?_; intro _ _ _ _; try dsimp only)
    | (refine saferun_ite _ (fun _ => ?_) (fun _ => ?_)))

theorem operator_case_safe {M : Prop} (toks : List Token) (e : Nat) (tt : TokenType) (type : VarType) :
    Safe M toks e (operator_case tt type) := by
  intro p hG
  unfold operator_case
  repeat' (first
    | exact saferun_fuel
    | exact saferun_pure (by assumption)
    | exact saferun_throw _ (by assumption)
    | (refine saferun_bind (saferun_expect _ (by assumption) (by decide)) ?_; intro _ _ _ _; try dsimp only)
    | (refine saferun_ite _ (fun _ => ?_) (fun _ => ?_)))

theorem binary_operators_safe {M : Prop} (toks : List Token) (e : Nat) (rec : Parser → Res (Expr × Parser))
    (hrec : Safe M toks e rec) (n : Nat) (result : String)
    (type : VarType) : Safe M toks e (binary_operators rec n result type) := by
  induction n generalizing result type with
  | zero => intro p _; exact saferun_fuel
  | succ n ih =>
    intro p hG
    unfold binary_operators
    repeat' (first
      | exact saferun_fuel
      | exact saferun_pure (by assumption)
      | exact saferun_throw _ (by assumption)
      | exact ih _ _ _ (by assumption)
      | (refine saferun_bind (operator_case_safe toks e _ _ _ (by assumption)) ?_; intro _ _ _ _; try dsimp only)
      | (refine saferun_bind (hrec _ (by assumption)) ?_; intro _ _ _ _; try dsimp only)
      | (refine saferun_peek (by assumption) ?_; intro _ _)
      | (refine saferun_ite _ (fun _ => ?_) (fun _ => ?_)))

theorem parse_primary_safe {M : Prop} (toks : List Token) (e : Nat) (env : Env)
    (rec : Parser → Res (Expr × Parser)) (hrec : Safe M toks e rec) (n : Nat)
    (hcall : ShortArgs toks e rec n → M) : Safe M toks e (parse_primary env rec n) := by
  intro p hG
  unfold parse_primary
  repeat' (first
    | exact saferun_fuel
    | exact saferun_pure (by assumption)
    | exact saferun_throw _ (by assumption)
    | (refine saferun_bind (saferun_expect _ (by assumption) (by decide)) ?_; intro _ _ _ _; try dsimp only)
    | (refine saferun_bind (saferun_expect_current (by assumption) (by assumption) (by have h : _ = TokenType.TRUE ∨ _ = TokenType.FALSE := (by assumption); rcases h with h | h <;> rw [h] <;> decide)) ?_; intro _ _ _ _; try dsimp only)
    | (refine saferun_bind (parse_call_expr_safe toks e rec hrec _ _ (by assumption)) ?_; intro _ _ _ _; try dsimp only)
    | (refine saferun_bind (parse_index_expr_safe toks e rec hrec _ (by assumption)) ?_; intro _ _ _ _; try dsimp only)
    | (refine saferun_bind (parse_method_expr_safe toks e env rec hrec _ hcall _ (by assumption)) ?_; intro _ _ _ _; try dsimp only)
    | (refine saferun_bind (parse_identifier_expr_safe toks e _ (by assumption)) ?_; intro _ _ _ _; try dsimp only)
    | (refine saferun_bind (parse_fstring_expr_safe toks e env rec hrec _ _ (by assumption)) ?_; intro _ _ _ _; try dsimp only)
    | (refine saferun_bind (parse_list_expr_safe toks e env rec hrec _ _ (by assumption)) ?_; intro _ _ _ _; try dsimp only)
    | (refine saferun_bind (parse_tuple_expr_safe toks e env rec hrec _ _ (by assumption)) ?_; intro _ _ _ _; try dsimp only)
    | (refine saferun_bind (parse_dict_expr_safe toks e env rec hrec _ _ (by assumption)) ?_; intro _ _ _ _; try dsimp only)
    | (refine saferun_bind (parse_len_expr_safe toks e rec hrec _ (by assumption)) ?_; intro _ _ _ _; try dsimp only)
    | (refine saferun_peek1 (by assumption) (by assumption) (by have h : _ = TokenType.IDENTIFIER := (by assumption); rw [h]; decide) ?_; intro _)
    | (refine saferun_peek (by assumption) ?_; intro _ _)
    | (refine saferun_ite _ (fun _ => ?_) (fun _ => ?_)))

theorem parse_expression_safe (toks : List Token) (e : Nat) (env : Env) (fuel : Nat) :
    Safe (ShortCall env toks e) toks e (parse_expression env fuel) := by
  induction fuel with
  | zero => intro p _; exact saferun_fuel
  | succ fuel ih =>
    intro p hG
    unfold parse_expression
    repeat' (first
      | exact saferun_fuel
      | exact saferun_pure (by assumption)
      | exact saferun_throw _ (by assumption)
      | exact binary_operators_safe toks e _ ih _ _ _ _ (by assumption)
      | (refine saferun_bind (parse_primary_safe toks e env _ ih _ (fun h => Exists.intro fuel h) _ (by assumption)) ?_; intro _ _ _ _; try dsimp only)
      | (refine saferun_ite _ (fun _ => ?_) (fun _ => ?_)))

theorem parse_assignment_safe (toks : List Token) (e : Nat) (env : Env) (fuel : Nat) :
    Safe (ShortCall env toks e) toks e (parse_assignment env fuel) := by
  intro p hG
  unfold parse_assignment
  repeat' (first
    | exact saferun_fuel
    | exact saferun_pure (by assumption)
    | exact saferun_throw _ (by assumption)
    | (refine saferun_ite _ (fun _ => ?_) (fun _ => ?_))
    | (refine saferun_bind (saferun_expect _ (by assumption) (by decide)) ?_; intro _ _ _ _; try dsimp only)
    | (refine saferun_bind (parse_collection_type_safe env toks e _ (by assumption)) ?_; intro _ _ _ _; try dsimp only)
    | (refine saferun_bind (parse_expression_safe toks e env _ _ (by assumption)) ?_; intro _ _ _ _; try dsimp only)
    | split)

theorem parse_function_call_safe (toks : List Token) (e : Nat) (env : Env) (fuel : Nat) :
    Safe (ShortCall env toks e) toks e (parse_function_call env fuel) := by
  intro p hG
  unfold parse_function_call
  repeat' (first
    | exact saferun_fuel
    | exact saferun_pure (by assumption)
    | exact saferun_throw _ (by assumption)
    | (refine saferun_ite _ (fun _ => ?_) (fun _ => ?_))
    | (refine saferun_bind (saferun_expect _ (by assumption) (by decide)) ?_; intro _ _ _ _; try dsimp only)
    | (refine saferun_bind (parse_args_safe toks e _ (parse_expression_safe toks e env _) _ _ (by assumption)) ?_; intro _ _ _ _; try dsimp only)
    | split)

theorem parse_method_call_safe (toks : List Token) (e : Nat) (env : Env) (fuel : Nat) :
    Safe (ShortCall env toks e) toks e (parse_method_call env fuel) := by
  intro p hG
  unfold parse_method_call
  repeat' (first
    | exact saferun_fuel
    | exact saferun_pure (by assumption)
    | exact saferun_throw _ (by assumption)
    | (refine saferun_ite _ (fun _ => ?_) (fun _ => ?_))
    | (refine saferun_bind (saferun_expect _ (by assumption) (by decide)) ?_; intro _ _ _ _; try dsimp only)
    | (refine saferun_bind (parse_args_safe toks e _ (parse_expression_safe toks e env _) _ _ (by assumption)) ?_; intro _ _ _ _; try dsimp only)
    | (refine saferun_bind (method_return_type_safe toks e _ _ _ _ _ (by assumption)) ?_; intro _ _ _ _; try dsimp only)
    | split)

theorem parse_return_safe (toks : List Token) (e : Nat) (env : Env) (fuel : Nat) :
    Safe (ShortCall env toks e) toks e (parse_return env fuel) := by
  intro p hG
  unfold parse_return
  repeat' (first
    | exact saferun_fuel
    | exact saferun_pure (by assumption)
    | exact saferun_throw _ (by assumption)
    | (refine saferun_ite _ (fun _ => ?_) (fun _ => ?_))
    | (refine saferun_bind (saferun_expect _ (by assumption) (by decide)) ?_; intro _ _ _ _; try dsimp only)
    | (refine saferun_bind (parse_expression_safe toks e env _ _ (by assumption)) ?_; intro _ _ _ _; try dsimp only))

theorem print_loop_safe (toks : List Token) (e : Nat) (env : Env) (fuel n : Nat)
    (values : List (String × VarType)) (separator : String) :
    Safe (ShortCall env toks e) toks e (print_loop env fuel n values separator) := by
  induction n generalizing values separator with
  | zero => intro p _; exact saferun_fuel
  | succ n ih =>
    intro p hG
    unfold print_loop
    repeat' (first
      | exact saferun_fuel
      | exact saferun_pure (by assumption)
      | exact saferun_throw _ (by assumption)
      | (refine saferun_peek (by assumption) ?_; intro _ _)
      | (refine saferun_ite _ (fun _ => ?_) (fun _ => ?_))
      | (refine saferun_bind (saferun_expect _ (by assumption) (by decide)) ?_; intro _ _ _ _; try dsimp only)
      | (refine saferun_bind (parse_expression_safe toks e env _ _ (by assumption)) ?_; intro _ _ _ _; try dsimp only)
      | exact ih _ _ _ (include_for_guarded _ (by assumption)))

theorem parse_print_safe (toks : List Token) (e : Nat) (env : Env) (fuel : Nat) :
    Safe (ShortCall env toks e) toks e (parse_print env fuel) := by
  intro p hG
  unfold parse_print
  repeat' (first
    | exact saferun_fuel
    | exact saferun_pure (by assumption)
    | exact saferun_throw _ (by assumption)
    | (refine saferun_peek (by assumption) ?_; intro _ _)
    | (refine saferun_ite _ (fun _ => ?_) (fun _ => ?_))
    | (refine saferun_bind (saferun_expect _ (by assumption) (by decide)) ?_; intro _ _ _ _; try dsimp only)
    | (refine saferun_bind (saferun_pure (by assumption)) ?_; intro _ _ _ _; try dsimp only)
    | (refine saferun_bind (parse_expression_safe toks e env _ _ (by assumption)) ?_; intro _ _ _ _; try dsimp only)
    | (refine saferun_bind (print_loop_safe toks e env _ _ _ _ _ (include_for_guarded _ (by assumption))) ?_; intro _ _ _ _; try dsimp only))

theorem parse_index_assignment_safe (toks : List Token) (e : Nat) (env : Env) (fuel : Nat) :
    Safe (ShortCall env toks e) toks e (parse_index_assignment env fuel) := by
  intro p hG
  unfold parse_index_assignment
  repeat' (first
    | exact saferun_fuel
    | exact saferun_pure (by assumption)
    | exact saferun_throw _ (by assumption)
    | (refine saferun_ite _ (fun _ => ?_) (fun _ => ?_))
    | (refine saferun_bind (saferun_expect _ (by assumption) (by decide)) ?_; intro _ _ _ _; try dsimp only)
    | (refine saferun_bind (parse_expression_safe toks e env _ _ (by assumption)) ?_; intro _ _ _ _; try dsimp only)
    | split)

theorem block_loop_safe {M : Prop} (toks : List Token) (e : Nat) (stmt : Stmt) (hstmt : Safe M toks e stmt) (stop : TokenType → Bool)
    (n : Nat) (body : List ASTNode) :
    Safe M toks e (block_loop stmt stop n body) := by
  induction n generalizing body with
  | zero => intro p _; exact saferun_fuel
  | succ n ih =>
    intro p hG
    unfold block_loop
    repeat' (first
      | exact saferun_fuel
      | exact saferun_pure (by assumption)
      | exact saferun_throw _ (by assumption)
      | (refine saferun_peek (by assumption) ?_; intro _ _)
      | (refine saferun_ite _ (fun _ => ?_) (fun _ => ?_))
      | (refine saferun_bind (hstmt _ (by assumption)) ?_; intro _ _ _ _; try dsimp only)
      | exact ih _ _ (by assumption))

theorem parse_param_safe (toks : List Token) (e : Nat) (env : Env) (args : List (String × CollectionType)) :
    Safe (ShortCall env toks e) toks e (parse_param env args) := by
  intro p hG
  unfold parse_param
  repeat' (first
    | exact saferun_fuel
    | exact saferun_pure (by assumption)
    | exact saferun_throw _ (by assumption)
    | (refine saferun_ite _ (fun _ => ?_) (fun _ => ?_))
    | (refine saferun_bind (saferun_expect _ (by assumption) (by decide)) ?_; intro _ _ _ _; try dsimp only)
    | (refine saferun_bind (parse_collection_type_safe env toks e _ (by assumption)) ?_; intro _ _ _ _; try dsimp only))

theorem params_loop_safe (toks : List Token) (e : Nat) (env : Env) (n : Nat)
    (args : List (String × CollectionType)) :
    Safe (ShortCall env toks e) toks e (params_loop env n args) := by
  induction n generalizing args with
  | zero => intro p _; exact saferun_fuel
  | succ n ih =>
    intro p hG
    unfold params_loop
    repeat' (first
      | exact saferun_fuel
      | exact saferun_pure (by assumption)
      | exact saferun_throw _ (by assumption)
      | (refine saferun_peek (by assumption) ?_; intro _ _)
      | (refine saferun_ite _ (fun _ => ?_) (fun _ => ?_))
      | (refine saferun_bind (saferun_expect _ (by assumption) (by decide)) ?_; intro _ _ _ _; try dsimp only)
      | (refine saferun_bind (parse_param_safe toks e env _ _ (by assumption)) ?_; intro _ _ _ _; try dsimp only)
      | exact ih _ _ (by assumption))

theorem parse_function_safe (toks : List Token) (e : Nat) (env : Env) (stmt : Stmt)
    (hstmt : Safe (ShortCall env toks e) toks e stmt) (n : Nat) : Safe (ShortCall env toks e) toks e (parse_function env stmt n) := by
  intro p hG
  unfold parse_function
  refine saferun_bind (saferun_expect _ hG (by decide)) ?_
  intro _ p1 _ hG
  refine saferun_bind (saferun_expect _ hG (by decide)) ?_
  intro tok p2 _ hG
  refine saferun_bind (saferun_expect _ hG (by decide)) ?_
  intro _ p3 _ hG
  refine saferun_peek hG ?_
  intro t ht
  lift_lets
  intro rest
  have hrest : ∀ args q, Guarded toks e q → SafeRun (ShortCall env toks e) toks e (rest (args, q)) := by
    intro args q hG
    simp only [rest]
    repeat' (first
      | exact saferun_fuel
      | exact saferun_pure (by assumption)
      | exact saferun_throw _ (by assumption)
      | (refine saferun_peek (by assumption) ?_; intro _ _)
      | (refine saferun_ite _ (fun _ => ?_) (fun _ => ?_))
      | (refine saferun_bind (saferun_expect _ (by assumption) (by decide)) ?_; intro _ _ _ _; try dsimp only)
      | (refine saferun_bind (saferun_pure (by assumption)) ?_; intro _ _ _ _; try dsimp only)
      | (refine saferun_bind (parse_collection_type_safe env toks e _ (by assumption)) ?_; intro _ _ _ _; try dsimp only)
      | (refine saferun_bind (block_loop_safe toks e stmt hstmt _ _ _ _ (by assumption)) ?_; intro _ _ _ _; try dsimp only)
      | (refine saferun_peek1 (by assumption) (by assumption) (by have h : _ = TokenType.COLON := (by assumption); rw [h]; decide) ?_; intro _))
  refine saferun_ite _ (fun _ => ?_) (fun _ => ?_)
  · refine saferun_bind (parse_param_safe toks e env _ _ hG) ?_
    intro args p4 _ hG
    refine saferun_bind (params_loop_safe toks e env _ _ _ hG) ?_
    intro y p5 _ hG
    exact hrest _ _ hG
  · refine saferun_bind (saferun_pure hG) ?_
    intro a q _ hG
    exact hrest _ _ hG

theorem elif_loop_safe (toks : List Token) (e : Nat) (env : Env) (stmt : Stmt) (hstmt : Safe (ShortCall env toks e) toks e stmt)
    (fuel n : Nat) (clauses : List (String × List ASTNode)) :
    Safe (ShortCall env toks e) toks e (elif_loop env stmt fuel n clauses) := by
  induction n generalizing clauses with
  | zero => intro p _; exact saferun_fuel
  | succ n ih =>
    intro p hG
    unfold elif_loop
    repeat' (first
      | exact saferun_fuel
      | exact saferun_pure (by assumption)
      | exact saferun_throw _ (by assumption)
      | (refine saferun_peek (by assumption) ?_; intro _ _)
      | (refine saferun_ite _ (fun _ => ?_) (fun _ => ?_))
      | (refine saferun_bind (saferun_expect _ (by assumption) (by decide)) ?_; intro _ _ _ _; try dsimp only)
      | (refine saferun_bind (parse_expression_safe toks e env _ _ (by assumption)) ?_; intro _ _ _ _; try dsimp only)
      | (refine saferun_bind (block_loop_safe toks e stmt hstmt _ _ _ _ (by assumption)) ?_; intro _ _ _ _; try dsimp only)
      | exact ih _ _ (by assumption))

theorem parse_if_safe (toks : List Token) (e : Nat) (env : Env) (stmt : Stmt) (hstmt : Safe (ShortCall env toks e) toks e stmt)
    (n : Nat) :
    Safe (ShortCall env toks e) toks e (parse_if env stmt n) := by
  intro p hG
  unfold parse_if
  repeat' (first
    | exact saferun_fuel
    | exact saferun_pure (by assumption)
    | exact saferun_throw _ (by assumption)
    | (refine saferun_peek (by assumption) ?_; intro _ _)
    | (refine saferun_ite _ (fun _ => ?_) (fun _ => ?_))
    | (refine saferun_bind (saferun_expect _ (by assumption) (by decide)) ?_; intro _ _ _ _; try dsimp only)
    | (refine saferun_bind (parse_expression_safe toks e env _ _ (by assumption)) ?_; intro _ _ _ _; try dsimp only)
    | (refine saferun_bind (block_loop_safe toks e stmt hstmt _ _ _ _ (by assumption)) ?_; intro _ _ _ _; try dsimp only)
    | (refine saferun_bind (elif_loop_safe toks e env stmt hstmt _ _ _ _ (by assumption)) ?_; intro _ _ _ _; try dsimp only))

theorem parse_for_safe (toks : List Token) (e : Nat) (env : Env) (stmt : Stmt) (hstmt : Safe (ShortCall env toks e) toks e stmt)
    (n : Nat) :
    Safe (ShortCall env toks e) toks e (parse_for env stmt n) := by
  intro p hG
  unfold parse_for
  repeat' (first
    | exact saferun_fuel
    | exact saferun_pure (by assumption)
    | exact saferun_throw _ (by assumption)
    | (refine saferun_ite _ (fun _ => ?_) (fun _ => ?_))
    | (refine saferun_bind (saferun_expect _ (by assumption) (by decide)) ?_; intro _ _ _ _; try dsimp only)
    | (refine saferun_bind (parse_expression_safe toks e env _ _ (by assumption)) ?_; intro _ _ _ _; try dsimp only)
    | (refine saferun_bind (block_loop_safe toks e stmt hstmt _ _ _ _ (by assumption)) ?_; intro _ _ _ _; try dsimp only))

theorem parse_while_safe (toks : List Token) (e : Nat) (env : Env) (stmt : Stmt) (hstmt : Safe (ShortCall env toks e) toks e stmt)
    (n : Nat) :
    Safe (ShortCall env toks e) toks e (parse_while env stmt n) := by
  intro p hG
  unfold parse_while
  repeat' (first
    | exact saferun_fuel
    | exact saferun_pure (by assumption)
    | exact saferun_throw _ (by assumption)
    | (refine saferun_ite _ (fun _ => ?_) (fun _ => ?_))
    | (refine saferun_bind (saferun_expect _ (by assumption) (by decide)) ?_; intro _ _ _ _; try dsimp only)
    | (refine saferun_bind (parse_expression_safe toks e env _ _ (by assumption)) ?_; intro _ _ _ _; try dsimp only)
    | (refine saferun_bind (block_loop_safe toks e stmt hstmt _ _ _ _ (by assumption)) ?_; intro _ _ _ _; try dsimp only))

theorem parse_case_pattern_safe {M : Prop} (toks : List Token) (e : Nat)  :
    Safe M toks e (parse_case_pattern) := by
  intro p hG
  unfold parse_case_pattern
  repeat' (first
    | exact saferun_fuel
    | exact saferun_pure (by assumption)
    | exact saferun_throw _ (by assumption)
    | (refine saferun_peek (by assumption) ?_; intro _ _)
    | (refine saferun_ite _ (fun _ => ?_) (fun _ => ?_))
    | (refine saferun_bind (saferun_expect _ (by assumption) (by decide)) ?_; intro _ _ _ _; try dsimp only)
    | (refine saferun_bind (saferun_expect_current (by assumption) (by assumption) (by have h : _ = TokenType.TRUE ∨ _ = TokenType.FALSE := (by assumption); rcases h with h | h <;> rw [h] <;> decide)) ?_; intro _ _ _ _; try dsimp only))

theorem case_loop_safe {M : Prop} (toks : List Token) (e : Nat) (stmt : Stmt) (hstmt : Safe M toks e stmt) (fuel n : Nat)
    (cases : List (String × List ASTNode)) (default_case : List ASTNode) :
    Safe M toks e (case_loop stmt fuel n cases default_case) := by
  induction n generalizing cases default_case with
  | zero => intro p _; exact saferun_fuel
  | succ n ih =>
    intro p hG
    unfold case_loop
    repeat' (first
      | exact saferun_fuel
      | exact saferun_pure (by assumption)
      | exact saferun_throw _ (by assumption)
      | (refine saferun_peek (by assumption) ?_; intro _ _)
      | (refine saferun_ite _ (fun _ => ?_) (fun _ => ?_))
      | (refine saferun_bind (saferun_expect _ (by assumption) (by decide)) ?_; intro _ _ _ _; try dsimp only)
      | (refine saferun_bind (parse_case_pattern_safe toks e _ (by assumption)) ?_; intro _ _ _ _; try dsimp only)
      | (refine saferun_bind (block_loop_safe toks e stmt hstmt _ _ _ _ (by assumption)) ?_; intro _ _ _ _; try dsimp only)
      | exact ih _ _ _ (by assumption))

theorem parse_match_safe (toks : List Token) (e : Nat) (env : Env) (stmt : Stmt) (hstmt : Safe (ShortCall env toks e) toks e stmt)
    (n : Nat) :
    Safe (ShortCall env toks e) toks e (parse_match env stmt n) := by
  intro p hG
  unfold parse_match
  repeat' (first
    | exact saferun_fuel
    | exact saferun_pure (by assumption)
    | exact saferun_throw _ (by assumption)
    | (refine saferun_ite _ (fun _ => ?_) (fun _ => ?_))
    | (refine saferun_bind (saferun_expect _ (by assumption) (by decide)) ?_; intro _ _ _ _; try dsimp only)
    | (refine saferun_bind (parse_expression_safe toks e env _ _ (by assumption)) ?_; intro _ _ _ _; try dsimp only)
    | (refine saferun_bind (case_loop_safe toks e stmt hstmt _ _ _ _ _ (by assumption)) ?_; intro _ _ _ _; try dsimp only))

theorem parse_statement_safe (toks : List Token) (e : Nat) (env : Env) (fuel : Nat) :
    Safe (ShortCall env toks e) toks e (parse_statement env fuel) := by
  induction fuel with
  | zero => intro p _; exact saferun_fuel
  | succ fuel ih =>
    intro p hG
    unfold parse_statement
    refine saferun_peek hG ?_
    intro t ht
    refine saferun_ite _ (fun _ => parse_function_safe toks e env _ ih _ _ hG) (fun _ => ?_)
    refine saferun_ite _ (fun _ => parse_return_safe toks e env _ _ hG) (fun _ => ?_)
    refine saferun_ite _ (fun _ => parse_print_safe toks e env _ _ hG) (fun _ => ?_)
    refine saferun_ite _ (fun _ => parse_if_safe toks e env _ ih _ _ hG) (fun _ => ?_)
    refine saferun_ite _ (fun _ => parse_for_safe toks e env _ ih _ _ hG) (fun _ => ?_)
    refine saferun_ite _ (fun _ => parse_while_safe toks e env _ ih _ _ hG) (fun _ => ?_)
    refine saferun_ite _ (fun _ => parse_match_safe toks e env _ ih _ _ hG) (fun _ => ?_)
    refine saferun_ite _ (fun _ => parse_assignment_safe toks e env _ _ hG) (fun _ => ?_)
    refine saferun_ite _ (fun hc => ?_) (fun _ => saferun_throw _ hG)
    refine saferun_peek1 hG ht (by rw [hc]; decide) ?_
    intro t1
    refine saferun_ite _ (fun _ => parse_function_call_safe toks e env _ _ hG) (fun _ => ?_)
    refine saferun_ite _ (fun _ => parse_method_call_safe toks e env _ _ hG) (fun _ => ?_)
    refine saferun_ite _ (fun _ => parse_index_assignment_safe toks e env _ _ hG) (fun _ => ?_)
    exact saferun_throw _ hG

theorem parse_program_safe (toks : List Token) (e : Nat) (env : Env) (fuel : Nat) :
    Safe (ShortCall env toks e) toks e (parse_program env fuel) := by
  intro p hG
  unfold parse_program
  exact block_loop_safe toks e _ (parse_statement_safe toks e env fuel) _ _ _ _ hG

theorem tokenize_no_dot (fuel : Nat) (source : String) (tokens : List Token)
    (h : tokenize fuel source = .ok tokens) : ∀ t ∈ tokens, t.type ≠ .DOT := by
  obtain ⟨body, lx, levels, -, -, -, -, hk, rfl⟩ := tokenize_shape fuel source tokens h
  intro t ht
  simp only [List.mem_append, List.mem_singleton] at ht
  rcases ht with (ht | ht) | ht
  · exact (loop_kind_ne t (hk t ht)).2.2
  · rw [(mem_replicate_dedent _ _ _ ht).1]
    decide
  · rw [ht]
    simp [eof_at]

/-- At an EOF_TOKEN a statement and an expression stop before any lookahead. -/
theorem stop_at_eof (env : Env) (fuel : Nat) (p : Parser) (t : Token)
    (ht : p.tokens[p.pos]? = some t) (hte : t.type = .EOF_TOKEN) :
    parse_statement env (fuel + 1) p =
      .error (.thrown ("Unexpected Token at Line " ++ toString t.line)) ∧
    parse_expression env (fuel + 1) p =
      .error (.thrown ("Invalid Expression at Line " ++ toString t.line)) := by
  constructor
  · unfold parse_statement
    simp [peek, ht, hte, throw_at, bind, Except.bind]
  · unfold parse_expression parse_primary
    simp [peek, ht, hte, throw_at, bind, Except.bind]

/-- C38. In a token vector with an EOF_TOKEN at the index `e`, a run of `parse_program` stops at a
read out of range only when an expression of the parse is a method call `x.m(args)` whose lowering
reads an argument that is not in `args`: the read is that of `args[0]` or `args[1]`, in the vector
of arguments, and no read of a token is outside the token vector; the cursor of a returned record
is not after `e`.  The same holds for every statement and expression entered with the cursor not
after `e`.  In such a record the reads `tokens[pos]` of `peek`, `expect` and of the error messages are
inside the vector, `expect` of a kind other than EOF_TOKEN keeps the cursor not after `e`, the
lookahead `tokens[pos + 1]` after a token that is not EOF_TOKEN is inside the vector, and at an
EOF_TOKEN a statement and an expression stop with their error before any lookahead.  No run on a
vector that `tokenize` returns stops at a read outside. -/
theorem C38_reads_inside_vector (env : Env) (tokens : List Token) (e : Nat) (te : Token)
    (he : tokens[e]? = some te) (hte : te.type = .EOF_TOKEN) :
    (∀ fuel,
      (parse_program env fuel (Parser.init env tokens) = .error .out_of_range →
        ShortCall env tokens e) ∧
      ∀ ast q, parse_program env fuel (Parser.init env tokens) = .ok (ast, q) →
        q.tokens = tokens ∧ q.pos ≤ e) ∧
    (∀ fuel, Safe (ShortCall env tokens e) tokens e (parse_statement env fuel) ∧
      Safe (ShortCall env tokens e) tokens e (parse_expression env fuel)) ∧
    (∀ p, Guarded tokens e p →
      (∃ t, peek p = .ok t) ∧
      (∀ ty, expect ty p ≠ .error .out_of_range) ∧
      (∀ msg, (throw_at msg p : Res Unit) ≠ .error .out_of_range) ∧
      (∀ ty t q, ty ≠ .EOF_TOKEN → expect ty p = .ok (t, q) → q.pos = p.pos + 1 ∧ q.pos ≤ e) ∧
      (∀ t, p.tokens[p.pos]? = some t → t.type ≠ .EOF_TOKEN → ∃ t1, peek1 p = .ok t1) ∧
      (∀ fuel t, p.tokens[p.pos]? = some t → t.type = .EOF_TOKEN →
        parse_statement env (fuel + 1) p =
          .error (.thrown ("Unexpected Token at Line " ++ toString t.line)) ∧
        parse_expression env (fuel + 1) p =
          .error (.thrown ("Invalid Expression at Line " ++ toString t.line)))) ∧
    (∀ n source, tokenize n source = .ok tokens →
      ∀ fuel, parse_program env fuel (Parser.init env tokens) ≠ .error .out_of_range) := by
  have h0 : Guarded tokens e (Parser.init env tokens) := ⟨rfl, Nat.zero_le _, te, he, hte⟩
  refine ⟨?_, ?_, ?_, ?_⟩
  · intro fuel
    have h := parse_program_safe tokens e env fuel _ h0
    exact ⟨h.1, fun ast q hq => ⟨(h.2 ast q hq).1, (h.2 ast q hq).2.1⟩⟩
  · intro fuel
    exact ⟨parse_statement_safe tokens e env fuel, parse_expression_safe tokens e env fuel⟩
  · intro p hG
    obtain ⟨t, ht⟩ := guarded_get hG
    refine ⟨⟨t, by simp [peek, ht]⟩, ?_, ?_, ?_, ?_, ?_⟩
    · intro ty hc
      unfold expect at hc
      rw [ht] at hc
      simp only [] at hc
      split_ifs at hc
      cases hc
    · intro msg
      exact throw_at_in_range msg hG
    · intro ty t1 q hty hq
      have hq2 := (saferun_expect (M := True) ty hG hty).2 t1 q hq
      unfold expect at hq
      rw [ht] at hq
      simp only [] at hq
      split_ifs at hq
      simp only [Except.ok.injEq, Prod.mk.injEq] at hq
      refine ⟨?_, hq2.2.1⟩
      rw [← hq.2]
    · intro t1 ht1 hne
      have hn := guarded_next hG ht1 hne
      obtain ⟨t2, ht2⟩ := guarded_get (p := { p with pos := p.pos + 1 }) ⟨hG.1, hn, hG.2.2⟩
      refine ⟨t2, ?_⟩
      unfold peek1
      simp only [] at ht2
      rw [ht2]
    · intro fuel t1 ht1 hte1
      exact stop_at_eof env fuel p t1 ht1 hte1
  · intro n source hs fuel hc
    obtain ⟨k, p, tok, p1, d, p2, mtok, p3, l, p4, args, p5, hG, h1, h2, -⟩ :=
      (parse_program_safe tokens e env fuel _ h0).1 hc
    obtain ⟨-, -, rfl⟩ := expect_inv _ _ _ _ h1
    obtain ⟨t, ht, htt⟩ := expect_mem (p := { p with pos := p.pos + 1 }) _ hG.1 h2
    exact tokenize_no_dot n source tokens hs t ht htt

/-- C38 at the tokens of `print(1, 2.5)` followed by a second copy of them: the first EOF_TOKEN is
at the index 7, and no run returns with the cursor after it. -/
theorem C38_witness :
    (c22_tokens ++ c22_tokens)[7]? = some (tk .EOF_TOKEN "" 2) ∧
    ∀ fuel ast q,
      parse_program sample_env fuel (Parser.init sample_env (c22_tokens ++ c22_tokens)) =
        .ok (ast, q) → q.pos ≤ 7 :=
  ⟨by decide, fun fuel ast q h =>
    (((C38_reads_inside_vector sample_env (c22_tokens ++ c22_tokens) 7 (tk .EOF_TOKEN "" 2)
      (by decide) rfl).1 fuel).2 ast q h).2⟩

/-- The parse of `print(1, 2.5)` returns with the cursor at the EOF_TOKEN, also when more tokens
follow it.  Without an EOF_TOKEN the loop of `parse_program` and the lookahead after an identifier
read outside the vector.  The read `args[0]` of `xs.append()` is outside the vector of arguments. -/
theorem cursor_examples :
    cursor_after (parse_program sample_env 10 (Parser.init sample_env c22_tokens)) = .ok 7 ∧
    cursor_after (parse_program sample_env 10
      (Parser.init sample_env (c22_tokens ++ c22_tokens))) = .ok 7 ∧
    cursor_after (parse_program sample_env 10
      (Parser.init sample_env [tk .IDENTIFIER "x" 1, tk .EOF_TOKEN "" 1])) =
      .error (.thrown "Unexpected Token at Line 1") ∧
    cursor_after (parse_program sample_env 10 (Parser.init sample_env [tk .IDENTIFIER "x" 1])) =
      .error .out_of_range ∧
    cursor_after (parse_program sample_env 10 (Parser.init sample_env (c22_tokens.take 7))) =
      .error .out_of_range ∧
    cursor_after (parse_program sample_env 10 (Parser.init sample_env c38_method_tokens)) =
      .error .out_of_range := by
  refine ⟨?_, ?_, ?_, ?_, ?_, ?_⟩ <;> decide!

/-! ## C39: the loops of the lexer -/

theorem bind_ne_fuel {α β : Type} (x : Res α) (f : α → Res β)
    (hx : x ≠ .error .out_of_fuel) (hf : ∀ a, x = .ok a → f a ≠ .error .out_of_fuel) :
    (x >>= f) ≠ .error .out_of_fuel := by
  cases x with
  | error e =>
    intro h
    simp only [bind, Except.bind] at h
    cases h
    exact hx rfl
  | ok a =>
    simp only [bind, Except.bind]
    exact hf a rfl

theorem drop_at_char (lx : Lexer) (c : Char) (h : lx.source[lx.pos]? = some c) :
    lx.source.drop lx.pos = c :: lx.source.drop (lx.pos + 1) := by
  obtain ⟨hlt, hc⟩ := List.getElem?_eq_some.1 h
  rw [List.drop_eq_getElem_cons hlt, hc]

/-- A run that starts at a character of its kind is not empty. -/
theorem run_length_pos (lx : Lexer) (c : Char) (test : Char → Bool)
    (h : lx.source[lx.pos]? = some c) (hc : test c = true) : 1 ≤ (lx.run test).length := by
  unfold Lexer.run
  rw [drop_at_char lx c h, List.takeWhile_cons, if_pos hc]
  simp

theorem number_loop_count (line : Int) : ∀ (cs : List Char) (value : String) (has_decimal : Bool)
    (n : Nat) (r : String × Bool × Nat),
    number_loop line cs value has_decimal n = .ok r →
    n ≤ r.2.2 ∧ ∀ c rest, cs = c :: rest → (isdigit c || decide (c = '.')) = true →
      n + 1 ≤ r.2.2 := by
  intro cs
  induction cs with
  | nil =>
    intro value has_decimal n r h
    simp only [number_loop, Except.ok.injEq] at h
    subst h
    exact ⟨le_refl _, fun c rest e => by cases e⟩
  | cons c cs ih =>
    intro value has_decimal n r h
    unfold number_loop at h
    by_cases hc : (isdigit c || decide (c = '.')) = true
    · rw [if_pos hc] at h
      have key : n + 1 ≤ r.2.2 := by
        split_ifs at h
        · exact (ih _ _ _ _ h).1
        · exact (ih _ _ _ _ h).1
      exact ⟨by omega, fun _ _ _ _ => key⟩
    · rw [if_neg hc] at h
      simp only [Except.ok.injEq] at h
      subst h
      refine ⟨le_refl _, ?_⟩
      intro c1 rest e h1
      simp only [List.cons.injEq] at e
      rw [← e.1] at h1
      exact absurd h1 hc

theorem number_loop_ne_fuel (line : Int) : ∀ (cs : List Char) (value : String)
    (has_decimal : Bool) (n : Nat),
    number_loop line cs value has_decimal n ≠ .error .out_of_fuel := by
  intro cs
  induction cs with
  | nil => intro value has_decimal n h; cases h
  | cons c cs ih =>
    intro value has_decimal n
    unfold number_loop
    split_ifs
    · intro h; cases h
    · exact ih _ _ _
    · exact ih _ _ _
    · intro h; cases h

/-- The loop of `handle_indent` pops each level of the stack at most once. -/
theorem dedent_loop_pops (spaces : Nat) (line : Int) : ∀ (stack : List Nat),
    dedent_loop spaces line stack ≠ .error .out_of_fuel ∧
    ∀ left more, dedent_loop spaces line stack = .ok (left, more) →
      more.length + left.length = stack.length := by
  intro stack
  induction stack with
  | nil =>
    refine ⟨by simp [dedent_loop], ?_⟩
    intro left more h
    cases h
  | cons top rest ih =>
    unfold dedent_loop
    by_cases hs : spaces ≠ top
    · rw [if_pos hs]
      refine ⟨bind_ne_fuel _ _ ih.1 (fun a _ h => by cases h), ?_⟩
      intro left more h
      rw [bind_ok] at h
      obtain ⟨⟨s1, m1⟩, h1, h⟩ := h
      simp only [pure, Except.pure, Except.ok.injEq, Prod.mk.injEq] at h
      obtain ⟨rfl, rfl⟩ := h
      have := ih.2 _ _ h1
      simp only [List.length_cons]
      omega
    · rw [if_neg hs]
      refine ⟨by simp, ?_⟩
      intro left more h
      simp only [Except.ok.injEq, Prod.mk.injEq] at h
      obtain ⟨rfl, rfl⟩ := h
      simp

theorem final_dedents_ne_fuel (line : Int) : ∀ (stack : List Nat),
    final_dedents line stack ≠ .error .out_of_fuel := by
  intro stack
  induction stack with
  | nil => intro h; cases h
  | cons top rest ih =>
    unfold final_dedents
    split_ifs
    · exact bind_ne_fuel _ _ ih (fun a _ h => by cases h)
    · intro h; cases h

/-- The function `handle_indent` ends, and does not move the position back. -/
theorem handle_indent_advances (lx : Lexer) :
    handle_indent lx ≠ .error .out_of_fuel ∧
    ∀ more lx1, handle_indent lx = .ok (more, lx1) →
      lx.pos ≤ lx1.pos ∧ lx1.source = lx.source := by
  unfold handle_indent
  simp only []
  split
  · refine ⟨by simp, ?_⟩
    intro more lx1 h
    simp only [Except.ok.injEq, Prod.mk.injEq] at h
    obtain ⟨-, rfl⟩ := h
    simp
  · split_ifs
    · split
      · exact ⟨by simp, fun more lx1 h => by cases h⟩
      · split_ifs
        · refine ⟨by simp, ?_⟩
          intro more lx1 h
          simp only [Except.ok.injEq, Prod.mk.injEq] at h
          obtain ⟨-, rfl⟩ := h
          simp
        · constructor
          · refine bind_ne_fuel _ _ (dedent_loop_pops _ _ _).1 ?_
            intro a _
            split
            · intro h; cases h
            · split_ifs
              · intro h; cases h
              · intro h; cases h
          · intro more lx1 h
            rw [bind_ok] at h
            obtain ⟨⟨stack, dedents⟩, -, h⟩ := h
            simp only [] at h
            split at h
            · cases h
            · split_ifs at h
              simp only [pure, Except.pure, Except.ok.injEq, Prod.mk.injEq] at h
              obtain ⟨-, rfl⟩ := h
              simp
        · refine ⟨by simp, ?_⟩
          intro more lx1 h
          simp only [Except.ok.injEq, Prod.mk.injEq] at h
          obtain ⟨-, rfl⟩ := h
          simp
    · refine ⟨by simp, ?_⟩
      intro more lx1 h
      simp only [Except.ok.injEq, Prod.mk.injEq] at h
      obtain ⟨-, rfl⟩ := h
      simp

theorem step_advances_error (lx : Lexer) (msg : String) :
    StepAdvances lx (.error (.thrown msg)) :=
  ⟨by simp, fun more lx1 h => by cases h⟩

theorem step_advances_emit (lx : Lexer) (kind : TokenType) (value : String) (width : Nat)
    (hw : 0 < width) : StepAdvances lx (emit lx kind value width) := by
  refine ⟨by simp [emit], ?_⟩
  intro more lx1 h
  simp only [emit, Except.ok.injEq, Prod.mk.injEq] at h
  obtain ⟨-, rfl⟩ := h
  simp [hw]

theorem step_advances_ite (lx : Lexer) (c : Prop) [Decidable c] (a b : Res (List Token × Lexer))
    (ha : c → StepAdvances lx a) (hb : ¬ c → StepAdvances lx b) :
    StepAdvances lx (if c then a else b) := by
  split
  · exact ha (by assumption)
  · exact hb (by assumption)

/-- Every turn of the loop of `tokenize` ends, with an error or further on in the source. -/
theorem lex_step_advances (fuel : Nat) (lx : Lexer) (c : Char)
    (hc : lx.source[lx.pos]? = some c) : StepAdvances lx (lex_step fuel lx c) := by
  unfold lex_step
  refine step_advances_ite _ _ _ _ (fun _ => ?_) (fun _ => ?_)
  · have hi := handle_indent_advances { lx with line := lx.line + 1, pos := lx.pos + 1 }
    refine ⟨bind_ne_fuel _ _ hi.1 (fun a _ h => by cases h), ?_⟩
    intro more lx1 h
    rw [bind_ok] at h
    obtain ⟨⟨more1, lx2⟩, hh, h⟩ := h
    simp only [pure, Except.pure, Except.ok.injEq, Prod.mk.injEq] at h
    obtain ⟨-, rfl⟩ := h
    have := hi.2 _ _ hh
    simp only [] at this
    exact ⟨by omega, this.2⟩
  refine step_advances_ite _ _ _ _ (fun _ => ?_) (fun _ => ?_)
  · refine ⟨by simp, ?_⟩
    intro more lx1 h
    simp only [Except.ok.injEq, Prod.mk.injEq] at h
    obtain ⟨-, rfl⟩ := h
    simp
  refine step_advances_ite _ _ _ _ (fun h1 => ?_) (fun h2 => ?_)
  · refine ⟨by simp, ?_⟩
    intro more lx1 h
    simp only [read_identifier_or_keyword, Except.ok.injEq, Prod.mk.injEq] at h
    obtain ⟨-, rfl⟩ := h
    have hrun := run_length_pos lx c (fun c => isalnum c || c = '_') hc (by
      have : isalnum c = true := by
        simp only [isalpha] at h1
        simp [isalnum, Char.isAlphanum, h1]
      simp [this])
    simp only []
    exact ⟨by omega, trivial⟩
  refine step_advances_ite _ _ _ _ (fun h3 => ?_) (fun h3 => ?_)
  · constructor
    · refine bind_ne_fuel _ _ ?_ (fun a _ h => by cases h)
      unfold read_number_or_float
      refine bind_ne_fuel _ _ (number_loop_ne_fuel _ _ _ _ _) ?_
      intro ⟨value, has_decimal, n⟩ _
      simp only []
      split_ifs <;> (intro h; cases h)
    · intro more lx1 h
      rw [bind_ok] at h
      obtain ⟨⟨token, lx2⟩, hr, h⟩ := h
      simp only [pure, Except.pure, Except.ok.injEq, Prod.mk.injEq] at h
      obtain ⟨-, rfl⟩ := h
      unfold read_number_or_float at hr
      rw [bind_ok] at hr
      obtain ⟨⟨value, has_decimal, n⟩, hn, hr⟩ := hr
      have hcount := (number_loop_count _ _ _ _ _ _ hn).2 c _ (drop_at_char lx c hc) h3
      simp only [] at hr hcount
      split_ifs at hr <;>
        (simp only [pure, Except.pure, Except.ok.injEq, Prod.mk.injEq] at hr
         obtain ⟨-, rfl⟩ := hr
         simp only []
         exact ⟨by omega, trivial⟩)
  refine step_advances_ite _ _ _ _ (fun _ => ?_) (fun _ => ?_)
  · refine ⟨by simp, ?_⟩
    intro more lx1 h
    simp only [read_string, Except.ok.injEq, Prod.mk.injEq] at h
    obtain ⟨-, rfl⟩ := h
    simp only []
    exact ⟨by omega, trivial⟩
  refine step_advances_ite _ _ _ _ (fun h5 => ?_) (fun _ => ?_)
  · exfalso
    simp only [Bool.and_eq_true, decide_eq_true_eq] at h5
    rw [h5.1] at h2
    exact h2 (by decide)
  repeat (first
    | exact step_advances_error _ _
    | exact step_advances_emit _ _ _ _ (by decide)
    | refine step_advances_ite _ _ _ _ (fun _ => ?_) (fun _ => ?_))

/-- The loop of `tokenize` ends within as many turns as characters are left. -/
theorem tokenize_loop_ends : ∀ (fuel : Nat) (lx : Lexer) (tokens : List Token),
    lx.source.length - lx.pos < fuel →
    tokenize_loop fuel lx tokens ≠ .error .out_of_fuel := by
  intro fuel
  induction fuel with
  | zero => intro lx tokens h; omega
  | succ n ih =>
    intro lx tokens hf
    unfold tokenize_loop
    split
    · intro h; cases h
    · rename_i c hc
      have hstep := lex_step_advances n lx c hc
      refine bind_ne_fuel _ _ hstep.1 ?_
      intro ⟨more, lx1⟩ hs
      have := hstep.2 more lx1 hs
      obtain ⟨hlt, -⟩ := List.getElem?_eq_some.1 hc
      refine ih _ _ ?_
      rw [this.2]
      omega

/-- A width equal to no level of the stack: the pop loop pops every level and reads `back()` of the
empty vector. -/
theorem dedent_loop_off_the_stack (spaces : Nat) (line : Int) : ∀ (stack : List Nat),
    (∀ x ∈ stack, x ≠ spaces) → dedent_loop spaces line stack = .error .out_of_range := by
  intro stack
  induction stack with
  | nil => intro _; rfl
  | cons top rest ih =>
    intro h
    have ht : spaces ≠ top := fun hc => h top (List.mem_cons_self _ _) hc.symm
    simp only [dedent_loop, if_pos ht, ih (fun x hx => h x (List.mem_cons_of_mem _ hx)), bind,
      Except.bind]

/-- C39 (the claim fails). The pop loop of `handle_indent` has no exit inside the stack when the
width equals no level: it pops every level and then reads `back()` of the empty vector, where the
C++ loop has no defined behaviour and the embedding stops with `Fault.out_of_range`. The source
`if a:`, `    b`, `   c` is such an input: `tokenize` stops there. Apart from that read every loop
of the lexer ends: given more turns than the source has characters `tokenize` does not run out of
turns, every turn of its loop that returns has moved the position forward by at least one
character, and a pop loop that returns has popped at most the levels of the stack and has stopped
at a level equal to the width. -/
theorem C39_pop_loop_leaves_the_stack (source : String) (fuel : Nat)
    (hf : source.length < fuel) :
    (∀ (spaces : Nat) (line : Int) (stack : List Nat), (∀ x ∈ stack, x ≠ spaces) →
      dedent_loop spaces line stack = .error .out_of_range) ∧
    handle_indent c14_lexer = .error .out_of_range ∧
    tokenize 18 c14_source = .error .out_of_range ∧
    tokenize fuel source ≠ .error .out_of_fuel ∧
    (∀ (n : Nat) (lx : Lexer) (c : Char), lx.source[lx.pos]? = some c →
      lex_step n lx c ≠ .error .out_of_fuel ∧
      ∀ more lx1, lex_step n lx c = .ok (more, lx1) → lx.pos + 1 ≤ lx1.pos) ∧
    (∀ (spaces : Nat) (line : Int) (stack left : List Nat) (more : List Token),
      dedent_loop spaces line stack = .ok (left, more) →
        more.length ≤ stack.length ∧ ∃ rest, left = spaces :: rest) := by
  refine ⟨fun spaces line stack h => dedent_loop_off_the_stack spaces line stack h, by decide!,
    by decide!, ?_, ?_, ?_⟩
  · unfold tokenize scan
    refine bind_ne_fuel _ _ (tokenize_loop_ends _ _ _ ?_) ?_
    · have hlen : source.toList.length = source.length := rfl
      show source.toList.length - 0 < fuel
      omega
    · intro ⟨tokens, lx⟩ _
      refine bind_ne_fuel _ _ (final_dedents_ne_fuel _ _) ?_
      intro a _ h
      cases h
  · intro n lx c hc
    have := lex_step_advances n lx c hc
    exact ⟨this.1, fun more lx1 h => (this.2 more lx1 h).1⟩
  · intro spaces line stack left more h
    have := (dedent_loop_pops spaces line stack).2 left more h
    exact ⟨by omega, dedent_loop_back spaces line stack left more h⟩

/-- C39 at the source of 17 characters `if a:`, `    b`, `   c`: the widths 4 and 0 of the stack
differ from 3, and the run stops at the read of the empty stack. -/
theorem C39_witness :
    c14_source.length < 18 ∧ (∀ x ∈ [4, 0], x ≠ 3) ∧
    dedent_loop 3 3 [4, 0] = .error .out_of_range ∧
    tokenize 18 c14_source = .error .out_of_range :=
  ⟨by decide, by decide,
    (C39_pop_loop_leaves_the_stack c14_source 18 (by decide)).1 3 3 [4, 0] (by decide),
    (C39_pop_loop_leaves_the_stack c14_source 18 (by decide)).2.2.1⟩

/-- The run on that source stops at the read of the last level of an empty stack; with fewer turns
than characters the loop is cut. -/
theorem tokenize_end_examples :
    tokenize 18 c14_source = .error .out_of_range ∧
    tokenize 3 c14_source = .error .out_of_fuel ∧
    tokenize 30 c37_source = .ok c37_tokens := by
  refine ⟨?_, ?_, ?_⟩ <;> decide!

/-! ## C40: the loop over the body of an f-string -/

/-- At a token that is none of FSTRING_END, STRING_LITERAL and FSTRING_EXPR_START, a turn of the
loop of the f-string branch changes nothing, and the loop goes on for ever. -/
theorem fstring_loop_stuck (env : Env) (rec : Parser → Res (Expr × Parser)) (p : Parser)
    (t : Token) (ht : p.tokens[p.pos]? = some t) (h1 : t.type ≠ .FSTRING_END)
    (h2 : t.type ≠ .STRING_LITERAL) (h3 : t.type ≠ .FSTRING_EXPR_START) :
    ∀ (n : Nat) (format : String) (args : List (String × VarType)),
      fstring_loop env rec n format args p = .error .out_of_fuel := by
  intro n
  induction n with
  | zero => intro format args; rfl
  | succ n ih =>
    intro format args
    unfold fstring_loop
    simp only [peek, ht, bind, Except.bind, h1, h2, h3, ne_eq, not_false_eq_true, if_true,
      if_false]
    exact ih format args

/-- C40. On the token vector PRINT, LPAREN, FSTRING_START, RPAREN, NEWLINE, EOF_TOKEN, whose last
token is EOF_TOKEN, `parse_program` does not end, whatever number of turns it is given: the loop
over the body of the f-string meets RPAREN, which it neither consumes nor rejects. -/
theorem C40_fstring_loop_never_ends (env : Env) (fuel : Nat) :
    parse_program env fuel (Parser.init env c40_tokens) = .error .out_of_fuel ∧
    c40_tokens.getLast? = some (tk .EOF_TOKEN "" 2) := by
  refine ⟨?_, by decide⟩
  have hloop : ∀ (rec : Parser → Res (Expr × Parser)) (n : Nat) (p : Parser),
      p.tokens = c40_tokens → p.pos = 3 →
      fstring_loop env rec n "" [] p = .error .out_of_fuel := by
    intro rec n p h1 h2
    exact fstring_loop_stuck env rec p (tk .RPAREN ")" 1) (by rw [h1, h2]; rfl)
      (by decide) (by decide) (by decide) n "" []
  have hexpr : ∀ (k : Nat) (p : Parser), p.tokens = c40_tokens → p.pos = 2 →
      parse_expression env k p = .error .out_of_fuel := by
    intro k p h1 h2
    cases k with
    | zero => rfl
    | succ k =>
      have ht : p.tokens[p.pos]? = some (tk .FSTRING_START "" 1) := by rw [h1, h2]; rfl
      rw [parse_expression_succ]
      have hprim : parse_primary env (parse_expression env k) k p = .error .out_of_fuel := by
        unfold parse_primary
        simp only [peek, ht, bind, Except.bind, tk, reduceCtorEq, if_false, if_true, false_or,
          or_false]
        unfold parse_fstring_expr
        simp only [expect, ht, bind, Except.bind, tk, ne_eq, not_true_eq_false, if_false]
        rw [hloop _ _ _ (by exact h1) (by simp [h2])]
      rw [hprim]
  have hstmt : ∀ (k : Nat) (p : Parser), p.tokens = c40_tokens → p.pos = 0 →
      parse_statement env k p = .error .out_of_fuel := by
    intro k p h1 h2
    cases k with
    | zero => rfl
    | succ k =>
      have ht : p.tokens[p.pos]? = some (tk .PRINT "print" 1) := by rw [h1, h2]; rfl
      unfold parse_statement
      simp only [peek, ht, bind, Except.bind, tk, reduceCtorEq, if_false, if_true]
      unfold parse_print
      have ht1 : p.tokens[p.pos + 1]? = some (tk .LPAREN "(" 1) := by rw [h1, h2]; rfl
      have ht2 : p.tokens[p.pos + 1 + 1]? = some (tk .FSTRING_START "" 1) := by
        rw [h1, h2]; rfl
      simp only [expect, peek, ht, ht1, ht2, bind, Except.bind, tk, ne_eq, not_true_eq_false,
        if_false, reduceCtorEq, not_false_eq_true, if_true]
      rw [hexpr k _ (by exact h1) (by simp [h2])]
  cases fuel with
  | zero => rfl
  | succ k =>
    unfold parse_program block_loop
    have ht : (Parser.init env c40_tokens).tokens[(Parser.init env c40_tokens).pos]? =
        some (tk .PRINT "print" 1) := rfl
    simp only [peek, ht, bind, Except.bind, tk, reduceCtorEq, decide_False, Bool.false_eq_true,
      if_false]
    rw [hstmt (k + 1) _ rfl rfl]

end MiniPy
